import Mathlib

/-!
# JT/T 808 service: codec and frame packing / parsing

A shallow embedding of `src/jt808/service/jt808_service.cc`.

Conventions of the embedding.

* A byte is a `Nat`; a byte array (or the memory a pointer points into) is a
  `List Nat`.  A pointer `p + k` into an array `a` is the pair of `a` and the
  index `k`; a function taking `(uint8_t *src, int len)` takes the list that
  starts at `src`.
* Machine integers are `Nat` with an explicit `% 2 ^ w` where the C++ type
  truncates (`uint8_t`, `uint16_t`, `uint32_t`, the 10-bit `msglen` bit-field).
* The host is little-endian: `memcpy` of a `uint16_t` / `uint32_t` object
  stores the low byte first (`le16`, `le32`).
* Every function that touches memory returns an `Option`; `none` stands for an
  execution that reads or writes outside an array, dereferences a null
  pointer, or does not leave its loop.
-/

namespace Jt808

/-! ## Constants of the protocol header -/

/-- Modelled from the spec: the macro `PROTOCOL_SIGN` of the protocol header, which is
not among the sources; the frame delimiter byte of spec section 3. -/
def PROTOCOL_SIGN : Nat := 0x7E

/-- Modelled from the spec: the macro `PROTOCOL_ESCAPE` of the protocol header, which is
not among the sources; the escape byte of spec section 3. -/
def PROTOCOL_ESCAPE : Nat := 0x7D

/-- Modelled from the spec: the macro `PROTOCOL_ESCAPE_SIGN`; `0x7E` is sent as
`0x7D, 0x02` (spec section 3). -/
def PROTOCOL_ESCAPE_SIGN : Nat := 0x02

/-- Modelled from the spec: the macro `PROTOCOL_ESCAPE_ESCAPE`; `0x7D` is sent as
`0x7D, 0x01` (spec section 3). -/
def PROTOCOL_ESCAPE_ESCAPE : Nat := 0x01

/-! ## Memory -/

/-- Read of `m[p]`. -/
def load (m : List Nat) (p : Nat) : Option Nat := m[p]?

/-- Write `m[p] = x`. -/
def store (m : List Nat) (p x : Nat) : Option (List Nat) :=
  if p < m.length then some (m.set p x) else none

/-- The call `memcpy(dst + p, src, n)`. -/
def memcpy (dst : List Nat) (p : Nat) (src : List Nat) (n : Nat) : Option (List Nat) :=
  if n ≤ src.length ∧ p + n ≤ dst.length then
    some (dst.take p ++ src.take n ++ dst.drop (p + n))
  else none

/-- The bytes of a `uint16_t` object as `memcpy` sees them on the host. -/
def le16 (x : Nat) : List Nat := [x % 256, x / 256 % 256]

/-- The bytes of a `uint32_t` object as `memcpy` sees them on the host. -/
def le32 (x : Nat) : List Nat :=
  [x % 256, x / 256 % 256, x / 65536 % 256, x / 16777216 % 256]

/-- The `uint16_t` object stored at `m[p], m[p+1]`. -/
def rd16 (m : List Nat) (p : Nat) : Option Nat :=
  (load m p).bind fun a => (load m (p + 1)).bind fun b => some (a + 256 * b)

/-- The `uint32_t` object stored at `m[p] .. m[p+3]`. -/
def rd32 (m : List Nat) (p : Nat) : Option Nat :=
  (load m p).bind fun a => (load m (p + 1)).bind fun b =>
  (load m (p + 2)).bind fun c => (load m (p + 3)).bind fun d =>
    some (a + 256 * b + 65536 * c + 16777216 * d)

/-! ## Codec: lines 59-125 -/

/-- `EndianSwap16`, lines 59-62: the argument is a `uint16_t`, the expression is
computed in `int` and the result converted to `uint16_t`. -/
def EndianSwap16 (value : Nat) : Nat :=
  let value := value % 65536
  (((value &&& 0xff) <<< 8) ||| (value >>> 8)) % 65536

/-- `EndianSwap32`, lines 64-70, in `uint32_t` arithmetic. -/
def EndianSwap32 (value : Nat) : Nat :=
  let value := value % 4294967296
  ((value >>> 24) ||| ((value &&& 0x00ff0000) >>> 8) |||
   ((value &&& 0x0000ff00) <<< 8) ||| ((value <<< 24) % 4294967296)) % 4294967296

/-- The loop of `BccCheckSum`, lines 74-76, from index `i` on; `checksum` is a
`uint8_t`. -/
def BccLoop (src : List Nat) (len : Nat) : Nat → Nat → Nat → Option Nat
  | 0, _, _ => none
  | fuel + 1, i, checksum =>
    if i < len then
      (load src i).bind fun c => BccLoop src len fuel (i + 1) ((checksum ^^^ c) % 256)
    else some checksum

/-- `BccCheckSum(src, len)`, lines 72-78.  The loop runs `len` times, so `len + 1`
units of fuel always suffice. -/
def BccCheckSum (src : List Nat) (len : Nat) : Option Nat :=
  BccLoop src len (len + 1) 0 0

/-- The loop of `Escape`, lines 86-96.  `i` and `j` are `uint16_t`; `buffer` is the
temporary array. -/
def EscapeLoop (src : List Nat) (len : Nat) :
    Nat → Nat → Nat → List Nat → Option (List Nat × Nat)
  | 0, _, _, _ => none
  | fuel + 1, i, j, buffer =>
    if i < len then
      (load src i).bind fun c =>
        if c = PROTOCOL_SIGN then
          (store buffer j PROTOCOL_ESCAPE).bind fun b1 =>
          (store b1 ((j + 1) % 65536) PROTOCOL_ESCAPE_SIGN).bind fun b2 =>
            EscapeLoop src len fuel ((i + 1) % 65536) (((j + 1) % 65536 + 1) % 65536) b2
        else if c = PROTOCOL_ESCAPE then
          (store buffer j PROTOCOL_ESCAPE).bind fun b1 =>
          (store b1 ((j + 1) % 65536) PROTOCOL_ESCAPE_ESCAPE).bind fun b2 =>
            EscapeLoop src len fuel ((i + 1) % 65536) (((j + 1) % 65536 + 1) % 65536) b2
        else
          (store buffer j c).bind fun b1 =>
            EscapeLoop src len fuel ((i + 1) % 65536) ((j + 1) % 65536) b1
    else some (buffer, j)

/-- `Escape(src, len)`, lines 80-101: the escaped bytes are built in a temporary
array of `len * 2` zero bytes and copied back over `src`; the result is the array
`src` points into after the call and the returned `j`.  The loop leaves after
`len` rounds when `len` fits `uint16_t` and never otherwise, so `len + 1` units
of fuel decide it. -/
def Escape (src : List Nat) (len : Nat) : Option (List Nat × Nat) :=
  (EscapeLoop src len (len + 1) 0 0 (List.replicate (len * 2) 0)).bind fun r =>
    (memcpy src 0 r.1 r.2).map fun src1 => (src1, r.2)

/-- The loop of `ReverseEscape`, lines 109-120.  `src[i+1]` is read only when
`src[i]` is the escape byte (short-circuit `&&`). -/
def ReverseEscapeLoop (src : List Nat) (len : Nat) :
    Nat → Nat → Nat → List Nat → Option (List Nat × Nat)
  | 0, _, _, _ => none
  | fuel + 1, i, j, buffer =>
    if i < len then
      (load src i).bind fun c =>
        if c = PROTOCOL_ESCAPE then
          (load src (i + 1)).bind fun d =>
            if d = PROTOCOL_ESCAPE_SIGN then
              (store buffer j PROTOCOL_SIGN).bind fun b1 =>
                ReverseEscapeLoop src len fuel (((i + 1) % 65536 + 1) % 65536)
                  ((j + 1) % 65536) b1
            else if d = PROTOCOL_ESCAPE_ESCAPE then
              (store buffer j PROTOCOL_ESCAPE).bind fun b1 =>
                ReverseEscapeLoop src len fuel (((i + 1) % 65536 + 1) % 65536)
                  ((j + 1) % 65536) b1
            else
              (store buffer j c).bind fun b1 =>
                ReverseEscapeLoop src len fuel ((i + 1) % 65536) ((j + 1) % 65536) b1
        else
          (store buffer j c).bind fun b1 =>
            ReverseEscapeLoop src len fuel ((i + 1) % 65536) ((j + 1) % 65536) b1
    else some (buffer, j)

/-- `ReverseEscape(src, len)`, lines 103-125, with a temporary array of `len` zero
bytes.  Every round advances `i`, so a run that leaves the loop does so within
`len` rounds. -/
def ReverseEscape (src : List Nat) (len : Nat) : Option (List Nat × Nat) :=
  (ReverseEscapeLoop src len (len + 1) 0 0 (List.replicate len 0)).bind fun r =>
    (memcpy src 0 r.1 r.2).map fun src1 => (src1, r.2)

/-! ## The codec in the words of the specification -/

/-- Section 4.1 of the specification, `escape`: every `0x7E` becomes `0x7D, 0x02`,
every `0x7D` becomes `0x7D, 0x01`, left to right. -/
def escapeSpec : List Nat → List Nat
  | [] => []
  | b :: bs =>
    (if b = 0x7E then [0x7D, 0x02] else if b = 0x7D then [0x7D, 0x01] else [b]) ++ escapeSpec bs

/-- Section 4.1 of the specification: a `u16` field on the wire, big-endian. -/
def be16 (x : Nat) : List Nat := [x / 256 % 256, x % 256]

/-- Section 4.1 of the specification: a `u32` field on the wire, big-endian. -/
def be32 (x : Nat) : List Nat :=
  [x / 16777216 % 256, x / 65536 % 256, x / 256 % 256, x % 256]

/-- Section 4.1 of the specification, `bcc`: the XOR of all input bytes. -/
def bccSpec (bs : List Nat) : Nat := bs.foldl (fun c b => c ^^^ b) 0

/-- Section 4.1 of the specification, `encode_frame`: concatenate header and body, append
the checksum of both, apply `escape`, prepend and append `0x7E`. -/
def encode_frame (header body : List Nat) : List Nat :=
  [0x7E] ++ escapeSpec (header ++ body ++ [bccSpec (header ++ body)]) ++ [0x7E]

/-- Section 3 of the specification, the 12-byte header of an unfragmented message:
`message_id`, `body_attribute`, `phone_number`, `flow_number`, numeric fields
big-endian. -/
def headerSpec (message_id body_attribute : Nat) (phone_number : List Nat)
    (flow_number : Nat) : List Nat :=
  be16 message_id ++ be16 body_attribute ++ phone_number ++ be16 flow_number

/-- Section 3 of the specification, the header of a fragmented message: the 12-byte
header followed by `total_packets` and `packet_index`. -/
def headerFragSpec (message_id body_attribute : Nat) (phone_number : List Nat)
    (flow_number total_packets packet_index : Nat) : List Nat :=
  headerSpec message_id body_attribute phone_number flow_number
    ++ be16 total_packets ++ be16 packet_index

/-- The loop of `ReverseEscape` as a function of the bytes from `src + i` on and of
the number `n` of rounds the index `i` is still away from `len`: the list of the
bytes the loop appends to the temporary array. -/
def unescapeList : Nat → List Nat → Option (List Nat)
  | 0, _ => some []
  | _ + 1, [] => none
  | n + 1, c :: rest =>
    if c = 0x7D then
      match rest with
      | [] => none
      | d :: rest1 =>
        if d = 0x02 then (unescapeList (n - 1) rest1).map fun out => 0x7E :: out
        else if d = 0x01 then (unescapeList (n - 1) rest1).map fun out => 0x7D :: out
        else (unescapeList n (d :: rest1)).map fun out => c :: out
    else (unescapeList n rest).map fun out => c :: out

/-- The loop of `BccCheckSum` as a fold over the bytes read. -/
def bccList (bs : List Nat) : Nat := bs.foldl (fun c b => (c ^^^ b) % 256) 0

/-! ## Data model of the protocol header

The header `jt808_protocol.h` with the message ids, the result codes and the
structure declarations is not among the sources.  The declarations below carry the
fields the source file uses, with the widths the source file uses them at. -/

/-- Modelled from the spec: downlink message id of section 3, unified response. -/
def DOWN_UNIRESPONSE : Nat := 0x8001
/-- Modelled from the spec: downlink message id of section 3, register response. -/
def DOWN_REGISTERRESPONSE : Nat := 0x8100
/-- Modelled from the spec: downlink message id of section 3, set terminal parameter. -/
def DOWN_SETTERMPARA : Nat := 0x8103
/-- Modelled from the spec: downlink message id of section 3, get all terminal
parameters. -/
def DOWN_GETTERMPARA : Nat := 0x8104
/-- Modelled from the spec: downlink message id of section 3, get specific terminal
parameters. -/
def DOWN_GETSPECTERMPARA : Nat := 0x8106
/-- Modelled from the spec: downlink message id of section 3, firmware-upgrade package. -/
def DOWN_UPDATEPACKAGE : Nat := 0x8108
/-- Modelled from the spec: downlink message id of section 3, set circular area. -/
def DOWN_SETCIRCULARAREA : Nat := 0x8600
/-- Modelled from the spec: downlink message id of section 3, delete circular area. -/
def DOWN_DELCIRCULARAREA : Nat := 0x8601
/-- Modelled from the spec: downlink message id of section 3, set rectangle area. -/
def DOWN_SETRECTANGLEAREA : Nat := 0x8602
/-- Modelled from the spec: downlink message id of section 3, delete rectangle area. -/
def DOWN_DELRECTANGLEAREA : Nat := 0x8603
/-- Modelled from the spec: downlink message id of section 3, set polygon area. -/
def DOWN_SETPOLYGONALAREA : Nat := 0x8604
/-- Modelled from the spec: downlink message id of section 3, delete polygon area. -/
def DOWN_DELPOLYGONALAREA : Nat := 0x8605
/-- Modelled from the spec: downlink message id of section 3, downlink passthrough. -/
def DOWN_PASSTHROUGH : Nat := 0x8900

/-- Modelled from the spec: uplink message id of section 3, unified response. -/
def UP_UNIRESPONSE : Nat := 0x0001
/-- Modelled from the spec: uplink message id of section 3, register. -/
def UP_REGISTER : Nat := 0x0100
/-- Modelled from the spec: uplink message id of section 3, authentication. -/
def UP_AUTHENTICATION : Nat := 0x0102
/-- Modelled from the spec: uplink message id of section 3, get-parameter response. -/
def UP_GETPARARESPONSE : Nat := 0x0104
/-- Modelled from the spec: uplink message id of section 3, upgrade result. -/
def UP_UPDATERESULT : Nat := 0x0108
/-- Modelled from the spec: uplink message id of section 3, position report. -/
def UP_POSITIONREPORT : Nat := 0x0200
/-- Modelled from the spec: uplink message id of section 3, CAN-bus data. -/
def UP_CANBUSDATAUPLOAD : Nat := 0x0705
/-- Modelled from the spec: uplink message id of section 3, uplink passthrough. -/
def UP_PASSTHROUGH : Nat := 0x0900

/-- Modelled from the spec: result code `success` of section 3; the enumeration is in
the missing header, the values are those of the JT/T 808 unified response. -/
def kSuccess : Nat := 0
/-- Modelled from the spec: result code `failure` of section 3. -/
def kFailure : Nat := 1
/-- Modelled from the spec: result code `message_has_wrong` of section 3. -/
def kMessageHasWrong : Nat := 2
/-- Modelled from the spec: result code `not_support` of section 3. -/
def kNotSupport : Nat := 3
/-- Modelled from the spec: register result `register_success` of section 3; the
values of the register results are those of the JT/T 808 register response.  The
source compares the register result with `kSuccess` (line 455), so both are the
same number. -/
def kRegisterSuccess : Nat := 0
/-- Modelled from the spec: register result `no_such_vehicle` of section 3. -/
def kNoSuchVehicleInTheDatabase : Nat := 2
/-- Modelled from the spec: register result `terminal_already_registered` of section 3. -/
def kTerminalHaveBeenRegistered : Nat := 3
/-- Modelled from the spec: register result `no_such_terminal` of section 3. -/
def kNoSuchTerminalInTheDatabase : Nat := 4

/-- Modelled from the spec: index in `msg.buffer` of the body of an unfragmented
message, after the delimiter and the 12-byte header of section 3. -/
def MSGBODY_NOPACKAGE_POS : Nat := 13
/-- Modelled from the spec: index in `msg.buffer` of the body of a fragmented message,
after the two fragmentation words of section 3. -/
def MSGBODY_PACKAGE_POS : Nat := 17

/-- Modelled from the spec: parameter type `unknown` of section 3 (the enumeration is
in the missing header). -/
def kUnknowType : Nat := 0
/-- Modelled from the spec: parameter type `byte` of section 3. -/
def kByteType : Nat := 1
/-- Modelled from the spec: parameter type `word` of section 3. -/
def kWordType : Nat := 2
/-- Modelled from the spec: parameter type `dword` of section 3. -/
def kDwordType : Nat := 3
/-- Modelled from the spec: parameter type `string` of section 3. -/
def kStringType : Nat := 4

/-- Modelled from the spec: `MessageData` of the missing header, a frame buffer of
`MAX_PROFRAMEBUF_LEN` bytes (the length of `buffer`) and the count `len`. -/
structure MessageData where
  buffer : List Nat
  len : Nat
deriving DecidableEq

/-- Modelled from the spec: `TerminalParameter` of the missing header, the terminal
parameter tuple of section 3; `parameter_value` is the whole value array. -/
structure TerminalParameter where
  parameter_id : Nat
  parameter_type : Nat
  parameter_len : Nat
  parameter_value : List Nat
deriving DecidableEq

/-- Modelled from the spec: `Coordinate` of the missing header, latitude and longitude
as `uint32_t` in units of 1e-6 degree (section 3). -/
structure Coordinate where
  latitude : Nat
  longitude : Nat
deriving DecidableEq

/-- Modelled from the spec: `CircularArea` of the missing header (section 3);
`area_attribute` is the 16-bit value of the attribute union. -/
structure CircularArea where
  area_id : Nat
  area_attribute : Nat
  center_point : Coordinate
  radius : Nat
  start_time : List Nat
  end_time : List Nat
  max_speed : Nat
  overspeed_duration : Nat
deriving DecidableEq

/-- Modelled from the spec: `RectangleArea` of the missing header (section 3). -/
structure RectangleArea where
  area_id : Nat
  area_attribute : Nat
  upper_left_corner : Coordinate
  bottom_right_corner : Coordinate
  start_time : List Nat
  end_time : List Nat
  max_speed : Nat
  overspeed_duration : Nat
deriving DecidableEq

/-- Modelled from the spec: `PolygonalArea` of the missing header (section 3);
`coordinate_list` is the vector the pointer of that name points to. -/
structure PolygonalArea where
  area_id : Nat
  area_attribute : Nat
  start_time : List Nat
  end_time : List Nat
  max_speed : Nat
  overspeed_duration : Nat
  coordinate_count : Nat
  coordinate_list : Option (List Coordinate)
deriving DecidableEq

/-- Modelled from the spec: `PassThrough` of the missing header, the passthrough
payload of section 3. -/
structure PassThrough where
  type : Nat
  size : Nat
  buffer : List Nat
deriving DecidableEq

/-- Modelled from the spec: `CanBusDataItem` of the missing header (section 4.2). -/
structure CanBusDataItem where
  can_id : Nat
  buffer : List Nat
deriving DecidableEq

/-- Modelled from the spec: the CAN-bus timestamp of the envelope (section 4.2). -/
structure CanBusDataTimestamp where
  hour : Nat
  minute : Nat
  second : Nat
  millisecond : Nat
deriving DecidableEq

/-- A pointer that the source file frees without resetting it (lines 1230 and 292-305):
null, pointing to a live object, or dangling. -/
inductive Ptr (α : Type) where
  | null : Ptr α
  | valid (a : α) : Ptr α
  | freed : Ptr α
deriving DecidableEq

/-- Modelled from the spec: `ProtocolParameters` of the missing header, the protocol
parameters envelope of section 3.  A pointer member is an `Option` (`none` is the null
pointer) of what it points to; an array member is the list of its bytes. -/
structure ProtocolParameters where
  respond_result : Nat
  respond_id : Nat
  respond_flow_num : Nat
  phone_num : List Nat
  authen_code : List Nat
  manufacturer_id : List Nat
  packet_total_num : Nat
  packet_sequence_num : Nat
  upgrade_type : Nat
  version_num_len : Nat
  version_num : List Nat
  packet_data_len : Nat
  packet_data : List Nat
  terminal_parameter_id_count : Nat
  terminal_parameter_id_buffer : Option (List Nat)
  terminal_parameter_list : Option (List TerminalParameter)
  set_area_type : Nat
  area_route_id_count : Nat
  area_route_id_buffer : Option (List Nat)
  circular_area_list : Option (List CircularArea)
  rectangle_area_list : Option (List RectangleArea)
  polygonal_area_list : Option (List PolygonalArea)
  pass_through : Option PassThrough
  can_bus_data_timestamp : CanBusDataTimestamp
  can_bus_data_item_list : Ptr (List CanBusDataItem)
deriving DecidableEq

/-- Modelled from the spec: `DeviceNode` of the missing header, the terminal record of
section 3; `phone_num` is the digit string without its terminating NUL, `socket_fd`
is `-1` when the terminal has no live socket. -/
structure DeviceNode where
  phone_num : List Nat
  authen_code : List Nat
  manufacturer_id : List Nat
  socket_fd : Int
  has_upgrade : Bool
  upgrade_type : Nat
  upgrade_version : List Nat
  file_path : List Nat
deriving DecidableEq

/-! ## BCD codec of `bcd/bcd.h` -/

/-- Modelled from the spec: `HexFromBcd` of the BCD codec, which is not among the
sources; the number a packed BCD byte stands for (glossary, BCD), as a `uint8_t`. -/
def HexFromBcd (b : Nat) : Nat := ((b % 256) / 16 * 10 + (b % 256) % 16) % 256

/-- Modelled from the spec: the packed BCD bytes of an even number of ASCII digits, two
digits per byte (glossary, BCD). -/
def bcdPairs : List Nat → List Nat
  | hi :: lo :: rest => (((hi - 48) % 16) * 16 + (lo - 48) % 16) :: bcdPairs rest
  | _ => []

/-- Modelled from the spec: `BcdFromStringCompress` of the BCD codec, which is not among
the sources: the packed BCD bytes of a digit string, with a leading zero digit when the
number of digits is odd (section 3, header, `phone_number`). -/
def BcdFromStringCompress (src : List Nat) : List Nat :=
  if src.length % 2 = 1 then bcdPairs (48 :: src) else bcdPairs src

/-- Modelled from the spec: `StringFromBcdCompress` of the BCD codec, which is not among
the sources: the ASCII digits of packed BCD bytes, two per byte. -/
def StringFromBcdCompress (src : List Nat) : List Nat :=
  src.flatMap fun b => [48 + (b % 256) / 16, 48 + (b % 256) % 16]

/-! ## Message body attribute and area attribute bit-fields -/

/-- Modelled from the spec: the bit-field `msglen` of `MessageBodyAttr`, the low 10 bits
of the body attribute (section 3). -/
def attrMsglen (val : Nat) : Nat := val % 1024

/-- Modelled from the spec: the bit-field `package` of `MessageBodyAttr`, the
`is_fragmented` bit that follows the 10 bits of `msg_len` and the 3 bits of `encrypt`
(section 3). -/
def attrPackage (val : Nat) : Nat := val / 8192 % 2

/-- Assignment `attribute.bit.msglen = x` on the 16-bit value `val`: the other bits stay. -/
def attrSetMsglen (val x : Nat) : Nat := val / 1024 * 1024 + x % 1024

/-- Assignment `attribute.bit.encrypt = x` on the 16-bit value `val` (3 bits above
`msglen`). -/
def attrSetEncrypt (val x : Nat) : Nat :=
  val / 8192 * 8192 + x % 8 * 1024 + val % 1024

/-- Assignment `attribute.bit.package = x` on the 16-bit value `val`. -/
def attrSetPackage (val x : Nat) : Nat :=
  val / 16384 * 16384 + x % 2 * 8192 + val % 8192

/-- Modelled from the spec: the bit `bytime` of the area attribute union of the missing
header; bit 0 of the attribute word, as in the JT/T 808 area attribute table. -/
def areaBytime (value : Nat) : Bool := value % 2 = 1

/-- Modelled from the spec: the bit `speedlimit` of the area attribute union of the
missing header; bit 1 of the attribute word, as in the JT/T 808 area attribute table. -/
def areaSpeedlimit (value : Nat) : Bool := value / 2 % 2 = 1

/-! ## Parameter registry, lines 191-238

The parameter ids are macros of the missing header. -/

/-- Modelled from the spec: parameter id macro of the missing header; the spec gives no
number for it, the value is the one of the JT/T 808 terminal parameter table. -/
def HEARTBEATINTERVAL : Nat := 0x0001
/-- Modelled from the spec: parameter id macro of the missing header; the spec gives no
number for it, the value is the one of the JT/T 808 terminal parameter table. -/
def TCPRESPONDTIMEOUT : Nat := 0x0002
/-- Modelled from the spec: parameter id macro of the missing header; the spec gives no
number for it, the value is the one of the JT/T 808 terminal parameter table. -/
def TCPMSGRETRANSTIMES : Nat := 0x0003
/-- Modelled from the spec: parameter id macro of the missing header; the spec gives no
number for it, the value is the one of the JT/T 808 terminal parameter table. -/
def UDPRESPONDTIMEOUT : Nat := 0x0004
/-- Modelled from the spec: parameter id macro of the missing header; the spec gives no
number for it, the value is the one of the JT/T 808 terminal parameter table. -/
def UDPMSGRETRANSTIMES : Nat := 0x0005
/-- Modelled from the spec: parameter id macro of the missing header; the spec gives no
number for it, the value is the one of the JT/T 808 terminal parameter table. -/
def SMSRESPONDTIMEOUT : Nat := 0x0006
/-- Modelled from the spec: parameter id macro of the missing header; the spec gives no
number for it, the value is the one of the JT/T 808 terminal parameter table. -/
def SMSMSGRETRANSTIMES : Nat := 0x0007
/-- Modelled from the spec: parameter id macro of the missing header; the spec gives no
number for it, the value is the one of the JT/T 808 terminal parameter table. -/
def POSITIONREPORTWAY : Nat := 0x0020
/-- Modelled from the spec: parameter id macro of the missing header; the spec gives no
number for it, the value is the one of the JT/T 808 terminal parameter table. -/
def POSITIONREPORTPLAN : Nat := 0x0021
/-- Modelled from the spec: parameter id macro of the missing header; the spec gives no
number for it, the value is the one of the JT/T 808 terminal parameter table. -/
def NOTLOGINREPORTTIMEINTERVAL : Nat := 0x0022
/-- Modelled from the spec: parameter id macro of the missing header; the spec gives no
number for it, the value is the one of the JT/T 808 terminal parameter table. -/
def SLEEPREPORTTIMEINTERVAL : Nat := 0x0027
/-- Modelled from the spec: parameter id macro of the missing header; the spec gives no
number for it, the value is the one of the JT/T 808 terminal parameter table. -/
def ALARMREPORTTIMEINTERVAL : Nat := 0x0028
/-- Modelled from the spec: parameter id macro of the missing header; the spec gives no
number for it, the value is the one of the JT/T 808 terminal parameter table. -/
def DEFTIMEREPORTTIMEINTERVAL : Nat := 0x0029
/-- Modelled from the spec: parameter id macro of the missing header; the spec gives no
number for it, the value is the one of the JT/T 808 terminal parameter table. -/
def NOTLOGINREPORTDISTANCEINTERVAL : Nat := 0x002C
/-- Modelled from the spec: parameter id macro of the missing header; the spec gives no
number for it, the value is the one of the JT/T 808 terminal parameter table. -/
def SLEEPREPORTDISTANCEINTERVAL : Nat := 0x002D
/-- Modelled from the spec: parameter id macro of the missing header; the spec gives no
number for it, the value is the one of the JT/T 808 terminal parameter table. -/
def ALARMREPORTDISTANCEINTERVAL : Nat := 0x002E
/-- Modelled from the spec: parameter id macro of the missing header; the spec gives no
number for it, the value is the one of the JT/T 808 terminal parameter table. -/
def DEFTIMEREPORTDISTANCEINTERVAL : Nat := 0x002F
/-- Modelled from the spec: parameter id macro of the missing header; the spec gives no
number for it, the value is the one of the JT/T 808 terminal parameter table. -/
def INFLECTIONPOINTRETRANSANGLE : Nat := 0x0030
/-- Modelled from the spec: parameter id macro of the missing header; the spec gives no
number for it, the value is the one of the JT/T 808 terminal parameter table. -/
def ALARMSHIELDWORD : Nat := 0x0050
/-- Modelled from the spec: parameter id macro of the missing header; the spec gives no
number for it, the value is the one of the JT/T 808 terminal parameter table. -/
def ALARMSENDTXT : Nat := 0x0051
/-- Modelled from the spec: parameter id macro of the missing header; the spec gives no
number for it, the value is the one of the JT/T 808 terminal parameter table. -/
def ALARMSHOOTSWITCH : Nat := 0x0052
/-- Modelled from the spec: parameter id macro of the missing header; the spec gives no
number for it, the value is the one of the JT/T 808 terminal parameter table. -/
def ALARMSHOOTSAVEFLAGS : Nat := 0x0053
/-- Modelled from the spec: parameter id macro of the missing header; the spec gives no
number for it, the value is the one of the JT/T 808 terminal parameter table. -/
def ALARMKEYFLAGS : Nat := 0x0054
/-- Modelled from the spec: parameter id macro of the missing header; the spec gives no
number for it, the value is the one of the JT/T 808 terminal parameter table. -/
def MAXSPEED : Nat := 0x0055
/-- Modelled from the spec: parameter id macro of the missing header; the spec gives no
number for it, the value is the one of the JT/T 808 terminal parameter table. -/
def GNSSPOSITIONMODE : Nat := 0x0090
/-- Modelled from the spec: parameter id macro of the missing header; the spec gives no
number for it, the value is the one of the JT/T 808 terminal parameter table. -/
def GNSSBAUDERATE : Nat := 0x0091
/-- Modelled from the spec: parameter id macro of the missing header; the spec gives no
number for it, the value is the one of the JT/T 808 terminal parameter table. -/
def GNSSOUTPUTFREQ : Nat := 0x0092
/-- Modelled from the spec: parameter id macro of the missing header; the spec gives no
number for it, the value is the one of the JT/T 808 terminal parameter table. -/
def GNSSOUTPUTCOLLECTFREQ : Nat := 0x0093
/-- Modelled from the spec: parameter id macro of the missing header; the spec gives no
number for it, the value is the one of the JT/T 808 terminal parameter table. -/
def GNSSUPLOADWAY : Nat := 0x0094
/-- Modelled from the spec: parameter id macro of the missing header; the spec gives no
number for it, the value is the one of the JT/T 808 terminal parameter table. -/
def GNSSUPLOADSET : Nat := 0x0095
/-- Modelled from the spec: parameter id macro of the missing header; the spec gives no
number for it, the value is the one of the JT/T 808 terminal parameter table. -/
def CAN1COLLECTINTERVAL : Nat := 0x0100
/-- Modelled from the spec: parameter id macro of the missing header; the spec gives no
number for it, the value is the one of the JT/T 808 terminal parameter table. -/
def CAN1UPLOADINTERVAL : Nat := 0x0101
/-- Modelled from the spec: parameter id macro of the missing header; the spec gives no
number for it, the value is the one of the JT/T 808 terminal parameter table. -/
def CAN2COLLECTINTERVAL : Nat := 0x0102
/-- Modelled from the spec: parameter id macro of the missing header; the spec gives no
number for it, the value is the one of the JT/T 808 terminal parameter table. -/
def CAN2UPLOADINTERVAL : Nat := 0x0103
/-- Modelled from the spec: parameter id macro of the missing header; the spec gives no
number for it, the value is the one of the JT/T 808 terminal parameter table. -/
def CANSPECIALSET : Nat := 0x0110
/-- Modelled from the spec: parameter id macro of the missing header, numbered by the
profile table of section 4.7. -/
def STARTUPGPS : Nat := 0xF000
/-- Modelled from the spec: parameter id macro of the missing header, numbered by the
profile table of section 4.7. -/
def STARTUPCDRADIO : Nat := 0xF001
/-- Modelled from the spec: parameter id macro of the missing header, numbered by the
profile table of section 4.7. -/
def STARTUPNTRIPCORS : Nat := 0xF002
/-- Modelled from the spec: parameter id macro of the missing header, numbered by the
profile table of section 4.7. -/
def STARTUPNTRIPSERV : Nat := 0xF003
/-- Modelled from the spec: parameter id macro of the missing header, numbered by the
profile table of section 4.7. -/
def STARTUPJT808SERV : Nat := 0xF004
/-- Modelled from the spec: parameter id macro of the missing header, numbered by the
profile table of section 4.7. -/
def GPSLOGGGA : Nat := 0xF010
/-- Modelled from the spec: parameter id macro of the missing header, numbered by the
profile table of section 4.7. -/
def GPSLOGRMC : Nat := 0xF011
/-- Modelled from the spec: parameter id macro of the missing header, numbered by the
profile table of section 4.7. -/
def GPSLOGATT : Nat := 0xF012
/-- Modelled from the spec: parameter id macro of the missing header, numbered by the
profile table of section 4.7. -/
def CDRADIOBAUDERATE : Nat := 0xF020
/-- Modelled from the spec: parameter id macro of the missing header, numbered by the
profile table of section 4.7. -/
def CDRADIOWORKINGFREQ : Nat := 0xF021
/-- Modelled from the spec: parameter id macro of the missing header, numbered by the
profile table of section 4.7. -/
def CDRADIORECEIVEMODE : Nat := 0xF022
/-- Modelled from the spec: parameter id macro of the missing header, numbered by the
profile table of section 4.7. -/
def CDRADIOFORMCODE : Nat := 0xF023
/-- Modelled from the spec: parameter id macro of the missing header, numbered by the
profile table of section 4.7. -/
def NTRIPCORSIP : Nat := 0xF030
/-- Modelled from the spec: parameter id macro of the missing header, numbered by the
profile table of section 4.7. -/
def NTRIPCORSPORT : Nat := 0xF031
/-- Modelled from the spec: parameter id macro of the missing header, numbered by the
profile table of section 4.7. -/
def NTRIPCORSUSERNAME : Nat := 0xF032
/-- Modelled from the spec: parameter id macro of the missing header, numbered by the
profile table of section 4.7. -/
def NTRIPCORSPASSWD : Nat := 0xF033
/-- Modelled from the spec: parameter id macro of the missing header, numbered by the
profile table of section 4.7. -/
def NTRIPCORSMOUNTPOINT : Nat := 0xF034
/-- Modelled from the spec: parameter id macro of the missing header, numbered by the
profile table of section 4.7. -/
def NTRIPCORSREPORTINTERVAL : Nat := 0xF035
/-- Modelled from the spec: parameter id macro of the missing header, numbered by the
profile table of section 4.7. -/
def NTRIPSERVICEIP : Nat := 0xF040
/-- Modelled from the spec: parameter id macro of the missing header, numbered by the
profile table of section 4.7. -/
def NTRIPSERVICEPORT : Nat := 0xF041
/-- Modelled from the spec: parameter id macro of the missing header, numbered by the
profile table of section 4.7. -/
def NTRIPSERVICEUSERNAME : Nat := 0xF042
/-- Modelled from the spec: parameter id macro of the missing header, numbered by the
profile table of section 4.7. -/
def NTRIPSERVICEPASSWD : Nat := 0xF043
/-- Modelled from the spec: parameter id macro of the missing header, numbered by the
profile table of section 4.7. -/
def NTRIPSERVICEMOUNTPOINT : Nat := 0xF044
/-- Modelled from the spec: parameter id macro of the missing header, numbered by the
profile table of section 4.7. -/
def NTRIPSERVICEREPORTINTERVAL : Nat := 0xF045
/-- Modelled from the spec: parameter id macro of the missing header, numbered by the
profile table of section 4.7. -/
def JT808SERVICEIP : Nat := 0xF050
/-- Modelled from the spec: parameter id macro of the missing header, numbered by the
profile table of section 4.7. -/
def JT808SERVICEPORT : Nat := 0xF051
/-- Modelled from the spec: parameter id macro of the missing header, numbered by the
profile table of section 4.7. -/
def JT808SERVICEPHONENUM : Nat := 0xF052
/-- Modelled from the spec: parameter id macro of the missing header, numbered by the
profile table of section 4.7. -/
def JT808SERVICEREPORTINTERVAL : Nat := 0xF053

/-- The case labels of line 193-198 (`kByteType`). -/
def byteTypeIds : List Nat :=
    [GNSSPOSITIONMODE, GNSSBAUDERATE, GNSSOUTPUTFREQ, GNSSUPLOADWAY, STARTUPGPS,
     STARTUPCDRADIO, STARTUPNTRIPCORS, STARTUPNTRIPSERV, STARTUPJT808SERV, GPSLOGGGA,
     GPSLOGRMC, GPSLOGATT, CDRADIORECEIVEMODE, CDRADIOFORMCODE, NTRIPCORSREPORTINTERVAL,
     NTRIPSERVICEREPORTINTERVAL, JT808SERVICEREPORTINTERVAL]

/-- The case labels of line 200-201 (`kWordType`). -/
def wordTypeIds : List Nat :=
    [CAN1UPLOADINTERVAL, CAN2UPLOADINTERVAL, CDRADIOWORKINGFREQ, NTRIPCORSPORT,
     NTRIPSERVICEPORT, JT808SERVICEPORT]

/-- The case labels of line 203-213 (`kDwordType`). -/
def dwordTypeIds : List Nat :=
    [HEARTBEATINTERVAL, TCPRESPONDTIMEOUT, TCPMSGRETRANSTIMES, UDPRESPONDTIMEOUT,
     UDPMSGRETRANSTIMES, SMSRESPONDTIMEOUT, SMSMSGRETRANSTIMES, POSITIONREPORTWAY,
     POSITIONREPORTPLAN, NOTLOGINREPORTTIMEINTERVAL, SLEEPREPORTTIMEINTERVAL,
     ALARMREPORTTIMEINTERVAL, DEFTIMEREPORTTIMEINTERVAL, NOTLOGINREPORTDISTANCEINTERVAL,
     SLEEPREPORTDISTANCEINTERVAL, ALARMREPORTDISTANCEINTERVAL,
     DEFTIMEREPORTDISTANCEINTERVAL, INFLECTIONPOINTRETRANSANGLE, ALARMSHIELDWORD,
     ALARMSENDTXT, ALARMSHOOTSWITCH, ALARMSHOOTSAVEFLAGS, ALARMKEYFLAGS, MAXSPEED,
     GNSSOUTPUTCOLLECTFREQ, GNSSUPLOADSET, CAN1COLLECTINTERVAL, CAN2COLLECTINTERVAL,
     CDRADIOBAUDERATE]

/-- The case labels of line 215-218 (`kStringType`). -/
def stringTypeIds : List Nat :=
    [CANSPECIALSET, NTRIPCORSIP, NTRIPCORSUSERNAME, NTRIPCORSPASSWD, NTRIPCORSMOUNTPOINT,
     NTRIPSERVICEIP, NTRIPSERVICEUSERNAME, NTRIPSERVICEPASSWD, NTRIPSERVICEMOUNTPOINT,
     JT808SERVICEIP, JT808SERVICEPHONENUM]

/-- `GetParameterTypeByParameterId`, lines 191-223; the argument is a `uint32_t`. -/
def GetParameterTypeByParameterId (para_id : Nat) : Nat :=
  let para_id := para_id % 4294967296
  if para_id ∈ byteTypeIds then kByteType
  else if para_id ∈ wordTypeIds then kWordType
  else if para_id ∈ dwordTypeIds then kDwordType
  else if para_id ∈ stringTypeIds then kStringType
  else kUnknowType

/-- `GetParameterLengthByParameterType`, lines 225-238; the argument is a `uint8_t`. -/
def GetParameterLengthByParameterType (para_type : Nat) : Nat :=
  let para_type := para_type % 256
  if para_type = kByteType then 1
  else if para_type = kWordType then 2
  else if para_type = kDwordType then 4
  else 0

/-! ## `Jt808FramePack`, lines 620-976 -/

/-- The variables of `Jt808FramePack`: the frame buffer `msg.buffer`, the count
`msg.len`, and the pointer `msg_body` as an index into `msg.buffer`.  The header
`*msghead_ptr` is the bytes 1..12 of `buffer`: `id` at 1, `attribute` at 3, `phone`
at 5, `msgflownum` at 11. -/
structure PackState where
  buffer : List Nat
  len : Nat
  msg_body : Nat
deriving DecidableEq

namespace PackState

/-- Assignment `memcpy(msg_body, src, n)`. -/
def copy (s : PackState) (src : List Nat) (n : Nat) : Option PackState :=
  (memcpy s.buffer s.msg_body src n).map fun b => { s with buffer := b }

/-- Assignment `*msg_body = x` of a `uint8_t`. -/
def poke (s : PackState) (x : Nat) : Option PackState :=
  (store s.buffer s.msg_body (x % 256)).map fun b => { s with buffer := b }

/-- Statement `msg_body += n`. -/
def adv (s : PackState) (n : Nat) : PackState := { s with msg_body := s.msg_body + n }

/-- Statement `msg.len += n`. -/
def addLen (s : PackState) (n : Nat) : PackState := { s with len := s.len + n }

/-- Statement `msghead_ptr->attribute.bit.msglen = x`. -/
def setMsglen (s : PackState) (x : Nat) : Option PackState :=
  (rd16 s.buffer 3).bind fun val =>
    (memcpy s.buffer 3 (le16 (attrSetMsglen val x)) 2).map fun b => { s with buffer := b }

/-- Statement `msghead_ptr->attribute.bit.msglen += x`. -/
def addMsglen (s : PackState) (x : Nat) : Option PackState :=
  (rd16 s.buffer 3).bind fun val =>
    (memcpy s.buffer 3 (le16 (attrSetMsglen val (attrMsglen val + x))) 2).map fun b =>
      { s with buffer := b }

/-- Statement `msghead_ptr->attribute.bit.package = x`. -/
def setPackage (s : PackState) (x : Nat) : Option PackState :=
  (rd16 s.buffer 3).bind fun val =>
    (memcpy s.buffer 3 (le16 (attrSetPackage val x)) 2).map fun b => { s with buffer := b }

/-- Statement `msghead_ptr->attribute.bit.encrypt = x`. -/
def setEncrypt (s : PackState) (x : Nat) : Option PackState :=
  (rd16 s.buffer 3).bind fun val =>
    (memcpy s.buffer 3 (le16 (attrSetEncrypt val x)) 2).map fun b => { s with buffer := b }

/-- The three statements `u16val = EndianSwap16(x); memcpy(msg_body, &u16val, 2);
msg_body += 2`. -/
def put16 (s : PackState) (x : Nat) : Option PackState :=
  (s.copy (le16 (EndianSwap16 x)) 2).map fun s1 => s1.adv 2

/-- The three statements `u32val = EndianSwap32(x); memcpy(msg_body, &u32val, 4);
msg_body += 4`. -/
def put32 (s : PackState) (x : Nat) : Option PackState :=
  (s.copy (le32 (EndianSwap32 x)) 4).map fun s1 => s1.adv 4

/-- The two statements `*msg_body = x; msg_body++`. -/
def put8 (s : PackState) (x : Nat) : Option PackState :=
  (s.poke x).map fun s1 => s1.adv 1

/-- The two statements `memcpy(msg_body, src, n); msg_body += n`. -/
def putBytes (s : PackState) (src : List Nat) (n : Nat) : Option PackState :=
  (s.copy src n).map fun s1 => s1.adv n

end PackState

/-- The frame buffer while a message is packed: three bytes `hd3` (the delimiter slot and
the message id), the attribute word `a` in host order, the bytes `mid` written behind
it so far, and the bytes `rest` from `msg_body` on. -/
def packBuf (hd3 : List Nat) (a : Nat) (mid rest : List Nat) : List Nat :=
  hd3 ++ le16 a ++ mid ++ rest

/-- A loop that runs `step` for every element of a list in turn: the shape of the loops
of lines 686-715, 778-817, 829-873, 885-930 and 916-927. -/
def packLoop {α : Type} (step : α → PackState → Option PackState) :
    List α → PackState → Option PackState
  | [], s => some s
  | x :: rest, s => (step x s).bind fun s1 => packLoop step rest s1

/-- Lines 670-678 and 739-747: the fragmentation words of a fragmented message. -/
def packFragment (propara : ProtocolParameters) (s : PackState) : Option PackState :=
  if propara.packet_total_num % 65536 > 1 then do
    let s ← s.setPackage 1
    let b ← memcpy s.buffer 13 (le16 (EndianSwap16 propara.packet_total_num)) 2
    let b ← memcpy b 15 (le16 (EndianSwap16 propara.packet_sequence_num)) 2
    pure (({ s with buffer := b }.adv 4).addLen 4)
  else pure s

/-- `case DOWN_UNIRESPONSE`, lines 640-651. -/
def packUniResponse (propara : ProtocolParameters) (s : PackState) : Option PackState := do
  let s ← s.put16 propara.respond_flow_num
  let s ← s.put16 propara.respond_id
  let s ← s.put8 propara.respond_result
  (s.addLen 5).setMsglen 5

/-- `case DOWN_REGISTERRESPONSE`, lines 652-668. -/
def packRegisterResponse (propara : ProtocolParameters) (s : PackState) :
    Option PackState := do
  let s ← s.put16 propara.respond_flow_num
  let s ← s.put8 propara.respond_result
  if propara.respond_result % 256 = kSuccess then
    let s ← s.putBytes propara.authen_code 4
    let s ← s.setMsglen 7
    pure (s.addLen 7)
  else
    let s ← s.setMsglen 3
    pure (s.addLen 3)

/-- The `switch` of lines 692-710 on the type of the parameter `p`: the value is copied
to `msg_body`, which is not moved. -/
def packTermParaValue (p : TerminalParameter) (s : PackState) : Option PackState :=
  let ty := GetParameterTypeByParameterId p.parameter_id
  if ty = kWordType then
    (rd16 p.parameter_value 0).bind fun u16val => s.copy (le16 (EndianSwap16 u16val)) 2
  else if ty = kDwordType then
    (rd32 p.parameter_value 0).bind fun u32val => s.copy (le32 (EndianSwap32 u32val)) 4
  else if ty = kByteType ∨ ty = kStringType then
    s.copy p.parameter_value p.parameter_len
  else some s

/-- The body of the loop of lines 686-715 for the list node `p`. -/
def packTermParaNode (p : TerminalParameter) (s : PackState) : Option PackState := do
  let s ← s.put32 p.parameter_id
  let s ← s.put8 p.parameter_len
  let s ← packTermParaValue p s
  let s := s.adv p.parameter_len
  let s := s.addLen (5 + p.parameter_len)
  s.addMsglen (5 + p.parameter_len)

/-- The loop of lines 685-715 over the list from `paralist_it` on. -/
def packTermParaLoop : List TerminalParameter → PackState → Option PackState :=
  packLoop packTermParaNode

/-- `case DOWN_SETTERMPARA`, lines 669-722. -/
def packSetTermPara (propara : ProtocolParameters) (s : PackState) : Option PackState := do
  let s ← packFragment propara s
  match propara.terminal_parameter_list with
  | some (p :: ps) =>
    let s ← s.put8 (p :: ps).length
    let s := s.addLen 1
    let s ← s.setMsglen 1
    packTermParaLoop (p :: ps) s
  | _ =>
    let s ← s.put8 0
    let s := s.addLen 1
    s.setMsglen 1

/-- The loop of lines 731-736 and of lines 940-945: `count - i` rounds from index `i`
on, each copying the four bytes at `id_buffer + i*4`. -/
def packIdLoop (id_buffer : Option (List Nat)) : Nat → Nat → PackState → Option PackState
  | 0, _, s => some s
  | k + 1, i, s => do
    let src ← id_buffer
    let s ← if i * 4 + 4 ≤ src.length then s.putBytes (src.drop (i * 4)) 4 else none
    let s := s.addLen 4
    let s ← s.addMsglen 4
    packIdLoop id_buffer k (i + 1) s

/-- `case DOWN_GETSPECTERMPARA`, lines 725-737. -/
def packGetSpecTermPara (propara : ProtocolParameters) (s : PackState) :
    Option PackState := do
  let s ← s.put8 propara.terminal_parameter_id_count
  let s := s.addLen 1
  let s ← s.setMsglen 1
  packIdLoop propara.terminal_parameter_id_buffer propara.terminal_parameter_id_count 0 s

/-- `case DOWN_UPDATEPACKAGE`, lines 738-769. -/
def packUpdatePackage (propara : ProtocolParameters) (s : PackState) : Option PackState := do
  let s ← packFragment propara s
  let s ← s.put8 propara.upgrade_type
  let s ← s.putBytes propara.manufacturer_id 5
  let s := s.addLen 6
  let s ← s.put8 propara.version_num_len
  let s := s.addLen 1
  let s ← s.putBytes propara.version_num propara.version_num_len
  let s := s.addLen propara.version_num_len
  let s ← s.put32 propara.packet_data_len
  let s := s.addLen 4
  let s ← s.putBytes propara.packet_data propara.packet_data_len
  let s := s.addLen propara.packet_data_len
  s.setMsglen (11 + propara.version_num_len + propara.packet_data_len)

/-- Lines 799-806, 855-862 and 895-902: the optional time window of an area record,
with the two counters advanced as the source does. -/
def packAreaTime (area_attribute : Nat) (start_time end_time : List Nat) (s : PackState) :
    Option PackState :=
  if areaBytime (area_attribute % 65536) then do
    let s ← s.putBytes start_time 6
    let s ← s.putBytes end_time 6
    let s := s.addLen 12
    s.addMsglen 12
  else pure s

/-- Lines 807-814, 863-870 and 903-910: the optional speed limit of an area record. -/
def packAreaSpeed (area_attribute max_speed overspeed_duration : Nat) (s : PackState) :
    Option PackState :=
  if areaSpeedlimit (area_attribute % 65536) then do
    let s ← s.put16 max_speed
    let s ← s.put8 overspeed_duration
    let s := s.addLen 3
    s.addMsglen 3
  else pure s

/-- Lines 799-814, 855-870 and 895-910: the optional time window and speed limit of an
area record. -/
def packAreaOptions (area_attribute : Nat) (start_time end_time : List Nat)
    (max_speed overspeed_duration : Nat) (s : PackState) : Option PackState :=
  (packAreaTime area_attribute start_time end_time s).bind fun s1 =>
    packAreaSpeed area_attribute max_speed overspeed_duration s1

/-- The body of the loop of lines 778-817 for the area `circ_area`. -/
def packCircularArea (circ_area : CircularArea) (s : PackState) : Option PackState := do
  let s ← s.put32 circ_area.area_id
  let s ← s.put16 circ_area.area_attribute
  let s ← s.put32 circ_area.center_point.latitude
  let s ← s.put32 circ_area.center_point.longitude
  let s ← s.put32 circ_area.radius
  let s := s.addLen 18
  let s ← s.addMsglen 18
  packAreaOptions circ_area.area_attribute circ_area.start_time circ_area.end_time
    circ_area.max_speed circ_area.overspeed_duration s

/-- The loop of lines 778-817: it takes the areas from the back of the vector, here the
front of the reversed list. -/
def packCircularLoop : List CircularArea → PackState → Option PackState :=
  packLoop packCircularArea

/-- `case DOWN_SETCIRCULARAREA`, lines 770-820. -/
def packSetCircularArea (propara : ProtocolParameters) (s : PackState) :
    Option PackState := do
  let s ← s.put8 propara.set_area_type
  let list ← propara.circular_area_list
  let s ← s.put8 list.length
  let s := s.addLen 2
  let s ← s.setMsglen 2
  packCircularLoop list.reverse s

/-- The body of the loop of lines 829-873 for the area `rect_area`; line 853 adds 22 to
`msg.len`, line 854 adds 12 to `msglen`. -/
def packRectangleArea (rect_area : RectangleArea) (s : PackState) : Option PackState := do
  let s ← s.put32 rect_area.area_id
  let s ← s.put16 rect_area.area_attribute
  let s ← s.put32 rect_area.upper_left_corner.latitude
  let s ← s.put32 rect_area.upper_left_corner.longitude
  let s ← s.put32 rect_area.bottom_right_corner.latitude
  let s ← s.put32 rect_area.bottom_right_corner.longitude
  let s := s.addLen 22
  let s ← s.addMsglen 12
  packAreaOptions rect_area.area_attribute rect_area.start_time rect_area.end_time
    rect_area.max_speed rect_area.overspeed_duration s

/-- The loop of lines 829-873, from the back of the vector. -/
def packRectangleLoop : List RectangleArea → PackState → Option PackState :=
  packLoop packRectangleArea

/-- `case DOWN_SETRECTANGLEAREA`, lines 821-876. -/
def packSetRectangleArea (propara : ProtocolParameters) (s : PackState) :
    Option PackState := do
  let s ← s.put8 propara.set_area_type
  let list ← propara.rectangle_area_list
  let s ← s.put8 list.length
  let s := s.addLen 2
  let s ← s.setMsglen 2
  packRectangleLoop list.reverse s

/-- The body of the loop of lines 916-927 for the vertex `c`. -/
def packCoordinate (c : Coordinate) (s : PackState) : Option PackState := do
  let s ← s.put32 c.latitude
  let s ← s.put32 c.longitude
  let s := s.addLen 8
  s.addMsglen 8

/-- The loop of lines 916-927 over the vertices, from the back of the vector. -/
def packCoordinateLoop : List Coordinate → PackState → Option PackState :=
  packLoop packCoordinate

/-- The body of the loop of lines 885-930 for the area `poly_area`. -/
def packPolygonalArea (poly_area : PolygonalArea) (s : PackState) : Option PackState := do
  let s ← s.put32 poly_area.area_id
  let s ← s.put16 poly_area.area_attribute
  let s := s.addLen 6
  let s ← s.addMsglen 6
  let s ← packAreaOptions poly_area.area_attribute poly_area.start_time poly_area.end_time
    poly_area.max_speed poly_area.overspeed_duration s
  let s ← s.put16 poly_area.coordinate_count
  let s := s.addLen 2
  let s ← s.addMsglen 2
  let coordinate_list ← poly_area.coordinate_list
  packCoordinateLoop coordinate_list.reverse s

/-- The loop of lines 885-930, from the back of the vector. -/
def packPolygonalLoop : List PolygonalArea → PackState → Option PackState :=
  packLoop packPolygonalArea

/-- `case DOWN_SETPOLYGONALAREA`, lines 877-933. -/
def packSetPolygonalArea (propara : ProtocolParameters) (s : PackState) :
    Option PackState := do
  let s ← s.put8 propara.set_area_type
  let list ← propara.polygonal_area_list
  let s ← s.put8 list.length
  let s := s.addLen 2
  let s ← s.setMsglen 2
  packPolygonalLoop list.reverse s

/-- `case DOWN_DELCIRCULARAREA`, `DOWN_DELRECTANGLEAREA`, `DOWN_DELPOLYGONALAREA`,
lines 934-946. -/
def packDeleteArea (propara : ProtocolParameters) (s : PackState) : Option PackState := do
  let s ← s.put8 propara.area_route_id_count
  let s := s.addLen 1
  let s ← s.setMsglen 1
  packIdLoop propara.area_route_id_buffer propara.area_route_id_count 0 s

/-- `case DOWN_PASSTHROUGH`, lines 947-955: after the payload is copied `msg_body`
still points to its first byte. -/
def packPassThrough (propara : ProtocolParameters) (s : PackState) : Option PackState := do
  let pass_through ← propara.pass_through
  let s ← s.put8 pass_through.type
  let s := s.addLen 1
  let s ← s.copy pass_through.buffer pass_through.size
  let s := s.addLen pass_through.size
  s.setMsglen pass_through.size

/-- The `switch (command)` of lines 639-958. -/
def packBody (command : Nat) (propara : ProtocolParameters) (s : PackState) :
    Option PackState :=
  if command = DOWN_UNIRESPONSE then packUniResponse propara s
  else if command = DOWN_REGISTERRESPONSE then packRegisterResponse propara s
  else if command = DOWN_SETTERMPARA then packSetTermPara propara s
  else if command = DOWN_GETTERMPARA then some s
  else if command = DOWN_GETSPECTERMPARA then packGetSpecTermPara propara s
  else if command = DOWN_UPDATEPACKAGE then packUpdatePackage propara s
  else if command = DOWN_SETCIRCULARAREA then packSetCircularArea propara s
  else if command = DOWN_SETRECTANGLEAREA then packSetRectangleArea propara s
  else if command = DOWN_SETPOLYGONALAREA then packSetPolygonalArea propara s
  else if command = DOWN_DELCIRCULARAREA ∨ command = DOWN_DELRECTANGLEAREA ∨
      command = DOWN_DELPOLYGONALAREA then packDeleteArea propara s
  else if command = DOWN_PASSTHROUGH then packPassThrough propara s
  else some s

/-- Lines 628-637: the header is written over bytes 1..12 of the buffer, the flow number
is incremented, `msg_body` is set behind the header and `msg.len` to 13.  The result is
the new flow number and the state. -/
def packHead (message_flow_num_ : Nat) (msg : MessageData) (command : Nat)
    (propara : ProtocolParameters) : Option (Nat × PackState) := do
  let b ← memcpy msg.buffer 1 (le16 (EndianSwap16 command)) 2
  let b ← memcpy b 3 (le16 0) 2
  let s : PackState := { buffer := b, len := msg.len, msg_body := 0 }
  let s ← s.setEncrypt 0
  let flow := (message_flow_num_ + 1) % 65536
  let b ← memcpy s.buffer 11 (le16 (EndianSwap16 flow)) 2
  let b ← memcpy b 5 propara.phone_num 6
  let s : PackState := { s with buffer := b }
  let s ← s.setPackage 0
  pure (flow, { s with msg_body := MSGBODY_NOPACKAGE_POS, len := 13 })

/-- Lines 959-963: the attribute word is put in wire order, the checksum of the
`msg.len - 1` bytes behind the delimiter slot is stored at `msg_body`, and `msg.len` is
incremented. -/
def packCheck (s : PackState) : Option PackState := do
  let u16val ← rd16 s.buffer 3
  let b ← memcpy s.buffer 3 (le16 (EndianSwap16 u16val)) 2
  let bcc ← BccCheckSum (b.drop 1) (s.len - 1)
  let b ← store b s.msg_body bcc
  pure { s with buffer := b, len := s.len + 1 }

/-- Lines 965-975: the `msg.len` bytes from `msg.buffer + 1` on are escaped in place and
the two delimiters are written.  The result is the message and the returned length. -/
def packEscape (s : PackState) : Option (MessageData × Nat) := do
  let r ← Escape (s.buffer.drop 1) s.len
  let b := s.buffer.take 1 ++ r.1
  let len := r.2
  let b ← store b 0 PROTOCOL_SIGN
  let b ← store b len PROTOCOL_SIGN
  let len := len + 1
  pure ({ buffer := b, len := len }, len)

/-- Lines 628-963 of `Jt808FramePack`: the flow number and the variables before the call
of `Escape`. -/
def packUnescaped (message_flow_num_ : Nat) (msg : MessageData) (command : Nat)
    (propara : ProtocolParameters) : Option (Nat × PackState) := do
  let command := command % 65536
  let (flow, s) ← packHead message_flow_num_ msg command propara
  let s ← packBody command propara s
  let s ← packCheck s
  pure (flow, s)

/-- `Jt808Service::Jt808FramePack(msg, command, propara)`, lines 620-976, with the
member `message_flow_num_` passed in and out: the result is the new flow number, the
message and the returned length. -/
def Jt808FramePack (message_flow_num_ : Nat) (msg : MessageData) (command : Nat)
    (propara : ProtocolParameters) : Option (Nat × MessageData × Nat) := do
  let (flow, s) ← packUnescaped message_flow_num_ msg command propara
  let (msg1, len) ← packEscape s
  pure (flow, msg1, len)

/-! ## The message bodies in the words of the specification (section 4.2)

Every function below is the byte sequence the specification gives for a field or a
body; `packedBody` collects them by message id. -/

/-- The number a `uint16_t` object with the bytes `value[0], value[1]` holds on the
host. -/
def hostValue16 (value : List Nat) : Nat := value.getD 0 0 + 256 * value.getD 1 0

/-- The number a `uint32_t` object with the bytes `value[0] .. value[3]` holds on the
host. -/
def hostValue32 (value : List Nat) : Nat :=
  value.getD 0 0 + 256 * value.getD 1 0 + 65536 * value.getD 2 0 + 16777216 * value.getD 3 0

/-- Section 4.2, set terminal parameter: the value of a tuple, numeric values
big-endian, byte and string values verbatim; for an id outside the registry the
`length` bytes stay zero. -/
def termParaValueSpec (p : TerminalParameter) : List Nat :=
  let ty := GetParameterTypeByParameterId p.parameter_id
  if ty = kWordType then be16 (hostValue16 p.parameter_value)
  else if ty = kDwordType then be32 (hostValue32 p.parameter_value)
  else if ty = kByteType ∨ ty = kStringType then p.parameter_value.take p.parameter_len
  else List.replicate p.parameter_len 0

/-- Section 4.2, set terminal parameter: one tuple `id(u32) || length(u8) || value`. -/
def termParaSpec (p : TerminalParameter) : List Nat :=
  be32 p.parameter_id ++ [p.parameter_len % 256] ++ termParaValueSpec p

/-- Section 3, geofence area: the optional time window and speed limit of an area
record, present when the `bytime` and the `speedlimit` bit of the attribute are set. -/
def areaOptionsSpec (area_attribute : Nat) (start_time end_time : List Nat)
    (max_speed overspeed_duration : Nat) : List Nat :=
  (if areaBytime (area_attribute % 65536) then start_time.take 6 ++ end_time.take 6 else [])
    ++ (if areaSpeedlimit (area_attribute % 65536)
        then be16 max_speed ++ [overspeed_duration % 256] else [])

/-- Section 3, geofence area: the record of a circular area. -/
def circularAreaSpec (a : CircularArea) : List Nat :=
  be32 a.area_id ++ be16 a.area_attribute ++ be32 a.center_point.latitude
    ++ be32 a.center_point.longitude ++ be32 a.radius
    ++ areaOptionsSpec a.area_attribute a.start_time a.end_time a.max_speed
        a.overspeed_duration

/-- Section 3, geofence area: the record of a rectangle area. -/
def rectangleAreaSpec (a : RectangleArea) : List Nat :=
  be32 a.area_id ++ be16 a.area_attribute ++ be32 a.upper_left_corner.latitude
    ++ be32 a.upper_left_corner.longitude ++ be32 a.bottom_right_corner.latitude
    ++ be32 a.bottom_right_corner.longitude
    ++ areaOptionsSpec a.area_attribute a.start_time a.end_time a.max_speed
        a.overspeed_duration

/-- What lines 854-869 add to `msglen` for a rectangle area: 12 for the 22 bytes of
the fixed part, and the number of bytes of the optional fields. -/
def rectangleMsglen (a : RectangleArea) : Nat :=
  12 + (areaOptionsSpec a.area_attribute a.start_time a.end_time a.max_speed
        a.overspeed_duration).length

/-- Section 3, geofence area: one vertex, latitude and longitude. -/
def coordinateSpec (c : Coordinate) : List Nat := be32 c.latitude ++ be32 c.longitude

/-- Section 3, geofence area: the record of a polygon area with the vertices `vertices`
in the order they are sent. -/
def polygonalAreaSpec (a : PolygonalArea) (vertices : List Coordinate) : List Nat :=
  be32 a.area_id ++ be16 a.area_attribute
    ++ areaOptionsSpec a.area_attribute a.start_time a.end_time a.max_speed
        a.overspeed_duration
    ++ be16 a.coordinate_count ++ vertices.flatMap coordinateSpec

/-- Section 4.2: the two fragmentation words of a fragmented message, nothing
otherwise. -/
def fragmentWordsSpec (propara : ProtocolParameters) : List Nat :=
  if propara.packet_total_num % 65536 > 1
  then be16 propara.packet_total_num ++ be16 propara.packet_sequence_num else []

/-- Section 4.2, downlink unified response: `respond_flow_number(u16) ||
respond_id(u16) || result(u8)`. -/
def uniResponseSpec (propara : ProtocolParameters) : List Nat :=
  be16 propara.respond_flow_num ++ be16 propara.respond_id ++ [propara.respond_result % 256]

/-- Section 4.2, downlink register response: `respond_flow_number(u16) || result(u8)`
and the authentication code when the result is `register_success`. -/
def registerResponseSpec (propara : ProtocolParameters) : List Nat :=
  be16 propara.respond_flow_num ++ [propara.respond_result % 256]
    ++ (if propara.respond_result % 256 = kRegisterSuccess then propara.authen_code.take 4
        else [])

/-- Section 4.2, set terminal parameter: `count(u8) || repeated tuple`. -/
def setTermParaSpec (propara : ProtocolParameters) : List Nat :=
  match propara.terminal_parameter_list with
  | some l => [l.length % 256] ++ l.flatMap termParaSpec
  | none => [0]

/-- Section 4.2, get specific terminal parameters and delete area: `count(u8) ||
repeated id(u32)`, the ids as the caller stored them in the id buffer. -/
def idListSpec (count : Nat) (id_buffer : Option (List Nat)) : List Nat :=
  [count % 256] ++ ((id_buffer.getD []).take (count * 4))

/-- Section 4.2, firmware upgrade package: `upgrade_type(u8) || manufacturer_id(5) ||
version_len(u8) || version || data_len(u32) || data`. -/
def updatePackageSpec (propara : ProtocolParameters) : List Nat :=
  [propara.upgrade_type % 256] ++ propara.manufacturer_id.take 5
    ++ [propara.version_num_len % 256] ++ propara.version_num.take propara.version_num_len
    ++ be32 propara.packet_data_len ++ propara.packet_data.take propara.packet_data_len

/-- Section 4.2, set circular area: `set_type(u8) || count(u8) || repeated area-record`,
with the records in the order the loop of lines 778-817 takes them. -/
def setCircularAreaSpec (propara : ProtocolParameters) : List Nat :=
  let list := propara.circular_area_list.getD []
  [propara.set_area_type % 256, list.length % 256] ++ list.reverse.flatMap circularAreaSpec

/-- Section 4.2, set rectangle area, with the records in the order the loop of lines
829-873 takes them. -/
def setRectangleAreaSpec (propara : ProtocolParameters) : List Nat :=
  let list := propara.rectangle_area_list.getD []
  [propara.set_area_type % 256, list.length % 256] ++ list.reverse.flatMap rectangleAreaSpec

/-- Section 4.2, set polygon area, with the records and the vertices of each record in
the order the loops of lines 885-930 take them. -/
def setPolygonalAreaSpec (propara : ProtocolParameters) : List Nat :=
  let list := propara.polygonal_area_list.getD []
  [propara.set_area_type % 256, list.length % 256]
    ++ list.reverse.flatMap fun a => polygonalAreaSpec a (a.coordinate_list.getD []).reverse

/-- Section 4.2, downlink passthrough: `type(u8) || payload`. -/
def passThroughSpec (propara : ProtocolParameters) : List Nat :=
  match propara.pass_through with
  | some pt => [pt.type % 256] ++ pt.buffer.take pt.size
  | none => []

/-- Section 4.2, `encode_body`: the body of the downlink message `command`. -/
def packedBody (command : Nat) (propara : ProtocolParameters) : List Nat :=
  if command = DOWN_UNIRESPONSE then uniResponseSpec propara
  else if command = DOWN_REGISTERRESPONSE then registerResponseSpec propara
  else if command = DOWN_SETTERMPARA then setTermParaSpec propara
  else if command = DOWN_GETTERMPARA then []
  else if command = DOWN_GETSPECTERMPARA then
    idListSpec propara.terminal_parameter_id_count propara.terminal_parameter_id_buffer
  else if command = DOWN_UPDATEPACKAGE then updatePackageSpec propara
  else if command = DOWN_SETCIRCULARAREA then setCircularAreaSpec propara
  else if command = DOWN_SETRECTANGLEAREA then setRectangleAreaSpec propara
  else if command = DOWN_SETPOLYGONALAREA then setPolygonalAreaSpec propara
  else if command = DOWN_DELCIRCULARAREA ∨ command = DOWN_DELRECTANGLEAREA ∨
      command = DOWN_DELPOLYGONALAREA then
    idListSpec propara.area_route_id_count propara.area_route_id_buffer
  else if command = DOWN_PASSTHROUGH then passThroughSpec propara
  else []

/-- The downlink message ids of section 3, the case labels of the `switch` of
`Jt808FramePack`. -/
def downlinkCommands : List Nat :=
  [DOWN_UNIRESPONSE, DOWN_REGISTERRESPONSE, DOWN_SETTERMPARA, DOWN_GETTERMPARA,
   DOWN_GETSPECTERMPARA, DOWN_UPDATEPACKAGE, DOWN_SETCIRCULARAREA, DOWN_DELCIRCULARAREA,
   DOWN_SETRECTANGLEAREA, DOWN_DELRECTANGLEAREA, DOWN_SETPOLYGONALAREA,
   DOWN_DELPOLYGONALAREA, DOWN_PASSTHROUGH]

/-- The fragmentation words in front of the body: the commands set terminal parameter
and upgrade package write them when the envelope has more than one package. -/
def packedFragment (command : Nat) (propara : ProtocolParameters) : List Nat :=
  if command = DOWN_SETTERMPARA ∨ command = DOWN_UPDATEPACKAGE then fragmentWordsSpec propara
  else []

/-! ## Envelopes whose members `Jt808FramePack` can read -/

/-- The tuple `p` as the callers build it: a word value has the length 2 and a dword
value the length 4 that `GetParameterLengthByParameterType` gives, and the array
`parameter_value` holds the bytes the `switch` of lines 692-710 reads. -/
def TerminalParameter.consistent (p : TerminalParameter) : Prop :=
  (GetParameterTypeByParameterId p.parameter_id = kWordType →
    p.parameter_len = 2 ∧ 2 ≤ p.parameter_value.length) ∧
  (GetParameterTypeByParameterId p.parameter_id = kDwordType →
    p.parameter_len = 4 ∧ 4 ≤ p.parameter_value.length) ∧
  (GetParameterTypeByParameterId p.parameter_id = kByteType ∨
      GetParameterTypeByParameterId p.parameter_id = kStringType →
    p.parameter_len ≤ p.parameter_value.length)

/-- The arrays `start_time` and `end_time` of an area hold the six bytes lines 799-803
read when the `bytime` bit is set. -/
def areaTimesPresent (area_attribute : Nat) (start_time end_time : List Nat) : Prop :=
  areaBytime (area_attribute % 65536) = true → 6 ≤ start_time.length ∧ 6 ≤ end_time.length

/-- The members of the envelope that the `case` of `command` reads are there: the six
bytes of the phone number, non-null list pointers, and arrays as long as the counts
beside them say. -/
def packable (command : Nat) (propara : ProtocolParameters) : Prop :=
  propara.phone_num.length = 6 ∧
  (command = DOWN_REGISTERRESPONSE → propara.authen_code.length = 4) ∧
  (command = DOWN_SETTERMPARA →
    ∀ p ∈ propara.terminal_parameter_list.getD [], p.consistent) ∧
  (command = DOWN_GETSPECTERMPARA →
    propara.terminal_parameter_id_count * 4
      ≤ (propara.terminal_parameter_id_buffer.getD []).length) ∧
  (command = DOWN_UPDATEPACKAGE →
    5 ≤ propara.manufacturer_id.length ∧
    propara.version_num_len ≤ propara.version_num.length ∧
    propara.packet_data_len ≤ propara.packet_data.length) ∧
  (command = DOWN_SETCIRCULARAREA →
    propara.circular_area_list ≠ none ∧
    ∀ c ∈ propara.circular_area_list.getD [],
      areaTimesPresent c.area_attribute c.start_time c.end_time) ∧
  (command = DOWN_SETRECTANGLEAREA →
    propara.rectangle_area_list ≠ none ∧
    ∀ c ∈ propara.rectangle_area_list.getD [],
      areaTimesPresent c.area_attribute c.start_time c.end_time) ∧
  (command = DOWN_SETPOLYGONALAREA →
    propara.polygonal_area_list ≠ none ∧
    ∀ c ∈ propara.polygonal_area_list.getD [],
      areaTimesPresent c.area_attribute c.start_time c.end_time ∧ c.coordinate_list ≠ none) ∧
  (command = DOWN_DELCIRCULARAREA ∨ command = DOWN_DELRECTANGLEAREA ∨
      command = DOWN_DELPOLYGONALAREA →
    propara.area_route_id_count * 4 ≤ (propara.area_route_id_buffer.getD []).length) ∧
  (command = DOWN_PASSTHROUGH →
    ∃ pt, propara.pass_through = some pt ∧ pt.size ≤ pt.buffer.length)

/-- The number of bytes between the delimiters before escaping: the 12 header bytes, the
fragmentation words, the body and the checksum. -/
def packedLength (command : Nat) (propara : ProtocolParameters) : Nat :=
  13 + (packedFragment command propara).length + (packedBody command propara).length

/-- An envelope as the callers set it up, lines 428 and 1727: all members zero and all
pointers null, here with the phone number `012345678901`; the arrays `version_num` and
`packet_data` are given 32 and 1024 bytes. -/
def exampleParameters : ProtocolParameters where
  respond_result := 0
  respond_id := 0
  respond_flow_num := 0
  phone_num := [0x01, 0x23, 0x45, 0x67, 0x89, 0x01]
  authen_code := [0, 0, 0, 0]
  manufacturer_id := [0, 0, 0, 0, 0]
  packet_total_num := 0
  packet_sequence_num := 0
  upgrade_type := 0
  version_num_len := 0
  version_num := List.replicate 32 0
  packet_data_len := 0
  packet_data := List.replicate 1024 0
  terminal_parameter_id_count := 0
  terminal_parameter_id_buffer := none
  terminal_parameter_list := none
  set_area_type := 0
  area_route_id_count := 0
  area_route_id_buffer := none
  circular_area_list := none
  rectangle_area_list := none
  polygonal_area_list := none
  pass_through := none
  can_bus_data_timestamp := { hour := 0, minute := 0, second := 0, millisecond := 0 }
  can_bus_data_item_list := Ptr.null

/-- The example envelope as a reply to the flow number `0x7E7D` and the message id
`0x0200` with the result 0: both bytes of the flow number need escaping. -/
def escapedParameters : ProtocolParameters :=
  { exampleParameters with respond_flow_num := 0x7E7D, respond_id := 0x0200 }

/-- A tuple as `AddParameterNodeIntoList` builds it for the id `0xF000` (a byte
parameter) and the value string `1`. -/
def startupGpsOn : TerminalParameter :=
  { parameter_id := STARTUPGPS, parameter_type := kByteType, parameter_len := 1,
    parameter_value := 49 :: List.replicate 255 0 }

/-- A tuple as `AddParameterNodeIntoList` builds it for the id `0xF031` (a word
parameter, the port of the NTRIP CORS service) from the two bytes of the number 8000
on the host. -/
def ntripCorsPort8000 : TerminalParameter :=
  { parameter_id := NTRIPCORSPORT, parameter_type := kWordType, parameter_len := 2,
    parameter_value := [0x40, 0x1F] ++ List.replicate 254 0 }

/-- A tuple as `AddParameterNodeIntoList` builds it for the id `0xF030` (a string
parameter, the address of the NTRIP CORS service) and the value string `1.2.3.4`. -/
def ntripCorsIp : TerminalParameter :=
  { parameter_id := NTRIPCORSIP, parameter_type := kStringType, parameter_len := 7,
    parameter_value := [49, 46, 50, 46, 51, 46, 52] ++ List.replicate 249 0 }

/-- The example envelope with a list of three tuples: a byte, a word and a string
parameter. -/
def threeParameters : ProtocolParameters :=
  { exampleParameters with
    terminal_parameter_list := some [startupGpsOn, ntripCorsPort8000, ntripCorsIp] }

/-- The example envelope with a list of 171 tuples `startupGpsOn`: the body of the
set-terminal-parameter message has `1 + 171 * 6 = 1027` bytes. -/
def manyParameters : ProtocolParameters :=
  { exampleParameters with terminal_parameter_list := some (List.replicate 171 startupGpsOn) }

/-- The example envelope as `UpgradeHandler` fills it for package 2 of 4 of an upgrade of
type `0x34` with the version string `V1.0` and three bytes of file data, the second of
them `0x7E`. -/
def upgradeParameters : ProtocolParameters :=
  { exampleParameters with
    packet_total_num := 4, packet_sequence_num := 2, upgrade_type := 0x34,
    manufacturer_id := [1, 2, 3, 4, 5],
    version_num_len := 4, version_num := [86, 49, 46, 48] ++ List.replicate 28 0,
    packet_data_len := 3, packet_data := [0x10, 0x7E, 0x30] ++ List.replicate 1021 0 }

/-- The example envelope with two circular areas and the set type 1 (append): area 1
without optional fields, area 2 with a time window and a speed limit (attribute 3). -/
def circularParameters : ProtocolParameters :=
  { exampleParameters with
    set_area_type := 1,
    circular_area_list := some [
      { area_id := 1, area_attribute := 0,
        center_point := { latitude := 31230416, longitude := 121473701 }, radius := 500,
        start_time := [0, 0, 0, 0, 0, 0], end_time := [0, 0, 0, 0, 0, 0],
        max_speed := 0, overspeed_duration := 0 },
      { area_id := 2, area_attribute := 3,
        center_point := { latitude := 31000000, longitude := 121000000 }, radius := 0x7E,
        start_time := [0x24, 0x03, 0x15, 0x10, 0x20, 0x30],
        end_time := [0x24, 0x03, 0x16, 0x10, 0x20, 0x30],
        max_speed := 60, overspeed_duration := 10 }] }

/-- The example envelope with a passthrough payload of the one byte `0x55` and type
`0x41`. -/
def passThroughParameters : ProtocolParameters :=
  { exampleParameters with pass_through := some { type := 0x41, size := 1, buffer := [0x55] } }

/-- The example envelope with one rectangle area: id 1, attribute 0 (no time window, no
speed limit), corners (2, 3) and (4, 5). -/
def rectangleParameters : ProtocolParameters :=
  { exampleParameters with
      rectangle_area_list := some [{
        area_id := 1, area_attribute := 0,
        upper_left_corner := { latitude := 2, longitude := 3 },
        bottom_right_corner := { latitude := 4, longitude := 5 },
        start_time := [0, 0, 0, 0, 0, 0], end_time := [0, 0, 0, 0, 0, 0],
        max_speed := 0, overspeed_duration := 0 }] }

/-- The example envelope with a passthrough payload of the three bytes `0x11, 0x22,
0x33` and type `0x41`. -/
def passThroughThree : ProtocolParameters :=
  { exampleParameters with
    pass_through := some { type := 0x41, size := 3, buffer := [0x11, 0x22, 0x33] } }

/-- The first `n` bytes of the buffer of the message `Jt808FramePack` returns with the
length `n`: the frame that is sent (line 577). -/
def packedFrame (r : Option (Nat × MessageData × Nat)) : Option (List Nat) :=
  r.map fun x => x.2.1.buffer.take x.2.2

/-! ## `ParsePositionReport`, lines 133-189 -/

/-- The values `ParsePositionReport` prints.  The floating-point values are kept as the
exact rationals the expressions of the source stand for. -/
structure PositionReport where
  device : List Nat
  alarm : Nat
  status : Nat
  latitude : Rat
  longitude : Rat
  altitude : Rat
  speed : Rat
  bearing : Rat
  timestamp : List Nat
  satellite_count : Option Nat
  position_status : Option Nat
deriving DecidableEq

/-- The bytes `m[p] .. m[p+n-1]`. -/
def loadBytes (m : List Nat) (p n : Nat) : Option (List Nat) :=
  if p + n ≤ m.length then some ((m.drop p).take n) else none

/-- `ParsePositionReport(msg)`, lines 133-189. -/
def ParsePositionReport (msg : MessageData) : Option PositionReport := do
  let phone_num ← loadBytes msg.buffer 5 6
  let device := StringFromBcdCompress phone_num
  let alarm ← rd32 msg.buffer 13
  let status ← rd32 msg.buffer 17
  let lat ← rd32 msg.buffer 21
  let lon ← rd32 msg.buffer 25
  let alt ← rd16 msg.buffer 29
  let spd ← rd16 msg.buffer 31
  let brg ← rd16 msg.buffer 33
  let ts ← loadBytes msg.buffer 35 6
  let sat ← if msg.len ≥ 46 then (load msg.buffer 43).map some else some none
  let pos ← if msg.len ≥ 51 then (load msg.buffer 48).map some else some none
  pure {
    device := device
    alarm := EndianSwap32 alarm
    status := EndianSwap32 status
    latitude := (EndianSwap32 lat : Rat) / 1000000
    longitude := (EndianSwap32 lon : Rat) / 1000000
    altitude := (EndianSwap16 alt : Rat)
    speed := (EndianSwap16 spd : Rat) * 10
    bearing := (EndianSwap16 brg : Rat)
    timestamp := ts.map HexFromBcd
    satellite_count := sat
    position_status := pos }

/-! ## `AddParameterNodeIntoList`, lines 240-260 -/

/-- The call `strlen(s)` on a `char` array: the number of bytes before the first NUL;
`none` when the array holds no NUL. -/
def strlen (s : List Nat) : Option Nat :=
  if 0 ∈ s then some (s.takeWhile fun c => c ≠ 0).length else none

/-- `AddParameterNodeIntoList(para_list, para_id, para_value)`, lines 240-260, for a
non-null `para_value`: the list after the call.  The node is zeroed and has a value
array of 256 bytes, the size of the arrays the callers pass. -/
def AddParameterNodeIntoList (para_list : Option (List TerminalParameter)) (para_id : Nat)
    (para_value : List Nat) : Option (Option (List TerminalParameter)) :=
  match para_list with
  | none => some none
  | some l => do
    let para_id := para_id % 4294967296
    let ty := GetParameterTypeByParameterId para_id
    let len0 := GetParameterLengthByParameterType ty
    let len ← if ty = kStringType then (strlen para_value).map fun n => n % 256
      else some len0
    let value ← memcpy (List.replicate 256 0) 0 para_value len
    pure (some (l ++ [{ parameter_id := para_id, parameter_type := ty,
                        parameter_len := len, parameter_value := value }]))

/-! ## `Jt808FrameParse`, lines 978-1238 -/

/-- The variables of `Jt808FrameParse` that its `switch` reads and writes: the message,
the envelope, the pointer `msg_body` as an index into `msg.buffer`, the value of the
attribute word, and the locals `u16val` and `u32val` (which the get-parameter loop
overwrites only in part when a length byte is short). -/
structure ParseState where
  msg : MessageData
  propara : ProtocolParameters
  msg_body : Nat
  msgbody_attribute : Nat
  u16val : Nat
deriving DecidableEq

/-- The result of `Jt808FrameParse`: the returned message id, the message and the
envelope after the call. -/
structure ParseResult where
  message_id : Nat
  msg : MessageData
  propara : ProtocolParameters
deriving DecidableEq

/-- The search loops of lines 1067-1075 and 1094-1102: `phone_num` is the local array
of 12 bytes, which keeps the bytes of the previous round; the result is the first
record whose packed phone number equals the six bytes `phone`. -/
def findDevice (phone : List Nat) : List DeviceNode → List Nat → Option (Option DeviceNode)
  | [], _ => some none
  | d :: rest, phone_num => do
    let bcd := BcdFromStringCompress d.phone_num
    let phone_num ← memcpy phone_num 0 bcd bcd.length
    if phone_num.take 6 = phone then pure (some d) else findDevice phone rest phone_num

/-- `case UP_UNIRESPONSE`, lines 1010-1063. -/
def parseUniResponse (s : ParseState) : Option ParseState := do
  let u16val ← rd16 s.msg.buffer (s.msg_body + 2)
  let _ ← load s.msg.buffer (s.msg_body + 4)
  pure { s with u16val := u16val,
                propara := { s.propara with respond_id := EndianSwap16 u16val } }

/-- `case UP_REGISTER`, lines 1064-1090. -/
def parseRegister (device_list_ : List DeviceNode) (s : ParseState) : Option ParseState := do
  let phone ← loadBytes s.msg.buffer 5 6
  let p := { s.propara with phone_num := phone }
  if device_list_ ≠ [] then
    let found ← findDevice phone device_list_ (List.replicate 12 0)
    match found with
    | some d =>
      if d.socket_fd = -1 then
        let authen_code ← loadBytes d.authen_code 0 4
        let manufacturer_id ← loadBytes s.msg.buffer (s.msg_body + 4) 5
        pure { s with propara := { p with respond_result := kRegisterSuccess,
                                          authen_code := authen_code,
                                          manufacturer_id := manufacturer_id } }
      else pure { s with propara := { p with respond_result := kTerminalHaveBeenRegistered } }
    | none => pure { s with propara := { p with respond_result := kNoSuchTerminalInTheDatabase } }
  else pure { s with propara := { p with respond_result := kNoSuchVehicleInTheDatabase } }

/-- The call `memcmp(device_it->authen_code, msg_body, n) == 0` of lines 1104-1105 on the
array `authen_code` of four bytes.  A real `memcmp` answers at the first byte that
differs; when `n` is above four and the four bytes agree the call reads behind the
array and the result is `none`. -/
def authenCodeEqual (authen_code : List Nat) (buffer : List Nat) (msg_body n : Nat) :
    Option Bool := do
  let code ← loadBytes authen_code 0 (min n 4)
  let body ← loadBytes buffer msg_body (min n 4)
  if code ≠ body then pure false
  else if n ≤ 4 then pure true
  else none

/-- `case UP_AUTHENTICATION`, lines 1091-1113. -/
def parseAuthentication (device_list_ : List DeviceNode) (s : ParseState) :
    Option ParseState := do
  let phone ← loadBytes s.msg.buffer 5 6
  let p := { s.propara with phone_num := phone }
  if device_list_ ≠ [] then
    let found ← findDevice phone device_list_ (List.replicate 12 0)
    match found with
    | some d =>
      let eq ← authenCodeEqual d.authen_code s.msg.buffer s.msg_body (attrMsglen s.msgbody_attribute)
      if eq then pure { s with propara := { p with respond_result := kSuccess } }
      else pure { s with propara := { p with respond_result := kFailure } }
    | none => pure { s with propara := { p with respond_result := kFailure } }
  else pure { s with propara := { p with respond_result := kFailure } }

/-- The body of the loop of lines 1128-1157 behind the read of the id and of the length
byte `u8val`: the value array `parameter_value` for the parameter type, and `u16val`
after the round.  `u32val` holds the four id bytes when the `switch` is entered.  The
destination of `memcpy(&u16val, .., u8val)` has two bytes and that of
`memcpy(&u32val, .., u8val)` four; a longer copy is `none`. -/
def parseParaValue (buffer : List Nat) (msg_body parameter_id u8val u16val u32val : Nat) :
    Option (List Nat × Nat) := do
  let ty := GetParameterTypeByParameterId parameter_id
  let zero := List.replicate 256 0
  if ty = kWordType then
    let src ← loadBytes buffer msg_body u8val
    let v ← memcpy (le16 u16val) 0 src u8val
    let u16val ← rd16 v 0
    let u16val := EndianSwap16 u16val
    let value ← memcpy zero 0 (le16 u16val) u8val
    pure (value, u16val)
  else if ty = kDwordType then
    let src ← loadBytes buffer msg_body u8val
    let v ← memcpy (le32 u32val) 0 src u8val
    let u32val ← rd32 v 0
    let u32val := EndianSwap32 u32val
    let value ← memcpy zero 0 (le32 u32val) u8val
    pure (value, u16val)
  else if ty = kByteType ∨ ty = kStringType then
    let src ← loadBytes buffer msg_body u8val
    let value ← memcpy zero 0 src u8val
    pure (value, u16val)
  else pure (zero, u16val)

/-- The loop `while (len)` of lines 1128-1157; `len` is an `int`.  Every round moves
`msg_body` on by at least five bytes and reads there, so a run over a buffer of `n`
bytes that has not left the loop after `n` rounds has read outside the buffer. -/
def parseParaLoop (buffer : List Nat) :
    Nat → Int → Nat → Nat → Option (List TerminalParameter) →
      Option (Nat × Option (List TerminalParameter))
  | 0, _, _, _, _ => none
  | fuel + 1, len, msg_body, u16val, list =>
    if len ≠ 0 then do
      let u32val ← rd32 buffer msg_body
      let parameter_id := EndianSwap32 u32val
      let msg_body := msg_body + 4
      let u8val ← load buffer msg_body
      let u8val := u8val % 256
      let msg_body := msg_body + 1
      let (parameter_value, u16val) ←
        parseParaValue buffer msg_body parameter_id u8val u16val u32val
      let list ← AddParameterNodeIntoList list parameter_id parameter_value
      parseParaLoop buffer fuel (len - (u8val + 5 : Nat)) (msg_body + u8val) u16val list
    else some (u16val, list)

/-- Lines 1117-1122: the fragmentation words of a fragmented get-parameter response. -/
def parseFragmentWords (s : ParseState) : Option ParseState :=
  if attrPackage s.msgbody_attribute = 1 then do
    let total ← rd16 s.msg.buffer 13
    let seq ← rd16 s.msg.buffer 15
    pure { s with u16val := seq,
                  propara := { s.propara with packet_total_num := EndianSwap16 total,
                                              packet_sequence_num := EndianSwap16 seq } }
  else pure s

/-- `case UP_GETPARARESPONSE`, lines 1114-1160. -/
def parseGetParaResponse (s : ParseState) : Option ParseState := do
  let s ← parseFragmentWords s
  let s := { s with msg_body := s.msg_body + 3 }
  match s.propara.terminal_parameter_list with
  | none => pure s
  | some l =>
    let len : Int := (attrMsglen s.msgbody_attribute : Int) - 3
    let (u16val, list) ←
      parseParaLoop s.msg.buffer (s.msg.buffer.length + 1) len s.msg_body s.u16val (some l)
    pure { s with u16val := u16val,
                  propara := { s.propara with terminal_parameter_list := list,
                                              respond_result := kSuccess } }

/-- `case UP_UPDATERESULT`, lines 1161-1173. -/
def parseUpdateResult (s : ParseState) : Option ParseState := do
  let _ ← load s.msg.buffer (s.msg_body + 4)
  pure { s with propara := { s.propara with respond_result := kSuccess } }

/-- `case UP_POSITIONREPORT`, lines 1174-1178. -/
def parsePositionReport (s : ParseState) : Option ParseState := do
  let _ ← ParsePositionReport s.msg
  pure { s with propara := { s.propara with respond_result := kSuccess } }

/-- `case UP_PASSTHROUGH`, lines 1179-1191.  `size` is `msglen - 1`; with `msglen`
zero the copy of line 1188 has no bound and the result is `none`.  The array
`pass_through->buffer` is taken to hold any body. -/
def parsePassThrough (s : ParseState) : Option ParseState := do
  let pt : PassThrough := match s.propara.pass_through with
    | some pt => pt
    | none => { type := 0, size := 0, buffer := [] }
  let type ← load s.msg.buffer s.msg_body
  let msglen := attrMsglen s.msgbody_attribute
  if msglen = 0 then none
  else
    let size := msglen - 1
    let src ← loadBytes s.msg.buffer (s.msg_body + 1) size
    let pt := { pt with type := type % 256, size := size, buffer := src ++ pt.buffer.drop size }
    pure { s with propara := { s.propara with pass_through := some pt,
                                              respond_result := kSuccess } }

/-- The loop `while (max_item_count--)` of lines 1215-1222: `can_id` is copied in host
order. -/
def parseCanItems (buffer : List Nat) :
    Nat → Nat → List CanBusDataItem → Option (List CanBusDataItem)
  | 0, _, list => some list
  | k + 1, msg_body, list => do
    let can_id ← rd32 buffer msg_body
    let data ← loadBytes buffer (msg_body + 4) 8
    parseCanItems buffer k (msg_body + 12) (list ++ [{ can_id := can_id, buffer := data }])

/-- `case UP_CANBUSDATAUPLOAD`, lines 1192-1232.  `ClearListElement` (lines 292-305)
frees a non-empty vector and leaves the pointer of the envelope dangling. -/
def parseCanBusData (s : ParseState) : Option ParseState := do
  let ptr : Ptr (List CanBusDataItem) := match s.propara.can_bus_data_item_list with
    | Ptr.null => Ptr.valid []
    | p => p
  let raw ← rd16 s.msg.buffer s.msg_body
  let u16val := EndianSwap16 raw
  let msg_body := s.msg_body + 2
  if u16val > 0 then
    let max_item_count := u16val
    let b0 ← load s.msg.buffer msg_body
    let b1 ← load s.msg.buffer (msg_body + 1)
    let b2 ← load s.msg.buffer (msg_body + 2)
    let b3 ← load s.msg.buffer (msg_body + 3)
    let b4 ← load s.msg.buffer (msg_body + 4)
    let u16val := (HexFromBcd b3 * 10 + HexFromBcd b4) % 65536
    let ts : CanBusDataTimestamp :=
      { hour := HexFromBcd b0, minute := HexFromBcd b1, second := HexFromBcd b2,
        millisecond := u16val }
    match ptr with
    | Ptr.valid l =>
      let _ ← parseCanItems s.msg.buffer max_item_count (msg_body + 5) l
      pure { s with u16val := u16val, msg_body := msg_body + 5 + 12 * max_item_count,
                    propara := { s.propara with can_bus_data_timestamp := ts,
                                                can_bus_data_item_list := Ptr.freed } }
    | _ => none
  else
    pure { s with u16val := u16val, msg_body := msg_body,
                  propara := { s.propara with can_bus_data_item_list := ptr } }

/-- The case labels of the `switch (message_id)` of lines 1009-1235. -/
def parsedUplinkIds : List Nat :=
  [UP_UNIRESPONSE, UP_REGISTER, UP_AUTHENTICATION, UP_GETPARARESPONSE, UP_UPDATERESULT,
   UP_POSITIONREPORT, UP_PASSTHROUGH, UP_CANBUSDATAUPLOAD]

/-- The `switch (message_id)` of lines 1009-1235. -/
def parseBody (device_list_ : List DeviceNode) (message_id : Nat) (s : ParseState) :
    Option ParseState :=
  if message_id = UP_UNIRESPONSE then parseUniResponse s
  else if message_id = UP_REGISTER then parseRegister device_list_ s
  else if message_id = UP_AUTHENTICATION then parseAuthentication device_list_ s
  else if message_id = UP_GETPARARESPONSE then parseGetParaResponse s
  else if message_id = UP_UPDATERESULT then parseUpdateResult s
  else if message_id = UP_POSITIONREPORT then parsePositionReport s
  else if message_id = UP_PASSTHROUGH then parsePassThrough s
  else if message_id = UP_CANBUSDATAUPLOAD then parseCanBusData s
  else some s

/-- Lines 994-1008: the `msg.len` bytes from `msg.buffer + 1` on are unescaped in place,
the attribute word, the flow number and the message id are read from the header at
bytes 1..12, and `respond_flow_num` and `respond_id` are stored in the envelope. -/
def parseHead (msg : MessageData) (propara : ProtocolParameters) :
    Option (Nat × ParseState) := do
  let r ← ReverseEscape (msg.buffer.drop 1) msg.len
  let msg : MessageData := { buffer := msg.buffer.take 1 ++ r.1, len := r.2 }
  let val ← rd16 msg.buffer 3
  let msgbody_attribute := EndianSwap16 val
  let msg_body :=
    if attrPackage msgbody_attribute = 1 then MSGBODY_PACKAGE_POS else MSGBODY_NOPACKAGE_POS
  let flow ← rd16 msg.buffer 11
  let propara := { propara with respond_flow_num := EndianSwap16 flow }
  let u16val ← rd16 msg.buffer 1
  let message_id := EndianSwap16 u16val
  let propara := { propara with respond_id := message_id }
  pure (message_id, { msg := msg, propara := propara, msg_body := msg_body,
                      msgbody_attribute := msgbody_attribute, u16val := u16val })

/-- `Jt808Service::Jt808FrameParse(msg, propara)`, lines 978-1238, with the member
`device_list_` passed in (the function only reads it). -/
def Jt808FrameParse (device_list_ : List DeviceNode) (msg : MessageData)
    (propara : ProtocolParameters) : Option ParseResult := do
  let (message_id, s) ← parseHead msg propara
  let s ← parseBody device_list_ message_id s
  pure { message_id := message_id, msg := s.msg, propara := s.propara }

/-! ## `RecvFrameData`, `SendFrameData` and `AcceptNewClient`, lines 423-504 and 573-618 -/

/-- What the call `recv(fd, msg.buffer, MAX_PROFRAMEBUF_LEN, 0)` of line 600 does: it
delivers bytes, or returns 0 (the peer has closed the connection), or fails with
`EAGAIN`, `EWOULDBLOCK` or `EINTR`, or fails with another error. -/
inductive RecvOutcome where
  | data (bytes : List Nat)
  | closed
  | again
  | error
deriving DecidableEq

/-- `RecvFrameData(fd, msg)`, lines 596-618, for a frame buffer of `cap` bytes
(`MAX_PROFRAMEBUF_LEN`, a constant of the missing header): the returned value and the
message.  `recv` delivers at least one and at most `cap` bytes. -/
def RecvFrameData (cap : Nat) (o : RecvOutcome) : Int × MessageData :=
  match o with
  | .data bytes =>
    if bytes = [] then (-1, ⟨List.replicate cap 0, 0⟩)
    else (0, ⟨bytes.take cap ++ List.replicate (cap - bytes.length) 0, min bytes.length cap⟩)
  | .closed => (-1, ⟨List.replicate cap 0, 0⟩)
  | .again => (0, ⟨List.replicate cap 0, 0⟩)
  | .error => (-1, ⟨List.replicate cap 0, 0⟩)

/-- The members of `Jt808Service` that `AcceptNewClient` reads and writes, and what it
does to the outside: the registry `device_list_`, the flow counter, the descriptors
registered with `epoll_fd_`, the frames passed to `send` (descriptor and bytes, in
order) and the descriptors passed to `close`. -/
structure Service where
  device_list_ : List DeviceNode
  message_flow_num_ : Nat
  epoll : List Int
  sent : List (Int × List Nat)
  closed : List Int
deriving DecidableEq

/-- The envelope after `ProtocolParameters propara = {0}` and the `memset` of line 448:
all members zero, all pointers null; the arrays `version_num` and `packet_data` are
given 32 and 1024 bytes. -/
def zeroParameters : ProtocolParameters where
  respond_result := 0
  respond_id := 0
  respond_flow_num := 0
  phone_num := [0, 0, 0, 0, 0, 0]
  authen_code := [0, 0, 0, 0]
  manufacturer_id := [0, 0, 0, 0, 0]
  packet_total_num := 0
  packet_sequence_num := 0
  upgrade_type := 0
  version_num_len := 0
  version_num := List.replicate 32 0
  packet_data_len := 0
  packet_data := List.replicate 1024 0
  terminal_parameter_id_count := 0
  terminal_parameter_id_buffer := none
  terminal_parameter_list := none
  set_area_type := 0
  area_route_id_count := 0
  area_route_id_buffer := none
  circular_area_list := none
  rectangle_area_list := none
  polygonal_area_list := none
  pass_through := none
  can_bus_data_timestamp := { hour := 0, minute := 0, second := 0, millisecond := 0 }
  can_bus_data_item_list := Ptr.null

/-- Lines 476-489: the search loop over the registry with the local array `phone_num`
of six bytes, which keeps the bytes of the previous round, and the two assignments of
lines 486-487 to the first record whose packed phone number equals the six bytes
`phone`.  The result is the registry after the loop. -/
def bindDevice (phone manufacturer_id : List Nat) (new_sock : Int) :
    List DeviceNode → List Nat → Option (List DeviceNode)
  | [], _ => some []
  | d :: rest, phone_num => do
    let bcd := BcdFromStringCompress d.phone_num
    let phone_num ← memcpy phone_num 0 bcd bcd.length
    let phone ← loadBytes phone 0 6
    if phone_num.take 6 = phone then
      let m ← memcpy d.manufacturer_id 0 manufacturer_id 5
      pure ({ d with manufacturer_id := m, socket_fd := new_sock } :: rest)
    else (bindDevice phone manufacturer_id new_sock rest phone_num).map fun r => d :: r

/-- Lines 499-503: the socket is registered with the multiplexer when it is positive,
and returned. -/
def acceptFinish (new_sock : Int) (sv : Service) : Int × Service :=
  if new_sock > 0 then (new_sock, { sv with epoll := sv.epoll ++ [new_sock] })
  else (new_sock, sv)

/-- Lines 460-462, 465-467, 473-474 and 492-494: `close(new_sock); new_sock = -1`, and
what follows behind the `switch`. -/
def acceptDrop (new_sock : Int) (sv : Service) : Int × Service :=
  acceptFinish (-1) { sv with closed := sv.closed ++ [new_sock] }

/-- The statements `msg.len = Jt808FramePack(msg, command, propara); SendFrameData(
new_sock, msg)` behind the `memset` of `msg.buffer`: the flow counter is advanced and
the frame is passed to `send`, whose result is not looked at. -/
def acceptReply (cap : Nat) (new_sock : Int) (command : Nat) (propara : ProtocolParameters)
    (len0 : Nat) (sv : Service) : Option Service := do
  let (flow, msg, n) ← Jt808FramePack sv.message_flow_num_ ⟨List.replicate cap 0, len0⟩
    command propara
  pure { sv with message_flow_num_ := flow,
                 sent := sv.sent ++ [(new_sock, msg.buffer.take n)] }

/-- `case UP_AUTHENTICATION`, lines 469-491: the unified response is sent; when
`respond_result` is not `kSuccess` the socket is closed, otherwise the socket is bound to
the record of the phone number of the envelope. -/
def acceptAuthentication (cap : Nat) (new_sock : Int) (propara : ProtocolParameters)
    (len0 : Nat) (sv : Service) : Option (Int × Service) := do
  let sv ← acceptReply cap new_sock DOWN_UNIRESPONSE propara len0 sv
  if propara.respond_result % 256 ≠ kSuccess then pure (acceptDrop new_sock sv)
  else if sv.device_list_ ≠ [] then
    let devs ← bindDevice propara.phone_num propara.manufacturer_id new_sock sv.device_list_
      (List.replicate 6 0)
    pure (acceptFinish new_sock { sv with device_list_ := devs })
  else pure (acceptFinish new_sock sv)

/-- `Jt808Service::AcceptNewClient()`, lines 423-504, for a frame buffer of `cap` bytes:
`new_sock` is what `accept` returns, `first` and `second` are what the first and the
second call of `recv` on the new socket do (the second one is made only behind a
register message that was answered with `kSuccess`).  The result is the returned
descriptor and the service. -/
def AcceptNewClient (cap : Nat) (new_sock : Int) (first second : RecvOutcome)
    (sv : Service) : Option (Int × Service) :=
  let r1 := RecvFrameData cap first
  if r1.1 ≠ 0 then some (acceptFinish new_sock sv)
  else do
    let p1 ← Jt808FrameParse sv.device_list_ r1.2 zeroParameters
    if p1.message_id = UP_REGISTER then
      let sv ← acceptReply cap new_sock DOWN_REGISTERRESPONSE p1.propara p1.msg.len sv
      if p1.propara.respond_result % 256 ≠ kSuccess then pure (acceptDrop new_sock sv)
      else
        let r2 := RecvFrameData cap second
        if r2.1 = 0 then
          let p2 ← Jt808FrameParse sv.device_list_ r2.2 p1.propara
          if p2.message_id ≠ UP_AUTHENTICATION then pure (acceptDrop new_sock sv)
          else acceptAuthentication cap new_sock p2.propara p2.msg.len sv
        else acceptAuthentication cap new_sock p1.propara r2.2.len sv
    else if p1.message_id = UP_AUTHENTICATION then
      acceptAuthentication cap new_sock p1.propara p1.msg.len sv
    else pure (acceptDrop new_sock sv)

/-! ## Operator requests for terminal parameters: lines 127-131, 1239-1269, 1720-1748 -/

/-- The white-space characters of the C locale, which `sscanf` skips before a
conversion. -/
def isspace (c : Nat) : Bool := decide (c = 32 ∨ (9 ≤ c ∧ c ≤ 13))

/-- The value of a hexadecimal digit character. -/
def hexValue (c : Nat) : Option Nat :=
  if 48 ≤ c ∧ c ≤ 57 then some (c - 48)
  else if 65 ≤ c ∧ c ≤ 70 then some (c - 55)
  else if 97 ≤ c ∧ c ≤ 102 then some (c - 87)
  else none

/-- The number that the longest run of hexadecimal digits at the head of `s` stands for,
behind the digits already read as `acc`. -/
def scanHexDigits : List Nat → Nat → Nat
  | [], acc => acc
  | c :: cs, acc =>
    match hexValue c with
    | some d => scanHexDigits cs (acc * 16 + d)
    | none => acc

/-- The call `sscanf(arg.c_str(), "%X", &u32val)` of line 1738, by the rules of the C
library for the conversion `X`: white space is skipped, then an optional sign, an
optional `0x` or `0X` and at least one hexadecimal digit are read.  The result is
`some (some v)` when `v` is stored in `u32val`, `some none` when nothing matches and
`u32val` keeps its value, and `none` where the C standard leaves the stored value open
(a number that a `uint32_t` cannot hold). -/
def sscanfHex (arg : List Nat) : Option (Option Nat) :=
  let s := arg.dropWhile isspace
  let negative := decide (s.head? = some 45)
  let s := if s.head? = some 45 ∨ s.head? = some 43 then s.tail else s
  let s := match s with
    | 48 :: x :: t => if x = 120 ∨ x = 88 then t else s
    | _ => s
  match s with
  | [] => some none
  | c :: _ =>
    if (hexValue c).isNone then some none
    else
      let v := scanHexDigits s 0
      if (negative = true ∧ v ≠ 0) ∨ 4294967296 ≤ v then none else some (some v)

/-- The character of a hexadecimal digit in upper case. -/
def hexChar (d : Nat) : Nat := if d < 10 then 48 + d else 55 + d

/-- The hexadecimal digits of `n` in upper case in front of `acc`; eight rounds serve a
`uint32_t`. -/
def hexDigitsAux : Nat → Nat → List Nat → List Nat
  | 0, _, acc => acc
  | fuel + 1, n, acc =>
    if n < 16 then hexChar n :: acc
    else hexDigitsAux fuel (n / 16) (hexChar (n % 16) :: acc)

/-- The call `snprintf(parameter_id, 5, "%04X", id)` of line 1245 with a `uint32_t`
argument: the characters in front of the terminating NUL, which are the digits of `id`
in upper case, filled with `0` to four, of which the size 5 lets four through. -/
def snprintfHex4 (id : Nat) : List Nat :=
  let digits := hexDigitsAux 8 (id % 4294967296) []
  (List.replicate (4 - digits.length) 48 ++ digits).take 4

/-- `PreparePhoneNum`, lines 127-131: the packed digits of `src` are written into the
zeroed local array of six bytes, and the six bytes are copied to `bcd_array`. -/
def PreparePhoneNum (src : List Nat) : Option (List Nat) := do
  let bcd := BcdFromStringCompress src
  let phone_num ← memcpy (List.replicate 6 0) 0 bcd bcd.length
  loadBytes phone_num 0 6

/-- The loop of lines 1244-1250 of `PrepareParemeterIdList`; the first argument is
`id_vec` from its back to its front, which is the order in which `back()` and
`pop_back()` hand out the elements. -/
def prepareIdLoop : List Nat → List (List Nat) → List (List Nat)
  | [], va_vec => va_vec
  | id :: id_vec, va_vec => prepareIdLoop id_vec (va_vec ++ [snprintfHex4 id])

/-- `PrepareParemeterIdList`, lines 1239-1253; a vector is the list of its elements from
front to back.  The result is `va_vec`. -/
def PrepareParemeterIdList (va_vec : List (List Nat)) (id_vec : List Nat) :
    List (List Nat) :=
  (prepareIdLoop id_vec.reverse.reverse va_vec).reverse

/-- The loop of lines 1735-1743 of `DealGetTerminalParameterRequest`; the first argument
is `va_vec` from its back to its front, `u32val` is the local variable (`none` as long as
it holds no value), `ptr` the offset of the pointer in the id buffer, and `count` is
`propara.terminal_parameter_id_count`, the `count(u8)` of section 4.2.  The result is the
id buffer and the count. -/
def idBufferLoop : List (List Nat) → Option Nat → List Nat → Nat → Nat →
    Option (List Nat × Nat)
  | [], _, buffer, _, count => some (buffer, count)
  | arg :: va_vec, u32val, buffer, ptr, count => do
    let scanned ← sscanfHex arg
    let u32val ← (match scanned with
      | some v => some v
      | none => u32val)
    let parameter_id := EndianSwap32 u32val
    let buffer ← memcpy buffer ptr (le32 parameter_id) 4
    idBufferLoop va_vec (some u32val) buffer (ptr + 4) ((count + 1) % 256)

/-- `Jt808Service::DealGetTerminalParameterRequest`, lines 1720-1745, for a frame buffer
of `cap` bytes: what `Jt808FramePack` returns for the frame that line 1748 passes to
`SendFrameData`.  `va_vec` is the vector of the arguments from front to back. -/
def DealGetTerminalParameterRequest (message_flow_num_ cap : Nat) (device : DeviceNode)
    (va_vec : List (List Nat)) : Option (Nat × MessageData × Nat) := do
  let phone_num ← PreparePhoneNum device.phone_num
  let propara := { zeroParameters with
    phone_num := phone_num, terminal_parameter_id_count := 0 }
  if va_vec = [] then
    Jt808FramePack message_flow_num_ ⟨List.replicate cap 0, 0⟩ DOWN_GETTERMPARA propara
  else
    let (buffer, count) ←
      idBufferLoop va_vec.reverse none (List.replicate (va_vec.length * 4) 0) 0 0
    Jt808FramePack message_flow_num_ ⟨List.replicate cap 0, 0⟩ DOWN_GETSPECTERMPARA
      { propara with terminal_parameter_id_count := count,
                     terminal_parameter_id_buffer := some buffer }

/-- `Jt808Service::DealGetStartupRequest`, lines 1255-1269: the frame of the request
that the profile verb `get startup` expands to. -/
def DealGetStartupRequest (message_flow_num_ cap : Nat) (device : DeviceNode) :
    Option (Nat × MessageData × Nat) :=
  DealGetTerminalParameterRequest message_flow_num_ cap device
    (PrepareParemeterIdList []
      [STARTUPGPS, STARTUPCDRADIO, STARTUPNTRIPCORS, STARTUPNTRIPSERV, STARTUPJT808SERV])

/-- `Jt808Service::ParseCommand`, lines 2237-2248, 2266-2268 and 2320-2322, for the
command `<phone> getterminalparameter <args>` of a connected terminal: line 2248 turns
the vector of the tokens round, the phone number and the verb are taken from its back,
and what is left goes to `DealGetTerminalParameterRequest`. -/
def parseCommandGetTerminalParameter (message_flow_num_ cap : Nat) (device : DeviceNode)
    (args : List (List Nat)) : Option (Nat × MessageData × Nat) :=
  DealGetTerminalParameterRequest message_flow_num_ cap device args.reverse

/-! ## The steady state of a terminal: `Run`, lines 538-557 -/

/-- What the branch of `Run` for a readable terminal socket leaves behind: the envelope
and the flow counter, the frame passed to `send` (if any), and whether the socket was
unregistered and closed. -/
structure SteadyEvent where
  propara : ProtocolParameters
  message_flow_num_ : Nat
  sent : Option (List Nat)
  dropped : Bool
deriving DecidableEq

/-- Lines 540-557 of `Jt808Service::Run` for an event on the socket of a registry record,
for a frame buffer of `cap` bytes: `propara` is the local envelope of `Run`, which the
loop never clears, `o` is what `recv` does and `sendOk` says whether `SendFrameData`
returns 0. -/
def runTerminalEvent (cap message_flow_num_ : Nat) (device_list_ : List DeviceNode)
    (propara : ProtocolParameters) (o : RecvOutcome) (sendOk : Bool) : Option SteadyEvent :=
  let r := RecvFrameData cap o
  if r.1 ≠ 0 then some ⟨propara, message_flow_num_, none, true⟩
  else do
    let p ← Jt808FrameParse device_list_ r.2 propara
    if p.message_id = UP_UPDATERESULT ∨ p.message_id = UP_POSITIONREPORT then
      let (flow, msg, n) ← Jt808FramePack message_flow_num_ ⟨List.replicate cap 0, p.msg.len⟩
        DOWN_UNIRESPONSE p.propara
      pure ⟨p.propara, flow, some (msg.buffer.take n), !sendOk⟩
    else pure ⟨p.propara, message_flow_num_, none, false⟩

/-! ## Setting terminal parameters: `DealSetTerminalParameterRequest`, lines 1803-1893 -/

/-- The conversion `%x` of `sscanf` on the input `s`, by the rules of the C library:
`some (some (v, rest))` when the number `v` is converted and `rest` is the input behind
it, `some none` when nothing matches, and `none` where the C standard leaves the value
open (a number that a `uint32_t` cannot hold). -/
def scanHexItem (s : List Nat) : Option (Option (Nat × List Nat)) :=
  let s := s.dropWhile isspace
  let negative := decide (s.head? = some 45)
  let s := if s.head? = some 45 ∨ s.head? = some 43 then s.tail else s
  let s := match s with
    | 48 :: x :: t => if x = 120 ∨ x = 88 then t else s
    | _ => s
  match s with
  | [] => some none
  | c :: _ =>
    if (hexValue c).isNone then some none
    else
      let v := scanHexDigits s 0
      if (negative = true ∧ v ≠ 0) ∨ 4294967296 ≤ v then none
      else some (some (v, s.dropWhile fun c => (hexValue c).isSome))

/-- The call `sscanf(arg.c_str(), "%x:%s", &u32val, value)` of line 1834: the number
stored in `u32val` (if the conversion `%x` takes place) and the characters stored in
`value` in front of the terminating NUL (if the colon is there and the conversion `%s`
takes place).  The array `value` has 256 bytes; a longer word is `none`. -/
def sscanfHexString (arg : List Nat) : Option (Option Nat × Option (List Nat)) := do
  let s := arg.takeWhile fun c => decide (c ≠ 0)
  let item ← scanHexItem s
  match item with
  | none => pure (none, none)
  | some (v, rest) =>
    match rest with
    | 58 :: rest =>
      let word := (rest.dropWhile isspace).takeWhile fun c => !isspace c
      if word = [] then pure (some v, none)
      else if 256 ≤ word.length + 1 then none
      else pure (some v, some word)
    | _ => pure (some v, none)

/-- The number that the longest run of decimal digits at the head of `s` stands for,
behind the digits already read as `acc`. -/
def scanDecDigits : List Nat → Nat → Nat
  | [], acc => acc
  | c :: cs, acc => if 48 ≤ c ∧ c ≤ 57 then scanDecDigits cs (acc * 10 + (c - 48)) else acc

/-- The call `atoi(s)` of the C library on a `char` array: white space, an optional sign
and decimal digits; `none` when the number is outside the range of `int`, where the
behaviour is undefined. -/
def atoi (s : List Nat) : Option Int :=
  let s := s.dropWhile isspace
  let negative := decide (s.head? = some 45)
  let s := if s.head? = some 45 ∨ s.head? = some 43 then s.tail else s
  let v : Int := (scanDecDigits s 0 : Nat)
  let r : Int := if negative = true then -v else v
  if -2147483648 ≤ r ∧ r ≤ 2147483647 then some r else none

/-- What one round of the loop of lines 1831-1863 has computed in front of the test of
line 1856: `parameter_id`, the array `parameter_value` and `strlen(value)`. -/
structure SetParaArg where
  parameter_id : Nat
  parameter_value : List Nat
  value_len : Nat
deriving DecidableEq

/-- Lines 1832-1855, one round of the loop for the argument `arg` with the value
`u32val` of the local variable: `some none` is the `continue` of line 1854, otherwise
the result is what the round has computed and the new value of `u32val`. -/
def setParaArg (arg : List Nat) (u32val : Nat) : Option (Option (SetParaArg × Nat)) := do
  let (id, word) ← sscanfHexString arg
  let word := word.getD []
  let value ← memcpy (List.replicate 256 0) 0 (word ++ [0]) (word.length + 1)
  let u32val := id.getD u32val
  let parameter_id := u32val
  let zero := List.replicate 256 0
  let ty := GetParameterTypeByParameterId parameter_id
  if ty = kByteType then
    let n ← atoi value
    let parameter_value ← memcpy zero 0 [(n % 256).toNat] 1
    let len ← strlen value
    pure (some (⟨parameter_id, parameter_value, len⟩, u32val))
  else if ty = kWordType then
    let n ← atoi value
    let parameter_value ← memcpy zero 0 (le16 (n % 65536).toNat) 2
    let len ← strlen value
    pure (some (⟨parameter_id, parameter_value, len⟩, u32val))
  else if ty = kDwordType then
    let n ← atoi value
    let u32val := (n % 4294967296).toNat
    let parameter_value ← memcpy zero 0 (le32 u32val) 4
    let len ← strlen value
    pure (some (⟨parameter_id, parameter_value, len⟩, u32val))
  else if ty = kStringType then
    let len ← strlen value
    let parameter_value ← memcpy zero 0 value len
    pure (some (⟨parameter_id, parameter_value, len⟩, u32val))
  else pure none

/-- The loop `while (!va_vec.empty())` of lines 1831-1863; the second argument is
`va_vec` from its back to its front, then `data_len`, `u32val` and the list of the
envelope.  A run that has not left the loop when the fuel is used up gives `none`.  The
result is what is left of `va_vec`, `u32val` and the list. -/
def setParaRound : Nat → List (List Nat) → Nat → Nat → List TerminalParameter →
    Option (List (List Nat) × Nat × List TerminalParameter)
  | 0, _, _, _, _ => none
  | _ + 1, [], _, u32val, list => some ([], u32val, list)
  | fuel + 1, arg :: va_vec, data_len, u32val, list => do
    let r ← setParaArg arg u32val
    match r with
    | none => setParaRound fuel (arg :: va_vec) data_len u32val list
    | some (a, u32val) =>
      if data_len + 5 + a.value_len > 1022 then pure (arg :: va_vec, u32val, list)
      else
        let list ← AddParameterNodeIntoList (some list) a.parameter_id a.parameter_value
        setParaRound fuel va_vec (data_len + 5 + a.value_len) u32val (list.getD [])

/-- The loops of lines 1872-1884 and 2451-2462, which wait for the answer of the
terminal: `recvs` is what the successive calls of `recv` do (a run that needs more calls
than the list has gives `none`), `accept` is the test on the parsed message that leaves
the loop.  The result is the calls left, the envelope, the message, and whether the
socket was closed. -/
def waitRespond (cap : Nat) (device_list_ : List DeviceNode) (accept : ParseResult → Bool) :
    List RecvOutcome → ProtocolParameters →
      Option (List RecvOutcome × ProtocolParameters × MessageData × Bool)
  | [], _ => none
  | o :: recvs, propara =>
    let r := RecvFrameData cap o
    if r.1 ≠ 0 then some (recvs, propara, r.2, true)
    else if r.2.len > 0 then do
      let p ← Jt808FrameParse device_list_ r.2 propara
      if accept p = true then pure (recvs, p.propara, p.msg, false)
      else waitRespond cap device_list_ accept recvs p.propara
    else waitRespond cap device_list_ accept recvs propara

/-- The test of lines 1879-1880: `Jt808FrameParse(msg, propara) &&
(propara.respond_id == DOWN_SETTERMPARA)`. -/
def setParaAccept (p : ParseResult) : Bool :=
  decide (p.message_id ≠ 0 ∧ p.propara.respond_id = DOWN_SETTERMPARA)

/-- A frame of `DealSetTerminalParameterRequest`: the envelope `Jt808FramePack` was
called with, the descriptor and the bytes passed to `send`. -/
structure SetParaFrame where
  propara : ProtocolParameters
  socket_fd : Int
  frame : List Nat
deriving DecidableEq

/-- What `DealSetTerminalParameterRequest` leaves behind: the frames in the order they
were sent, the socket of the record and the flow counter. -/
structure SetParaRun where
  sent : List SetParaFrame
  socket_fd : Int
  message_flow_num_ : Nat
deriving DecidableEq

/-- The loop `while (1)` of lines 1828-1892; `va_vec` is the vector from its back to its
front.  The fuel bounds the rounds of this loop and of the loop inside. -/
def setParaLoop (cap : Nat) (device_list_ : List DeviceNode) (phone_num : List Nat) :
    Nat → Nat → List (List Nat) → Nat → ProtocolParameters → MessageData → Nat → Int →
      List RecvOutcome → List SetParaFrame → Option SetParaRun
  | 0, _, _, _, _, _, _, _, _, _ => none
  | fuel + 1, inner, va_vec, u32val, propara, msg, flow, socket_fd, recvs, sent => do
    let (va_vec, u32val, list) ← setParaRound inner va_vec 0 u32val []
    if list = [] then pure ⟨sent, socket_fd, flow⟩
    else
      let phone ← PreparePhoneNum phone_num
      let propara := { propara with terminal_parameter_list := some list, phone_num := phone }
      let (flow, msg, n) ← Jt808FramePack flow msg DOWN_SETTERMPARA propara
      let sent := sent ++ [⟨propara, socket_fd, msg.buffer.take n⟩]
      let (recvs, propara, msg, closed) ←
        waitRespond cap device_list_ setParaAccept recvs propara
      let socket_fd := if closed = true then -1 else socket_fd
      if va_vec = [] then pure ⟨sent, socket_fd, flow⟩
      else
        let propara :=
          if propara.packet_total_num % 65536 > propara.packet_sequence_num % 65536 then
            { propara with packet_sequence_num := (propara.packet_sequence_num + 1) % 65536 }
          else propara
        setParaLoop cap device_list_ phone_num fuel inner va_vec u32val propara msg flow
          socket_fd recvs sent

/-- `Jt808Service::DealSetTerminalParameterRequest`, lines 1803-1893, for a frame buffer
of `cap` bytes: `va_vec` is the vector of the arguments from front to back, `recvs` is
what the successive calls of `recv` on the socket of the terminal do.  `data_len` is a
`uint16_t`. -/
def DealSetTerminalParameterRequest (fuel cap message_flow_num_ : Nat)
    (device_list_ : List DeviceNode) (device : DeviceNode) (va_vec : List (List Nat))
    (recvs : List RecvOutcome) : Option SetParaRun :=
  let data_len := (va_vec.map fun arg => 5 + arg.length).sum % 65536
  let propara :=
    if data_len > 1022 then
      { zeroParameters with packet_total_num := (data_len / 1022 + 1) % 65536,
                            packet_sequence_num := 1 }
    else zeroParameters
  setParaLoop cap device_list_ device.phone_num fuel fuel va_vec.reverse 0 propara
    ⟨List.replicate cap 0, 0⟩ message_flow_num_ device.socket_fd recvs []

/-- `Jt808Service::ParseCommand`, lines 2237-2248, 2266-2268 and 2354-2356, for the
command `<phone> setterminalparameter <args>` of a connected terminal: line 2248 turns
the vector of the tokens round, the phone number and the verb are taken from its back,
and what is left goes to `DealSetTerminalParameterRequest`. -/
def parseCommandSetTerminalParameter (fuel cap message_flow_num_ : Nat)
    (device_list_ : List DeviceNode) (device : DeviceNode) (args : List (List Nat))
    (recvs : List RecvOutcome) : Option SetParaRun :=
  DealSetTerminalParameterRequest fuel cap message_flow_num_ device_list_ device args.reverse
    recvs

/-! ## The upgrade worker: `UpgradeHandler`, lines 2392-2478 -/

/-- The test of lines 2457-2458: `(Jt808FrameParse(msg, propara) == UP_UNIRESPONSE) &&
(propara.respond_id == DOWN_UPDATEPACKAGE)`. -/
def upgradeAccept (p : ParseResult) : Bool :=
  decide (p.message_id = UP_UNIRESPONSE ∧ p.propara.respond_id = DOWN_UPDATEPACKAGE)

/-- A frame of `UpgradeHandler`: the envelope `Jt808FramePack` was called with and the
bytes passed to `send`. -/
structure UpgradeFrame where
  propara : ProtocolParameters
  frame : List Nat
deriving DecidableEq

/-- What `UpgradeHandler` leaves behind: the frames in the order they were sent, whether
the socket of the terminal was closed, and the flow counter. -/
structure UpgradeRun where
  sent : List UpgradeFrame
  closed : Bool
  message_flow_num_ : Nat
deriving DecidableEq

/-- The loop `while (len > 0)` of lines 2432-2469: `data` is the array with the bytes of
the file, `len` and `max_data_len` are `uint32_t`, `msg_len` is `msg.len`, `sends` says
for the successive calls of `SendFrameData` whether they return 0, and `recvs` is what
the successive calls of `recv` do.  The difference `packet_sequence_num - 1` is an `int`
and becomes a `uint32_t` in the product with `max_data_len`. -/
def upgradeLoop (cap : Nat) (device_list_ : List DeviceNode) (data : List Nat)
    (max_data_len : Nat) :
    Nat → Nat → ProtocolParameters → Nat → Nat → List Bool → List RecvOutcome →
      List UpgradeFrame → Option UpgradeRun
  | 0, _, _, _, _, _, _, _ => none
  | fuel + 1, len, propara, flow, msg_len, sends, recvs, sent =>
    if len > 0 then do
      let packet_data_len := if len > max_data_len then max_data_len else len
      let len := len - packet_data_len
      let offset := max_data_len
        * ((propara.packet_sequence_num % 65536 + 4294967295) % 4294967296) % 4294967296
      let chunk ← loadBytes data offset packet_data_len
      let packet_data ← memcpy (List.replicate 1024 0) 0 chunk packet_data_len
      let propara := { propara with packet_data_len := packet_data_len,
                                    packet_data := packet_data }
      let (flow, msg, n) ← Jt808FramePack flow ⟨List.replicate cap 0, msg_len⟩
        DOWN_UPDATEPACKAGE propara
      let sent := sent ++ [⟨propara, msg.buffer.take n⟩]
      match sends with
      | [] => none
      | false :: _ => pure ⟨sent, true, flow⟩
      | true :: sends =>
        let (recvs, propara, msg, closed) ←
          waitRespond cap device_list_ upgradeAccept recvs propara
        if closed = true then pure ⟨sent, true, flow⟩
        else
          upgradeLoop cap device_list_ data max_data_len fuel len
            { propara with packet_sequence_num := (propara.packet_sequence_num + 1) % 65536 }
            flow msg.len sends recvs sent
    else pure ⟨sent, false, flow⟩

/-- `Jt808Service::UpgradeHandler`, lines 2392-2478, for a frame buffer of `cap` bytes:
`file` is the content of the file at `file_path` (`none` when it cannot be opened).  The
statements on the multiplexer and on `has_upgrade` are left out; the result tells the
frames sent. -/
def UpgradeHandler (fuel cap message_flow_num_ : Nat) (device_list_ : List DeviceNode)
    (file : Option (List Nat)) (sends : List Bool) (recvs : List RecvOutcome) :
    Option UpgradeRun :=
  match device_list_.find? fun d => d.has_upgrade with
  | none => some ⟨[], false, message_flow_num_⟩
  | some device =>
    match file with
    | none => some ⟨[], false, message_flow_num_⟩
    | some file => do
      let version := device.upgrade_version.takeWhile fun c => decide (c ≠ 0)
      let version_num ← memcpy zeroParameters.version_num 0 version version.length
      let max_data_len := (1023 + 4294967296 - 11 - version.length % 4294967296) % 4294967296
      let len := file.length % 4294967296
      let data := file.take len
      let propara := { zeroParameters with
        version_num := version_num,
        packet_total_num := (len / max_data_len + 1) % 65536,
        packet_sequence_num := 1,
        upgrade_type := device.upgrade_type % 256,
        version_num_len := version.length % 256 }
      upgradeLoop cap device_list_ data max_data_len fuel len propara message_flow_num_ 0
        sends recvs []

/-! ## The handshake rules in the words of the specification (section 4.6) -/

/-- Section 4.6, step 2: the envelope `p` after the register rules for the header phone
`phone` and the manufacturer id `manufacturer` of the body: `no_such_vehicle` if the
registry is empty, `no_such_terminal` if no record has the phone, `terminal_already_
registered` if the record has a live socket, otherwise `register_success` with the
authentication code of the record and the manufacturer id in the envelope. -/
def registerRulesSpec (registry : List DeviceNode) (phone manufacturer : List Nat)
    (p : ProtocolParameters) : ProtocolParameters :=
  if registry = [] then { p with respond_result := kNoSuchVehicleInTheDatabase }
  else
    match registry.find? fun d => decide (BcdFromStringCompress d.phone_num = phone) with
    | none => { p with respond_result := kNoSuchTerminalInTheDatabase }
    | some d =>
      if d.socket_fd = -1 then
        { p with respond_result := kRegisterSuccess, authen_code := d.authen_code.take 4,
                 manufacturer_id := manufacturer }
      else { p with respond_result := kTerminalHaveBeenRegistered }

/-! ## The get-parameter response in the words of the specification (sections 4.2, 4.3) -/

/-- Section 4.2, get-parameter response: a tuple on the wire, its id and its value
bytes. -/
structure WireParameter where
  id : Nat
  value : List Nat
deriving DecidableEq

/-- Section 4.2, get-parameter response: the bytes of a tuple, `id(u32) || length(u8) ||
value`. -/
def wireParameterSpec (t : WireParameter) : List Nat :=
  be32 t.id ++ [t.value.length] ++ t.value

/-- The number that bytes in big-endian order stand for. -/
def beValue (bytes : List Nat) : Nat := bytes.foldl (fun acc b => acc * 256 + b) 0

/-- Sections 4.2 and 4.3: the tuple of the envelope that a wire tuple decodes to.  The
type is that of the registry (`unknown` for an id outside it), the length is the length
byte of the wire, a word or dword value is the number its bytes stand for big-endian
(held in the value array as the host holds it), and every other value is the bytes of
the wire; the rest of the value array of 256 bytes is zero. -/
def decodedParameterSpec (t : WireParameter) : TerminalParameter :=
  let ty := GetParameterTypeByParameterId t.id
  { parameter_id := t.id, parameter_type := ty, parameter_len := t.value.length,
    parameter_value :=
      (if ty = kWordType then le16 (beValue t.value)
       else if ty = kDwordType then le32 (beValue t.value)
       else t.value) ++ List.replicate (256 - t.value.length) 0 }

/-- A wire tuple whose id is a `u32`, whose value bytes are bytes, at most 255 of them,
and whose length matches its type: 1, 2 and 4 bytes for a byte, a word and a dword
parameter, and a string value without NUL. -/
def WireParameter.wellFormed (t : WireParameter) : Prop :=
  t.id < 4294967296 ∧ (∀ b ∈ t.value, b < 256) ∧ t.value.length ≤ 255 ∧
  (GetParameterTypeByParameterId t.id = kByteType → t.value.length = 1) ∧
  (GetParameterTypeByParameterId t.id = kWordType → t.value.length = 2) ∧
  (GetParameterTypeByParameterId t.id = kDwordType → t.value.length = 4) ∧
  (GetParameterTypeByParameterId t.id = kStringType → 0 ∉ t.value)

/-- The tuple that the loop of lines 1128-1157 appends for a well-formed wire tuple: for
an id of the registry the decoded tuple, for an id outside it a tuple of the type
`unknown` with the length 0 and a zeroed value array. -/
def parsedParameter (t : WireParameter) : TerminalParameter :=
  if GetParameterTypeByParameterId t.id = kUnknowType then
    { parameter_id := t.id, parameter_type := kUnknowType, parameter_len := 0,
      parameter_value := List.replicate 256 0 }
  else decodedParameterSpec t

/-- Section 4.2, get-parameter response 0x0104 of the terminal `phone` with the flow
number `flow`, which answers the request with the flow number `request`: the frame with
the body `flow_number(u16) || count(u8) || repeated tuple`. -/
def getParaResponseSpec (phone : List Nat) (flow request : Nat) (ts : List WireParameter) :
    List Nat :=
  encode_frame
    (headerSpec 0x0104 (3 + (ts.map fun t => 5 + t.value.length).sum) phone flow)
    (be16 request ++ [ts.length % 256] ++ ts.flatMap wireParameterSpec)

/-! ## Dialogs with an answering terminal -/

/-- The call of `recv` with the outcome `o` delivers an answer that ends the wait of
`waitRespond`: a message that `Jt808FrameParse` returns as a unified response, with no
member of the envelope changed but `respond_flow_num` and `respond_id`, and that passes
the test `accept`. -/
def Acknowledges (cap : Nat) (device_list_ : List DeviceNode) (accept : ParseResult → Bool)
    (o : RecvOutcome) : Prop :=
  (RecvFrameData cap o).1 = 0 ∧ 0 < (RecvFrameData cap o).2.len ∧
  ∀ p : ProtocolParameters, ∃ flow id msg, msg.buffer.length = cap ∧
    Jt808FrameParse device_list_ (RecvFrameData cap o).2 p
      = some ⟨UP_UNIRESPONSE, msg, { p with respond_flow_num := flow, respond_id := id }⟩ ∧
    accept ⟨UP_UNIRESPONSE, msg, { p with respond_flow_num := flow, respond_id := id }⟩ = true

/-- The argument `arg` of a set request is read as the tuple `node`, with a value string
of `n` characters: `sscanf` converts its id, the round of the loop of lines 1831-1863
computes the parameter, and `AddParameterNodeIntoList` makes `node` of it. -/
def SetParaReads (arg : List Nat) (node : TerminalParameter) (n : Nat) : Prop :=
  ∃ id w a u, sscanfHexString arg = some (some id, w) ∧
    setParaArg arg 0 = some (some (a, u)) ∧ a.value_len = n ∧
    AddParameterNodeIntoList (some []) a.parameter_id a.parameter_value = some (some [node])

/-- The number of leading arguments, with value strings of the lengths `ns`, that the
test of line 1856 lets through behind `data_len` bytes. -/
def fitCount (data_len : Nat) : List Nat → Nat
  | [] => 0
  | n :: ns => if data_len + 5 + n > 1022 then 0 else 1 + fitCount (data_len + 5 + n) ns

/-- Section 4.2, set terminal parameter: the bytes of the message of the envelope
`propara` with the flow number `flow` between the delimiters, in front of the checksum
and before escaping: the header, whose attribute word holds the fragmentation bit and 1
plus the sum over the tuples of `5 + parameter_len` as `msglen`, the fragmentation
words, the count byte and the tuples. -/
def setTermParaBytes (propara : ProtocolParameters) (flow : Nat) : List Nat :=
  headerSpec 0x8103
      (attrSetMsglen (if propara.packet_total_num % 65536 > 1 then 8192 else 0)
        (1 + ((propara.terminal_parameter_list.getD []).map fun p => 5 + p.parameter_len).sum))
      propara.phone_num flow
    ++ (fragmentWordsSpec propara ++ setTermParaSpec propara)

/-- The bytes of the frame `f` are the set-terminal-parameter message of its envelope:
the start delimiter, the escaped header, body and checksum, and the end delimiter.  The
end delimiter stands behind the escape byte `0x7D` when the frame buffer held `0x7E` or
`0x7D` behind the checksum before the call: lines 965-975 escape that byte with the
message. -/
def SetParaFrame.carriesEnvelope (f : SetParaFrame) : Prop :=
  ∃ flow t, (t = [0x7E] ∨ t = [0x7D, 0x7E]) ∧
    f.frame = [0x7E]
      ++ escapeSpec (setTermParaBytes f.propara flow
          ++ [bccList (setTermParaBytes f.propara flow)]) ++ t

/-- Section 4.2, firmware upgrade package: the frame of the envelope `propara` with the
flow number `flow`; the attribute word holds the fragmentation bit and the length of
the body as `msglen`. -/
def updatePackageFrameSpec (propara : ProtocolParameters) (flow : Nat) : List Nat :=
  encode_frame
    (headerSpec 0x8108
      (attrSetMsglen (if propara.packet_total_num % 65536 > 1 then 8192 else 0)
        (11 + propara.version_num_len + propara.packet_data_len))
      propara.phone_num flow)
    (fragmentWordsSpec propara ++ updatePackageSpec propara)

/-- The envelopes `p` and `q` agree in the members that `UpgradeHandler` sets up in
front of its loop (lines 2414-2431) and in the phone number and the manufacturer id. -/
def sameUpgradeEnvelope (p q : ProtocolParameters) : Prop :=
  q.phone_num = p.phone_num ∧ q.manufacturer_id = p.manufacturer_id ∧
  q.packet_total_num = p.packet_total_num ∧ q.upgrade_type = p.upgrade_type ∧
  q.version_num_len = p.version_num_len ∧ q.version_num = p.version_num

/-- Section 4.6, firmware upgrade: the bytes `[i * max_chunk, min((i + 1) * max_chunk,
file_size))` of the file, which the package with the index `i + 1` carries. -/
def fileChunkSpec (file : List Nat) (max_chunk i : Nat) : List Nat :=
  (file.drop (i * max_chunk)).take max_chunk

/-! ## Example registry and uplink frames -/

/-- A registry record as `ReadDevicesList` builds it from the line
`012345678901;67305985`: the digits of the phone number, the four bytes of the number
67305985 on the host, no socket. -/
def exampleDevice : DeviceNode :=
  { phone_num := [48, 49, 50, 51, 52, 53, 54, 55, 56, 57, 48, 49],
    authen_code := [1, 2, 3, 4], manufacturer_id := [0, 0, 0, 0, 0], socket_fd := -1,
    has_upgrade := false, upgrade_type := 0, upgrade_version := [], file_path := [] }

/-- The record of the terminal `012345678902`, which has the live socket 5. -/
def liveDevice : DeviceNode :=
  { exampleDevice with
    phone_num := [48, 49, 50, 51, 52, 53, 54, 55, 56, 57, 48, 50], socket_fd := 5 }

/-- A register message 0x0100 of the terminal `012345678901` with flow number 1, as
received into a buffer of 64 bytes: the body holds province and city (zero) and the
manufacturer id `ABCDE`. -/
def registerMessage : MessageData :=
  ⟨encode_frame (headerSpec 0x0100 9 [0x01, 0x23, 0x45, 0x67, 0x89, 0x01] 1)
      [0, 0, 0, 0, 65, 66, 67, 68, 69] ++ List.replicate 40 0, 24⟩

/-- An authentication message 0x0102 of the terminal `012345678901` with flow number 2
and the body `code`, as received into a buffer of 64 bytes. -/
def authenticationMessage (code : List Nat) : MessageData :=
  ⟨encode_frame (headerSpec 0x0102 code.length [0x01, 0x23, 0x45, 0x67, 0x89, 0x01] 2) code
      ++ List.replicate (49 - code.length) 0, 15 + code.length⟩

/-- The service with the two example records in the registry, the descriptors 3, 4 and 5
registered with the multiplexer and nothing sent or closed yet. -/
def exampleService : Service := ⟨[liveDevice, exampleDevice], 0, [3, 4, 5], [], []⟩

/-- What `AcceptNewClient` returns on `exampleService` when the terminal `012345678901`
sends its register message and its authentication message on the new socket 7: the
socket, and the service with the record bound to it, the socket registered and the two
replies sent. -/
def admittedRun : Int × Service :=
  (7, ⟨[liveDevice, { exampleDevice with
          manufacturer_id := [65, 66, 67, 68, 69], socket_fd := 7 }], 2, [3, 4, 5, 7],
        [(7, encode_frame (headerSpec 0x8100 7 [0x01, 0x23, 0x45, 0x67, 0x89, 0x01] 1)
            (be16 1 ++ [0] ++ [1, 2, 3, 4])),
         (7, encode_frame (headerSpec 0x8001 5 [0x01, 0x23, 0x45, 0x67, 0x89, 0x01] 2)
            (be16 2 ++ be16 0x0102 ++ [0]))], []⟩)

/-- A position report 0x0200 of the terminal `012345678902` with the flow number 7: no
alarm, status 3, latitude 31.0 and longitude 121.0 degrees, altitude 50 m, the speed
word 420 (42.0 km/h), bearing 90, time 2026-11-01 12:30:45. -/
def positionReportFrame : List Nat :=
  encode_frame (headerSpec 0x0200 28 [0x01, 0x23, 0x45, 0x67, 0x89, 0x02] 7)
    ([0, 0, 0, 0] ++ [0, 0, 0, 3] ++ be32 31000000 ++ be32 121000000 ++ be16 50 ++ be16 420
      ++ be16 90 ++ [0x26, 0x11, 0x01, 0x12, 0x30, 0x45])

/-- The unified response 0x0001 of the terminal `012345678902` with the flow number 9,
which answers the message with the flow number 1 and the id `id` with the result 0. -/
def respondFrame (id : Nat) : List Nat :=
  encode_frame (headerSpec 0x0001 5 [0x01, 0x23, 0x45, 0x67, 0x89, 0x02] 9)
    (be16 1 ++ be16 id ++ [0])

/-- The record of the terminal `012345678902` with a pending upgrade of the type `0x34`
to the version `V1.0`. -/
def upgradeDevice : DeviceNode :=
  { liveDevice with has_upgrade := true, upgrade_type := 0x34,
                    upgrade_version := [86, 49, 46, 48] }

/-- The argument `F000:00...01` of 255 characters: the id of a byte parameter and a value
string of 250 digits that stands for the number 1. -/
def paddedArgument : List Nat :=
  [70, 48, 48, 48, 58] ++ List.replicate 249 48 ++ [49]

/-- Three wire tuples: the byte parameter `0xF000` with the value 1, the word parameter
`0xF031` with the value 8000 and the string parameter `0xF030` with the value
`1.2.3.4`. -/
def threeWireParameters : List WireParameter :=
  [⟨0xF000, [1]⟩, ⟨0xF031, [0x1F, 0x40]⟩, ⟨0xF030, [49, 46, 50, 46, 51, 46, 52]⟩]

/-- A wire tuple with the id `0x9999`, which is outside the parameter registry, and the
two value bytes `AB CD`. -/
def unknownWireParameter : WireParameter := ⟨0x9999, [0xAB, 0xCD]⟩

/-- The arguments `F000:1`, `f031:8000` and `F030:1.2.3.4` of a set request: a byte, a
word and a string parameter. -/
def exampleArguments : List (List Nat) :=
  [[70, 48, 48, 48, 58, 49], [102, 48, 51, 49, 58, 56, 48, 48, 48],
   [70, 48, 51, 48, 58, 49, 46, 50, 46, 51, 46, 52]]

/-- The tuples that the arguments `exampleArguments` stand for: the byte 1, the word
8000 as the host holds it, and the string `1.2.3.4`, each in a value array of 256
bytes. -/
def exampleNodes : List TerminalParameter :=
  [{ parameter_id := 0xF000, parameter_type := kByteType, parameter_len := 1,
     parameter_value := [1] ++ List.replicate 255 0 },
   { parameter_id := 0xF031, parameter_type := kWordType, parameter_len := 2,
     parameter_value := [0x40, 0x1F] ++ List.replicate 254 0 },
   { parameter_id := 0xF030, parameter_type := kStringType, parameter_len := 7,
     parameter_value := [49, 46, 50, 46, 51, 46, 52] ++ List.replicate 249 0 }]

/-- The argument `1:1` of a set request: the dword parameter `0x0001` with a value
string of one character. -/
def shortArgument : List Nat := [49, 58, 49]

/-- The tuple that the argument `1:1` stands for: the dword 1 as the host holds it. -/
def shortNode : TerminalParameter :=
  { parameter_id := 1, parameter_type := kDwordType, parameter_len := 4,
    parameter_value := [1, 0, 0, 0] ++ List.replicate 252 0 }

/-- A firmware file of 3500 bytes. -/
def exampleFirmware : List Nat := (List.range 3500).map fun i => i % 256

/-! ## Invariants of the dialogs -/

/-- The envelope `q` holds the version of an upgrade as `p` does (`version_num_len` and
`version_num`), and a manufacturer id of at least five bytes and a phone number of six
bytes if `p` does. -/
def sameVersion (p q : ProtocolParameters) : Prop :=
  q.version_num_len = p.version_num_len ∧ q.version_num = p.version_num ∧
  (5 ≤ p.manufacturer_id.length → 5 ≤ q.manufacturer_id.length) ∧
  (p.phone_num.length = 6 → q.phone_num.length = 6)

/-- The frame `f` is a package of an upgrade whose envelope was set up as `p0` and whose
chunks have at most `max_data_len` bytes: its envelope holds the version of `p0`, a
chunk of at most `max_data_len` bytes in the array `packet_data` of 1024 bytes, and its
bytes are what `Jt808FramePack` returns for the command `DOWN_UPDATEPACKAGE` and this
envelope in a zeroed buffer of `cap` bytes. -/
def UpgradeFrame.packageOf (cap max_data_len : Nat) (p0 : ProtocolParameters)
    (f : UpgradeFrame) : Prop :=
  sameVersion p0 f.propara ∧ f.propara.packet_data_len ≤ max_data_len ∧
  f.propara.packet_data.length = 1024 ∧
  ∃ flow msg_len r,
    Jt808FramePack flow ⟨List.replicate cap 0, msg_len⟩ DOWN_UPDATEPACKAGE f.propara = some r ∧
    f.frame = r.2.1.buffer.take r.2.2

/-- Section 4.2, firmware upgrade package: the bytes of the message of the envelope
`propara` with the flow number `flow` between the delimiters, in front of the checksum
and before escaping: the header with the attribute word `a`, the fragmentation words
and the body. -/
def updatePackageBytes (propara : ProtocolParameters) (a flow : Nat) : List Nat :=
  headerSpec 0x8108 a propara.phone_num flow
    ++ (fragmentWordsSpec propara ++ updatePackageSpec propara)

/-! ## Requests of the operator that wait for an answer: lines 1255-1302, 1720-1801 and
1896-2227 -/

/-- The bytes of a string literal of the source. -/
def cstr (s : String) : List Nat := s.toList.map Char.toNat

/-- The string that a `char` array holds: the bytes in front of the first NUL. -/
def cString (a : List Nat) : List Nat := a.takeWhile fun c => decide (c ≠ 0)

/-- The decimal digits of `n` in front of `acc`; ten rounds serve a `uint32_t`. -/
def decDigitsAux : Nat → Nat → List Nat → List Nat
  | 0, _, acc => acc
  | fuel + 1, n, acc =>
    if n < 10 then (48 + n) :: acc
    else decDigitsAux fuel (n / 10) ((48 + n % 10) :: acc)

/-- The characters that the conversion `%u` of `snprintf` writes for a `uint32_t`. -/
def formatUnsigned (v : Nat) : List Nat := decDigitsAux 10 (v % 4294967296) []

/-- The characters that the conversion `%04X` of `snprintf` writes for a `uint32_t`: the
digits in upper case, filled with `0` to four. -/
def formatHex4 (id : Nat) : List Nat :=
  let digits := hexDigitsAux 8 (id % 4294967296) []
  List.replicate (4 - digits.length) 48 ++ digits

/-- Lines 1776-1788: the string `parameter_s` for a tuple of the list.  A string value
is printed up to its NUL with `%04X:%s`, cut to the 511 characters the array holds; any
other value is copied into the zeroed `u32val` (`parameter_len` bytes) and printed with
`%04X:%u`. -/
def parameterItem (p : TerminalParameter) : Option (List Nat) :=
  if GetParameterTypeByParameterId p.parameter_id = kStringType then do
    let n ← strlen p.parameter_value
    pure ((formatHex4 p.parameter_id ++ [58] ++ p.parameter_value.take n).take 511)
  else do
    let v ← memcpy (le32 0) 0 p.parameter_value p.parameter_len
    let u32val ← rd32 v 0
    pure (formatHex4 p.parameter_id ++ [58] ++ formatUnsigned u32val)

/-- What `DealGetTerminalParameterRequest` leaves behind: the returned value, the vector
`va_vec` from front to back, the frames passed to `send`, whether the socket was closed,
and the flow counter. -/
structure GetParaRun where
  retval : Int
  va_vec : List (List Nat)
  sent : List (List Nat)
  closed : Bool
  message_flow_num_ : Nat
deriving DecidableEq

/-- The loop `while (1)` of lines 1755-1797: `sends` says for the successive calls of
`SendFrameData` whether they return 0, `recvs` is what the successive calls of `recv`
do (a run that needs more calls than the list has gives `none`).  `va_vec` is empty
when the loop is entered. -/
def getParaLoop (cap : Nat) (device_list_ : List DeviceNode) :
    List RecvOutcome → List Bool → ProtocolParameters → Nat → List (List Nat) →
      Option GetParaRun
  | [], _, _, _, _ => none
  | o :: recvs, sends, propara, flow, sent =>
    let r := RecvFrameData cap o
    if r.1 ≠ 0 then some ⟨-1, [], sent, true, flow⟩
    else if r.2.len > 0 then do
      let p ← Jt808FrameParse device_list_ r.2 propara
      if p.message_id = UP_GETPARARESPONSE then do
        let (flow, msg, n) ← Jt808FramePack flow ⟨List.replicate cap 0, 0⟩ DOWN_UNIRESPONSE
          p.propara
        let sent := sent ++ [msg.buffer.take n]
        match sends with
        | [] => none
        | false :: _ => pure ⟨-1, [], sent, true, flow⟩
        | true :: sends =>
          if p.propara.packet_total_num ≠ p.propara.packet_sequence_num then
            getParaLoop cap device_list_ recvs sends p.propara flow sent
          else do
            let items ← (p.propara.terminal_parameter_list.getD []).mapM parameterItem
            pure ⟨0, items.reverse, sent, false, flow⟩
      else getParaLoop cap device_list_ recvs sends p.propara flow sent
    else getParaLoop cap device_list_ recvs sends propara flow sent

/-- `Jt808Service::DealGetTerminalParameterRequest`, lines 1720-1801, the whole function
for a frame buffer of `cap` bytes: `va_vec` is the vector of the arguments from front to
back, `sends` and `recvs` are what the calls of `SendFrameData` and of `recv` on the
socket of the terminal do. -/
def Operator.DealGetTerminalParameterRequest (cap message_flow_num_ : Nat)
    (device_list_ : List DeviceNode) (device : DeviceNode) (va_vec : List (List Nat))
    (sends : List Bool) (recvs : List RecvOutcome) : Option GetParaRun := do
  let phone_num ← PreparePhoneNum device.phone_num
  let propara := { zeroParameters with
    phone_num := phone_num, terminal_parameter_id_count := 0 }
  let (command, propara) ←
    if va_vec = [] then some (DOWN_GETTERMPARA, propara)
    else do
      let (buffer, count) ←
        idBufferLoop va_vec.reverse none (List.replicate (va_vec.length * 4) 0) 0 0
      pure (DOWN_GETSPECTERMPARA,
        { propara with terminal_parameter_id_count := count,
                       terminal_parameter_id_buffer := some buffer })
  let (flow, msg, n) ←
    Jt808FramePack message_flow_num_ ⟨List.replicate cap 0, 0⟩ command propara
  match sends with
  | [] => none
  | false :: _ => pure ⟨-1, [], [msg.buffer.take n], true, flow⟩
  | true :: sends =>
    getParaLoop cap device_list_ recvs sends
      { propara with terminal_parameter_list := some [] } flow [msg.buffer.take n]

/-- The call `sscanf(arg.c_str(), "%x:%s", &parameter_id, value)` for an array `value`
of `size` bytes: the number stored in `parameter_id` (if the conversion `%x` takes
place) and the characters stored in `value` in front of the terminating NUL (if the
colon is there and the conversion `%s` takes place); a word that the array cannot hold
with its NUL is `none`. -/
def sscanfHexWord (size : Nat) (arg : List Nat) : Option (Option Nat × Option (List Nat)) := do
  let s := arg.takeWhile fun c => decide (c ≠ 0)
  let item ← scanHexItem s
  match item with
  | none => pure (none, none)
  | some (v, rest) =>
    match rest with
    | 58 :: rest =>
      let word := (rest.dropWhile isspace).takeWhile fun c => !isspace c
      if word = [] then pure (some v, none)
      else if size ≤ word.length then none
      else pure (some v, some word)
    | _ => pure (some v, none)

/-- The loop of lines 1271-1297 of `DealGetStartupRequest`; the first argument is
`va_vec` from its back to its front, `parameter_id` is the local variable (`none` as
long as it holds no value), `parameter_value` the local array of two bytes and `str`
the string built so far. -/
def startupLoop : List (List Nat) → Option Nat → List Nat → List Nat → Option (List Nat)
  | [], _, _, str => some str
  | arg :: va_vec, parameter_id, parameter_value, str => do
    let (id, word) ← sscanfHexWord 2 arg
    let parameter_id := match id with
      | some v => some v
      | none => parameter_id
    let parameter_value ← match word with
      | some w => memcpy parameter_value 0 (w ++ [0]) (w.length + 1)
      | none => some parameter_value
    let first ← load parameter_value 0
    if first = 49 then do
      let id ← parameter_id
      let name :=
        if id = STARTUPGPS then cstr " gps"
        else if id = STARTUPCDRADIO then cstr " cdradio"
        else if id = STARTUPNTRIPCORS then cstr " ntripcors"
        else if id = STARTUPNTRIPSERV then cstr " ntripservice"
        else if id = STARTUPJT808SERV then cstr " jt808service"
        else []
      startupLoop va_vec (some id) parameter_value (str ++ name)
    else startupLoop va_vec parameter_id parameter_value str

/-- What a profile request (`DealGet...Request`, `DealSet...Request`) leaves behind: the
returned value, the characters it copies to `result`, and the frames passed to `send`. -/
structure ProfileRun where
  retval : Int
  result : List Nat
  sent : List (List Nat)
deriving DecidableEq

/-- `Jt808Service::DealGetStartupRequest`, lines 1255-1302, the whole function: the
request for the five startup parameters and the string built from the answer. -/
def Operator.DealGetStartupRequest (cap message_flow_num_ : Nat)
    (device_list_ : List DeviceNode) (device : DeviceNode) (sends : List Bool)
    (recvs : List RecvOutcome) : Option ProfileRun := do
  let va_vec := PrepareParemeterIdList []
    [STARTUPGPS, STARTUPCDRADIO, STARTUPNTRIPCORS, STARTUPNTRIPSERV, STARTUPJT808SERV]
  let r ← Operator.DealGetTerminalParameterRequest cap message_flow_num_ device_list_ device
    va_vec sends recvs
  if r.retval = 0 then do
    let str ← startupLoop r.va_vec.reverse none [0, 0] (cstr "startup:")
    pure ⟨r.retval, str, r.sent⟩
  else pure ⟨r.retval, [], r.sent⟩

/-- What a set or delete request leaves behind: the returned value, the frames passed to
`send`, whether the socket was closed, and the flow counter. -/
structure DealRun where
  retval : Int
  sent : List (List Nat)
  closed : Bool
  message_flow_num_ : Nat
deriving DecidableEq

/-- The test of lines 1976-1977, 2074-2075, 2171-2172 and 2219: `Jt808FrameParse(msg,
propara) && (propara.respond_id == command)`. -/
def areaAccept (command : Nat) (p : ParseResult) : Bool :=
  decide (p.message_id ≠ 0 ∧ p.propara.respond_id = command)

/-- `Jt808Service::DealAreaRouteDelateRequest`, lines 2180-2227, for a frame buffer of
`cap` bytes: `va_vec` is the vector of the arguments from front to back, `command` the
message id, `sends` and `recvs` are what the calls of `SendFrameData` and of `recv` on
the socket of the terminal do. -/
def DealAreaRouteDelateRequest (cap message_flow_num_ : Nat) (device_list_ : List DeviceNode)
    (device : DeviceNode) (va_vec : List (List Nat)) (command : Nat) (sends : List Bool)
    (recvs : List RecvOutcome) : Option DealRun := do
  let phone_num ← PreparePhoneNum device.phone_num
  let propara := { zeroParameters with phone_num := phone_num, area_route_id_count := 0 }
  let propara ←
    if va_vec = [] then some propara
    else do
      let (buffer, count) ←
        idBufferLoop va_vec.reverse none (List.replicate (va_vec.length * 4) 0) 0 0
      pure { propara with area_route_id_count := count,
                          area_route_id_buffer := some buffer }
  let (flow, msg, n) ←
    Jt808FramePack message_flow_num_ ⟨List.replicate cap 0, 0⟩ command propara
  match sends with
  | [] => none
  | false :: _ => pure ⟨-1, [msg.buffer.take n], true, flow⟩
  | true :: _ => do
    let (_, _, _, closed) ← waitRespond cap device_list_ (areaAccept command) recvs propara
    pure ⟨if closed = true then -1 else 0, [msg.buffer.take n], closed, flow⟩

/-- The call `sscanf(arg.c_str(), "%u", &u32val)`, by the rules of the C library for the
conversion `u`: white space is skipped, then an optional sign and at least one decimal
digit are read.  The result is `some (some v)` when `v` is stored, `some none` when
nothing matches, and `none` where the C standard leaves the stored value open (a number
that a `uint32_t` cannot hold). -/
def sscanfDec (arg : List Nat) : Option (Option Nat) :=
  let s := arg.dropWhile isspace
  let negative := decide (s.head? = some 45)
  let s := if s.head? = some 45 ∨ s.head? = some 43 then s.tail else s
  match s with
  | [] => some none
  | c :: _ =>
    if ¬(48 ≤ c ∧ c ≤ 57) then some none
    else
      let v := scanDecDigits s 0
      if (negative = true ∧ v ≠ 0) ∨ 4294967296 ≤ v then none else some (some v)

/-- The local variables that the argument loops of the set-area requests share between
their rounds: `u32val` (`none` as long as it holds no value), the number
`static_cast<uint32_t>(doubleval * 1000000UL)` that the current `doubleval` gives
(`none` as long as `doubleval` holds no value), and the array `time` of six bytes. -/
structure AreaScan where
  u32val : Option Nat
  micro : Option Nat
  time : List Nat
deriving DecidableEq

/-- The statements `arg = va_vec.back(); sscanf(arg.c_str(), "%x", &u32val);
va_vec.pop_back();`: the value of `u32val` behind them.  The vector is given from its
back to its front; `back()` on an empty vector is `none`. -/
def areaHex (st : AreaScan) : List (List Nat) → Option (Nat × AreaScan × List (List Nat))
  | [] => none
  | arg :: va_vec => do
    let r ← sscanfHex arg
    let v ← (match r with
      | some v => some v
      | none => st.u32val)
    pure (v, { st with u32val := some v }, va_vec)

/-- The statements `arg = va_vec.back(); sscanf(arg.c_str(), "%u", &u32val);
va_vec.pop_back();`: the value of `u32val` behind them. -/
def areaDec (st : AreaScan) : List (List Nat) → Option (Nat × AreaScan × List (List Nat))
  | [] => none
  | arg :: va_vec => do
    let r ← sscanfDec arg
    let v ← (match r with
      | some v => some v
      | none => st.u32val)
    pure (v, { st with u32val := some v }, va_vec)

/-- The statements `arg = va_vec.back(); sscanf(arg.c_str(), "%lf", &doubleval); x =
static_cast<uint32_t>(doubleval * 1000000UL); va_vec.pop_back();`: the value of `x`.
The arithmetic of `double` is not embedded: `lf arg` is `some (some x)` when the
conversion `%lf` takes place and the product is in the range of `uint32_t`, `some none`
when no conversion takes place (`doubleval` keeps its value), and `none` when the
product is outside the range, where the cast has no defined result. -/
def areaLf (lf : List Nat → Option (Option Nat)) (st : AreaScan) :
    List (List Nat) → Option (Nat × AreaScan × List (List Nat))
  | [] => none
  | arg :: va_vec => do
    let r ← lf arg
    let v ← (match r with
      | some v => some v
      | none => st.micro)
    pure (v, { st with micro := some v }, va_vec)

/-- The statements `arg = va_vec.back(); BcdFromStringCompress(arg.c_str(), time,
arg.length()); memcpy(area->start_time, time, 6); va_vec.pop_back();`: the six bytes
copied. -/
def areaTime (st : AreaScan) : List (List Nat) → Option (List Nat × AreaScan × List (List Nat))
  | [] => none
  | arg :: va_vec => do
    let bcd := BcdFromStringCompress arg
    let time ← memcpy st.time 0 bcd bcd.length
    let t ← loadBytes time 0 6
    pure (t, { st with time := time }, va_vec)

/-- The members of an area record that the attribute bits make optional. -/
structure AreaOptions where
  start_time : List Nat
  end_time : List Nat
  max_speed : Nat
  overspeed_duration : Nat
deriving DecidableEq

/-- Lines 1939-1958, 2037-2056 and 2115-2134: the time window when the bit `bytime` of
the attribute is set and the speed limit when the bit `speedlimit` is set.  The members
of the new record that are not assigned are not read by `Jt808FramePack`; they are
given as zero. -/
def areaOptions (area_attribute : Nat) (st : AreaScan) (va_vec : List (List Nat)) :
    Option (AreaOptions × AreaScan × List (List Nat)) := do
  let (start_time, end_time, st, va_vec) ←
    if areaBytime area_attribute = true then do
      let (t1, st, va_vec) ← areaTime st va_vec
      let (t2, st, va_vec) ← areaTime st va_vec
      pure (t1, t2, st, va_vec)
    else pure (List.replicate 6 0, List.replicate 6 0, st, va_vec)
  let (max_speed, overspeed_duration, st, va_vec) ←
    if areaSpeedlimit area_attribute = true then do
      let (v1, st, va_vec) ← areaDec st va_vec
      let (v2, st, va_vec) ← areaDec st va_vec
      pure (v1 % 65536, v2 % 256, st, va_vec)
    else pure (0, 0, st, va_vec)
  pure (⟨start_time, end_time, max_speed, overspeed_duration⟩, st, va_vec)

/-- Lines 1919-1959, one round of the loop of `DealSetCircularAreaRequest`: the record
read from the back of the vector.  The conversion of the radius writes into the new
record; without a conversion the member holds no value and the round is `none`. -/
def readCircularArea (lf : List Nat → Option (Option Nat)) (st : AreaScan)
    (va_vec : List (List Nat)) : Option (CircularArea × AreaScan × List (List Nat)) := do
  let (area_id, st, va_vec) ← areaHex st va_vec
  let (attr, st, va_vec) ← areaHex st va_vec
  let (latitude, st, va_vec) ← areaLf lf st va_vec
  let (longitude, st, va_vec) ← areaLf lf st va_vec
  match va_vec with
  | [] => none
  | arg :: va_vec => do
    let r ← sscanfDec arg
    let radius ← r
    let (o, st, va_vec) ← areaOptions (attr % 65536) st va_vec
    pure ({ area_id := area_id, area_attribute := attr % 65536,
            center_point := ⟨latitude, longitude⟩, radius := radius,
            start_time := o.start_time, end_time := o.end_time,
            max_speed := o.max_speed, overspeed_duration := o.overspeed_duration },
          st, va_vec)

/-- Lines 2008-2057, one round of the loop of `DealSetRectangleAreaRequest`. -/
def readRectangleArea (lf : List Nat → Option (Option Nat)) (st : AreaScan)
    (va_vec : List (List Nat)) : Option (RectangleArea × AreaScan × List (List Nat)) := do
  let (area_id, st, va_vec) ← areaHex st va_vec
  let (attr, st, va_vec) ← areaHex st va_vec
  let (lat1, st, va_vec) ← areaLf lf st va_vec
  let (lon1, st, va_vec) ← areaLf lf st va_vec
  let (lat2, st, va_vec) ← areaLf lf st va_vec
  let (lon2, st, va_vec) ← areaLf lf st va_vec
  let (o, st, va_vec) ← areaOptions (attr % 65536) st va_vec
  pure ({ area_id := area_id, area_attribute := attr % 65536,
          upper_left_corner := ⟨lat1, lon1⟩, bottom_right_corner := ⟨lat2, lon2⟩,
          start_time := o.start_time, end_time := o.end_time,
          max_speed := o.max_speed, overspeed_duration := o.overspeed_duration },
        st, va_vec)

/-- The loop `for (int i = 0; i < area->coordinate_count; ++i)` of lines 2141-2152; the
first argument is the number of rounds left, `list` the vector `coordinate_list` from
front to back. -/
def coordinateLoop (lf : List Nat → Option (Option Nat)) :
    Nat → AreaScan → List (List Nat) → List Coordinate →
      Option (List Coordinate × AreaScan × List (List Nat))
  | 0, st, va_vec, list => some (list, st, va_vec)
  | n + 1, st, va_vec, list => do
    let (latitude, st, va_vec) ← areaLf lf st va_vec
    let (longitude, st, va_vec) ← areaLf lf st va_vec
    coordinateLoop lf n st va_vec (list ++ [⟨latitude, longitude⟩])

/-- Lines 2106-2154, one round of the loop of `DealSetPolygonalAreaRequest`; line 2153
turns the vector of the vertices round. -/
def readPolygonalArea (lf : List Nat → Option (Option Nat)) (st : AreaScan)
    (va_vec : List (List Nat)) : Option (PolygonalArea × AreaScan × List (List Nat)) := do
  let (area_id, st, va_vec) ← areaHex st va_vec
  let (attr, st, va_vec) ← areaHex st va_vec
  let (o, st, va_vec) ← areaOptions (attr % 65536) st va_vec
  let (count, st, va_vec) ← areaDec st va_vec
  let (list, st, va_vec) ← coordinateLoop lf (count % 256) st va_vec []
  pure ({ area_id := area_id, area_attribute := attr % 65536,
          start_time := o.start_time, end_time := o.end_time,
          max_speed := o.max_speed, overspeed_duration := o.overspeed_duration,
          coordinate_count := count % 256, coordinate_list := some list.reverse },
        st, va_vec)

/-- The loops `while (!va_vec.empty())` of lines 1918-1960, 2007-2058 and 2105-2155 for
the round `read`: the vector is given from its back to its front, `list` is the vector
of the records from front to back.  A run that has not left the loop when the fuel is
used up gives `none`; every round takes at least two elements, so a fuel above the
length of the vector is never used up. -/
def areaLoop {α : Type}
    (read : AreaScan → List (List Nat) → Option (α × AreaScan × List (List Nat))) :
    Nat → List (List Nat) → AreaScan → List α → Option (List α)
  | 0, _, _, _ => none
  | _ + 1, [], _, list => some list
  | fuel + 1, arg :: va_vec, st, list => do
    let (area, st, va_vec) ← read st (arg :: va_vec)
    areaLoop read fuel va_vec st (list ++ [area])

/-- Lines 1908-1916, 1997-2005 and 2095-2103: the value of `set_area_type` for the first
argument; the zeroed envelope keeps `0` for any other word. -/
def setAreaType (arg : List Nat) : Nat :=
  if arg = cstr "update" then 0
  else if arg = cstr "append" then 1
  else if arg = cstr "modify" then 2
  else 0

/-- Lines 1966-1982, 2064-2080 and 2161-2177: the frame of the envelope is packed and
passed to `SendFrameData`, whose result is not read, and the loop waits for the answer;
the returned value is the `0` of lines 1898, 1987 and 2085. -/
def sendAreaRequest (cap message_flow_num_ : Nat) (device_list_ : List DeviceNode)
    (device : DeviceNode) (command : Nat) (propara : ProtocolParameters)
    (recvs : List RecvOutcome) : Option DealRun := do
  let phone_num ← PreparePhoneNum device.phone_num
  let propara := { propara with phone_num := phone_num }
  let (flow, msg, n) ←
    Jt808FramePack message_flow_num_ ⟨List.replicate cap 0, 0⟩ command propara
  let (_, _, _, closed) ← waitRespond cap device_list_ (areaAccept command) recvs propara
  pure ⟨0, [msg.buffer.take n], closed, flow⟩

/-- `Jt808Service::DealSetCircularAreaRequest`, lines 1896-1983, for a frame buffer of
`cap` bytes: `va_vec` is the vector of the arguments from front to back, `lf` the
conversion of a coordinate (see `areaLf`), `recvs` is what the calls of `recv` on the
socket of the terminal do. -/
def DealSetCircularAreaRequest (lf : List Nat → Option (Option Nat))
    (cap message_flow_num_ : Nat) (device_list_ : List DeviceNode) (device : DeviceNode)
    (va_vec : List (List Nat)) (recvs : List RecvOutcome) : Option DealRun :=
  match va_vec.reverse with
  | [] => none
  | arg :: va_vec => do
    let list ← areaLoop (readCircularArea lf) (va_vec.length + 1) va_vec
      ⟨none, none, List.replicate 6 0⟩ []
    if list = [] then pure ⟨0, [], false, message_flow_num_⟩
    else
      sendAreaRequest cap message_flow_num_ device_list_ device DOWN_SETCIRCULARAREA
        { zeroParameters with circular_area_list := some list,
                              set_area_type := setAreaType arg } recvs

/-- `Jt808Service::DealSetRectangleAreaRequest`, lines 1985-2081. -/
def DealSetRectangleAreaRequest (lf : List Nat → Option (Option Nat))
    (cap message_flow_num_ : Nat) (device_list_ : List DeviceNode) (device : DeviceNode)
    (va_vec : List (List Nat)) (recvs : List RecvOutcome) : Option DealRun :=
  match va_vec.reverse with
  | [] => none
  | arg :: va_vec => do
    let list ← areaLoop (readRectangleArea lf) (va_vec.length + 1) va_vec
      ⟨none, none, List.replicate 6 0⟩ []
    if list = [] then pure ⟨0, [], false, message_flow_num_⟩
    else
      sendAreaRequest cap message_flow_num_ device_list_ device DOWN_SETRECTANGLEAREA
        { zeroParameters with rectangle_area_list := some list,
                              set_area_type := setAreaType arg } recvs

/-- `Jt808Service::DealSetPolygonalAreaRequest`, lines 2083-2178. -/
def DealSetPolygonalAreaRequest (lf : List Nat → Option (Option Nat))
    (cap message_flow_num_ : Nat) (device_list_ : List DeviceNode) (device : DeviceNode)
    (va_vec : List (List Nat)) (recvs : List RecvOutcome) : Option DealRun :=
  match va_vec.reverse with
  | [] => none
  | arg :: va_vec => do
    let list ← areaLoop (readPolygonalArea lf) (va_vec.length + 1) va_vec
      ⟨none, none, List.replicate 6 0⟩ []
    if list = [] then pure ⟨0, [], false, message_flow_num_⟩
    else
      sendAreaRequest cap message_flow_num_ device_list_ device DOWN_SETPOLYGONALAREA
        { zeroParameters with polygonal_area_list := some list,
                              set_area_type := setAreaType arg } recvs

/-! ## The control channel: `ParseCommand`, lines 2228-2390, and lines 531-537 of `Run` -/

/-- The words that the loop of lines 2237-2244 pushes to `va_vec`: `sstr >> arg` skips
white space and reads up to the next white space or the end of the stream.  `cur` is
the word being read. -/
def splitWords : List Nat → List Nat → List (List Nat)
  | [], cur => if cur = [] then [] else [cur]
  | c :: cs, cur =>
    if isspace c = true then
      (if cur = [] then splitWords cs [] else cur :: splitWords cs [])
    else splitWords cs (cur ++ [c])

/-- What the calls made from `ParseCommand` meet outside the function: the size `cap` of
a frame buffer, the fuel for the loops of `DealSetTerminalParameterRequest`, the flow
counter, what the calls of `SendFrameData` and of `recv` on the socket of the terminal
do, the conversion of a coordinate (see `areaLf`), and the profile requests of lines
1341-1718 (`gps`, `cdradio`, `ntripcors`, `ntripservice`, `jt808service`, and `set
startup`), which are not embedded: `getProfile name device` and `setProfile name device
va_vec` stand for the call of the request function for the profile `name`. -/
structure CommandIo where
  cap : Nat
  fuel : Nat
  message_flow_num_ : Nat
  sends : List Bool
  recvs : List RecvOutcome
  lf : List Nat → Option (Option Nat)
  getProfile : List Nat → DeviceNode → Option ProfileRun
  setProfile : List Nat → DeviceNode → List (List Nat) → Option ProfileRun

/-- What `ParseCommand` leaves behind: the returned value, the array `buffer`, and the
frames passed to `send` on the socket of a terminal. -/
structure CommandRun where
  retval : Int
  buffer : List Nat
  sent : List (List Nat)
deriving DecidableEq

/-- Lines 2270-2301, the verb `upgrade`; the vector is given from its back to its front.
The assignments to the record of the terminal and the start of the thread are left out;
the arrays `upgrade_version` and `file_path` are taken to hold any word. -/
def commandUpgrade (buffer : List Nat) : List (List Nat) → Option CommandRun
  | [] => none
  | arg :: va_vec =>
    if arg = cstr "device" ∨ arg = cstr "gps" ∨ arg = cstr "system" ∨ arg = cstr "cdradio" then
      match va_vec with
      | _ :: _ :: _ => do
        let buffer ← memcpy buffer 0 (cstr "operation completed.") 20
        pure ⟨0, buffer, []⟩
      | _ => none
    else pure ⟨0, buffer, []⟩

/-- Lines 2302-2319, the verb `get`. -/
def commandGet (io : CommandIo) (device_list_ : List DeviceNode) (device : DeviceNode)
    (buffer : List Nat) : List (List Nat) → Option CommandRun
  | [] => none
  | arg :: _ =>
    if arg = cstr "startup" then do
      let r ← Operator.DealGetStartupRequest io.cap io.message_flow_num_ device_list_ device
        io.sends io.recvs
      let buffer ← memcpy buffer 0 r.result r.result.length
      pure ⟨r.retval, buffer, r.sent⟩
    else if arg = cstr "gps" ∨ arg = cstr "cdradio" ∨ arg = cstr "ntripcors" ∨
        arg = cstr "ntripservice" ∨ arg = cstr "jt808service" then do
      let r ← io.getProfile arg device
      let buffer ← memcpy buffer 0 r.result r.result.length
      pure ⟨r.retval, buffer, r.sent⟩
    else pure ⟨0, buffer, []⟩

/-- The loop of lines 2325-2332: the elements of the vector, given from its back to its
front, with a comma between them. -/
def joinItems : List (List Nat) → List Nat
  | [] => []
  | [item] => item
  | item :: rest => item ++ cstr "," ++ joinItems rest

/-- Lines 2320-2335, the verb `getterminalparameter`. -/
def commandGetTerminalParameter (io : CommandIo) (device_list_ : List DeviceNode)
    (device : DeviceNode) (buffer : List Nat) (va_vec : List (List Nat)) :
    Option CommandRun := do
  let r ← Operator.DealGetTerminalParameterRequest io.cap io.message_flow_num_ device_list_
    device va_vec.reverse io.sends io.recvs
  if r.retval = 0 then do
    let result := cstr "terminal parameter(id:value): " ++ joinItems r.va_vec.reverse
    let buffer ← memcpy buffer 0 result result.length
    pure ⟨r.retval, buffer, r.sent⟩
  else pure ⟨r.retval, buffer, r.sent⟩

/-- Lines 2339-2372: the returned value `retval` and the frames sent for the verbs of
the last branch; `retval` keeps the `-1` of line 2337 when no verb matches.  The request
functions of the three set-area verbs and `DealSetTerminalParameterRequest` return the
`0` their `retval` is initialised with. -/
def commandSet (io : CommandIo) (device_list_ : List DeviceNode) (device : DeviceNode)
    (arg : List Nat) (va_vec : List (List Nat)) : Option (Int × List (List Nat)) :=
  if arg = cstr "set" then
    match va_vec with
    | [] => none
    | arg :: va_vec =>
      if arg = cstr "startup" ∨ arg = cstr "gps" ∨ arg = cstr "cdradio" ∨
          arg = cstr "ntripcors" ∨ arg = cstr "ntripservice" ∨ arg = cstr "jt808service" then
        (io.setProfile arg device va_vec.reverse).map fun r => (r.retval, r.sent)
      else some (-1, [])
  else if arg = cstr "setterminalparameter" then
    (DealSetTerminalParameterRequest io.fuel io.cap io.message_flow_num_ device_list_ device
      va_vec.reverse io.recvs).map fun r => (0, r.sent.map fun f => f.frame)
  else if arg = cstr "setcirculararea" then
    (DealSetCircularAreaRequest io.lf io.cap io.message_flow_num_ device_list_ device
      va_vec.reverse io.recvs).map fun r => (r.retval, r.sent)
  else if arg = cstr "delcirculararea" then
    (DealAreaRouteDelateRequest io.cap io.message_flow_num_ device_list_ device
      va_vec.reverse DOWN_DELCIRCULARAREA io.sends io.recvs).map fun r => (r.retval, r.sent)
  else if arg = cstr "setrectanglearea" then
    (DealSetRectangleAreaRequest io.lf io.cap io.message_flow_num_ device_list_ device
      va_vec.reverse io.recvs).map fun r => (r.retval, r.sent)
  else if arg = cstr "delrectanglearea" then
    (DealAreaRouteDelateRequest io.cap io.message_flow_num_ device_list_ device
      va_vec.reverse DOWN_DELRECTANGLEAREA io.sends io.recvs).map fun r => (r.retval, r.sent)
  else if arg = cstr "setpolygonalarea" then
    (DealSetPolygonalAreaRequest io.lf io.cap io.message_flow_num_ device_list_ device
      va_vec.reverse io.recvs).map fun r => (r.retval, r.sent)
  else if arg = cstr "delpolygonalarea" then
    (DealAreaRouteDelateRequest io.cap io.message_flow_num_ device_list_ device
      va_vec.reverse DOWN_DELPOLYGONALAREA io.sends io.recvs).map fun r => (r.retval, r.sent)
  else some (-1, [])

/-- Lines 2268-2380: the branch of a connected terminal; `arg` is the verb taken from the
back of the vector and `va_vec` the vector behind it, from its back to its front. -/
def commandVerb (io : CommandIo) (device_list_ : List DeviceNode) (device : DeviceNode)
    (buffer : List Nat) (arg : List Nat) (va_vec : List (List Nat)) : Option CommandRun :=
  if arg = cstr "upgrade" then commandUpgrade buffer va_vec
  else if arg = cstr "get" then commandGet io device_list_ device buffer va_vec
  else if arg = cstr "getterminalparameter" then
    commandGetTerminalParameter io device_list_ device buffer va_vec
  else do
    let (retval, sent) ← commandSet io device_list_ device arg va_vec
    if retval = 0 then do
      let buffer ← memcpy buffer 0 (cstr "operation completed.") 20
      pure ⟨0, buffer, sent⟩
    else do
      let buffer ← memcpy buffer 0 (cstr "operation failed!!!") 19
      pure ⟨0, buffer, sent⟩

/-- `Jt808Service::ParseCommand(buffer)`, lines 2228-2390, with the member `device_list_`
passed in: `buffer` is the array the pointer points to.  Line 2248 turns the vector of
the words round, so its elements from back to front are the words in the order of the
command; `back()` on an empty vector is `none`.  The search loop of lines 2258-2265
compares the word with the string in the array `phone_num` of each record. -/
def ParseCommand (io : CommandIo) (device_list_ : List DeviceNode) (buffer : List Nat) :
    Option CommandRun := do
  let n ← strlen buffer
  let va_vec := splitWords (buffer.take n) []
  let buffer := List.replicate n 0 ++ buffer.drop n
  match va_vec with
  | [] => none
  | arg :: va_vec =>
    if device_list_ = [] then pure ⟨0, buffer, []⟩
    else
      match device_list_.find? fun d => decide (cString d.phone_num = arg) with
      | some device =>
        if device.socket_fd > 0 then
          match va_vec with
          | [] => none
          | arg :: va_vec => commandVerb io device_list_ device buffer arg va_vec
        else do
          let buffer ← memcpy buffer 0 (cstr "device has not connect!!!\n") 25
          pure ⟨0, buffer, []⟩
      | none => do
        let buffer ← memcpy buffer 0 (cstr "has not such device!!!\n") 22
        pure ⟨0, buffer, []⟩

/-- What the branch of `Run` for the control channel does to the outside: the bytes
passed to `send` on the control channel (`none` when nothing is sent) and the frames
passed to `send` on the socket of a terminal. -/
structure ControlEvent where
  reply : Option (List Nat)
  sent : List (List Nat)
deriving DecidableEq

/-- Lines 531-536 of `Jt808Service::Run`: the array `recv_buff` of `size` bytes (65536
in the source) is zeroed, `recv` delivers `bytes` (none when it returns 0 or fails),
and when `ParseCommand` returns a value that is not negative the `strlen(recv_buff)`
bytes at the start of the array are passed to `send`. -/
def runCommandEvent (io : CommandIo) (device_list_ : List DeviceNode) (size : Nat)
    (bytes : List Nat) : Option ControlEvent :=
  if bytes = [] then some ⟨none, []⟩
  else do
    let r ← ParseCommand io device_list_
      (bytes.take size ++ List.replicate (size - bytes.length) 0)
    if r.retval ≥ 0 then do
      let n ← strlen r.buffer
      pure ⟨some (r.buffer.take n), r.sent⟩
    else pure ⟨none, r.sent⟩

/-! ## Example environment of the control channel -/

/-- A conversion of a coordinate for whole degrees: an argument that `%u` reads as the
number `v` stands for `v` degrees, which gives `v * 1000000` when that is in the range
of `uint32_t`. -/
def integerLf (arg : List Nat) : Option (Option Nat) :=
  match sscanfDec arg with
  | none => none
  | some none => some none
  | some (some v) => if v * 1000000 < 4294967296 then some (some (v * 1000000)) else none

/-- An environment of `ParseCommand` with frame buffers of 128 bytes, the flow counter
0 and sends that succeed, in which the terminal does what `recvs` says; the profile
requests that are not embedded have no result. -/
def exampleIo (recvs : List RecvOutcome) : CommandIo :=
  { cap := 128, fuel := 10, message_flow_num_ := 0, sends := [true, true], recvs := recvs,
    lf := integerLf, getProfile := fun _ _ => none, setProfile := fun _ _ _ => none }

/-- The unified response 0x0001 of the terminal `012345678902` with the flow number 9,
which answers the message with the flow number 1 and the id `id` with the result 1
(failure). -/
def failureFrame (id : Nat) : List Nat :=
  encode_frame (headerSpec 0x0001 5 [0x01, 0x23, 0x45, 0x67, 0x89, 0x02] 9)
    (be16 1 ++ be16 id ++ [1])

/-! ## The reply to `get startup` in the words of the specification -/

/-- The five tuples of a get-parameter response to `get startup`: the ids `0xF000` to
`0xF004` in order with the one-byte values `v0` to `v4`. -/
def startupTuples (v0 v1 v2 v3 v4 : Nat) : List WireParameter :=
  [⟨0xF000, [v0]⟩, ⟨0xF001, [v1]⟩, ⟨0xF002, [v2]⟩, ⟨0xF003, [v3]⟩, ⟨0xF004, [v4]⟩]

/-- The reply to `get startup`: the string `startup:` followed, in this order, by the
names of the modules whose value is 1. -/
def startupReplySpec (v0 v1 v2 v3 v4 : Nat) : List Nat :=
  cstr "startup:" ++ (if v0 = 1 then cstr " gps" else [])
    ++ (if v1 = 1 then cstr " cdradio" else [])
    ++ (if v2 = 1 then cstr " ntripcors" else [])
    ++ (if v3 = 1 then cstr " ntripservice" else [])
    ++ (if v4 = 1 then cstr " jt808service" else [])

/-! ## The set-area commands in the words of the specification -/

/-- The words `ts` of a command are read as the record `a` by the round `read` of an
argument loop, whatever the locals of the loop hold and whatever words follow. -/
def AreaReads {α : Type}
    (read : AreaScan → List (List Nat) → Option (α × AreaScan × List (List Nat)))
    (ts : List (List Nat)) (a : α) : Prop :=
  ts ≠ [] ∧ ∀ st rest, ∃ st1, read st (ts ++ rest) = some (a, st1, rest)

/-- The words `ts` are the coordinates of the vertices `vs`: latitude and longitude of
each vertex, vertex by vertex in the order of the command. -/
def VertexWords (lf : List Nat → Option (Option Nat)) (ts : List (List Nat))
    (vs : List Coordinate) : Prop :=
  ts.map lf = vs.flatMap fun v => [some (some v.latitude), some (some v.longitude)]

/-- The words `ts` of a command are read as the polygon `a` with the vertices `vs`: the
words of the vertices stand at the end of `ts`, and the record holds as many vertices
as its count says. -/
def PolygonReads (lf : List Nat → Option (Option Nat)) (ts : List (List Nat))
    (a : PolygonalArea) (vs : List Coordinate) : Prop :=
  AreaReads (readPolygonalArea lf) ts a ∧ vs.length = a.coordinate_count ∧
  ∃ hd vt, ts = hd ++ vt ∧ VertexWords lf vt vs

/-- The bytes of the message `command` of the envelope `propara` with the attribute word
`a` and the flow number `flow` between the delimiters, in front of the checksum and
before escaping: the header, the fragmentation words and the body. -/
def messageBytes (command : Nat) (propara : ProtocolParameters) (a flow : Nat) : List Nat :=
  headerSpec command a propara.phone_num flow
    ++ (packedFragment command propara ++ packedBody command propara)

/-! ## Further example inputs -/

/-- A circular area without optional fields: id 1, attribute 0, centre (31, 121) degrees
and the radius 100. -/
def plainCircle : CircularArea :=
  { area_id := 1, area_attribute := 0,
    center_point := { latitude := 31000000, longitude := 121000000 }, radius := 100,
    start_time := [0, 0, 0, 0, 0, 0], end_time := [0, 0, 0, 0, 0, 0],
    max_speed := 0, overspeed_duration := 0 }

/-- The example envelope with a list of `n` circular areas, all `plainCircle`. -/
def circlesParameters (n : Nat) : ProtocolParameters :=
  { exampleParameters with circular_area_list := some (List.replicate n plainCircle) }

theorem store_append (done : List Nat) (t : Nat) (tl : List Nat) (x : Nat) :
    store (done ++ t :: tl) done.length x = some ((done ++ [x]) ++ tl) := by
  simp [store]

theorem load_append (pre : List Nat) (c : Nat) (post : List Nat) :
    load (pre ++ c :: post) pre.length = some c := by
  rw [load, List.getElem?_append_right (le_refl _)]; simp

theorem exists_cons_of_length_pos {l : List Nat} (h : 0 < l.length) :
    ∃ a t, l = a :: t := by
  cases l with
  | nil => simp at h
  | cons a t => exact ⟨a, t, rfl⟩

theorem escapeSpec_length_le (bs : List Nat) :
    bs.length ≤ (escapeSpec bs).length ∧ (escapeSpec bs).length ≤ 2 * bs.length := by
  induction bs with
  | nil => simp [escapeSpec]
  | cons b bs ih =>
    simp only [escapeSpec, List.length_append, List.length_cons]
    split_ifs <;> simp <;> omega

/-- Loop invariant of `EscapeLoop`. -/
theorem EscapeLoop_eq (bs : List Nat) :
    ∀ (fuel : Nat) (pre post done tail : List Nat) (len : Nat),
      len = pre.length + bs.length → len < 65536 →
      bs.length < fuel →
      done.length + (escapeSpec bs).length < 65536 →
      (escapeSpec bs).length ≤ tail.length →
      EscapeLoop (pre ++ bs ++ post) len fuel pre.length done.length (done ++ tail)
        = some (done ++ escapeSpec bs ++ tail.drop (escapeSpec bs).length,
                done.length + (escapeSpec bs).length) := by
  induction bs with
  | nil =>
    intro fuel pre post done tail len hlen _ hfuel _ _
    cases fuel with
    | zero => simp at hfuel
    | succ fuel => simp [EscapeLoop, hlen, escapeSpec]
  | cons b bs ih =>
    intro fuel pre post done tail len hlen hlt hfuel hj htail
    cases fuel with
    | zero => simp at hfuel
    | succ fuel =>
      simp only [List.length_cons] at hlen hfuel
      have hi : pre.length < len := by omega
      have hload : load (pre ++ b :: bs ++ post) pre.length = some b := by
        simpa using load_append pre b (bs ++ post)
      have hsrc : pre ++ b :: bs ++ post = (pre ++ [b]) ++ bs ++ post := by simp
      have hi1 : (pre.length + 1) % 65536 = (pre ++ [b]).length := by
        simp; omega
      have hlen1 : len = (pre ++ [b]).length + bs.length := by simp; omega
      have hfuel1 : bs.length < fuel := by omega
      rw [EscapeLoop, if_pos hi, hload, Option.some_bind, hi1, hsrc]
      have hb := escapeSpec_length_le bs
      have two : ∀ (x y : Nat), escapeSpec (b :: bs) = [x, y] ++ escapeSpec bs →
          ((store (done ++ tail) done.length x).bind fun b1 =>
            (store b1 ((done.length + 1) % 65536) y).bind fun b2 =>
              EscapeLoop ((pre ++ [b]) ++ bs ++ post) len fuel (pre ++ [b]).length
                (((done.length + 1) % 65536 + 1) % 65536) b2) =
          some (done ++ escapeSpec (b :: bs) ++ tail.drop (escapeSpec (b :: bs)).length,
                done.length + (escapeSpec (b :: bs)).length) := by
        intro x y hspec
        rw [hspec] at hj htail ⊢
        simp only [List.length_append, List.length_cons, List.length_nil] at hj htail
        obtain ⟨t0, tail1, rfl⟩ := @exists_cons_of_length_pos tail (by omega)
        obtain ⟨t1, tail2, rfl⟩ := @exists_cons_of_length_pos tail1 (by
          simp at htail; omega)
        have hj1 : (done.length + 1) % 65536 = (done ++ [x]).length := by
          simp; omega
        have hj2 : ((done ++ [x]).length + 1) % 65536
            = ((done ++ [x]) ++ [y]).length := by
          simp; omega
        rw [store_append, Option.some_bind, hj1, store_append, Option.some_bind, hj2]
        rw [ih fuel (pre ++ [b]) post _ tail2 len hlen1 hlt hfuel1 (by simp; omega)
          (by simp at htail; omega)]
        simp
        omega
      by_cases h7e : b = PROTOCOL_SIGN
      · rw [if_pos h7e]
        exact two _ _ (by simp [escapeSpec, h7e, PROTOCOL_SIGN, PROTOCOL_ESCAPE, PROTOCOL_ESCAPE_SIGN])
      · rw [if_neg h7e]
        by_cases h7d : b = PROTOCOL_ESCAPE
        · rw [if_pos h7d]
          exact two _ _ (by simp [escapeSpec, h7d, PROTOCOL_ESCAPE, PROTOCOL_ESCAPE_ESCAPE])
        · rw [if_neg h7d]
          have hspec : escapeSpec (b :: bs) = [b] ++ escapeSpec bs := by
            simp only [PROTOCOL_SIGN, PROTOCOL_ESCAPE] at h7e h7d
            simp [escapeSpec, h7e, h7d]
          rw [hspec] at hj htail ⊢
          simp only [List.length_append, List.length_cons, List.length_nil] at hj htail
          obtain ⟨t0, tail1, rfl⟩ := @exists_cons_of_length_pos tail (by omega)
          have hj1 : (done.length + 1) % 65536 = (done ++ [b]).length := by
            simp; omega
          rw [store_append, Option.some_bind, hj1]
          rw [ih fuel (pre ++ [b]) post _ tail1 len hlen1 hlt hfuel1 (by simp; omega)
            (by simp at htail; omega)]
          simp
          omega

theorem memcpy_zero (dst src : List Nat) (n : Nat) (h1 : n ≤ src.length)
    (h2 : n ≤ dst.length) : memcpy dst 0 src n = some (src.take n ++ dst.drop n) := by
  simp [memcpy, h1, h2]

/-- `Escape` on an array that starts with the `len` bytes `bs`: it returns the escaped
bytes over the start of the array. -/
theorem Escape_eq (bs post : List Nat)
    (hj : (escapeSpec bs).length < 65536)
    (hfit : (escapeSpec bs).length ≤ bs.length + post.length) :
    Escape (bs ++ post) bs.length
      = some (escapeSpec bs ++ (bs ++ post).drop (escapeSpec bs).length,
              (escapeSpec bs).length) := by
  have hb := escapeSpec_length_le bs
  have h := EscapeLoop_eq bs (bs.length + 1) [] post [] (List.replicate (bs.length * 2) 0)
    bs.length (by simp) (by omega) (by omega) (by simpa using hj) (by simp; omega)
  simp only [List.nil_append, List.length_nil, Nat.zero_add] at h
  rw [Escape, h, Option.some_bind]
  simp only []
  rw [memcpy_zero _ _ _ (by simp) (by simp; omega)]
  simp

theorem unescapeList_esc2 (n : Nat) (r : List Nat) :
    unescapeList (n + 1) (0x7D :: 0x02 :: r)
      = (unescapeList (n - 1) r).map fun out => 0x7E :: out := by
  simp [unescapeList]

theorem unescapeList_esc1 (n : Nat) (r : List Nat) :
    unescapeList (n + 1) (0x7D :: 0x01 :: r)
      = (unescapeList (n - 1) r).map fun out => 0x7D :: out := by
  simp [unescapeList]

theorem unescapeList_esc_other (n d : Nat) (r : List Nat) (h2 : d ≠ 0x02) (h1 : d ≠ 0x01) :
    unescapeList (n + 1) (0x7D :: d :: r)
      = (unescapeList n (d :: r)).map fun out => 0x7D :: out := by
  rw [unescapeList, if_pos rfl, if_neg h2, if_neg h1]

theorem unescapeList_plain (n c : Nat) (r : List Nat) (h : c ≠ 0x7D) :
    unescapeList (n + 1) (c :: r) = (unescapeList n r).map fun out => c :: out := by
  rw [unescapeList.eq_def]
  simp only [if_neg h]

theorem ReverseEscapeLoop_eq :
    ∀ (fuel n : Nat) (pre rest done tail out : List Nat) (len : Nat),
      n = len - pre.length → pre.length ≤ len + 1 → len < 65535 →
      n < fuel → done.length + n < 65536 →
      unescapeList n rest = some out → out.length ≤ tail.length →
      ReverseEscapeLoop (pre ++ rest) len fuel pre.length done.length (done ++ tail)
        = some (done ++ out ++ tail.drop out.length, done.length + out.length) := by
  intro fuel
  induction fuel with
  | zero => intro n _ _ _ _ _ _ _ _ _ h; simp at h
  | succ fuel ih =>
    intro n pre rest done tail out len hn hpre hlen hfuel hj hout htail
    cases n with
    | zero =>
      have : ¬ pre.length < len := by omega
      simp only [unescapeList, Option.some.injEq] at hout
      subst hout
      simp [ReverseEscapeLoop, this]
    | succ n =>
      have hi : pre.length < len := by omega
      cases rest with
      | nil => simp [unescapeList] at hout
      | cons c rest =>
        have hload : load (pre ++ c :: rest) pre.length = some c := load_append pre c rest
        rw [ReverseEscapeLoop, if_pos hi, hload, Option.some_bind]
        have one : ∀ out1, unescapeList n rest = some out1 → out = c :: out1 →
            ((store (done ++ tail) done.length c).bind fun b1 =>
              ReverseEscapeLoop (pre ++ c :: rest) len fuel ((pre.length + 1) % 65536)
                ((done.length + 1) % 65536) b1) =
            some (done ++ out ++ tail.drop out.length, done.length + out.length) := by
          intro out1 h1 h2
          subst h2
          simp only [List.length_cons] at htail
          obtain ⟨t0, tail1, rfl⟩ := @exists_cons_of_length_pos tail (by omega)
          have hi1 : (pre.length + 1) % 65536 = (pre ++ [c]).length := by simp; omega
          have hj1 : (done.length + 1) % 65536 = (done ++ [c]).length := by simp; omega
          have hsrc : pre ++ c :: rest = (pre ++ [c]) ++ rest := by simp
          rw [store_append, Option.some_bind, hi1, hj1, hsrc]
          rw [ih n (pre ++ [c]) rest _ tail1 out1 len (by simp; omega) (by simp; omega) hlen
            (by omega) (by simp; omega) h1 (by simp at htail; omega)]
          simp
          omega
        by_cases hc : c = PROTOCOL_ESCAPE
        · rw [if_pos hc]
          have hc7 : c = 0x7D := hc
          cases rest with
          | nil => simp [unescapeList, hc7] at hout
          | cons d rest1 =>
            have hload1 : load (pre ++ c :: d :: rest1) (pre.length + 1) = some d := by
              have := load_append (pre ++ [c]) d rest1
              simpa using this
            rw [hload1, Option.some_bind]
            have two : ∀ x out1, unescapeList (n - 1) rest1 = some out1 → out = x :: out1 →
                ((store (done ++ tail) done.length x).bind fun b1 =>
                  ReverseEscapeLoop (pre ++ c :: d :: rest1) len fuel
                    (((pre.length + 1) % 65536 + 1) % 65536)
                    ((done.length + 1) % 65536) b1) =
                some (done ++ out ++ tail.drop out.length, done.length + out.length) := by
              intro x out1 h1 h2
              subst h2
              simp only [List.length_cons] at htail
              obtain ⟨t0, tail1, rfl⟩ := @exists_cons_of_length_pos tail (by omega)
              have hi1 : ((pre.length + 1) % 65536 + 1) % 65536 = (pre ++ [c, d]).length := by
                simp; omega
              have hj1 : (done.length + 1) % 65536 = (done ++ [x]).length := by simp; omega
              have hsrc : pre ++ c :: d :: rest1 = (pre ++ [c, d]) ++ rest1 := by simp
              rw [store_append, Option.some_bind, hi1, hj1, hsrc]
              rw [ih (n - 1) (pre ++ [c, d]) rest1 _ tail1 out1 len (by simp; omega)
                (by simp; omega) hlen (by omega) (by simp; omega) h1 (by simp at htail; omega)]
              simp
              omega
            by_cases hd2 : d = PROTOCOL_ESCAPE_SIGN
            · rw [if_pos hd2]
              have hd : d = 0x02 := hd2
              subst hd; subst hc7
              rw [unescapeList_esc2, Option.map_eq_some'] at hout
              obtain ⟨out1, h1, h2⟩ := hout
              exact two _ out1 h1 h2.symm
            · rw [if_neg hd2]
              have hd : ¬ d = 0x02 := hd2
              by_cases hd1 : d = PROTOCOL_ESCAPE_ESCAPE
              · rw [if_pos hd1]
                have hd' : d = 0x01 := hd1
                subst hd'; subst hc7
                rw [unescapeList_esc1, Option.map_eq_some'] at hout
                obtain ⟨out1, h1, h2⟩ := hout
                exact two _ out1 h1 h2.symm
              · rw [if_neg hd1]
                have hd' : ¬ d = 0x01 := hd1
                subst hc7
                rw [unescapeList_esc_other _ _ _ hd hd', Option.map_eq_some'] at hout
                obtain ⟨out1, h1, h2⟩ := hout
                exact one out1 h1 h2.symm
        · rw [if_neg hc]
          have hc7 : ¬ c = 0x7D := hc
          rw [unescapeList_plain _ _ _ hc7, Option.map_eq_some'] at hout
          obtain ⟨out1, h1, h2⟩ := hout
          exact one out1 h1 h2.symm

theorem unescapeList_length_le :
    ∀ (k : Nat) (rest : List Nat) (n : Nat) (out : List Nat), rest.length ≤ k →
      unescapeList n rest = some out → out.length ≤ n := by
  intro k
  induction k with
  | zero =>
    intro rest n out hk h
    have : rest = [] := by simpa using hk
    subst this
    cases n with
    | zero => simp [unescapeList] at h; simp [← h]
    | succ n => simp [unescapeList] at h
  | succ k ih =>
    intro rest n out hk h
    cases n with
    | zero => simp [unescapeList] at h; simp [← h]
    | succ n =>
      cases rest with
      | nil => simp [unescapeList] at h
      | cons c rest =>
        simp only [List.length_cons] at hk
        by_cases hc : c = 0x7D
        · subst hc
          cases rest with
          | nil => simp [unescapeList] at h
          | cons d rest1 =>
            simp only [List.length_cons] at hk
            by_cases hd : d = 0x02
            · subst hd
              rw [unescapeList_esc2, Option.map_eq_some'] at h
              obtain ⟨o, h1, rfl⟩ := h
              have := ih rest1 (n - 1) o (by omega) h1
              simp; omega
            · by_cases hd1 : d = 0x01
              · subst hd1
                rw [unescapeList_esc1, Option.map_eq_some'] at h
                obtain ⟨o, h1, rfl⟩ := h
                have := ih rest1 (n - 1) o (by omega) h1
                simp; omega
              · rw [unescapeList_esc_other _ _ _ hd hd1, Option.map_eq_some'] at h
                obtain ⟨o, h1, rfl⟩ := h
                have := ih (d :: rest1) n o (by simp; omega) h1
                simp; omega
        · rw [unescapeList_plain _ _ _ hc, Option.map_eq_some'] at h
          obtain ⟨o, h1, rfl⟩ := h
          have := ih rest n o (by omega) h1
          simp; omega

/-- `ReverseEscape` in list form: when the loop leaves with the bytes `out`, they are
copied over the start of the array. -/
theorem ReverseEscape_eq (src out : List Nat) (len : Nat) (hlen : len < 65535)
    (hsrc : len ≤ src.length) (h : unescapeList len src = some out) :
    ReverseEscape src len = some (out ++ src.drop out.length, out.length) := by
  have hle := unescapeList_length_le src.length src len out (le_refl _) h
  have h1 := ReverseEscapeLoop_eq (len + 1) len [] src [] (List.replicate len 0) out len
    (by simp) (by simp) hlen (by omega) (by simp; omega) h (by simpa using hle)
  simp only [List.nil_append, List.length_nil, Nat.zero_add] at h1
  rw [ReverseEscape, h1, Option.some_bind]
  simp only []
  rw [memcpy_zero _ _ _ (by simp) (by omega)]
  simp

/-- Unescaping escaped bytes: the `n` rounds first consume the escaped form of `bs`. -/
theorem unescapeList_escapeSpec (bs : List Nat) :
    ∀ (rest : List Nat) (n : Nat),
      unescapeList ((escapeSpec bs).length + n) (escapeSpec bs ++ rest)
        = (unescapeList n rest).map fun out => bs ++ out := by
  induction bs with
  | nil => intro rest n; simp [escapeSpec]
  | cons b bs ih =>
    intro rest n
    by_cases h7e : b = 0x7E
    · have e : (escapeSpec (b :: bs)).length + n = ((escapeSpec bs).length + n + 1) + 1 := by
        simp [escapeSpec, h7e]; omega
      have e2 : escapeSpec (b :: bs) ++ rest = 0x7D :: 0x02 :: (escapeSpec bs ++ rest) := by
        simp [escapeSpec, h7e]
      rw [e, e2, unescapeList_esc2, Nat.add_sub_cancel, ih, Option.map_map, h7e]
      rfl
    · by_cases h7d : b = 0x7D
      · have e : (escapeSpec (b :: bs)).length + n = ((escapeSpec bs).length + n + 1) + 1 := by
          simp [escapeSpec, h7d]; omega
        have e2 : escapeSpec (b :: bs) ++ rest = 0x7D :: 0x01 :: (escapeSpec bs ++ rest) := by
          simp [escapeSpec, h7d]
        rw [e, e2, unescapeList_esc1, Nat.add_sub_cancel, ih, Option.map_map, h7d]
        rfl
      · have e : (escapeSpec (b :: bs)).length + n = ((escapeSpec bs).length + n) + 1 := by
          simp [escapeSpec, h7e, h7d]; omega
        have e2 : escapeSpec (b :: bs) ++ rest = b :: (escapeSpec bs ++ rest) := by
          simp [escapeSpec, h7e, h7d]
        rw [e, e2, unescapeList_plain _ _ _ h7d, ih, Option.map_map]
        rfl

theorem escapeSpec_append (a b : List Nat) : escapeSpec (a ++ b) = escapeSpec a ++ escapeSpec b := by
  induction a with
  | nil => simp [escapeSpec]
  | cons x a ih => simp [escapeSpec, ih]

theorem escapeSpec_length (bs : List Nat) :
    (escapeSpec bs).length = bs.length + bs.count 0x7E + bs.count 0x7D := by
  induction bs with
  | nil => simp [escapeSpec]
  | cons b bs ih =>
    by_cases h7e : b = 0x7E
    · subst h7e
      simp [escapeSpec, ih]
      omega
    · by_cases h7d : b = 0x7D
      · subst h7d
        simp [escapeSpec, ih]
        omega
      · have h1 : ¬ (0x7E = b) := fun h => h7e h.symm
        have h2 : ¬ (0x7D = b) := fun h => h7d h.symm
        simp [escapeSpec, ih, h7e, h7d, List.count_cons, h1, h2]
        omega

theorem BccLoop_eq (bs : List Nat) :
    ∀ (fuel : Nat) (pre post : List Nat) (len c : Nat),
      len = pre.length + bs.length → bs.length < fuel →
      BccLoop (pre ++ bs ++ post) len fuel pre.length c
        = some (bs.foldl (fun c b => (c ^^^ b) % 256) c) := by
  induction bs with
  | nil =>
    intro fuel pre post len c hlen hfuel
    cases fuel with
    | zero => simp at hfuel
    | succ fuel => simp [BccLoop, hlen]
  | cons b bs ih =>
    intro fuel pre post len c hlen hfuel
    cases fuel with
    | zero => simp at hfuel
    | succ fuel =>
      simp only [List.length_cons] at hlen hfuel
      have hi : pre.length < len := by omega
      have hload : load (pre ++ b :: bs ++ post) pre.length = some b := by
        simpa using load_append pre b (bs ++ post)
      have hsrc : pre ++ b :: bs ++ post = (pre ++ [b]) ++ bs ++ post := by simp
      rw [BccLoop, if_pos hi, hload, Option.some_bind, hsrc]
      have := ih fuel (pre ++ [b]) post len ((c ^^^ b) % 256) (by simp; omega) (by omega)
      simp only [List.length_append, List.length_cons, List.length_nil] at this
      simpa using this

/-- `BccCheckSum` over the first bytes `bs` of an array. -/
theorem BccCheckSum_eq (bs post : List Nat) :
    BccCheckSum (bs ++ post) bs.length = some (bccList bs) := by
  have := BccLoop_eq bs (bs.length + 1) [] post bs.length 0 (by simp) (by omega)
  simpa [BccCheckSum, bccList] using this

theorem bccList_lt (bs : List Nat) : bccList bs < 256 := by
  unfold bccList
  induction bs using List.reverseRecOn with
  | nil => simp
  | append_singleton l a _ =>
    rw [List.foldl_append]
    simp only [List.foldl_cons, List.foldl_nil]
    omega

theorem foldl_xor_lt (bs : List Nat) (c : Nat) (hc : c < 256) (h : ∀ b ∈ bs, b < 256) :
    bs.foldl (fun c b => (c ^^^ b) % 256) c = bs.foldl (fun c b => c ^^^ b) c
      ∧ bs.foldl (fun c b => c ^^^ b) c < 256 := by
  induction bs generalizing c with
  | nil => simpa using hc
  | cons b bs ih =>
    have hb : b < 256 := h b (by simp)
    have hlt : c ^^^ b < 256 := Nat.xor_lt_two_pow (n := 8) hc hb
    simp only [List.foldl_cons]
    rw [Nat.mod_eq_of_lt hlt]
    exact ih (c ^^^ b) hlt (fun x hx => h x (by simp [hx]))

theorem bccList_eq_bccSpec (bs : List Nat) (h : ∀ b ∈ bs, b < 256) : bccList bs = bccSpec bs :=
  (foldl_xor_lt bs 0 (by omega) h).1

theorem bccList_append_self (bs : List Nat) : bccList (bs ++ [bccList bs]) = 0 := by
  unfold bccList
  rw [List.foldl_append]
  simp

theorem or_eq_add_of_lt (a b k : Nat) (hb : b < 2 ^ k) : (a * 2 ^ k) ||| b = a * 2 ^ k + b := by
  rw [Nat.mul_comm, ← Nat.mul_add_lt_is_or hb]

theorem EndianSwap16_eq (v : Nat) : EndianSwap16 v = (v % 256) * 256 + v / 256 % 256 := by
  unfold EndianSwap16
  simp only []
  have h1 : (v % 65536) &&& 0xff = v % 65536 % 2 ^ 8 := Nat.and_pow_two_sub_one_eq_mod _ 8
  rw [h1, Nat.shiftLeft_eq, Nat.shiftRight_eq_div_pow]
  have h2 : v % 65536 / 2 ^ 8 < 2 ^ 8 := by norm_num; omega
  rw [or_eq_add_of_lt _ _ 8 h2]
  have h3 : v % 65536 / 2 ^ 8 = v / 256 % 256 := by norm_num; omega
  have h4 : v % 65536 % 2 ^ 8 = v % 256 := by norm_num
  rw [h3, h4]
  norm_num
  omega

theorem and_mask (v k : Nat) : v &&& (255 <<< k) = ((v >>> k) % 256) <<< k := by
  apply Nat.eq_of_testBit_eq
  intro i
  have h255 : (255 : Nat) = 2 ^ 8 - 1 := by norm_num
  have h256 : (256 : Nat) = 2 ^ 8 := by norm_num
  rw [h255, h256]
  simp only [Nat.testBit_and, Nat.testBit_shiftLeft, Nat.testBit_two_pow_sub_one,
    Nat.testBit_mod_two_pow, Nat.testBit_shiftRight]
  by_cases h : k ≤ i
  · have : k + (i - k) = i := by omega
    simp [h, this, Bool.and_comm]
  · simp [h]

theorem EndianSwap32_eq (v : Nat) : EndianSwap32 v =
    (v % 256) * 16777216 + (v / 256 % 256) * 65536 + (v / 65536 % 256) * 256
      + v / 16777216 % 256 := by
  unfold EndianSwap32
  simp only []
  have e1 : (0x00ff0000 : Nat) = 255 <<< 16 := by decide
  have e2 : (0x0000ff00 : Nat) = 255 <<< 8 := by decide
  rw [e1, e2, and_mask, and_mask]
  simp only [Nat.shiftLeft_eq, Nat.shiftRight_eq_div_pow]
  generalize hw : v % 4294967296 = w
  have hwlt : w < 4294967296 := by omega
  have a0 : w / 2 ^ 24 = v / 16777216 % 256 := by norm_num; omega
  have a1 : w / 2 ^ 16 % 256 * 2 ^ 16 / 2 ^ 8 = (v / 65536 % 256) * 2 ^ 8 := by norm_num; omega
  have a2 : w / 2 ^ 8 % 256 * 2 ^ 8 * 2 ^ 8 = (v / 256 % 256) * 2 ^ 16 := by norm_num; omega
  have a3 : w * 2 ^ 24 % 4294967296 = (v % 256) * 2 ^ 24 := by norm_num; omega
  rw [a0, a1, a2, a3]
  have o1 : (v / 65536 % 256) * 2 ^ 8 ||| (v / 16777216 % 256)
      = (v / 65536 % 256) * 2 ^ 8 + (v / 16777216 % 256) :=
    or_eq_add_of_lt _ _ 8 (by norm_num; omega)
  rw [Nat.lor_comm (v / 16777216 % 256), o1]
  have r2 : (v / 65536 % 256) * 2 ^ 8 + (v / 16777216 % 256) < 2 ^ 16 := by norm_num; omega
  have o2 := or_eq_add_of_lt (v / 256 % 256) _ 16 r2
  rw [Nat.lor_comm _ ((v / 256 % 256) * 2 ^ 16), o2]
  have r3 : v / 256 % 256 * 2 ^ 16 + ((v / 65536 % 256) * 2 ^ 8 + (v / 16777216 % 256))
      < 2 ^ 24 := by
    norm_num; omega
  have o3 := or_eq_add_of_lt (v % 256) _ 24 r3
  rw [Nat.lor_comm _ ((v % 256) * 2 ^ 24), o3]
  norm_num
  omega

/-- A swapped `uint16_t` stored by `memcpy` is the big-endian field. -/
theorem le16_EndianSwap16 (x : Nat) : le16 (EndianSwap16 x) = be16 x := by
  rw [EndianSwap16_eq]
  simp only [le16, be16]
  have h0 : x % 256 < 256 := Nat.mod_lt _ (by norm_num)
  have h1 : x / 256 % 256 < 256 := Nat.mod_lt _ (by norm_num)
  generalize x % 256 = a0 at *
  generalize x / 256 % 256 = a1 at *
  simp only [List.cons.injEq, and_true]
  constructor <;> omega

/-- A swapped `uint32_t` stored by `memcpy` is the big-endian field. -/
theorem le32_EndianSwap32 (x : Nat) : le32 (EndianSwap32 x) = be32 x := by
  rw [EndianSwap32_eq]
  simp only [le32, be32]
  have h0 : x % 256 < 256 := Nat.mod_lt _ (by norm_num)
  have h1 : x / 256 % 256 < 256 := Nat.mod_lt _ (by norm_num)
  have h2 : x / 65536 % 256 < 256 := Nat.mod_lt _ (by norm_num)
  have h3 : x / 16777216 % 256 < 256 := Nat.mod_lt _ (by norm_num)
  generalize x % 256 = a0 at *
  generalize x / 256 % 256 = a1 at *
  generalize x / 65536 % 256 = a2 at *
  generalize x / 16777216 % 256 = a3 at *
  simp only [List.cons.injEq, and_true]
  refine ⟨?_, ?_, ?_, ?_⟩ <;> omega

theorem EndianSwap16_lt (x : Nat) : EndianSwap16 x < 65536 := by
  rw [EndianSwap16_eq]; omega

theorem EndianSwap16_EndianSwap16 (x : Nat) : EndianSwap16 (EndianSwap16 x) = x % 65536 := by
  rw [EndianSwap16_eq, EndianSwap16_eq]
  have hx : x % 65536 = (x / 256 % 256) * 256 + x % 256 := by omega
  rw [hx]
  clear hx
  have h0 : x % 256 < 256 := Nat.mod_lt _ (by norm_num)
  have h1 : x / 256 % 256 < 256 := Nat.mod_lt _ (by norm_num)
  generalize x % 256 = a0 at *
  generalize x / 256 % 256 = a1 at *
  have e1 : (a0 * 256 + a1) % 256 = a1 := by omega
  have e2 : (a0 * 256 + a1) / 256 % 256 = a0 := by omega
  rw [e1, e2]

theorem be16_length (x : Nat) : (be16 x).length = 2 := rfl
theorem be32_length (x : Nat) : (be32 x).length = 4 := rfl
theorem le16_length (x : Nat) : (le16 x).length = 2 := rfl

/-- Reading back a `uint16_t` that lies behind three bytes. -/
theorem rd16_three (hd3 : List Nat) (a : Nat) (tl : List Nat) (h3 : hd3.length = 3)
    (ha : a < 65536) : rd16 (hd3 ++ le16 a ++ tl) 3 = some a := by
  obtain ⟨x, y, z, rfl⟩ : ∃ x y z, hd3 = [x, y, z] := by
    match hd3, h3 with
    | [x, y, z], _ => exact ⟨x, y, z, rfl⟩
  simp [rd16, load, le16]
  omega

theorem memcpy_three (hd3 : List Nat) (a b : Nat) (tl : List Nat) (h3 : hd3.length = 3) :
    memcpy (hd3 ++ le16 a ++ tl) 3 (le16 b) 2 = some (hd3 ++ le16 b ++ tl) := by
  obtain ⟨x, y, z, rfl⟩ : ∃ x y z, hd3 = [x, y, z] := by
    match hd3, h3 with
    | [x, y, z], _ => exact ⟨x, y, z, rfl⟩
  simp [memcpy, le16]

theorem memcpy_append (A rest src : List Nat) (n : Nat) (h1 : n ≤ src.length)
    (h2 : n ≤ rest.length) :
    memcpy (A ++ rest) A.length src n = some (A ++ src.take n ++ rest.drop n) := by
  have : A.length + n ≤ (A ++ rest).length := by simp; omega
  simp [memcpy, h1, h2]

theorem packBuf_length (hd3 : List Nat) (a : Nat) (mid rest : List Nat) (h3 : hd3.length = 3) :
    (packBuf hd3 a mid rest).length = 5 + mid.length + rest.length := by
  simp [packBuf, h3, le16]
  omega

theorem attrSetMsglen_lt (a x : Nat) (ha : a < 65536) : attrSetMsglen a x < 65536 := by
  unfold attrSetMsglen; omega

theorem attrSetPackage_lt (a x : Nat) (ha : a < 65536) : attrSetPackage a x < 65536 := by
  unfold attrSetPackage; omega

theorem attrSetEncrypt_lt (a x : Nat) (ha : a < 65536) : attrSetEncrypt a x < 65536 := by
  unfold attrSetEncrypt; omega

namespace PackState

theorem copy_rep (hd3 : List Nat) (a : Nat) (mid rest : List Nat) (len : Nat)
    (src : List Nat) (n : Nat) (h3 : hd3.length = 3) (h1 : n ≤ src.length)
    (h2 : n ≤ rest.length) :
    copy ⟨packBuf hd3 a mid rest, len, 5 + mid.length⟩ src n
      = some ⟨packBuf hd3 a mid (src.take n ++ rest.drop n), len, 5 + mid.length⟩ := by
  have hA : 5 + mid.length = (hd3 ++ le16 a ++ mid).length := by simp [h3, le16]; omega
  simp only [copy, packBuf]
  rw [hA, memcpy_append _ _ _ _ h1 h2]
  simp

theorem putBytes_rep (hd3 : List Nat) (a : Nat) (mid rest : List Nat) (len : Nat)
    (src : List Nat) (n : Nat) (h3 : hd3.length = 3) (h1 : n ≤ src.length)
    (h2 : n ≤ rest.length) :
    putBytes ⟨packBuf hd3 a mid rest, len, 5 + mid.length⟩ src n
      = some ⟨packBuf hd3 a (mid ++ src.take n) (rest.drop n), len,
              5 + (mid ++ src.take n).length⟩ := by
  rw [putBytes, copy_rep _ _ _ _ _ _ _ h3 h1 h2]
  simp [adv, packBuf, Nat.min_eq_left h1]
  omega

theorem put16_rep (hd3 : List Nat) (a : Nat) (mid rest : List Nat) (len x : Nat)
    (h3 : hd3.length = 3) (h2 : 2 ≤ rest.length) :
    put16 ⟨packBuf hd3 a mid rest, len, 5 + mid.length⟩ x
      = some ⟨packBuf hd3 a (mid ++ be16 x) (rest.drop 2), len,
              5 + (mid ++ be16 x).length⟩ := by
  rw [put16, le16_EndianSwap16, copy_rep _ _ _ _ _ _ _ h3 (by simp [be16]) h2]
  simp [adv, packBuf, be16]
  omega

theorem put32_rep (hd3 : List Nat) (a : Nat) (mid rest : List Nat) (len x : Nat)
    (h3 : hd3.length = 3) (h2 : 4 ≤ rest.length) :
    put32 ⟨packBuf hd3 a mid rest, len, 5 + mid.length⟩ x
      = some ⟨packBuf hd3 a (mid ++ be32 x) (rest.drop 4), len,
              5 + (mid ++ be32 x).length⟩ := by
  rw [put32, le32_EndianSwap32, copy_rep _ _ _ _ _ _ _ h3 (by simp [be32]) h2]
  simp [adv, packBuf, be32]
  omega

theorem put8_rep (hd3 : List Nat) (a : Nat) (mid rest : List Nat) (len x : Nat)
    (h3 : hd3.length = 3) (h2 : 1 ≤ rest.length) :
    put8 ⟨packBuf hd3 a mid rest, len, 5 + mid.length⟩ x
      = some ⟨packBuf hd3 a (mid ++ [x % 256]) (rest.drop 1), len,
              5 + (mid ++ [x % 256]).length⟩ := by
  obtain ⟨t, rest1, rfl⟩ := @exists_cons_of_length_pos rest (by omega)
  have hA : 5 + mid.length = (hd3 ++ le16 a ++ mid).length := by simp [h3, le16]; omega
  simp only [put8, poke, packBuf]
  rw [hA, store_append]
  simp [adv, h3, le16]
  omega

theorem setMsglen_rep (hd3 : List Nat) (a : Nat) (mid rest : List Nat) (len k x : Nat)
    (h3 : hd3.length = 3) (ha : a < 65536) :
    setMsglen ⟨packBuf hd3 a mid rest, len, k⟩ x
      = some ⟨packBuf hd3 (attrSetMsglen a x) mid rest, len, k⟩ := by
  simp only [setMsglen, packBuf, List.append_assoc]
  have e : hd3 ++ (le16 a ++ (mid ++ rest)) = hd3 ++ le16 a ++ (mid ++ rest) := by simp
  rw [e, rd16_three _ _ _ h3 ha, Option.some_bind, memcpy_three _ _ _ _ h3]
  simp

theorem addMsglen_rep (hd3 : List Nat) (a : Nat) (mid rest : List Nat) (len k x : Nat)
    (h3 : hd3.length = 3) (ha : a < 65536) :
    addMsglen ⟨packBuf hd3 a mid rest, len, k⟩ x
      = some ⟨packBuf hd3 (attrSetMsglen a (attrMsglen a + x)) mid rest, len, k⟩ := by
  simp only [addMsglen, packBuf, List.append_assoc]
  have e : hd3 ++ (le16 a ++ (mid ++ rest)) = hd3 ++ le16 a ++ (mid ++ rest) := by simp
  rw [e, rd16_three _ _ _ h3 ha, Option.some_bind, memcpy_three _ _ _ _ h3]
  simp

theorem setPackage_rep (hd3 : List Nat) (a : Nat) (mid rest : List Nat) (len k x : Nat)
    (h3 : hd3.length = 3) (ha : a < 65536) :
    setPackage ⟨packBuf hd3 a mid rest, len, k⟩ x
      = some ⟨packBuf hd3 (attrSetPackage a x) mid rest, len, k⟩ := by
  simp only [setPackage, packBuf, List.append_assoc]
  have e : hd3 ++ (le16 a ++ (mid ++ rest)) = hd3 ++ le16 a ++ (mid ++ rest) := by simp
  rw [e, rd16_three _ _ _ h3 ha, Option.some_bind, memcpy_three _ _ _ _ h3]
  simp

theorem setEncrypt_rep (hd3 : List Nat) (a : Nat) (mid rest : List Nat) (len k x : Nat)
    (h3 : hd3.length = 3) (ha : a < 65536) :
    setEncrypt ⟨packBuf hd3 a mid rest, len, k⟩ x
      = some ⟨packBuf hd3 (attrSetEncrypt a x) mid rest, len, k⟩ := by
  simp only [setEncrypt, packBuf, List.append_assoc]
  have e : hd3 ++ (le16 a ++ (mid ++ rest)) = hd3 ++ le16 a ++ (mid ++ rest) := by simp
  rw [e, rd16_three _ _ _ h3 ha, Option.some_bind, memcpy_three _ _ _ _ h3]
  simp

theorem addLen_rep (b : List Nat) (len k n : Nat) :
    addLen ⟨b, len, k⟩ n = ⟨b, len + n, k⟩ := rfl

end PackState

/-- `case DOWN_UNIRESPONSE`: the five body bytes are written behind the bytes packed so
far and `msglen` is set to 5. -/
theorem packUniResponse_rep (propara : ProtocolParameters) (hd3 : List Nat) (a : Nat)
    (mid rest : List Nat) (len k : Nat) (h3 : hd3.length = 3) (ha : a < 65536)
    (hk : k = 5 + mid.length) (hr : 5 ≤ rest.length) :
    packUniResponse propara ⟨packBuf hd3 a mid rest, len, k⟩
      = some ⟨packBuf hd3 (attrSetMsglen a 5)
                (mid ++ (be16 propara.respond_flow_num ++ be16 propara.respond_id
                  ++ [propara.respond_result % 256])) (rest.drop 5),
              len + 5, k + 5⟩ := by
  subst hk
  unfold packUniResponse
  simp only [Option.bind_eq_bind]
  rw [PackState.put16_rep _ _ _ _ _ _ h3 (by omega), Option.some_bind,
    PackState.put16_rep _ _ _ _ _ _ h3 (by simp; omega), Option.some_bind,
    PackState.put8_rep _ _ _ _ _ _ h3 (by simp; omega), Option.some_bind,
    PackState.addLen_rep, PackState.setMsglen_rep _ _ _ _ _ _ _ h3 ha]
  simp [be16]
  omega

theorem exists_take_twelve (old : List Nat) (h : 12 ≤ old.length) :
    ∃ x1 x2 x3 x4 x5 x6 x7 x8 x9 x10 x11 x12 tl,
      old = x1 :: x2 :: x3 :: x4 :: x5 :: x6 :: x7 :: x8 :: x9 :: x10 :: x11 :: x12 :: tl := by
  match old, h with
  | x1 :: x2 :: x3 :: x4 :: x5 :: x6 :: x7 :: x8 :: x9 :: x10 :: x11 :: x12 :: tl, _ =>
    exact ⟨x1, x2, x3, x4, x5, x6, x7, x8, x9, x10, x11, x12, tl, rfl⟩

theorem exists_six (l : List Nat) (h : l.length = 6) :
    ∃ x1 x2 x3 x4 x5 x6, l = [x1, x2, x3, x4, x5, x6] := by
  match l, h with
  | [x1, x2, x3, x4, x5, x6], _ => exact ⟨x1, x2, x3, x4, x5, x6, rfl⟩

/-- Lines 628-637 on a buffer of at least 13 bytes: behind the delimiter slot the buffer
holds the message id, a zero attribute word, the phone number and the new flow
number; the bytes from index 13 on are as before. -/
theorem packHead_rep (flow : Nat) (b0 : Nat) (old : List Nat) (len0 command : Nat)
    (propara : ProtocolParameters) (hold : 12 ≤ old.length)
    (hphone : propara.phone_num.length = 6) :
    packHead flow ⟨b0 :: old, len0⟩ command propara
      = some ((flow + 1) % 65536,
          ⟨packBuf ([b0] ++ be16 command) 0
             (propara.phone_num ++ be16 ((flow + 1) % 65536)) (old.drop 12), 13, 13⟩) := by
  obtain ⟨x1, x2, x3, x4, x5, x6, x7, x8, x9, x10, x11, x12, tl, rfl⟩ :=
    exists_take_twelve old hold
  obtain ⟨p1, p2, p3, p4, p5, p6, hp⟩ := exists_six _ hphone
  have h16 := le16_EndianSwap16 command
  have h16f := le16_EndianSwap16 ((flow + 1) % 65536)
  simp only [le16, be16] at h16 h16f
  simp only [List.cons.injEq, and_true] at h16 h16f
  simp only [packHead, Option.bind_eq_bind, memcpy, le16, hp, PackState.setEncrypt,
    PackState.setPackage, rd16, load, packBuf, be16, MSGBODY_NOPACKAGE_POS]
  simp [attrSetEncrypt, attrSetPackage, h16.1, h16.2, h16f.1, h16f.2]

theorem bccList_lt_256 (bs : List Nat) : bccList bs % 256 = bccList bs :=
  Nat.mod_eq_of_lt (bccList_lt bs)

/-- Lines 959-963 when `msg_body` points behind the bytes packed so far and `msg.len`
counts them and the delimiter slot: the attribute word is made big-endian and the
checksum of the bytes behind the delimiter slot is appended. -/
theorem packCheck_rep (b0 i0 i1 a : Nat) (mid : List Nat) (t0 : Nat) (rest : List Nat)
    (ha : a < 65536) :
    packCheck ⟨packBuf [b0, i0, i1] a mid (t0 :: rest), 5 + mid.length, 5 + mid.length⟩
      = some ⟨b0 :: (([i0, i1] ++ be16 a ++ mid)
                ++ [bccList ([i0, i1] ++ be16 a ++ mid)] ++ rest),
              5 + mid.length + 1, 5 + mid.length⟩ := by
  have hb := BccCheckSum_eq ([i0, i1] ++ be16 a ++ mid) (t0 :: rest)
  have hlen : ([i0, i1] ++ be16 a ++ mid).length = 5 + mid.length - 1 := by
    simp [be16]; omega
  rw [hlen] at hb
  have hst := store_append ([b0, i0, i1] ++ be16 a ++ mid) t0 rest
    (bccList ([i0, i1] ++ be16 a ++ mid))
  have hl2 : ([b0, i0, i1] ++ be16 a ++ mid).length = 5 + mid.length := by
    simp [be16]; omega
  rw [hl2] at hst
  unfold packCheck
  simp only [Option.bind_eq_bind]
  rw [show packBuf [b0, i0, i1] a mid (t0 :: rest)
      = [b0, i0, i1] ++ le16 a ++ (mid ++ t0 :: rest) by simp [packBuf]]
  rw [rd16_three [b0, i0, i1] _ _ rfl ha, Option.some_bind,
    memcpy_three [b0, i0, i1] _ _ _ rfl, Option.some_bind, le16_EndianSwap16]
  have e1 : ([b0, i0, i1] ++ be16 a ++ (mid ++ t0 :: rest)).drop 1
      = [i0, i1] ++ be16 a ++ mid ++ t0 :: rest := by simp
  have e2 : [b0, i0, i1] ++ be16 a ++ (mid ++ t0 :: rest)
      = [b0, i0, i1] ++ be16 a ++ mid ++ t0 :: rest := by simp
  rw [e1, hb, Option.some_bind, e2, hst, Option.some_bind]
  simp

theorem escapeSpec_single (t : Nat) (h1 : t ≠ 0x7E) (h2 : t ≠ 0x7D) : escapeSpec [t] = [t] := by
  simp [escapeSpec, h1, h2]

/-- Lines 965-975 on a buffer that holds the bytes `X` behind the delimiter slot and then
a byte `t1` that is neither `0x7E` nor `0x7D`, with `msg.len` one more than the length
of `X`: the frame is `0x7E`, the escaped `X`, `0x7E`. -/
theorem packEscape_eq (b0 : Nat) (X : List Nat) (t1 : Nat) (rest : List Nat) (k : Nat)
    (h1 : t1 ≠ 0x7E) (h2 : t1 ≠ 0x7D)
    (h16 : (escapeSpec X).length + 1 < 65536)
    (hfit : (escapeSpec X).length ≤ X.length + rest.length) :
    packEscape ⟨b0 :: (X ++ t1 :: rest), X.length + 1, k⟩
      = some (⟨0x7E :: (escapeSpec X ++ 0x7E :: (X ++ t1 :: rest).drop ((escapeSpec X).length + 1)),
               (escapeSpec X).length + 2⟩, (escapeSpec X).length + 2) := by
  have hE := Escape_eq (X ++ [t1]) rest
    (by rw [escapeSpec_append, escapeSpec_single t1 h1 h2]; simpa using h16)
    (by rw [escapeSpec_append, escapeSpec_single t1 h1 h2]; simp; omega)
  rw [escapeSpec_append, escapeSpec_single t1 h1 h2] at hE
  simp only [List.length_append, List.length_cons, List.length_nil] at hE
  have e0 : X ++ [t1] ++ rest = X ++ t1 :: rest := by simp
  rw [e0] at hE
  unfold packEscape
  simp only [Option.bind_eq_bind, List.drop_succ_cons, List.drop_zero, List.take_succ_cons,
    List.take_zero]
  rw [hE, Option.some_bind]
  simp only [store, PROTOCOL_SIGN]
  have hdrop : ((X ++ t1 :: rest).drop ((escapeSpec X).length + 1)).length
      = X.length + rest.length - (escapeSpec X).length := by
    simp; omega
  simp only [List.length_append, List.length_cons, List.length_nil, hdrop, List.cons_append,
    List.nil_append]
  rw [if_pos (by omega)]
  simp only [Option.some_bind, List.set_cons_zero, List.length_cons, List.length_append,
    hdrop]
  rw [if_pos (by omega)]
  simp only [Option.some_bind, Option.pure_def, Option.some.injEq, Prod.mk.injEq,
    MessageData.mk.injEq, and_true]
  have hset : ∀ (A D : List Nat) (t x : Nat), (A ++ t :: D).set A.length x = A ++ x :: D := by
    intro A D t x
    simp
  have := hset (126 :: escapeSpec X) (List.drop ((escapeSpec X).length + 1) (X ++ t1 :: rest)) t1 126
  simp

theorem be16_mod (x : Nat) : be16 (x % 65536) = be16 x := by
  simp only [be16, List.cons.injEq, and_true]
  constructor <;> omega

theorem replicate_zero_cons (k : Nat) (hk : 1 ≤ k) :
    List.replicate k 0 = 0 :: List.replicate (k - 1) 0 := by
  obtain ⟨j, rfl⟩ : ∃ j, k = j + 1 := ⟨k - 1, by omega⟩
  simp [List.replicate_succ]

theorem drop_append_replicate (X : List Nat) (k n : Nat) (h : X.length ≤ n) :
    (X ++ List.replicate k 0).drop n = List.replicate (X.length + k - n) 0 := by
  rw [List.drop_append_eq_append_drop, List.drop_eq_nil_of_le h, List.nil_append,
    List.drop_replicate]
  congr 1
  omega

/-- The frame `Jt808FramePack` returns into a zeroed buffer when the `switch` leaves the
bytes `mid` behind the attribute word, `msg_body` behind them and `msg.len` equal to
their count: the delimiter, the escaped header, body and checksum, the delimiter. -/
theorem Jt808FramePack_of_body (flow cap len0 command : Nat) (propara : ProtocolParameters)
    (a : Nat) (mid : List Nat) (k : Nat)
    (hcap : 13 ≤ cap) (hphone : propara.phone_num.length = 6)
    (hbody : packBody (command % 65536) propara
        ⟨packBuf ([0] ++ be16 command) 0 (propara.phone_num ++ be16 ((flow + 1) % 65536))
          (List.replicate (cap - 13) 0), 13, 13⟩
      = some ⟨packBuf ([0] ++ be16 command) a mid (List.replicate k 0),
              5 + mid.length, 5 + mid.length⟩)
    (ha : a < 65536) (hk : 2 ≤ k)
    (h16 : (escapeSpec (be16 command ++ be16 a ++ mid
              ++ [bccList (be16 command ++ be16 a ++ mid)])).length + 1 < 65536)
    (hfit : (escapeSpec (be16 command ++ be16 a ++ mid
              ++ [bccList (be16 command ++ be16 a ++ mid)])).length
              ≤ 5 + mid.length + (k - 2)) :
    Jt808FramePack flow ⟨List.replicate cap 0, len0⟩ command propara
      = some ((flow + 1) % 65536,
          ⟨0x7E :: (escapeSpec (be16 command ++ be16 a ++ mid
              ++ [bccList (be16 command ++ be16 a ++ mid)])
              ++ 0x7E :: List.replicate (5 + mid.length + k - 2
                  - (escapeSpec (be16 command ++ be16 a ++ mid
                      ++ [bccList (be16 command ++ be16 a ++ mid)])).length) 0),
            (escapeSpec (be16 command ++ be16 a ++ mid
              ++ [bccList (be16 command ++ be16 a ++ mid)])).length + 2⟩,
          (escapeSpec (be16 command ++ be16 a ++ mid
              ++ [bccList (be16 command ++ be16 a ++ mid)])).length + 2) := by
  generalize hX : be16 command ++ be16 a ++ mid
      ++ [bccList (be16 command ++ be16 a ++ mid)] = X at h16 hfit ⊢
  have hXlen : X.length = 5 + mid.length := by
    rw [← hX]; simp [be16]; omega
  have hbuf : List.replicate cap 0 = 0 :: List.replicate (cap - 1) 0 :=
    replicate_zero_cons cap (by omega)
  have hhead := packHead_rep flow 0 (List.replicate (cap - 1) 0) len0 (command % 65536)
    propara (by simp; omega) hphone
  rw [be16_mod, List.drop_replicate, show cap - 1 - 12 = cap - 13 by omega] at hhead
  have hk2 : List.replicate k 0 = 0 :: 0 :: List.replicate (k - 2) 0 := by
    rw [replicate_zero_cons k (by omega), replicate_zero_cons (k - 1) (by omega)]
    rfl
  have hb16 : [0] ++ be16 command = [0, command / 256 % 256, command % 256] := by simp [be16]
  have hcheck : packCheck ⟨packBuf [0, command / 256 % 256, command % 256] a mid
        (0 :: 0 :: List.replicate (k - 2) 0), 5 + mid.length, 5 + mid.length⟩
      = some ⟨0 :: (X ++ 0 :: List.replicate (k - 2) 0), 5 + mid.length + 1,
              5 + mid.length⟩ := by
    rw [packCheck_rep 0 (command / 256 % 256) (command % 256) a mid 0
      (0 :: List.replicate (k - 2) 0) ha, ← hX]
    simp [be16]
  have hesc := packEscape_eq 0 X 0 (List.replicate (k - 2) 0) (5 + mid.length)
    (by norm_num) (by norm_num) h16 (by simp; omega)
  rw [hXlen] at hesc
  unfold Jt808FramePack packUnescaped
  simp only [Option.bind_eq_bind]
  rw [hbuf, hhead]
  simp only [Option.some_bind]
  rw [hbody]
  simp only [Option.some_bind]
  rw [hb16, hk2, hcheck]
  simp only [Option.some_bind, Option.pure_def, List.append_assoc, List.singleton_append]
  rw [hesc]
  simp only [Option.some_bind, Option.some.injEq, Prod.mk.injEq, true_and, and_true,
    MessageData.mk.injEq, List.cons.injEq, List.append_cancel_left_eq]
  have := drop_append_replicate (X ++ [0]) (k - 2) ((escapeSpec X).length + 1)
    (by have := escapeSpec_length_le X; simp; omega)
  simp only [List.append_assoc, List.singleton_append, List.length_append, List.length_cons,
    List.length_nil] at this
  rw [show (0 : Nat) :: List.replicate (k - 2) 0 = 0 :: List.replicate (k - 2) 0 from rfl]
  rw [this]
  congr 1
  omega

theorem be16_lt (x : Nat) : ∀ b ∈ be16 x, b < 256 := by
  intro b hb
  simp only [be16, List.mem_cons, List.mem_singleton, List.not_mem_nil, or_false] at hb
  rcases hb with h | h <;> omega

theorem be32_lt (x : Nat) : ∀ b ∈ be32 x, b < 256 := by
  intro b hb
  simp only [be32, List.mem_cons, List.mem_singleton, List.not_mem_nil, or_false] at hb
  rcases hb with h | h | h | h <;> omega

/-- The frame of `Jt808FramePack_of_body`, read as the first `n` bytes of the buffer,
with the checksum as the XOR of header and body. -/
theorem Jt808FramePack_frame (flow cap len0 command : Nat) (propara : ProtocolParameters)
    (a : Nat) (mid : List Nat) (k L : Nat)
    (hcap : 13 ≤ cap) (hphone : propara.phone_num.length = 6)
    (hbody : packBody (command % 65536) propara
        ⟨packBuf ([0] ++ be16 command) 0 (propara.phone_num ++ be16 ((flow + 1) % 65536))
          (List.replicate (cap - 13) 0), 13, 13⟩
      = some ⟨packBuf ([0] ++ be16 command) a mid (List.replicate k 0), L, L⟩)
    (hL : L = 5 + mid.length)
    (ha : a < 65536) (hmid : ∀ b ∈ mid, b < 256) (hcapk : cap = 5 + mid.length + k)
    (hk : 2 * (5 + mid.length) + 1 ≤ k) (h16 : 2 * (5 + mid.length) + 1 < 65536) :
    ∃ msg1 n, Jt808FramePack flow ⟨List.replicate cap 0, len0⟩ command propara
        = some ((flow + 1) % 65536, msg1, n) ∧ msg1.len = n ∧ n < cap ∧
      msg1.buffer.length = cap ∧
      msg1.buffer.take n = [0x7E] ++ escapeSpec (be16 command ++ be16 a ++ mid
          ++ [bccSpec (be16 command ++ be16 a ++ mid)]) ++ [0x7E] ∧
      msg1.buffer.drop n = List.replicate (cap - n) 0 := by
  have hbytes : ∀ b ∈ be16 command ++ be16 a ++ mid, b < 256 := by
    intro b hb
    simp only [List.mem_append] at hb
    rcases hb with (h | h) | h
    · exact be16_lt _ b h
    · exact be16_lt _ b h
    · exact hmid b h
  have hbcc := bccList_eq_bccSpec _ hbytes
  subst hL
  have h := Jt808FramePack_of_body flow cap len0 command propara a mid k hcap hphone hbody ha
  rw [hbcc] at h
  generalize hX : be16 command ++ be16 a ++ mid
      ++ [bccSpec (be16 command ++ be16 a ++ mid)] = X at h ⊢
  have hXl : X.length = 5 + mid.length := by
    rw [← hX]; simp [be16]; omega
  have hlen := escapeSpec_length_le X
  have h := h (by omega) (by omega) (by omega)
  generalize hE : escapeSpec X = E at h hlen ⊢
  refine ⟨_, _, h, rfl, ?_, ?_, ?_, ?_⟩
  · omega
  · simp; omega
  · have e : 0x7E :: (E ++ 0x7E :: List.replicate (5 + mid.length + k - 2 - E.length) 0)
        = (0x7E :: (E ++ [0x7E])) ++ List.replicate (5 + mid.length + k - 2 - E.length) 0 := by
      simp
    simp only [e]
    rw [List.take_left' (by simp)]
    simp
  · have e : 0x7E :: (E ++ 0x7E :: List.replicate (5 + mid.length + k - 2 - E.length) 0)
        = (0x7E :: (E ++ [0x7E])) ++ List.replicate (5 + mid.length + k - 2 - E.length) 0 := by
      simp
    simp only [e]
    rw [List.drop_left' (by simp)]
    congr 1
    omega

/-- `case DOWN_REGISTERRESPONSE`: the body is the flow number and the result, and the
authentication code when the result is `kSuccess`. -/
theorem packRegisterResponse_rep (propara : ProtocolParameters) (hd3 : List Nat) (a : Nat)
    (mid rest : List Nat) (len k : Nat) (h3 : hd3.length = 3) (ha : a < 65536)
    (hk : k = 5 + mid.length)
    (hauth : propara.authen_code.length = 4) (hr : 7 ≤ rest.length) :
    packRegisterResponse propara ⟨packBuf hd3 a mid rest, len, k⟩
      = if propara.respond_result % 256 = kSuccess then
          some ⟨packBuf hd3 (attrSetMsglen a 7)
                (mid ++ (be16 propara.respond_flow_num ++ [propara.respond_result % 256]
                  ++ propara.authen_code)) (rest.drop 7),
              len + 7, k + 7⟩
        else
          some ⟨packBuf hd3 (attrSetMsglen a 3)
                (mid ++ (be16 propara.respond_flow_num ++ [propara.respond_result % 256]))
                (rest.drop 3),
              len + 3, k + 3⟩ := by
  subst hk
  unfold packRegisterResponse
  simp only [Option.bind_eq_bind]
  rw [PackState.put16_rep _ _ _ _ _ _ h3 (by omega), Option.some_bind,
    PackState.put8_rep _ _ _ _ _ _ h3 (by simp; omega), Option.some_bind]
  by_cases hs : propara.respond_result % 256 = kSuccess
  · rw [if_pos hs, if_pos hs]
    rw [PackState.putBytes_rep _ _ _ _ _ _ _ h3 (by omega) (by simp; omega), Option.some_bind,
      PackState.setMsglen_rep _ _ _ _ _ _ _ h3 ha, Option.some_bind, PackState.addLen_rep]
    have : List.take 4 propara.authen_code = propara.authen_code :=
      List.take_of_length_le (by omega)
    simp [be16, this, hauth]
    omega
  · rw [if_neg hs, if_neg hs]
    rw [PackState.setMsglen_rep _ _ _ _ _ _ _ h3 ha, Option.some_bind, PackState.addLen_rep]
    simp [be16]
    omega

/-- C1: for every byte sequence `b` at the start of an array that has room for the
escaped bytes (their count fitting the 16-bit counters of the two loops), `Escape`
followed by `ReverseEscape` on the returned length gives back `b.length` and leaves
exactly the bytes `b` at the start of the array, whose length is unchanged. -/
theorem escape_reverse_roundtrip (b post : List Nat)
    (hfit : b.length + b.count 0x7E + b.count 0x7D ≤ (b ++ post).length)
    (h16 : b.length + b.count 0x7E + b.count 0x7D < 65535) :
    ∃ src2, (Escape (b ++ post) b.length).bind (fun r => ReverseEscape r.1 r.2)
        = some (src2, b.length) ∧
      src2.take b.length = b ∧ src2.length = (b ++ post).length := by
  rw [← escapeSpec_length] at hfit h16
  have hle := escapeSpec_length_le b
  rw [Escape_eq b post (by omega) (by simpa using hfit), Option.some_bind]
  simp only []
  have hu : unescapeList (escapeSpec b).length
      (escapeSpec b ++ List.drop (escapeSpec b).length (b ++ post)) = some b := by
    have := unescapeList_escapeSpec b (List.drop (escapeSpec b).length (b ++ post)) 0
    simpa [unescapeList] using this
  rw [ReverseEscape_eq _ b _ h16 (by simp) hu]
  refine ⟨_, rfl, ?_, ?_⟩
  · simp
  · simp at hfit ⊢
    omega

/-- Witness of C1 on the bytes `0x7E, 0x01, 0x7D` in an array of six bytes. -/
theorem escape_reverse_roundtrip_witness :
    ∃ src2, (Escape ([0x7E, 0x01, 0x7D] ++ [0, 0, 0]) 3).bind
        (fun r => ReverseEscape r.1 r.2) = some (src2, 3) ∧
      src2.take 3 = [0x7E, 0x01, 0x7D] ∧ src2.length = 6 :=
  escape_reverse_roundtrip [0x7E, 0x01, 0x7D] [0, 0, 0] (by decide) (by decide)

/-- C6: for every byte sequence `b` at the start of an array that has room for the
escaped bytes, `Escape` leaves at the start of the array the sequence in which every
`0x7E` of `b` is replaced by `0x7D, 0x02`, every `0x7D` by `0x7D, 0x01` and every other
byte is copied, and returns `b.length` plus the number of `0x7E` and `0x7D` bytes of
`b`. -/
theorem escape_replaces (b post : List Nat)
    (hfit : b.length + b.count 0x7E + b.count 0x7D ≤ (b ++ post).length)
    (h16 : b.length + b.count 0x7E + b.count 0x7D < 65536) :
    ∃ src1, Escape (b ++ post) b.length
        = some (src1, b.length + b.count 0x7E + b.count 0x7D) ∧
      src1.take (b.length + b.count 0x7E + b.count 0x7D) = escapeSpec b ∧
      src1.length = (b ++ post).length := by
  rw [← escapeSpec_length] at hfit h16 ⊢
  rw [Escape_eq b post h16 (by simpa using hfit)]
  refine ⟨_, rfl, ?_, ?_⟩
  · simp
  · simp at hfit ⊢
    omega

/-- Witness of C6 on the bytes `0x30, 0x7E, 0x08, 0x7D, 0x55` in an array of eight
bytes. -/
theorem escape_replaces_witness :
    ∃ src1, Escape ([0x30, 0x7E, 0x08, 0x7D, 0x55] ++ [0, 0, 0]) 5 = some (src1, 5 + 1 + 1) ∧
      src1.take (5 + 1 + 1) = escapeSpec [0x30, 0x7E, 0x08, 0x7D, 0x55] ∧ src1.length = 8 :=
  escape_replaces [0x30, 0x7E, 0x08, 0x7D, 0x55] [0, 0, 0] (by decide) (by decide)

/-- C7: on every sequence `x` of bytes `BccCheckSum` returns the XOR of all of them, and
the checksum of `x` followed by the one byte `BccCheckSum(x)` is 0. -/
theorem bcc_xor_self_zero (x post : List Nat) (hx : ∀ b ∈ x, b < 256) :
    BccCheckSum (x ++ post) x.length = some (bccSpec x) ∧
    BccCheckSum (x ++ bccSpec x :: post) (x.length + 1) = some 0 := by
  have h1 := BccCheckSum_eq x post
  rw [bccList_eq_bccSpec x hx] at h1
  refine ⟨h1, ?_⟩
  have h2 := BccCheckSum_eq (x ++ [bccList x]) post
  rw [bccList_append_self, bccList_eq_bccSpec x hx] at h2
  simpa using h2

/-- Witness of C7 on the bytes `0x12, 0x34, 0xFF`. -/
theorem bcc_xor_self_zero_witness :
    BccCheckSum ([0x12, 0x34, 0xFF] ++ []) 3 = some (bccSpec [0x12, 0x34, 0xFF]) ∧
    BccCheckSum ([0x12, 0x34, 0xFF] ++ bccSpec [0x12, 0x34, 0xFF] :: []) (3 + 1) = some 0 :=
  bcc_xor_self_zero [0x12, 0x34, 0xFF] [] (by decide)

theorem mem_lt_of_append {l1 l2 : List Nat} (h1 : ∀ b ∈ l1, b < 256) (h2 : ∀ b ∈ l2, b < 256) :
    ∀ b ∈ l1 ++ l2, b < 256 := by
  intro b hb
  rcases List.mem_append.mp hb with h | h
  · exact h1 b h
  · exact h2 b h

theorem mem_lt_singleton_mod (x : Nat) : ∀ b ∈ [x % 256], b < 256 := by
  intro b hb
  simp only [List.mem_singleton] at hb
  omega

/-- C9: for every envelope (six phone bytes) and every zeroed frame buffer of at least
55 bytes, the frame `Jt808FramePack` returns for the downlink unified response 0x8001
is the encoded frame whose header carries `msg_len` 5 and whose body is the five bytes
`respond_flow_num` (big-endian `u16`), `respond_id` (big-endian `u16`),
`respond_result`. -/
theorem uniresponse_body (flow cap len0 : Nat) (propara : ProtocolParameters)
    (hphone : propara.phone_num.length = 6) (hbytes : ∀ b ∈ propara.phone_num, b < 256)
    (hcap : 55 ≤ cap) :
    ∃ msg1 n, Jt808FramePack flow ⟨List.replicate cap 0, len0⟩ DOWN_UNIRESPONSE propara
        = some ((flow + 1) % 65536, msg1, n) ∧ msg1.len = n ∧
      msg1.buffer.take n
        = encode_frame (headerSpec 0x8001 5 propara.phone_num ((flow + 1) % 65536))
            (be16 propara.respond_flow_num ++ be16 propara.respond_id
              ++ [propara.respond_result % 256]) ∧
      (be16 propara.respond_flow_num ++ be16 propara.respond_id
              ++ [propara.respond_result % 256]).length = 5 := by
  have hrep := packUniResponse_rep propara ([0] ++ be16 DOWN_UNIRESPONSE) 0
    (propara.phone_num ++ be16 ((flow + 1) % 65536)) (List.replicate (cap - 13) 0) 13 13
    (by simp [be16]) (by norm_num) (by simp [be16, hphone]) (by simp; omega)
  have hpb : packBody (DOWN_UNIRESPONSE % 65536) propara = packUniResponse propara := by
    funext s; simp [packBody, DOWN_UNIRESPONSE]
  rw [← hpb, List.drop_replicate, show cap - 13 - 5 = cap - 18 by omega] at hrep
  obtain ⟨msg1, n, h1, h2, _, _, h3, _⟩ := Jt808FramePack_frame flow cap len0 DOWN_UNIRESPONSE
    propara _ _ (cap - 18) _ (by omega) hphone hrep (by simp [be16, hphone])
    (by unfold attrSetMsglen; omega)
    (mem_lt_of_append (mem_lt_of_append hbytes (be16_lt _))
      (mem_lt_of_append (mem_lt_of_append (be16_lt _) (be16_lt _)) (mem_lt_singleton_mod _)))
    (by simp [be16, hphone]; omega) (by simp [be16, hphone]; omega)
    (by simp [be16, hphone])
  refine ⟨msg1, n, h1, h2, ?_, by simp [be16]⟩
  rw [h3]
  simp [encode_frame, headerSpec, attrSetMsglen, DOWN_UNIRESPONSE]

/-- Witness of C9: the example envelope, flow number 0, a zeroed buffer of 64 bytes. -/
theorem uniresponse_body_witness :
    ∃ msg1 n, Jt808FramePack 0 ⟨List.replicate 64 0, 0⟩ DOWN_UNIRESPONSE exampleParameters
        = some ((0 + 1) % 65536, msg1, n) ∧ msg1.len = n ∧
      msg1.buffer.take n
        = encode_frame (headerSpec 0x8001 5 exampleParameters.phone_num ((0 + 1) % 65536))
            (be16 exampleParameters.respond_flow_num ++ be16 exampleParameters.respond_id
              ++ [exampleParameters.respond_result % 256]) ∧
      (be16 exampleParameters.respond_flow_num ++ be16 exampleParameters.respond_id
              ++ [exampleParameters.respond_result % 256]).length = 5 :=
  uniresponse_body 0 64 0 exampleParameters (by decide) (by decide) (by decide)

/-- C10: for every envelope (six phone bytes, four bytes of authentication code) and
every zeroed frame buffer of at least 61 bytes, the frame `Jt808FramePack` returns for
the register response 0x8100 is the encoded frame whose body is `respond_flow_num`
(big-endian `u16`), the `respond_result` byte, and then the four bytes of the
authentication code if and only if `respond_result` is `register_success`; otherwise
the body has exactly 3 bytes.  The header carries the length of the body as
`msg_len`. -/
theorem registerresponse_body (flow cap len0 : Nat) (propara : ProtocolParameters)
    (hphone : propara.phone_num.length = 6) (hbytes : ∀ b ∈ propara.phone_num, b < 256)
    (hauth : propara.authen_code.length = 4) (habytes : ∀ b ∈ propara.authen_code, b < 256)
    (hcap : 61 ≤ cap) :
    ∃ msg1 n body, Jt808FramePack flow ⟨List.replicate cap 0, len0⟩ DOWN_REGISTERRESPONSE
          propara = some ((flow + 1) % 65536, msg1, n) ∧ msg1.len = n ∧
      msg1.buffer.take n
        = encode_frame (headerSpec 0x8100 body.length propara.phone_num ((flow + 1) % 65536))
            body ∧
      body = be16 propara.respond_flow_num ++ [propara.respond_result % 256]
          ++ (if propara.respond_result % 256 = kRegisterSuccess then propara.authen_code
              else []) ∧
      (¬ propara.respond_result % 256 = kRegisterSuccess → body.length = 3) := by
  have hrep := packRegisterResponse_rep propara ([0] ++ be16 DOWN_REGISTERRESPONSE) 0
    (propara.phone_num ++ be16 ((flow + 1) % 65536)) (List.replicate (cap - 13) 0) 13 13
    (by simp [be16]) (by norm_num) (by simp [be16, hphone]) hauth (by simp; omega)
  have hpb : packBody (DOWN_REGISTERRESPONSE % 65536) propara
      = packRegisterResponse propara := by
    funext s; simp [packBody, DOWN_REGISTERRESPONSE, DOWN_UNIRESPONSE]
  rw [← hpb] at hrep
  by_cases hs : propara.respond_result % 256 = kSuccess
  · rw [if_pos hs, List.drop_replicate, show cap - 13 - 7 = cap - 20 by omega] at hrep
    obtain ⟨msg1, n, h1, h2, _, _, h3, _⟩ := Jt808FramePack_frame flow cap len0
      DOWN_REGISTERRESPONSE propara _ _ (cap - 20) _ (by omega) hphone hrep
      (by simp [be16, hphone, hauth])
      (by unfold attrSetMsglen; omega)
      (mem_lt_of_append (mem_lt_of_append hbytes (be16_lt _))
        (mem_lt_of_append (mem_lt_of_append (be16_lt _) (mem_lt_singleton_mod _)) habytes))
      (by simp [be16, hphone, hauth]; omega) (by simp [be16, hphone, hauth]; omega)
      (by simp [be16, hphone, hauth])
    have hs' : propara.respond_result % 256 = kRegisterSuccess := hs
    refine ⟨msg1, n, _, h1, h2, ?_, rfl, fun h => absurd hs' h⟩
    rw [h3, if_pos hs']
    simp [encode_frame, headerSpec, attrSetMsglen, DOWN_REGISTERRESPONSE, be16, hauth]
  · rw [if_neg hs, List.drop_replicate, show cap - 13 - 3 = cap - 16 by omega] at hrep
    obtain ⟨msg1, n, h1, h2, _, _, h3, _⟩ := Jt808FramePack_frame flow cap len0
      DOWN_REGISTERRESPONSE propara _ _ (cap - 16) _ (by omega) hphone hrep
      (by simp [be16, hphone])
      (by unfold attrSetMsglen; omega)
      (mem_lt_of_append (mem_lt_of_append hbytes (be16_lt _))
        (mem_lt_of_append (be16_lt _) (mem_lt_singleton_mod _)))
      (by simp [be16, hphone]; omega) (by simp [be16, hphone]; omega)
      (by simp [be16, hphone])
    have hs' : ¬ propara.respond_result % 256 = kRegisterSuccess := hs
    refine ⟨msg1, n, _, h1, h2, ?_, rfl, fun _ => by simp [be16, hs']⟩
    rw [h3, if_neg hs']
    simp [encode_frame, headerSpec, attrSetMsglen, DOWN_REGISTERRESPONSE, be16]

/-- Witness of C10: the example envelope (result 0, `register_success`), flow number 0,
a zeroed buffer of 64 bytes. -/
theorem registerresponse_body_witness :
    ∃ msg1 n body, Jt808FramePack 0 ⟨List.replicate 64 0, 0⟩ DOWN_REGISTERRESPONSE
          exampleParameters = some ((0 + 1) % 65536, msg1, n) ∧ msg1.len = n ∧
      msg1.buffer.take n
        = encode_frame (headerSpec 0x8100 body.length exampleParameters.phone_num
            ((0 + 1) % 65536)) body ∧
      body = be16 exampleParameters.respond_flow_num
          ++ [exampleParameters.respond_result % 256]
          ++ (if exampleParameters.respond_result % 256 = kRegisterSuccess
              then exampleParameters.authen_code else []) ∧
      (¬ exampleParameters.respond_result % 256 = kRegisterSuccess → body.length = 3) :=
  registerresponse_body 0 64 0 exampleParameters (by decide) (by decide) (by decide)
    (by decide) (by decide)

theorem escapeSpec_eq_self_of_not_mem (Y : List Nat) :
    ∀ C : List Nat, escapeSpec Y = C → 0x7D ∉ C → Y = C := by
  induction Y with
  | nil => intro C h _; simpa [escapeSpec] using h
  | cons y Y ih =>
    intro C h hC
    by_cases h7e : y = 0x7E
    · subst h7e
      simp only [escapeSpec, if_true] at h
      subst h
      simp at hC
    · by_cases h7d : y = 0x7D
      · subst h7d
        simp only [escapeSpec] at h
        subst h
        simp at hC
      · simp only [escapeSpec, if_neg h7e, if_neg h7d, List.singleton_append] at h
        subst h
        rw [List.mem_cons, not_or] at hC
        have := ih _ rfl hC.2
        rw [← this]

theorem encode_frame_eq_imp (header body C : List Nat) (hC : 0x7D ∉ C)
    (h : [0x7E] ++ C ++ [0x7E] = encode_frame header body) :
    C = header ++ body ++ [bccSpec (header ++ body)] := by
  unfold encode_frame at h
  have h1 : C = escapeSpec (header ++ body ++ [bccSpec (header ++ body)]) := by
    simp only [List.singleton_append, List.cons_append, List.cons.injEq, true_and] at h
    exact List.append_cancel_right h
  exact (escapeSpec_eq_self_of_not_mem _ C h1.symm hC).symm

/-- C2, at the failing input: into a zeroed buffer of 32 bytes, with flow number 0, the
passthrough command 0x8900 with type `0x41` and the one payload byte `0x55` returns a
frame of 17 bytes in which the payload byte is replaced by the checksum `0x15`, a zero
byte stands in the place of the checksum and `msg_len` is 1; this frame is the encoding
`0x7E`, escaped header, body and checksum, `0x7E` of no header and body at all. -/
theorem passthrough_frame_not_encoded :
    packedFrame (Jt808FramePack 0 ⟨List.replicate 32 0, 0⟩ DOWN_PASSTHROUGH
        passThroughParameters)
      = some ([0x7E] ++ [0x89, 0x00, 0x00, 0x01, 0x01, 0x23, 0x45, 0x67, 0x89, 0x01,
          0x00, 0x01, 0x41, 0x15, 0x00] ++ [0x7E]) ∧
    ∀ header body : List Nat,
      [0x7E] ++ [0x89, 0x00, 0x00, 0x01, 0x01, 0x23, 0x45, 0x67, 0x89, 0x01,
          0x00, 0x01, 0x41, 0x15, 0x00] ++ [0x7E] ≠ encode_frame header body := by
  refine ⟨by decide, ?_⟩
  intro header body h
  have h1 := encode_frame_eq_imp header body _ (by decide) h
  have h2 : header ++ body = [0x89, 0x00, 0x00, 0x01, 0x01, 0x23, 0x45, 0x67, 0x89, 0x01,
      0x00, 0x01, 0x41, 0x15] ∧ bccSpec (header ++ body) = 0x00 := by
    have := congrArg List.dropLast h1
    have h3 := congrArg List.getLast? h1
    simp only [List.dropLast_concat] at this
    simp only [List.getLast?_append, List.getLast?_singleton] at h3
    constructor
    · rw [← this]; rfl
    · simpa using h3.symm
  rw [h2.1] at h2
  exact absurd h2.2 (by decide)

/-- C8, at the failing input: into a zeroed buffer of 64 bytes, with flow number 0, the
set-rectangle-area command 0x8602 with one area without time window and speed limit
returns a frame whose body has 24 bytes (set type, count, and the 22 bytes of the area
record) and whose header carries `msg_len` 14. -/
theorem rectangle_msglen_value :
    packedFrame (Jt808FramePack 0 ⟨List.replicate 64 0, 0⟩ DOWN_SETRECTANGLEAREA
        rectangleParameters)
      = some (encode_frame (headerSpec 0x8602 14 exampleParameters.phone_num 1)
          ([0, 1] ++ be32 1 ++ be16 0 ++ be32 2 ++ be32 3 ++ be32 4 ++ be32 5)) ∧
    ([0, 1] ++ be32 1 ++ be16 0 ++ be32 2 ++ be32 3 ++ be32 4 ++ be32 5).length = 24 ∧
    attrMsglen 14 ≠ 24 := by
  refine ⟨?_, by decide, by decide⟩
  set_option maxRecDepth 100000 in decide

/-- The loop of `ReverseEscape` leaves when the array has one byte more than `len`. -/
theorem unescapeList_total :
    ∀ (k n : Nat) (rest : List Nat), rest.length ≤ k → n + 1 ≤ rest.length →
      ∃ out, unescapeList n rest = some out := by
  intro k
  induction k with
  | zero => intro n rest hk h; omega
  | succ k ih =>
    intro n rest hk h
    cases n with
    | zero => exact ⟨[], by simp [unescapeList]⟩
    | succ n =>
      cases rest with
      | nil => simp at h
      | cons c rest =>
        simp only [List.length_cons] at hk h
        by_cases hc : c = 0x7D
        · subst hc
          cases rest with
          | nil => simp at h
          | cons d rest1 =>
            simp only [List.length_cons] at hk h
            by_cases hd : d = 0x02
            · subst hd
              rw [unescapeList_esc2]
              cases n with
              | zero => exact ⟨[0x7E], by simp [unescapeList]⟩
              | succ m =>
                obtain ⟨o, ho⟩ := ih (m + 1 - 1) rest1 (by omega) (by simp; omega)
                exact ⟨_, by rw [ho]; rfl⟩
            · by_cases hd1 : d = 0x01
              · subst hd1
                rw [unescapeList_esc1]
                cases n with
                | zero => exact ⟨[0x7D], by simp [unescapeList]⟩
                | succ m =>
                  obtain ⟨o, ho⟩ := ih (m + 1 - 1) rest1 (by omega) (by simp; omega)
                  exact ⟨_, by rw [ho]; rfl⟩
              · rw [unescapeList_esc_other _ _ _ hd hd1]
                obtain ⟨o, ho⟩ := ih n (d :: rest1) (by simp; omega) (by simp; omega)
                exact ⟨_, by rw [ho]; rfl⟩
        · rw [unescapeList_plain _ _ _ hc]
          obtain ⟨o, ho⟩ := ih n rest (by omega) (by omega)
          exact ⟨_, by rw [ho]; rfl⟩

/-- `ReverseEscape` returns on every array that has one byte more than `len`; the array
keeps its length and the returned length is at most `len`. -/
theorem ReverseEscape_total (src : List Nat) (len : Nat) (h : len + 1 ≤ src.length)
    (h16 : len < 65535) :
    ∃ src1 j, ReverseEscape src len = some (src1, j) ∧ src1.length = src.length ∧ j ≤ len := by
  obtain ⟨out, ho⟩ := unescapeList_total src.length len src (le_refl _) h
  have hle := unescapeList_length_le src.length src len out (le_refl _) ho
  refine ⟨_, _, ReverseEscape_eq src out len h16 (by omega) ho, ?_, hle⟩
  simp
  omega

theorem unescapeList_of_not_mem (c : List Nat) (hc : 0x7D ∉ c) :
    ∀ (rest : List Nat) (n : Nat),
      unescapeList (c.length + n) (c ++ rest) = (unescapeList n rest).map fun out => c ++ out := by
  induction c with
  | nil => intro rest n; simp
  | cons x c ih =>
    intro rest n
    rw [List.mem_cons, not_or] at hc
    have hx : x ≠ 0x7D := fun h => hc.1 h.symm
    have e : (x :: c).length + n = (c.length + n) + 1 := by simp; omega
    rw [e, List.cons_append, unescapeList_plain _ _ _ hx, ih hc.2, Option.map_map]
    rfl

theorem parseBody_default (device_list_ : List DeviceNode) (message_id : Nat) (s : ParseState)
    (h : message_id ∉ parsedUplinkIds) : parseBody device_list_ message_id s = some s := by
  simp only [parsedUplinkIds, List.mem_cons, List.mem_singleton, List.not_mem_nil, or_false,
    not_or] at h
  obtain ⟨h1, h2, h3, h4, h5, h6, h7, h8⟩ := h
  simp [parseBody, h1, h2, h3, h4, h5, h6, h7, h8]

theorem parseUniResponse_keeps (s s1 : ParseState) (h : parseUniResponse s = some s1) :
    s1.msg = s.msg ∧ s1.propara.respond_flow_num = s.propara.respond_flow_num := by
  simp only [parseUniResponse, Option.bind_eq_bind, Option.bind_eq_some, Option.pure_def,
    Option.some.injEq] at h
  obtain ⟨_, _, _, _, rfl⟩ := h
  exact ⟨rfl, rfl⟩

theorem parseRegister_keeps (devs : List DeviceNode) (s s1 : ParseState)
    (h : parseRegister devs s = some s1) :
    s1.msg = s.msg ∧ s1.propara.respond_flow_num = s.propara.respond_flow_num := by
  simp only [parseRegister, Option.bind_eq_bind, Option.bind_eq_some, Option.pure_def] at h
  obtain ⟨phone, _, h⟩ := h
  split at h
  · simp only [Option.bind_eq_some] at h
    obtain ⟨found, _, h⟩ := h
    split at h
    · split at h
      · simp only [Option.bind_eq_some, Option.some.injEq] at h
        obtain ⟨_, _, _, _, rfl⟩ := h
        exact ⟨rfl, rfl⟩
      · simp only [Option.some.injEq] at h
        subst h
        exact ⟨rfl, rfl⟩
    · simp only [Option.some.injEq] at h
      subst h
      exact ⟨rfl, rfl⟩
  · simp only [Option.some.injEq] at h
    subst h
    exact ⟨rfl, rfl⟩

theorem parseAuthentication_keeps (devs : List DeviceNode) (s s1 : ParseState)
    (h : parseAuthentication devs s = some s1) :
    s1.msg = s.msg ∧ s1.propara.respond_flow_num = s.propara.respond_flow_num := by
  simp only [parseAuthentication, Option.bind_eq_bind, Option.bind_eq_some,
    Option.pure_def] at h
  obtain ⟨phone, _, h⟩ := h
  split at h
  · simp only [Option.bind_eq_some] at h
    obtain ⟨found, _, h⟩ := h
    split at h
    · simp only [Option.bind_eq_some] at h
      obtain ⟨eq, _, h⟩ := h
      split at h <;>
      · simp only [Option.some.injEq] at h
        subst h
        exact ⟨rfl, rfl⟩
    · simp only [Option.some.injEq] at h
      subst h
      exact ⟨rfl, rfl⟩
  · simp only [Option.some.injEq] at h
    subst h
    exact ⟨rfl, rfl⟩

theorem parseFragmentWords_keeps (s s1 : ParseState) (h : parseFragmentWords s = some s1) :
    s1.msg = s.msg ∧ s1.propara.respond_flow_num = s.propara.respond_flow_num := by
  unfold parseFragmentWords at h
  split at h
  · simp only [Option.bind_eq_bind, Option.bind_eq_some, Option.pure_def,
      Option.some.injEq] at h
    obtain ⟨_, _, _, _, rfl⟩ := h
    exact ⟨rfl, rfl⟩
  · simp only [Option.pure_def, Option.some.injEq] at h
    subst h
    exact ⟨rfl, rfl⟩

theorem parseGetParaResponse_keeps (s s1 : ParseState)
    (h : parseGetParaResponse s = some s1) :
    s1.msg = s.msg ∧ s1.propara.respond_flow_num = s.propara.respond_flow_num := by
  simp only [parseGetParaResponse, Option.bind_eq_bind, Option.bind_eq_some,
    Option.pure_def] at h
  obtain ⟨s2, h2, h⟩ := h
  have hs2 := parseFragmentWords_keeps s s2 h2
  split at h
  · simp only [Option.some.injEq] at h
    subst h
    exact hs2
  · simp only [Option.bind_eq_some, Option.some.injEq] at h
    obtain ⟨_, _, rfl⟩ := h
    exact hs2

theorem parseUpdateResult_keeps (s s1 : ParseState) (h : parseUpdateResult s = some s1) :
    s1.msg = s.msg ∧ s1.propara.respond_flow_num = s.propara.respond_flow_num := by
  simp only [parseUpdateResult, Option.bind_eq_bind, Option.bind_eq_some, Option.pure_def,
    Option.some.injEq] at h
  obtain ⟨_, _, rfl⟩ := h
  exact ⟨rfl, rfl⟩

theorem parsePositionReport_keeps (s s1 : ParseState) (h : parsePositionReport s = some s1) :
    s1.msg = s.msg ∧ s1.propara.respond_flow_num = s.propara.respond_flow_num := by
  simp only [parsePositionReport, Option.bind_eq_bind, Option.bind_eq_some, Option.pure_def,
    Option.some.injEq] at h
  obtain ⟨_, _, rfl⟩ := h
  exact ⟨rfl, rfl⟩

theorem parsePassThrough_keeps (s s1 : ParseState) (h : parsePassThrough s = some s1) :
    s1.msg = s.msg ∧ s1.propara.respond_flow_num = s.propara.respond_flow_num := by
  simp only [parsePassThrough, Option.bind_eq_bind, Option.bind_eq_some, Option.pure_def] at h
  obtain ⟨_, _, h⟩ := h
  split at h
  · simp at h
  · simp only [Option.bind_eq_some, Option.some.injEq] at h
    obtain ⟨_, _, rfl⟩ := h
    exact ⟨rfl, rfl⟩

theorem parseCanBusData_keeps (s s1 : ParseState) (h : parseCanBusData s = some s1) :
    s1.msg = s.msg ∧ s1.propara.respond_flow_num = s.propara.respond_flow_num := by
  simp only [parseCanBusData, Option.bind_eq_bind, Option.bind_eq_some, Option.pure_def] at h
  obtain ⟨_, _, h⟩ := h
  split at h
  · simp only [Option.bind_eq_some] at h
    obtain ⟨_, _, _, _, _, _, _, _, _, _, h⟩ := h
    split at h
    · simp only [Option.bind_eq_some, Option.some.injEq] at h
      obtain ⟨_, _, rfl⟩ := h
      exact ⟨rfl, rfl⟩
    · simp at h
  · simp only [Option.some.injEq] at h
    subst h
    exact ⟨rfl, rfl⟩

/-- The `switch` of `Jt808FrameParse` changes neither the message nor
`respond_flow_num`. -/
theorem parseBody_keeps (devs : List DeviceNode) (message_id : Nat) (s s1 : ParseState)
    (h : parseBody devs message_id s = some s1) :
    s1.msg = s.msg ∧ s1.propara.respond_flow_num = s.propara.respond_flow_num := by
  unfold parseBody at h
  split at h
  · exact parseUniResponse_keeps s s1 h
  split at h
  · exact parseRegister_keeps devs s s1 h
  split at h
  · exact parseAuthentication_keeps devs s s1 h
  split at h
  · exact parseGetParaResponse_keeps s s1 h
  split at h
  · exact parseUpdateResult_keeps s s1 h
  split at h
  · exact parsePositionReport_keeps s s1 h
  split at h
  · exact parsePassThrough_keeps s s1 h
  split at h
  · exact parseCanBusData_keeps s s1 h
  · simp only [Option.some.injEq] at h
    subst h
    exact ⟨rfl, rfl⟩

/-- Lines 994-1008 behind a successful `ReverseEscape` that leaves at least the twelve
header bytes: the header words are read from the unescaped bytes. -/
theorem parseHead_eq (b0 : Nat) (old : List Nat) (len : Nat) (propara : ProtocolParameters)
    (src : List Nat) (j : Nat) (hre : ReverseEscape old len = some (src, j))
    (hsrc : 12 ≤ src.length) :
    ∃ id flow a, (rd16 src 0).map EndianSwap16 = some id ∧
      (rd16 src 10).map EndianSwap16 = some flow ∧
      (rd16 src 2).map EndianSwap16 = some a ∧
      parseHead ⟨b0 :: old, len⟩ propara
        = some (id, { msg := ⟨b0 :: src, j⟩,
                      propara := { propara with respond_flow_num := flow, respond_id := id },
                      msg_body := if attrPackage a = 1 then MSGBODY_PACKAGE_POS
                                  else MSGBODY_NOPACKAGE_POS,
                      msgbody_attribute := a,
                      u16val := src.getD 0 0 + 256 * src.getD 1 0 }) := by
  obtain ⟨x1, x2, x3, x4, x5, x6, x7, x8, x9, x10, x11, x12, tl, rfl⟩ :=
    exists_take_twelve src hsrc
  refine ⟨EndianSwap16 (x1 + 256 * x2), EndianSwap16 (x11 + 256 * x12),
    EndianSwap16 (x3 + 256 * x4), by simp [rd16, load], by simp [rd16, load],
    by simp [rd16, load], ?_⟩
  simp only [parseHead, Option.bind_eq_bind, List.drop_succ_cons, List.drop_zero, hre,
    Option.some_bind, List.take_succ_cons, List.take_zero]
  simp [rd16, load]

/-- C3, as amended: `Jt808FrameParse` checks neither the delimiters, nor the unescaped
length, nor the checksum and has no failure result for them.  For every message that
lies inside its buffer (any first byte, any last byte, any length, any checksum byte)
the bytes behind the first byte are unescaped and the message id and the flow number
are read from bytes 0..1 and 10..11 of the unescaped bytes; whenever the function
returns it returns that id, with that flow number stored in `respond_flow_num`, and it
does return, with `respond_id` set to the id, when the id is none of the eight uplink
ids of its `switch`. -/
theorem frame_parse_no_validation (devs : List DeviceNode) (msg : MessageData)
    (propara : ProtocolParameters) (hlen : msg.len + 2 ≤ msg.buffer.length)
    (h13 : 13 ≤ msg.buffer.length) (h16 : msg.len < 65535) :
    ∃ src j id flow,
      ReverseEscape (msg.buffer.drop 1) msg.len = some (src, j) ∧
      (rd16 src 0).map EndianSwap16 = some id ∧
      (rd16 src 10).map EndianSwap16 = some flow ∧
      (∀ r, Jt808FrameParse devs msg propara = some r →
        r.message_id = id ∧ r.propara.respond_flow_num = flow ∧
        r.msg = ⟨msg.buffer.take 1 ++ src, j⟩) ∧
      (id ∉ parsedUplinkIds →
        Jt808FrameParse devs msg propara
          = some ⟨id, ⟨msg.buffer.take 1 ++ src, j⟩,
              { propara with respond_flow_num := flow, respond_id := id }⟩) := by
  obtain ⟨buffer, len⟩ := msg
  simp only at hlen h13 h16
  obtain ⟨b0, old, rfl⟩ := @exists_cons_of_length_pos buffer (by omega)
  simp only [List.length_cons] at hlen h13
  obtain ⟨src, j, hre, hsl, _⟩ := ReverseEscape_total old len (by omega) h16
  obtain ⟨id, flow, a, h1, h2, _, hhead⟩ := parseHead_eq b0 old len propara src j hre (by omega)
  refine ⟨src, j, id, flow, by simpa using hre, h1, h2, ?_, ?_⟩
  · intro r hr
    simp only [Jt808FrameParse, Option.bind_eq_bind, hhead, Option.some_bind,
      Option.bind_eq_some, Option.pure_def, Option.some.injEq] at hr
    obtain ⟨s1, hs1, rfl⟩ := hr
    have := parseBody_keeps devs id _ s1 hs1
    simp only at this
    exact ⟨rfl, this.2, by simpa using this.1⟩
  · intro hid
    simp only [Jt808FrameParse, Option.bind_eq_bind, hhead, Option.some_bind,
      parseBody_default devs id _ hid, Option.pure_def]
    simp

/-- Witness of C3 as amended: a unified-response frame whose respond id byte was flipped
from `0x03` to `0x04` behind the checksum, in a buffer of 32 bytes. -/
theorem frame_parse_no_validation_witness :
    ∃ src j id flow,
      ReverseEscape ((MessageData.mk ((encode_frame
          (headerSpec 0x0001 5 exampleParameters.phone_num 7)
          [0x00, 0x03, 0x81, 0x03, 0x00]).set 16 0x04 ++ List.replicate 12 0) 20).buffer.drop 1)
        (MessageData.mk ((encode_frame (headerSpec 0x0001 5 exampleParameters.phone_num 7)
          [0x00, 0x03, 0x81, 0x03, 0x00]).set 16 0x04 ++ List.replicate 12 0) 20).len
        = some (src, j) ∧
      (rd16 src 0).map EndianSwap16 = some id ∧
      (rd16 src 10).map EndianSwap16 = some flow ∧
      (∀ r, Jt808FrameParse [] (MessageData.mk ((encode_frame
          (headerSpec 0x0001 5 exampleParameters.phone_num 7)
          [0x00, 0x03, 0x81, 0x03, 0x00]).set 16 0x04 ++ List.replicate 12 0) 20)
          exampleParameters = some r →
        r.message_id = id ∧ r.propara.respond_flow_num = flow ∧
        r.msg = ⟨(MessageData.mk ((encode_frame
          (headerSpec 0x0001 5 exampleParameters.phone_num 7)
          [0x00, 0x03, 0x81, 0x03, 0x00]).set 16 0x04 ++ List.replicate 12 0) 20).buffer.take 1
            ++ src, j⟩) ∧
      (id ∉ parsedUplinkIds →
        Jt808FrameParse [] (MessageData.mk ((encode_frame
          (headerSpec 0x0001 5 exampleParameters.phone_num 7)
          [0x00, 0x03, 0x81, 0x03, 0x00]).set 16 0x04 ++ List.replicate 12 0) 20)
          exampleParameters
          = some ⟨id, ⟨(MessageData.mk ((encode_frame
              (headerSpec 0x0001 5 exampleParameters.phone_num 7)
              [0x00, 0x03, 0x81, 0x03, 0x00]).set 16 0x04 ++ List.replicate 12 0) 20).buffer.take 1
                ++ src, j⟩,
              { exampleParameters with respond_flow_num := flow, respond_id := id }⟩) :=
  frame_parse_no_validation [] (MessageData.mk ((encode_frame
      (headerSpec 0x0001 5 exampleParameters.phone_num 7)
      [0x00, 0x03, 0x81, 0x03, 0x00]).set 16 0x04 ++ List.replicate 12 0) 20)
    exampleParameters (by decide) (by decide) (by decide)

/-- Counterexample to C3: the valid unified-response frame with flow number 7 and
respond id `0x8103` is still decoded (message id 1 returned, `respond_flow_num` and
`respond_id` of the envelope overwritten) when its respond id byte is flipped without
the checksum being adapted, when its first byte is `0x00` instead of `0x7E`, and a frame
of five bytes (unescaped length below 13) is decoded as well. -/
theorem corrupted_frames_are_decoded :
    (Jt808FrameParse [] ⟨(encode_frame (headerSpec 0x0001 5 exampleParameters.phone_num 7)
        [0x00, 0x03, 0x81, 0x03, 0x00]).set 16 0x04 ++ List.replicate 12 0, 20⟩
        exampleParameters).map
      (fun r => (r.message_id, r.propara.respond_flow_num, r.propara.respond_id))
      = some (0x0001, 7, 0x8104) ∧
    (Jt808FrameParse [] ⟨(encode_frame (headerSpec 0x0001 5 exampleParameters.phone_num 7)
        [0x00, 0x03, 0x81, 0x03, 0x00]).set 0 0x00 ++ List.replicate 12 0, 20⟩
        exampleParameters).map
      (fun r => (r.message_id, r.propara.respond_flow_num, r.propara.respond_id))
      = some (0x0001, 7, 0x8103) ∧
    (Jt808FrameParse [] ⟨[0x7E, 0x00, 0x01, 0x01, 0x7E] ++ List.replicate 27 0, 5⟩
        { exampleParameters with respond_flow_num := 9 }).map
      (fun r => (r.message_id, r.propara.respond_flow_num, r.propara.respond_id))
      = some (0x0001, 0, 0) := by
  refine ⟨?_, ?_, ?_⟩ <;> set_option maxRecDepth 100000 in decide

/-- C5, as amended: `ReverseEscape` has no error result.  In a sequence whose other bytes
are not `0x7D`, a `0x7D` that is followed by a byte other than `0x01`, `0x02` and `0x7D`
is copied unchanged and so is the byte behind it: the call returns the sequence
unchanged, with its full length. -/
theorem reverse_escape_copies_lone_escape (a c post : List Nat) (x : Nat)
    (ha : 0x7D ∉ a) (hc : 0x7D ∉ c) (hx1 : x ≠ 0x01) (hx2 : x ≠ 0x02) (hx : x ≠ 0x7D)
    (h16 : a.length + 2 + c.length < 65535) :
    ReverseEscape (a ++ 0x7D :: x :: c ++ post) (a.length + 2 + c.length)
      = some (a ++ 0x7D :: x :: c ++ post, a.length + 2 + c.length) := by
  have hu : unescapeList (a.length + 2 + c.length) (a ++ 0x7D :: x :: c ++ post)
      = some (a ++ 0x7D :: x :: c) := by
    have e1 : a.length + 2 + c.length = a.length + ((c.length + 0 + 1) + 1) := by omega
    have e2 : a ++ 0x7D :: x :: c ++ post = a ++ (0x7D :: x :: (c ++ post)) := by simp
    have e3 := unescapeList_of_not_mem c hc post 0
    rw [Nat.add_zero] at e3
    rw [e1, e2, unescapeList_of_not_mem a ha, unescapeList_esc_other _ _ _ hx2 hx1,
      unescapeList_plain _ _ _ hx, e3]
    simp [unescapeList]
  rw [ReverseEscape_eq _ _ _ h16 (by simp; omega) hu]
  simp
  omega

/-- Witness of C5 as amended: the bytes `0x30, 0x7D, 0x03, 0x31`. -/
theorem reverse_escape_copies_lone_escape_witness :
    ReverseEscape ([0x30] ++ 0x7D :: 0x03 :: [0x31] ++ [0x7E, 0x00])
        (([0x30] : List Nat).length + 2 + ([0x31] : List Nat).length)
      = some ([0x30] ++ 0x7D :: 0x03 :: [0x31] ++ [0x7E, 0x00],
          ([0x30] : List Nat).length + 2 + ([0x31] : List Nat).length) :=
  reverse_escape_copies_lone_escape [0x30] [0x31] [0x7E, 0x00] 0x03 (by decide) (by decide)
    (by decide) (by decide) (by decide) (by decide)

/-- Counterexample to C5: `ReverseEscape` returns the bytes `0x7D, 0x03` unchanged, and
a unified-response frame whose body starts with `0x7D, 0x03` is decoded by
`Jt808FrameParse` (message id 1 returned, `respond_flow_num` and `respond_id` of the
envelope overwritten, the two bytes left in the buffer). -/
theorem lone_escape_frame_is_decoded :
    ReverseEscape [0x7D, 0x03, 0x00] 2 = some ([0x7D, 0x03, 0x00], 2) ∧
    (Jt808FrameParse [] ⟨[0x7E] ++ (headerSpec 0x0001 5 exampleParameters.phone_num 7
        ++ [0x7D, 0x03, 0x81, 0x03, 0x00, 0xFF]) ++ [0x7E] ++ List.replicate 12 0, 20⟩
        exampleParameters).map
      (fun r => (r.message_id, r.propara.respond_flow_num, r.propara.respond_id,
        (r.msg.buffer.drop 13).take 2))
      = some (0x0001, 7, 0x8103, [0x7D, 0x03]) := by
  refine ⟨?_, ?_⟩ <;> set_option maxRecDepth 100000 in decide

theorem attrSetMsglen_add (a x y : Nat) :
    attrSetMsglen (attrSetMsglen a x) (attrMsglen (attrSetMsglen a x) + y)
      = attrSetMsglen a (x + y) := by
  unfold attrSetMsglen attrMsglen
  omega

theorem attrSetMsglen_idem (a x y : Nat) :
    attrSetMsglen (attrSetMsglen a x) y = attrSetMsglen a y := by
  unfold attrSetMsglen
  omega

namespace PackState

/-- The statements `memcpy(msg_body, src, n); msg_body += n` on a zero tail. -/
theorem putBytes_zero (hd3 : List Nat) (a : Nat) (mid : List Nat) (z len k : Nat)
    (src : List Nat) (n : Nat) (h3 : hd3.length = 3) (hk : k = 5 + mid.length)
    (h1 : n ≤ src.length) (h2 : n ≤ z) :
    putBytes ⟨packBuf hd3 a mid (List.replicate z 0), len, k⟩ src n
      = some ⟨packBuf hd3 a (mid ++ src.take n) (List.replicate (z - n) 0), len, k + n⟩ := by
  subst hk
  rw [putBytes_rep _ _ _ _ _ _ _ h3 h1 (by simpa using h2), List.drop_replicate]
  simp [Nat.min_eq_left h1]
  omega

theorem put16_zero (hd3 : List Nat) (a : Nat) (mid : List Nat) (z len k x : Nat)
    (h3 : hd3.length = 3) (hk : k = 5 + mid.length) (h2 : 2 ≤ z) :
    put16 ⟨packBuf hd3 a mid (List.replicate z 0), len, k⟩ x
      = some ⟨packBuf hd3 a (mid ++ be16 x) (List.replicate (z - 2) 0), len, k + 2⟩ := by
  subst hk
  rw [put16_rep _ _ _ _ _ _ h3 (by simpa using h2), List.drop_replicate]
  simp [be16]
  omega

theorem put32_zero (hd3 : List Nat) (a : Nat) (mid : List Nat) (z len k x : Nat)
    (h3 : hd3.length = 3) (hk : k = 5 + mid.length) (h2 : 4 ≤ z) :
    put32 ⟨packBuf hd3 a mid (List.replicate z 0), len, k⟩ x
      = some ⟨packBuf hd3 a (mid ++ be32 x) (List.replicate (z - 4) 0), len, k + 4⟩ := by
  subst hk
  rw [put32_rep _ _ _ _ _ _ h3 (by simpa using h2), List.drop_replicate]
  simp [be32]
  omega

theorem put8_zero (hd3 : List Nat) (a : Nat) (mid : List Nat) (z len k x : Nat)
    (h3 : hd3.length = 3) (hk : k = 5 + mid.length) (h2 : 1 ≤ z) :
    put8 ⟨packBuf hd3 a mid (List.replicate z 0), len, k⟩ x
      = some ⟨packBuf hd3 a (mid ++ [x % 256]) (List.replicate (z - 1) 0), len, k + 1⟩ := by
  subst hk
  rw [put8_rep _ _ _ _ _ _ h3 (by simpa using h2), List.drop_replicate]
  simp
  omega

/-- The statement `msg_body += n` without a write, on a zero tail: the `n` zero bytes
become part of the packed bytes. -/
theorem adv_zero (hd3 : List Nat) (a : Nat) (mid : List Nat) (z len k n : Nat)
    (h2 : n ≤ z) :
    adv ⟨packBuf hd3 a mid (List.replicate z 0), len, k⟩ n
      = ⟨packBuf hd3 a (mid ++ List.replicate n 0) (List.replicate (z - n) 0), len, k + n⟩ := by
  have : List.replicate z 0 = List.replicate n 0 ++ List.replicate (z - n) (0 : Nat) := by
    rw [← List.replicate_add]; congr 1; omega
  simp only [adv, packBuf]
  rw [this]
  simp

end PackState

/-- Lines 670-678 and 739-747 at the start of the body (`msg_body` at index 13): the two
fragmentation words are written at indices 13 and 15 and the `package` bit is set. -/
theorem packFragment_rep (propara : ProtocolParameters) (hd3 : List Nat) (a : Nat)
    (mid : List Nat) (z len : Nat) (h3 : hd3.length = 3) (ha : a < 65536)
    (hmid : mid.length = 8) (hz : (fragmentWordsSpec propara).length ≤ z) :
    packFragment propara ⟨packBuf hd3 a mid (List.replicate z 0), len, 13⟩
      = some ⟨packBuf hd3
                (if propara.packet_total_num % 65536 > 1 then attrSetPackage a 1 else a)
                (mid ++ fragmentWordsSpec propara)
                (List.replicate (z - (fragmentWordsSpec propara).length) 0),
              len + (fragmentWordsSpec propara).length,
              13 + (fragmentWordsSpec propara).length⟩ := by
  unfold fragmentWordsSpec at hz
  unfold packFragment fragmentWordsSpec
  by_cases h : propara.packet_total_num % 65536 > 1
  · simp only [if_pos h, Option.bind_eq_bind]
    rw [if_pos h] at hz
    have hz : 4 ≤ z := by simpa [be16] using hz
    rw [PackState.setPackage_rep _ _ _ _ _ _ _ h3 ha, Option.some_bind]
    have hA : (13 : Nat) = (hd3 ++ le16 (attrSetPackage a 1) ++ mid).length := by
      simp [h3, le16, hmid]
    have e1 : packBuf hd3 (attrSetPackage a 1) mid (List.replicate z 0)
        = (hd3 ++ le16 (attrSetPackage a 1) ++ mid) ++ List.replicate z 0 := by
      simp [packBuf]
    simp only [e1]
    rw [hA, memcpy_append _ _ _ _ (by simp [le16]) (by simpa using (by omega : 2 ≤ z)),
      Option.some_bind, le16_EndianSwap16]
    have e2 : hd3 ++ le16 (attrSetPackage a 1) ++ mid
          ++ List.take 2 (be16 propara.packet_total_num) ++ List.drop 2 (List.replicate z 0)
        = (hd3 ++ le16 (attrSetPackage a 1) ++ mid ++ be16 propara.packet_total_num)
          ++ List.replicate (z - 2) 0 := by
      simp [be16]
    have h15 : (15 : Nat)
        = (hd3 ++ le16 (attrSetPackage a 1) ++ mid ++ be16 propara.packet_total_num).length := by
      simp [h3, le16, hmid, be16]
    rw [e2, h15, memcpy_append _ _ _ _ (by simp [le16]) (by simp; omega), Option.some_bind,
      le16_EndianSwap16]
    simp [PackState.adv, PackState.addLen, packBuf, be16, h3, hmid, le16]
    omega
  · simp [if_neg h]

theorem attrAdd_lt (a x : Nat) (ha : a < 65536) :
    attrSetMsglen a (attrMsglen a + x) < 65536 := attrSetMsglen_lt _ _ ha

theorem attrAdd_add (a x y : Nat) :
    attrSetMsglen (attrSetMsglen a (attrMsglen a + x))
        (attrMsglen (attrSetMsglen a (attrMsglen a + x)) + y)
      = attrSetMsglen a (attrMsglen a + (x + y)) := by
  unfold attrSetMsglen attrMsglen
  omega

theorem attrAdd_zero (a : Nat) : attrSetMsglen a (attrMsglen a + 0) = a := by
  unfold attrSetMsglen attrMsglen
  omega

theorem packState_some_eq (hd3 : List Nat) (a a1 : Nat) (mid mid1 : List Nat)
    (z z1 len len1 k k1 : Nat) (h1 : a = a1) (h2 : mid = mid1) (h3 : z = z1)
    (h4 : len = len1) (h5 : k = k1) :
    (some ⟨packBuf hd3 a mid (List.replicate z 0), len, k⟩ : Option PackState)
      = some ⟨packBuf hd3 a1 mid1 (List.replicate z1 0), len1, k1⟩ := by
  subst h1 h2 h3 h4 h5
  rfl

theorem attrSet_self (a : Nat) : attrSetMsglen a (attrMsglen a) = a := by
  unfold attrSetMsglen attrMsglen
  omega

/-- Lines 799-814 on a zero tail: the optional fields are written as section 3 gives
them and both counters grow by their number. -/
theorem packAreaOptions_zero (area_attribute : Nat) (start_time end_time : List Nat)
    (max_speed overspeed_duration : Nat) (hd3 : List Nat) (a : Nat) (mid : List Nat)
    (z len k : Nat) (h3 : hd3.length = 3) (ha : a < 65536) (hk : k = 5 + mid.length)
    (hwf : areaBytime (area_attribute % 65536) = true →
      6 ≤ start_time.length ∧ 6 ≤ end_time.length)
    (hz : (areaOptionsSpec area_attribute start_time end_time max_speed
      overspeed_duration).length ≤ z) :
    packAreaOptions area_attribute start_time end_time max_speed overspeed_duration
        ⟨packBuf hd3 a mid (List.replicate z 0), len, k⟩
      = some ⟨packBuf hd3
          (attrSetMsglen a (attrMsglen a + (areaOptionsSpec area_attribute start_time end_time
            max_speed overspeed_duration).length))
          (mid ++ areaOptionsSpec area_attribute start_time end_time max_speed
            overspeed_duration)
          (List.replicate (z - (areaOptionsSpec area_attribute start_time end_time max_speed
            overspeed_duration).length) 0),
          len + (areaOptionsSpec area_attribute start_time end_time max_speed
            overspeed_duration).length,
          k + (areaOptionsSpec area_attribute start_time end_time max_speed
            overspeed_duration).length⟩ := by
  unfold packAreaOptions packAreaTime packAreaSpeed
  unfold areaOptionsSpec at hz ⊢
  by_cases ht : areaBytime (area_attribute % 65536) = true
  · obtain ⟨hs, he⟩ := hwf ht
    have l1 : (List.take 6 start_time).length = 6 := by simp; omega
    have l2 : (List.take 6 end_time).length = 6 := by simp; omega
    by_cases hsp : areaSpeedlimit (area_attribute % 65536) = true
    · simp only [ht, hsp, if_true, List.length_append, l1, l2, be16_length,
        List.length_singleton] at hz ⊢
      simp only [Option.bind_eq_bind]
      rw [PackState.putBytes_zero _ _ _ _ _ _ _ _ h3 hk hs (by omega), Option.some_bind,
        PackState.putBytes_zero _ _ _ _ _ _ _ _ h3 (by simp [l1]; omega) he (by omega),
        Option.some_bind, PackState.addLen_rep,
        PackState.addMsglen_rep _ _ _ _ _ _ _ h3 ha, Option.some_bind,
        PackState.put16_zero _ _ _ _ _ _ _ h3 (by simp [l1, l2]; omega) (by omega),
        Option.some_bind,
        PackState.put8_zero _ _ _ _ _ _ _ h3 (by simp [l1, l2, be16]; omega) (by omega),
        Option.some_bind, PackState.addLen_rep,
        PackState.addMsglen_rep _ _ _ _ _ _ _ h3 (attrAdd_lt _ _ ha), attrAdd_add]
      exact packState_some_eq _ _ _ _ _ _ _ _ _ _ _
        (by unfold attrSetMsglen attrMsglen; omega) (by simp) (by omega) (by omega) (by omega)
    · simp only [ht, hsp, if_true, List.length_append, l1, l2, List.append_nil,
        List.length_nil, Bool.false_eq_true, if_false] at hz ⊢
      simp only [Option.bind_eq_bind]
      rw [PackState.putBytes_zero _ _ _ _ _ _ _ _ h3 hk hs (by omega), Option.some_bind,
        PackState.putBytes_zero _ _ _ _ _ _ _ _ h3 (by simp [l1]; omega) he (by omega),
        Option.some_bind, PackState.addLen_rep,
        PackState.addMsglen_rep _ _ _ _ _ _ _ h3 ha, Option.some_bind]
      exact packState_some_eq _ _ _ _ _ _ _ _ _ _ _
        (by unfold attrSetMsglen attrMsglen; omega) (by simp) (by omega) (by omega) (by omega)
  · by_cases hsp : areaSpeedlimit (area_attribute % 65536) = true
    · simp only [ht, hsp, if_true, List.length_append, be16_length,
        List.length_singleton, List.nil_append, Bool.false_eq_true, if_false] at hz ⊢
      simp only [Option.pure_def, Option.some_bind, Option.bind_eq_bind]
      rw [PackState.put16_zero _ _ _ _ _ _ _ h3 hk (by omega),
        Option.some_bind,
        PackState.put8_zero _ _ _ _ _ _ _ h3 (by simp [be16]; omega) (by omega),
        Option.some_bind, PackState.addLen_rep,
        PackState.addMsglen_rep _ _ _ _ _ _ _ h3 ha]
      exact packState_some_eq _ _ _ _ _ _ _ _ _ _ _
        (by unfold attrSetMsglen attrMsglen; omega) (by simp) (by omega) (by omega) (by omega)
    · simp only [ht, hsp, Bool.false_eq_true, if_false, List.append_nil, List.length_nil,
        Option.pure_def, Option.some_bind, Nat.add_zero, Nat.sub_zero, attrSet_self]

theorem be32_len (x : Nat) : (be32 x).length = 4 := by simp [be32]

/-- A loop over a list on a zero tail: when every round appends the bytes `f x` and adds
`m x` to `msglen`, the loop appends the bytes of all elements in turn and adds the sum. -/
theorem packLoop_zero {α : Type} (step : α → PackState → Option PackState)
    (f : α → List Nat) (m : α → Nat) (wf : α → Prop) (hd3 : List Nat)
    (hstep : ∀ (x : α) (a : Nat) (mid : List Nat) (z len k : Nat), wf x → a < 65536 →
      k = 5 + mid.length → (f x).length ≤ z →
      step x ⟨packBuf hd3 a mid (List.replicate z 0), len, k⟩
        = some ⟨packBuf hd3 (attrSetMsglen a (attrMsglen a + m x)) (mid ++ f x)
            (List.replicate (z - (f x).length) 0), len + (f x).length, k + (f x).length⟩) :
    ∀ (l : List α) (a : Nat) (mid : List Nat) (z len k : Nat), (∀ x ∈ l, wf x) →
      a < 65536 → k = 5 + mid.length → (l.flatMap f).length ≤ z →
      packLoop step l ⟨packBuf hd3 a mid (List.replicate z 0), len, k⟩
        = some ⟨packBuf hd3 (attrSetMsglen a (attrMsglen a + (l.map m).sum))
            (mid ++ l.flatMap f) (List.replicate (z - (l.flatMap f).length) 0),
            len + (l.flatMap f).length, k + (l.flatMap f).length⟩ := by
  intro l
  induction l with
  | nil =>
    intro a mid z len k _ _ _ _
    simp [packLoop, attrSet_self]
  | cons x l ih =>
    intro a mid z len k hwf ha hk hz
    simp only [List.flatMap_cons, List.length_append] at hz
    rw [packLoop, hstep x a mid z len k (hwf x (List.mem_cons_self _ _)) ha hk (by omega),
      Option.some_bind,
      ih _ _ _ _ _ (fun y hy => hwf y (List.mem_cons_of_mem _ hy)) (attrAdd_lt _ _ ha)
        (by simp; omega) (by omega), attrAdd_add]
    exact packState_some_eq _ _ _ _ _ _ _ _ _ _ _
      (by simp) (by simp) (by simp; omega) (by simp; omega) (by simp; omega)

/-- Lines 779-814 on a zero tail: one circular area record. -/
theorem packCircularArea_zero (c : CircularArea) (hd3 : List Nat) (h3 : hd3.length = 3)
    (a : Nat) (mid : List Nat) (z len k : Nat)
    (hwf : areaBytime (c.area_attribute % 65536) = true →
      6 ≤ c.start_time.length ∧ 6 ≤ c.end_time.length)
    (ha : a < 65536) (hk : k = 5 + mid.length) (hz : (circularAreaSpec c).length ≤ z) :
    packCircularArea c ⟨packBuf hd3 a mid (List.replicate z 0), len, k⟩
      = some ⟨packBuf hd3 (attrSetMsglen a (attrMsglen a + (circularAreaSpec c).length))
          (mid ++ circularAreaSpec c) (List.replicate (z - (circularAreaSpec c).length) 0),
          len + (circularAreaSpec c).length, k + (circularAreaSpec c).length⟩ := by
  unfold circularAreaSpec at hz ⊢
  generalize hO : areaOptionsSpec c.area_attribute c.start_time c.end_time c.max_speed
    c.overspeed_duration = O at hz ⊢
  simp only [List.length_append, be32_length, be16_length] at hz ⊢
  unfold packCircularArea
  simp only [Option.bind_eq_bind]
  rw [PackState.put32_zero _ _ _ _ _ _ _ h3 hk (by omega), Option.some_bind,
    PackState.put16_zero _ _ _ _ _ _ _ h3 (by simp [be32_length]; omega) (by omega),
    Option.some_bind,
    PackState.put32_zero _ _ _ _ _ _ _ h3 (by simp [be32_length, be16_length]; omega)
      (by omega), Option.some_bind,
    PackState.put32_zero _ _ _ _ _ _ _ h3 (by simp [be32_length, be16_length]; omega)
      (by omega), Option.some_bind,
    PackState.put32_zero _ _ _ _ _ _ _ h3 (by simp [be32_length, be16_length]; omega)
      (by omega), Option.some_bind, PackState.addLen_rep,
    PackState.addMsglen_rep _ _ _ _ _ _ _ h3 ha, Option.some_bind,
    packAreaOptions_zero _ _ _ _ _ _ _ _ _ _ _ h3 (attrAdd_lt _ _ ha)
      (by simp [be32_length, be16_length]; omega) hwf (by rw [hO]; omega), hO, attrAdd_add]
  exact packState_some_eq _ _ _ _ _ _ _ _ _ _ _
    (by unfold attrSetMsglen attrMsglen; omega) (by simp) (by omega) (by omega) (by omega)

/-- Lines 830-870 on a zero tail: one rectangle area record; `msglen` grows by
`rectangleMsglen`, ten less than the number of bytes. -/
theorem packRectangleArea_zero (c : RectangleArea) (hd3 : List Nat) (h3 : hd3.length = 3)
    (a : Nat) (mid : List Nat) (z len k : Nat)
    (hwf : areaBytime (c.area_attribute % 65536) = true →
      6 ≤ c.start_time.length ∧ 6 ≤ c.end_time.length)
    (ha : a < 65536) (hk : k = 5 + mid.length) (hz : (rectangleAreaSpec c).length ≤ z) :
    packRectangleArea c ⟨packBuf hd3 a mid (List.replicate z 0), len, k⟩
      = some ⟨packBuf hd3 (attrSetMsglen a (attrMsglen a + rectangleMsglen c))
          (mid ++ rectangleAreaSpec c) (List.replicate (z - (rectangleAreaSpec c).length) 0),
          len + (rectangleAreaSpec c).length, k + (rectangleAreaSpec c).length⟩ := by
  unfold rectangleAreaSpec at hz ⊢
  unfold rectangleMsglen
  generalize hO : areaOptionsSpec c.area_attribute c.start_time c.end_time c.max_speed
    c.overspeed_duration = O at hz ⊢
  simp only [List.length_append, be32_length, be16_length] at hz ⊢
  unfold packRectangleArea
  simp only [Option.bind_eq_bind]
  rw [PackState.put32_zero _ _ _ _ _ _ _ h3 hk (by omega), Option.some_bind,
    PackState.put16_zero _ _ _ _ _ _ _ h3 (by simp [be32_length]; omega) (by omega),
    Option.some_bind,
    PackState.put32_zero _ _ _ _ _ _ _ h3 (by simp [be32_length, be16_length]; omega)
      (by omega), Option.some_bind,
    PackState.put32_zero _ _ _ _ _ _ _ h3 (by simp [be32_length, be16_length]; omega)
      (by omega), Option.some_bind,
    PackState.put32_zero _ _ _ _ _ _ _ h3 (by simp [be32_length, be16_length]; omega)
      (by omega), Option.some_bind,
    PackState.put32_zero _ _ _ _ _ _ _ h3 (by simp [be32_length, be16_length]; omega)
      (by omega), Option.some_bind, PackState.addLen_rep,
    PackState.addMsglen_rep _ _ _ _ _ _ _ h3 ha, Option.some_bind,
    packAreaOptions_zero _ _ _ _ _ _ _ _ _ _ _ h3 (attrAdd_lt _ _ ha)
      (by simp [be32_length, be16_length]; omega) hwf (by rw [hO]; omega), hO, attrAdd_add]
  exact packState_some_eq _ _ _ _ _ _ _ _ _ _ _
    (by unfold attrSetMsglen attrMsglen; omega) (by simp) (by omega) (by omega) (by omega)

/-- Lines 917-926 on a zero tail: one vertex. -/
theorem packCoordinate_zero (c : Coordinate) (hd3 : List Nat) (h3 : hd3.length = 3)
    (a : Nat) (mid : List Nat) (z len k : Nat)
    (ha : a < 65536) (hk : k = 5 + mid.length) (hz : (coordinateSpec c).length ≤ z) :
    packCoordinate c ⟨packBuf hd3 a mid (List.replicate z 0), len, k⟩
      = some ⟨packBuf hd3 (attrSetMsglen a (attrMsglen a + (coordinateSpec c).length))
          (mid ++ coordinateSpec c) (List.replicate (z - (coordinateSpec c).length) 0),
          len + (coordinateSpec c).length, k + (coordinateSpec c).length⟩ := by
  unfold coordinateSpec at hz ⊢
  simp only [List.length_append, be32_length] at hz ⊢
  unfold packCoordinate
  simp only [Option.bind_eq_bind]
  rw [PackState.put32_zero _ _ _ _ _ _ _ h3 hk (by omega), Option.some_bind,
    PackState.put32_zero _ _ _ _ _ _ _ h3 (by simp [be32_length]; omega) (by omega),
    Option.some_bind, PackState.addLen_rep,
    PackState.addMsglen_rep _ _ _ _ _ _ _ h3 ha]
  exact packState_some_eq _ _ _ _ _ _ _ _ _ _ _
    (by unfold attrSetMsglen attrMsglen; omega) (by simp) (by omega) (by omega) (by omega)

theorem sum_map_length {α : Type} (f : α → List Nat) (l : List α) :
    (l.map fun x => (f x).length).sum = (l.flatMap f).length := by
  induction l with
  | nil => simp
  | cons x l ih => simp [ih]

/-- Lines 916-927 on a zero tail: the vertices in the order the loop takes them. -/
theorem packCoordinateLoop_zero (l : List Coordinate) (hd3 : List Nat) (h3 : hd3.length = 3)
    (a : Nat) (mid : List Nat) (z len k : Nat)
    (ha : a < 65536) (hk : k = 5 + mid.length) (hz : (l.flatMap coordinateSpec).length ≤ z) :
    packCoordinateLoop l ⟨packBuf hd3 a mid (List.replicate z 0), len, k⟩
      = some ⟨packBuf hd3 (attrSetMsglen a (attrMsglen a + (l.flatMap coordinateSpec).length))
          (mid ++ l.flatMap coordinateSpec)
          (List.replicate (z - (l.flatMap coordinateSpec).length) 0),
          len + (l.flatMap coordinateSpec).length,
          k + (l.flatMap coordinateSpec).length⟩ := by
  have h := packLoop_zero packCoordinate coordinateSpec (fun c => (coordinateSpec c).length)
    (fun _ => True) hd3
    (fun x a mid z len k _ ha hk hz => packCoordinate_zero x hd3 h3 a mid z len k ha hk hz)
    l a mid z len k (fun _ _ => trivial) ha hk hz
  rw [sum_map_length] at h
  exact h

/-- Lines 886-927 on a zero tail: one polygon area record with its vertices from the
back of the vector. -/
theorem packPolygonalArea_zero (c : PolygonalArea) (hd3 : List Nat) (h3 : hd3.length = 3)
    (a : Nat) (mid : List Nat) (z len k : Nat)
    (hwf : areaTimesPresent c.area_attribute c.start_time c.end_time ∧
      c.coordinate_list ≠ none)
    (ha : a < 65536) (hk : k = 5 + mid.length)
    (hz : (polygonalAreaSpec c (c.coordinate_list.getD []).reverse).length ≤ z) :
    packPolygonalArea c ⟨packBuf hd3 a mid (List.replicate z 0), len, k⟩
      = some ⟨packBuf hd3 (attrSetMsglen a (attrMsglen a
            + (polygonalAreaSpec c (c.coordinate_list.getD []).reverse).length))
          (mid ++ polygonalAreaSpec c (c.coordinate_list.getD []).reverse)
          (List.replicate
            (z - (polygonalAreaSpec c (c.coordinate_list.getD []).reverse).length) 0),
          len + (polygonalAreaSpec c (c.coordinate_list.getD []).reverse).length,
          k + (polygonalAreaSpec c (c.coordinate_list.getD []).reverse).length⟩ := by
  obtain ⟨hwt, hcl⟩ := hwf
  obtain ⟨cl, hcl⟩ : ∃ cl, c.coordinate_list = some cl := by
    cases h : c.coordinate_list with
    | none => exact absurd h hcl
    | some cl => exact ⟨cl, rfl⟩
  rw [hcl] at hz ⊢
  simp only [Option.getD_some] at hz ⊢
  unfold polygonalAreaSpec at hz ⊢
  generalize hO : areaOptionsSpec c.area_attribute c.start_time c.end_time c.max_speed
    c.overspeed_duration = O at hz ⊢
  generalize hV : cl.reverse.flatMap coordinateSpec = V at hz ⊢
  simp only [List.length_append, be32_length, be16_length] at hz ⊢
  unfold packPolygonalArea
  simp only [Option.bind_eq_bind, hcl]
  rw [PackState.put32_zero _ _ _ _ _ _ _ h3 hk (by omega), Option.some_bind,
    PackState.put16_zero _ _ _ _ _ _ _ h3 (by simp [be32_length]; omega) (by omega),
    Option.some_bind, PackState.addLen_rep,
    PackState.addMsglen_rep _ _ _ _ _ _ _ h3 ha, Option.some_bind,
    packAreaOptions_zero _ _ _ _ _ _ _ _ _ _ _ h3 (attrAdd_lt _ _ ha)
      (by simp [be32_length, be16_length]; omega) hwt (by rw [hO]; omega), hO, attrAdd_add,
    Option.some_bind,
    PackState.put16_zero _ _ _ _ _ _ _ h3 (by simp [be32_length, be16_length]; omega)
      (by omega), Option.some_bind, PackState.addLen_rep,
    PackState.addMsglen_rep _ _ _ _ _ _ _ h3 (attrAdd_lt _ _ ha), attrAdd_add,
    Option.some_bind, Option.some_bind,
    packCoordinateLoop_zero _ hd3 h3 _ _ _ _ _ (attrAdd_lt _ _ ha)
      (by simp [be32_length, be16_length]; omega) (by rw [hV]; omega), hV, attrAdd_add]
  exact packState_some_eq _ _ _ _ _ _ _ _ _ _ _
    (by unfold attrSetMsglen attrMsglen; omega) (by simp) (by omega) (by omega) (by omega)

/-- `case DOWN_SETCIRCULARAREA` on a zero tail: the body of section 4.2 with the records
from the back of the vector, and `msglen` set to its length. -/
theorem packSetCircularArea_zero (propara : ProtocolParameters) (hd3 : List Nat)
    (h3 : hd3.length = 3) (a : Nat) (mid : List Nat) (z len k : Nat)
    (hwf : propara.circular_area_list ≠ none ∧
      ∀ c ∈ propara.circular_area_list.getD [],
        areaTimesPresent c.area_attribute c.start_time c.end_time)
    (ha : a < 65536) (hk : k = 5 + mid.length)
    (hz : (setCircularAreaSpec propara).length ≤ z) :
    packSetCircularArea propara ⟨packBuf hd3 a mid (List.replicate z 0), len, k⟩
      = some ⟨packBuf hd3 (attrSetMsglen a (setCircularAreaSpec propara).length)
          (mid ++ setCircularAreaSpec propara)
          (List.replicate (z - (setCircularAreaSpec propara).length) 0),
          len + (setCircularAreaSpec propara).length,
          k + (setCircularAreaSpec propara).length⟩ := by
  obtain ⟨hl, hwt⟩ := hwf
  obtain ⟨l, hl⟩ : ∃ l, propara.circular_area_list = some l := by
    cases h : propara.circular_area_list with
    | none => exact absurd h hl
    | some l => exact ⟨l, rfl⟩
  unfold setCircularAreaSpec at hz ⊢
  rw [hl] at hz hwt ⊢
  simp only [Option.getD_some] at hz hwt ⊢
  have hloop := packLoop_zero packCircularArea circularAreaSpec
    (fun c => (circularAreaSpec c).length)
    (fun c => areaTimesPresent c.area_attribute c.start_time c.end_time) hd3
    (fun x a mid z len k hx ha hk hz => packCircularArea_zero x hd3 h3 a mid z len k hx ha hk hz)
    l.reverse
  simp only [sum_map_length] at hloop
  generalize hV : l.reverse.flatMap circularAreaSpec = V at hz hloop ⊢
  simp only [List.length_append, List.length_cons, List.length_nil] at hz ⊢
  unfold packSetCircularArea packCircularLoop
  simp only [Option.bind_eq_bind, hl]
  rw [PackState.put8_zero _ _ _ _ _ _ _ h3 hk (by omega), Option.some_bind, Option.some_bind,
    PackState.put8_zero _ _ _ _ _ _ _ h3 (by simp; omega) (by omega), Option.some_bind,
    PackState.addLen_rep, PackState.setMsglen_rep _ _ _ _ _ _ _ h3 ha, Option.some_bind,
    hloop _ _ _ _ _ (fun x hx => hwt x (List.mem_reverse.mp hx)) (attrSetMsglen_lt _ _ ha)
      (by simp; omega) (by omega), attrSetMsglen_add]
  exact packState_some_eq _ _ _ _ _ _ _ _ _ _ _
    (by unfold attrSetMsglen; omega) (by simp) (by omega) (by omega) (by omega)

/-- `case DOWN_SETRECTANGLEAREA` on a zero tail: the body of section 4.2 with the
records from the back of the vector; `msglen` is 2 and the sum of `rectangleMsglen`. -/
theorem packSetRectangleArea_zero (propara : ProtocolParameters) (hd3 : List Nat)
    (h3 : hd3.length = 3) (a : Nat) (mid : List Nat) (z len k : Nat)
    (hwf : propara.rectangle_area_list ≠ none ∧
      ∀ c ∈ propara.rectangle_area_list.getD [],
        areaTimesPresent c.area_attribute c.start_time c.end_time)
    (ha : a < 65536) (hk : k = 5 + mid.length)
    (hz : (setRectangleAreaSpec propara).length ≤ z) :
    packSetRectangleArea propara ⟨packBuf hd3 a mid (List.replicate z 0), len, k⟩
      = some ⟨packBuf hd3 (attrSetMsglen a (2 +
            (((propara.rectangle_area_list.getD []).reverse).map rectangleMsglen).sum))
          (mid ++ setRectangleAreaSpec propara)
          (List.replicate (z - (setRectangleAreaSpec propara).length) 0),
          len + (setRectangleAreaSpec propara).length,
          k + (setRectangleAreaSpec propara).length⟩ := by
  obtain ⟨hl, hwt⟩ := hwf
  obtain ⟨l, hl⟩ : ∃ l, propara.rectangle_area_list = some l := by
    cases h : propara.rectangle_area_list with
    | none => exact absurd h hl
    | some l => exact ⟨l, rfl⟩
  unfold setRectangleAreaSpec at hz ⊢
  rw [hl] at hz hwt ⊢
  simp only [Option.getD_some] at hz hwt ⊢
  have hloop := packLoop_zero packRectangleArea rectangleAreaSpec rectangleMsglen
    (fun c => areaTimesPresent c.area_attribute c.start_time c.end_time) hd3
    (fun x a mid z len k hx ha hk hz =>
      packRectangleArea_zero x hd3 h3 a mid z len k hx ha hk hz)
    l.reverse
  generalize hV : l.reverse.flatMap rectangleAreaSpec = V at hz hloop ⊢
  simp only [List.length_append, List.length_cons, List.length_nil] at hz ⊢
  unfold packSetRectangleArea packRectangleLoop
  simp only [Option.bind_eq_bind, hl]
  rw [PackState.put8_zero _ _ _ _ _ _ _ h3 hk (by omega), Option.some_bind, Option.some_bind,
    PackState.put8_zero _ _ _ _ _ _ _ h3 (by simp; omega) (by omega), Option.some_bind,
    PackState.addLen_rep, PackState.setMsglen_rep _ _ _ _ _ _ _ h3 ha, Option.some_bind,
    hloop _ _ _ _ _ (fun x hx => hwt x (List.mem_reverse.mp hx)) (attrSetMsglen_lt _ _ ha)
      (by simp; omega) (by omega), attrSetMsglen_add]
  exact packState_some_eq _ _ _ _ _ _ _ _ _ _ _
    rfl (by simp) (by omega) (by omega) (by omega)

/-- `case DOWN_SETPOLYGONALAREA` on a zero tail: the body of section 4.2 with the records
and the vertices of each record from the back of their vectors. -/
theorem packSetPolygonalArea_zero (propara : ProtocolParameters) (hd3 : List Nat)
    (h3 : hd3.length = 3) (a : Nat) (mid : List Nat) (z len k : Nat)
    (hwf : propara.polygonal_area_list ≠ none ∧
      ∀ c ∈ propara.polygonal_area_list.getD [],
        areaTimesPresent c.area_attribute c.start_time c.end_time ∧ c.coordinate_list ≠ none)
    (ha : a < 65536) (hk : k = 5 + mid.length)
    (hz : (setPolygonalAreaSpec propara).length ≤ z) :
    packSetPolygonalArea propara ⟨packBuf hd3 a mid (List.replicate z 0), len, k⟩
      = some ⟨packBuf hd3 (attrSetMsglen a (setPolygonalAreaSpec propara).length)
          (mid ++ setPolygonalAreaSpec propara)
          (List.replicate (z - (setPolygonalAreaSpec propara).length) 0),
          len + (setPolygonalAreaSpec propara).length,
          k + (setPolygonalAreaSpec propara).length⟩ := by
  obtain ⟨hl, hwt⟩ := hwf
  obtain ⟨l, hl⟩ : ∃ l, propara.polygonal_area_list = some l := by
    cases h : propara.polygonal_area_list with
    | none => exact absurd h hl
    | some l => exact ⟨l, rfl⟩
  unfold setPolygonalAreaSpec at hz ⊢
  rw [hl] at hz hwt ⊢
  simp only [Option.getD_some] at hz hwt ⊢
  have hloop := packLoop_zero packPolygonalArea
    (fun c => polygonalAreaSpec c (c.coordinate_list.getD []).reverse)
    (fun c => (polygonalAreaSpec c (c.coordinate_list.getD []).reverse).length)
    (fun c => areaTimesPresent c.area_attribute c.start_time c.end_time ∧
      c.coordinate_list ≠ none) hd3
    (fun x a mid z len k hx ha hk hz =>
      packPolygonalArea_zero x hd3 h3 a mid z len k hx ha hk hz)
    l.reverse
  simp only [sum_map_length] at hloop
  generalize hV : (l.reverse.flatMap fun c =>
    polygonalAreaSpec c (c.coordinate_list.getD []).reverse) = V at hz hloop ⊢
  simp only [List.length_append, List.length_cons, List.length_nil] at hz ⊢
  unfold packSetPolygonalArea packPolygonalLoop
  simp only [Option.bind_eq_bind, hl]
  rw [PackState.put8_zero _ _ _ _ _ _ _ h3 hk (by omega), Option.some_bind, Option.some_bind,
    PackState.put8_zero _ _ _ _ _ _ _ h3 (by simp; omega) (by omega), Option.some_bind,
    PackState.addLen_rep, PackState.setMsglen_rep _ _ _ _ _ _ _ h3 ha, Option.some_bind,
    hloop _ _ _ _ _ (fun x hx => hwt x (List.mem_reverse.mp hx)) (attrSetMsglen_lt _ _ ha)
      (by simp; omega) (by omega), attrSetMsglen_add]
  exact packState_some_eq _ _ _ _ _ _ _ _ _ _ _
    (by unfold attrSetMsglen; omega) (by simp) (by omega) (by omega) (by omega)

theorem rd16_hostValue (value : List Nat) (h : 2 ≤ value.length) :
    rd16 value 0 = some (hostValue16 value) := by
  obtain ⟨v0, tl, rfl⟩ := @exists_cons_of_length_pos value (by omega)
  obtain ⟨v1, tl, rfl⟩ := @exists_cons_of_length_pos tl (by simp at h; omega)
  simp [rd16, load, hostValue16]

theorem rd32_hostValue (value : List Nat) (h : 4 ≤ value.length) :
    rd32 value 0 = some (hostValue32 value) := by
  obtain ⟨v0, tl, rfl⟩ := @exists_cons_of_length_pos value (by omega)
  obtain ⟨v1, tl, rfl⟩ := @exists_cons_of_length_pos tl (by simp at h; omega)
  obtain ⟨v2, tl, rfl⟩ := @exists_cons_of_length_pos tl (by simp at h; omega)
  obtain ⟨v3, tl, rfl⟩ := @exists_cons_of_length_pos tl (by simp at h; omega)
  simp [rd32, load, hostValue32]

theorem termParaValueSpec_length (p : TerminalParameter) (h : p.consistent) :
    (termParaValueSpec p).length = p.parameter_len := by
  obtain ⟨hw, hd, hb⟩ := h
  unfold termParaValueSpec
  simp only []
  split_ifs with h1 h2 h4
  · rw [be16_length, (hw h1).1]
  · rw [be32_length, (hd h2).1]
  · simp; exact hb h4
  · simp

theorem termParaSpec_length (p : TerminalParameter) (h : p.consistent) :
    (termParaSpec p).length = 5 + p.parameter_len := by
  unfold termParaSpec
  simp [be32_length, termParaValueSpec_length p h]
  omega

/-- The `switch` of lines 692-710 and the statement `msg_body += parameter_len` behind
it, on a zero tail, for a consistent tuple: the value is appended as section 4.2 gives
it. -/
theorem packTermParaValue_zero (p : TerminalParameter) (hd3 : List Nat) (h3 : hd3.length = 3)
    (a : Nat) (mid : List Nat) (z len k : Nat) (hwf : p.consistent)
    (hk : k = 5 + mid.length) (hz : p.parameter_len ≤ z) :
    (packTermParaValue p ⟨packBuf hd3 a mid (List.replicate z 0), len, k⟩).map
        (fun s => s.adv p.parameter_len)
      = some ⟨packBuf hd3 a (mid ++ termParaValueSpec p)
          (List.replicate (z - p.parameter_len) 0), len, k + p.parameter_len⟩ := by
  obtain ⟨hw, hd, hb⟩ := hwf
  unfold packTermParaValue termParaValueSpec
  simp only []
  split_ifs with h1 h2 h4
  · obtain ⟨e, hv⟩ := hw h1
    rw [e] at hz ⊢
    rw [rd16_hostValue _ hv, Option.some_bind]
    exact PackState.put16_zero _ _ _ _ _ _ _ h3 hk hz
  · obtain ⟨e, hv⟩ := hd h2
    rw [e] at hz ⊢
    rw [rd32_hostValue _ hv, Option.some_bind]
    exact PackState.put32_zero _ _ _ _ _ _ _ h3 hk hz
  · exact PackState.putBytes_zero _ _ _ _ _ _ _ _ h3 hk (hb h4) hz
  · rw [Option.map_some', PackState.adv_zero _ _ _ _ _ _ _ hz]

/-- The body of the loop of lines 686-715 on a zero tail, for a consistent tuple. -/
theorem packTermParaNode_zero (p : TerminalParameter) (hd3 : List Nat) (h3 : hd3.length = 3)
    (a : Nat) (mid : List Nat) (z len k : Nat) (hwf : p.consistent)
    (ha : a < 65536) (hk : k = 5 + mid.length) (hz : (termParaSpec p).length ≤ z) :
    packTermParaNode p ⟨packBuf hd3 a mid (List.replicate z 0), len, k⟩
      = some ⟨packBuf hd3 (attrSetMsglen a (attrMsglen a + (5 + p.parameter_len)))
          (mid ++ termParaSpec p) (List.replicate (z - (termParaSpec p).length) 0),
          len + (termParaSpec p).length, k + (termParaSpec p).length⟩ := by
  have hL := termParaSpec_length p hwf
  rw [hL] at hz ⊢
  have hv := packTermParaValue_zero p hd3 h3 a (mid ++ be32 p.parameter_id
    ++ [p.parameter_len % 256]) (z - 4 - 1) len (k + 4 + 1) hwf
    (by simp [be32_length]; omega) (by omega)
  unfold packTermParaNode
  simp only [Option.bind_eq_bind]
  rw [PackState.put32_zero _ _ _ _ _ _ _ h3 hk (by omega), Option.some_bind,
    PackState.put8_zero _ _ _ _ _ _ _ h3 (by simp [be32_length]; omega) (by omega),
    Option.some_bind]
  cases hc : packTermParaValue p ⟨packBuf hd3 a (mid ++ be32 p.parameter_id
      ++ [p.parameter_len % 256]) (List.replicate (z - 4 - 1) 0), len, k + 4 + 1⟩ with
  | none => rw [hc] at hv; simp at hv
  | some s1 =>
    rw [hc, Option.map_some', Option.some.injEq] at hv
    rw [Option.some_bind, hv, PackState.addLen_rep,
      PackState.addMsglen_rep _ _ _ _ _ _ _ h3 ha]
    exact packState_some_eq _ _ _ _ _ _ _ _ _ _ _
      rfl (by simp [termParaSpec]) (by omega) (by omega) (by omega)

/-- `case DOWN_SETTERMPARA` on a zero tail at the start of the body: the fragmentation
words, the count and the tuples in list order; `msglen` is 1 and the sum of `5 +
parameter_len`. -/
theorem packSetTermPara_zero (propara : ProtocolParameters) (hd3 : List Nat)
    (h3 : hd3.length = 3) (a : Nat) (mid : List Nat) (z len : Nat)
    (hwf : ∀ p ∈ propara.terminal_parameter_list.getD [], p.consistent)
    (ha : a < 65536) (hmid : mid.length = 8)
    (hz : (fragmentWordsSpec propara ++ setTermParaSpec propara).length ≤ z) :
    packSetTermPara propara ⟨packBuf hd3 a mid (List.replicate z 0), len, 13⟩
      = some ⟨packBuf hd3
          (attrSetMsglen (if propara.packet_total_num % 65536 > 1 then attrSetPackage a 1
              else a)
            (1 + ((propara.terminal_parameter_list.getD []).map
              fun p => 5 + p.parameter_len).sum))
          (mid ++ (fragmentWordsSpec propara ++ setTermParaSpec propara))
          (List.replicate
            (z - (fragmentWordsSpec propara ++ setTermParaSpec propara).length) 0),
          len + (fragmentWordsSpec propara ++ setTermParaSpec propara).length,
          13 + (fragmentWordsSpec propara ++ setTermParaSpec propara).length⟩ := by
  have hfl : (fragmentWordsSpec propara).length ≤ 4 := by
    unfold fragmentWordsSpec; split_ifs <;> simp [be16_length]
  have ha1 : (if propara.packet_total_num % 65536 > 1 then attrSetPackage a 1 else a)
      < 65536 := by
    split_ifs
    · exact attrSetPackage_lt _ _ ha
    · exact ha
  have hloop := packLoop_zero packTermParaNode termParaSpec (fun p => 5 + p.parameter_len)
    (fun p => p.consistent) hd3
    (fun x a mid z len k hx ha hk hz =>
      packTermParaNode_zero x hd3 h3 a mid z len k hx ha hk hz)
  simp only [List.length_append] at hz ⊢
  unfold packSetTermPara
  simp only [Option.bind_eq_bind]
  rw [packFragment_rep propara hd3 a mid z len h3 ha hmid (by omega)]
  simp only [Option.some_bind]
  generalize (if propara.packet_total_num % 65536 > 1 then attrSetPackage a 1 else a)
    = a1 at ha1 ⊢
  generalize fragmentWordsSpec propara = F at hz hfl ⊢
  unfold setTermParaSpec at hz ⊢
  cases hl : propara.terminal_parameter_list with
  | none =>
    rw [hl] at hz
    simp only [List.length_singleton] at hz
    simp only [Option.getD_none, List.map_nil, List.sum_nil]
    rw [PackState.put8_zero _ _ _ _ _ _ _ h3 (by simp; omega) (by omega), Option.some_bind,
      PackState.addLen_rep, PackState.setMsglen_rep _ _ _ _ _ _ _ h3 ha1]
    exact packState_some_eq _ _ _ _ _ _ _ _ _ _ _
      rfl (by simp) (by simp; omega) (by simp; omega) (by simp; omega)
  | some l =>
    rw [hl] at hz hwf
    simp only [Option.getD_some] at hwf ⊢
    cases l with
    | nil =>
      simp only [List.length_nil, List.flatMap_nil, List.append_nil, List.length_singleton,
        Nat.zero_mod] at hz ⊢
      rw [PackState.put8_zero _ _ _ _ _ _ _ h3 (by simp; omega) (by omega), Option.some_bind,
        PackState.addLen_rep, PackState.setMsglen_rep _ _ _ _ _ _ _ h3 ha1]
      exact packState_some_eq _ _ _ _ _ _ _ _ _ _ _
        (by simp) (by simp) (by omega) (by omega) (by omega)
    | cons p ps =>
      dsimp only at hz ⊢
      generalize hV : (p :: ps).flatMap termParaSpec = V at hz hloop ⊢
      simp only [List.length_append, List.length_singleton] at hz ⊢
      unfold packTermParaLoop
      rw [PackState.put8_zero _ _ _ _ _ _ _ h3 (by simp; omega) (by omega), Option.some_bind,
        PackState.addLen_rep, PackState.setMsglen_rep _ _ _ _ _ _ _ h3 ha1, Option.some_bind,
        hloop (p :: ps) _ _ _ _ _ hwf (attrSetMsglen_lt _ _ ha1) (by simp; omega)
          (by rw [hV]; omega), hV, attrSetMsglen_add]
      exact packState_some_eq _ _ _ _ _ _ _ _ _ _ _
        rfl (by simp) (by omega) (by omega) (by omega)

theorem take_drop_step (buf : List Nat) (i n : Nat) :
    (buf.drop (i * 4)).take 4 ++ (buf.drop ((i + 1) * 4)).take (n * 4)
      = (buf.drop (i * 4)).take ((n + 1) * 4) := by
  rw [show (n + 1) * 4 = 4 + n * 4 by omega, List.take_add, List.drop_drop]
  congr 3
  omega

/-- The loops of lines 731-736 and 940-945 on a zero tail: the `n` ids from index `i` on
are appended as the id buffer holds them. -/
theorem packIdLoop_zero (buf : List Nat) (hd3 : List Nat) (h3 : hd3.length = 3) :
    ∀ (n i a : Nat) (mid : List Nat) (z len k : Nat), a < 65536 → k = 5 + mid.length →
      (i + n) * 4 ≤ buf.length → n * 4 ≤ z →
      packIdLoop (some buf) n i ⟨packBuf hd3 a mid (List.replicate z 0), len, k⟩
        = some ⟨packBuf hd3 (attrSetMsglen a (attrMsglen a + n * 4))
            (mid ++ (buf.drop (i * 4)).take (n * 4)) (List.replicate (z - n * 4) 0),
            len + n * 4, k + n * 4⟩ := by
  intro n
  induction n with
  | zero =>
    intro i a mid z len k _ _ _ _
    simp [packIdLoop, attrSet_self]
  | succ n ih =>
    intro i a mid z len k ha hk hb hz
    unfold packIdLoop
    simp only [Option.bind_eq_bind, Option.some_bind]
    rw [if_pos (by omega),
      PackState.putBytes_zero _ _ _ _ _ _ _ _ h3 hk (by simp; omega) (by omega),
      Option.some_bind, PackState.addLen_rep, PackState.addMsglen_rep _ _ _ _ _ _ _ h3 ha,
      Option.some_bind,
      ih (i + 1) _ _ _ _ _ (attrAdd_lt _ _ ha) (by simp; omega) (by omega) (by omega),
      attrAdd_add]
    exact packState_some_eq _ _ _ _ _ _ _ _ _ _ _
      (by unfold attrSetMsglen attrMsglen; omega)
      (by rw [List.append_assoc, take_drop_step]) (by omega) (by omega) (by omega)

/-- The statements of lines 726-736 and of lines 935-945 on a zero tail: the count byte
and the ids, with `msglen` set to their number of bytes. -/
theorem packIdList_zero (count : Nat) (id_buffer : Option (List Nat)) (hd3 : List Nat)
    (h3 : hd3.length = 3) (a : Nat) (mid : List Nat) (z len k : Nat)
    (hwf : count * 4 ≤ (id_buffer.getD []).length)
    (ha : a < 65536) (hk : k = 5 + mid.length)
    (hz : (idListSpec count id_buffer).length ≤ z) :
    ((PackState.put8 ⟨packBuf hd3 a mid (List.replicate z 0), len, k⟩ count).bind fun s1 =>
        ((s1.addLen 1).setMsglen 1).bind fun s2 => packIdLoop id_buffer count 0 s2)
      = some ⟨packBuf hd3 (attrSetMsglen a (idListSpec count id_buffer).length)
          (mid ++ idListSpec count id_buffer)
          (List.replicate (z - (idListSpec count id_buffer).length) 0),
          len + (idListSpec count id_buffer).length,
          k + (idListSpec count id_buffer).length⟩ := by
  unfold idListSpec at hz ⊢
  have hL : ((id_buffer.getD []).take (count * 4)).length = count * 4 := by
    simp; omega
  simp only [List.length_append, List.length_singleton, hL] at hz ⊢
  rw [PackState.put8_zero _ _ _ _ _ _ _ h3 hk (by omega), Option.some_bind,
    PackState.addLen_rep, PackState.setMsglen_rep _ _ _ _ _ _ _ h3 ha, Option.some_bind]
  cases hb : id_buffer with
  | none =>
    rw [hb] at hwf
    have hc : count = 0 := by simpa using hwf
    subst hc
    simp only [packIdLoop, Option.getD_none, List.take_nil, List.append_nil]
  | some buf =>
    rw [hb] at hwf
    simp only [Option.getD_some] at hwf ⊢
    rw [packIdLoop_zero buf hd3 h3 count 0 _ _ _ _ _ (attrSetMsglen_lt _ _ ha)
      (by simp; omega) (by omega) (by omega), attrSetMsglen_add]
    exact packState_some_eq _ _ _ _ _ _ _ _ _ _ _ rfl (by simp) (by omega) (by omega)
      (by omega)

/-- `case DOWN_GETSPECTERMPARA` on a zero tail. -/
theorem packGetSpecTermPara_zero (propara : ProtocolParameters) (hd3 : List Nat)
    (h3 : hd3.length = 3) (a : Nat) (mid : List Nat) (z len k : Nat)
    (hwf : propara.terminal_parameter_id_count * 4
      ≤ (propara.terminal_parameter_id_buffer.getD []).length)
    (ha : a < 65536) (hk : k = 5 + mid.length)
    (hz : (idListSpec propara.terminal_parameter_id_count
      propara.terminal_parameter_id_buffer).length ≤ z) :
    packGetSpecTermPara propara ⟨packBuf hd3 a mid (List.replicate z 0), len, k⟩
      = some ⟨packBuf hd3 (attrSetMsglen a (idListSpec propara.terminal_parameter_id_count
            propara.terminal_parameter_id_buffer).length)
          (mid ++ idListSpec propara.terminal_parameter_id_count
            propara.terminal_parameter_id_buffer)
          (List.replicate (z - (idListSpec propara.terminal_parameter_id_count
            propara.terminal_parameter_id_buffer).length) 0),
          len + (idListSpec propara.terminal_parameter_id_count
            propara.terminal_parameter_id_buffer).length,
          k + (idListSpec propara.terminal_parameter_id_count
            propara.terminal_parameter_id_buffer).length⟩ :=
  packIdList_zero _ _ hd3 h3 a mid z len k hwf ha hk hz

/-- The three `case`s of lines 934-946 on a zero tail. -/
theorem packDeleteArea_zero (propara : ProtocolParameters) (hd3 : List Nat)
    (h3 : hd3.length = 3) (a : Nat) (mid : List Nat) (z len k : Nat)
    (hwf : propara.area_route_id_count * 4 ≤ (propara.area_route_id_buffer.getD []).length)
    (ha : a < 65536) (hk : k = 5 + mid.length)
    (hz : (idListSpec propara.area_route_id_count propara.area_route_id_buffer).length ≤ z) :
    packDeleteArea propara ⟨packBuf hd3 a mid (List.replicate z 0), len, k⟩
      = some ⟨packBuf hd3 (attrSetMsglen a (idListSpec propara.area_route_id_count
            propara.area_route_id_buffer).length)
          (mid ++ idListSpec propara.area_route_id_count propara.area_route_id_buffer)
          (List.replicate (z - (idListSpec propara.area_route_id_count
            propara.area_route_id_buffer).length) 0),
          len + (idListSpec propara.area_route_id_count propara.area_route_id_buffer).length,
          k + (idListSpec propara.area_route_id_count
            propara.area_route_id_buffer).length⟩ :=
  packIdList_zero _ _ hd3 h3 a mid z len k hwf ha hk hz

/-- The statement `memcpy(msg_body, src, n)` on a zero tail; `msg_body` stays. -/
theorem PackState.copy_zero (hd3 : List Nat) (a : Nat) (mid : List Nat) (z len k : Nat)
    (src : List Nat) (n : Nat) (h3 : hd3.length = 3) (hk : k = 5 + mid.length)
    (h1 : n ≤ src.length) (h2 : n ≤ z) :
    PackState.copy ⟨packBuf hd3 a mid (List.replicate z 0), len, k⟩ src n
      = some ⟨packBuf hd3 a mid (src.take n ++ List.replicate (z - n) 0), len, k⟩ := by
  subst hk
  rw [PackState.copy_rep _ _ _ _ _ _ _ h3 h1 (by simpa using h2), List.drop_replicate]

/-- `case DOWN_UPDATEPACKAGE` on a zero tail at the start of the body: the fragmentation
words and the body of section 4.2; `msglen` is set to `11 + version_num_len +
packet_data_len`. -/
theorem packUpdatePackage_zero (propara : ProtocolParameters) (hd3 : List Nat)
    (h3 : hd3.length = 3) (a : Nat) (mid : List Nat) (z len : Nat)
    (hwf : 5 ≤ propara.manufacturer_id.length ∧
      propara.version_num_len ≤ propara.version_num.length ∧
      propara.packet_data_len ≤ propara.packet_data.length)
    (ha : a < 65536) (hmid : mid.length = 8)
    (hz : (fragmentWordsSpec propara ++ updatePackageSpec propara).length ≤ z) :
    packUpdatePackage propara ⟨packBuf hd3 a mid (List.replicate z 0), len, 13⟩
      = some ⟨packBuf hd3
          (attrSetMsglen (if propara.packet_total_num % 65536 > 1 then attrSetPackage a 1
              else a)
            (11 + propara.version_num_len + propara.packet_data_len))
          (mid ++ (fragmentWordsSpec propara ++ updatePackageSpec propara))
          (List.replicate
            (z - (fragmentWordsSpec propara ++ updatePackageSpec propara).length) 0),
          len + (fragmentWordsSpec propara ++ updatePackageSpec propara).length,
          13 + (fragmentWordsSpec propara ++ updatePackageSpec propara).length⟩ := by
  obtain ⟨hm, hv, hd⟩ := hwf
  have ha1 : (if propara.packet_total_num % 65536 > 1 then attrSetPackage a 1 else a)
      < 65536 := by
    split_ifs
    · exact attrSetPackage_lt _ _ ha
    · exact ha
  have l1 : (propara.manufacturer_id.take 5).length = 5 := by simp; omega
  have l2 : (propara.version_num.take propara.version_num_len).length
      = propara.version_num_len := by simp; omega
  have l3 : (propara.packet_data.take propara.packet_data_len).length
      = propara.packet_data_len := by simp; omega
  unfold updatePackageSpec at hz ⊢
  simp only [List.length_append, List.length_singleton, l1, l2, l3, be32_length] at hz ⊢
  unfold packUpdatePackage
  simp only [Option.bind_eq_bind]
  rw [packFragment_rep propara hd3 a mid z len h3 ha hmid (by omega)]
  simp only [Option.some_bind]
  generalize (if propara.packet_total_num % 65536 > 1 then attrSetPackage a 1 else a)
    = a1 at ha1 ⊢
  generalize fragmentWordsSpec propara = F at hz ⊢
  rw [PackState.put8_zero _ _ _ _ _ _ _ h3 (by simp; omega) (by omega), Option.some_bind,
    PackState.putBytes_zero _ _ _ _ _ _ _ _ h3 (by simp; omega) hm (by omega),
    Option.some_bind, PackState.addLen_rep,
    PackState.put8_zero _ _ _ _ _ _ _ h3 (by simp [l1]; omega) (by omega), Option.some_bind,
    PackState.addLen_rep,
    PackState.putBytes_zero _ _ _ _ _ _ _ _ h3 (by simp [l1]; omega) hv (by omega),
    Option.some_bind, PackState.addLen_rep,
    PackState.put32_zero _ _ _ _ _ _ _ h3 (by simp [l1, l2]; omega) (by omega),
    Option.some_bind, PackState.addLen_rep,
    PackState.putBytes_zero _ _ _ _ _ _ _ _ h3 (by simp [l1, l2, be32_length]; omega) hd
      (by omega),
    Option.some_bind, PackState.addLen_rep, PackState.setMsglen_rep _ _ _ _ _ _ _ h3 ha1]
  exact packState_some_eq _ _ _ _ _ _ _ _ _ _ _
    rfl (by simp) (by omega) (by omega) (by omega)

/-- `case DOWN_PASSTHROUGH` on a zero tail: the type byte is appended, the payload lies
behind `msg_body`, which is not moved past it, `msg.len` counts both and `msglen` is
the payload size. -/
theorem packPassThrough_zero (propara : ProtocolParameters) (pt : PassThrough)
    (hpt : propara.pass_through = some pt) (hsz : pt.size ≤ pt.buffer.length)
    (hd3 : List Nat) (h3 : hd3.length = 3) (a : Nat) (mid : List Nat) (z len k : Nat)
    (ha : a < 65536) (hk : k = 5 + mid.length) (hz : 1 + pt.size ≤ z) :
    packPassThrough propara ⟨packBuf hd3 a mid (List.replicate z 0), len, k⟩
      = some ⟨packBuf hd3 (attrSetMsglen a pt.size) (mid ++ [pt.type % 256])
          (pt.buffer.take pt.size ++ List.replicate (z - 1 - pt.size) 0),
          len + 1 + pt.size, k + 1⟩ := by
  unfold packPassThrough
  simp only [Option.bind_eq_bind, hpt, Option.some_bind]
  rw [PackState.put8_zero _ _ _ _ _ _ _ h3 hk (by omega), Option.some_bind,
    PackState.addLen_rep,
    PackState.copy_zero _ _ _ _ _ _ _ _ h3 (by simp; omega) hsz (by omega),
    Option.some_bind, PackState.addLen_rep, PackState.setMsglen_rep _ _ _ _ _ _ _ h3 ha]

/-- `case DOWN_UNIRESPONSE` on a zero tail. -/
theorem packUniResponse_zero (propara : ProtocolParameters) (hd3 : List Nat)
    (h3 : hd3.length = 3) (a : Nat) (mid : List Nat) (z len k : Nat)
    (ha : a < 65536) (hk : k = 5 + mid.length) (hz : (uniResponseSpec propara).length ≤ z) :
    packUniResponse propara ⟨packBuf hd3 a mid (List.replicate z 0), len, k⟩
      = some ⟨packBuf hd3 (attrSetMsglen a 5) (mid ++ uniResponseSpec propara)
          (List.replicate (z - (uniResponseSpec propara).length) 0),
          len + (uniResponseSpec propara).length,
          k + (uniResponseSpec propara).length⟩ := by
  unfold uniResponseSpec at hz ⊢
  simp only [List.length_append, List.length_singleton, be16_length] at hz ⊢
  rw [packUniResponse_rep propara hd3 a mid _ len k h3 ha hk (by simpa using hz),
    List.drop_replicate]

/-- `case DOWN_REGISTERRESPONSE` on a zero tail. -/
theorem packRegisterResponse_zero (propara : ProtocolParameters) (hd3 : List Nat)
    (h3 : hd3.length = 3) (a : Nat) (mid : List Nat) (z len k : Nat)
    (hauth : propara.authen_code.length = 4)
    (ha : a < 65536) (hk : k = 5 + mid.length)
    (hz : (registerResponseSpec propara).length ≤ z) :
    packRegisterResponse propara ⟨packBuf hd3 a mid (List.replicate z 0), len, k⟩
      = some ⟨packBuf hd3 (attrSetMsglen a (registerResponseSpec propara).length)
          (mid ++ registerResponseSpec propara)
          (List.replicate (z - (registerResponseSpec propara).length) 0),
          len + (registerResponseSpec propara).length,
          k + (registerResponseSpec propara).length⟩ := by
  have ht : (List.take 4 propara.authen_code).length = 4 := by simp; omega
  unfold registerResponseSpec at hz ⊢
  unfold packRegisterResponse
  simp only [Option.bind_eq_bind]
  by_cases hs : propara.respond_result % 256 = kSuccess
  · have hs2 : propara.respond_result % 256 = kRegisterSuccess := hs
    rw [if_pos hs2] at hz ⊢
    simp only [List.length_append, List.length_singleton, be16_length, ht] at hz ⊢
    rw [PackState.put16_zero _ _ _ _ _ _ _ h3 hk (by omega), Option.some_bind,
      PackState.put8_zero _ _ _ _ _ _ _ h3 (by simp [be16_length]; omega) (by omega),
      Option.some_bind, if_pos hs,
      PackState.putBytes_zero _ _ _ _ _ _ _ _ h3 (by simp [be16_length]; omega) (by omega)
        (by omega), Option.some_bind,
      PackState.setMsglen_rep _ _ _ _ _ _ _ h3 ha, Option.some_bind, PackState.addLen_rep,
      Option.pure_def]
    exact packState_some_eq _ _ _ _ _ _ _ _ _ _ _
      rfl (by simp) (by omega) (by omega) (by omega)
  · have hs2 : ¬ propara.respond_result % 256 = kRegisterSuccess := hs
    rw [if_neg hs2] at hz ⊢
    simp only [List.length_append, List.length_singleton, be16_length, List.length_nil,
      List.append_nil] at hz ⊢
    rw [PackState.put16_zero _ _ _ _ _ _ _ h3 hk (by omega), Option.some_bind,
      PackState.put8_zero _ _ _ _ _ _ _ h3 (by simp [be16_length]; omega) (by omega),
      Option.some_bind, if_neg hs,
      PackState.setMsglen_rep _ _ _ _ _ _ _ h3 ha, Option.some_bind, PackState.addLen_rep,
      Option.pure_def]
    exact packState_some_eq _ _ _ _ _ _ _ _ _ _ _
      rfl (by simp) (by omega) (by omega) (by omega)

/-- The `switch` of lines 639-958 on a zero tail at the start of the body, for every
downlink command but the passthrough: the fragmentation words and the body of section
4.2 are appended, and `msg_body` and `msg.len` both end behind them. -/
theorem packBody_zero (command : Nat) (propara : ProtocolParameters)
    (hcmd : command ∈ downlinkCommands) (hne : command ≠ DOWN_PASSTHROUGH)
    (hwf : packable command propara) (hd3 : List Nat) (h3 : hd3.length = 3) (a : Nat)
    (mid : List Nat) (z : Nat) (ha : a < 65536) (hmid : mid.length = 8)
    (hz : (packedFragment command propara ++ packedBody command propara).length ≤ z) :
    ∃ a1, a1 < 65536 ∧
      packBody command propara ⟨packBuf hd3 a mid (List.replicate z 0), 13, 13⟩
        = some ⟨packBuf hd3 a1
            (mid ++ (packedFragment command propara ++ packedBody command propara))
            (List.replicate
              (z - (packedFragment command propara ++ packedBody command propara).length) 0),
            13 + (packedFragment command propara ++ packedBody command propara).length,
            13 + (packedFragment command propara ++ packedBody command propara).length⟩ := by
  obtain ⟨_, hreg, hterm, hget, hupd, hcirc, hrect, hpoly, hdel, _⟩ := hwf
  have hk : 13 = 5 + mid.length := by omega
  have ha1 : (if propara.packet_total_num % 65536 > 1 then attrSetPackage a 1 else a)
      < 65536 := by
    split_ifs
    · exact attrSetPackage_lt _ _ ha
    · exact ha
  simp only [downlinkCommands, List.mem_cons, List.mem_singleton, List.not_mem_nil,
    or_false] at hcmd
  rcases hcmd with rfl | rfl | rfl | rfl | rfl | rfl | rfl | rfl | rfl | rfl | rfl | rfl | rfl
  · have e1 : packedFragment DOWN_UNIRESPONSE propara = [] := rfl
    have e2 : packedBody DOWN_UNIRESPONSE propara = uniResponseSpec propara := rfl
    have e3 : ∀ s, packBody DOWN_UNIRESPONSE propara s = packUniResponse propara s :=
      fun _ => rfl
    rw [e1, e2, List.nil_append] at hz ⊢
    exact ⟨_, attrSetMsglen_lt _ _ ha, by
      rw [e3, packUniResponse_zero propara hd3 h3 a mid z 13 13 ha hk hz]⟩
  · have e1 : packedFragment DOWN_REGISTERRESPONSE propara = [] := rfl
    have e2 : packedBody DOWN_REGISTERRESPONSE propara = registerResponseSpec propara := rfl
    have e3 : ∀ s, packBody DOWN_REGISTERRESPONSE propara s = packRegisterResponse propara s :=
      fun _ => rfl
    rw [e1, e2, List.nil_append] at hz ⊢
    exact ⟨_, attrSetMsglen_lt _ _ ha, by
      rw [e3, packRegisterResponse_zero propara hd3 h3 a mid z 13 13 (hreg rfl) ha hk hz]⟩
  · have e1 : packedFragment DOWN_SETTERMPARA propara = fragmentWordsSpec propara := rfl
    have e2 : packedBody DOWN_SETTERMPARA propara = setTermParaSpec propara := rfl
    have e3 : ∀ s, packBody DOWN_SETTERMPARA propara s = packSetTermPara propara s :=
      fun _ => rfl
    rw [e1, e2] at hz ⊢
    exact ⟨_, attrSetMsglen_lt _ _ ha1, by
      rw [e3, packSetTermPara_zero propara hd3 h3 a mid z 13 (hterm rfl) ha hmid hz]⟩
  · have e1 : packedFragment DOWN_GETTERMPARA propara = [] := rfl
    have e2 : packedBody DOWN_GETTERMPARA propara = [] := rfl
    have e3 : ∀ s, packBody DOWN_GETTERMPARA propara s = some s := fun _ => rfl
    rw [e1, e2, e3]
    exact ⟨a, ha, by simp⟩
  · have e1 : packedFragment DOWN_GETSPECTERMPARA propara = [] := rfl
    have e2 : packedBody DOWN_GETSPECTERMPARA propara = idListSpec propara.terminal_parameter_id_count
        propara.terminal_parameter_id_buffer := rfl
    have e3 : ∀ s, packBody DOWN_GETSPECTERMPARA propara s = packGetSpecTermPara propara s :=
      fun _ => rfl
    rw [e1, e2, List.nil_append] at hz ⊢
    exact ⟨_, attrSetMsglen_lt _ _ ha, by
      rw [e3, packGetSpecTermPara_zero propara hd3 h3 a mid z 13 13 (hget rfl) ha hk hz]⟩
  · have e1 : packedFragment DOWN_UPDATEPACKAGE propara = fragmentWordsSpec propara := rfl
    have e2 : packedBody DOWN_UPDATEPACKAGE propara = updatePackageSpec propara := rfl
    have e3 : ∀ s, packBody DOWN_UPDATEPACKAGE propara s = packUpdatePackage propara s :=
      fun _ => rfl
    rw [e1, e2] at hz ⊢
    exact ⟨_, attrSetMsglen_lt _ _ ha1, by
      rw [e3, packUpdatePackage_zero propara hd3 h3 a mid z 13 (hupd rfl) ha hmid hz]⟩
  · have e1 : packedFragment DOWN_SETCIRCULARAREA propara = [] := rfl
    have e2 : packedBody DOWN_SETCIRCULARAREA propara = setCircularAreaSpec propara := rfl
    have e3 : ∀ s, packBody DOWN_SETCIRCULARAREA propara s = packSetCircularArea propara s :=
      fun _ => rfl
    rw [e1, e2, List.nil_append] at hz ⊢
    exact ⟨_, attrSetMsglen_lt _ _ ha, by
      rw [e3, packSetCircularArea_zero propara hd3 h3 a mid z 13 13 (hcirc rfl) ha hk hz]⟩
  · have e1 : packedFragment DOWN_DELCIRCULARAREA propara = [] := rfl
    have e2 : packedBody DOWN_DELCIRCULARAREA propara = idListSpec propara.area_route_id_count
        propara.area_route_id_buffer := rfl
    have e3 : ∀ s, packBody DOWN_DELCIRCULARAREA propara s = packDeleteArea propara s :=
      fun _ => rfl
    rw [e1, e2, List.nil_append] at hz ⊢
    exact ⟨_, attrSetMsglen_lt _ _ ha, by
      rw [e3, packDeleteArea_zero propara hd3 h3 a mid z 13 13 (hdel (Or.inl rfl)) ha hk hz]⟩
  · have e1 : packedFragment DOWN_SETRECTANGLEAREA propara = [] := rfl
    have e2 : packedBody DOWN_SETRECTANGLEAREA propara = setRectangleAreaSpec propara := rfl
    have e3 : ∀ s, packBody DOWN_SETRECTANGLEAREA propara s = packSetRectangleArea propara s :=
      fun _ => rfl
    rw [e1, e2, List.nil_append] at hz ⊢
    exact ⟨_, attrSetMsglen_lt _ _ ha, by
      rw [e3, packSetRectangleArea_zero propara hd3 h3 a mid z 13 13 (hrect rfl) ha hk hz]⟩
  · have e1 : packedFragment DOWN_DELRECTANGLEAREA propara = [] := rfl
    have e2 : packedBody DOWN_DELRECTANGLEAREA propara = idListSpec propara.area_route_id_count
        propara.area_route_id_buffer := rfl
    have e3 : ∀ s, packBody DOWN_DELRECTANGLEAREA propara s = packDeleteArea propara s :=
      fun _ => rfl
    rw [e1, e2, List.nil_append] at hz ⊢
    exact ⟨_, attrSetMsglen_lt _ _ ha, by
      rw [e3, packDeleteArea_zero propara hd3 h3 a mid z 13 13 (hdel (Or.inr (Or.inl rfl))) ha hk hz]⟩
  · have e1 : packedFragment DOWN_SETPOLYGONALAREA propara = [] := rfl
    have e2 : packedBody DOWN_SETPOLYGONALAREA propara = setPolygonalAreaSpec propara := rfl
    have e3 : ∀ s, packBody DOWN_SETPOLYGONALAREA propara s = packSetPolygonalArea propara s :=
      fun _ => rfl
    rw [e1, e2, List.nil_append] at hz ⊢
    exact ⟨_, attrSetMsglen_lt _ _ ha, by
      rw [e3, packSetPolygonalArea_zero propara hd3 h3 a mid z 13 13 (hpoly rfl) ha hk hz]⟩
  · have e1 : packedFragment DOWN_DELPOLYGONALAREA propara = [] := rfl
    have e2 : packedBody DOWN_DELPOLYGONALAREA propara = idListSpec propara.area_route_id_count
        propara.area_route_id_buffer := rfl
    have e3 : ∀ s, packBody DOWN_DELPOLYGONALAREA propara s = packDeleteArea propara s :=
      fun _ => rfl
    rw [e1, e2, List.nil_append] at hz ⊢
    exact ⟨_, attrSetMsglen_lt _ _ ha, by
      rw [e3, packDeleteArea_zero propara hd3 h3 a mid z 13 13 (hdel (Or.inr (Or.inr rfl))) ha hk hz]⟩
  · exact absurd rfl hne

/-- Lines 959-963 when `msg.len` counts bytes behind `msg_body`, as the passthrough
`case` leaves it: the checksum of all counted bytes is stored at `msg_body`, over the
first of the bytes behind it. -/
theorem packCheck_inner (b0 i0 i1 a : Nat) (mid : List Nat) (p0 : Nat) (P rest : List Nat)
    (ha : a < 65536) :
    packCheck ⟨packBuf [b0, i0, i1] a mid (p0 :: (P ++ rest)),
        5 + mid.length + (P.length + 1), 5 + mid.length⟩
      = some ⟨b0 :: (([i0, i1] ++ be16 a ++ mid)
                ++ [bccList ([i0, i1] ++ be16 a ++ mid ++ p0 :: P)] ++ P ++ rest),
              5 + mid.length + (P.length + 1) + 1, 5 + mid.length⟩ := by
  have hb := BccCheckSum_eq ([i0, i1] ++ be16 a ++ mid ++ p0 :: P) rest
  have hlen : ([i0, i1] ++ be16 a ++ mid ++ p0 :: P).length
      = 5 + mid.length + (P.length + 1) - 1 := by
    simp [be16]; omega
  rw [hlen] at hb
  have hst := store_append ([b0, i0, i1] ++ be16 a ++ mid) p0 (P ++ rest)
    (bccList ([i0, i1] ++ be16 a ++ mid ++ p0 :: P))
  have hl2 : ([b0, i0, i1] ++ be16 a ++ mid).length = 5 + mid.length := by
    simp [be16]; omega
  rw [hl2] at hst
  unfold packCheck
  simp only [Option.bind_eq_bind]
  rw [show packBuf [b0, i0, i1] a mid (p0 :: (P ++ rest))
      = [b0, i0, i1] ++ le16 a ++ (mid ++ p0 :: (P ++ rest)) by simp [packBuf]]
  rw [rd16_three [b0, i0, i1] _ _ rfl ha, Option.some_bind,
    memcpy_three [b0, i0, i1] _ _ _ rfl, Option.some_bind, le16_EndianSwap16]
  have e1 : ([b0, i0, i1] ++ be16 a ++ (mid ++ p0 :: (P ++ rest))).drop 1
      = [i0, i1] ++ be16 a ++ mid ++ p0 :: P ++ rest := by simp
  have e2 : [b0, i0, i1] ++ be16 a ++ (mid ++ p0 :: (P ++ rest))
      = [b0, i0, i1] ++ be16 a ++ mid ++ p0 :: (P ++ rest) := by simp
  rw [e1, hb, Option.some_bind, e2, hst, Option.some_bind]
  simp

theorem rd16_be16_at (P tl : List Nat) (x : Nat) :
    (rd16 (P ++ be16 x ++ tl) P.length).map EndianSwap16 = some (x % 65536) := by
  have h1 : load (P ++ be16 x ++ tl) P.length = some (x / 256 % 256) := by
    have := load_append P (x / 256 % 256) (x % 256 :: tl)
    simpa [be16] using this
  have h2 : load (P ++ be16 x ++ tl) (P.length + 1) = some (x % 256) := by
    have := load_append (P ++ [x / 256 % 256]) (x % 256) tl
    simpa [be16] using this
  simp only [rd16, h1, h2, Option.some_bind, Option.map_some', Option.some.injEq]
  rw [EndianSwap16_eq]
  have h0 : x % 256 < 256 := Nat.mod_lt _ (by norm_num)
  have h1 : x / 256 % 256 < 256 := Nat.mod_lt _ (by norm_num)
  have hx : x % 65536 = (x / 256 % 256) * 256 + x % 256 := by omega
  have key : ∀ a0 a1 : Nat, a0 < 256 → a1 < 256 →
      (a1 + 256 * a0) % 256 * 256 + (a1 + 256 * a0) / 256 % 256 = a1 * 256 + a0 := by
    intro a0 a1 h0 h1
    omega
  rw [hx]
  exact key _ _ h0 h1

theorem unescapeList_frame_tail (X T : List Nat) (t : Nat) (ht : t ≠ 0x7D) :
    unescapeList ((escapeSpec X).length + 2) (escapeSpec X ++ 0x7E :: t :: T)
      = some (X ++ [0x7E, t]) := by
  rw [unescapeList_escapeSpec X _ 2, unescapeList_plain _ _ _ (by norm_num),
    unescapeList_plain _ _ _ ht]
  simp [unescapeList]

/-- The codec half of the round trip.  When the buffer holds, behind the delimiter slot,
the header and the bytes `Y` and then zero bytes, and `msg.len` is one more than their
number, then `packEscape` makes a frame which `Jt808FrameParse` unescapes to the same
bytes, and the id and the flow number of the header are what the parser returns for an
id outside its `switch`. -/
theorem parse_of_packed (devs : List DeviceNode) (p2 : ProtocolParameters)
    (c a f : Nat) (phone Y : List Nat) (z k : Nat) (hphone : phone.length = 6)
    (hid : c % 65536 ∉ parsedUplinkIds)
    (hz : (be16 c ++ be16 a ++ phone ++ be16 f ++ Y).length + 2 ≤ z)
    (h16 : 2 * (be16 c ++ be16 a ++ phone ++ be16 f ++ Y).length + 2 < 65535) :
    ∃ msg1 n r,
      packEscape ⟨0 :: ((be16 c ++ be16 a ++ phone ++ be16 f ++ Y) ++ List.replicate z 0),
          (be16 c ++ be16 a ++ phone ++ be16 f ++ Y).length + 1, k⟩ = some (msg1, n) ∧
      Jt808FrameParse devs msg1 p2 = some r ∧ r.message_id = c % 65536 ∧
      r.propara.respond_flow_num = f % 65536 ∧
      (r.msg.buffer.drop 1).take (be16 c ++ be16 a ++ phone ++ be16 f ++ Y).length
        = be16 c ++ be16 a ++ phone ++ be16 f ++ Y := by
  have hrd0 : ∀ tl, (rd16 ((be16 c ++ be16 a ++ phone ++ be16 f ++ Y) ++ tl) 0).map
      EndianSwap16 = some (c % 65536) := by
    intro tl
    have := rd16_be16_at [] (be16 a ++ phone ++ be16 f ++ Y ++ tl) c
    simpa using this
  have hrd10 : ∀ tl, (rd16 ((be16 c ++ be16 a ++ phone ++ be16 f ++ Y) ++ tl) 10).map
      EndianSwap16 = some (f % 65536) := by
    intro tl
    have := rd16_be16_at (be16 c ++ be16 a ++ phone) (Y ++ tl) f
    simpa [be16_length, hphone] using this
  have hXl : 12 ≤ (be16 c ++ be16 a ++ phone ++ be16 f ++ Y).length := by
    simp [be16_length, hphone]; omega
  generalize be16 c ++ be16 a ++ phone ++ be16 f ++ Y = X at hrd0 hrd10 hXl hz h16 ⊢
  have hE := escapeSpec_length_le X
  have hzc : List.replicate z 0 = 0 :: List.replicate (z - 1) 0 :=
    replicate_zero_cons z (by omega)
  have hesc := packEscape_eq 0 X 0 (List.replicate (z - 1) 0) k (by norm_num) (by norm_num)
    (by omega) (by simp; omega)
  rw [← hzc, drop_append_replicate X z ((escapeSpec X).length + 1) (by omega),
    replicate_zero_cons (X.length + z - ((escapeSpec X).length + 1)) (by omega)] at hesc
  generalize hT : List.replicate (X.length + z - ((escapeSpec X).length + 1) - 1) 0 = T
    at hesc
  have hun := unescapeList_frame_tail X T 0 (by norm_num)
  have hre := ReverseEscape_eq (escapeSpec X ++ 0x7E :: 0 :: T) (X ++ [0x7E, 0])
    ((escapeSpec X).length + 2) (by omega) (by simp) hun
  generalize hS : (escapeSpec X ++ 0x7E :: 0 :: T).drop (X ++ [0x7E, 0]).length = S at hre
  have hsrc : X ++ [0x7E, 0] ++ S = X ++ ([0x7E, 0] ++ S) := by simp
  rw [hsrc] at hre
  obtain ⟨id, flow, a1, h1, h2, _, hhead⟩ := parseHead_eq 0x7E
    (escapeSpec X ++ 0x7E :: 0 :: T) ((escapeSpec X).length + 2) p2 _ _ hre
    (by simp; omega)
  rw [hrd0] at h1
  rw [hrd10] at h2
  simp only [Option.some.injEq] at h1 h2
  subst h1 h2
  refine ⟨_, _, ⟨c % 65536, ⟨0x7E :: (X ++ ([0x7E, 0] ++ S)), (X ++ [0x7E, 0]).length⟩,
    { p2 with respond_flow_num := f % 65536, respond_id := c % 65536 }⟩, hesc, ?_, rfl, rfl, ?_⟩
  · simp only [Jt808FrameParse, Option.bind_eq_bind, hhead, Option.some_bind,
      parseBody_default devs _ _ hid, Option.pure_def]
  · simp

theorem downlinkCommands_lt : ∀ c ∈ downlinkCommands, c < 65536 := by decide

theorem downlinkCommands_not_parsed : ∀ c ∈ downlinkCommands, c ∉ parsedUplinkIds := by
  decide

/-- Lines 959-963 behind a `case` that left `msg_body` and `msg.len` behind the bytes
packed so far, on a zero tail. -/
theorem packCheck_zero (c a : Nat) (mid : List Nat) (z L : Nat) (ha : a < 65536)
    (hL : L = 5 + mid.length) (hz : 1 ≤ z) :
    packCheck ⟨packBuf ([0] ++ be16 c) a mid (List.replicate z 0), L, L⟩
      = some ⟨0 :: ((be16 c ++ be16 a ++ mid ++ [bccList (be16 c ++ be16 a ++ mid)])
                ++ List.replicate (z - 1) 0), L + 1, L⟩ := by
  subst hL
  have hb16 : [0] ++ be16 c = [0, c / 256 % 256, c % 256] := by simp [be16]
  rw [hb16, replicate_zero_cons z hz, packCheck_rep 0 _ _ a mid 0 _ ha]
  simp [be16]

/-- Lines 959-963 behind the passthrough `case`, on a zero tail behind the payload `P`:
the bytes behind the delimiter slot are the header, the bytes `mid`, and as many bytes
`Y` as the payload and one more. -/
theorem packCheck_payload (c a : Nat) (mid P : List Nat) (z : Nat) (ha : a < 65536)
    (hz : 1 ≤ z) :
    ∃ Y, Y.length = P.length + 1 ∧
      packCheck ⟨packBuf ([0] ++ be16 c) a mid (P ++ List.replicate z 0),
          5 + mid.length + P.length, 5 + mid.length⟩
        = some ⟨0 :: ((be16 c ++ be16 a ++ mid ++ Y) ++ List.replicate (z - 1) 0),
            5 + mid.length + P.length + 1, 5 + mid.length⟩ := by
  cases P with
  | nil =>
    refine ⟨[bccList (be16 c ++ be16 a ++ mid)], rfl, ?_⟩
    have := packCheck_zero c a mid z (5 + mid.length) ha rfl hz
    simpa using this
  | cons p0 P =>
    have hb16 : [0] ++ be16 c = [0, c / 256 % 256, c % 256] := by simp [be16]
    refine ⟨[bccList (be16 c ++ be16 a ++ mid ++ p0 :: P)] ++ P ++ [0], by simp, ?_⟩
    have h := packCheck_inner 0 (c / 256 % 256) (c % 256) a mid p0 P (List.replicate z 0) ha
    rw [hb16, List.cons_append, List.length_cons, h, replicate_zero_cons z hz]
    simp [be16]

/-- Lines 628-963 of `Jt808FramePack` on a zeroed buffer, for every downlink command and
every envelope whose members can be read: behind the delimiter slot lie the header
(id, attribute word, phone number, incremented flow number), then body and checksum
`Y`, `packedLength` bytes in all, then zero bytes; `msg.len` is one more. -/
theorem packUnescaped_zero (flow cap len0 command : Nat) (propara : ProtocolParameters)
    (hcmd : command ∈ downlinkCommands) (hwf : packable command propara)
    (hcap : packedLength command propara + 2 ≤ cap) :
    ∃ a Y k, Y.length + 12 = packedLength command propara ∧
      packUnescaped flow ⟨List.replicate cap 0, len0⟩ command propara
        = some ((flow + 1) % 65536,
            ⟨0 :: ((be16 command ++ be16 a ++ propara.phone_num
                ++ be16 ((flow + 1) % 65536) ++ Y)
              ++ List.replicate (cap - 1 - packedLength command propara) 0),
             packedLength command propara + 1, k⟩) := by
  have hc := downlinkCommands_lt command hcmd
  have hphone : propara.phone_num.length = 6 := hwf.1
  have hbuf : List.replicate cap 0 = 0 :: List.replicate (cap - 1) 0 :=
    replicate_zero_cons cap (by unfold packedLength at hcap; omega)
  have hhead := packHead_rep flow 0 (List.replicate (cap - 1) 0) len0 command
    propara (by unfold packedLength at hcap; simp; omega) hphone
  rw [List.drop_replicate, show cap - 1 - 12 = cap - 13 by omega] at hhead
  unfold packUnescaped
  simp only [Option.bind_eq_bind, Nat.mod_eq_of_lt hc]
  rw [hbuf, hhead]
  simp only [Option.some_bind]
  by_cases hp : command = DOWN_PASSTHROUGH
  · subst hp
    obtain ⟨pt, hpt, hsz⟩ := hwf.2.2.2.2.2.2.2.2.2 rfl
    have e3 : ∀ s, packBody DOWN_PASSTHROUGH propara s = packPassThrough propara s :=
      fun _ => rfl
    have hpl : packedLength DOWN_PASSTHROUGH propara = 14 + pt.size := by
      have e1 : packedFragment DOWN_PASSTHROUGH propara = [] := rfl
      have e2 : packedBody DOWN_PASSTHROUGH propara = passThroughSpec propara := rfl
      unfold packedLength
      rw [e1, e2]
      unfold passThroughSpec
      rw [hpt]
      simp
      omega
    rw [hpl] at hcap ⊢
    rw [e3, packPassThrough_zero propara pt hpt hsz _ (by simp [be16]) 0 _ (cap - 13) 13 13
      (by norm_num) (by simp [be16_length, hphone]) (by omega), Option.some_bind]
    have htk : (pt.buffer.take pt.size).length = pt.size := by simp; omega
    obtain ⟨Y, hY, hchk⟩ := packCheck_payload DOWN_PASSTHROUGH (attrSetMsglen 0 pt.size)
      (propara.phone_num ++ be16 ((flow + 1) % 65536) ++ [pt.type % 256])
      (pt.buffer.take pt.size) (cap - 13 - 1 - pt.size) (attrSetMsglen_lt _ _ (by norm_num))
      (by omega)
    have hl : 5 + (propara.phone_num ++ be16 ((flow + 1) % 65536)
        ++ [pt.type % 256]).length = 13 + 1 := by
      simp [be16_length, hphone]
    rw [hl, htk] at hchk
    rw [hchk]
    refine ⟨attrSetMsglen 0 pt.size, [pt.type % 256] ++ Y, 13 + 1, by simp [hY, htk]; omega,
      ?_⟩
    simp only [Option.some_bind, Option.pure_def, Option.some.injEq, Prod.mk.injEq, true_and,
      PackState.mk.injEq, and_true, List.cons.injEq]
    rw [show cap - 13 - 1 - pt.size - 1 = cap - 1 - (14 + pt.size) by omega]
    simp
  · obtain ⟨a1, ha1, hbody⟩ := packBody_zero command propara hcmd hp hwf ([0] ++ be16 command)
      (by simp [be16]) 0 (propara.phone_num ++ be16 ((flow + 1) % 65536)) (cap - 13)
      (by norm_num) (by simp [be16_length, hphone])
      (by unfold packedLength at hcap; simp only [List.length_append]; omega)
    have hpl : packedLength command propara
        = 13 + (packedFragment command propara ++ packedBody command propara).length := by
      unfold packedLength; simp only [List.length_append]; omega
    generalize packedFragment command propara ++ packedBody command propara = B
      at hbody hpl
    rw [hpl] at hcap ⊢
    rw [hbody, Option.some_bind,
      packCheck_zero command a1 _ _ _ ha1 (by simp [be16_length, hphone]; omega) (by omega)]
    refine ⟨a1, B ++ [bccList (be16 command ++ be16 a1
      ++ (propara.phone_num ++ be16 ((flow + 1) % 65536) ++ B))], 13 + B.length,
      by simp; omega, ?_⟩
    simp only [Option.some_bind, Option.pure_def, Option.some.injEq, Prod.mk.injEq, true_and,
      PackState.mk.injEq, and_true, List.cons.injEq]
    rw [show cap - 13 - B.length - 1 = cap - 1 - (13 + B.length) by omega]
    simp

/-- The unified response reads only the phone number of the envelope. -/
theorem packable_uniresponse (propara : ProtocolParameters)
    (h : propara.phone_num.length = 6) : packable DOWN_UNIRESPONSE propara :=
  ⟨h, fun hc => absurd hc (by decide), fun hc => absurd hc (by decide),
    fun hc => absurd hc (by decide), fun hc => absurd hc (by decide),
    fun hc => absurd hc (by decide), fun hc => absurd hc (by decide),
    fun hc => absurd hc (by decide),
    fun hc => by rcases hc with h | h | h <;> exact absurd h (by decide),
    fun hc => absurd hc (by decide)⟩

/-- The frame `Jt808FramePack` returns into a zeroed buffer when the `switch` appends the
bytes `B` on the zero tail behind the header and leaves the attribute word `a`: the
encoded frame of the 12-byte header with `a` and of `B`. -/
theorem Jt808FramePack_encode (flow cap len0 command : Nat) (propara : ProtocolParameters)
    (a : Nat) (B : List Nat) (hc : command < 65536)
    (hphone : propara.phone_num.length = 6) (hpb : ∀ b ∈ propara.phone_num, b < 256)
    (hbody : packBody command propara
        ⟨packBuf ([0] ++ be16 command) 0 (propara.phone_num ++ be16 ((flow + 1) % 65536))
          (List.replicate (cap - 13) 0), 13, 13⟩
      = some ⟨packBuf ([0] ++ be16 command) a
          (propara.phone_num ++ be16 ((flow + 1) % 65536) ++ B)
          (List.replicate (cap - 13 - B.length) 0), 13 + B.length, 13 + B.length⟩)
    (ha : a < 65536) (hB : ∀ b ∈ B, b < 256)
    (hcap : 3 * (13 + B.length) + 1 ≤ cap) (h16 : cap < 65536) :
    ∃ msg1 n, Jt808FramePack flow ⟨List.replicate cap 0, len0⟩ command propara
        = some ((flow + 1) % 65536, msg1, n) ∧ msg1.len = n ∧
      msg1.buffer.take n
        = encode_frame (headerSpec command a propara.phone_num ((flow + 1) % 65536)) B := by
  rw [← Nat.mod_eq_of_lt hc] at hbody
  rw [Nat.mod_eq_of_lt hc] at hbody
  have hbody2 : packBody (command % 65536) propara
        ⟨packBuf ([0] ++ be16 command) 0 (propara.phone_num ++ be16 ((flow + 1) % 65536))
          (List.replicate (cap - 13) 0), 13, 13⟩
      = some ⟨packBuf ([0] ++ be16 command) a
          (propara.phone_num ++ be16 ((flow + 1) % 65536) ++ B)
          (List.replicate (cap - 13 - B.length) 0), 13 + B.length, 13 + B.length⟩ := by
    rw [Nat.mod_eq_of_lt hc]; exact hbody
  obtain ⟨msg1, n, h1, h2, _, _, h3, _⟩ := Jt808FramePack_frame flow cap len0 command
    propara a _ (cap - 13 - B.length) _ (by omega) hphone hbody2
    (by simp [be16_length, hphone]; omega) ha
    (mem_lt_of_append (mem_lt_of_append hpb (be16_lt _)) hB)
    (by simp [be16_length, hphone]; omega) (by simp [be16_length, hphone]; omega)
    (by simp [be16_length, hphone]; omega)
  refine ⟨msg1, n, h1, h2, ?_⟩
  rw [h3]
  simp [encode_frame, headerSpec]

theorem encode_frame_frag (id a : Nat) (phone : List Nat) (flow total index : Nat)
    (body : List Nat) :
    encode_frame (headerSpec id a phone flow) (be16 total ++ be16 index ++ body)
      = encode_frame (headerFragSpec id a phone flow total index) body := by
  simp [encode_frame, headerFragSpec]

theorem fragmentWordsSpec_lt (propara : ProtocolParameters) :
    ∀ b ∈ fragmentWordsSpec propara, b < 256 := by
  unfold fragmentWordsSpec
  split_ifs
  · exact mem_lt_of_append (be16_lt _) (be16_lt _)
  · simp

theorem replicate_zero_lt (n : Nat) : ∀ b ∈ List.replicate n 0, b < 256 := by
  intro b hb
  rw [List.eq_of_mem_replicate hb]
  norm_num

theorem take_lt {l : List Nat} (n : Nat) (h : ∀ b ∈ l, b < 256) : ∀ b ∈ l.take n, b < 256 :=
  fun b hb => h b (List.mem_of_mem_take hb)

theorem termParaSpec_lt (p : TerminalParameter) (h : ∀ b ∈ p.parameter_value, b < 256) :
    ∀ b ∈ termParaSpec p, b < 256 := by
  unfold termParaSpec
  refine mem_lt_of_append (mem_lt_of_append (be32_lt _) (mem_lt_singleton_mod _)) ?_
  unfold termParaValueSpec
  simp only []
  split_ifs
  · exact be16_lt _
  · exact be32_lt _
  · exact take_lt _ h
  · exact replicate_zero_lt _

theorem flatMap_lt {α : Type} (f : α → List Nat) (l : List α)
    (h : ∀ x ∈ l, ∀ b ∈ f x, b < 256) : ∀ b ∈ l.flatMap f, b < 256 := by
  intro b hb
  obtain ⟨x, hx, hbx⟩ := List.mem_flatMap.mp hb
  exact h x hx b hbx

/-- The frame for the set-terminal-parameter message 0x8103 into a zeroed buffer: the
fragmentation words when there are more packages than one, the count byte and the
tuples in list order; the attribute word holds the fragmentation bit and, in its 10
bits of `msglen`, 1 plus the sum over the tuples of `5 + parameter_len`. -/
theorem setTermPara_frame (flow cap len0 : Nat) (propara : ProtocolParameters)
    (l : List TerminalParameter) (hl : propara.terminal_parameter_list = some l)
    (hcons : ∀ p ∈ l, p.consistent) (hval : ∀ p ∈ l, ∀ b ∈ p.parameter_value, b < 256)
    (hphone : propara.phone_num.length = 6) (hpb : ∀ b ∈ propara.phone_num, b < 256)
    (hcap : 3 * (18 + (l.flatMap termParaSpec).length) + 1 ≤ cap) (h16 : cap < 65536) :
    ∃ msg1 n, Jt808FramePack flow ⟨List.replicate cap 0, len0⟩ DOWN_SETTERMPARA propara
        = some ((flow + 1) % 65536, msg1, n) ∧ msg1.len = n ∧
      msg1.buffer.take n
        = encode_frame
            (headerSpec 0x8103
              (attrSetMsglen (if propara.packet_total_num % 65536 > 1 then 8192 else 0)
                (1 + (l.map fun p => 5 + p.parameter_len).sum))
              propara.phone_num ((flow + 1) % 65536))
            (fragmentWordsSpec propara ++ ([l.length % 256] ++ l.flatMap termParaSpec)) := by
  have hfl : (fragmentWordsSpec propara).length ≤ 4 := by
    unfold fragmentWordsSpec; split_ifs <;> simp [be16_length]
  have hspec : setTermParaSpec propara = [l.length % 256] ++ l.flatMap termParaSpec := by
    unfold setTermParaSpec; rw [hl]
  have hz := packSetTermPara_zero propara ([0] ++ be16 DOWN_SETTERMPARA) (by simp [be16]) 0
    (propara.phone_num ++ be16 ((flow + 1) % 65536)) (cap - 13) 13
    (by rw [hl]; exact hcons) (by norm_num) (by simp [be16_length, hphone])
    (by rw [hspec]; simp only [List.length_append, List.length_singleton]; omega)
  have e3 : ∀ s, packBody DOWN_SETTERMPARA propara s = packSetTermPara propara s :=
    fun _ => rfl
  rw [← e3, hl, Option.getD_some] at hz
  have hpk : (if propara.packet_total_num % 65536 > 1 then attrSetPackage 0 1 else 0)
      = (if propara.packet_total_num % 65536 > 1 then 8192 else 0) := by
    split_ifs <;> rfl
  rw [hpk] at hz
  have := Jt808FramePack_encode flow cap len0 DOWN_SETTERMPARA propara _
    (fragmentWordsSpec propara ++ setTermParaSpec propara) (by decide) hphone hpb hz
    (attrSetMsglen_lt _ _ (by split_ifs <;> norm_num))
    (mem_lt_of_append (fragmentWordsSpec_lt _) (by
      rw [hspec]
      exact mem_lt_of_append (mem_lt_singleton_mod _)
        (flatMap_lt _ _ fun p hp => termParaSpec_lt p (hval p hp))))
    (by rw [hspec]; simp only [List.length_append, List.length_singleton]; omega) h16
  rw [hspec] at this
  exact this

theorem attrSetMsglen_frag (frag : Prop) [Decidable frag] (x : Nat) :
    attrSetMsglen (if frag then 8192 else 0) x = (if frag then 8192 else 0) + x % 1024 := by
  unfold attrSetMsglen
  split_ifs <;> norm_num

theorem fragmentWordsSpec_frame (propara : ProtocolParameters) (id a flow : Nat)
    (body : List Nat) :
    encode_frame (headerSpec id a propara.phone_num flow) (fragmentWordsSpec propara ++ body)
      = if propara.packet_total_num % 65536 > 1 then
          encode_frame (headerFragSpec id a propara.phone_num flow propara.packet_total_num
            propara.packet_sequence_num) body
        else encode_frame (headerSpec id a propara.phone_num flow) body := by
  unfold fragmentWordsSpec
  split_ifs
  · exact encode_frame_frag _ _ _ _ _ _ _
  · simp

set_option maxRecDepth 100000 in
theorem startupGpsOn_consistent : startupGpsOn.consistent := by
  unfold TerminalParameter.consistent; decide

set_option maxRecDepth 100000 in
theorem startupGpsOn_lt : ∀ b ∈ startupGpsOn.parameter_value, b < 256 := by decide

set_option maxRecDepth 100000 in
theorem threeParameters_consistent :
    ∀ p ∈ [startupGpsOn, ntripCorsPort8000, ntripCorsIp], p.consistent := by
  unfold TerminalParameter.consistent; decide

set_option maxRecDepth 100000 in
theorem threeParameters_lt :
    ∀ p ∈ [startupGpsOn, ntripCorsPort8000, ntripCorsIp], ∀ b ∈ p.parameter_value, b < 256 := by
  decide

/-- C11, as amended: for every list of terminal-parameter tuples whose word and dword
tuples have the lengths 2 and 4 (as `AddParameterNodeIntoList` builds them), in every
zeroed buffer with room for the frame, the body of the set-terminal-parameter frame
0x8103 is the count byte (the number of tuples modulo 256, so the number itself up to
255 tuples) followed, in list order, by `id` (big-endian `u32`), `length` (`u8`) and
`length` value bytes, word and dword values big-endian, byte and string values
verbatim.  The field `msg_len` has 10 bits and holds 1 plus the sum over the tuples of
`5 + length` modulo 1024: it is that number exactly when the number is at most 1023.
With more packages than one the fragmentation words stand in front of the body and
the fragmentation bit is set. -/
theorem settermpara_body (flow cap len0 : Nat) (propara : ProtocolParameters)
    (l : List TerminalParameter) (hl : propara.terminal_parameter_list = some l)
    (hcons : ∀ p ∈ l, p.consistent) (hval : ∀ p ∈ l, ∀ b ∈ p.parameter_value, b < 256)
    (hphone : propara.phone_num.length = 6) (hpb : ∀ b ∈ propara.phone_num, b < 256)
    (hcap : 3 * (18 + (l.flatMap termParaSpec).length) + 1 ≤ cap) (h16 : cap < 65536) :
    ∃ msg1 n a, Jt808FramePack flow ⟨List.replicate cap 0, len0⟩ DOWN_SETTERMPARA propara
        = some ((flow + 1) % 65536, msg1, n) ∧ msg1.len = n ∧
      msg1.buffer.take n
        = (if propara.packet_total_num % 65536 > 1 then
            encode_frame (headerFragSpec 0x8103 a propara.phone_num ((flow + 1) % 65536)
              propara.packet_total_num propara.packet_sequence_num)
              ([l.length % 256] ++ l.flatMap termParaSpec)
          else encode_frame (headerSpec 0x8103 a propara.phone_num ((flow + 1) % 65536))
              ([l.length % 256] ++ l.flatMap termParaSpec)) ∧
      attrMsglen a = (1 + (l.map fun p => 5 + p.parameter_len).sum) % 1024 ∧
      (attrPackage a = 1 ↔ propara.packet_total_num % 65536 > 1) ∧
      (l.length ≤ 255 → l.length % 256 = l.length) ∧
      (1 + (l.map fun p => 5 + p.parameter_len).sum ≤ 1023 →
        attrMsglen a = 1 + (l.map fun p => 5 + p.parameter_len).sum) := by
  obtain ⟨msg1, n, h1, h2, h3⟩ := setTermPara_frame flow cap len0 propara l hl hcons hval
    hphone hpb hcap h16
  rw [fragmentWordsSpec_frame, attrSetMsglen_frag] at h3
  have hm : attrMsglen ((if propara.packet_total_num % 65536 > 1 then 8192 else 0)
      + (1 + (l.map fun p => 5 + p.parameter_len).sum) % 1024)
      = (1 + (l.map fun p => 5 + p.parameter_len).sum) % 1024 := by
    unfold attrMsglen; split_ifs <;> omega
  refine ⟨msg1, n, _, h1, h2, h3, hm, ?_, fun h => Nat.mod_eq_of_lt (by omega), ?_⟩
  · unfold attrPackage; split_ifs with h <;> simp [h] <;> omega
  · intro h
    rw [hm, Nat.mod_eq_of_lt (by omega)]

/-- Witness of C11: a byte, a word and a string tuple, flow number 0, a zeroed buffer
of 256 bytes. -/
theorem settermpara_body_witness :
    ∃ msg1 n a, Jt808FramePack 0 ⟨List.replicate 256 0, 0⟩ DOWN_SETTERMPARA threeParameters
        = some ((0 + 1) % 65536, msg1, n) ∧ msg1.len = n ∧
      msg1.buffer.take n
        = (if threeParameters.packet_total_num % 65536 > 1 then
            encode_frame (headerFragSpec 0x8103 a threeParameters.phone_num ((0 + 1) % 65536)
              threeParameters.packet_total_num threeParameters.packet_sequence_num)
              ([[startupGpsOn, ntripCorsPort8000, ntripCorsIp].length % 256]
                ++ [startupGpsOn, ntripCorsPort8000, ntripCorsIp].flatMap termParaSpec)
          else encode_frame
              (headerSpec 0x8103 a threeParameters.phone_num ((0 + 1) % 65536))
              ([[startupGpsOn, ntripCorsPort8000, ntripCorsIp].length % 256]
                ++ [startupGpsOn, ntripCorsPort8000, ntripCorsIp].flatMap termParaSpec)) ∧
      attrMsglen a = (1 + ([startupGpsOn, ntripCorsPort8000, ntripCorsIp].map
        fun p => 5 + p.parameter_len).sum) % 1024 ∧
      (attrPackage a = 1 ↔ threeParameters.packet_total_num % 65536 > 1) ∧
      ([startupGpsOn, ntripCorsPort8000, ntripCorsIp].length ≤ 255 →
        [startupGpsOn, ntripCorsPort8000, ntripCorsIp].length % 256
          = [startupGpsOn, ntripCorsPort8000, ntripCorsIp].length) ∧
      (1 + ([startupGpsOn, ntripCorsPort8000, ntripCorsIp].map
          fun p => 5 + p.parameter_len).sum ≤ 1023 →
        attrMsglen a = 1 + ([startupGpsOn, ntripCorsPort8000, ntripCorsIp].map
          fun p => 5 + p.parameter_len).sum) :=
  settermpara_body 0 256 0 threeParameters [startupGpsOn, ntripCorsPort8000, ntripCorsIp] rfl
    threeParameters_consistent threeParameters_lt (by decide) (by decide)
    (by
      rw [← sum_map_length]
      simp only [List.map_cons, List.map_nil, List.sum_cons, List.sum_nil,
        termParaSpec_length _ (threeParameters_consistent _ (List.mem_cons_self _ _)),
        termParaSpec_length _ (threeParameters_consistent _
          (List.mem_cons_of_mem _ (List.mem_cons_self _ _))),
        termParaSpec_length _ (threeParameters_consistent _
          (List.mem_cons_of_mem _ (List.mem_cons_of_mem _ (List.mem_cons_self _ _))))]
      decide)
    (by decide)

/-- C11 fails as stated: a list of 171 byte tuples is a non-empty list of at most 255
tuples with registry-known ids; its body has 1027 bytes (1 plus 171 times `5 + 1`) and
the frame carries `msg_len` 3. -/
theorem settermpara_msglen_wraps :
    ∃ msg1 n, Jt808FramePack 0 ⟨List.replicate 4096 0, 0⟩ DOWN_SETTERMPARA manyParameters
        = some (1, msg1, n) ∧
      msg1.buffer.take n
        = encode_frame (headerSpec 0x8103 3 exampleParameters.phone_num 1)
            ([171] ++ (List.replicate 171 startupGpsOn).flatMap termParaSpec) ∧
      (List.replicate 171 startupGpsOn).length ≤ 255 ∧
      GetParameterTypeByParameterId startupGpsOn.parameter_id = kByteType ∧
      1 + ((List.replicate 171 startupGpsOn).map fun p => 5 + p.parameter_len).sum = 1027 ∧
      attrMsglen 3 ≠ 1027 := by
  have hlen : startupGpsOn.parameter_len = 1 := rfl
  have hflat : ((List.replicate 171 startupGpsOn).flatMap termParaSpec).length = 1026 := by
    rw [← sum_map_length, List.map_replicate, List.sum_replicate,
      termParaSpec_length startupGpsOn startupGpsOn_consistent, hlen]
    rfl
  obtain ⟨msg1, n, h1, _, h3⟩ := setTermPara_frame 0 4096 0 manyParameters
    (List.replicate 171 startupGpsOn) rfl
    (fun p hp => by rw [List.eq_of_mem_replicate hp]; exact startupGpsOn_consistent)
    (fun p hp => by rw [List.eq_of_mem_replicate hp]; exact startupGpsOn_lt)
    (by decide) (by decide) (by rw [hflat]; norm_num) (by norm_num)
  have hsum : 1 + ((List.replicate 171 startupGpsOn).map fun p => 5 + p.parameter_len).sum
      = 1027 := by
    rw [List.map_replicate, List.sum_replicate, hlen]
    rfl
  rw [hsum] at h3
  have hfrag : fragmentWordsSpec manyParameters = [] := rfl
  have hattr : attrSetMsglen (if manyParameters.packet_total_num % 65536 > 1 then 8192 else 0)
      1027 = 3 := rfl
  have hphone : manyParameters.phone_num = exampleParameters.phone_num := rfl
  rw [hfrag, hattr, hphone, List.nil_append, List.length_replicate] at h3
  exact ⟨msg1, n, h1, h3, by rw [List.length_replicate]; norm_num, rfl, hsum,
    by unfold attrMsglen; norm_num⟩

theorem updatePackageSpec_lt (propara : ProtocolParameters)
    (hm : ∀ b ∈ propara.manufacturer_id, b < 256) (hv : ∀ b ∈ propara.version_num, b < 256)
    (hd : ∀ b ∈ propara.packet_data, b < 256) : ∀ b ∈ updatePackageSpec propara, b < 256 := by
  unfold updatePackageSpec
  exact mem_lt_of_append (mem_lt_of_append (mem_lt_of_append (mem_lt_of_append
    (mem_lt_of_append (mem_lt_singleton_mod _) (take_lt _ hm)) (mem_lt_singleton_mod _))
    (take_lt _ hv)) (be32_lt _)) (take_lt _ hd)

/-- The frame for the upgrade package 0x8108 into a zeroed buffer. -/
theorem updatePackage_frame (flow cap len0 : Nat) (propara : ProtocolParameters)
    (hphone : propara.phone_num.length = 6) (hpb : ∀ b ∈ propara.phone_num, b < 256)
    (hwf : 5 ≤ propara.manufacturer_id.length ∧
      propara.version_num_len ≤ propara.version_num.length ∧
      propara.packet_data_len ≤ propara.packet_data.length)
    (hm : ∀ b ∈ propara.manufacturer_id, b < 256) (hv : ∀ b ∈ propara.version_num, b < 256)
    (hd : ∀ b ∈ propara.packet_data, b < 256)
    (hcap : 3 * (17 + (updatePackageSpec propara).length) + 1 ≤ cap) (h16 : cap < 65536) :
    ∃ msg1 n, Jt808FramePack flow ⟨List.replicate cap 0, len0⟩ DOWN_UPDATEPACKAGE propara
        = some ((flow + 1) % 65536, msg1, n) ∧ msg1.len = n ∧
      msg1.buffer.take n
        = encode_frame
            (headerSpec 0x8108
              (attrSetMsglen (if propara.packet_total_num % 65536 > 1 then 8192 else 0)
                (11 + propara.version_num_len + propara.packet_data_len))
              propara.phone_num ((flow + 1) % 65536))
            (fragmentWordsSpec propara ++ updatePackageSpec propara) := by
  have hfl : (fragmentWordsSpec propara).length ≤ 4 := by
    unfold fragmentWordsSpec; split_ifs <;> simp [be16_length]
  have hz := packUpdatePackage_zero propara ([0] ++ be16 DOWN_UPDATEPACKAGE) (by simp [be16]) 0
    (propara.phone_num ++ be16 ((flow + 1) % 65536)) (cap - 13) 13
    hwf (by norm_num) (by simp [be16_length, hphone])
    (by simp only [List.length_append]; omega)
  have e3 : ∀ s, packBody DOWN_UPDATEPACKAGE propara s = packUpdatePackage propara s :=
    fun _ => rfl
  rw [← e3] at hz
  have hpk : (if propara.packet_total_num % 65536 > 1 then attrSetPackage 0 1 else 0)
      = (if propara.packet_total_num % 65536 > 1 then 8192 else 0) := by
    split_ifs <;> rfl
  rw [hpk] at hz
  exact Jt808FramePack_encode flow cap len0 DOWN_UPDATEPACKAGE propara _
    (fragmentWordsSpec propara ++ updatePackageSpec propara) (by decide) hphone hpb hz
    (attrSetMsglen_lt _ _ (by split_ifs <;> norm_num))
    (mem_lt_of_append (fragmentWordsSpec_lt _) (updatePackageSpec_lt _ hm hv hd))
    (by simp only [List.length_append]; omega) h16

/-- C13: for every envelope whose arrays hold the bytes their counts name, in every
zeroed buffer with room for the frame, the body of the upgrade package frame 0x8108 is
`upgrade_type` (`u8`), 5 bytes of `manufacturer_id`, `version_len` (`u8`), `version_len`
bytes of the version, `data_len` (big-endian `u32`) and `data_len` bytes of data.  When
`packet_total_num` is above 1 the header carries the fragmentation bit and the words
`total_packets` and `packet_index` (big-endian `u16` each) stand between header and
body; otherwise the bit is clear and the body follows the 12-byte header. -/
theorem updatepackage_body (flow cap len0 : Nat) (propara : ProtocolParameters)
    (hphone : propara.phone_num.length = 6) (hpb : ∀ b ∈ propara.phone_num, b < 256)
    (hwf : 5 ≤ propara.manufacturer_id.length ∧
      propara.version_num_len ≤ propara.version_num.length ∧
      propara.packet_data_len ≤ propara.packet_data.length)
    (hm : ∀ b ∈ propara.manufacturer_id, b < 256) (hv : ∀ b ∈ propara.version_num, b < 256)
    (hd : ∀ b ∈ propara.packet_data, b < 256)
    (hcap : 3 * (17 + (updatePackageSpec propara).length) + 1 ≤ cap) (h16 : cap < 65536) :
    ∃ msg1 n a, Jt808FramePack flow ⟨List.replicate cap 0, len0⟩ DOWN_UPDATEPACKAGE propara
        = some ((flow + 1) % 65536, msg1, n) ∧ msg1.len = n ∧
      msg1.buffer.take n
        = (if propara.packet_total_num % 65536 > 1 then
            encode_frame (headerFragSpec 0x8108 a propara.phone_num ((flow + 1) % 65536)
              propara.packet_total_num propara.packet_sequence_num)
              ([propara.upgrade_type % 256] ++ propara.manufacturer_id.take 5
                ++ [propara.version_num_len % 256]
                ++ propara.version_num.take propara.version_num_len
                ++ be32 propara.packet_data_len
                ++ propara.packet_data.take propara.packet_data_len)
          else encode_frame (headerSpec 0x8108 a propara.phone_num ((flow + 1) % 65536))
              ([propara.upgrade_type % 256] ++ propara.manufacturer_id.take 5
                ++ [propara.version_num_len % 256]
                ++ propara.version_num.take propara.version_num_len
                ++ be32 propara.packet_data_len
                ++ propara.packet_data.take propara.packet_data_len)) ∧
      (attrPackage a = 1 ↔ propara.packet_total_num % 65536 > 1) ∧
      attrMsglen a = (11 + propara.version_num_len + propara.packet_data_len) % 1024 := by
  obtain ⟨msg1, n, h1, h2, h3⟩ := updatePackage_frame flow cap len0 propara hphone hpb hwf
    hm hv hd hcap h16
  rw [fragmentWordsSpec_frame, attrSetMsglen_frag] at h3
  refine ⟨msg1, n, _, h1, h2, h3, ?_, ?_⟩
  · unfold attrPackage; split_ifs with h <;> simp [h] <;> omega
  · unfold attrMsglen; split_ifs <;> omega

theorem upgradeParameters_lt :
    (∀ b ∈ upgradeParameters.manufacturer_id, b < 256) ∧
    (∀ b ∈ upgradeParameters.version_num, b < 256) ∧
    (∀ b ∈ upgradeParameters.packet_data, b < 256) :=
  ⟨by decide,
   @mem_lt_of_append [86, 49, 46, 48] _ (by decide) (replicate_zero_lt 28),
   @mem_lt_of_append [0x10, 0x7E, 0x30] _ (by decide) (replicate_zero_lt 1021)⟩

theorem upgradeParameters_wf :
    5 ≤ upgradeParameters.manufacturer_id.length ∧
    upgradeParameters.version_num_len ≤ upgradeParameters.version_num.length ∧
    upgradeParameters.packet_data_len ≤ upgradeParameters.packet_data.length := by
  refine ⟨by decide, ?_, ?_⟩
  · show 4 ≤ ([86, 49, 46, 48] ++ List.replicate 28 0).length
    simp
  · show 3 ≤ ([0x10, 0x7E, 0x30] ++ List.replicate 1021 0).length
    rw [List.length_append, List.length_replicate]
    exact Nat.le_add_right 3 1021

set_option maxRecDepth 100000 in
theorem upgradeParameters_length : (updatePackageSpec upgradeParameters).length = 18 := by
  decide

/-- Witness of C13: package 2 of 4 with the version `V1.0` and three data bytes, flow
number 0, a zeroed buffer of 256 bytes. -/
theorem updatepackage_body_witness :
    ∃ msg1 n a, Jt808FramePack 0 ⟨List.replicate 256 0, 0⟩ DOWN_UPDATEPACKAGE
          upgradeParameters = some ((0 + 1) % 65536, msg1, n) ∧ msg1.len = n ∧
      msg1.buffer.take n
        = (if upgradeParameters.packet_total_num % 65536 > 1 then
            encode_frame (headerFragSpec 0x8108 a upgradeParameters.phone_num
              ((0 + 1) % 65536) upgradeParameters.packet_total_num
              upgradeParameters.packet_sequence_num)
              ([upgradeParameters.upgrade_type % 256] ++ upgradeParameters.manufacturer_id.take 5
                ++ [upgradeParameters.version_num_len % 256]
                ++ upgradeParameters.version_num.take upgradeParameters.version_num_len
                ++ be32 upgradeParameters.packet_data_len
                ++ upgradeParameters.packet_data.take upgradeParameters.packet_data_len)
          else encode_frame
              (headerSpec 0x8108 a upgradeParameters.phone_num ((0 + 1) % 65536))
              ([upgradeParameters.upgrade_type % 256] ++ upgradeParameters.manufacturer_id.take 5
                ++ [upgradeParameters.version_num_len % 256]
                ++ upgradeParameters.version_num.take upgradeParameters.version_num_len
                ++ be32 upgradeParameters.packet_data_len
                ++ upgradeParameters.packet_data.take upgradeParameters.packet_data_len)) ∧
      (attrPackage a = 1 ↔ upgradeParameters.packet_total_num % 65536 > 1) ∧
      attrMsglen a
        = (11 + upgradeParameters.version_num_len + upgradeParameters.packet_data_len)
            % 1024 :=
  updatepackage_body 0 256 0 upgradeParameters (by decide) (by decide)
    upgradeParameters_wf upgradeParameters_lt.1 upgradeParameters_lt.2.1
    upgradeParameters_lt.2.2 (by rw [upgradeParameters_length]; norm_num) (by norm_num)

theorem areaOptionsSpec_lt (area_attribute : Nat) (start_time end_time : List Nat)
    (max_speed overspeed_duration : Nat) (hs : ∀ b ∈ start_time, b < 256)
    (he : ∀ b ∈ end_time, b < 256) :
    ∀ b ∈ areaOptionsSpec area_attribute start_time end_time max_speed overspeed_duration,
      b < 256 := by
  unfold areaOptionsSpec
  refine mem_lt_of_append ?_ ?_
  · split_ifs
    · exact mem_lt_of_append (take_lt _ hs) (take_lt _ he)
    · simp
  · split_ifs
    · exact mem_lt_of_append (be16_lt _) (mem_lt_singleton_mod _)
    · simp

theorem circularAreaSpec_lt (c : CircularArea) (hs : ∀ b ∈ c.start_time, b < 256)
    (he : ∀ b ∈ c.end_time, b < 256) : ∀ b ∈ circularAreaSpec c, b < 256 := by
  unfold circularAreaSpec
  exact mem_lt_of_append (mem_lt_of_append (mem_lt_of_append (mem_lt_of_append
    (mem_lt_of_append (be32_lt _) (be16_lt _)) (be32_lt _)) (be32_lt _)) (be32_lt _))
    (areaOptionsSpec_lt _ _ _ _ _ hs he)

/-- The frame for the set-circular-area message 0x8600 into a zeroed buffer. -/
theorem setCircularArea_frame (flow cap len0 : Nat) (propara : ProtocolParameters)
    (l : List CircularArea) (hl : propara.circular_area_list = some l)
    (hwt : ∀ c ∈ l, areaTimesPresent c.area_attribute c.start_time c.end_time)
    (hs : ∀ c ∈ l, ∀ b ∈ c.start_time, b < 256) (he : ∀ c ∈ l, ∀ b ∈ c.end_time, b < 256)
    (hphone : propara.phone_num.length = 6) (hpb : ∀ b ∈ propara.phone_num, b < 256)
    (hcap : 3 * (15 + (l.reverse.flatMap circularAreaSpec).length) + 1 ≤ cap)
    (h16 : cap < 65536) :
    ∃ msg1 n, Jt808FramePack flow ⟨List.replicate cap 0, len0⟩ DOWN_SETCIRCULARAREA propara
        = some ((flow + 1) % 65536, msg1, n) ∧ msg1.len = n ∧
      msg1.buffer.take n
        = encode_frame
            (headerSpec 0x8600 ((2 + (l.reverse.flatMap circularAreaSpec).length) % 1024)
              propara.phone_num ((flow + 1) % 65536))
            ([propara.set_area_type % 256, l.length % 256]
              ++ l.reverse.flatMap circularAreaSpec) := by
  have hspec : setCircularAreaSpec propara
      = [propara.set_area_type % 256, l.length % 256]
        ++ l.reverse.flatMap circularAreaSpec := by
    unfold setCircularAreaSpec; rw [hl]; rfl
  have hlen : (setCircularAreaSpec propara).length
      = 2 + (l.reverse.flatMap circularAreaSpec).length := by
    rw [hspec]; simp; omega
  have hz := packSetCircularArea_zero propara ([0] ++ be16 DOWN_SETCIRCULARAREA)
    (by simp [be16]) 0 (propara.phone_num ++ be16 ((flow + 1) % 65536)) (cap - 13) 13 13
    ⟨by rw [hl]; simp, by rw [hl]; exact hwt⟩ (by norm_num) (by simp [be16_length, hphone])
    (by rw [hlen]; omega)
  have e3 : ∀ s, packBody DOWN_SETCIRCULARAREA propara s = packSetCircularArea propara s :=
    fun _ => rfl
  rw [← e3] at hz
  have := Jt808FramePack_encode flow cap len0 DOWN_SETCIRCULARAREA propara _
    (setCircularAreaSpec propara) (by decide) hphone hpb hz
    (attrSetMsglen_lt _ _ (by norm_num))
    (by
      rw [hspec]
      refine mem_lt_of_append ?_ (flatMap_lt _ _ fun c hc => circularAreaSpec_lt c
        (hs c (List.mem_reverse.mp hc)) (he c (List.mem_reverse.mp hc)))
      intro b hb
      simp only [List.mem_cons, List.mem_singleton, List.not_mem_nil, or_false] at hb
      rcases hb with h | h <;> omega)
    (by rw [hlen]; omega) h16
  rw [hlen, hspec] at this
  have ha : attrSetMsglen 0 (2 + (l.reverse.flatMap circularAreaSpec).length)
      = (2 + (l.reverse.flatMap circularAreaSpec).length) % 1024 := by
    unfold attrSetMsglen; omega
  rw [ha] at this
  exact this

theorem circularParameters_times :
    ∀ c ∈ circularParameters.circular_area_list.getD [],
      (c.start_time.length = 6 ∧ c.end_time.length = 6) ∧
      (∀ b ∈ c.start_time, b < 256) ∧ (∀ b ∈ c.end_time, b < 256) := by
  decide

set_option maxRecDepth 100000 in
/-- C15, at the failing input: into a zeroed buffer of 64 bytes, with flow number 0, the
passthrough command 0x8900 with type `0x41` and the payload `0x11, 0x22, 0x33` returns a
frame of 19 bytes whose body is the type byte, then `0x42` in the place of the payload
byte `0x11`, then `0x22, 0x33`, followed by a zero byte in the place of the checksum;
`0x42` is the checksum of the header (with `msg_len` 3) and of the type byte and the
whole payload.  The frame is not the encoded frame of the body `type || payload`. -/
theorem passthrough_payload_overwritten :
    packedFrame (Jt808FramePack 0 ⟨List.replicate 64 0, 0⟩ DOWN_PASSTHROUGH passThroughThree)
      = some ([0x7E] ++ headerSpec 0x8900 3 exampleParameters.phone_num 1
          ++ [0x41] ++ [0x42, 0x22, 0x33] ++ [0x00] ++ [0x7E]) ∧
    bccSpec (headerSpec 0x8900 3 exampleParameters.phone_num 1 ++ [0x41, 0x11, 0x22, 0x33])
      = 0x42 ∧
    [0x7E] ++ headerSpec 0x8900 3 exampleParameters.phone_num 1
          ++ [0x41] ++ [0x42, 0x22, 0x33] ++ [0x00] ++ [0x7E]
      ≠ encode_frame (headerSpec 0x8900 4 exampleParameters.phone_num 1)
          ([0x41] ++ [0x11, 0x22, 0x33]) ∧
    [0x7E] ++ headerSpec 0x8900 3 exampleParameters.phone_num 1
          ++ [0x41] ++ [0x42, 0x22, 0x33] ++ [0x00] ++ [0x7E]
      ≠ encode_frame (headerSpec 0x8900 3 exampleParameters.phone_num 1)
          ([0x41] ++ [0x11, 0x22, 0x33]) := by
  decide

theorem load_some (m : List Nat) (p : Nat) (h : p < m.length) : ∃ v, load m p = some v := by
  unfold load
  exact ⟨m[p], List.getElem?_eq_getElem h⟩

theorem load_cons (b0 : Nat) (m : List Nat) (p : Nat) : load (b0 :: m) (p + 1) = load m p := by
  simp [load]

theorem rd16_some (m : List Nat) (p : Nat) (h : p + 2 ≤ m.length) :
    ∃ v, rd16 m p = some v := by
  obtain ⟨a, ha⟩ := load_some m p (by omega)
  obtain ⟨b, hb⟩ := load_some m (p + 1) (by omega)
  exact ⟨a + 256 * b, by simp [rd16, ha, hb]⟩

theorem rd16_cons (b0 : Nat) (m : List Nat) (p : Nat) :
    rd16 (b0 :: m) (p + 1) = rd16 m p := by
  simp [rd16, load_cons]

/-- C16, as amended: for every message that lies inside its buffer and unescapes to the
message id 0x0001, `Jt808FrameParse` returns that id, stores in `respond_id` the
big-endian word at the bytes 2 and 3 of the body, leaves in `respond_flow_num` the flow
number of the frame header (bytes 10 and 11 behind the delimiter), and changes no other
member of the envelope: `respond_result` keeps the value it had, the flow number at the
bytes 0 and 1 of the body is not read and the result byte is only looked at for a log
line.  The body starts 12 bytes behind the delimiter, or 16 when the fragmentation bit of
the header is set. -/
theorem uniresponse_parse (devs : List DeviceNode) (msg : MessageData)
    (propara : ProtocolParameters) (hlen : msg.len + 2 ≤ msg.buffer.length)
    (h22 : 22 ≤ msg.buffer.length) (h16 : msg.len < 65535) :
    ∃ src j flow a bid,
      ReverseEscape (msg.buffer.drop 1) msg.len = some (src, j) ∧
      (rd16 src 10).map EndianSwap16 = some flow ∧
      (rd16 src 2).map EndianSwap16 = some a ∧
      (rd16 src ((if attrPackage a = 1 then 16 else 12) + 2)).map EndianSwap16 = some bid ∧
      ((rd16 src 0).map EndianSwap16 = some UP_UNIRESPONSE →
        Jt808FrameParse devs msg propara
          = some ⟨UP_UNIRESPONSE, ⟨msg.buffer.take 1 ++ src, j⟩,
              { propara with respond_flow_num := flow, respond_id := bid }⟩) := by
  obtain ⟨buffer, len⟩ := msg
  simp only at hlen h22 h16
  obtain ⟨b0, old, rfl⟩ := @exists_cons_of_length_pos buffer (by omega)
  simp only [List.length_cons] at hlen h22
  obtain ⟨src, j, hre, hsl, _⟩ := ReverseEscape_total old len (by omega) h16
  obtain ⟨id, flow, a, h1, h2, h3, hhead⟩ := parseHead_eq b0 old len propara src j hre
    (by omega)
  obtain ⟨v, hv⟩ := rd16_some src ((if attrPackage a = 1 then 16 else 12) + 2)
    (by split_ifs <;> omega)
  obtain ⟨r8, hr8⟩ := load_some src ((if attrPackage a = 1 then 16 else 12) + 4)
    (by split_ifs <;> omega)
  refine ⟨src, j, flow, a, EndianSwap16 v, by simpa using hre, h2, h3, by rw [hv]; rfl, ?_⟩
  intro hid
  rw [h1] at hid
  simp only [Option.some.injEq] at hid
  subst hid
  have hb : ∀ s, parseBody devs UP_UNIRESPONSE s = parseUniResponse s := fun _ => rfl
  have hmb : (if attrPackage a = 1 then MSGBODY_PACKAGE_POS else MSGBODY_NOPACKAGE_POS)
      = (if attrPackage a = 1 then 16 else 12) + 1 := by
    split_ifs <;> rfl
  simp only [Jt808FrameParse, Option.bind_eq_bind, hhead, Option.some_bind, hb,
    parseUniResponse, hmb]
  rw [show (if attrPackage a = 1 then 16 else 12) + 1 + 2
      = ((if attrPackage a = 1 then 16 else 12) + 2) + 1 by omega, rd16_cons, hv,
    Option.some_bind,
    show (if attrPackage a = 1 then 16 else 12) + 1 + 4
      = ((if attrPackage a = 1 then 16 else 12) + 4) + 1 by omega, load_cons, hr8]
  simp

set_option maxRecDepth 100000 in
/-- Witness of C16 as amended: a unified-response frame with flow number 7 in the
header and the body flow number 3, id `0x8103`, result 1, in a buffer of 32 bytes. -/
theorem uniresponse_parse_witness :
    ∃ src j flow a bid,
      ReverseEscape ((MessageData.mk (encode_frame
          (headerSpec 0x0001 5 exampleParameters.phone_num 7)
          [0x00, 0x03, 0x81, 0x03, 0x01] ++ List.replicate 12 0) 20).buffer.drop 1)
        (MessageData.mk (encode_frame (headerSpec 0x0001 5 exampleParameters.phone_num 7)
          [0x00, 0x03, 0x81, 0x03, 0x01] ++ List.replicate 12 0) 20).len = some (src, j) ∧
      (rd16 src 10).map EndianSwap16 = some flow ∧
      (rd16 src 2).map EndianSwap16 = some a ∧
      (rd16 src ((if attrPackage a = 1 then 16 else 12) + 2)).map EndianSwap16 = some bid ∧
      ((rd16 src 0).map EndianSwap16 = some UP_UNIRESPONSE →
        Jt808FrameParse [] (MessageData.mk (encode_frame
            (headerSpec 0x0001 5 exampleParameters.phone_num 7)
            [0x00, 0x03, 0x81, 0x03, 0x01] ++ List.replicate 12 0) 20) exampleParameters
          = some ⟨UP_UNIRESPONSE, ⟨(MessageData.mk (encode_frame
              (headerSpec 0x0001 5 exampleParameters.phone_num 7)
              [0x00, 0x03, 0x81, 0x03, 0x01] ++ List.replicate 12 0) 20).buffer.take 1 ++ src,
                j⟩,
              { exampleParameters with respond_flow_num := flow, respond_id := bid }⟩) :=
  uniresponse_parse [] (MessageData.mk (encode_frame
      (headerSpec 0x0001 5 exampleParameters.phone_num 7)
      [0x00, 0x03, 0x81, 0x03, 0x01] ++ List.replicate 12 0) 20) exampleParameters
    (by decide) (by decide) (by decide)

set_option maxRecDepth 100000 in
/-- C16 fails as stated: the unified-response frame with the flow number 7 in its header
and the body flow number 3, id `0x8103`, result 1 (failure), parsed into an envelope with
`respond_result` 0, gives `respond_flow_num` 7, `respond_id` `0x8103` and
`respond_result` 0: the body flow number and the result byte are not stored. -/
theorem uniresponse_flow_and_result_not_stored :
    (Jt808FrameParse [] ⟨encode_frame (headerSpec 0x0001 5 exampleParameters.phone_num 7)
        [0x00, 0x03, 0x81, 0x03, 0x01] ++ List.replicate 12 0, 20⟩ exampleParameters).map
      (fun r => (r.message_id, r.propara.respond_flow_num, r.propara.respond_id,
        r.propara.respond_result))
      = some (0x0001, 7, 0x8103, 0) ∧
    be16 3 ++ be16 0x8103 ++ [1] = [0x00, 0x03, 0x81, 0x03, 0x01] := by
  decide

/-- The search loops of lines 1067-1075 and 1094-1102 over records whose phone numbers
pack to six bytes: the first record whose packed phone number is `phone`. -/
theorem findDevice_eq (phone : List Nat) :
    ∀ (devs : List DeviceNode) (buf : List Nat), 6 ≤ buf.length →
      (∀ d ∈ devs, (BcdFromStringCompress d.phone_num).length = 6) →
      findDevice phone devs buf
        = some (devs.find? fun d => decide (BcdFromStringCompress d.phone_num = phone)) := by
  intro devs
  induction devs with
  | nil => intro buf _ _; rfl
  | cons d rest ih =>
    intro buf hbuf hd
    have h6 := hd d (List.mem_cons_self _ _)
    have hm : memcpy buf 0 (BcdFromStringCompress d.phone_num)
        (BcdFromStringCompress d.phone_num).length
        = some (BcdFromStringCompress d.phone_num ++ buf.drop 6) := by
      simp [memcpy, h6, hbuf]
    have ht : (BcdFromStringCompress d.phone_num ++ buf.drop 6).take 6
        = BcdFromStringCompress d.phone_num := by
      rw [List.take_left' h6]
    simp only [findDevice, Option.bind_eq_bind, hm, Option.some_bind, ht, List.find?_cons]
    by_cases he : BcdFromStringCompress d.phone_num = phone
    · simp [he]
    · rw [if_neg he, ih _ (by simp [h6]) (fun x hx => hd x (List.mem_cons_of_mem _ hx))]
      simp [he]

theorem loadBytes_some (m : List Nat) (p n : Nat) (h : p + n ≤ m.length) :
    loadBytes m p n = some ((m.drop p).take n) := by
  simp [loadBytes, h]

theorem loadBytes_cons (b0 : Nat) (m : List Nat) (p n : Nat) (h : p + n ≤ m.length) :
    loadBytes (b0 :: m) (p + 1) n = some ((m.drop p).take n) := by
  rw [loadBytes_some _ _ _ (by simp; omega)]
  simp

/-- `case UP_REGISTER` on a registry whose phone numbers pack to six bytes and whose
authentication codes have four bytes: the rules of section 4.6. -/
theorem parseRegister_eq (devs : List DeviceNode) (s : ParseState) (b0 : Nat)
    (src : List Nat) (hb : s.msg.buffer = b0 :: src) (k : Nat) (hk : s.msg_body = k + 1)
    (hlen : k + 9 ≤ src.length) (h10 : 10 ≤ src.length)
    (hphones : ∀ d ∈ devs, (BcdFromStringCompress d.phone_num).length = 6)
    (hauth : ∀ d ∈ devs, 4 ≤ d.authen_code.length) :
    parseRegister devs s
      = some { s with propara := (registerRulesSpec devs ((src.drop 4).take 6)
                ((src.drop (k + 4)).take 5)
                { s.propara with phone_num := (src.drop 4).take 6 }) } := by
  unfold parseRegister registerRulesSpec
  simp only [Option.bind_eq_bind, hb, hk]
  rw [loadBytes_cons b0 src 4 6 (by omega), Option.some_bind]
  by_cases hd : devs = []
  · subst hd
    simp
  · rw [if_pos hd, if_neg hd, findDevice_eq _ _ _ (by simp) hphones, Option.some_bind]
    cases hf : devs.find? (fun d => decide (BcdFromStringCompress d.phone_num
        = (src.drop 4).take 6)) with
    | none => simp
    | some d =>
      have hmem : d ∈ devs := List.mem_of_find?_eq_some hf
      simp only []
      by_cases hs : d.socket_fd = -1
      · rw [if_pos hs, if_pos hs, loadBytes_some _ _ _ (by have := hauth d hmem; omega),
          Option.some_bind,
          show k + 1 + 4 = (k + 4) + 1 by omega, loadBytes_cons b0 src (k + 4) 5 (by omega)]
        simp
      · rw [if_neg hs, if_neg hs]
        simp

/-- The register rules on a registry whose phone numbers pack to six BCD bytes (11 or
12 digits) and whose authentication codes have four bytes: for every message that lies
inside its buffer and unescapes to the message id 0x0100, `Jt808FrameParse` returns
that id and leaves the envelope as the register rules say: the six phone bytes of the
header are stored, `respond_result` is `no_such_vehicle` if the registry is empty,
`no_such_terminal` if no record's packed phone number equals the header phone,
`terminal_already_registered` if the first such record has a socket other than `-1`,
and otherwise `register_success`, and then the four bytes of the record's
authentication code are copied into the envelope and the manufacturer id is the five
bytes 4..8 of the body. -/
theorem register_parse (devs : List DeviceNode) (msg : MessageData)
    (propara : ProtocolParameters) (hlen : msg.len + 2 ≤ msg.buffer.length)
    (h27 : 27 ≤ msg.buffer.length) (h16 : msg.len < 65535)
    (hphones : ∀ d ∈ devs, (BcdFromStringCompress d.phone_num).length = 6)
    (hauth : ∀ d ∈ devs, 4 ≤ d.authen_code.length) :
    ∃ src j flow a,
      ReverseEscape (msg.buffer.drop 1) msg.len = some (src, j) ∧
      (rd16 src 10).map EndianSwap16 = some flow ∧
      (rd16 src 2).map EndianSwap16 = some a ∧
      ((rd16 src 0).map EndianSwap16 = some UP_REGISTER →
        Jt808FrameParse devs msg propara
          = some ⟨UP_REGISTER, ⟨msg.buffer.take 1 ++ src, j⟩,
              registerRulesSpec devs ((src.drop 4).take 6)
                ((src.drop ((if attrPackage a = 1 then 16 else 12) + 4)).take 5)
                { propara with respond_flow_num := flow, respond_id := UP_REGISTER,
                               phone_num := (src.drop 4).take 6 }⟩) := by
  obtain ⟨buffer, len⟩ := msg
  simp only at hlen h27 h16
  obtain ⟨b0, old, rfl⟩ := @exists_cons_of_length_pos buffer (by omega)
  simp only [List.length_cons] at hlen h27
  obtain ⟨src, j, hre, hsl, _⟩ := ReverseEscape_total old len (by omega) h16
  obtain ⟨id, flow, a, h1, h2, h3, hhead⟩ := parseHead_eq b0 old len propara src j hre
    (by omega)
  refine ⟨src, j, flow, a, by simpa using hre, h2, h3, ?_⟩
  intro hid
  rw [h1] at hid
  simp only [Option.some.injEq] at hid
  subst hid
  have hb : ∀ s, parseBody devs UP_REGISTER s = parseRegister devs s := fun _ => rfl
  have hmb : (if attrPackage a = 1 then MSGBODY_PACKAGE_POS else MSGBODY_NOPACKAGE_POS)
      = (if attrPackage a = 1 then 16 else 12) + 1 := by
    split_ifs <;> rfl
  simp only [Jt808FrameParse, Option.bind_eq_bind, hhead, Option.some_bind, hb]
  rw [parseRegister_eq devs _ b0 src rfl (if attrPackage a = 1 then 16 else 12) hmb
    (by split_ifs <;> omega) (by omega) hphones hauth]
  simp

set_option maxRecDepth 100000 in
/-- The register message of the terminal `012345678901` on the registry of the two
example records, whose phone numbers have twelve digits. -/
theorem register_parse_example :
    ∃ src j flow a,
      ReverseEscape (registerMessage.buffer.drop 1) registerMessage.len = some (src, j) ∧
      (rd16 src 10).map EndianSwap16 = some flow ∧
      (rd16 src 2).map EndianSwap16 = some a ∧
      ((rd16 src 0).map EndianSwap16 = some UP_REGISTER →
        Jt808FrameParse [liveDevice, exampleDevice] registerMessage exampleParameters
          = some ⟨UP_REGISTER, ⟨registerMessage.buffer.take 1 ++ src, j⟩,
              registerRulesSpec [liveDevice, exampleDevice] ((src.drop 4).take 6)
                ((src.drop ((if attrPackage a = 1 then 16 else 12) + 4)).take 5)
                { exampleParameters with respond_flow_num := flow, respond_id := UP_REGISTER,
                                         phone_num := (src.drop 4).take 6 }⟩) :=
  register_parse [liveDevice, exampleDevice] registerMessage exampleParameters
    (by decide) (by decide) (by decide) (by decide) (by decide)

set_option maxRecDepth 100000 in
/-- C18, at the failing input: on the registry of the two example records, an
authentication message of the terminal `012345678901` (authentication code `1, 2, 3,
4`) with an empty body and `msg_len` 0 is parsed with the result `kSuccess`, and so is
the message whose body is the two bytes `1, 2`; the full code gives `kSuccess` and a
body with a wrong first byte `kFailure`.  The envelope has `respond_result` `kFailure`
before each call. -/
theorem authentication_prefix_accepted :
    (Jt808FrameParse [liveDevice, exampleDevice] (authenticationMessage [])
        { zeroParameters with respond_result := kFailure }).map
      (fun r => (r.message_id, r.propara.respond_result)) = some (UP_AUTHENTICATION, kSuccess) ∧
    (Jt808FrameParse [liveDevice, exampleDevice] (authenticationMessage [1, 2])
        { zeroParameters with respond_result := kFailure }).map
      (fun r => (r.message_id, r.propara.respond_result)) = some (UP_AUTHENTICATION, kSuccess) ∧
    (Jt808FrameParse [liveDevice, exampleDevice] (authenticationMessage [1, 2, 3, 4])
        { zeroParameters with respond_result := kFailure }).map
      (fun r => (r.message_id, r.propara.respond_result)) = some (UP_AUTHENTICATION, kSuccess) ∧
    (Jt808FrameParse [liveDevice, exampleDevice] (authenticationMessage [9, 2, 3, 4])
        { zeroParameters with respond_result := kFailure }).map
      (fun r => (r.message_id, r.propara.respond_result)) = some (UP_AUTHENTICATION, kFailure) ∧
    (authenticationMessage []).buffer.take (authenticationMessage []).len
      = encode_frame (headerSpec 0x0102 0 [0x01, 0x23, 0x45, 0x67, 0x89, 0x01] 2) [] ∧
    exampleDevice.authen_code = [1, 2, 3, 4] := by
  decide

theorem acceptDrop_eq (new_sock : Int) (sv : Service) :
    acceptDrop new_sock sv = (-1, { sv with closed := sv.closed ++ [new_sock] }) := by
  simp [acceptDrop, acceptFinish]

theorem acceptFinish_fst (new_sock : Int) (sv : Service) :
    (acceptFinish new_sock sv).1 = new_sock := by
  unfold acceptFinish; split_ifs <;> rfl

/-- What `case UP_AUTHENTICATION` of `AcceptNewClient` leaves when it returns: the
unified response has been passed to `send`; a result other than `kSuccess` closes the
socket, `kSuccess` keeps it and registers it (when positive) with the multiplexer. -/
theorem acceptAuthentication_some (cap : Nat) (new_sock : Int) (propara : ProtocolParameters)
    (len0 : Nat) (sv : Service) (r : Int × Service)
    (h : acceptAuthentication cap new_sock propara len0 sv = some r) :
    ∃ flow msg n, Jt808FramePack sv.message_flow_num_ ⟨List.replicate cap 0, len0⟩
        DOWN_UNIRESPONSE propara = some (flow, msg, n) ∧
      r.2.sent = sv.sent ++ [(new_sock, msg.buffer.take n)] ∧
      (propara.respond_result % 256 ≠ kSuccess →
        r.1 = -1 ∧ r.2.closed = sv.closed ++ [new_sock] ∧ r.2.epoll = sv.epoll ∧
        r.2.device_list_ = sv.device_list_) ∧
      (propara.respond_result % 256 = kSuccess →
        r.1 = new_sock ∧ r.2.closed = sv.closed ∧
        (0 < new_sock → r.2.epoll = sv.epoll ++ [new_sock])) := by
  unfold acceptAuthentication acceptReply at h
  simp only [Option.bind_eq_bind, Option.bind_eq_some, Option.pure_def] at h
  obtain ⟨sv1, ⟨⟨flow, msg, n⟩, hp, hsv1⟩, h⟩ := h
  simp only [Option.some.injEq] at hsv1
  subst hsv1
  refine ⟨flow, msg, n, hp, ?_⟩
  by_cases hs : propara.respond_result % 256 = kSuccess
  · rw [if_neg (not_not.mpr hs)] at h
    simp only [] at h
    split_ifs at h with hd
    · simp only [Option.bind_eq_some, Option.some.injEq] at h
      obtain ⟨devs, _, rfl⟩ := h
      refine ⟨?_, fun hn => absurd hs hn, fun _ => ⟨acceptFinish_fst _ _, ?_, ?_⟩⟩
      · unfold acceptFinish; split_ifs <;> rfl
      · unfold acceptFinish; split_ifs <;> rfl
      · intro hpos; unfold acceptFinish; rw [if_pos hpos]
    · simp only [Option.some.injEq] at h
      subst h
      refine ⟨?_, fun hn => absurd hs hn, fun _ => ⟨acceptFinish_fst _ _, ?_, ?_⟩⟩
      · unfold acceptFinish; split_ifs <;> rfl
      · unfold acceptFinish; split_ifs <;> rfl
      · intro hpos; unfold acceptFinish; rw [if_pos hpos]
  · rw [if_pos hs] at h
    simp only [Option.some.injEq] at h
    subst h
    rw [acceptDrop_eq]
    exact ⟨rfl, fun _ => ⟨rfl, rfl, rfl, rfl⟩, fun hn => absurd hn hs⟩

/-- C19, as amended: when the first receive on the new socket delivers a message and
`Jt808FrameParse` returns for it an id that is neither register nor authentication,
`AcceptNewClient` sends nothing, closes the socket, returns `-1` and leaves the registry
and the multiplexer as they were.  For an authentication message as first message the
`case UP_AUTHENTICATION` of the `switch` is taken: whenever the call returns, the
unified response has been sent on the new socket; it was closed if `respond_result` is
not `kSuccess`, and otherwise it is returned and, when positive, registered with the
multiplexer. -/
theorem first_frame_dispatch (cap : Nat) (new_sock : Int) (first second : RecvOutcome)
    (sv : Service) (p1 : ParseResult) (hrecv : (RecvFrameData cap first).1 = 0)
    (hparse : Jt808FrameParse sv.device_list_ (RecvFrameData cap first).2 zeroParameters
      = some p1) :
    (p1.message_id ≠ UP_REGISTER → p1.message_id ≠ UP_AUTHENTICATION →
      AcceptNewClient cap new_sock first second sv
        = some (-1, { sv with closed := sv.closed ++ [new_sock] })) ∧
    (p1.message_id = UP_AUTHENTICATION →
      ∀ r, AcceptNewClient cap new_sock first second sv = some r →
        ∃ flow msg n, Jt808FramePack sv.message_flow_num_ ⟨List.replicate cap 0, p1.msg.len⟩
            DOWN_UNIRESPONSE p1.propara = some (flow, msg, n) ∧
          r.2.sent = sv.sent ++ [(new_sock, msg.buffer.take n)] ∧
          (p1.propara.respond_result % 256 ≠ kSuccess →
            r.1 = -1 ∧ r.2.closed = sv.closed ++ [new_sock] ∧ r.2.epoll = sv.epoll ∧
            r.2.device_list_ = sv.device_list_) ∧
          (p1.propara.respond_result % 256 = kSuccess →
            r.1 = new_sock ∧ r.2.closed = sv.closed ∧
            (0 < new_sock → r.2.epoll = sv.epoll ++ [new_sock]))) := by
  constructor
  · intro h1 h2
    unfold AcceptNewClient
    simp only [hrecv, ne_eq, not_true_eq_false, if_false, Option.bind_eq_bind, hparse,
      Option.some_bind, if_neg h1, if_neg h2, Option.pure_def, acceptDrop_eq]
  · intro ha r hr
    have hne : p1.message_id ≠ UP_REGISTER := by rw [ha]; decide
    unfold AcceptNewClient at hr
    simp only [hrecv, ne_eq, not_true_eq_false, if_false, Option.bind_eq_bind, hparse,
      Option.some_bind, if_neg hne, if_pos ha] at hr
    exact acceptAuthentication_some cap new_sock p1.propara p1.msg.len sv r hr

set_option maxRecDepth 100000 in
/-- Witness of C19 as amended: a message with the id 0x0002 (a heartbeat) as the first
message on the socket 7. -/
theorem first_frame_dispatch_witness :
    ((RecvFrameData 64 (.data (encode_frame
        (headerSpec 0x0002 0 [0x01, 0x23, 0x45, 0x67, 0x89, 0x01] 1) []))).1 = 0 ∧
      Jt808FrameParse [liveDevice, exampleDevice] (RecvFrameData 64 (.data (encode_frame
        (headerSpec 0x0002 0 [0x01, 0x23, 0x45, 0x67, 0x89, 0x01] 1) []))).2 zeroParameters
        = some ⟨0x0002, ⟨encode_frame
            (headerSpec 0x0002 0 [0x01, 0x23, 0x45, 0x67, 0x89, 0x01] 1) []
            ++ List.replicate 49 0, 15⟩,
          { zeroParameters with respond_flow_num := 1, respond_id := 0x0002 }⟩) ∧
    AcceptNewClient 64 7 (.data (encode_frame
        (headerSpec 0x0002 0 [0x01, 0x23, 0x45, 0x67, 0x89, 0x01] 1) [])) .closed
        ⟨[liveDevice, exampleDevice], 0, [3, 4, 5], [], []⟩
      = some (-1, ⟨[liveDevice, exampleDevice], 0, [3, 4, 5], [], [7]⟩) :=
  ⟨⟨by decide, by decide⟩,
   (first_frame_dispatch 64 7 (.data (encode_frame
      (headerSpec 0x0002 0 [0x01, 0x23, 0x45, 0x67, 0x89, 0x01] 1) [])) .closed
      ⟨[liveDevice, exampleDevice], 0, [3, 4, 5], [], []⟩
      ⟨0x0002, ⟨encode_frame
            (headerSpec 0x0002 0 [0x01, 0x23, 0x45, 0x67, 0x89, 0x01] 1) []
            ++ List.replicate 49 0, 15⟩,
          { zeroParameters with respond_flow_num := 1, respond_id := 0x0002 }⟩
      (by decide) (by decide)).1 (by decide) (by decide)⟩

set_option maxRecDepth 100000 in
/-- C19 fails as stated: with the registry of the two example records and the frame
buffer of 64 bytes, an authentication message of the terminal `012345678901` with the
code `1, 2, 3, 4` as the first message on the new socket 7 is answered with a unified
response (result 0), the socket is bound to the record of the terminal, registered with
the multiplexer and returned. -/
theorem authentication_first_is_admitted :
    AcceptNewClient 64 7 (.data ((authenticationMessage [1, 2, 3, 4]).buffer.take 19)) .closed
        ⟨[liveDevice, exampleDevice], 0, [3, 4, 5], [], []⟩
      = some (7, ⟨[liveDevice, { exampleDevice with socket_fd := 7 }], 1, [3, 4, 5, 7],
          [(7, encode_frame (headerSpec 0x8001 5 [0x01, 0x23, 0x45, 0x67, 0x89, 0x01] 1)
            (be16 2 ++ be16 0x0102 ++ [0]))], []⟩) := by
  decide

/-- The reply statements of `AcceptNewClient` touch the flow counter and the frames
sent, nothing else. -/
theorem acceptReply_some (cap : Nat) (new_sock : Int) (command : Nat)
    (propara : ProtocolParameters) (len0 : Nat) (sv sv1 : Service)
    (h : acceptReply cap new_sock command propara len0 sv = some sv1) :
    sv1.device_list_ = sv.device_list_ ∧ sv1.epoll = sv.epoll ∧ sv1.closed = sv.closed := by
  unfold acceptReply at h
  simp only [Option.bind_eq_bind, Option.bind_eq_some, Option.pure_def,
    Option.some.injEq] at h
  obtain ⟨⟨flow, msg, n⟩, _, rfl⟩ := h
  exact ⟨rfl, rfl, rfl⟩

/-- The authentication case of `AcceptNewClient` either had `respond_result = kSuccess`
or dropped the socket. -/
theorem acceptAuthentication_dropped (cap : Nat) (new_sock : Int)
    (propara : ProtocolParameters) (len0 : Nat) (sv : Service) (r : Int × Service)
    (h : acceptAuthentication cap new_sock propara len0 sv = some r)
    (hs : propara.respond_result % 256 ≠ kSuccess) :
    r.1 = -1 ∧ r.2.epoll = sv.epoll ∧ r.2.device_list_ = sv.device_list_ ∧
      new_sock ∈ r.2.closed := by
  obtain ⟨_, _, _, _, _, hd, _⟩ := acceptAuthentication_some cap new_sock propara len0 sv r h
  obtain ⟨h1, h2, h3, h4⟩ := hd hs
  exact ⟨h1, h3, h4, by rw [h2]; simp⟩

/-- C20, as amended: in a run of `AcceptNewClient` in which both calls of `RecvFrameData`
return 0, the new socket is registered with the multiplexer or bound to a registry
record only if an authentication message was parsed with `respond_result = kSuccess`,
either as the first message or as the second message behind a register message parsed
with `respond_result = kSuccess`; in every other such run the socket is closed, `-1` is
returned and the registry and the multiplexer are left as they were. -/
theorem admitted_only_after_authentication (cap : Nat) (new_sock : Int)
    (first second : RecvOutcome) (sv : Service) (r : Int × Service)
    (h1 : (RecvFrameData cap first).1 = 0) (h2 : (RecvFrameData cap second).1 = 0)
    (hr : AcceptNewClient cap new_sock first second sv = some r) :
    (∃ p1, Jt808FrameParse sv.device_list_ (RecvFrameData cap first).2 zeroParameters
        = some p1 ∧
      ((p1.message_id = UP_AUTHENTICATION ∧ p1.propara.respond_result % 256 = kSuccess) ∨
       (p1.message_id = UP_REGISTER ∧ p1.propara.respond_result % 256 = kSuccess ∧
        ∃ p2, Jt808FrameParse sv.device_list_ (RecvFrameData cap second).2 p1.propara
            = some p2 ∧
          p2.message_id = UP_AUTHENTICATION ∧
          p2.propara.respond_result % 256 = kSuccess))) ∨
    (r.1 = -1 ∧ r.2.epoll = sv.epoll ∧ r.2.device_list_ = sv.device_list_ ∧
      new_sock ∈ r.2.closed) := by
  unfold AcceptNewClient at hr
  simp only [h1, h2, ne_eq, not_true_eq_false, if_false, if_true, Option.bind_eq_bind,
    Option.bind_eq_some] at hr
  obtain ⟨p1, hp1, hr⟩ := hr
  by_cases hreg : p1.message_id = UP_REGISTER
  · rw [if_pos hreg] at hr
    simp only [Option.bind_eq_some] at hr
    obtain ⟨sv1, hsv1, hr⟩ := hr
    obtain ⟨hd1, he1, hc1⟩ := acceptReply_some _ _ _ _ _ _ _ hsv1
    by_cases hs1 : p1.propara.respond_result % 256 = kSuccess
    · rw [if_neg (not_not.mpr hs1)] at hr
      simp only [Option.bind_eq_some] at hr
      obtain ⟨p2, hp2, hr⟩ := hr
      rw [hd1] at hp2
      by_cases ha : p2.message_id = UP_AUTHENTICATION
      · rw [if_neg (not_not.mpr ha)] at hr
        by_cases hs2 : p2.propara.respond_result % 256 = kSuccess
        · exact Or.inl ⟨p1, hp1, Or.inr ⟨hreg, hs1, p2, hp2, ha, hs2⟩⟩
        · obtain ⟨g1, g2, g3, g4⟩ := acceptAuthentication_dropped _ _ _ _ _ _ hr hs2
          exact Or.inr ⟨g1, by rw [g2, he1], by rw [g3, hd1], g4⟩
      · rw [if_pos ha, Option.pure_def, Option.some.injEq, acceptDrop_eq] at hr
        subst hr
        exact Or.inr ⟨rfl, he1, hd1, by simp⟩
    · rw [if_pos hs1, Option.pure_def, Option.some.injEq, acceptDrop_eq] at hr
      subst hr
      exact Or.inr ⟨rfl, he1, hd1, by simp⟩
  · rw [if_neg hreg] at hr
    by_cases ha : p1.message_id = UP_AUTHENTICATION
    · rw [if_pos ha] at hr
      by_cases hs : p1.propara.respond_result % 256 = kSuccess
      · exact Or.inl ⟨p1, hp1, Or.inl ⟨ha, hs⟩⟩
      · exact Or.inr (acceptAuthentication_dropped _ _ _ _ _ _ hr hs)
    · rw [if_neg ha, Option.pure_def, Option.some.injEq, acceptDrop_eq] at hr
      subst hr
      exact Or.inr ⟨rfl, rfl, rfl, by simp⟩

set_option maxRecDepth 100000 in
/-- Witness of C20 as amended: the register message of the terminal `012345678901`
followed by its authentication message with the code `1, 2, 3, 4` on the new socket 7;
both receives return 0 and the run ends with the socket bound and registered. -/
theorem admitted_only_after_authentication_witness :
    ((RecvFrameData 64 (.data (registerMessage.buffer.take 24))).1 = 0 ∧
      (RecvFrameData 64 (.data ((authenticationMessage [1, 2, 3, 4]).buffer.take 19))).1 = 0 ∧
      AcceptNewClient 64 7 (.data (registerMessage.buffer.take 24))
          (.data ((authenticationMessage [1, 2, 3, 4]).buffer.take 19)) exampleService
        = some admittedRun) ∧
    ((∃ p1, Jt808FrameParse exampleService.device_list_
          (RecvFrameData 64 (.data (registerMessage.buffer.take 24))).2 zeroParameters
          = some p1 ∧
        ((p1.message_id = UP_AUTHENTICATION ∧ p1.propara.respond_result % 256 = kSuccess) ∨
         (p1.message_id = UP_REGISTER ∧ p1.propara.respond_result % 256 = kSuccess ∧
          ∃ p2, Jt808FrameParse exampleService.device_list_
              (RecvFrameData 64
                (.data ((authenticationMessage [1, 2, 3, 4]).buffer.take 19))).2 p1.propara
              = some p2 ∧
            p2.message_id = UP_AUTHENTICATION ∧
            p2.propara.respond_result % 256 = kSuccess))) ∨
      (admittedRun.1 = -1 ∧ admittedRun.2.epoll = exampleService.epoll ∧
        admittedRun.2.device_list_ = exampleService.device_list_ ∧
        (7 : Int) ∈ admittedRun.2.closed)) :=
  ⟨⟨by decide, by decide, by decide⟩,
   admitted_only_after_authentication 64 7 (.data (registerMessage.buffer.take 24))
     (.data ((authenticationMessage [1, 2, 3, 4]).buffer.take 19)) exampleService admittedRun
     (by decide) (by decide) (by decide)⟩

set_option maxRecDepth 100000 in
/-- C20 fails as stated: on the registry that holds only the record of the terminal
`012345678901`, with nothing registered with the multiplexer, the authentication message
of that terminal (code `1, 2, 3, 4`) is the first and only message on the new socket 9
(the second receive is never made).  No register message is received, and the run ends
with the socket returned, registered with the multiplexer and bound to the record. -/
theorem admitted_without_register :
    (Jt808FrameParse [exampleDevice] (RecvFrameData 64
        (.data ((authenticationMessage [1, 2, 3, 4]).buffer.take 19))).2 zeroParameters).map
        (fun p => (p.message_id, p.propara.respond_result)) = some (0x0102, kSuccess) ∧
    (AcceptNewClient 64 9 (.data ((authenticationMessage [1, 2, 3, 4]).buffer.take 19)) .again
        ⟨[exampleDevice], 0, [], [], []⟩).map
        (fun r => (r.1, r.2.epoll, r.2.device_list_.map fun d => d.socket_fd, r.2.closed))
      = some (9, [9], [9], []) := by
  decide

theorem bcdPairs_lt : ∀ (n : Nat) (l : List Nat), l.length ≤ n → ∀ b ∈ bcdPairs l, b < 256
  | 0, l, h => by
    have : l = [] := List.length_eq_zero.mp (Nat.le_zero.mp h)
    subst this
    intro b hb
    simp [bcdPairs] at hb
  | n + 1, [], _ => by intro b hb; simp [bcdPairs] at hb
  | n + 1, [_], _ => by intro b hb; simp [bcdPairs] at hb
  | n + 1, hi :: lo :: rest, h => by
    intro b hb
    simp only [bcdPairs, List.mem_cons] at hb
    rcases hb with rfl | hb
    · omega
    · exact bcdPairs_lt n rest (by simp only [List.length_cons] at h; omega) b hb

theorem BcdFromStringCompress_lt (src : List Nat) : ∀ b ∈ BcdFromStringCompress src, b < 256 := by
  unfold BcdFromStringCompress
  split_ifs
  · exact bcdPairs_lt _ _ (le_refl _)
  · exact bcdPairs_lt _ _ (le_refl _)

/-- `PreparePhoneNum` hands out six bytes. -/
theorem PreparePhoneNum_some (src phone : List Nat) (h : PreparePhoneNum src = some phone) :
    phone.length = 6 ∧ ∀ b ∈ phone, b < 256 := by
  unfold PreparePhoneNum memcpy loadBytes at h
  simp only [Option.bind_eq_bind, Option.bind_eq_some] at h
  obtain ⟨p, hp, h⟩ := h
  split_ifs at hp h with h1 h2
  simp only [Option.some.injEq] at hp h
  subst hp
  subst h
  constructor
  · simp only [List.drop_zero, List.length_take]
    omega
  · intro b hb
    have hb2 := List.mem_of_mem_take hb
    simp only [List.drop_zero, List.take_zero, List.nil_append, List.mem_append] at hb2
    rcases hb2 with hb2 | hb2
    · exact BcdFromStringCompress_lt src b (List.mem_of_mem_take hb2)
    · have := List.mem_of_mem_drop hb2
      rw [List.mem_replicate] at this
      omega

theorem memcpy_append_zero (pre src : List Nat) (n z : Nat) (hs : src.length = n)
    (hz : n ≤ z) :
    memcpy (pre ++ List.replicate z 0) pre.length src n
      = some (pre ++ src ++ List.replicate (z - n) 0) := by
  unfold memcpy
  rw [if_pos (by simp only [List.length_append, List.length_replicate]; omega)]
  congr 1
  rw [List.take_left, ← hs, List.take_length, List.drop_append_eq_append_drop]
  simp [hs]

/-- The loop of lines 1735-1743 on tokens that `sscanf` converts: the id buffer is
filled with the ids in wire order, the count is the number of tokens as a `uint8_t`. -/
theorem idBufferLoop_eq : ∀ (toks : List (List Nat)) (ids : List Nat) (u : Option Nat)
    (pre : List Nat) (c : Nat), c < 256 →
    toks.map sscanfHex = ids.map (fun i => some (some i)) →
    idBufferLoop toks u (pre ++ List.replicate (toks.length * 4) 0) pre.length c
      = some (pre ++ ids.flatMap be32, (c + toks.length) % 256)
  | [], ids, u, pre, c, hc, h => by
    have : ids = [] := by
      cases ids with
      | nil => rfl
      | cons _ _ => simp at h
    subst this
    simp [idBufferLoop, Nat.mod_eq_of_lt hc]
  | t :: ts, ids, u, pre, c, hc, h => by
    cases ids with
    | nil => simp at h
    | cons i is =>
      simp only [List.map_cons, List.cons.injEq] at h
      obtain ⟨ht, hts⟩ := h
      unfold idBufferLoop
      simp only [ht, Option.bind_eq_bind, Option.some_bind, le32_EndianSwap32]
      rw [memcpy_append_zero pre (be32 i) 4 _ (be32_length i)
        (by simp only [List.length_cons]; omega), Option.some_bind]
      have e : (ts.length + 1) * 4 - 4 = ts.length * 4 := by omega
      have e2 : pre.length + 4 = (pre ++ be32 i).length := by
        rw [List.length_append, be32_length]
      simp only [List.length_cons]
      rw [e, e2, idBufferLoop_eq ts is (some i) (pre ++ be32 i) ((c + 1) % 256)
        (Nat.mod_lt _ (by norm_num)) hts]
      simp only [List.flatMap_cons, List.append_assoc, Nat.mod_add_mod]
      congr 3
      omega

theorem idListSpec_lt (count : Nat) (buf : List Nat) (hb : ∀ b ∈ buf, b < 256) :
    ∀ b ∈ idListSpec count (some buf), b < 256 := by
  unfold idListSpec
  refine mem_lt_of_append ?_ ?_
  · intro b hb
    rw [List.mem_singleton] at hb
    subst hb
    exact Nat.mod_lt _ (by norm_num)
  · intro b h
    exact hb b (List.mem_of_mem_take h)

/-- The frame of `Jt808FramePack` for the command `DOWN_GETSPECTERMPARA` in a zeroed
buffer. -/
theorem getSpecTermPara_frame (flow cap len0 : Nat) (propara : ProtocolParameters)
    (buf : List Nat) (hbuf : propara.terminal_parameter_id_buffer = some buf)
    (hphone : propara.phone_num.length = 6) (hpb : ∀ b ∈ propara.phone_num, b < 256)
    (hwf : propara.terminal_parameter_id_count * 4 ≤ buf.length)
    (hb : ∀ b ∈ buf, b < 256)
    (hcap : 3 * (14 + 4 * propara.terminal_parameter_id_count) + 1 ≤ cap)
    (h16 : cap < 65536) :
    ∃ msg1 n, Jt808FramePack flow ⟨List.replicate cap 0, len0⟩ DOWN_GETSPECTERMPARA propara
        = some ((flow + 1) % 65536, msg1, n) ∧ msg1.len = n ∧
      msg1.buffer.take n
        = encode_frame
            (headerSpec 0x8106 ((1 + 4 * propara.terminal_parameter_id_count) % 1024)
              propara.phone_num ((flow + 1) % 65536))
            ([propara.terminal_parameter_id_count % 256]
              ++ buf.take (propara.terminal_parameter_id_count * 4)) := by
  have hL : (idListSpec propara.terminal_parameter_id_count
      propara.terminal_parameter_id_buffer).length
      = 1 + 4 * propara.terminal_parameter_id_count := by
    rw [hbuf]
    simp only [idListSpec, Option.getD_some, List.length_append, List.length_singleton,
      List.length_take]
    omega
  have hz := packGetSpecTermPara_zero propara ([0] ++ be16 DOWN_GETSPECTERMPARA)
    (by simp [be16]) 0 (propara.phone_num ++ be16 ((flow + 1) % 65536)) (cap - 13) 13 13
    (by rw [hbuf]; exact hwf) (by norm_num) (by simp [be16_length, hphone])
    (by rw [hL]; omega)
  have e3 : ∀ s, packBody DOWN_GETSPECTERMPARA propara s = packGetSpecTermPara propara s :=
    fun _ => rfl
  rw [← e3] at hz
  obtain ⟨msg1, n, h1, h2, h3⟩ := Jt808FramePack_encode flow cap len0 DOWN_GETSPECTERMPARA
    propara _ (idListSpec propara.terminal_parameter_id_count
      propara.terminal_parameter_id_buffer) (by decide) hphone hpb hz
    (attrSetMsglen_lt _ _ (by norm_num))
    (by rw [hbuf]; exact idListSpec_lt _ _ hb)
    (by rw [hL]; omega) h16
  refine ⟨msg1, n, h1, h2, ?_⟩
  rw [h3, hL, hbuf]
  have ea : attrSetMsglen 0 (1 + 4 * propara.terminal_parameter_id_count)
      = (1 + 4 * propara.terminal_parameter_id_count) % 1024 := by
    simp [attrSetMsglen]
  rw [ea]
  rfl

theorem flatMap_be32_length (ids : List Nat) : (ids.flatMap be32).length = 4 * ids.length := by
  induction ids with
  | nil => rfl
  | cons i is ih => simp only [List.flatMap_cons, List.length_append, be32_length, ih,
      List.length_cons]; omega

theorem flatMap_be32_lt (ids : List Nat) : ∀ b ∈ ids.flatMap be32, b < 256 := by
  intro b hb
  rw [List.mem_flatMap] at hb
  obtain ⟨i, _, hi⟩ := hb
  exact be32_lt i b hi

/-- The frame that `DealGetTerminalParameterRequest` builds from a vector of arguments
that is not empty and whose elements `sscanf` converts to the numbers `ids` (taken from
the back of the vector): the count byte is the number of arguments as a `uint8_t`, and as
many ids follow as the count byte says. -/
theorem DealGetTerminalParameterRequest_frame (flow cap : Nat) (device : DeviceNode)
    (va_vec : List (List Nat)) (ids phone : List Nat)
    (hphone : PreparePhoneNum device.phone_num = some phone) (hne : va_vec ≠ [])
    (hscan : va_vec.reverse.map sscanfHex = ids.map (fun i => some (some i)))
    (hcap : 3 * (14 + 4 * (ids.length % 256)) + 1 ≤ cap) (h16 : cap < 65536) :
    ∃ msg n, DealGetTerminalParameterRequest flow cap device va_vec
        = some ((flow + 1) % 65536, msg, n) ∧ msg.len = n ∧
      msg.buffer.take n
        = encode_frame
            (headerSpec 0x8106 ((1 + 4 * (ids.length % 256)) % 1024) phone
              ((flow + 1) % 65536))
            ([ids.length % 256] ++ (ids.flatMap be32).take (ids.length % 256 * 4)) := by
  obtain ⟨hp6, hpb⟩ := PreparePhoneNum_some _ _ hphone
  have hlen : va_vec.reverse.length = ids.length := by
    have := congrArg List.length hscan
    simpa using this
  have hloop := idBufferLoop_eq va_vec.reverse ids none [] 0 (by norm_num) hscan
  simp only [List.nil_append, List.length_nil, Nat.zero_add, List.length_reverse] at hloop
  rw [List.length_reverse] at hlen
  unfold DealGetTerminalParameterRequest
  simp only [hphone, Option.bind_eq_bind, Option.some_bind, if_neg hne, hloop]
  rw [hlen]
  have h := getSpecTermPara_frame flow cap 0
    { zeroParameters with
      phone_num := phone, terminal_parameter_id_count := ids.length % 256,
      terminal_parameter_id_buffer := some (ids.flatMap be32) }
    (ids.flatMap be32) rfl hp6 hpb
    (by
      show ids.length % 256 * 4 ≤ (ids.flatMap be32).length
      rw [flatMap_be32_length]
      have := Nat.mod_le ids.length 256
      omega)
    (flatMap_be32_lt ids) hcap h16
  simp only [Nat.mod_mod] at h
  exact h

/-- C12, as amended: for an operator request `<phone> getterminalparameter` with `n`
arguments, `1 ≤ n ≤ 255`, that `sscanf` converts to the ids `id1..idn`, in every zeroed
frame buffer with room for the frame, `DealGetTerminalParameterRequest` builds the frame
0x8106 whose body is the count byte `n` followed by `id1..idn` as big-endian `u32` in the
order given, with `msg_len = 1 + 4 n`; and for `get startup` (in a buffer with room for
five ids) the body is the count byte 5 followed by the ids 0xF000, 0xF001, 0xF002,
0xF003, 0xF004 in that order. -/
theorem getspectermpara_body (flow cap : Nat) (device : DeviceNode)
    (args : List (List Nat)) (ids phone : List Nat)
    (hphone : PreparePhoneNum device.phone_num = some phone)
    (hn : 1 ≤ ids.length) (h255 : ids.length ≤ 255)
    (hscan : args.map sscanfHex = ids.map (fun i => some (some i)))
    (hcap : 3 * (14 + 4 * ids.length) + 1 ≤ cap) (h16 : cap < 65536) :
    (∃ msg n, parseCommandGetTerminalParameter flow cap device args
        = some ((flow + 1) % 65536, msg, n) ∧ msg.len = n ∧
      msg.buffer.take n
        = encode_frame (headerSpec 0x8106 (1 + 4 * ids.length) phone ((flow + 1) % 65536))
            ([ids.length] ++ ids.flatMap be32)) ∧
    (103 ≤ cap →
      ∃ msg n, DealGetStartupRequest flow cap device
          = some ((flow + 1) % 65536, msg, n) ∧ msg.len = n ∧
        msg.buffer.take n
          = encode_frame (headerSpec 0x8106 21 phone ((flow + 1) % 65536))
              ([5] ++ be32 0xF000 ++ be32 0xF001 ++ be32 0xF002 ++ be32 0xF003
                ++ be32 0xF004)) := by
  constructor
  · have hne : args.reverse ≠ [] := by
      intro h
      have h2 : args = [] := by simpa using h
      subst h2
      have : ids = [] := by
        cases ids with
        | nil => rfl
        | cons _ _ => simp at hscan
      subst this
      simp at hn
    have hm : ids.length % 256 = ids.length := Nat.mod_eq_of_lt (by omega)
    obtain ⟨msg, n, h1, h2, h3⟩ := DealGetTerminalParameterRequest_frame flow cap device
      args.reverse ids phone hphone hne (by rw [List.reverse_reverse]; exact hscan)
      (by rw [hm]; exact hcap) h16
    refine ⟨msg, n, h1, h2, ?_⟩
    rw [h3, hm, Nat.mod_eq_of_lt (by omega : 1 + 4 * ids.length < 1024)]
    congr 2
    rw [List.take_of_length_le]
    rw [flatMap_be32_length]
    omega
  · intro h103
    obtain ⟨msg, n, h1, h2, h3⟩ := DealGetTerminalParameterRequest_frame flow cap device
      (PrepareParemeterIdList []
        [STARTUPGPS, STARTUPCDRADIO, STARTUPNTRIPCORS, STARTUPNTRIPSERV, STARTUPJT808SERV])
      [0xF000, 0xF001, 0xF002, 0xF003, 0xF004] phone hphone (by decide) (by decide)
      (by simp only [List.length_cons, List.length_nil]; omega) h16
    exact ⟨msg, n, h1, h2, h3⟩

set_option maxRecDepth 100000 in
/-- Witness of C12 as amended: the request `012345678902 getterminalparameter F030 1
f031` in a buffer of 256 bytes. -/
theorem getspectermpara_body_witness :
    (PreparePhoneNum liveDevice.phone_num = some [0x01, 0x23, 0x45, 0x67, 0x89, 0x02] ∧
      [[70, 48, 51, 48], [49], [102, 48, 51, 49]].map sscanfHex
        = [0xF030, 1, 0xF031].map (fun i => some (some i))) ∧
    ((∃ msg n, parseCommandGetTerminalParameter 0 256 liveDevice
          [[70, 48, 51, 48], [49], [102, 48, 51, 49]]
          = some ((0 + 1) % 65536, msg, n) ∧ msg.len = n ∧
        msg.buffer.take n
          = encode_frame (headerSpec 0x8106 (1 + 4 * [0xF030, 1, 0xF031].length)
              [0x01, 0x23, 0x45, 0x67, 0x89, 0x02] ((0 + 1) % 65536))
              ([[0xF030, 1, 0xF031].length] ++ [0xF030, 1, 0xF031].flatMap be32)) ∧
      (103 ≤ 256 →
        ∃ msg n, DealGetStartupRequest 0 256 liveDevice
            = some ((0 + 1) % 65536, msg, n) ∧ msg.len = n ∧
          msg.buffer.take n
            = encode_frame (headerSpec 0x8106 21 [0x01, 0x23, 0x45, 0x67, 0x89, 0x02]
                ((0 + 1) % 65536))
                ([5] ++ be32 0xF000 ++ be32 0xF001 ++ be32 0xF002 ++ be32 0xF003
                  ++ be32 0xF004))) :=
  ⟨⟨by decide, by decide⟩,
   getspectermpara_body 0 256 liveDevice [[70, 48, 51, 48], [49], [102, 48, 51, 49]]
     [0xF030, 1, 0xF031] [0x01, 0x23, 0x45, 0x67, 0x89, 0x02] (by decide) (by decide)
     (by decide) (by decide) (by decide) (by decide)⟩

set_option maxRecDepth 100000 in
/-- C12 fails as stated: for the request `012345678902 getterminalparameter 1 1 ... 1`
with 256 arguments (`n = 256`), in a buffer of 64 bytes, the frame 0x8106 that
`DealGetTerminalParameterRequest` builds has `msg_len = 1` and the body `00`: the count
byte is 0 and no id follows. -/
theorem getspectermpara_count_wraps :
    packedFrame (parseCommandGetTerminalParameter 0 64 liveDevice (List.replicate 256 [49]))
      = some [0x7E, 0x81, 0x06, 0x00, 0x01, 0x01, 0x23, 0x45, 0x67, 0x89, 0x02, 0x00, 0x01,
          0x00, 0x0C, 0x7E] := by
  obtain ⟨msg, n, h1, _, h3⟩ := DealGetTerminalParameterRequest_frame 0 64 liveDevice
    (List.replicate 256 [49]).reverse (List.replicate 256 1)
    [0x01, 0x23, 0x45, 0x67, 0x89, 0x02] (by decide)
    (by rw [List.reverse_replicate]; exact fun h => by
          have := congrArg List.length h
          simp at this)
    (by rw [List.reverse_reverse, List.map_replicate, List.map_replicate]
        exact congrArg (List.replicate 256) (by decide))
    (by rw [List.length_replicate]; decide) (by decide)
  unfold parseCommandGetTerminalParameter
  rw [h1]
  show some (msg.buffer.take n) = _
  rw [h3, List.length_replicate]
  decide

theorem rd32_some (m : List Nat) (p : Nat) (h : p + 4 ≤ m.length) : ∃ v, rd32 m p = some v := by
  obtain ⟨a, ha⟩ := load_some m p (by omega)
  obtain ⟨b, hb⟩ := load_some m (p + 1) (by omega)
  obtain ⟨c, hc⟩ := load_some m (p + 2) (by omega)
  obtain ⟨d, hd⟩ := load_some m (p + 3) (by omega)
  exact ⟨a + 256 * b + 65536 * c + 16777216 * d, by simp [rd32, ha, hb, hc, hd]⟩

/-- `ParsePositionReport` on a message whose buffer holds the bytes it reads: the speed
it prints is the word at the bytes 31 and 32 of the buffer (body offset 18), read
big-endian, times ten. -/
theorem ParsePositionReport_speed (msg : MessageData) (h : 49 ≤ msg.buffer.length) :
    ∃ p w, ParsePositionReport msg = some p ∧ (rd16 msg.buffer 31).map EndianSwap16 = some w ∧
      p.speed = (w : ℚ) * 10 := by
  obtain ⟨ph, hph⟩ : ∃ v, loadBytes msg.buffer 5 6 = some v :=
    ⟨_, loadBytes_some _ _ _ (by omega)⟩
  obtain ⟨al, hal⟩ := rd32_some msg.buffer 13 (by omega)
  obtain ⟨st, hst⟩ := rd32_some msg.buffer 17 (by omega)
  obtain ⟨la, hla⟩ := rd32_some msg.buffer 21 (by omega)
  obtain ⟨lo, hlo⟩ := rd32_some msg.buffer 25 (by omega)
  obtain ⟨alt, hat⟩ := rd16_some msg.buffer 29 (by omega)
  obtain ⟨sp, hsp⟩ := rd16_some msg.buffer 31 (by omega)
  obtain ⟨br, hbr⟩ := rd16_some msg.buffer 33 (by omega)
  obtain ⟨ts, hts⟩ : ∃ v, loadBytes msg.buffer 35 6 = some v :=
    ⟨_, loadBytes_some _ _ _ (by omega)⟩
  obtain ⟨s43, h43⟩ := load_some msg.buffer 43 (by omega)
  obtain ⟨s48, h48⟩ := load_some msg.buffer 48 (by omega)
  unfold ParsePositionReport
  simp only [Option.bind_eq_bind, hph, hal, hst, hla, hlo, hat, hsp, hbr, hts, h43, h48,
    Option.some_bind, Option.map_some']
  by_cases h1 : msg.len ≥ 46 <;> by_cases h2 : msg.len ≥ 51 <;>
    simp [h1, h2]

set_option maxRecDepth 100000 in
/-- C22, at the failing input: for the position report `positionReportFrame`, whose speed
word at body offset 18 (bytes 31 and 32 of the buffer) is 420, that is 42.0 km/h in
units of 0.1 km/h, `ParsePositionReport` gives the speed 4200: line 160 multiplies the
word by 10. -/
theorem position_speed_multiplied :
    (rd16 (positionReportFrame ++ List.replicate 21 0) 31).map EndianSwap16 = some 420 ∧
    ∃ p, ParsePositionReport ⟨positionReportFrame ++ List.replicate 21 0, 43⟩ = some p ∧
      p.speed = 4200 ∧ p.speed ≠ 420 / 10 := by
  have hw : (rd16 (positionReportFrame ++ List.replicate 21 0) 31).map EndianSwap16
      = some 420 := by decide
  obtain ⟨p, w, hp, hw2, hs⟩ := ParsePositionReport_speed
    ⟨positionReportFrame ++ List.replicate 21 0, 43⟩ (by decide)
  simp only [] at hw2
  rw [hw, Option.some.injEq] at hw2
  subst hw2
  refine ⟨hw, p, hp, ?_, ?_⟩
  · rw [hs]; norm_num
  · rw [hs]; norm_num

set_option maxRecDepth 100000 in
/-- C21, at the failing input: the service has one record, the terminal `012345678902`
on the socket 5, and the envelope of `Run` is as line 511 leaves it.  For the position
report `positionReportFrame` of that terminal (flow number 7) the reply is the frame
0x8001 with the body `00 07 02 00 00`, and the phone number in its header is
`00 00 00 00 00 00`, not that of the terminal: the position-report case of
`Jt808FrameParse` does not store the phone number of the header in the envelope. -/
theorem position_reply_phone_zero :
    (runTerminalEvent 64 0 [liveDevice] zeroParameters (.data positionReportFrame) true).map
        (fun e => (e.sent, e.dropped, e.propara.phone_num))
      = some (some (encode_frame (headerSpec 0x8001 5 [0, 0, 0, 0, 0, 0] 1)
          (be16 7 ++ be16 0x0200 ++ [kSuccess])), false, [0, 0, 0, 0, 0, 0]) ∧
    BcdFromStringCompress liveDevice.phone_num = [0x01, 0x23, 0x45, 0x67, 0x89, 0x02] ∧
    (positionReportFrame.drop 5).take 6 = [0x01, 0x23, 0x45, 0x67, 0x89, 0x02] := by
  decide

/-- The loop of lines 1831-1863 at an argument for which the round ends in the
`continue` of line 1854: the vector is not shortened, so no amount of rounds leaves the
loop. -/
theorem setParaRound_continue (arg : List Nat) (u32val : Nat)
    (h : setParaArg arg u32val = some none) :
    ∀ (fuel : Nat) (va_vec : List (List Nat)) (data_len : Nat) (list : List TerminalParameter),
      setParaRound fuel (arg :: va_vec) data_len u32val list = none := by
  intro fuel
  induction fuel with
  | zero => intro _ _ _; rfl
  | succ n ih =>
    intro va_vec data_len list
    rw [setParaRound]
    simp only [h, Option.bind_eq_bind, Option.some_bind]
    exact ih va_vec data_len list

/-- When `sscanf` converts the id of the argument, the round does not read the value
that `u32val` had before. -/
theorem setParaArg_converted (arg : List Nat) (id : Nat) (w : Option (List Nat)) (u : Nat)
    (h : sscanfHexString arg = some (some id, w)) : setParaArg arg u = setParaArg arg 0 := by
  unfold setParaArg
  simp only [h, Option.bind_eq_bind, Option.some_bind, Option.getD_some]

set_option maxRecDepth 100000 in
/-- The argument `9999:1` names the id `0x9999`, which is outside the parameter
registry: the round of the loop ends in the `continue`, whatever `u32val` holds. -/
theorem setParaArg_unknown_id (u32val : Nat) :
    setParaArg [57, 57, 57, 57, 58, 49] u32val = some none := by
  rw [setParaArg_converted _ 0x9999 (some [49]) u32val (by decide)]
  decide

/-- C25, at the failing input: for the command `<phone> setterminalparameter 9999:1 ...`,
whose first argument names the id `0x9999` outside the parameter registry, whatever
arguments follow and whatever the terminal sends, `DealSetTerminalParameterRequest` has
no result for any bound on the number of rounds: the `continue` of line 1854 leaves the
argument at the back of the vector and the loop of line 1831 never ends. -/
theorem setterminalparameter_unknown_id_loops (fuel cap flow : Nat)
    (device_list_ : List DeviceNode) (device : DeviceNode) (rest : List (List Nat))
    (recvs : List RecvOutcome) :
    parseCommandSetTerminalParameter fuel cap flow device_list_ device
      ([57, 57, 57, 57, 58, 49] :: rest) recvs = none := by
  unfold parseCommandSetTerminalParameter DealSetTerminalParameterRequest
  simp only [List.reverse_reverse]
  cases fuel with
  | zero => rfl
  | succ n =>
    rw [setParaLoop]
    simp only [Option.bind_eq_bind,
      setParaRound_continue _ 0 (setParaArg_unknown_id 0) (n + 1) rest 0 [], Option.none_bind]

/-- Lines 994-1008 on a received frame: the buffer holds the delimiter, the escaped bytes
of the header and of `Y`, the delimiter and a byte `t` other than `0x7D`, and `msg.len`
counts the frame.  The message is unescaped to the header, `Y`, the delimiter and `t`;
the id, the attribute word and the flow number are those of the header. -/
theorem parseHead_frame (p : ProtocolParameters) (c a f : Nat) (phone Y T : List Nat)
    (t : Nat) (hphone : phone.length = 6) (ht : t ≠ 0x7D)
    (h16 : (escapeSpec (be16 c ++ be16 a ++ phone ++ be16 f ++ Y)).length + 2 < 65535) :
    ∃ S u,
      parseHead ⟨0x7E :: (escapeSpec (be16 c ++ be16 a ++ phone ++ be16 f ++ Y)
          ++ 0x7E :: t :: T),
          (escapeSpec (be16 c ++ be16 a ++ phone ++ be16 f ++ Y)).length + 2⟩ p
        = some (c % 65536,
            { msg := ⟨0x7E :: ((be16 c ++ be16 a ++ phone ++ be16 f ++ Y) ++ ([0x7E, t] ++ S)),
                      (be16 c ++ be16 a ++ phone ++ be16 f ++ Y).length + 2⟩,
              propara := { p with respond_flow_num := f % 65536, respond_id := c % 65536 },
              msg_body := if attrPackage (a % 65536) = 1 then MSGBODY_PACKAGE_POS
                          else MSGBODY_NOPACKAGE_POS,
              msgbody_attribute := a % 65536,
              u16val := u }) := by
  have hrd0 : ∀ tl, (rd16 ((be16 c ++ be16 a ++ phone ++ be16 f ++ Y) ++ tl) 0).map
      EndianSwap16 = some (c % 65536) := by
    intro tl
    have := rd16_be16_at [] (be16 a ++ phone ++ be16 f ++ Y ++ tl) c
    simpa using this
  have hrd2 : ∀ tl, (rd16 ((be16 c ++ be16 a ++ phone ++ be16 f ++ Y) ++ tl) 2).map
      EndianSwap16 = some (a % 65536) := by
    intro tl
    have := rd16_be16_at (be16 c) (phone ++ be16 f ++ Y ++ tl) a
    simpa [be16_length] using this
  have hrd10 : ∀ tl, (rd16 ((be16 c ++ be16 a ++ phone ++ be16 f ++ Y) ++ tl) 10).map
      EndianSwap16 = some (f % 65536) := by
    intro tl
    have := rd16_be16_at (be16 c ++ be16 a ++ phone) (Y ++ tl) f
    simpa [be16_length, hphone] using this
  have hXl : 12 ≤ (be16 c ++ be16 a ++ phone ++ be16 f ++ Y).length := by
    simp [be16_length, hphone]; omega
  generalize be16 c ++ be16 a ++ phone ++ be16 f ++ Y = X at hrd0 hrd2 hrd10 hXl h16 ⊢
  have hE := escapeSpec_length_le X
  have hun := unescapeList_frame_tail X T t ht
  have hre := ReverseEscape_eq (escapeSpec X ++ 0x7E :: t :: T) (X ++ [0x7E, t])
    ((escapeSpec X).length + 2) (by omega) (by simp) hun
  generalize hS : (escapeSpec X ++ 0x7E :: t :: T).drop (X ++ [0x7E, t]).length = S at hre
  have hsrc : X ++ [0x7E, t] ++ S = X ++ ([0x7E, t] ++ S) := by simp
  rw [hsrc] at hre
  obtain ⟨id, flow, a1, h1, h2, h3, hhead⟩ := parseHead_eq 0x7E
    (escapeSpec X ++ 0x7E :: t :: T) ((escapeSpec X).length + 2) p _ _ hre
    (by simp; omega)
  rw [hrd0] at h1
  rw [hrd10] at h2
  rw [hrd2] at h3
  simp only [Option.some.injEq] at h1 h2 h3
  subst h1 h2 h3
  refine ⟨S, (X ++ ([0x7E, t] ++ S)).getD 0 0 + 256 * (X ++ ([0x7E, t] ++ S)).getD 1 0, ?_⟩
  rw [hhead]
  simp

theorem swap32_bytes (b0 b1 b2 b3 : Nat) (h0 : b0 < 256) (h1 : b1 < 256) (h2 : b2 < 256)
    (h3 : b3 < 256) :
    ((b0 + 256 * b1 + 65536 * b2 + 16777216 * b3) % 256) * 16777216
      + ((b0 + 256 * b1 + 65536 * b2 + 16777216 * b3) / 256 % 256) * 65536
      + ((b0 + 256 * b1 + 65536 * b2 + 16777216 * b3) / 65536 % 256) * 256
      + (b0 + 256 * b1 + 65536 * b2 + 16777216 * b3) / 16777216 % 256
      = b0 * 16777216 + b1 * 65536 + b2 * 256 + b3 := by
  have e0 : (b0 + 256 * b1 + 65536 * b2 + 16777216 * b3) % 256 = b0 := by omega
  have e1 : (b0 + 256 * b1 + 65536 * b2 + 16777216 * b3) / 256 % 256 = b1 := by omega
  have e2 : (b0 + 256 * b1 + 65536 * b2 + 16777216 * b3) / 65536 % 256 = b2 := by omega
  have e3 : (b0 + 256 * b1 + 65536 * b2 + 16777216 * b3) / 16777216 % 256 = b3 := by omega
  rw [e0, e1, e2, e3]

theorem rd32_be32_at (P tl : List Nat) (x : Nat) :
    (rd32 (P ++ be32 x ++ tl) P.length).map EndianSwap32 = some (x % 4294967296) := by
  have h1 : load (P ++ be32 x ++ tl) P.length = some (x / 16777216 % 256) := by
    have := load_append P (x / 16777216 % 256)
      (x / 65536 % 256 :: x / 256 % 256 :: x % 256 :: tl)
    simpa [be32] using this
  have h2 : load (P ++ be32 x ++ tl) (P.length + 1) = some (x / 65536 % 256) := by
    have := load_append (P ++ [x / 16777216 % 256]) (x / 65536 % 256)
      (x / 256 % 256 :: x % 256 :: tl)
    simpa [be32] using this
  have h3 : load (P ++ be32 x ++ tl) (P.length + 2) = some (x / 256 % 256) := by
    have := load_append (P ++ [x / 16777216 % 256, x / 65536 % 256]) (x / 256 % 256)
      (x % 256 :: tl)
    simpa [be32] using this
  have h4 : load (P ++ be32 x ++ tl) (P.length + 3) = some (x % 256) := by
    have := load_append (P ++ [x / 16777216 % 256, x / 65536 % 256, x / 256 % 256])
      (x % 256) tl
    simpa [be32] using this
  simp only [rd32, h1, h2, h3, h4, Option.some_bind, Option.map_some', Option.some.injEq]
  rw [EndianSwap32_eq]
  have h0 : x % 256 < 256 := Nat.mod_lt _ (by norm_num)
  have h1 : x / 256 % 256 < 256 := Nat.mod_lt _ (by norm_num)
  have h2 : x / 65536 % 256 < 256 := Nat.mod_lt _ (by norm_num)
  have h3 : x / 16777216 % 256 < 256 := Nat.mod_lt _ (by norm_num)
  have hx : x % 4294967296 = (x / 16777216 % 256) * 16777216 + (x / 65536 % 256) * 65536
      + (x / 256 % 256) * 256 + x % 256 := by omega
  rw [hx]
  exact swap32_bytes _ _ _ _ h3 h2 h1 h0

/-- What the reads of one round of the loop of lines 1128-1157 give at a wire tuple. -/
theorem wireParameter_reads (pre post : List Nat) (t : WireParameter)
    (hid : t.id < 4294967296) :
    (rd32 (pre ++ wireParameterSpec t ++ post) pre.length).map EndianSwap32 = some t.id ∧
    load (pre ++ wireParameterSpec t ++ post) (pre.length + 4) = some t.value.length ∧
    loadBytes (pre ++ wireParameterSpec t ++ post) (pre.length + 4 + 1) t.value.length
      = some t.value := by
  refine ⟨?_, ?_, ?_⟩
  · have := rd32_be32_at pre ([t.value.length] ++ t.value ++ post) t.id
    rw [Nat.mod_eq_of_lt hid] at this
    simpa [wireParameterSpec] using this
  · have := load_append (pre ++ be32 t.id) t.value.length (t.value ++ post)
    simpa [wireParameterSpec, be32_length] using this
  · have hl : pre.length + 4 + 1 = (pre ++ be32 t.id ++ [t.value.length]).length := by
      simp [be32_length]
    rw [loadBytes_some _ _ _ (by simp [wireParameterSpec, be32_length]; omega), hl]
    simp [wireParameterSpec]

theorem parameterType_cases (id : Nat) :
    GetParameterTypeByParameterId id = kByteType ∨ GetParameterTypeByParameterId id = kWordType ∨
    GetParameterTypeByParameterId id = kDwordType ∨
    GetParameterTypeByParameterId id = kStringType ∨
    GetParameterTypeByParameterId id = kUnknowType := by
  unfold GetParameterTypeByParameterId
  simp only []
  split_ifs <;> simp

theorem strlen_append_zero (v : List Nat) (z : Nat) (hv : 0 ∉ v) (hz : 0 < z) :
    strlen (v ++ List.replicate z 0) = some v.length := by
  unfold strlen
  have hmem : 0 ∈ v ++ List.replicate z 0 := by
    rw [List.mem_append]
    right
    rw [List.mem_replicate]
    exact ⟨by omega, rfl⟩
  rw [if_pos hmem]
  congr 1
  obtain ⟨z1, rfl⟩ : ∃ z1, z = z1 + 1 := ⟨z - 1, by omega⟩
  rw [List.replicate_succ, List.takeWhile_append_of_pos]
  · simp
  · intro x hx
    have : x ≠ 0 := fun h => hv (h ▸ hx)
    simpa using this

/-- The string case of the loop of lines 1128-1157 and of `AddParameterNodeIntoList`. -/
theorem parsedParameter_string (b : List Nat) (m : Nat) (t : WireParameter)
    (hwf : t.wellFormed) (hty : GetParameterTypeByParameterId t.id = kStringType)
    (hsrc : loadBytes b m t.value.length = some t.value) (u16val u32val : Nat)
    (l : List TerminalParameter) :
    ∃ pv u, parseParaValue b m t.id t.value.length u16val u32val = some (pv, u) ∧
      AddParameterNodeIntoList (some l) t.id pv = some (some (l ++ [parsedParameter t])) := by
  obtain ⟨hid, hb, h255, _, _, _, hs⟩ := hwf
  have h0 := hs hty
  have hZl : (List.replicate 256 0).length = 256 := List.length_replicate _ _
  have hZd : (List.replicate 256 0).drop t.value.length
      = List.replicate (256 - t.value.length) 0 := List.drop_replicate _ _ _
  have hpl : (t.value ++ List.replicate (256 - t.value.length) 0).length = 256 := by
    rw [List.length_append, List.length_replicate]; omega
  refine ⟨t.value ++ List.replicate (256 - t.value.length) 0, u16val, ?_, ?_⟩
  · unfold parseParaValue
    simp only [hty, hsrc, Option.bind_eq_bind, Option.some_bind]
    rw [if_neg (by decide), if_neg (by decide), if_pos (by decide),
      memcpy_zero _ _ _ (le_refl _) (by rw [hZl]; omega), hZd, List.take_length]
    rfl
  · unfold AddParameterNodeIntoList parsedParameter decodedParameterSpec
    simp only [Nat.mod_eq_of_lt hid, hty, Option.bind_eq_bind]
    rw [if_pos True.intro, strlen_append_zero _ _ h0 (by omega)]
    simp only [Option.map_some', Option.some_bind,
      Nat.mod_eq_of_lt (by omega : t.value.length < 256)]
    rw [memcpy_zero _ _ _ (by rw [hpl]; omega) (by rw [hZl]; omega), hZd,
      List.take_left, if_neg (by decide), if_neg (by decide), if_neg (by decide)]
    rfl

/-- The byte case of the loop of lines 1128-1157 and of `AddParameterNodeIntoList`. -/
theorem parsedParameter_byte (b : List Nat) (m : Nat) (t : WireParameter)
    (hwf : t.wellFormed) (hty : GetParameterTypeByParameterId t.id = kByteType)
    (hsrc : loadBytes b m t.value.length = some t.value) (u16val u32val : Nat)
    (l : List TerminalParameter) :
    ∃ pv u, parseParaValue b m t.id t.value.length u16val u32val = some (pv, u) ∧
      AddParameterNodeIntoList (some l) t.id pv = some (some (l ++ [parsedParameter t])) := by
  obtain ⟨hid, hb, h255, h1, _, _, _⟩ := hwf
  have hl := h1 hty
  have hZl : (List.replicate 256 0).length = 256 := List.length_replicate _ _
  have hZd : (List.replicate 256 0).drop t.value.length
      = List.replicate (256 - t.value.length) 0 := List.drop_replicate _ _ _
  have hpl : (t.value ++ List.replicate (256 - t.value.length) 0).length = 256 := by
    rw [List.length_append, List.length_replicate]; omega
  refine ⟨t.value ++ List.replicate (256 - t.value.length) 0, u16val, ?_, ?_⟩
  · unfold parseParaValue
    simp only [hty, hsrc, Option.bind_eq_bind, Option.some_bind]
    rw [if_neg (by decide), if_neg (by decide), if_pos (by decide),
      memcpy_zero _ _ _ (le_refl _) (by rw [hZl]; omega), hZd, List.take_length]
    rfl
  · unfold AddParameterNodeIntoList parsedParameter decodedParameterSpec
    simp only [Nat.mod_eq_of_lt hid, hty, Option.bind_eq_bind]
    rw [if_neg (by decide)]
    have hg : GetParameterLengthByParameterType kByteType = t.value.length := by
      rw [hl]; rfl
    rw [hg]
    simp only [Option.some_bind]
    rw [memcpy_zero _ _ _ (by rw [hpl]; omega) (by rw [hZl]; omega), hZd,
      List.take_left, if_neg (by decide), if_neg (by decide), if_neg (by decide)]
    rfl

/-- The case of an id outside the registry: the value is not copied and the length of
the tuple is 0. -/
theorem parsedParameter_unknown (b : List Nat) (m : Nat) (t : WireParameter)
    (hwf : t.wellFormed) (hty : GetParameterTypeByParameterId t.id = kUnknowType)
    (u16val u32val : Nat) (l : List TerminalParameter) :
    ∃ pv u, parseParaValue b m t.id t.value.length u16val u32val = some (pv, u) ∧
      AddParameterNodeIntoList (some l) t.id pv = some (some (l ++ [parsedParameter t])) := by
  obtain ⟨hid, _, _, _, _, _, _⟩ := hwf
  have hZl : (List.replicate 256 0).length = 256 := List.length_replicate _ _
  refine ⟨List.replicate 256 0, u16val, ?_, ?_⟩
  · unfold parseParaValue
    simp only [hty]
    rw [if_neg (by decide), if_neg (by decide), if_neg (by decide)]
    rfl
  · unfold AddParameterNodeIntoList parsedParameter
    simp only [Nat.mod_eq_of_lt hid, hty, Option.bind_eq_bind]
    rw [if_neg (by decide), if_pos True.intro]
    have hg : GetParameterLengthByParameterType kUnknowType = 0 := rfl
    rw [hg]
    simp only [Option.some_bind]
    rw [memcpy_zero _ _ _ (Nat.zero_le _) (Nat.zero_le _), List.take_zero, List.drop_zero,
      List.nil_append]
    rfl

theorem swap16_bytes (v0 v1 : Nat) (h0 : v0 < 256) (h1 : v1 < 256) :
    EndianSwap16 (v0 + 256 * v1) = v0 * 256 + v1 := by
  rw [EndianSwap16_eq]
  have e0 : (v0 + 256 * v1) % 256 = v0 := by omega
  have e1 : (v0 + 256 * v1) / 256 % 256 = v1 := by omega
  rw [e0, e1]

theorem swap32_bytes4 (v0 v1 v2 v3 : Nat) (h0 : v0 < 256) (h1 : v1 < 256) (h2 : v2 < 256)
    (h3 : v3 < 256) :
    EndianSwap32 (v0 + 256 * v1 + 65536 * v2 + 16777216 * v3)
      = ((v0 * 256 + v1) * 256 + v2) * 256 + v3 := by
  rw [EndianSwap32_eq, swap32_bytes _ _ _ _ h0 h1 h2 h3]
  ring

/-- The word case of the loop of lines 1128-1157 and of `AddParameterNodeIntoList`. -/
theorem parsedParameter_word (b : List Nat) (m : Nat) (t : WireParameter)
    (hwf : t.wellFormed) (hty : GetParameterTypeByParameterId t.id = kWordType)
    (hsrc : loadBytes b m t.value.length = some t.value) (u16val u32val : Nat)
    (l : List TerminalParameter) :
    ∃ pv u, parseParaValue b m t.id t.value.length u16val u32val = some (pv, u) ∧
      AddParameterNodeIntoList (some l) t.id pv = some (some (l ++ [parsedParameter t])) := by
  obtain ⟨hid, hb, h255, _, h2, _, _⟩ := hwf
  have hl := h2 hty
  obtain ⟨id, v⟩ := t
  simp only at hid hb hl hty hsrc ⊢
  obtain ⟨v0, v, rfl⟩ := @exists_cons_of_length_pos v (by omega)
  obtain ⟨v1, v, rfl⟩ := @exists_cons_of_length_pos v (by simp at hl; omega)
  have hv : v = [] := by
    cases v with
    | nil => rfl
    | cons _ _ => simp at hl
  subst hv
  have hv0 : v0 < 256 := hb v0 (by simp)
  have hv1 : v1 < 256 := hb v1 (by simp)
  have hZl : (List.replicate 256 0).length = 256 := List.length_replicate _ _
  have hZd : (List.replicate 256 0).drop 2 = List.replicate 254 0 := List.drop_replicate _ _ _
  refine ⟨le16 (v0 * 256 + v1) ++ List.replicate 254 0, v0 * 256 + v1, ?_, ?_⟩
  · unfold parseParaValue
    simp only [hty, Option.bind_eq_bind]
    rw [if_pos True.intro]
    simp only [List.length_cons, List.length_nil] at hsrc ⊢
    rw [hsrc]
    simp only [Option.some_bind]
    rw [memcpy_zero _ _ _ (by simp) (by simp [le16])]
    simp only [le16, List.take_succ_cons, List.take_zero, List.drop_succ_cons, List.drop_zero,
      List.append_nil, rd16, load, List.getElem?_cons_zero, List.getElem?_cons_succ,
      Option.some_bind, List.cons_append, List.nil_append]
    rw [swap16_bytes v0 v1 hv0 hv1, memcpy_zero _ _ _ (by simp) (by rw [hZl]; omega), hZd]
    rfl
  · unfold AddParameterNodeIntoList parsedParameter decodedParameterSpec
    simp only [Nat.mod_eq_of_lt hid, hty, Option.bind_eq_bind]
    rw [if_neg (by decide)]
    have hg : GetParameterLengthByParameterType kWordType = 2 := rfl
    rw [hg]
    simp only [Option.some_bind]
    rw [memcpy_zero _ _ _ (by rw [List.length_append, List.length_replicate]; simp [le16])
      (by rw [hZl]; omega), hZd, if_neg (by decide), if_pos True.intro]
    have hbe : beValue [v0, v1] = v0 * 256 + v1 := by simp [beValue]
    rw [hbe]
    rfl

/-- The dword case of the loop of lines 1128-1157 and of `AddParameterNodeIntoList`. -/
theorem parsedParameter_dword (b : List Nat) (m : Nat) (t : WireParameter)
    (hwf : t.wellFormed) (hty : GetParameterTypeByParameterId t.id = kDwordType)
    (hsrc : loadBytes b m t.value.length = some t.value) (u16val u32val : Nat)
    (l : List TerminalParameter) :
    ∃ pv u, parseParaValue b m t.id t.value.length u16val u32val = some (pv, u) ∧
      AddParameterNodeIntoList (some l) t.id pv = some (some (l ++ [parsedParameter t])) := by
  obtain ⟨hid, hb, h255, _, _, h4, _⟩ := hwf
  have hl := h4 hty
  obtain ⟨id, v⟩ := t
  simp only at hid hb hl hty hsrc ⊢
  obtain ⟨v0, v, rfl⟩ := @exists_cons_of_length_pos v (by omega)
  obtain ⟨v1, v, rfl⟩ := @exists_cons_of_length_pos v (by simp at hl; omega)
  obtain ⟨v2, v, rfl⟩ := @exists_cons_of_length_pos v (by simp at hl; omega)
  obtain ⟨v3, v, rfl⟩ := @exists_cons_of_length_pos v (by simp at hl; omega)
  have hv : v = [] := by
    cases v with
    | nil => rfl
    | cons _ _ => simp at hl
  subst hv
  have hv0 : v0 < 256 := hb v0 (by simp)
  have hv1 : v1 < 256 := hb v1 (by simp)
  have hv2 : v2 < 256 := hb v2 (by simp)
  have hv3 : v3 < 256 := hb v3 (by simp)
  have hZl : (List.replicate 256 0).length = 256 := List.length_replicate _ _
  have hZd : (List.replicate 256 0).drop 4 = List.replicate 252 0 := List.drop_replicate _ _ _
  refine ⟨le32 (((v0 * 256 + v1) * 256 + v2) * 256 + v3) ++ List.replicate 252 0, u16val,
    ?_, ?_⟩
  · unfold parseParaValue
    simp only [hty, Option.bind_eq_bind]
    rw [if_neg (by decide), if_pos True.intro]
    simp only [List.length_cons, List.length_nil] at hsrc ⊢
    rw [hsrc]
    simp only [Option.some_bind]
    rw [memcpy_zero _ _ _ (by simp) (by simp [le32])]
    simp only [le32, List.take_succ_cons, List.take_zero, List.drop_succ_cons, List.drop_zero,
      List.append_nil, rd32, load, List.getElem?_cons_zero, List.getElem?_cons_succ,
      Option.some_bind, List.cons_append, List.nil_append]
    rw [swap32_bytes4 v0 v1 v2 v3 hv0 hv1 hv2 hv3,
      memcpy_zero _ _ _ (by simp) (by rw [hZl]; omega), hZd]
    rfl
  · unfold AddParameterNodeIntoList parsedParameter decodedParameterSpec
    simp only [Nat.mod_eq_of_lt hid, hty, Option.bind_eq_bind]
    rw [if_neg (by decide)]
    have hg : GetParameterLengthByParameterType kDwordType = 4 := rfl
    rw [hg]
    simp only [Option.some_bind]
    rw [memcpy_zero _ _ _ (by rw [List.length_append, List.length_replicate]; simp [le32])
      (by rw [hZl]; omega), hZd, if_neg (by decide), if_neg (by decide), if_pos True.intro]
    have hbe : beValue [v0, v1, v2, v3] = ((v0 * 256 + v1) * 256 + v2) * 256 + v3 := by
      simp [beValue]
    rw [hbe]
    rfl

/-- One round of the loop of lines 1128-1157 at a well-formed wire tuple: the value and
the tuple that `AddParameterNodeIntoList` appends. -/
theorem parsedParameter_node (b : List Nat) (m : Nat) (t : WireParameter)
    (hwf : t.wellFormed) (hsrc : loadBytes b m t.value.length = some t.value)
    (u16val u32val : Nat) (l : List TerminalParameter) :
    ∃ pv u, parseParaValue b m t.id t.value.length u16val u32val = some (pv, u) ∧
      AddParameterNodeIntoList (some l) t.id pv = some (some (l ++ [parsedParameter t])) := by
  rcases parameterType_cases t.id with h | h | h | h | h
  · exact parsedParameter_byte b m t hwf h hsrc u16val u32val l
  · exact parsedParameter_word b m t hwf h hsrc u16val u32val l
  · exact parsedParameter_dword b m t hwf h hsrc u16val u32val l
  · exact parsedParameter_string b m t hwf h hsrc u16val u32val l
  · exact parsedParameter_unknown b m t hwf h u16val u32val l

theorem wireParameterSpec_length (t : WireParameter) :
    (wireParameterSpec t).length = 5 + t.value.length := by
  simp [wireParameterSpec, be32_length]; omega

/-- The loop of lines 1128-1157 on a buffer that holds well-formed wire tuples from
`msg_body` on, with `len` the number of their bytes: it leaves when the tuples are used
up and has appended one tuple for each of them, in their order. -/
theorem parseParaLoop_tuples : ∀ (ts : List WireParameter) (pre post : List Nat)
    (fuel u16val : Nat) (l : List TerminalParameter),
    (∀ t ∈ ts, t.wellFormed) → ts.length < fuel →
    ∃ u, parseParaLoop (pre ++ ts.flatMap wireParameterSpec ++ post) fuel
        (((ts.map fun t => 5 + t.value.length).sum : Nat) : Int) pre.length u16val (some l)
      = some (u, some (l ++ ts.map parsedParameter))
  | [], pre, post, fuel, u16val, l, _, hf => by
    obtain ⟨f, rfl⟩ : ∃ f, fuel = f + 1 := ⟨fuel - 1, by simp at hf; omega⟩
    exact ⟨u16val, by simp [parseParaLoop]⟩
  | t :: ts, pre, post, fuel, u16val, l, hwf, hf => by
    obtain ⟨f, rfl⟩ : ∃ f, fuel = f + 1 := ⟨fuel - 1, by simp at hf; omega⟩
    have ht := hwf t (List.mem_cons_self _ _)
    obtain ⟨hrd, hld, hsrc⟩ := wireParameter_reads pre (ts.flatMap wireParameterSpec ++ post) t
      ht.1
    have hb : pre ++ (t :: ts).flatMap wireParameterSpec ++ post
        = pre ++ wireParameterSpec t ++ (ts.flatMap wireParameterSpec ++ post) := by
      simp
    rw [hb]
    generalize hB : pre ++ wireParameterSpec t ++ (ts.flatMap wireParameterSpec ++ post) = B
      at hrd hld hsrc
    obtain ⟨r, hr, hrid⟩ := Option.map_eq_some'.mp hrd
    obtain ⟨pv, u, hpv, hadd⟩ := parsedParameter_node B (pre.length + 4 + 1) t ht hsrc u16val r l
    have hn : t.value.length % 256 = t.value.length := Nat.mod_eq_of_lt (by have := ht.2.2.1; omega)
    obtain ⟨u2, hrec⟩ := parseParaLoop_tuples ts (pre ++ wireParameterSpec t) post f u
      (l ++ [parsedParameter t]) (fun x hx => hwf x (List.mem_cons_of_mem _ hx))
      (by simp at hf; omega)
    have hB2 : pre ++ wireParameterSpec t ++ ts.flatMap wireParameterSpec ++ post = B := by
      rw [← hB]; simp
    rw [hB2] at hrec
    refine ⟨u2, ?_⟩
    rw [parseParaLoop]
    have hne : (((((t :: ts).map fun t => 5 + t.value.length).sum : Nat) : Int)) ≠ 0 := by
      simp only [List.map_cons, List.sum_cons]
      omega
    rw [if_pos hne]
    simp only [Option.bind_eq_bind, hr, Option.some_bind, hrid, hld, hn, hpv, hadd]
    have e1 : ((((t :: ts).map fun t => 5 + t.value.length).sum : Nat) : Int)
        - ((t.value.length + 5 : Nat) : Int)
        = (((ts.map fun t => 5 + t.value.length).sum : Nat) : Int) := by
      simp only [List.map_cons, List.sum_cons]
      omega
    have e2 : pre.length + 4 + 1 + t.value.length = (pre ++ wireParameterSpec t).length := by
      rw [List.length_append, wireParameterSpec_length]; omega
    rw [e1, e2, hrec]
    simp

/-- `RecvFrameData` when `recv` delivers a frame that is shorter than the buffer. -/
theorem RecvFrameData_data (cap : Nat) (F : List Nat) (h0 : F ≠ []) (hcap : F.length < cap) :
    RecvFrameData cap (.data F)
      = (0, ⟨F ++ List.replicate (cap - F.length) 0, F.length⟩) := by
  unfold RecvFrameData
  simp only [if_neg h0]
  rw [List.take_of_length_le (by omega), Nat.min_eq_left (by omega)]

theorem encode_frame_recv (cap : Nat) (H B : List Nat)
    (hcap : (encode_frame H B).length < cap) :
    (encode_frame H B ++ List.replicate (cap - (encode_frame H B).length) 0
      = 0x7E :: (escapeSpec (H ++ B ++ [bccSpec (H ++ B)])
          ++ 0x7E :: 0 :: List.replicate (cap - (encode_frame H B).length - 1) 0)) ∧
    (encode_frame H B).length = (escapeSpec (H ++ B ++ [bccSpec (H ++ B)])).length + 2 := by
  have hl : (encode_frame H B).length
      = (escapeSpec (H ++ B ++ [bccSpec (H ++ B)])).length + 2 := by
    simp [encode_frame]
  refine ⟨?_, hl⟩
  rw [replicate_zero_cons (cap - (encode_frame H B).length) (by omega)]
  simp [encode_frame]

/-- `Jt808FrameParse` on a received get-parameter response 0x0104 with well-formed
tuples, parsed into an envelope that has a parameter list: one tuple is appended for
each wire tuple, in wire order, and the fragmentation words are read when the
fragmentation bit of the header is set. -/
theorem getParaResponse_parse (devs : List DeviceNode) (p : ProtocolParameters)
    (l : List TerminalParameter) (hl : p.terminal_parameter_list = some l)
    (cap a flow request count total index : Nat) (phone : List Nat)
    (ts : List WireParameter) (hphone : phone.length = 6) (ha : a < 65536)
    (hwf : ∀ t ∈ ts, t.wellFormed)
    (hlen : attrMsglen a = 3 + (ts.map fun t => 5 + t.value.length).sum)
    (hcap : (encode_frame (headerSpec 0x0104 a phone flow)
      ((if attrPackage a = 1 then be16 total ++ be16 index else [])
        ++ be16 request ++ [count] ++ ts.flatMap wireParameterSpec)).length < cap)
    (h16 : cap < 65535) :
    ∃ msg, Jt808FrameParse devs
        (RecvFrameData cap (.data (encode_frame (headerSpec 0x0104 a phone flow)
          ((if attrPackage a = 1 then be16 total ++ be16 index else [])
            ++ be16 request ++ [count] ++ ts.flatMap wireParameterSpec)))).2 p
      = some ⟨UP_GETPARARESPONSE, msg,
          { p with
            respond_flow_num := flow % 65536, respond_id := UP_GETPARARESPONSE,
            packet_total_num :=
              if attrPackage a = 1 then total % 65536 else p.packet_total_num,
            packet_sequence_num :=
              if attrPackage a = 1 then index % 65536 else p.packet_sequence_num,
            terminal_parameter_list := some (l ++ ts.map parsedParameter),
            respond_result := kSuccess }⟩ := by
  generalize hfr : (if attrPackage a = 1 then be16 total ++ be16 index else []) = frag at hcap ⊢
  have hF0 : encode_frame (headerSpec 0x0104 a phone flow)
      (frag ++ be16 request ++ [count] ++ ts.flatMap wireParameterSpec) ≠ [] := by
    simp [encode_frame]
  obtain ⟨hbuf, hFl⟩ := encode_frame_recv cap (headerSpec 0x0104 a phone flow)
    (frag ++ be16 request ++ [count] ++ ts.flatMap wireParameterSpec) hcap
  rw [RecvFrameData_data cap _ hF0 hcap]
  simp only []
  rw [hbuf, hFl]
  rw [hFl] at hcap
  generalize hbcc : bccSpec (headerSpec 0x0104 a phone flow
    ++ (frag ++ be16 request ++ [count] ++ ts.flatMap wireParameterSpec)) = bcc at hcap ⊢
  have hX : headerSpec 0x0104 a phone flow
      ++ (frag ++ be16 request ++ [count] ++ ts.flatMap wireParameterSpec) ++ [bcc]
      = be16 0x0104 ++ be16 a ++ phone ++ be16 flow
        ++ (frag ++ be16 request ++ [count] ++ ts.flatMap wireParameterSpec ++ [bcc]) := by
    simp [headerSpec]
  rw [hX] at hcap ⊢
  obtain ⟨S, u, hhead⟩ := parseHead_frame p 0x0104 a flow phone
    (frag ++ be16 request ++ [count] ++ ts.flatMap wireParameterSpec ++ [bcc])
    (List.replicate (cap - ((escapeSpec (be16 0x0104 ++ be16 a ++ phone ++ be16 flow
      ++ (frag ++ be16 request ++ [count] ++ ts.flatMap wireParameterSpec ++ [bcc]))).length
      + 2) - 1) 0) 0 hphone (by norm_num) (by omega)
  simp only [Jt808FrameParse, Option.bind_eq_bind, hhead, Option.some_bind]
  have hb : ∀ s, parseBody devs (0x0104 % 65536) s = parseGetParaResponse s := fun _ => rfl
  rw [hb, Nat.mod_eq_of_lt ha]
  -- the buffer as what stands in front of the tuples, the tuples, and the rest
  have hbufeq : (0x7E :: ((be16 0x0104 ++ be16 a ++ phone ++ be16 flow
        ++ (frag ++ be16 request ++ [count] ++ ts.flatMap wireParameterSpec ++ [bcc]))
        ++ ([0x7E, 0] ++ S)))
      = (0x7E :: (be16 0x0104 ++ be16 a ++ phone ++ be16 flow ++ frag ++ be16 request
          ++ [count])) ++ ts.flatMap wireParameterSpec ++ ([bcc] ++ ([0x7E, 0] ++ S)) := by
    simp
  have hprel : (0x7E :: (be16 0x0104 ++ be16 a ++ phone ++ be16 flow ++ frag ++ be16 request
      ++ [count])).length = 16 + frag.length := by
    simp [be16_length, hphone]; omega
  have hfuel : ts.length < (0x7E :: ((be16 0x0104 ++ be16 a ++ phone ++ be16 flow
        ++ (frag ++ be16 request ++ [count] ++ ts.flatMap wireParameterSpec ++ [bcc]))
        ++ ([0x7E, 0] ++ S))).length + 1 := by
    have : ts.length ≤ (ts.flatMap wireParameterSpec).length := by
      clear hwf hlen hcap hhead hbufeq hX hbcc hbuf hFl hF0
      induction ts with
      | nil => simp
      | cons t ts ih =>
        simp only [List.flatMap_cons, List.length_append, List.length_cons,
          wireParameterSpec_length]
        omega
    simp only [List.length_cons, List.length_append]
    omega
  obtain ⟨u2, hloop⟩ := parseParaLoop_tuples ts
    (0x7E :: (be16 0x0104 ++ be16 a ++ phone ++ be16 flow ++ frag ++ be16 request ++ [count]))
    ([bcc] ++ ([0x7E, 0] ++ S))
    ((0x7E :: ((be16 0x0104 ++ be16 a ++ phone ++ be16 flow
        ++ (frag ++ be16 request ++ [count] ++ ts.flatMap wireParameterSpec ++ [bcc]))
        ++ ([0x7E, 0] ++ S))).length + 1)
    (if attrPackage a = 1 then
        (frag.getD 2 0 + 256 * frag.getD 3 0) else u) l hwf hfuel
  rw [← hbufeq, hprel] at hloop
  by_cases hpk : attrPackage a = 1
  · rw [if_pos hpk] at hfr hloop
    subst hfr
    have h13 : rd16 (0x7E :: ((be16 0x0104 ++ be16 a ++ phone ++ be16 flow
        ++ (be16 total ++ be16 index ++ be16 request ++ [count]
          ++ ts.flatMap wireParameterSpec ++ [bcc])) ++ ([0x7E, 0] ++ S))) 13
        = some (total / 256 % 256 + 256 * (total % 256)) := by
      obtain ⟨p1, p2, p3, p4, p5, p6, hp⟩ := exists_six _ hphone
      simp [hp, be16, rd16, load]
    have h15 : rd16 (0x7E :: ((be16 0x0104 ++ be16 a ++ phone ++ be16 flow
        ++ (be16 total ++ be16 index ++ be16 request ++ [count]
          ++ ts.flatMap wireParameterSpec ++ [bcc])) ++ ([0x7E, 0] ++ S))) 15
        = some (index / 256 % 256 + 256 * (index % 256)) := by
      obtain ⟨p1, p2, p3, p4, p5, p6, hp⟩ := exists_six _ hphone
      simp [hp, be16, rd16, load]
    have e13 : EndianSwap16 (total / 256 % 256 + 256 * (total % 256)) = total % 65536 := by
      rw [swap16_bytes _ _ (Nat.mod_lt _ (by norm_num)) (Nat.mod_lt _ (by norm_num))]
      omega
    have e15 : EndianSwap16 (index / 256 % 256 + 256 * (index % 256)) = index % 65536 := by
      rw [swap16_bytes _ _ (Nat.mod_lt _ (by norm_num)) (Nat.mod_lt _ (by norm_num))]
      omega
    have hget : (be16 total ++ be16 index).getD 2 0 + 256 * (be16 total ++ be16 index).getD 3 0
        = index / 256 % 256 + 256 * (index % 256) := by
      simp [be16]
    rw [hget] at hloop
    simp only [be16_length, List.length_append] at hloop
    unfold parseGetParaResponse parseFragmentWords
    simp only [hpk, if_true, Option.bind_eq_bind, h13, h15, Option.some_bind, Option.pure_def,
      MSGBODY_PACKAGE_POS, hl, hlen, e13, e15]
    have hcast : ((3 + (ts.map fun t => 5 + t.value.length).sum : Nat) : Int) - 3
        = (((ts.map fun t => 5 + t.value.length).sum : Nat) : Int) := by
      push_cast; ring
    rw [hcast, hloop]
    exact ⟨_, rfl⟩
  · rw [if_neg hpk] at hfr hloop
    subst hfr
    simp only [List.length_nil, List.nil_append, Nat.add_zero] at hloop
    unfold parseGetParaResponse parseFragmentWords
    simp only [hpk, if_false, Option.bind_eq_bind, Option.some_bind, Option.pure_def,
      MSGBODY_NOPACKAGE_POS, hl, hlen, List.nil_append]
    have hcast : ((3 + (ts.map fun t => 5 + t.value.length).sum : Nat) : Int) - 3
        = (((ts.map fun t => 5 + t.value.length).sum : Nat) : Int) := by
      push_cast; ring
    rw [hcast, hloop]
    exact ⟨_, rfl⟩

theorem parsedParameter_known (t : WireParameter)
    (h : GetParameterTypeByParameterId t.id ≠ kUnknowType) :
    parsedParameter t = decodedParameterSpec t := by
  unfold parsedParameter
  rw [if_neg h]

theorem threeWireParameters_wellFormed : ∀ t ∈ threeWireParameters, t.wellFormed := by
  intro t ht
  simp only [threeWireParameters, List.mem_cons, List.mem_singleton, List.not_mem_nil,
    or_false] at ht
  rcases ht with rfl | rfl | rfl <;> (unfold WireParameter.wellFormed; decide)

theorem threeWireParameters_known :
    ∀ t ∈ threeWireParameters, GetParameterTypeByParameterId t.id ≠ kUnknowType := by
  decide

/-- C23: for every get-parameter response 0x0104 that is received into a buffer with
room for it, whose header gives `msg_len` as 3 plus the bytes of the tuples, and whose
tuples are well-formed (ids of the registry, lengths that match the types, string values
without NUL), parsed into an envelope that has a parameter list, `Jt808FrameParse`
returns the id 0x0104 and has appended to the list exactly one tuple for each wire
tuple, in wire order: the id and the word and dword values are the numbers that the
bytes stand for big-endian, byte and string values are the bytes of the wire.  When the
fragmentation bit of the header is set, `packet_total_num` and `packet_sequence_num`
are the two words behind the header. -/
theorem getparameter_response_tuples (devs : List DeviceNode) (p : ProtocolParameters)
    (l : List TerminalParameter) (hl : p.terminal_parameter_list = some l)
    (cap a flow request count total index : Nat) (phone : List Nat)
    (ts : List WireParameter) (hphone : phone.length = 6) (ha : a < 65536)
    (hwf : ∀ t ∈ ts, t.wellFormed)
    (hknown : ∀ t ∈ ts, GetParameterTypeByParameterId t.id ≠ kUnknowType)
    (hlen : attrMsglen a = 3 + (ts.map fun t => 5 + t.value.length).sum)
    (hcap : (encode_frame (headerSpec 0x0104 a phone flow)
      ((if attrPackage a = 1 then be16 total ++ be16 index else [])
        ++ be16 request ++ [count] ++ ts.flatMap wireParameterSpec)).length < cap)
    (h16 : cap < 65535) :
    ∃ msg, Jt808FrameParse devs
        (RecvFrameData cap (.data (encode_frame (headerSpec 0x0104 a phone flow)
          ((if attrPackage a = 1 then be16 total ++ be16 index else [])
            ++ be16 request ++ [count] ++ ts.flatMap wireParameterSpec)))).2 p
      = some ⟨UP_GETPARARESPONSE, msg,
          { p with
            respond_flow_num := flow % 65536, respond_id := UP_GETPARARESPONSE,
            packet_total_num :=
              if attrPackage a = 1 then total % 65536 else p.packet_total_num,
            packet_sequence_num :=
              if attrPackage a = 1 then index % 65536 else p.packet_sequence_num,
            terminal_parameter_list := some (l ++ ts.map decodedParameterSpec),
            respond_result := kSuccess }⟩ := by
  obtain ⟨msg, h⟩ := getParaResponse_parse devs p l hl cap a flow request count total index
    phone ts hphone ha hwf hlen hcap h16
  refine ⟨msg, ?_⟩
  rw [h, List.map_congr_left fun t ht => parsedParameter_known t (hknown t ht)]

set_option maxRecDepth 100000 in
/-- Witness of C23: the response of the terminal `012345678902` with the three tuples of
`threeWireParameters`, received into a buffer of 64 bytes and parsed into an envelope
with an empty parameter list. -/
theorem getparameter_response_tuples_witness :
    (({ zeroParameters with terminal_parameter_list := some [] } : ProtocolParameters
        ).terminal_parameter_list = some [] ∧
      [0x01, 0x23, 0x45, 0x67, 0x89, 0x02].length = 6 ∧ 28 < 65536 ∧
      (∀ t ∈ threeWireParameters, t.wellFormed) ∧
      (∀ t ∈ threeWireParameters, GetParameterTypeByParameterId t.id ≠ kUnknowType) ∧
      attrMsglen 28 = 3 + (threeWireParameters.map fun t => 5 + t.value.length).sum ∧
      (encode_frame (headerSpec 0x0104 28 [0x01, 0x23, 0x45, 0x67, 0x89, 0x02] 9)
        ((if attrPackage 28 = 1 then be16 0 ++ be16 0 else [])
          ++ be16 1 ++ [3] ++ threeWireParameters.flatMap wireParameterSpec)).length < 64 ∧
      64 < 65535) ∧
    ∃ msg, Jt808FrameParse []
        (RecvFrameData 64 (.data (encode_frame
          (headerSpec 0x0104 28 [0x01, 0x23, 0x45, 0x67, 0x89, 0x02] 9)
          ((if attrPackage 28 = 1 then be16 0 ++ be16 0 else [])
            ++ be16 1 ++ [3] ++ threeWireParameters.flatMap wireParameterSpec)))).2
        { zeroParameters with terminal_parameter_list := some [] }
      = some ⟨UP_GETPARARESPONSE, msg,
          { ({ zeroParameters with terminal_parameter_list := some [] } : ProtocolParameters)
            with
            respond_flow_num := 9 % 65536, respond_id := UP_GETPARARESPONSE,
            packet_total_num :=
              if attrPackage 28 = 1 then 0 % 65536
              else ({ zeroParameters with terminal_parameter_list := some [] }
                : ProtocolParameters).packet_total_num,
            packet_sequence_num :=
              if attrPackage 28 = 1 then 0 % 65536
              else ({ zeroParameters with terminal_parameter_list := some [] }
                : ProtocolParameters).packet_sequence_num,
            terminal_parameter_list := some ([] ++ threeWireParameters.map decodedParameterSpec),
            respond_result := kSuccess }⟩ :=
  ⟨⟨rfl, rfl, by decide, threeWireParameters_wellFormed, threeWireParameters_known,
     by decide, by decide, by decide⟩,
   getparameter_response_tuples [] { zeroParameters with terminal_parameter_list := some [] }
     [] rfl 64 28 9 1 3 0 0 [0x01, 0x23, 0x45, 0x67, 0x89, 0x02] threeWireParameters rfl
     (by decide) threeWireParameters_wellFormed threeWireParameters_known (by decide)
     (by decide) (by decide)⟩

/-- C24, as amended: in a get-parameter response 0x0104 with well-formed tuples, a tuple
whose id is outside the parameter registry is appended to the list of the envelope, in
its place among the other tuples, with the type `unknown`, the length 0 and a zeroed
value array: its value bytes are stepped over and not stored. -/
theorem unknown_parameter_dropped (devs : List DeviceNode) (p : ProtocolParameters)
    (l : List TerminalParameter) (hl : p.terminal_parameter_list = some l)
    (cap a flow request count total index : Nat) (phone : List Nat)
    (ts : List WireParameter) (hphone : phone.length = 6) (ha : a < 65536)
    (hwf : ∀ t ∈ ts, t.wellFormed)
    (hlen : attrMsglen a = 3 + (ts.map fun t => 5 + t.value.length).sum)
    (hcap : (encode_frame (headerSpec 0x0104 a phone flow)
      ((if attrPackage a = 1 then be16 total ++ be16 index else [])
        ++ be16 request ++ [count] ++ ts.flatMap wireParameterSpec)).length < cap)
    (h16 : cap < 65535) :
    (∃ r, Jt808FrameParse devs
        (RecvFrameData cap (.data (encode_frame (headerSpec 0x0104 a phone flow)
          ((if attrPackage a = 1 then be16 total ++ be16 index else [])
            ++ be16 request ++ [count] ++ ts.flatMap wireParameterSpec)))).2 p = some r ∧
      r.message_id = UP_GETPARARESPONSE ∧
      r.propara.terminal_parameter_list = some (l ++ ts.map parsedParameter)) ∧
    ∀ t ∈ ts, GetParameterTypeByParameterId t.id = kUnknowType →
      parsedParameter t
        = { parameter_id := t.id, parameter_type := kUnknowType, parameter_len := 0,
            parameter_value := List.replicate 256 0 } := by
  obtain ⟨msg, h⟩ := getParaResponse_parse devs p l hl cap a flow request count total index
    phone ts hphone ha hwf hlen hcap h16
  refine ⟨⟨_, h, rfl, rfl⟩, ?_⟩
  intro t _ ht
  unfold parsedParameter
  rw [if_pos ht]

theorem unknownThenKnown_wellFormed :
    ∀ t ∈ [unknownWireParameter, (⟨0xF000, [1]⟩ : WireParameter)], t.wellFormed := by
  intro t ht
  simp only [List.mem_cons, List.mem_singleton, List.not_mem_nil, or_false] at ht
  rcases ht with rfl | rfl <;> (unfold WireParameter.wellFormed; decide)

set_option maxRecDepth 100000 in
/-- Witness of C24 as amended: a response with the tuple `unknownWireParameter` (id
`0x9999`, two value bytes) followed by the byte parameter `0xF000`. -/
theorem unknown_parameter_dropped_witness :
    (({ zeroParameters with terminal_parameter_list := some [] } : ProtocolParameters
        ).terminal_parameter_list = some [] ∧
      [0x01, 0x23, 0x45, 0x67, 0x89, 0x02].length = 6 ∧ 16 < 65536 ∧
      (∀ t ∈ [unknownWireParameter, (⟨0xF000, [1]⟩ : WireParameter)], t.wellFormed) ∧
      attrMsglen 16 = 3 + ([unknownWireParameter, (⟨0xF000, [1]⟩ : WireParameter)].map
        fun t => 5 + t.value.length).sum ∧
      (encode_frame (headerSpec 0x0104 16 [0x01, 0x23, 0x45, 0x67, 0x89, 0x02] 9)
        ((if attrPackage 16 = 1 then be16 0 ++ be16 0 else [])
          ++ be16 1 ++ [2] ++ [unknownWireParameter, (⟨0xF000, [1]⟩ : WireParameter)].flatMap
            wireParameterSpec)).length < 64 ∧
      64 < 65535) ∧
    ((∃ r, Jt808FrameParse []
        (RecvFrameData 64 (.data (encode_frame
          (headerSpec 0x0104 16 [0x01, 0x23, 0x45, 0x67, 0x89, 0x02] 9)
          ((if attrPackage 16 = 1 then be16 0 ++ be16 0 else [])
            ++ be16 1 ++ [2] ++ [unknownWireParameter, (⟨0xF000, [1]⟩ : WireParameter)].flatMap
              wireParameterSpec)))).2
        { zeroParameters with terminal_parameter_list := some [] } = some r ∧
      r.message_id = UP_GETPARARESPONSE ∧
      r.propara.terminal_parameter_list
        = some ([] ++ [unknownWireParameter, (⟨0xF000, [1]⟩ : WireParameter)].map
            parsedParameter)) ∧
    ∀ t ∈ [unknownWireParameter, (⟨0xF000, [1]⟩ : WireParameter)],
      GetParameterTypeByParameterId t.id = kUnknowType →
      parsedParameter t
        = { parameter_id := t.id, parameter_type := kUnknowType, parameter_len := 0,
            parameter_value := List.replicate 256 0 }) :=
  ⟨⟨rfl, rfl, by decide, unknownThenKnown_wellFormed, by decide, by decide, by decide⟩,
   unknown_parameter_dropped [] { zeroParameters with terminal_parameter_list := some [] }
     [] rfl 64 16 9 1 2 0 0 [0x01, 0x23, 0x45, 0x67, 0x89, 0x02]
     [unknownWireParameter, ⟨0xF000, [1]⟩] rfl (by decide) unknownThenKnown_wellFormed
     (by decide) (by decide) (by decide)⟩

set_option maxRecDepth 100000 in
/-- C24 fails as stated: the response of the terminal `012345678902` with the one tuple
`unknownWireParameter` (id `0x9999`, length 2, value `AB CD`), received into a buffer of
64 bytes and parsed into an envelope with an empty parameter list, appends a tuple of the
type `unknown` with the length 0, not 2, and with zero bytes in the place of `AB CD`. -/
theorem unknown_parameter_value_lost :
    (Jt808FrameParse []
        (RecvFrameData 64 (.data (getParaResponseSpec [0x01, 0x23, 0x45, 0x67, 0x89, 0x02] 9 1
          [unknownWireParameter]))).2
        { zeroParameters with terminal_parameter_list := some [] }).map
      (fun r => (r.message_id, (r.propara.terminal_parameter_list.getD []).map fun n =>
        (n.parameter_id, n.parameter_type, n.parameter_len, n.parameter_value.take 2)))
      = some (UP_GETPARARESPONSE, [(0x9999, kUnknowType, 0, [0, 0])]) ∧
    wireParameterSpec unknownWireParameter = [0x00, 0x00, 0x99, 0x99, 0x02, 0xAB, 0xCD] ∧
    (decodedParameterSpec unknownWireParameter).parameter_len = 2 ∧
    (decodedParameterSpec unknownWireParameter).parameter_value.take 2 = [0xAB, 0xCD] := by
  refine ⟨by decide, by decide, by decide, by decide⟩

theorem packState_eq (hd3 : List Nat) (a a1 : Nat) (mid mid1 rest rest1 : List Nat)
    (len len1 k k1 : Nat) (h1 : a = a1) (h2 : mid = mid1) (h3 : rest = rest1)
    (h4 : len = len1) (h5 : k = k1) :
    (some ⟨packBuf hd3 a mid rest, len, k⟩ : Option PackState)
      = some ⟨packBuf hd3 a1 mid1 rest1, len1, k1⟩ := by
  subst h1 h2 h3 h4 h5
  rfl

namespace PackState

theorem putBytes_gen (hd3 : List Nat) (a : Nat) (mid rest : List Nat) (len k : Nat)
    (src : List Nat) (n : Nat) (h3 : hd3.length = 3) (hk : k = 5 + mid.length)
    (h1 : n ≤ src.length) (h2 : n ≤ rest.length) :
    putBytes ⟨packBuf hd3 a mid rest, len, k⟩ src n
      = some ⟨packBuf hd3 a (mid ++ src.take n) (rest.drop n), len, k + n⟩ := by
  subst hk
  rw [putBytes_rep _ _ _ _ _ _ _ h3 h1 h2]
  simp [Nat.min_eq_left h1]
  omega

theorem put16_gen (hd3 : List Nat) (a : Nat) (mid rest : List Nat) (len k x : Nat)
    (h3 : hd3.length = 3) (hk : k = 5 + mid.length) (h2 : 2 ≤ rest.length) :
    put16 ⟨packBuf hd3 a mid rest, len, k⟩ x
      = some ⟨packBuf hd3 a (mid ++ be16 x) (rest.drop 2), len, k + 2⟩ := by
  subst hk
  rw [put16_rep _ _ _ _ _ _ h3 h2]
  simp [be16]
  omega

theorem put32_gen (hd3 : List Nat) (a : Nat) (mid rest : List Nat) (len k x : Nat)
    (h3 : hd3.length = 3) (hk : k = 5 + mid.length) (h2 : 4 ≤ rest.length) :
    put32 ⟨packBuf hd3 a mid rest, len, k⟩ x
      = some ⟨packBuf hd3 a (mid ++ be32 x) (rest.drop 4), len, k + 4⟩ := by
  subst hk
  rw [put32_rep _ _ _ _ _ _ h3 h2]
  simp [be32]
  omega

theorem put8_gen (hd3 : List Nat) (a : Nat) (mid rest : List Nat) (len k x : Nat)
    (h3 : hd3.length = 3) (hk : k = 5 + mid.length) (h2 : 1 ≤ rest.length) :
    put8 ⟨packBuf hd3 a mid rest, len, k⟩ x
      = some ⟨packBuf hd3 a (mid ++ [x % 256]) (rest.drop 1), len, k + 1⟩ := by
  subst hk
  rw [put8_rep _ _ _ _ _ _ h3 h2]
  simp
  omega

end PackState

/-- Lines 670-678 at the start of the body, on any buffer: the two fragmentation words
are written at the indices 13 and 15 and the `package` bit is set. -/
theorem packFragment_gen (propara : ProtocolParameters) (hd3 : List Nat) (a : Nat)
    (mid rest : List Nat) (len : Nat) (h3 : hd3.length = 3) (ha : a < 65536)
    (hmid : mid.length = 8) (hz : (fragmentWordsSpec propara).length ≤ rest.length) :
    packFragment propara ⟨packBuf hd3 a mid rest, len, 13⟩
      = some ⟨packBuf hd3
                (if propara.packet_total_num % 65536 > 1 then attrSetPackage a 1 else a)
                (mid ++ fragmentWordsSpec propara)
                (rest.drop (fragmentWordsSpec propara).length),
              len + (fragmentWordsSpec propara).length,
              13 + (fragmentWordsSpec propara).length⟩ := by
  unfold fragmentWordsSpec at hz
  unfold packFragment fragmentWordsSpec
  by_cases h : propara.packet_total_num % 65536 > 1
  · simp only [if_pos h, Option.bind_eq_bind]
    rw [if_pos h] at hz
    have hz : 4 ≤ rest.length := by simpa [be16] using hz
    rw [PackState.setPackage_rep _ _ _ _ _ _ _ h3 ha, Option.some_bind]
    have hA : (13 : Nat) = (hd3 ++ le16 (attrSetPackage a 1) ++ mid).length := by
      simp [h3, le16, hmid]
    have e1 : packBuf hd3 (attrSetPackage a 1) mid rest
        = (hd3 ++ le16 (attrSetPackage a 1) ++ mid) ++ rest := by
      simp [packBuf]
    simp only [e1]
    rw [hA, memcpy_append _ _ _ _ (by simp [le16]) (by omega),
      Option.some_bind, le16_EndianSwap16]
    have e2 : hd3 ++ le16 (attrSetPackage a 1) ++ mid
          ++ List.take 2 (be16 propara.packet_total_num) ++ List.drop 2 rest
        = (hd3 ++ le16 (attrSetPackage a 1) ++ mid ++ be16 propara.packet_total_num)
          ++ rest.drop 2 := by
      simp [be16]
    have h15 : (15 : Nat)
        = (hd3 ++ le16 (attrSetPackage a 1) ++ mid ++ be16 propara.packet_total_num).length := by
      simp [h3, le16, hmid, be16]
    rw [e2, h15, memcpy_append _ _ _ _ (by simp [le16]) (by simp; omega), Option.some_bind,
      le16_EndianSwap16]
    simp [PackState.adv, PackState.addLen, packBuf, be16, h3, hmid, le16]
  · simp [if_neg h]

/-- A loop over a list on any buffer: when every round appends the bytes `f x` and adds
`m x` to `msglen`, the loop appends the bytes of all elements in turn and adds the sum. -/
theorem packLoop_gen {α : Type} (step : α → PackState → Option PackState)
    (f : α → List Nat) (m : α → Nat) (wf : α → Prop) (hd3 : List Nat)
    (hstep : ∀ (x : α) (a : Nat) (mid rest : List Nat) (len k : Nat), wf x → a < 65536 →
      k = 5 + mid.length → (f x).length ≤ rest.length →
      step x ⟨packBuf hd3 a mid rest, len, k⟩
        = some ⟨packBuf hd3 (attrSetMsglen a (attrMsglen a + m x)) (mid ++ f x)
            (rest.drop (f x).length), len + (f x).length, k + (f x).length⟩) :
    ∀ (l : List α) (a : Nat) (mid rest : List Nat) (len k : Nat), (∀ x ∈ l, wf x) →
      a < 65536 → k = 5 + mid.length → (l.flatMap f).length ≤ rest.length →
      packLoop step l ⟨packBuf hd3 a mid rest, len, k⟩
        = some ⟨packBuf hd3 (attrSetMsglen a (attrMsglen a + (l.map m).sum))
            (mid ++ l.flatMap f) (rest.drop (l.flatMap f).length),
            len + (l.flatMap f).length, k + (l.flatMap f).length⟩ := by
  intro l
  induction l with
  | nil =>
    intro a mid rest len k _ _ _ _
    simp [packLoop, attrSet_self]
  | cons x l ih =>
    intro a mid rest len k hwf ha hk hz
    simp only [List.flatMap_cons, List.length_append] at hz
    rw [packLoop, hstep x a mid rest len k (hwf x (List.mem_cons_self _ _)) ha hk (by omega),
      Option.some_bind,
      ih _ _ _ _ _ (fun y hy => hwf y (List.mem_cons_of_mem _ hy)) (attrAdd_lt _ _ ha)
        (by simp; omega) (by rw [List.length_drop]; omega), attrAdd_add]
    exact packState_eq _ _ _ _ _ _ _ _ _ _ _
      (by simp) (by simp) (by simp [List.drop_drop, Nat.add_comm]) (by simp; omega)
      (by simp; omega)

/-- The `switch` of lines 692-710 and the statement `msg_body += parameter_len` behind
it, on any buffer, for a consistent tuple with an id of the registry. -/
theorem packTermParaValue_gen (p : TerminalParameter) (hd3 : List Nat) (h3 : hd3.length = 3)
    (a : Nat) (mid rest : List Nat) (len k : Nat) (hwf : p.consistent)
    (hkn : GetParameterTypeByParameterId p.parameter_id ≠ kUnknowType)
    (hk : k = 5 + mid.length) (hz : p.parameter_len ≤ rest.length) :
    (packTermParaValue p ⟨packBuf hd3 a mid rest, len, k⟩).map
        (fun s => s.adv p.parameter_len)
      = some ⟨packBuf hd3 a (mid ++ termParaValueSpec p)
          (rest.drop p.parameter_len), len, k + p.parameter_len⟩ := by
  obtain ⟨hw, hd, hb⟩ := hwf
  unfold packTermParaValue termParaValueSpec
  simp only []
  split_ifs with h1 h2 h4
  · obtain ⟨e, hv⟩ := hw h1
    rw [e] at hz ⊢
    rw [rd16_hostValue _ hv, Option.some_bind]
    exact PackState.put16_gen _ _ _ _ _ _ _ h3 hk hz
  · obtain ⟨e, hv⟩ := hd h2
    rw [e] at hz ⊢
    rw [rd32_hostValue _ hv, Option.some_bind]
    exact PackState.put32_gen _ _ _ _ _ _ _ h3 hk hz
  · exact PackState.putBytes_gen _ _ _ _ _ _ _ _ h3 hk (hb h4) hz
  · exfalso
    rcases parameterType_cases p.parameter_id with h | h | h | h | h
    · exact h4 (Or.inl h)
    · exact h1 h
    · exact h2 h
    · exact h4 (Or.inr h)
    · exact hkn h

/-- The body of the loop of lines 686-715 on any buffer, for a consistent tuple with an
id of the registry. -/
theorem packTermParaNode_gen (p : TerminalParameter) (hd3 : List Nat) (h3 : hd3.length = 3)
    (a : Nat) (mid rest : List Nat) (len k : Nat)
    (hwf : p.consistent ∧ GetParameterTypeByParameterId p.parameter_id ≠ kUnknowType)
    (ha : a < 65536) (hk : k = 5 + mid.length) (hz : (termParaSpec p).length ≤ rest.length) :
    packTermParaNode p ⟨packBuf hd3 a mid rest, len, k⟩
      = some ⟨packBuf hd3 (attrSetMsglen a (attrMsglen a + (5 + p.parameter_len)))
          (mid ++ termParaSpec p) (rest.drop (termParaSpec p).length),
          len + (termParaSpec p).length, k + (termParaSpec p).length⟩ := by
  obtain ⟨hwf, hkn⟩ := hwf
  have hL := termParaSpec_length p hwf
  rw [hL] at hz ⊢
  have hv := packTermParaValue_gen p hd3 h3 a (mid ++ be32 p.parameter_id
    ++ [p.parameter_len % 256]) ((rest.drop 4).drop 1) len (k + 4 + 1) hwf hkn
    (by simp [be32_length]; omega) (by simp; omega)
  unfold packTermParaNode
  simp only [Option.bind_eq_bind]
  rw [PackState.put32_gen _ _ _ _ _ _ _ h3 hk (by omega), Option.some_bind,
    PackState.put8_gen _ _ _ _ _ _ _ h3 (by simp [be32_length]; omega) (by simp; omega),
    Option.some_bind]
  cases hc : packTermParaValue p ⟨packBuf hd3 a (mid ++ be32 p.parameter_id
      ++ [p.parameter_len % 256]) ((rest.drop 4).drop 1), len, k + 4 + 1⟩ with
  | none => rw [hc] at hv; simp at hv
  | some s1 =>
    rw [hc, Option.map_some', Option.some.injEq] at hv
    rw [Option.some_bind, hv, PackState.addLen_rep,
      PackState.addMsglen_rep _ _ _ _ _ _ _ h3 ha]
    exact packState_eq _ _ _ _ _ _ _ _ _ _ _
      rfl (by simp [termParaSpec]) (by simp [List.drop_drop]) (by omega)
      (by omega)

/-- `case DOWN_SETTERMPARA` on any buffer, for consistent tuples with ids of the
registry: the fragmentation words, the count byte and the tuples in list order. -/
theorem packSetTermPara_gen (propara : ProtocolParameters) (hd3 : List Nat)
    (h3 : hd3.length = 3) (a : Nat) (mid rest : List Nat) (len : Nat)
    (hwf : ∀ p ∈ propara.terminal_parameter_list.getD [],
      p.consistent ∧ GetParameterTypeByParameterId p.parameter_id ≠ kUnknowType)
    (ha : a < 65536) (hmid : mid.length = 8)
    (hz : (fragmentWordsSpec propara ++ setTermParaSpec propara).length ≤ rest.length) :
    packSetTermPara propara ⟨packBuf hd3 a mid rest, len, 13⟩
      = some ⟨packBuf hd3
          (attrSetMsglen (if propara.packet_total_num % 65536 > 1 then attrSetPackage a 1
              else a)
            (1 + ((propara.terminal_parameter_list.getD []).map
              fun p => 5 + p.parameter_len).sum))
          (mid ++ (fragmentWordsSpec propara ++ setTermParaSpec propara))
          (rest.drop (fragmentWordsSpec propara ++ setTermParaSpec propara).length),
          len + (fragmentWordsSpec propara ++ setTermParaSpec propara).length,
          13 + (fragmentWordsSpec propara ++ setTermParaSpec propara).length⟩ := by
  have hfl : (fragmentWordsSpec propara).length ≤ 4 := by
    unfold fragmentWordsSpec; split_ifs <;> simp [be16_length]
  have ha1 : (if propara.packet_total_num % 65536 > 1 then attrSetPackage a 1 else a)
      < 65536 := by
    split_ifs
    · exact attrSetPackage_lt _ _ ha
    · exact ha
  have hloop := packLoop_gen packTermParaNode termParaSpec (fun p => 5 + p.parameter_len)
    (fun p => p.consistent ∧ GetParameterTypeByParameterId p.parameter_id ≠ kUnknowType) hd3
    (fun x a mid rest len k hx ha hk hz =>
      packTermParaNode_gen x hd3 h3 a mid rest len k hx ha hk hz)
  simp only [List.length_append] at hz ⊢
  unfold packSetTermPara
  simp only [Option.bind_eq_bind]
  rw [packFragment_gen propara hd3 a mid rest len h3 ha hmid (by omega)]
  simp only [Option.some_bind]
  generalize (if propara.packet_total_num % 65536 > 1 then attrSetPackage a 1 else a)
    = a1 at ha1 ⊢
  generalize fragmentWordsSpec propara = F at hz hfl ⊢
  unfold setTermParaSpec at hz ⊢
  cases hl : propara.terminal_parameter_list with
  | none =>
    rw [hl] at hz
    simp only [List.length_singleton] at hz
    simp only [Option.getD_none, List.map_nil, List.sum_nil]
    rw [PackState.put8_gen _ _ _ _ _ _ _ h3 (by simp; omega) (by simp; omega),
      Option.some_bind, PackState.addLen_rep, PackState.setMsglen_rep _ _ _ _ _ _ _ h3 ha1]
    exact packState_eq _ _ _ _ _ _ _ _ _ _ _
      rfl (by simp) (by simp [List.drop_drop]) (by simp; omega)
      (by simp; omega)
  | some l =>
    rw [hl] at hz hwf
    simp only [Option.getD_some] at hwf ⊢
    cases l with
    | nil =>
      simp only [List.length_nil, List.flatMap_nil, List.append_nil, List.length_singleton,
        Nat.zero_mod] at hz ⊢
      rw [PackState.put8_gen _ _ _ _ _ _ _ h3 (by simp; omega) (by simp; omega),
        Option.some_bind, PackState.addLen_rep,
        PackState.setMsglen_rep _ _ _ _ _ _ _ h3 ha1]
      exact packState_eq _ _ _ _ _ _ _ _ _ _ _
        (by simp) (by simp) (by simp [List.drop_drop]) (by omega) (by omega)
    | cons p ps =>
      dsimp only at hz ⊢
      generalize hV : (p :: ps).flatMap termParaSpec = V at hz hloop ⊢
      simp only [List.length_append, List.length_singleton] at hz ⊢
      unfold packTermParaLoop
      rw [PackState.put8_gen _ _ _ _ _ _ _ h3 (by simp; omega) (by simp; omega),
        Option.some_bind, PackState.addLen_rep,
        PackState.setMsglen_rep _ _ _ _ _ _ _ h3 ha1, Option.some_bind,
        hloop (p :: ps) _ _ _ _ _ hwf (attrSetMsglen_lt _ _ ha1) (by simp; omega)
          (by rw [hV]; simp; omega), hV, attrSetMsglen_add]
      exact packState_eq _ _ _ _ _ _ _ _ _ _ _
        rfl (by simp) (by simp [List.drop_drop]; congr 1; omega) (by omega) (by omega)

theorem escapeSpec_special (t : Nat) (h : t = 0x7E ∨ t = 0x7D) :
    ∃ c, escapeSpec [t] = [0x7D, c] := by
  rcases h with h | h <;> subst h <;> simp [escapeSpec]

/-- Lines 965-975 on any buffer that holds the bytes `X` behind the delimiter slot, with
`msg.len` one more than the length of `X`: the frame is `0x7E`, the escaped `X`, and
`0x7E`, or `0x7D, 0x7E` when the byte behind `X` is one that `Escape` expands. -/
theorem packEscape_any (b0 : Nat) (X : List Nat) (t1 : Nat) (rest : List Nat) (k : Nat)
    (h16 : (escapeSpec X).length + 2 < 65536)
    (hfit : (escapeSpec X).length + 1 ≤ X.length + rest.length) :
    ∃ msg1 n t, packEscape ⟨b0 :: (X ++ t1 :: rest), X.length + 1, k⟩ = some (msg1, n) ∧
      msg1.len = n ∧ msg1.buffer.length = (b0 :: (X ++ t1 :: rest)).length ∧
      msg1.buffer.take n = [0x7E] ++ escapeSpec X ++ t ∧ (t = [0x7E] ∨ t = [0x7D, 0x7E]) := by
  by_cases hs : t1 = 0x7E ∨ t1 = 0x7D
  · obtain ⟨c, hc⟩ := escapeSpec_special t1 hs
    have hE := Escape_eq (X ++ [t1]) rest
      (by rw [escapeSpec_append, hc]; simp; omega)
      (by rw [escapeSpec_append, hc]; simp; omega)
    rw [escapeSpec_append, hc] at hE
    simp only [List.length_append, List.length_cons, List.length_nil] at hE
    have e0 : X ++ [t1] ++ rest = X ++ t1 :: rest := by simp
    rw [e0] at hE
    have hXl := (escapeSpec_length_le X).1
    have hdrop : ((X ++ t1 :: rest).drop ((escapeSpec X).length + (0 + 1 + 1))).length
        = X.length + rest.length - (escapeSpec X).length - 1 := by
      simp; omega
    refine ⟨⟨0x7E :: (escapeSpec X ++ 0x7D :: 0x7E
        :: (X ++ t1 :: rest).drop ((escapeSpec X).length + (0 + 1 + 1))),
        (escapeSpec X).length + 3⟩, (escapeSpec X).length + 3, [0x7D, 0x7E], ?_, rfl, ?_, ?_,
        Or.inr rfl⟩
    · unfold packEscape
      simp only [Option.bind_eq_bind, List.drop_succ_cons, List.drop_zero,
        List.take_succ_cons, List.take_zero]
      rw [hE, Option.some_bind]
      simp only [store, PROTOCOL_SIGN]
      simp only [List.length_append, List.length_cons, List.length_nil, hdrop,
        List.cons_append, List.nil_append]
      rw [if_pos (by omega)]
      simp only [Option.some_bind, List.set_cons_zero, List.length_cons,
        List.length_append, hdrop]
      rw [if_pos (by omega)]
      simp only [Option.some_bind, Option.pure_def, Option.some.injEq, Prod.mk.injEq,
        MessageData.mk.injEq, and_true]
      have hset : ∀ (A D : List Nat) (t x : Nat),
          (A ++ t :: D).set A.length x = A ++ x :: D := by
        intro A D t x
        simp
      have := hset (126 :: (escapeSpec X ++ [125]))
        (List.drop ((escapeSpec X).length + (0 + 1 + 1)) (X ++ t1 :: rest)) c 126
      simp only [List.length_cons, List.length_append, List.length_nil, List.cons_append,
        List.append_assoc, List.nil_append] at this
      simp only [List.set_cons_succ, List.cons.injEq, true_and]
      simp
    · simp only [List.length_cons, List.length_append, hdrop]
      omega
    · have e : 0x7E :: (escapeSpec X ++ 0x7D :: 0x7E
          :: (X ++ t1 :: rest).drop ((escapeSpec X).length + (0 + 1 + 1)))
          = ([0x7E] ++ escapeSpec X ++ [0x7D, 0x7E])
            ++ (X ++ t1 :: rest).drop ((escapeSpec X).length + (0 + 1 + 1)) := by
        simp
      simp only [e]
      rw [List.take_left' (by simp)]
  · have h1 : t1 ≠ 0x7E := fun h => hs (Or.inl h)
    have h2 : t1 ≠ 0x7D := fun h => hs (Or.inr h)
    have hXl := (escapeSpec_length_le X).1
    refine ⟨_, _, [0x7E], packEscape_eq b0 X t1 rest k h1 h2 (by omega) (by omega), rfl,
      ?_, ?_, Or.inl rfl⟩
    · simp only [List.length_cons, List.length_append, List.length_drop]
      omega
    · have e : 0x7E :: (escapeSpec X ++ 0x7E
          :: (X ++ t1 :: rest).drop ((escapeSpec X).length + 1))
          = ([0x7E] ++ escapeSpec X ++ [0x7E])
            ++ (X ++ t1 :: rest).drop ((escapeSpec X).length + 1) := by
        simp
      simp only [e]
      rw [List.take_left' (by simp)]

/-- The bytes of a set-terminal-parameter frame between the delimiters, before
escaping: the header with the attribute word, the body of the envelope and the
checksum that `BccCheckSum` forms of both. -/
theorem setTermPara_pack_any (flow len0 : Nat) (b : List Nat) (propara : ProtocolParameters)
    (l : List TerminalParameter) (hl : propara.terminal_parameter_list = some l)
    (hcons : ∀ p ∈ l,
      p.consistent ∧ GetParameterTypeByParameterId p.parameter_id ≠ kUnknowType)
    (hphone : propara.phone_num.length = 6)
    (hcap : 2 * (20 + (l.flatMap termParaSpec).length) + 1 ≤ b.length)
    (h16 : (l.flatMap termParaSpec).length < 30000) :
    ∃ msg1 n t, Jt808FramePack flow ⟨b, len0⟩ DOWN_SETTERMPARA propara
        = some ((flow + 1) % 65536, msg1, n) ∧ msg1.len = n ∧
      msg1.buffer.length = b.length ∧
      msg1.buffer.take n
        = [0x7E] ++ escapeSpec
            (be16 0x8103
              ++ be16 (attrSetMsglen (if propara.packet_total_num % 65536 > 1 then 8192 else 0)
                  (1 + (l.map fun p => 5 + p.parameter_len).sum))
              ++ (propara.phone_num ++ be16 ((flow + 1) % 65536)
                  ++ (fragmentWordsSpec propara ++ ([l.length % 256] ++ l.flatMap termParaSpec)))
              ++ [bccList (be16 0x8103
                ++ be16 (attrSetMsglen
                    (if propara.packet_total_num % 65536 > 1 then 8192 else 0)
                    (1 + (l.map fun p => 5 + p.parameter_len).sum))
                ++ (propara.phone_num ++ be16 ((flow + 1) % 65536)
                  ++ (fragmentWordsSpec propara
                      ++ ([l.length % 256] ++ l.flatMap termParaSpec))))]) ++ t ∧
      (t = [0x7E] ∨ t = [0x7D, 0x7E]) := by
  have hfl : (fragmentWordsSpec propara).length ≤ 4 := by
    unfold fragmentWordsSpec; split_ifs <;> simp [be16_length]
  have hspec : setTermParaSpec propara = [l.length % 256] ++ l.flatMap termParaSpec := by
    unfold setTermParaSpec; rw [hl]
  obtain ⟨b0, old, rfl⟩ : ∃ b0 old, b = b0 :: old := by
    cases b with
    | nil => simp at hcap
    | cons b0 old => exact ⟨b0, old, rfl⟩
  simp only [List.length_cons] at hcap
  have hhead := packHead_rep flow b0 old len0 (DOWN_SETTERMPARA % 65536) propara (by omega)
    hphone
  have hz := packSetTermPara_gen propara ([b0] ++ be16 (DOWN_SETTERMPARA % 65536))
    (by simp [be16]) 0
    (propara.phone_num ++ be16 ((flow + 1) % 65536)) (old.drop 12) 13
    (by rw [hl]; exact hcons) (by norm_num) (by simp [be16_length, hphone])
    (by rw [hspec]; simp only [List.length_append, List.length_singleton, List.length_drop]
        omega)
  rw [hl, Option.getD_some, hspec] at hz
  have hpk : (if propara.packet_total_num % 65536 > 1 then attrSetPackage 0 1 else 0)
      = (if propara.packet_total_num % 65536 > 1 then 8192 else 0) := by
    split_ifs <;> rfl
  rw [hpk] at hz
  generalize hA : attrSetMsglen (if propara.packet_total_num % 65536 > 1 then 8192 else 0)
      (1 + (l.map fun p => 5 + p.parameter_len).sum) = a at hz ⊢
  have ha : a < 65536 := by
    rw [← hA]
    exact attrSetMsglen_lt _ _ (by split_ifs <;> norm_num)
  generalize hB : fragmentWordsSpec propara ++ ([l.length % 256] ++ l.flatMap termParaSpec)
    = B at hz ⊢
  have hBl : B.length ≤ 5 + (l.flatMap termParaSpec).length := by
    rw [← hB]; simp; omega
  generalize hM : propara.phone_num ++ be16 ((flow + 1) % 65536) = M at hz ⊢
  have hMl : M.length = 8 := by rw [← hM]; simp [be16_length, hphone]
  obtain ⟨t0, t1, rest, hrest⟩ : ∃ t0 t1 rest, (old.drop 12).drop B.length = t0 :: t1 :: rest := by
    have hlen : 2 ≤ ((old.drop 12).drop B.length).length := by
      simp only [List.length_drop]; omega
    match hx : (old.drop 12).drop B.length, hlen with
    | t0 :: t1 :: rest, _ => exact ⟨t0, t1, rest, rfl⟩
  have hrl : rest.length = old.length - 12 - B.length - 2 := by
    have := congrArg List.length hrest
    simp only [List.length_drop, List.length_cons] at this
    omega
  rw [hrest] at hz
  have hb16 : [b0] ++ be16 (DOWN_SETTERMPARA % 65536) = [b0, 0x81, 0x03] := by
    simp [be16, DOWN_SETTERMPARA]
  rw [hb16] at hz
  have hlen13 : 13 + B.length = 5 + (M ++ B).length := by simp [hMl]; omega
  rw [hlen13] at hz
  have hcheck := packCheck_rep b0 0x81 0x03 a (M ++ B) t0 (t1 :: rest) ha
  have h8103 : be16 0x8103 = [0x81, 0x03] := by simp [be16]
  rw [h8103]
  generalize hX : [0x81, 0x03] ++ be16 a ++ (M ++ B)
      ++ [bccList ([0x81, 0x03] ++ be16 a ++ (M ++ B))] = X at hcheck ⊢
  have hXl : X.length = 5 + (M ++ B).length := by
    rw [← hX]; simp [be16]; omega
  have hXe := escapeSpec_length_le X
  have hMB : (M ++ B).length = 8 + B.length := by simp [hMl]
  obtain ⟨msg1, n, t, hesc, hn, hlen1, htake, ht⟩ := packEscape_any b0 X t1 rest
    (5 + (M ++ B).length) (by omega) (by omega)
  rw [hXl] at hesc
  refine ⟨msg1, n, t, ?_, hn, ?_, htake, ht⟩
  · unfold Jt808FramePack packUnescaped
    simp only [Option.bind_eq_bind]
    rw [hhead]
    simp only [Option.some_bind]
    have e3 : ∀ s, packBody (DOWN_SETTERMPARA % 65536) propara s
        = packSetTermPara propara s := fun _ => rfl
    rw [e3, hb16, hM, hz]
    simp only [Option.some_bind]
    rw [hcheck]
    simp only [Option.some_bind, Option.pure_def]
    rw [hesc]
    rfl
  · rw [hlen1]
    simp only [List.length_cons, List.length_append, hXl, hMB, hrl]
    omega

theorem takeWhile_zero_length_le (A R : List Nat) :
    ((A ++ 0 :: R).takeWhile fun c => decide (c ≠ 0)).length ≤ A.length := by
  induction A with
  | nil => simp
  | cons x A ih =>
    simp only [List.cons_append, List.takeWhile_cons]
    split
    · simp only [List.length_cons]; omega
    · simp

theorem strlen_le_of_zero (A R : List Nat) (m : Nat) (h : strlen (A ++ 0 :: R) = some m) :
    m ≤ A.length := by
  unfold strlen at h
  split_ifs at h
  simp only [Option.some.injEq] at h
  rw [← h]
  exact takeWhile_zero_length_le A R

theorem memcpy_some_length (dst src : List Nat) (p n : Nat) (r : List Nat)
    (h : memcpy dst p src n = some r) : r.length = dst.length := by
  unfold memcpy at h
  split_ifs at h with hc
  simp only [Option.some.injEq] at h
  rw [← h]
  simp only [List.length_append, List.length_take, List.length_drop]
  omega

/-- What the round of lines 1832-1855 computes when it reaches the test of line 1856:
the id is one of the registry, the value string has at most 255 characters, and the
value array of a string parameter holds a NUL within that number of bytes. -/
theorem setParaArg_some (arg : List Nat) (u0 : Nat) (a : SetParaArg) (u : Nat)
    (h : setParaArg arg u0 = some (some (a, u))) :
    GetParameterTypeByParameterId a.parameter_id ≠ kUnknowType ∧ a.value_len ≤ 255 ∧
    (GetParameterTypeByParameterId a.parameter_id = kStringType →
      ∀ m, strlen a.parameter_value = some m → m ≤ a.value_len) := by
  unfold setParaArg at h
  simp only [Option.bind_eq_bind, Option.bind_eq_some] at h
  obtain ⟨⟨id, word⟩, hs, value, hv, h⟩ := h
  simp only [] at hv h
  have hvl : value = (word.getD []) ++ 0 :: List.replicate (255 - (word.getD []).length) 0
      ∧ (word.getD []).length ≤ 255 := by
    unfold memcpy at hv
    split_ifs at hv with hc
    simp only [Option.some.injEq] at hv
    simp only [List.length_append, List.length_singleton, List.length_replicate,
      Nat.zero_add] at hc
    refine ⟨?_, by omega⟩
    rw [← hv]
    simp only [List.take_zero, List.nil_append, Nat.zero_add, List.drop_replicate]
    rw [List.take_of_length_le (by simp)]
    simp only [List.append_assoc, List.singleton_append]
    rw [show 256 - ((word.getD []).length + 1) = 255 - (word.getD []).length by omega]
  obtain ⟨hval, hwl⟩ := hvl
  have hlen : ∀ len, strlen value = some len → len ≤ 255 := by
    intro len hl
    rw [hval] at hl
    have := strlen_le_of_zero _ _ _ hl
    omega
  split_ifs at h with h1 h2 h3 h4
  · simp only [Option.bind_eq_some, Option.pure_def, Option.some.injEq, Prod.mk.injEq] at h
    obtain ⟨n, _, pv, _, len, hl, h, _⟩ := h
    subst h
    refine ⟨by simp only [h1]; decide, hlen len hl, ?_⟩
    intro hc
    simp only [h1] at hc
    exact absurd hc (by decide)
  · simp only [Option.bind_eq_some, Option.pure_def, Option.some.injEq, Prod.mk.injEq] at h
    obtain ⟨n, _, pv, _, len, hl, h, _⟩ := h
    subst h
    refine ⟨by simp only [h2]; decide, hlen len hl, ?_⟩
    intro hc
    simp only [h2] at hc
    exact absurd hc (by decide)
  · simp only [Option.bind_eq_some, Option.pure_def, Option.some.injEq, Prod.mk.injEq] at h
    obtain ⟨n, _, pv, _, len, hl, h, _⟩ := h
    subst h
    refine ⟨by simp only [h3]; decide, hlen len hl, ?_⟩
    intro hc
    simp only [h3] at hc
    exact absurd hc (by decide)
  · simp only [Option.bind_eq_some, Option.pure_def, Option.some.injEq, Prod.mk.injEq] at h
    obtain ⟨len, hl, pv, hpv, h, _⟩ := h
    subst h
    have hl255 := hlen len hl
    refine ⟨by simp only [h4]; decide, hl255, ?_⟩
    intro _ m hm
    simp only [] at hm ⊢
    unfold memcpy at hpv
    split_ifs at hpv with hc
    simp only [Option.some.injEq] at hpv
    rw [← hpv] at hm
    simp only [List.take_zero, List.nil_append, Nat.zero_add, List.drop_replicate] at hm
    obtain ⟨z, hz⟩ : ∃ z, 256 - len = z + 1 := ⟨255 - len, by omega⟩
    rw [hz, List.replicate_succ] at hm
    have := strlen_le_of_zero _ _ _ hm
    simp only [List.length_take] at this
    omega
  · simp at h

/-- The node `AddParameterNodeIntoList` appends for an id and a value array does not
depend on the list: it has a value array of 256 bytes and the length of its type, or the
length of the string in the array. -/
theorem addNode_some (id : Nat) (pv : List Nat) (node : TerminalParameter)
    (h : AddParameterNodeIntoList (some []) id pv = some (some [node])) :
    (∀ l, AddParameterNodeIntoList (some l) id pv = some (some (l ++ [node]))) ∧
    node.consistent ∧
    GetParameterTypeByParameterId node.parameter_id = GetParameterTypeByParameterId id ∧
    (node.parameter_len ≤ 4 ∨
      (GetParameterTypeByParameterId id = kStringType ∧
        ∃ m, strlen pv = some m ∧ node.parameter_len ≤ m)) := by
  have key : ∃ len value,
      (if GetParameterTypeByParameterId (id % 4294967296) = kStringType then
          (strlen pv).map fun n => n % 256
        else some (GetParameterLengthByParameterType
          (GetParameterTypeByParameterId (id % 4294967296)))) = some len ∧
      memcpy (List.replicate 256 0) 0 pv len = some value ∧
      ({ parameter_id := id % 4294967296,
         parameter_type := GetParameterTypeByParameterId (id % 4294967296),
         parameter_len := len, parameter_value := value } : TerminalParameter) = node := by
    unfold AddParameterNodeIntoList at h
    simp only [Option.bind_eq_bind, Option.pure_def] at h
    by_cases hs : GetParameterTypeByParameterId (id % 4294967296) = kStringType
    · simp only [if_pos hs] at h ⊢
      simp only [Option.bind_eq_some, Option.some.injEq, List.nil_append, List.cons.injEq,
        and_true] at h
      obtain ⟨a, h1, b, h2, h3⟩ := h
      exact ⟨a, b, h1, h2, h3⟩
    · simp only [if_neg hs] at h ⊢
      simp only [Option.bind_eq_some, Option.some.injEq, List.nil_append, List.cons.injEq,
        and_true] at h
      obtain ⟨a, h1, b, h2, h3⟩ := h
      exact ⟨a, b, by rw [h1], h2, h3⟩
  obtain ⟨len, value, hlen, hvalue, hnode⟩ := key
  have hty : GetParameterTypeByParameterId (id % 4294967296)
      = GetParameterTypeByParameterId id := by
    unfold GetParameterTypeByParameterId
    simp only [Nat.mod_mod]
  have hvl := memcpy_some_length _ _ _ _ _ hvalue
  simp only [List.length_replicate] at hvl
  have hn1 : node.parameter_id = id % 4294967296 := by rw [← hnode]
  have hn2 : node.parameter_len = len := by rw [← hnode]
  have hn3 : node.parameter_value = value := by rw [← hnode]
  have hlen256 : len ≤ 256 := by
    unfold memcpy at hvalue
    split_ifs at hvalue with hc
    simp only [List.length_replicate] at hc
    omega
  refine ⟨?_, ?_, ?_, ?_⟩
  · intro l
    unfold AddParameterNodeIntoList
    simp only [Option.bind_eq_bind, Option.pure_def]
    by_cases hs : GetParameterTypeByParameterId (id % 4294967296) = kStringType
    · rw [if_pos hs] at hlen ⊢
      rw [hlen, Option.some_bind, hvalue, Option.some_bind, hnode]
    · rw [if_neg hs] at hlen ⊢
      rw [hlen, Option.some_bind, hvalue, Option.some_bind, hnode]
  · unfold TerminalParameter.consistent
    rw [hn1, hn2, hn3, hvl, hty]
    rw [hty] at hlen
    refine ⟨?_, ?_, ?_⟩
    · intro hw
      rw [hw] at hlen
      rw [if_neg (by decide)] at hlen
      simp only [Option.some.injEq] at hlen
      rw [← hlen]
      exact ⟨by decide, by omega⟩
    · intro hw
      rw [hw] at hlen
      rw [if_neg (by decide)] at hlen
      simp only [Option.some.injEq] at hlen
      rw [← hlen]
      exact ⟨by decide, by omega⟩
    · intro _
      exact hlen256
  · rw [hn1, hty]
  · rw [hn2]
    rw [hty] at hlen
    by_cases hs : GetParameterTypeByParameterId id = kStringType
    · right
      rw [if_pos hs] at hlen
      simp only [Option.map_eq_some'] at hlen
      obtain ⟨m, hm, hml⟩ := hlen
      refine ⟨hs, m, hm, ?_⟩
      rw [← hml]
      exact Nat.mod_le _ _
    · left
      rw [if_neg hs] at hlen
      simp only [Option.some.injEq] at hlen
      rw [← hlen]
      unfold GetParameterLengthByParameterType
      simp only []
      split_ifs <;> omega

/-- An argument that is read as the tuple `node` with a value string of `n` characters:
the round of the loop computes the same for every value of `u32val`, the tuple is one
that `Jt808FramePack` can read, and its bytes on the wire are at most `9 + n`. -/
theorem setParaReads_facts (arg : List Nat) (node : TerminalParameter) (n : Nat)
    (h : SetParaReads arg node n) :
    (∃ a, a.value_len = n ∧ (∀ u0, ∃ u, setParaArg arg u0 = some (some (a, u))) ∧
      ∀ l, AddParameterNodeIntoList (some l) a.parameter_id a.parameter_value
        = some (some (l ++ [node]))) ∧
    (node.consistent ∧ GetParameterTypeByParameterId node.parameter_id ≠ kUnknowType) ∧
    n ≤ 255 ∧ (termParaSpec node).length ≤ 9 + n := by
  obtain ⟨id, w, a, u, hs, ha, hn, hadd⟩ := h
  obtain ⟨hk, h255, hstr⟩ := setParaArg_some arg 0 a u ha
  obtain ⟨hall, hcons, hty, hlen⟩ := addNode_some _ _ _ hadd
  refine ⟨⟨a, hn, ?_, hall⟩, ⟨hcons, by rw [hty]; exact hk⟩, by omega, ?_⟩
  · intro u0
    exact ⟨u, by rw [setParaArg_converted arg id w u0 hs]; exact ha⟩
  · rw [termParaSpec_length node hcons]
    rcases hlen with h4 | ⟨hs, m, hm, hle⟩
    · omega
    · have := hstr hs m hm
      omega

theorem ReverseEscape_length (src : List Nat) (len : Nat) (r : List Nat × Nat)
    (h : ReverseEscape src len = some r) : r.1.length = src.length := by
  unfold ReverseEscape at h
  simp only [Option.bind_eq_some, Option.map_eq_some'] at h
  obtain ⟨r0, _, src1, hm, hr⟩ := h
  rw [← hr]
  exact memcpy_some_length _ _ _ _ _ hm

/-- The header part of `Jt808FrameParse` keeps the size of the frame buffer. -/
theorem parseHead_buffer_length (msg : MessageData) (p : ProtocolParameters) (c : Nat)
    (s : ParseState) (h : parseHead msg p = some (c, s)) (h1 : msg.buffer ≠ []) :
    s.msg.buffer.length = msg.buffer.length := by
  unfold parseHead at h
  simp only [Option.bind_eq_bind, Option.bind_eq_some, Option.pure_def, Option.some.injEq,
    Prod.mk.injEq] at h
  obtain ⟨r, hr, val, _, flow, _, u, _, _, hs⟩ := h
  rw [← hs]
  simp only [List.length_append, List.length_take, ReverseEscape_length _ _ _ hr,
    List.length_drop]
  have : 1 ≤ msg.buffer.length := by
    cases hb : msg.buffer with
    | nil => exact absurd hb h1
    | cons x xs => simp
  omega

/-- A unified response 0x0001 that answers the message `id`, received into a buffer of
`cap` bytes and parsed into any envelope: `Jt808FrameParse` returns `UP_UNIRESPONSE`,
keeps the size of the buffer and changes `respond_flow_num` and `respond_id` only. -/
theorem respondFrame_parse (cap id : Nat) (devs : List DeviceNode) (p : ProtocolParameters)
    (hcap : 64 ≤ cap) (h16 : cap < 65535) :
    (RecvFrameData cap (.data (respondFrame id))).1 = 0 ∧
    0 < (RecvFrameData cap (.data (respondFrame id))).2.len ∧
    ∃ msg, msg.buffer.length = cap ∧
      Jt808FrameParse devs (RecvFrameData cap (.data (respondFrame id))).2 p
        = some ⟨UP_UNIRESPONSE, msg,
            { p with respond_flow_num := 9, respond_id := id % 65536 }⟩ := by
  unfold respondFrame
  generalize hph : [0x01, 0x23, 0x45, 0x67, 0x89, 0x02] = phone
  have hphone : phone.length = 6 := by rw [← hph]; rfl
  have hF0 : encode_frame (headerSpec 0x0001 5 phone 9) (be16 1 ++ be16 id ++ [0]) ≠ [] := by
    simp [encode_frame]
  have hlen0 : (headerSpec 0x0001 5 phone 9 ++ (be16 1 ++ be16 id ++ [0])
      ++ [bccSpec (headerSpec 0x0001 5 phone 9 ++ (be16 1 ++ be16 id ++ [0]))]).length
      = 18 := by
    simp [headerSpec, be16_length, hphone]
  have hE := escapeSpec_length_le (headerSpec 0x0001 5 phone 9 ++ (be16 1 ++ be16 id ++ [0])
      ++ [bccSpec (headerSpec 0x0001 5 phone 9 ++ (be16 1 ++ be16 id ++ [0]))])
  have hcapF : (encode_frame (headerSpec 0x0001 5 phone 9)
      (be16 1 ++ be16 id ++ [0])).length < cap := by
    simp only [encode_frame, List.length_append, List.length_singleton] at hlen0 ⊢
    simp only [List.length_append, List.length_singleton] at hE
    omega
  obtain ⟨hbuf, hFl⟩ := encode_frame_recv cap (headerSpec 0x0001 5 phone 9)
    (be16 1 ++ be16 id ++ [0]) hcapF
  rw [RecvFrameData_data cap _ hF0 hcapF]
  simp only []
  refine ⟨trivial, by rw [hFl]; omega, ?_⟩
  have hbl : (encode_frame (headerSpec 0x0001 5 phone 9) (be16 1 ++ be16 id ++ [0])
      ++ List.replicate (cap - (encode_frame (headerSpec 0x0001 5 phone 9)
        (be16 1 ++ be16 id ++ [0])).length) 0).length = cap := by
    simp only [List.length_append, List.length_replicate]
    omega
  rw [hbuf] at hbl ⊢
  rw [hFl] at hbl ⊢
  rw [hFl] at hcapF
  generalize hbcc : bccSpec (headerSpec 0x0001 5 phone 9 ++ (be16 1 ++ be16 id ++ [0]))
    = bcc at hcapF hbl ⊢
  have hX : headerSpec 0x0001 5 phone 9 ++ (be16 1 ++ be16 id ++ [0]) ++ [bcc]
      = be16 0x0001 ++ be16 5 ++ phone ++ be16 9 ++ (be16 1 ++ be16 id ++ [0] ++ [bcc]) := by
    simp [headerSpec]
  rw [hX] at hcapF hbl ⊢
  obtain ⟨S, u, hhead⟩ := parseHead_frame p 0x0001 5 9 phone
    (be16 1 ++ be16 id ++ [0] ++ [bcc])
    (List.replicate (cap - ((escapeSpec (be16 0x0001 ++ be16 5 ++ phone ++ be16 9
      ++ (be16 1 ++ be16 id ++ [0] ++ [bcc]))).length + 2) - 1) 0) 0 hphone (by norm_num)
    (by omega)
  have hlenS := parseHead_buffer_length _ _ _ _ hhead (by simp)
  simp only [] at hlenS
  rw [hbl] at hlenS
  simp only [Jt808FrameParse, Option.bind_eq_bind, hhead, Option.some_bind]
  have hb : ∀ s, parseBody devs (0x0001 % 65536) s = parseUniResponse s := fun _ => rfl
  rw [hb]
  have hmb : (if attrPackage (5 % 65536) = 1 then MSGBODY_PACKAGE_POS
      else MSGBODY_NOPACKAGE_POS) = 13 := by decide
  rw [hmb]
  have h15 : rd16 (0x7E :: ((be16 0x0001 ++ be16 5 ++ phone ++ be16 9
      ++ (be16 1 ++ be16 id ++ [0] ++ [bcc])) ++ ([0x7E, 0] ++ S))) (13 + 2)
      = some (id / 256 % 256 + 256 * (id % 256)) := by
    obtain ⟨p1, p2, p3, p4, p5, p6, hp⟩ := exists_six _ hphone
    simp [hp, be16, rd16, load]
  have h17 : load (0x7E :: ((be16 0x0001 ++ be16 5 ++ phone ++ be16 9
      ++ (be16 1 ++ be16 id ++ [0] ++ [bcc])) ++ ([0x7E, 0] ++ S))) (13 + 4) = some 0 := by
    obtain ⟨p1, p2, p3, p4, p5, p6, hp⟩ := exists_six _ hphone
    simp [hp, be16, load]
  have e15 : EndianSwap16 (id / 256 % 256 + 256 * (id % 256)) = id % 65536 := by
    rw [swap16_bytes _ _ (Nat.mod_lt _ (by norm_num)) (Nat.mod_lt _ (by norm_num))]
    omega
  unfold parseUniResponse
  simp only [Option.bind_eq_bind, h15, h17, Option.some_bind, Option.pure_def, e15]
  exact ⟨_, hlenS, rfl⟩

/-- The answer `respondFrame id` ends the wait for whatever test accepts a unified
response with the `respond_id` `id`. -/
theorem respondFrame_acknowledges (cap id : Nat) (devs : List DeviceNode)
    (accept : ParseResult → Bool) (hcap : 64 ≤ cap) (h16 : cap < 65535) (hid : id < 65536)
    (hacc : ∀ (msg : MessageData) (p : ProtocolParameters),
      p.respond_id = id → accept ⟨UP_UNIRESPONSE, msg, p⟩ = true) :
    Acknowledges cap devs accept (.data (respondFrame id)) := by
  refine ⟨(respondFrame_parse cap id devs zeroParameters hcap h16).1,
    (respondFrame_parse cap id devs zeroParameters hcap h16).2.1, ?_⟩
  intro p
  obtain ⟨_, _, msg, hl, hparse⟩ := respondFrame_parse cap id devs p hcap h16
  rw [Nat.mod_eq_of_lt hid] at hparse
  exact ⟨9, id, msg, hl, hparse, hacc _ _ rfl⟩

theorem fitCount_le (ns : List Nat) : ∀ d, fitCount d ns ≤ ns.length := by
  induction ns with
  | nil => intro d; simp [fitCount]
  | cons n ns ih =>
    intro d
    unfold fitCount
    split_ifs
    · simp
    · have := ih (d + 5 + n)
      simp only [List.length_cons]
      omega

theorem fitCount_pos (n : Nat) (ns : List Nat) (h : n ≤ 255) : 1 ≤ fitCount 0 (n :: ns) := by
  unfold fitCount
  rw [if_neg (by omega)]
  omega

/-- The arguments that the test of line 1856 lets through count at most 1022 bytes. -/
theorem fitCount_sum (ns : List Nat) :
    ∀ d, d ≤ 1022 → d + ((ns.take (fitCount d ns)).map fun n => 5 + n).sum ≤ 1022 := by
  induction ns with
  | nil => intro d hd; simp [fitCount]; exact hd
  | cons n ns ih =>
    intro d hd
    unfold fitCount
    split_ifs with h
    · simp; exact hd
    · have := ih (d + 5 + n) (by omega)
      rw [show 1 + fitCount (d + 5 + n) ns = fitCount (d + 5 + n) ns + 1 by omega]
      simp only [List.take_succ_cons, List.map_cons, List.sum_cons]
      omega

theorem wire_sum_le (ns : List Nat) :
    5 * (ns.map fun n => 9 + n).sum ≤ 9 * (ns.map fun n => 5 + n).sum := by
  induction ns with
  | nil => simp
  | cons n ns ih =>
    simp only [List.map_cons, List.sum_cons]
    omega

/-- The loop of lines 1831-1863 on arguments that are read as tuples: it takes the
arguments that the test of line 1856 lets through, appends their tuples in the order of
the arguments, and leaves the other arguments. -/
theorem setParaRound_fit (items : List (List Nat × TerminalParameter × Nat))
    (hr : ∀ x ∈ items, SetParaReads x.1 x.2.1 x.2.2) :
    ∀ (fuel data_len u32val : Nat) (list : List TerminalParameter), items.length < fuel →
      ∃ u, setParaRound fuel (items.map fun x => x.1) data_len u32val list
        = some ((items.drop (fitCount data_len (items.map fun x => x.2.2))).map fun x => x.1,
            u,
            list ++ (items.take (fitCount data_len (items.map fun x => x.2.2))).map
              fun x => x.2.1) := by
  induction items with
  | nil =>
    intro fuel data_len u32val list hf
    obtain ⟨f, rfl⟩ : ∃ f, fuel = f + 1 := ⟨fuel - 1, by simp at hf; omega⟩
    exact ⟨u32val, by simp [setParaRound, fitCount]⟩
  | cons x xs ih =>
    intro fuel data_len u32val list hf
    obtain ⟨f, rfl⟩ : ∃ f, fuel = f + 1 := ⟨fuel - 1, by simp at hf; omega⟩
    obtain ⟨⟨a, hn, hall, hadd⟩, _, _, _⟩ :=
      setParaReads_facts x.1 x.2.1 x.2.2 (hr x (List.mem_cons_self _ _))
    obtain ⟨u1, hu1⟩ := hall u32val
    simp only [List.map_cons, setParaRound, Option.bind_eq_bind, hu1, Option.some_bind, hn,
      fitCount]
    by_cases hc : data_len + 5 + x.2.2 > 1022
    · rw [if_pos hc, if_pos hc]
      exact ⟨u1, by simp⟩
    · rw [if_neg hc, if_neg hc, hadd list]
      simp only [Option.pure_def, Option.some_bind, Option.getD_some]
      obtain ⟨u2, hu2⟩ := ih (fun y hy => hr y (List.mem_cons_of_mem _ hy)) f
        (data_len + 5 + x.2.2) u1 (list ++ [x.2.1]) (by simp at hf; omega)
      refine ⟨u2, ?_⟩
      rw [hu2, show 1 + fitCount (data_len + 5 + x.2.2) (xs.map fun x => x.2.2)
        = fitCount (data_len + 5 + x.2.2) (xs.map fun x => x.2.2) + 1 by omega]
      simp

/-- The bytes on the wire of the tuples one frame takes: at most 1839. -/
theorem fit_wire_length (items : List (List Nat × TerminalParameter × Nat))
    (hr : ∀ x ∈ items, SetParaReads x.1 x.2.1 x.2.2) :
    (((items.take (fitCount 0 (items.map fun x => x.2.2))).map fun x => x.2.1).flatMap
      termParaSpec).length ≤ 1839 := by
  have hs := fitCount_sum (items.map fun x => x.2.2) 0 (by omega)
  have hw := wire_sum_le ((items.map fun x => x.2.2).take
    (fitCount 0 (items.map fun x => x.2.2)))
  have hle : ∀ l : List (List Nat × TerminalParameter × Nat),
      (∀ x ∈ l, SetParaReads x.1 x.2.1 x.2.2) →
      ((l.map fun x => x.2.1).flatMap termParaSpec).length
        ≤ ((l.map fun x => x.2.2).map fun n => 9 + n).sum := by
    intro l
    induction l with
    | nil => intro _; simp
    | cons y ys ih =>
      intro hy
      have h1 := (setParaReads_facts y.1 y.2.1 y.2.2 (hy y (List.mem_cons_self _ _))).2.2.2
      have h2 := ih (fun z hz => hy z (List.mem_cons_of_mem _ hz))
      simp only [List.map_cons, List.flatMap_cons, List.length_append, List.sum_cons]
      omega
  have h3 := hle (items.take (fitCount 0 (items.map fun x => x.2.2)))
    (fun x hx => hr x (List.mem_of_mem_take hx))
  simp only [List.map_take] at h3 hw hs ⊢
  omega

/-- The wait loops of lines 1872-1884 and 2451-2462 on an answer that ends the wait: the
envelope changes in `respond_flow_num` and `respond_id` only, the message keeps the size
of the frame buffer, and the socket stays open. -/
theorem waitRespond_ack (cap : Nat) (devs : List DeviceNode) (accept : ParseResult → Bool)
    (o : RecvOutcome) (rs : List RecvOutcome) (p : ProtocolParameters)
    (h : Acknowledges cap devs accept o) :
    ∃ flow id msg, msg.buffer.length = cap ∧
      waitRespond cap devs accept (o :: rs) p
        = some (rs, { p with respond_flow_num := flow, respond_id := id }, msg, false) := by
  obtain ⟨h1, h2, h3⟩ := h
  obtain ⟨flow, id, msg, hl, hp, hacc⟩ := h3 p
  refine ⟨flow, id, msg, hl, ?_⟩
  unfold waitRespond
  simp only [h1, ne_eq, not_true_eq_false, if_false, gt_iff_lt, h2, if_true,
    Option.bind_eq_bind, hp, Option.some_bind, hacc, Option.pure_def]

/-- One round of the loop `while (1)` of lines 1828-1892 on arguments that are read as
tuples, when the call of `Jt808FramePack` gives the message `msg1` and the terminal
answers: the frame holds the tuples of the arguments that the test of line 1856 lets
through, and the loop goes on with the arguments left. -/
theorem setParaLoop_round (cap : Nat) (devs : List DeviceNode) (phone_num ph : List Nat)
    (x : List Nat × TerminalParameter × Nat) (xs : List (List Nat × TerminalParameter × Nat))
    (hr : ∀ y ∈ x :: xs, SetParaReads y.1 y.2.1 y.2.2)
    (inner : Nat) (hinner : (x :: xs).length < inner)
    (hph : PreparePhoneNum phone_num = some ph)
    (u32val : Nat) (propara : ProtocolParameters) (msg msg1 : MessageData) (flow flow1 n : Nat)
    (socket_fd : Int) (o : RecvOutcome) (rs : List RecvOutcome) (sent : List SetParaFrame)
    (hpack : Jt808FramePack flow msg DOWN_SETTERMPARA
        { propara with
          terminal_parameter_list := some (((x :: xs).take
            (fitCount 0 ((x :: xs).map fun y => y.2.2))).map fun y => y.2.1),
          phone_num := ph } = some (flow1, msg1, n))
    (hack : Acknowledges cap devs setParaAccept o) :
    ∃ u a b msg2, msg2.buffer.length = cap ∧ ∀ fuel,
      setParaLoop cap devs phone_num (fuel + 1) inner ((x :: xs).map fun y => y.1) u32val
          propara msg flow socket_fd (o :: rs) sent
        = if (x :: xs).drop (fitCount 0 ((x :: xs).map fun y => y.2.2)) = [] then
            some ⟨sent ++ [⟨{ propara with
                terminal_parameter_list := some (((x :: xs).take
                  (fitCount 0 ((x :: xs).map fun y => y.2.2))).map fun y => y.2.1),
                phone_num := ph }, socket_fd, msg1.buffer.take n⟩], socket_fd, flow1⟩
          else
            setParaLoop cap devs phone_num fuel inner
              (((x :: xs).drop (fitCount 0 ((x :: xs).map fun y => y.2.2))).map fun y => y.1)
              u
              (if propara.packet_total_num % 65536 > propara.packet_sequence_num % 65536 then
                { propara with
                  terminal_parameter_list := some (((x :: xs).take
                    (fitCount 0 ((x :: xs).map fun y => y.2.2))).map fun y => y.2.1),
                  phone_num := ph, respond_flow_num := a, respond_id := b,
                  packet_sequence_num := (propara.packet_sequence_num + 1) % 65536 }
              else
                { propara with
                  terminal_parameter_list := some (((x :: xs).take
                    (fitCount 0 ((x :: xs).map fun y => y.2.2))).map fun y => y.2.1),
                  phone_num := ph, respond_flow_num := a, respond_id := b })
              msg2 flow1 socket_fd rs
              (sent ++ [⟨{ propara with
                terminal_parameter_list := some (((x :: xs).take
                  (fitCount 0 ((x :: xs).map fun y => y.2.2))).map fun y => y.2.1),
                phone_num := ph }, socket_fd, msg1.buffer.take n⟩]) := by
  obtain ⟨u, hround⟩ := setParaRound_fit (x :: xs) hr inner 0 u32val [] hinner
  have hn255 := (setParaReads_facts x.1 x.2.1 x.2.2 (hr x (List.mem_cons_self _ _))).2.2.1
  have hk : 1 ≤ fitCount 0 ((x :: xs).map fun y => y.2.2) := by
    rw [List.map_cons]
    exact fitCount_pos _ _ hn255
  generalize hkk : fitCount 0 ((x :: xs).map fun y => y.2.2) = k at hk hround hpack ⊢
  obtain ⟨k1, rfl⟩ : ∃ k1, k = k1 + 1 := ⟨k - 1, by omega⟩
  have hne : ((x :: xs).take (k1 + 1)).map (fun y => y.2.1) ≠ [] := by simp
  generalize hlist : ((x :: xs).take (k1 + 1)).map (fun y => y.2.1) = list at hne hround hpack ⊢
  generalize hrest : (x :: xs).drop (k1 + 1) = rest at hround ⊢
  simp only [List.nil_append] at hround
  obtain ⟨a, b, msg2, hl2, hwait⟩ := waitRespond_ack cap devs setParaAccept o rs
    { propara with terminal_parameter_list := some list, phone_num := ph } hack
  refine ⟨u, a, b, msg2, hl2, ?_⟩
  intro fuel
  rw [setParaLoop]
  simp only [Option.bind_eq_bind, hround, Option.some_bind, if_neg hne, hph, hpack, hwait,
    Option.pure_def, Bool.false_eq_true, if_false]
  by_cases hre : rest = []
  · simp [hre]
  · have hre2 : (rest.map fun y => y.1) ≠ [] := by simpa using hre
    rw [if_neg hre2, if_neg hre]

/-- The call of `Jt808FramePack` for the set-terminal-parameter message on a frame buffer
with any content: for a list of consistent tuples with ids of the registry, in a buffer
with room for the escaped frame, the frame is the message of the envelope. -/
theorem setTermPara_carries (flow : Nat) (msg : MessageData) (propara : ProtocolParameters)
    (l : List TerminalParameter) (hl : propara.terminal_parameter_list = some l)
    (hcons : ∀ p ∈ l,
      p.consistent ∧ GetParameterTypeByParameterId p.parameter_id ≠ kUnknowType)
    (hphone : propara.phone_num.length = 6)
    (hcap : 2 * (20 + (l.flatMap termParaSpec).length) + 1 ≤ msg.buffer.length)
    (h16 : (l.flatMap termParaSpec).length < 30000) (socket_fd : Int) :
    ∃ msg1 n, Jt808FramePack flow msg DOWN_SETTERMPARA propara
        = some ((flow + 1) % 65536, msg1, n) ∧
      msg1.buffer.length = msg.buffer.length ∧
      SetParaFrame.carriesEnvelope ⟨propara, socket_fd, msg1.buffer.take n⟩ := by
  obtain ⟨msg1, n, t, hpack, _, hlen, htake, ht⟩ :=
    setTermPara_pack_any flow msg.len msg.buffer propara l hl hcons hphone hcap h16
  refine ⟨msg1, n, hpack, hlen, (flow + 1) % 65536, t, ht, ?_⟩
  simp only []
  rw [htake]
  simp only [setTermParaBytes, headerSpec, setTermParaSpec, hl, Option.getD_some,
    List.append_assoc]

/-- The loop `while (1)` of lines 1828-1892 on arguments that are read as tuples, with a
terminal that answers every frame: the loop ends, and the lists of the frames it adds to
`sent` are, one behind the other, the tuples of the arguments in the order of the
arguments. -/
theorem setParaLoop_run (cap : Nat) (devs : List DeviceNode) (phone_num ph : List Nat)
    (hph : PreparePhoneNum phone_num = some ph) (hcap : 4096 ≤ cap) (inner : Nat)
    (socket_fd : Int) :
    ∀ (fuel : Nat) (items : List (List Nat × TerminalParameter × Nat)) (u32val : Nat)
      (propara : ProtocolParameters) (msg : MessageData) (flow : Nat)
      (recvs : List RecvOutcome) (sent : List SetParaFrame),
      (∀ y ∈ items, SetParaReads y.1 y.2.1 y.2.2) → items.length < fuel →
      items.length < inner → items.length ≤ recvs.length →
      (∀ o ∈ recvs, Acknowledges cap devs setParaAccept o) → msg.buffer.length = cap →
      ∃ run new,
        setParaLoop cap devs phone_num fuel inner (items.map fun y => y.1) u32val propara msg
          flow socket_fd recvs sent = some run ∧
        run.sent = sent ++ new ∧ run.socket_fd = socket_fd ∧
        (new.flatMap fun f => f.propara.terminal_parameter_list.getD [])
          = items.map (fun y => y.2.1) ∧
        ∀ f ∈ new, f.carriesEnvelope := by
  intro fuel
  induction fuel with
  | zero => intro items _ _ _ _ _ _ _ hf; omega
  | succ fuel ih =>
    intro items u32val propara msg flow recvs sent hr hf hin hrecv hack hmsg
    cases items with
    | nil =>
      obtain ⟨i1, rfl⟩ : ∃ i1, inner = i1 + 1 := ⟨inner - 1, by simp at hin; omega⟩
      refine ⟨⟨sent, socket_fd, flow⟩, [], ?_, by simp, rfl, by simp, by simp⟩
      rw [setParaLoop]
      simp [setParaRound]
    | cons x xs =>
      cases recvs with
      | nil => simp at hrecv
      | cons o rs =>
        have hk : 1 ≤ fitCount 0 ((x :: xs).map fun y => y.2.2) := by
          rw [List.map_cons]
          exact fitCount_pos _ _
            (setParaReads_facts x.1 x.2.1 x.2.2 (hr x (List.mem_cons_self _ _))).2.2.1
        have hwire := fit_wire_length (x :: xs) hr
        have hphone := (PreparePhoneNum_some phone_num ph hph).1
        obtain ⟨msg1, n, hpack, hlen1, hcar⟩ := setTermPara_carries flow msg
          { propara with
            terminal_parameter_list := some (((x :: xs).take
              (fitCount 0 ((x :: xs).map fun y => y.2.2))).map fun y => y.2.1),
            phone_num := ph }
          _ rfl
          (fun p hp => by
            obtain ⟨y, hy, rfl⟩ := List.mem_map.mp hp
            exact (setParaReads_facts y.1 y.2.1 y.2.2
              (hr y (List.mem_of_mem_take hy))).2.1)
          hphone (by rw [hmsg]; omega) (by omega) socket_fd
        obtain ⟨u, a, b, msg2, hl2, hstep⟩ := setParaLoop_round cap devs phone_num ph x xs hr
          inner hin hph u32val propara msg msg1 flow ((flow + 1) % 65536) n socket_fd o rs sent
          hpack (hack o (List.mem_cons_self _ _))
        rw [hstep fuel]
        generalize hkk : fitCount 0 ((x :: xs).map fun y => y.2.2) = k at hk hcar ⊢
        by_cases hre : (x :: xs).drop k = []
        · rw [if_pos hre]
          refine ⟨_, [_], rfl, rfl, rfl, ?_, ?_⟩
          · simp only [List.flatMap_cons, List.flatMap_nil, List.append_nil,
              Option.getD_some]
            have := List.take_append_drop k (x :: xs)
            rw [hre, List.append_nil] at this
            rw [this]
          · intro f hf
            rw [List.mem_singleton] at hf
            rw [hf]
            exact hcar
        · rw [if_neg hre]
          have hdl : ((x :: xs).drop k).length + 1 ≤ (x :: xs).length := by
            simp only [List.length_drop, List.length_cons]
            omega
          obtain ⟨run, new, hrun, hsent, hfd, hcat, hall⟩ := ih ((x :: xs).drop k) u
            (if propara.packet_total_num % 65536 > propara.packet_sequence_num % 65536 then
              { propara with
                terminal_parameter_list := some (((x :: xs).take k).map fun y => y.2.1),
                phone_num := ph, respond_flow_num := a, respond_id := b,
                packet_sequence_num := (propara.packet_sequence_num + 1) % 65536 }
            else
              { propara with
                terminal_parameter_list := some (((x :: xs).take k).map fun y => y.2.1),
                phone_num := ph, respond_flow_num := a, respond_id := b })
            msg2 ((flow + 1) % 65536) rs
            (sent ++ [⟨{ propara with
                terminal_parameter_list := some (((x :: xs).take k).map fun y => y.2.1),
                phone_num := ph }, socket_fd, msg1.buffer.take n⟩])
            (fun y hy => hr y (List.mem_of_mem_drop hy)) (by omega) (by omega)
            (by simp only [List.length_cons] at hrecv hdl ⊢; omega)
            (fun o ho => hack o (List.mem_cons_of_mem _ ho)) hl2
          refine ⟨run, ⟨{ propara with
                terminal_parameter_list := some (((x :: xs).take k).map fun y => y.2.1),
                phone_num := ph }, socket_fd, msg1.buffer.take n⟩ :: new, hrun,
            by rw [hsent, List.append_assoc, List.singleton_append], hfd, ?_, ?_⟩
          · simp only [List.flatMap_cons, Option.getD_some, hcat]
            rw [← List.map_append, List.take_append_drop]
          · intro f hf
            rcases List.mem_cons.mp hf with h | h
            · rw [h]; exact hcar
            · exact hall f h

/-- The operator command `<phone> setterminalparameter` with arguments that are read as
tuples, for a terminal that answers every frame, in a frame buffer of at least 4096
bytes: the request ends, the lists of the frames it sends are, one behind the other,
the tuples of the arguments in the order of the operator, and every frame is the
set-terminal-parameter message of its list. -/
theorem parseCommandSetTerminalParameter_run (fuel cap flow : Nat) (devs : List DeviceNode)
    (device : DeviceNode) (phone : List Nat)
    (items : List (List Nat × TerminalParameter × Nat)) (recvs : List RecvOutcome)
    (hphone : PreparePhoneNum device.phone_num = some phone)
    (hreads : ∀ y ∈ items, SetParaReads y.1 y.2.1 y.2.2)
    (hack : ∀ o ∈ recvs, Acknowledges cap devs setParaAccept o)
    (hrecvs : items.length ≤ recvs.length) (hfuel : items.length < fuel)
    (hcap : 4096 ≤ cap) :
    ∃ run, parseCommandSetTerminalParameter fuel cap flow devs device
        (items.map fun y => y.1) recvs = some run ∧
      (run.sent.flatMap fun f => f.propara.terminal_parameter_list.getD [])
        = items.map (fun y => y.2.1) ∧
      ∀ f ∈ run.sent, f.carriesEnvelope := by
  unfold parseCommandSetTerminalParameter DealSetTerminalParameterRequest
  simp only [List.reverse_reverse]
  obtain ⟨run, new, hrun, hsent, _, hcat, hall⟩ := setParaLoop_run cap devs device.phone_num
    phone hphone hcap fuel device.socket_fd fuel items 0
    (if ((items.map fun y => y.1).reverse.map fun arg => 5 + arg.length).sum % 65536 > 1022
      then { zeroParameters with
        packet_total_num :=
          (((items.map fun y => y.1).reverse.map fun arg => 5 + arg.length).sum % 65536
            / 1022 + 1) % 65536,
        packet_sequence_num := 1 }
      else zeroParameters)
    ⟨List.replicate cap 0, 0⟩ flow recvs [] hreads hfuel hfuel hrecvs hack (by simp)
  rw [List.nil_append] at hsent
  exact ⟨run, hrun, by rw [hsent]; exact hcat, by rw [hsent]; exact hall⟩

/-- C27: for every operator command `<phone> setterminalparameter` whose arguments are
read as tuples with ids of the registry, for a terminal that acknowledges every frame
(in a frame buffer of at least 4096 bytes, with enough rounds), the request ends and the
concatenation, in emission order, of the parameter lists of the frames it sends equals
the list of the tuples in the order given by the operator; every frame sent is the
set-terminal-parameter message of its list. -/
theorem setparameter_lists_concatenate (fuel cap flow : Nat) (devs : List DeviceNode)
    (device : DeviceNode) (phone : List Nat)
    (items : List (List Nat × TerminalParameter × Nat)) (recvs : List RecvOutcome)
    (hphone : PreparePhoneNum device.phone_num = some phone)
    (hreads : ∀ y ∈ items, SetParaReads y.1 y.2.1 y.2.2)
    (hack : ∀ o ∈ recvs, Acknowledges cap devs setParaAccept o)
    (hrecvs : items.length ≤ recvs.length) (hfuel : items.length < fuel)
    (hcap : 4096 ≤ cap) :
    ∃ run, parseCommandSetTerminalParameter fuel cap flow devs device
        (items.map fun y => y.1) recvs = some run ∧
      (run.sent.flatMap fun f => f.propara.terminal_parameter_list.getD [])
        = items.map (fun y => y.2.1) ∧
      ∀ f ∈ run.sent, f.carriesEnvelope :=
  parseCommandSetTerminalParameter_run fuel cap flow devs device phone items recvs hphone
    hreads hack hrecvs hfuel hcap

theorem setParaAccept_respond (msg : MessageData) (p : ProtocolParameters)
    (h : p.respond_id = 0x8103) : setParaAccept ⟨UP_UNIRESPONSE, msg, p⟩ = true := by
  unfold setParaAccept
  simp only [h]
  decide

set_option maxRecDepth 100000 in
theorem exampleArguments_read :
    ∀ y ∈ List.zip exampleArguments (List.zip exampleNodes [1, 4, 7]),
      SetParaReads y.1 y.2.1 y.2.2 :=
  List.forall_mem_cons.mpr
    ⟨⟨0xF000, some [49], ⟨0xF000, [1] ++ List.replicate 255 0, 1⟩, 0xF000,
        by decide, by decide, rfl, by decide⟩,
     List.forall_mem_cons.mpr
      ⟨⟨0xF031, some [56, 48, 48, 48], ⟨0xF031, [0x40, 0x1F] ++ List.replicate 254 0, 4⟩,
          0xF031, by decide, by decide, rfl, by decide⟩,
       List.forall_mem_cons.mpr
        ⟨⟨0xF030, some [49, 46, 50, 46, 51, 46, 52],
            ⟨0xF030, [49, 46, 50, 46, 51, 46, 52] ++ List.replicate 249 0, 7⟩, 0xF030,
            by decide, by decide, rfl, by decide⟩,
         fun _ h => absurd h (List.not_mem_nil _)⟩⟩⟩

set_option maxRecDepth 100000 in
/-- Witness of C27: the command `012345678902 setterminalparameter F000:1 f031:8000
F030:1.2.3.4` for a terminal that answers with a unified response to 0x8103. -/
theorem setparameter_lists_concatenate_witness :
    (PreparePhoneNum liveDevice.phone_num = some [0x01, 0x23, 0x45, 0x67, 0x89, 0x02] ∧
      (∀ y ∈ List.zip exampleArguments (List.zip exampleNodes [1, 4, 7]),
        SetParaReads y.1 y.2.1 y.2.2) ∧
      ∀ o ∈ List.replicate 3 (RecvOutcome.data (respondFrame 0x8103)),
        Acknowledges 4096 [liveDevice] setParaAccept o) ∧
    ∃ run, parseCommandSetTerminalParameter 10 4096 0 [liveDevice] liveDevice
        ((List.zip exampleArguments (List.zip exampleNodes [1, 4, 7])).map fun y => y.1)
        (List.replicate 3 (RecvOutcome.data (respondFrame 0x8103))) = some run ∧
      (run.sent.flatMap fun f => f.propara.terminal_parameter_list.getD [])
        = (List.zip exampleArguments (List.zip exampleNodes [1, 4, 7])).map (fun y => y.2.1) ∧
      ∀ f ∈ run.sent, f.carriesEnvelope :=
  ⟨⟨by decide, exampleArguments_read,
      fun o ho => by
        rw [List.eq_of_mem_replicate ho]
        exact respondFrame_acknowledges 4096 0x8103 [liveDevice] setParaAccept (by decide)
          (by decide) (by decide) setParaAccept_respond⟩,
   setparameter_lists_concatenate 10 4096 0 [liveDevice] liveDevice
     [0x01, 0x23, 0x45, 0x67, 0x89, 0x02]
     (List.zip exampleArguments (List.zip exampleNodes [1, 4, 7]))
     (List.replicate 3 (RecvOutcome.data (respondFrame 0x8103))) (by decide)
     exampleArguments_read
     (fun o ho => by
        rw [List.eq_of_mem_replicate ho]
        exact respondFrame_acknowledges 4096 0x8103 [liveDevice] setParaAccept (by decide)
          (by decide) (by decide) setParaAccept_respond)
     (by decide) (by decide) (by decide)⟩

set_option maxRecDepth 1000000 in
set_option maxHeartbeats 4000000 in
/-- C26, at the failing input: the command `012345678902 setterminalparameter` with eight
times the argument `F000:00...01` of 255 characters, for a terminal that acknowledges
every frame.  The request sends two frames with four tuples each, with the
fragmentation bit and the indices 1 and 2, and both carry `total_packets = 3`: line 1824
computes `data_len / 1022 + 1` from the sizes of the argument strings (8 * 260 = 2080
bytes), while the loop of lines 1831-1863 fills the frames by `5 + strlen(value)`. -/
theorem setparameter_total_packets_overcounts :
    (parseCommandSetTerminalParameter 10 128 0 [liveDevice] liveDevice
        (List.replicate 8 paddedArgument)
        (List.replicate 3 (RecvOutcome.data (respondFrame 0x8103)))).map
      (fun run => run.sent.map fun f =>
        (f.propara.packet_total_num, f.propara.packet_sequence_num, f.frame))
    = some
        [(3, 1,
          [0x7E, 0x81, 0x03, 0x20, 0x19, 0x01, 0x23, 0x45, 0x67, 0x89, 0x02, 0x00, 0x01,
           0x00, 0x03, 0x00, 0x01,
           0x04, 0, 0, 0xF0, 0, 1, 1, 0, 0, 0xF0, 0, 1, 1, 0, 0, 0xF0, 0, 1, 1,
           0, 0, 0xF0, 0, 1, 1, 0x37, 0x7E]),
         (3, 2,
          [0x7E, 0x81, 0x03, 0x20, 0x19, 0x01, 0x23, 0x45, 0x67, 0x89, 0x02, 0x00, 0x02,
           0x00, 0x03, 0x00, 0x02,
           0x04, 0, 0, 0xF0, 0, 1, 1, 0, 0, 0xF0, 0, 1, 1, 0, 0, 0xF0, 0, 1, 1,
           0, 0, 0xF0, 0, 1, 1, 0x37, 0x7E])] := by
  decide

set_option maxRecDepth 100000 in
theorem shortArgument_reads : SetParaReads shortArgument shortNode 1 :=
  ⟨1, some [49], ⟨1, [1, 0, 0, 0] ++ List.replicate 252 0, 1⟩, 1,
    by decide, by decide, rfl, by decide⟩

theorem shortNode_bytes : ∀ b ∈ shortNode.parameter_value, b < 256 := by
  intro b hb
  simp only [shortNode, List.mem_append, List.mem_cons, List.mem_singleton,
    List.not_mem_nil, or_false, List.mem_replicate] at hb
  rcases hb with (h | h | h | h) | ⟨_, h⟩ <;> omega

set_option maxRecDepth 1000000 in
/-- C28, at the failing input: the command `012345678902 setterminalparameter` with 114
times the argument `1:1`, for a terminal that acknowledges the frame.  The loop of lines
1831-1863 counts `5 + strlen(value) = 6` bytes for each argument, so all 114 tuples go
into one frame; on the wire each dword tuple has 9 bytes, the body has 1027 bytes, and
the 10 bits of `msglen` in the attribute word hold 3. -/
theorem setparameter_body_exceeds_msglen :
    ∃ run f, parseCommandSetTerminalParameter 200 4096 0 [liveDevice] liveDevice
        (List.replicate 114 shortArgument) [RecvOutcome.data (respondFrame 0x8103)]
        = some run ∧
      run.sent = [f] ∧
      f.propara.terminal_parameter_list = some (List.replicate 114 shortNode) ∧
      f.frame = encode_frame (headerSpec 0x8103 3 [0x01, 0x23, 0x45, 0x67, 0x89, 0x02] 1)
          ([114] ++ (List.replicate 114 shortNode).flatMap termParaSpec) ∧
      ([114] ++ (List.replicate 114 shortNode).flatMap termParaSpec).length = 1027 := by
  have hitems : List.replicate 114 shortArgument
      = ((shortArgument, shortNode, 1) :: List.replicate 113 (shortArgument, shortNode, 1)).map
          fun y => y.1 := by
    simp [List.replicate_succ]
  have hr : ∀ y ∈ (shortArgument, shortNode, 1) :: List.replicate 113 (shortArgument, shortNode, 1),
      SetParaReads y.1 y.2.1 y.2.2 := by
    intro y hy
    have : y = (shortArgument, shortNode, 1) := by
      rcases List.mem_cons.mp hy with h | h
      · exact h
      · exact List.eq_of_mem_replicate h
    rw [this]
    exact shortArgument_reads
  have hk : fitCount 0 (((shortArgument, shortNode, 1)
      :: List.replicate 113 (shortArgument, shortNode, 1)).map fun y => y.2.2) = 114 := by
    decide
  have htake : (((shortArgument, shortNode, 1)
      :: List.replicate 113 (shortArgument, shortNode, 1)).take 114).map (fun y => y.2.1)
      = List.replicate 114 shortNode := by
    rw [List.take_of_length_le (by simp)]
    simp [List.replicate_succ]
  have hdrop : ((shortArgument, shortNode, 1)
      :: List.replicate 113 (shortArgument, shortNode, 1)).drop 114 = [] := by
    rw [List.drop_eq_nil_iff]
    simp
  have hph : PreparePhoneNum liveDevice.phone_num = some [0x01, 0x23, 0x45, 0x67, 0x89, 0x02] := by
    decide
  have hsum : ((List.replicate 114 shortNode).map fun p => 5 + p.parameter_len).sum = 1026 := by
    decide
  have hwire : ((List.replicate 114 shortNode).flatMap termParaSpec).length = 1026 := by
    decide
  obtain ⟨msg1, n, hpack, _, hframe⟩ := setTermPara_frame 0 4096 0
    { zeroParameters with
      terminal_parameter_list := some (List.replicate 114 shortNode),
      phone_num := [0x01, 0x23, 0x45, 0x67, 0x89, 0x02] }
    (List.replicate 114 shortNode) rfl
    (fun p hp => by
      rw [List.eq_of_mem_replicate hp]
      exact (setParaReads_facts _ _ _ shortArgument_reads).2.1.1)
    (fun p hp => by
      rw [List.eq_of_mem_replicate hp]
      exact shortNode_bytes)
    rfl (by decide) (by rw [hwire]; decide) (by decide)
  obtain ⟨u, a, b, msg2, _, hstep⟩ := setParaLoop_round 4096 [liveDevice] liveDevice.phone_num
    [0x01, 0x23, 0x45, 0x67, 0x89, 0x02] (shortArgument, shortNode, 1)
    (List.replicate 113 (shortArgument, shortNode, 1)) hr 200 (by simp) hph 0 zeroParameters
    ⟨List.replicate 4096 0, 0⟩ msg1 0 ((0 + 1) % 65536) n liveDevice.socket_fd
    (RecvOutcome.data (respondFrame 0x8103)) [] []
    (by rw [hk, htake]; exact hpack)
    (respondFrame_acknowledges 4096 0x8103 [liveDevice] setParaAccept (by decide)
      (by decide) (by decide) setParaAccept_respond)
  have hstep := hstep 199
  rw [hk, htake, hdrop, if_pos rfl] at hstep
  have hdata : ¬ ((List.replicate 114 shortArgument).reverse.map fun arg => 5 + arg.length).sum
      % 65536 > 1022 := by
    decide
  refine ⟨⟨[] ++ [⟨{ zeroParameters with
        terminal_parameter_list := some (List.replicate 114 shortNode),
        phone_num := [0x01, 0x23, 0x45, 0x67, 0x89, 0x02] }, liveDevice.socket_fd,
      msg1.buffer.take n⟩], liveDevice.socket_fd, (0 + 1) % 65536⟩,
    ⟨{ zeroParameters with
        terminal_parameter_list := some (List.replicate 114 shortNode),
        phone_num := [0x01, 0x23, 0x45, 0x67, 0x89, 0x02] }, liveDevice.socket_fd,
      msg1.buffer.take n⟩, ?_, rfl, rfl, ?_, by rw [List.length_append, hwire]; rfl⟩
  · unfold parseCommandSetTerminalParameter DealSetTerminalParameterRequest
    simp only [if_neg hdata, List.reverse_reverse]
    rw [hitems]
    exact hstep
  · simp only []
    rw [hframe, hsum]
    rfl

theorem upgradeAccept_respond (msg : MessageData) (p : ProtocolParameters)
    (h : p.respond_id = 0x8108) : upgradeAccept ⟨UP_UNIRESPONSE, msg, p⟩ = true := by
  unfold upgradeAccept
  simp only [h]
  decide

theorem mem_take_drop_lt (data : List Nat) (i n : Nat) (h : ∀ b ∈ data, b < 256) :
    ∀ b ∈ (data.drop i).take n, b < 256 :=
  fun b hb => h b (List.mem_of_mem_drop (List.mem_of_mem_take hb))

/-- One round of the loop of lines 2432-2469 with a send that succeeds and a terminal
that answers: the frame is the upgrade package of the envelope, which holds the `c`
bytes of the file from the offset `max_data_len * (packet_sequence_num - 1)` on, and
the loop goes on with the next sequence number. -/
theorem upgradeLoop_round (cap : Nat) (devs : List DeviceNode) (data : List Nat)
    (max_data_len : Nat) (p : ProtocolParameters) (len c flow msg_len : Nat)
    (sends : List Bool) (o : RecvOutcome) (rs : List RecvOutcome) (sent : List UpgradeFrame)
    (hc : (if len > max_data_len then max_data_len else len) = c)
    (hmax : max_data_len ≤ 1024)
    (hs1 : 1 ≤ p.packet_sequence_num) (hs2 : p.packet_sequence_num ≤ 65535)
    (hlen : 0 < len) (hinv : (p.packet_sequence_num - 1) * max_data_len + len = data.length)
    (hL : data.length < 4294967296) (hdb : ∀ b ∈ data, b < 256)
    (hphone : p.phone_num.length = 6) (hpb : ∀ b ∈ p.phone_num, b < 256)
    (hman : 5 ≤ p.manufacturer_id.length) (hmb : ∀ b ∈ p.manufacturer_id, b < 256)
    (hvl : p.version_num_len ≤ p.version_num.length) (hvb : ∀ b ∈ p.version_num, b < 256)
    (hcap : 3 * (28 + p.version_num_len + max_data_len) + 1 ≤ cap) (h16 : cap < 65536)
    (hack : Acknowledges cap devs upgradeAccept o) :
    ∃ a b ml, ∀ fuel,
      upgradeLoop cap devs data max_data_len (fuel + 1) len p flow msg_len (true :: sends)
          (o :: rs) sent
        = upgradeLoop cap devs data max_data_len fuel (len - c)
            { p with
              packet_data_len := c,
              packet_data := (data.drop ((p.packet_sequence_num - 1) * max_data_len)).take c
                ++ List.replicate (1024 - c) 0,
              respond_flow_num := a, respond_id := b,
              packet_sequence_num := (p.packet_sequence_num + 1) % 65536 }
            ((flow + 1) % 65536) ml sends rs
            (sent ++ [⟨{ p with
                packet_data_len := c,
                packet_data := (data.drop ((p.packet_sequence_num - 1) * max_data_len)).take c
                  ++ List.replicate (1024 - c) 0 },
              updatePackageFrameSpec { p with
                packet_data_len := c,
                packet_data := (data.drop ((p.packet_sequence_num - 1) * max_data_len)).take c
                  ++ List.replicate (1024 - c) 0 } ((flow + 1) % 65536)⟩]) := by
  have hcle : c ≤ max_data_len ∧ c ≤ len := by
    rw [← hc]; split_ifs <;> omega
  have hoff : max_data_len
      * ((p.packet_sequence_num % 65536 + 4294967295) % 4294967296) % 4294967296
      = (p.packet_sequence_num - 1) * max_data_len := by
    have h1 : (p.packet_sequence_num % 65536 + 4294967295) % 4294967296
        = p.packet_sequence_num - 1 := by omega
    rw [h1, Nat.mul_comm]
    exact Nat.mod_eq_of_lt (by omega)
  generalize hO : (p.packet_sequence_num - 1) * max_data_len = off at hinv hoff ⊢
  have hload : loadBytes data off c = some ((data.drop off).take c) := by
    unfold loadBytes
    rw [if_pos (by omega)]
  have hchl : ((data.drop off).take c).length = c := by
    rw [List.length_take, List.length_drop]
    omega
  have hmem : memcpy (List.replicate 1024 0) 0 ((data.drop off).take c) c
      = some ((data.drop off).take c ++ List.replicate (1024 - c) 0) := by
    rw [memcpy_zero _ _ _ (by omega) (by rw [List.length_replicate]; omega),
      List.drop_replicate,
      List.take_of_length_le (by omega)]
  obtain ⟨msg1, n, hpack, _, hframe⟩ := updatePackage_frame flow cap msg_len
    { p with packet_data_len := c,
             packet_data := (data.drop off).take c ++ List.replicate (1024 - c) 0 }
    hphone hpb ⟨hman, hvl, by simp; omega⟩ hmb hvb
    (fun b hb => by
      rcases List.mem_append.mp hb with h | h
      · exact mem_take_drop_lt data off c hdb b h
      · rw [List.mem_replicate] at h
        omega)
    (by
      simp only [updatePackageSpec, List.length_append, List.length_singleton,
        List.length_take, be32_length, List.length_replicate, List.length_drop]
      omega)
    h16
  obtain ⟨a, b, msg2, _, hwait⟩ := waitRespond_ack cap devs upgradeAccept o rs
    { p with packet_data_len := c,
             packet_data := (data.drop off).take c ++ List.replicate (1024 - c) 0 } hack
  refine ⟨a, b, msg2.len, ?_⟩
  intro fuel
  rw [upgradeLoop]
  simp only [gt_iff_lt, hlen, if_true, hc, hoff, Option.bind_eq_bind, hload, Option.some_bind,
    hmem, hpack, hwait, Option.pure_def, Bool.false_eq_true, if_false]
  rw [hframe]
  rfl

theorem sameUpgradeEnvelope_trans (p q r : ProtocolParameters) (h1 : sameUpgradeEnvelope p q)
    (h2 : sameUpgradeEnvelope q r) : sameUpgradeEnvelope p r := by
  unfold sameUpgradeEnvelope at h1 h2 ⊢
  refine ⟨?_, ?_, ?_, ?_, ?_, ?_⟩
  · rw [h2.1, h1.1]
  · rw [h2.2.1, h1.2.1]
  · rw [h2.2.2.1, h1.2.2.1]
  · rw [h2.2.2.2.1, h1.2.2.2.1]
  · rw [h2.2.2.2.2.1, h1.2.2.2.2.1]
  · rw [h2.2.2.2.2.2, h1.2.2.2.2.2]

theorem chunk_take_eq (data : List Nat) (off len max_data_len c : Nat)
    (hinv : off + len = data.length)
    (hc : (if len > max_data_len then max_data_len else len) = c) :
    (data.drop off).take c = (data.drop off).take max_data_len := by
  by_cases h : len > max_data_len
  · rw [if_pos h] at hc
    rw [hc]
  · rw [if_neg h] at hc
    subst hc
    rw [List.take_of_length_le (by rw [List.length_drop]; omega),
      List.take_of_length_le (by rw [List.length_drop]; omega)]

/-- The first `n` rounds of the loop of lines 2432-2469 when every send succeeds and the
terminal answers every package, up to the package with the index 65535: the frames are
the upgrade packages with the indices `i + 1, i + 2, ...`, each with the chunk of the
file at its index, and the loop goes on with what is left of the file. -/
theorem upgradeLoop_rounds (cap : Nat) (devs : List DeviceNode) (data : List Nat)
    (max_data_len : Nat) (hmax : max_data_len ≤ 1024)
    (hL : data.length < 4294967296) (hdb : ∀ b ∈ data, b < 256) (h16 : cap < 65536) :
    ∀ (n i : Nat) (p : ProtocolParameters) (len flow msg_len : Nat) (sends : List Bool)
      (recvs : List RecvOutcome) (sent : List UpgradeFrame),
      (0 < n → p.packet_sequence_num = i + 1 ∧ i + n ≤ 65535 ∧
        (n - 1) * max_data_len < len ∧ i * max_data_len + len = data.length) →
      p.packet_sequence_num < 65536 →
      p.phone_num.length = 6 → (∀ b ∈ p.phone_num, b < 256) →
      5 ≤ p.manufacturer_id.length → (∀ b ∈ p.manufacturer_id, b < 256) →
      p.version_num_len ≤ p.version_num.length → (∀ b ∈ p.version_num, b < 256) →
      3 * (28 + p.version_num_len + max_data_len) + 1 ≤ cap →
      (∀ b ∈ sends, b = true) → n ≤ sends.length →
      (∀ o ∈ recvs, Acknowledges cap devs upgradeAccept o) → n ≤ recvs.length →
      ∃ q flow1 ml new,
        sameUpgradeEnvelope p q ∧
        q.packet_sequence_num = (p.packet_sequence_num + n) % 65536 ∧
        new.map (fun f => (f.propara.packet_sequence_num,
            f.propara.packet_data.take f.propara.packet_data_len))
          = (List.range n).map
              (fun j => (i + 1 + j, fileChunkSpec data max_data_len (i + j))) ∧
        (∀ f ∈ new, sameUpgradeEnvelope p f.propara ∧
          ∃ fl, f.frame = updatePackageFrameSpec f.propara fl) ∧
        ∀ fuel,
          upgradeLoop cap devs data max_data_len (fuel + n) len p flow msg_len sends recvs
              sent
            = upgradeLoop cap devs data max_data_len fuel (len - n * max_data_len) q flow1 ml
                (sends.drop n) (recvs.drop n) (sent ++ new) := by
  intro n
  induction n with
  | zero =>
    intro i p len flow msg_len sends recvs sent _ hs _ _ _ _ _ _ _ _ _ _ _
    refine ⟨p, flow, msg_len, [], ⟨rfl, rfl, rfl, rfl, rfl, rfl⟩, ?_, by simp, by simp, ?_⟩
    · rw [Nat.add_zero, Nat.mod_eq_of_lt hs]
    · intro fuel
      simp
  | succ n ih =>
    intro i p len flow msg_len sends recvs sent h hs hphone hpb hman hmb hvl hvb hcap hsend
      hsl hack hrl
    obtain ⟨hseq, hbound, hfull, hinv⟩ := h (Nat.succ_pos n)
    rw [Nat.add_sub_cancel] at hfull
    cases sends with
    | nil => simp at hsl
    | cons s0 sends =>
      cases recvs with
      | nil => simp at hrl
      | cons o rs =>
        have hs0 : s0 = true := hsend s0 (List.mem_cons_self _ _)
        subst hs0
        have hlen : 0 < len := by omega
        generalize hc : (if len > max_data_len then max_data_len else len) = c
        have hcle : c ≤ max_data_len ∧ c ≤ len := by
          rw [← hc]; split_ifs <;> omega
        have hoff : (p.packet_sequence_num - 1) * max_data_len = i * max_data_len := by
          rw [hseq, Nat.add_sub_cancel]
        obtain ⟨a, b, ml, hstep⟩ := upgradeLoop_round cap devs data max_data_len p len c flow
          msg_len sends o rs sent hc hmax (by omega) (by omega) hlen (by rw [hoff]; exact hinv)
          hL hdb hphone hpb hman hmb hvl hvb hcap h16 (hack o (List.mem_cons_self _ _))
        rw [hoff] at hstep
        obtain ⟨q, flow1, ml1, new, hq, hqs, hmap, hall, hloop⟩ := ih (i + 1)
          { p with
            packet_data_len := c,
            packet_data := (data.drop (i * max_data_len)).take c
              ++ List.replicate (1024 - c) 0,
            respond_flow_num := a, respond_id := b,
            packet_sequence_num := (p.packet_sequence_num + 1) % 65536 }
          (len - c) ((flow + 1) % 65536) ml sends rs
          (sent ++ [⟨{ p with
              packet_data_len := c,
              packet_data := (data.drop (i * max_data_len)).take c
                ++ List.replicate (1024 - c) 0 },
            updatePackageFrameSpec { p with
              packet_data_len := c,
              packet_data := (data.drop (i * max_data_len)).take c
                ++ List.replicate (1024 - c) 0 } ((flow + 1) % 65536)⟩])
          (fun hn => by
            obtain ⟨m, rfl⟩ : ∃ m, n = m + 1 := ⟨n - 1, by omega⟩
            rw [Nat.succ_mul] at hfull
            have hcm : c = max_data_len := by
              rw [← hc, if_pos (by omega)]
            refine ⟨?_, by omega, ?_, ?_⟩
            · simp only []
              rw [hseq]
              omega
            · rw [Nat.add_sub_cancel, hcm]
              omega
            · rw [Nat.succ_mul, hcm]
              omega)
          (Nat.mod_lt _ (by norm_num)) hphone hpb hman hmb hvl hvb hcap
          (fun b hb => hsend b (List.mem_cons_of_mem _ hb))
          (by simp only [List.length_cons] at hsl; omega)
          (fun o ho => hack o (List.mem_cons_of_mem _ ho))
          (by simp only [List.length_cons] at hrl; omega)
        have hsub : len - c - n * max_data_len = len - (n + 1) * max_data_len := by
          rw [Nat.succ_mul]
          by_cases hlm : len > max_data_len
          · rw [← hc, if_pos hlm]
            omega
          · rw [← hc, if_neg hlm]
            omega
        refine ⟨q, flow1, ml1,
          ⟨{ p with
              packet_data_len := c,
              packet_data := (data.drop (i * max_data_len)).take c
                ++ List.replicate (1024 - c) 0 },
            updatePackageFrameSpec { p with
              packet_data_len := c,
              packet_data := (data.drop (i * max_data_len)).take c
                ++ List.replicate (1024 - c) 0 } ((flow + 1) % 65536)⟩ :: new,
          sameUpgradeEnvelope_trans _ _ _ ⟨rfl, rfl, rfl, rfl, rfl, rfl⟩ hq, ?_, ?_, ?_, ?_⟩
        · rw [hqs]
          simp only []
          omega
        · rw [List.range_succ_eq_map, List.map_cons, List.map_cons, List.map_map, hmap]
          simp only [Nat.add_zero]
          congr 1
          · rw [hseq]
            congr 1
            rw [List.take_left' (by rw [List.length_take, List.length_drop]; omega)]
            exact chunk_take_eq data (i * max_data_len) len max_data_len c hinv hc
          · apply List.map_congr_left
            intro j _
            simp only [Function.comp, Nat.succ_eq_add_one]
            rw [show i + 1 + 1 + j = i + 1 + (j + 1) by omega,
              show i + 1 + j = i + (j + 1) by omega]
        · intro f hf
          rcases List.mem_cons.mp hf with h1 | h1
          · rw [h1]
            exact ⟨⟨rfl, rfl, rfl, rfl, rfl, rfl⟩, _, rfl⟩
          · obtain ⟨h2, h3⟩ := hall f h1
            exact ⟨sameUpgradeEnvelope_trans _ _ _ ⟨rfl, rfl, rfl, rfl, rfl, rfl⟩ h2, h3⟩
        · intro fuel
          rw [← Nat.add_assoc, hstep (fuel + n), hloop fuel, hsub, List.drop_succ_cons,
            List.drop_succ_cons, List.append_assoc, List.singleton_append]

theorem mem_takeWhile_lt (l : List Nat) (q : Nat → Bool) (h : ∀ b ∈ l, b < 256) :
    ∀ b ∈ l.takeWhile q, b < 256 :=
  fun b hb => h b ((List.takeWhile_sublist q).subset hb)

/-- `UpgradeHandler`, lines 2392-2431 and the first `n` rounds of its loop, for a
terminal with a pending upgrade, a version string of at most 32 bytes and a file below
4 GiB, when every send succeeds and the terminal answers every package: the envelope
holds the zeroed phone number, the version, `packet_total_num = len / max_data_len + 1`
and the frames are the packages with the indices 1 to `n`. -/
theorem UpgradeHandler_rounds (cap flow : Nat) (devs : List DeviceNode) (device : DeviceNode)
    (file : List Nat) (sends : List Bool) (recvs : List RecvOutcome) (n : Nat)
    (hdev : (devs.find? fun d => d.has_upgrade) = some device)
    (hv32 : (device.upgrade_version.takeWhile fun c => decide (c ≠ 0)).length ≤ 32)
    (hvb : ∀ b ∈ device.upgrade_version, b < 256)
    (hfb : ∀ b ∈ file, b < 256) (hL : file.length < 4294967296)
    (hn : 0 < n → n ≤ 65535 ∧
      (n - 1) * (1012 - (device.upgrade_version.takeWhile fun c => decide (c ≠ 0)).length)
        < file.length)
    (hsend : ∀ b ∈ sends, b = true) (hsl : n ≤ sends.length)
    (hack : ∀ o ∈ recvs, Acknowledges cap devs upgradeAccept o) (hrl : n ≤ recvs.length)
    (hcap : 3121 ≤ cap) (h16 : cap < 65536) :
    ∃ q flow1 ml new,
      sameUpgradeEnvelope
        { zeroParameters with
          version_num := (device.upgrade_version.takeWhile fun c => decide (c ≠ 0))
            ++ List.replicate
                (32 - (device.upgrade_version.takeWhile fun c => decide (c ≠ 0)).length) 0,
          packet_total_num := (file.length
            / (1012 - (device.upgrade_version.takeWhile fun c => decide (c ≠ 0)).length) + 1)
            % 65536,
          packet_sequence_num := 1,
          upgrade_type := device.upgrade_type % 256,
          version_num_len :=
            (device.upgrade_version.takeWhile fun c => decide (c ≠ 0)).length } q ∧
      q.packet_sequence_num = (1 + n) % 65536 ∧
      new.map (fun f => (f.propara.packet_sequence_num,
          f.propara.packet_data.take f.propara.packet_data_len))
        = (List.range n).map (fun j => (j + 1, fileChunkSpec file
            (1012 - (device.upgrade_version.takeWhile fun c => decide (c ≠ 0)).length) j)) ∧
      (∀ f ∈ new, sameUpgradeEnvelope
          { zeroParameters with
            version_num := (device.upgrade_version.takeWhile fun c => decide (c ≠ 0))
              ++ List.replicate
                  (32 - (device.upgrade_version.takeWhile fun c => decide (c ≠ 0)).length) 0,
            packet_total_num := (file.length
              / (1012 - (device.upgrade_version.takeWhile fun c => decide (c ≠ 0)).length) + 1)
              % 65536,
            packet_sequence_num := 1,
            upgrade_type := device.upgrade_type % 256,
            version_num_len :=
              (device.upgrade_version.takeWhile fun c => decide (c ≠ 0)).length } f.propara ∧
        ∃ fl, f.frame = updatePackageFrameSpec f.propara fl) ∧
      ∀ fuel, UpgradeHandler (fuel + n) cap flow devs (some file) sends recvs
        = upgradeLoop cap devs file
            (1012 - (device.upgrade_version.takeWhile fun c => decide (c ≠ 0)).length) fuel
            (file.length
              - n * (1012 - (device.upgrade_version.takeWhile fun c => decide (c ≠ 0)).length))
            q flow1 ml (sends.drop n) (recvs.drop n) new := by
  generalize hver : (device.upgrade_version.takeWhile fun c => decide (c ≠ 0)) = version
    at hv32 hn ⊢
  have hverb : ∀ b ∈ version, b < 256 := by
    rw [← hver]
    exact mem_takeWhile_lt _ _ hvb
  have hmaxeq : (1023 + 4294967296 - 11 - version.length % 4294967296) % 4294967296
      = 1012 - version.length := by omega
  have hlen : file.length % 4294967296 = file.length := Nat.mod_eq_of_lt hL
  have hvn : memcpy zeroParameters.version_num 0 version version.length
      = some (version ++ List.replicate (32 - version.length) 0) := by
    have hz : zeroParameters.version_num = List.replicate 32 0 := rfl
    rw [hz, memcpy_zero _ _ _ (le_refl _) (by rw [List.length_replicate]; exact hv32),
      List.take_length, List.drop_replicate]
  have hvl : version.length % 256 = version.length := Nat.mod_eq_of_lt (by omega)
  obtain ⟨q, flow1, ml, new, hq, hqs, hmap, hall, hloop⟩ := upgradeLoop_rounds cap devs file
    (1012 - version.length) (by omega) hL hfb h16 n 0
    { zeroParameters with
      version_num := version ++ List.replicate (32 - version.length) 0,
      packet_total_num := (file.length / (1012 - version.length) + 1) % 65536,
      packet_sequence_num := 1,
      upgrade_type := device.upgrade_type % 256,
      version_num_len := version.length }
    file.length flow 0 sends recvs []
    (fun h0 => ⟨rfl, by have := (hn h0).1; omega, (hn h0).2, by omega⟩)
    (by show 1 < 65536; norm_num) rfl
    (by show ∀ b ∈ zeroParameters.phone_num, b < 256; decide)
    (by show 5 ≤ zeroParameters.manufacturer_id.length; decide)
    (by show ∀ b ∈ zeroParameters.manufacturer_id, b < 256; decide)
    (by simp only [List.length_append, List.length_replicate]; omega)
    (fun b hb => by
      rcases List.mem_append.mp hb with h | h
      · exact hverb b h
      · rw [List.mem_replicate] at h
        omega)
    (by simp only []; omega) hsend hsl hack hrl
  refine ⟨q, flow1, ml, new, hq, hqs, ?_, hall, ?_⟩
  · rw [hmap]
    apply List.map_congr_left
    intro j _
    rw [Nat.zero_add, Nat.zero_add, Nat.add_comm]
  · intro fuel
    unfold UpgradeHandler
    simp only [hdev, hver, Option.bind_eq_bind, hvn, Option.some_bind, hmaxeq, hlen, hvl,
      List.take_length]
    rw [hloop fuel, List.nil_append]

/-- `UpgradeHandler` for a file that `n` packages hold, `n ≤ 65535`: the run ends with
the socket open, and the frames are the packages with the indices 1 to `n`. -/
theorem UpgradeHandler_run (fuel cap flow : Nat) (devs : List DeviceNode)
    (device : DeviceNode) (file : List Nat) (sends : List Bool) (recvs : List RecvOutcome)
    (n : Nat)
    (hdev : (devs.find? fun d => d.has_upgrade) = some device)
    (hv32 : (device.upgrade_version.takeWhile fun c => decide (c ≠ 0)).length ≤ 32)
    (hvb : ∀ b ∈ device.upgrade_version, b < 256)
    (hfb : ∀ b ∈ file, b < 256)
    (hn1 : file.length
      ≤ n * (1012 - (device.upgrade_version.takeWhile fun c => decide (c ≠ 0)).length))
    (hn2 : 0 < n →
      (n - 1) * (1012 - (device.upgrade_version.takeWhile fun c => decide (c ≠ 0)).length)
        < file.length)
    (h65535 : n ≤ 65535)
    (hsend : ∀ b ∈ sends, b = true) (hsl : n ≤ sends.length)
    (hack : ∀ o ∈ recvs, Acknowledges cap devs upgradeAccept o) (hrl : n ≤ recvs.length)
    (hfuel : n < fuel) (hcap : 3121 ≤ cap) (h16 : cap < 65536) :
    ∃ run, UpgradeHandler fuel cap flow devs (some file) sends recvs = some run ∧
      run.closed = false ∧
      run.sent.map (fun f => (f.propara.packet_sequence_num,
          f.propara.packet_data.take f.propara.packet_data_len))
        = (List.range n).map (fun j => (j + 1, fileChunkSpec file
            (1012 - (device.upgrade_version.takeWhile fun c => decide (c ≠ 0)).length) j)) ∧
      ∀ f ∈ run.sent,
        f.propara.packet_total_num = (file.length
          / (1012 - (device.upgrade_version.takeWhile fun c => decide (c ≠ 0)).length) + 1)
          % 65536 ∧
        f.propara.upgrade_type = device.upgrade_type % 256 ∧
        f.propara.version_num.take f.propara.version_num_len
          = (device.upgrade_version.takeWhile fun c => decide (c ≠ 0)) ∧
        ∃ fl, f.frame = updatePackageFrameSpec f.propara fl := by
  have hL : file.length < 4294967296 := by
    have h1 : n * (1012 - (device.upgrade_version.takeWhile fun c => decide (c ≠ 0)).length)
        ≤ 65535 * 1012 :=
      Nat.mul_le_mul h65535 (Nat.sub_le _ _)
    omega
  obtain ⟨q, flow1, ml, new, _, _, hmap, hall, hloop⟩ := UpgradeHandler_rounds cap flow devs
    device file sends recvs n hdev hv32 hvb hfb hL (fun h0 => ⟨h65535, hn2 h0⟩) hsend hsl
    hack hrl hcap h16
  obtain ⟨f1, rfl⟩ : ∃ f1, fuel = f1 + 1 + n := ⟨fuel - 1 - n, by omega⟩
  refine ⟨⟨new, false, flow1⟩, ?_, rfl, hmap, ?_⟩
  · rw [hloop (f1 + 1), Nat.sub_eq_zero_of_le hn1, upgradeLoop]
    simp
  · intro f hf
    obtain ⟨⟨_, _, h3, h4, h5, h6⟩, hfr⟩ := hall f hf
    refine ⟨h3, h4, ?_, hfr⟩
    rw [h5, h6]
    simp only []
    rw [List.take_left]

/-- The chunks with the indices below `n`, one behind the other, are the first
`n * max_chunk` bytes of the file. -/
theorem fileChunks_flatMap (file : List Nat) (max_chunk : Nat) :
    ∀ n, (List.range n).flatMap (fileChunkSpec file max_chunk) = file.take (n * max_chunk) := by
  intro n
  induction n with
  | zero => simp
  | succ n ih =>
    rw [List.range_succ, List.flatMap_append, ih, List.flatMap_singleton, Nat.succ_mul,
      List.take_add]
    rfl

theorem fileChunk_length (file : List Nat) (max_chunk n : Nat)
    (h2 : 0 < n → (n - 1) * max_chunk < file.length) :
    (∀ j, j + 1 < n → (fileChunkSpec file max_chunk j).length = max_chunk) ∧
    (0 < n → file.length ≤ n * max_chunk →
      (fileChunkSpec file max_chunk (n - 1)).length = file.length - (n - 1) * max_chunk) := by
  constructor
  · intro j hj
    have h := h2 (by omega)
    have hle : (j + 1) * max_chunk ≤ (n - 1) * max_chunk :=
      Nat.mul_le_mul_right _ (by omega)
    rw [Nat.succ_mul] at hle
    unfold fileChunkSpec
    rw [List.length_take, List.length_drop]
    omega
  · intro hn h1
    obtain ⟨m, rfl⟩ : ∃ m, n = m + 1 := ⟨n - 1, by omega⟩
    rw [Nat.succ_mul] at h1
    unfold fileChunkSpec
    rw [List.length_take, List.length_drop, Nat.add_sub_cancel]
    omega

/-- C30, as amended: for a terminal with a pending upgrade (version string of at most 32
bytes) and a file of fewer than `65535 * max_chunk` bytes, `max_chunk = 1012 -
len(version)`, when every send succeeds and every package is acknowledged, `UpgradeHandler`
sends `n` frames, `n` the number of chunks of `max_chunk` bytes that hold the file.  The
k-th frame is the upgrade package 0x8108 of an envelope with the packet index `k` and the
file bytes `[(k-1) * max_chunk, min(k * max_chunk, file_size))` as its data; the payloads,
one behind the other, are the file, every payload but the last has `max_chunk` bytes and
the last has `file_size - (n-1) * max_chunk` bytes.  The envelopes hold `file_size /
max_chunk + 1` as `packet_total_num`, so the header carries the fragmentation words
(total and index) when the file has at least `max_chunk` bytes. -/
theorem upgrade_packages_in_order (fuel cap flow : Nat) (devs : List DeviceNode)
    (device : DeviceNode) (file : List Nat) (sends : List Bool) (recvs : List RecvOutcome)
    (n : Nat)
    (hdev : (devs.find? fun d => d.has_upgrade) = some device)
    (hv32 : (device.upgrade_version.takeWhile fun c => decide (c ≠ 0)).length ≤ 32)
    (hvb : ∀ b ∈ device.upgrade_version, b < 256)
    (hfb : ∀ b ∈ file, b < 256)
    (hsize : file.length
      < 65535 * (1012 - (device.upgrade_version.takeWhile fun c => decide (c ≠ 0)).length))
    (hn1 : file.length
      ≤ n * (1012 - (device.upgrade_version.takeWhile fun c => decide (c ≠ 0)).length))
    (hn2 : 0 < n →
      (n - 1) * (1012 - (device.upgrade_version.takeWhile fun c => decide (c ≠ 0)).length)
        < file.length)
    (hsend : ∀ b ∈ sends, b = true) (hsl : n ≤ sends.length)
    (hack : ∀ o ∈ recvs, Acknowledges cap devs upgradeAccept o) (hrl : n ≤ recvs.length)
    (hfuel : n < fuel) (hcap : 3121 ≤ cap) (h16 : cap < 65536) :
    ∃ run, UpgradeHandler fuel cap flow devs (some file) sends recvs = some run ∧
      run.closed = false ∧
      run.sent.map (fun f => (f.propara.packet_sequence_num,
          f.propara.packet_data.take f.propara.packet_data_len))
        = (List.range n).map (fun j => (j + 1, fileChunkSpec file
            (1012 - (device.upgrade_version.takeWhile fun c => decide (c ≠ 0)).length) j)) ∧
      (run.sent.flatMap fun f => f.propara.packet_data.take f.propara.packet_data_len)
        = file ∧
      (∀ j, j + 1 < n → (fileChunkSpec file
          (1012 - (device.upgrade_version.takeWhile fun c => decide (c ≠ 0)).length) j).length
        = 1012 - (device.upgrade_version.takeWhile fun c => decide (c ≠ 0)).length) ∧
      (0 < n → (fileChunkSpec file
          (1012 - (device.upgrade_version.takeWhile fun c => decide (c ≠ 0)).length)
          (n - 1)).length
        = file.length - (n - 1)
          * (1012 - (device.upgrade_version.takeWhile fun c => decide (c ≠ 0)).length)) ∧
      ∀ f ∈ run.sent,
        f.propara.packet_total_num = file.length
          / (1012 - (device.upgrade_version.takeWhile fun c => decide (c ≠ 0)).length) + 1 ∧
        f.propara.upgrade_type = device.upgrade_type % 256 ∧
        f.propara.version_num.take f.propara.version_num_len
          = (device.upgrade_version.takeWhile fun c => decide (c ≠ 0)) ∧
        ∃ fl, f.frame = updatePackageFrameSpec f.propara fl := by
  generalize hmx : 1012 - (device.upgrade_version.takeWhile fun c => decide (c ≠ 0)).length
    = mx at hsize hn1 hn2 ⊢
  have hmx0 : 0 < mx := by omega
  have h65535 : n ≤ 65535 := by
    by_contra hc
    have h1 : 65535 * mx ≤ (n - 1) * mx := Nat.mul_le_mul_right _ (by omega)
    have h2 := hn2 (by omega)
    omega
  obtain ⟨run, hrun, hclosed, hmap, hall⟩ := UpgradeHandler_run fuel cap flow devs device file
    sends recvs n hdev hv32 hvb hfb (by rw [hmx]; exact hn1) (by rw [hmx]; exact hn2) h65535
    hsend hsl hack hrl hfuel hcap h16
  rw [hmx] at hmap hall
  have hlens := fileChunk_length file mx n hn2
  refine ⟨run, hrun, hclosed, hmap, ?_, hlens.1, fun h0 => hlens.2 h0 hn1, ?_⟩
  · have h1 : (run.sent.flatMap fun f => f.propara.packet_data.take f.propara.packet_data_len)
        = (run.sent.map (fun f => (f.propara.packet_sequence_num,
            f.propara.packet_data.take f.propara.packet_data_len))).flatMap Prod.snd := by
      rw [List.flatMap_map]
    rw [h1, hmap, List.flatMap_map]
    have h2 := fileChunks_flatMap file mx n
    rw [List.take_of_length_le hn1] at h2
    exact h2
  · intro f hf
    obtain ⟨h1, h2, h3, h4⟩ := hall f hf
    refine ⟨?_, h2, h3, h4⟩
    rw [h1]
    apply Nat.mod_eq_of_lt
    have : file.length / mx < 65535 := Nat.div_lt_of_lt_mul (by rw [Nat.mul_comm]; exact hsize)
    omega

theorem exampleFirmware_length : exampleFirmware.length = 3500 := by
  simp [exampleFirmware]

theorem exampleFirmware_bytes : ∀ b ∈ exampleFirmware, b < 256 := by
  intro b hb
  simp only [exampleFirmware, List.mem_map] at hb
  obtain ⟨i, _, rfl⟩ := hb
  exact Nat.mod_lt _ (by norm_num)

theorem upgradeDevice_version :
    (upgradeDevice.upgrade_version.takeWhile fun c => decide (c ≠ 0)).length = 4 := by
  decide

theorem upgrade_acknowledged (k : Nat) (devs : List DeviceNode) :
    ∀ o ∈ List.replicate k (RecvOutcome.data (respondFrame 0x8108)),
      Acknowledges 4096 devs upgradeAccept o := by
  intro o ho
  rw [List.eq_of_mem_replicate ho]
  exact respondFrame_acknowledges 4096 0x8108 devs upgradeAccept (by decide) (by decide)
    (by decide) upgradeAccept_respond

theorem sends_succeed (k : Nat) : ∀ b ∈ List.replicate k true, b = true :=
  fun _ hb => List.eq_of_mem_replicate hb

/-- Witness of C30 as amended: the file `exampleFirmware` of 3500 bytes for the terminal
`upgradeDevice` with the version `V1.0` (`max_chunk = 1008`), in four packages. -/
theorem upgrade_packages_in_order_witness :
    ((([upgradeDevice].find? fun d => d.has_upgrade) = some upgradeDevice ∧
      (upgradeDevice.upgrade_version.takeWhile fun c => decide (c ≠ 0)).length ≤ 32 ∧
      exampleFirmware.length
        < 65535 * (1012 - (upgradeDevice.upgrade_version.takeWhile
            fun c => decide (c ≠ 0)).length) ∧
      exampleFirmware.length
        ≤ 4 * (1012 - (upgradeDevice.upgrade_version.takeWhile
            fun c => decide (c ≠ 0)).length) ∧
      (4 - 1) * (1012 - (upgradeDevice.upgrade_version.takeWhile
            fun c => decide (c ≠ 0)).length) < exampleFirmware.length)) ∧
    ∃ run, UpgradeHandler 10 4096 0 [upgradeDevice] (some exampleFirmware)
        (List.replicate 4 true) (List.replicate 4 (RecvOutcome.data (respondFrame 0x8108)))
        = some run ∧
      run.closed = false ∧
      run.sent.map (fun f => (f.propara.packet_sequence_num,
          f.propara.packet_data.take f.propara.packet_data_len))
        = (List.range 4).map (fun j => (j + 1, fileChunkSpec exampleFirmware
            (1012 - (upgradeDevice.upgrade_version.takeWhile
              fun c => decide (c ≠ 0)).length) j)) ∧
      (run.sent.flatMap fun f => f.propara.packet_data.take f.propara.packet_data_len)
        = exampleFirmware ∧
      (∀ j, j + 1 < 4 → (fileChunkSpec exampleFirmware
          (1012 - (upgradeDevice.upgrade_version.takeWhile
            fun c => decide (c ≠ 0)).length) j).length
        = 1012 - (upgradeDevice.upgrade_version.takeWhile fun c => decide (c ≠ 0)).length) ∧
      (0 < 4 → (fileChunkSpec exampleFirmware
          (1012 - (upgradeDevice.upgrade_version.takeWhile
            fun c => decide (c ≠ 0)).length) (4 - 1)).length
        = exampleFirmware.length - (4 - 1)
          * (1012 - (upgradeDevice.upgrade_version.takeWhile
              fun c => decide (c ≠ 0)).length)) ∧
      ∀ f ∈ run.sent,
        f.propara.packet_total_num = exampleFirmware.length
          / (1012 - (upgradeDevice.upgrade_version.takeWhile
              fun c => decide (c ≠ 0)).length) + 1 ∧
        f.propara.upgrade_type = upgradeDevice.upgrade_type % 256 ∧
        f.propara.version_num.take f.propara.version_num_len
          = (upgradeDevice.upgrade_version.takeWhile fun c => decide (c ≠ 0)) ∧
        ∃ fl, f.frame = updatePackageFrameSpec f.propara fl :=
  ⟨⟨by decide, by decide,
      by rw [exampleFirmware_length, upgradeDevice_version]; decide,
      by rw [exampleFirmware_length, upgradeDevice_version]; decide,
      by rw [exampleFirmware_length, upgradeDevice_version]; decide⟩,
   upgrade_packages_in_order 10 4096 0 [upgradeDevice] upgradeDevice exampleFirmware
     (List.replicate 4 true) (List.replicate 4 (RecvOutcome.data (respondFrame 0x8108))) 4
     (by decide) (by decide) (by decide) exampleFirmware_bytes
     (by rw [exampleFirmware_length, upgradeDevice_version]; decide)
     (by rw [exampleFirmware_length, upgradeDevice_version]; decide)
     (fun _ => by rw [exampleFirmware_length, upgradeDevice_version]; decide)
     (sends_succeed 4) (by decide) (upgrade_acknowledged 4 [upgradeDevice]) (by decide)
     (by decide) (by decide) (by decide)⟩

/-- C29, at the failing input: a file of 2016 bytes for the terminal `upgradeDevice` with
the version `V1.0`.  `max_data_len` is `1023 - 11 - 4 = 1008`, the file goes out in two
packages of 1008 bytes with the indices 1 and 2, and both envelopes hold
`packet_total_num = 2016 / 1008 + 1 = 3`, which the fragmentation words of both frames
carry: line 2428 adds 1 to the quotient also when the division leaves no remainder. -/
theorem upgrade_total_packets_overcounts :
    ∃ run, UpgradeHandler 10 4096 0 [upgradeDevice] (some (List.replicate 2016 0))
        (List.replicate 2 true) (List.replicate 2 (RecvOutcome.data (respondFrame 0x8108)))
        = some run ∧
      run.closed = false ∧
      run.sent.map (fun f => f.propara.packet_sequence_num) = [1, 2] ∧
      run.sent.map (fun f => (f.propara.packet_data.take f.propara.packet_data_len).length)
        = [1008, 1008] ∧
      ∀ f ∈ run.sent, f.propara.packet_total_num = 3 ∧
        fragmentWordsSpec f.propara = be16 3 ++ be16 f.propara.packet_sequence_num ∧
        ∃ fl, f.frame = updatePackageFrameSpec f.propara fl := by
  have hlen : (List.replicate 2016 0).length = 2016 := List.length_replicate _ _
  obtain ⟨run, hrun, hclosed, hmap, hall⟩ := UpgradeHandler_run 10 4096 0
    [upgradeDevice] upgradeDevice (List.replicate 2016 0) (List.replicate 2 true)
    (List.replicate 2 (RecvOutcome.data (respondFrame 0x8108))) 2 (by decide) (by decide)
    (by decide) (fun b hb => by rw [List.eq_of_mem_replicate hb]; norm_num)
    (by rw [hlen, upgradeDevice_version])
    (fun _ => by rw [hlen, upgradeDevice_version]; decide) (by decide)
    (sends_succeed 2) (by decide) (upgrade_acknowledged 2 [upgradeDevice]) (by decide)
    (by decide) (by decide) (by decide)
  rw [hlen, upgradeDevice_version] at hall
  rw [upgradeDevice_version] at hmap
  have hch := fileChunk_length (List.replicate 2016 0) 1008 2
    (fun _ => by rw [hlen]; decide)
  have hlast := hch.2 (by norm_num) (by rw [hlen])
  rw [hlen] at hlast
  refine ⟨run, hrun, hclosed, ?_, ?_, ?_⟩
  · have h := congrArg (List.map Prod.fst) hmap
    rw [List.map_map, List.map_map] at h
    exact h
  · have h := congrArg (List.map fun x : Nat × List Nat => x.2.length) hmap
    rw [List.map_map, List.map_map] at h
    rw [show (run.sent.map fun f =>
        (f.propara.packet_data.take f.propara.packet_data_len).length)
      = run.sent.map ((fun x : Nat × List Nat => x.2.length) ∘ fun f =>
          (f.propara.packet_sequence_num,
            f.propara.packet_data.take f.propara.packet_data_len)) from rfl, h]
    simp only [List.range_succ, List.range_zero, List.nil_append, List.cons_append,
      List.map_cons, List.map_nil, Function.comp]
    rw [hch.1 0 (by norm_num), hlast]
  · intro f hf
    obtain ⟨h1, _, _, h4⟩ := hall f hf
    have h3 : f.propara.packet_total_num = 3 := by rw [h1]
    refine ⟨h3, ?_, h4⟩
    unfold fragmentWordsSpec
    rw [h3, if_pos (by norm_num)]

/-- `UpgradeHandler` for the terminal `upgradeDevice` and a file of `65535 * 1008 + 1`
bytes: behind the package with the index 65535 the `uint16_t` counter
`packet_sequence_num` is 0, the offset `max_data_len * (packet_sequence_num - 1)` is
`2^32 - 1008`, and the `memcpy` of lines 2442-2444 reads outside the array `data`. -/
theorem UpgradeHandler_wraps (file : List Nat) (hlen : file.length = 66059281)
    (hfb : ∀ b ∈ file, b < 256) (sends : List Bool) (recvs : List RecvOutcome)
    (hsend : ∀ b ∈ sends, b = true) (hsl : 65535 ≤ sends.length)
    (hack : ∀ o ∈ recvs, Acknowledges 4096 [upgradeDevice] upgradeAccept o)
    (hrl : 65535 ≤ recvs.length) :
    UpgradeHandler (1 + 1 + 65535) 4096 0 [upgradeDevice] (some file) sends recvs = none := by
  obtain ⟨q, flow1, ml, new, _, hqs, _, _, hloop⟩ := UpgradeHandler_rounds 4096 0
    [upgradeDevice] upgradeDevice file sends recvs 65535 (by decide) (by decide)
    (by decide) hfb (by rw [hlen]; norm_num)
    (fun _ => by rw [hlen, upgradeDevice_version]; norm_num)
    hsend hsl hack hrl (by decide) (by decide)
  rw [hloop (1 + 1), hlen, upgradeDevice_version]
  have hq0 : q.packet_sequence_num = 0 := by rw [hqs]
  have hrem : 66059281 - 65535 * (1012 - 4) = 1 := by norm_num
  have hoff : (1012 - 4) * ((q.packet_sequence_num % 65536 + 4294967295) % 4294967296)
      % 4294967296 = 4294966288 := by
    rw [hq0]
  have hload : ∀ c, loadBytes file 4294966288 c = none := by
    intro c
    unfold loadBytes
    rw [if_neg (by rw [hlen]; omega)]
  rw [hrem, upgradeLoop]
  simp only [gt_iff_lt, Nat.lt_one_iff, Nat.zero_lt_one, if_true, hoff, hload,
    Option.bind_eq_bind, Option.none_bind]

/-- C30 fails as stated: for a file of `65535 * 1008 + 1 = 66059281` bytes and the
version `V1.0`, with every send successful and every package acknowledged,
`UpgradeHandler` has no result within 65537 rounds of its loop, which 65536 packages
need: behind the package with the index 65535 the 16-bit packet index is 0 and the bytes
for the next package are read at the offset `2^32 - 1008`, outside the file. -/
theorem upgrade_packet_index_wraps :
    UpgradeHandler 65537 4096 0 [upgradeDevice] (some (List.replicate 66059281 0))
      (List.replicate 65536 true)
      (List.replicate 65536 (RecvOutcome.data (respondFrame 0x8108))) = none :=
  UpgradeHandler_wraps (List.replicate 66059281 0) (List.length_replicate _ _)
    (fun b hb => by rw [List.eq_of_mem_replicate hb]; norm_num)
    (List.replicate 65536 true)
    (List.replicate 65536 (RecvOutcome.data (respondFrame 0x8108)))
    (sends_succeed 65536) (by rw [List.length_replicate]; norm_num)
    (upgrade_acknowledged 65536 [upgradeDevice])
    (by rw [List.length_replicate]; norm_num)

/-- The escaped bytes hold no delimiter. -/
theorem escapeSpec_no_sign (bs : List Nat) : 0x7E ∉ escapeSpec bs := by
  induction bs with
  | nil => simp [escapeSpec]
  | cons b bs ih =>
    simp only [escapeSpec, List.mem_append, not_or]
    refine ⟨?_, ih⟩
    split_ifs with h1 h2
    · simp
    · simp
    · simpa using fun h => h1 h.symm

/-- In the escaped bytes every escape byte is followed by `0x01` or `0x02`. -/
theorem escapeSpec_followed (bs : List Nat) :
    ∀ i, (escapeSpec bs)[i]? = some 0x7D →
      (escapeSpec bs)[i + 1]? = some 0x01 ∨ (escapeSpec bs)[i + 1]? = some 0x02 := by
  induction bs with
  | nil => intro i h; simp [escapeSpec] at h
  | cons b bs ih =>
    intro i h
    simp only [escapeSpec] at h ⊢
    split_ifs at h ⊢ with h1 h2
    · match i, h with
      | 0, _ => right; simp
      | 1, h => simp at h
      | i + 2, h =>
        simp only [List.cons_append, List.nil_append, List.getElem?_cons_succ] at h ⊢
        exact ih i h
    · match i, h with
      | 0, _ => left; simp
      | 1, h => simp at h
      | i + 2, h =>
        simp only [List.cons_append, List.nil_append, List.getElem?_cons_succ] at h ⊢
        exact ih i h
    · match i, h with
      | 0, h =>
        simp only [List.cons_append, List.nil_append, List.getElem?_cons_zero,
          Option.some.injEq] at h
        exact absurd h h2
      | i + 1, h =>
        simp only [List.cons_append, List.nil_append, List.getElem?_cons_succ] at h ⊢
        exact ih i h

/-- `Jt808FramePack` into a zeroed buffer, for a downlink command and an envelope the
command can read: the call returns a frame, which is `0x7E`, bytes without `0x7E`, and
`0x7E`. -/
theorem Jt808FramePack_delimiters (flow cap len0 command : Nat)
    (propara : ProtocolParameters)
    (hcmd : command ∈ downlinkCommands) (hwf : packable command propara)
    (hcap : 2 * packedLength command propara + 3 ≤ cap) (hcap16 : cap < 65536) :
    ∃ msg1 n inner, Jt808FramePack flow ⟨List.replicate cap 0, len0⟩ command propara
        = some ((flow + 1) % 65536, msg1, n) ∧
      msg1.buffer.take n = [0x7E] ++ inner ++ [0x7E] ∧ 0x7E ∉ inner := by
  obtain ⟨a, Y, k, hY, hun⟩ := packUnescaped_zero flow cap len0 command propara hcmd hwf
    (by omega)
  obtain ⟨X, hX⟩ : ∃ X, X = be16 command ++ be16 a ++ propara.phone_num
      ++ be16 ((flow + 1) % 65536) ++ Y := ⟨_, rfl⟩
  rw [← hX] at hun
  have hXl : X.length = packedLength command propara := by
    rw [hX]; simp [be16_length, hwf.1]; omega
  have hz : List.replicate (cap - 1 - packedLength command propara) 0
      = 0 :: List.replicate (cap - 2 - packedLength command propara) 0 := by
    rw [show cap - 1 - packedLength command propara
      = (cap - 2 - packedLength command propara) + 1 by omega]
    rfl
  have hle := escapeSpec_length_le X
  have hesc := packEscape_eq 0 X 0
    (List.replicate (cap - 2 - packedLength command propara) 0) k (by decide) (by decide)
    (by omega) (by rw [List.length_replicate]; omega)
  rw [hXl, ← hz] at hesc
  refine ⟨⟨0x7E :: (escapeSpec X ++ 0x7E :: List.drop ((escapeSpec X).length + 1)
      (X ++ List.replicate (cap - 1 - packedLength command propara) 0)),
      (escapeSpec X).length + 2⟩, (escapeSpec X).length + 2, escapeSpec X, ?_, ?_,
    escapeSpec_no_sign X⟩
  · simp only [Jt808FramePack, Option.bind_eq_bind, hun, Option.some_bind, hesc,
      Option.pure_def]
  · simp only []
    rw [show (0x7E : Nat) :: (escapeSpec X ++ 0x7E :: List.drop ((escapeSpec X).length + 1)
          (X ++ List.replicate (cap - 1 - packedLength command propara) 0))
      = ([0x7E] ++ escapeSpec X ++ [0x7E]) ++ List.drop ((escapeSpec X).length + 1)
          (X ++ List.replicate (cap - 1 - packedLength command propara) 0) by simp]
    rw [List.take_left']
    simp

/-- C35: for every byte sequence `b` at the start of an array with room for the escaped
bytes (their count fitting the 16-bit counters), the bytes `Escape` returns hold no
`0x7E`, and every `0x7D` among them is followed at once by `0x01` or `0x02`; and for
every downlink command and every envelope the command can read, the frame that
`Jt808FramePack` builds in a zeroed buffer is `0x7E`, bytes without `0x7E`, `0x7E`. -/
theorem escaped_frame_delimiters (b post : List Nat) (flow cap len0 command : Nat)
    (propara : ProtocolParameters)
    (hfit : b.length + b.count 0x7E + b.count 0x7D ≤ (b ++ post).length)
    (h16 : b.length + b.count 0x7E + b.count 0x7D < 65535)
    (hcmd : command ∈ downlinkCommands) (hwf : packable command propara)
    (hcap : 2 * packedLength command propara + 3 ≤ cap) (hcap16 : cap < 65536) :
    (∃ out n, Escape (b ++ post) b.length = some (out, n) ∧
      0x7E ∉ out.take n ∧
      ∀ i, (out.take n)[i]? = some 0x7D →
        (out.take n)[i + 1]? = some 0x01 ∨ (out.take n)[i + 1]? = some 0x02) ∧
    ∃ msg1 n inner, Jt808FramePack flow ⟨List.replicate cap 0, len0⟩ command propara
        = some ((flow + 1) % 65536, msg1, n) ∧
      msg1.buffer.take n = [0x7E] ++ inner ++ [0x7E] ∧ 0x7E ∉ inner := by
  constructor
  · rw [← escapeSpec_length] at hfit h16
    refine ⟨_, _, Escape_eq b post (by omega) (by simpa using hfit), ?_, ?_⟩
    · rw [List.take_left']
      · exact escapeSpec_no_sign b
      · rfl
    · rw [List.take_left' rfl]
      exact escapeSpec_followed b
  · exact Jt808FramePack_delimiters flow cap len0 command propara hcmd hwf hcap hcap16

/-- Witness of C35: the bytes `7E 01 7D`, and a unified response whose body holds `0x7E`
and `0x7D`, packed into a zeroed buffer of 64 bytes. -/
theorem escaped_frame_delimiters_witness :
    (([0x7E, 0x01, 0x7D] : List Nat).length + ([0x7E, 0x01, 0x7D] : List Nat).count 0x7E
        + ([0x7E, 0x01, 0x7D] : List Nat).count 0x7D
        ≤ (([0x7E, 0x01, 0x7D] : List Nat) ++ [0, 0, 0]).length ∧
      ([0x7E, 0x01, 0x7D] : List Nat).length + ([0x7E, 0x01, 0x7D] : List Nat).count 0x7E
        + ([0x7E, 0x01, 0x7D] : List Nat).count 0x7D < 65535 ∧
      DOWN_UNIRESPONSE ∈ downlinkCommands ∧ packable DOWN_UNIRESPONSE escapedParameters ∧
      2 * packedLength DOWN_UNIRESPONSE escapedParameters + 3 ≤ 64 ∧ 64 < 65536) ∧
    (∃ out n, Escape (([0x7E, 0x01, 0x7D] : List Nat) ++ [0, 0, 0])
        ([0x7E, 0x01, 0x7D] : List Nat).length = some (out, n) ∧
      0x7E ∉ out.take n ∧
      ∀ i, (out.take n)[i]? = some 0x7D →
        (out.take n)[i + 1]? = some 0x01 ∨ (out.take n)[i + 1]? = some 0x02) ∧
    ∃ msg1 n inner, Jt808FramePack 6 ⟨List.replicate 64 0, 0⟩ DOWN_UNIRESPONSE
        escapedParameters = some ((6 + 1) % 65536, msg1, n) ∧
      msg1.buffer.take n = [0x7E] ++ inner ++ [0x7E] ∧ 0x7E ∉ inner :=
  ⟨⟨by decide, by decide, by decide, packable_uniresponse _ rfl, by decide, by decide⟩,
   escaped_frame_delimiters [0x7E, 0x01, 0x7D] [0, 0, 0] 6 64 0 DOWN_UNIRESPONSE
     escapedParameters (by decide) (by decide) (by decide) (packable_uniresponse _ rfl)
     (by decide) (by decide)⟩

set_option maxRecDepth 1000000 in
set_option maxHeartbeats 4000000 in
/-- C36, where the code departs from the claim: line 965 passes `msg.len`, which counts the slot of
the first delimiter, to `Escape(msg.buffer + 1, ..)`, so the byte behind the checksum is
escaped too and the frame depends on what the buffer held there.  A unified response
packed into a zeroed buffer of 32 bytes has 20 bytes and ends in `0x7E`; packed into a
buffer that holds `0x7E` at index 19 it has 21 bytes and ends in `7D 7E`.  So for the two
frames of a `setterminalparameter` command: the second frame is packed into the buffer
that holds the bytes received last, and when a heartbeat of the terminal stands behind
the first acknowledgement its last byte makes the second frame end in `7D 7E`. -/
theorem frame_depends_on_stale_byte :
    (Jt808FramePack 0 ⟨List.replicate 32 0, 0⟩ DOWN_UNIRESPONSE exampleParameters).map
        (fun r => (r.2.1.buffer.take r.2.2, r.2.2))
      = some ([0x7E, 0x80, 0x01, 0x00, 0x05, 0x01, 0x23, 0x45, 0x67, 0x89, 0x01, 0x00, 0x01,
          0, 0, 0, 0, 0, 0x0D, 0x7E], 20) ∧
    (Jt808FramePack 0 ⟨List.replicate 19 0 ++ [0x7E] ++ List.replicate 12 0, 0⟩
        DOWN_UNIRESPONSE exampleParameters).map (fun r => (r.2.1.buffer.take r.2.2, r.2.2))
      = some ([0x7E, 0x80, 0x01, 0x00, 0x05, 0x01, 0x23, 0x45, 0x67, 0x89, 0x01, 0x00, 0x01,
          0, 0, 0, 0, 0, 0x0D, 0x7D, 0x7E], 21) ∧
    ((parseCommandSetTerminalParameter 10 64 0 [liveDevice] liveDevice
        (List.replicate 4 paddedArgument ++ [shortArgument, [70, 48, 48, 48, 58, 49]])
        [.data (respondFrame 0x8103), .data (respondFrame 0x8103)]).map
          fun r => (r.sent.map fun f => f.frame).drop 1)
      = some [[0x7E, 0x81, 0x03, 0x20, 0x10, 0x01, 0x23, 0x45, 0x67, 0x89, 0x02, 0x00, 0x02,
          0, 2, 0, 2, 2, 0, 0, 0, 1, 4, 0, 0, 0, 1, 0, 0, 0xF0, 0, 1, 1, 0xCD, 0x7E]] ∧
    ((parseCommandSetTerminalParameter 10 64 0 [liveDevice] liveDevice
        (List.replicate 4 paddedArgument ++ [shortArgument, [70, 48, 48, 48, 58, 49]])
        [.data (respondFrame 0x8103
            ++ encode_frame (headerSpec 0x0002 0 [0x01, 0x23, 0x45, 0x67, 0x89, 0x02] 10) []),
          .data (respondFrame 0x8103)]).map
          fun r => (r.sent.map fun f => f.frame).drop 1)
      = some [[0x7E, 0x81, 0x03, 0x20, 0x10, 0x01, 0x23, 0x45, 0x67, 0x89, 0x02, 0x00, 0x02,
          0, 2, 0, 2, 2, 0, 0, 0, 1, 4, 0, 0, 0, 1, 0, 0, 0xF0, 0, 1, 1, 0xCD, 0x7D, 0x7E]] := by
  refine ⟨by decide, by decide, by decide, by decide⟩

set_option maxRecDepth 1000000 in
set_option maxHeartbeats 4000000 in
/-- C38, where the code departs from the claim: the loop of lines 1128-1157 is left only when the
`int len = msglen - 3` reaches zero exactly.  With a list to fill in the envelope, a
0x0104 frame whose `msg_len` is 2 enters the loop with `len = -1`, and a frame whose
only tuple (id `0xF000`) has the length byte 2 in a body of `msg_len = 9` leaves the
first round with `len = -1`; `len` only falls from there, the rounds read on behind the
body and behind the 64 bytes of the buffer, and the call has no result.  The frame with
the length byte 1 is parsed. -/
theorem getparameter_loop_overruns :
    Jt808FrameParse [liveDevice]
        (RecvFrameData 64 (.data (encode_frame
          (headerSpec 0x0104 2 [0x01, 0x23, 0x45, 0x67, 0x89, 0x02] 9) [0, 1]))).2
        { zeroParameters with terminal_parameter_list := some [] } = none ∧
    Jt808FrameParse [liveDevice]
        (RecvFrameData 64 (.data (encode_frame
          (headerSpec 0x0104 9 [0x01, 0x23, 0x45, 0x67, 0x89, 0x02] 9)
          ([0, 1, 1] ++ be32 0xF000 ++ [2, 1])))).2
        { zeroParameters with terminal_parameter_list := some [] } = none ∧
    (Jt808FrameParse [liveDevice]
        (RecvFrameData 64 (.data (encode_frame
          (headerSpec 0x0104 9 [0x01, 0x23, 0x45, 0x67, 0x89, 0x02] 9)
          ([0, 1, 1] ++ be32 0xF000 ++ [1, 1])))).2
        { zeroParameters with terminal_parameter_list := some [] }).map
        (fun r => (r.message_id, r.propara.terminal_parameter_list.map fun l =>
          l.map fun p => (p.parameter_id, p.parameter_len)))
      = some (UP_GETPARARESPONSE, some [(0xF000, 1)]) := by
  refine ⟨by decide, by decide, by decide⟩

theorem sameVersion_refl (p : ProtocolParameters) : sameVersion p p := ⟨rfl, rfl, id, id⟩

theorem sameVersion_trans (p q r : ProtocolParameters) (h1 : sameVersion p q)
    (h2 : sameVersion q r) : sameVersion p r := by
  unfold sameVersion at h1 h2 ⊢
  refine ⟨?_, ?_, fun h => h2.2.2.1 (h1.2.2.1 h), fun h => h2.2.2.2 (h1.2.2.2 h)⟩
  · rw [h2.1, h1.1]
  · rw [h2.2.1, h1.2.1]

theorem loadBytes_length (m : List Nat) (p n : Nat) (r : List Nat)
    (h : loadBytes m p n = some r) : r.length = n := by
  unfold loadBytes at h
  split_ifs at h with hc
  simp only [Option.some.injEq] at h
  rw [← h, List.length_take, List.length_drop]
  omega

theorem parseUniResponse_version (s s1 : ParseState) (h : parseUniResponse s = some s1) :
    sameVersion s.propara s1.propara := by
  simp only [parseUniResponse, Option.bind_eq_bind, Option.bind_eq_some, Option.pure_def,
    Option.some.injEq] at h
  obtain ⟨_, _, _, _, rfl⟩ := h
  exact ⟨rfl, rfl, id, id⟩

theorem parseRegister_version (devs : List DeviceNode) (s s1 : ParseState)
    (h : parseRegister devs s = some s1) : sameVersion s.propara s1.propara := by
  simp only [parseRegister, Option.bind_eq_bind, Option.bind_eq_some, Option.pure_def] at h
  obtain ⟨phone, hphone, h⟩ := h
  have hl := loadBytes_length _ _ _ _ hphone
  split at h
  · simp only [Option.bind_eq_some] at h
    obtain ⟨found, _, h⟩ := h
    split at h
    · split at h
      · simp only [Option.bind_eq_some, Option.some.injEq] at h
        obtain ⟨_, _, m, hm, rfl⟩ := h
        exact ⟨rfl, rfl, fun _ => by
          show 5 ≤ m.length
          rw [loadBytes_length _ _ _ _ hm], fun _ => hl⟩
      · simp only [Option.some.injEq] at h
        subst h
        exact ⟨rfl, rfl, id, fun _ => hl⟩
    · simp only [Option.some.injEq] at h
      subst h
      exact ⟨rfl, rfl, id, fun _ => hl⟩
  · simp only [Option.some.injEq] at h
    subst h
    exact ⟨rfl, rfl, id, fun _ => hl⟩

theorem parseAuthentication_version (devs : List DeviceNode) (s s1 : ParseState)
    (h : parseAuthentication devs s = some s1) : sameVersion s.propara s1.propara := by
  simp only [parseAuthentication, Option.bind_eq_bind, Option.bind_eq_some,
    Option.pure_def] at h
  obtain ⟨phone, hphone, h⟩ := h
  have hl := loadBytes_length _ _ _ _ hphone
  split at h
  · simp only [Option.bind_eq_some] at h
    obtain ⟨found, _, h⟩ := h
    split at h
    · simp only [Option.bind_eq_some] at h
      obtain ⟨eq, _, h⟩ := h
      split at h <;>
      · simp only [Option.some.injEq] at h
        subst h
        exact ⟨rfl, rfl, id, fun _ => hl⟩
    · simp only [Option.some.injEq] at h
      subst h
      exact ⟨rfl, rfl, id, fun _ => hl⟩
  · simp only [Option.some.injEq] at h
    subst h
    exact ⟨rfl, rfl, id, fun _ => hl⟩

theorem parseFragmentWords_version (s s1 : ParseState)
    (h : parseFragmentWords s = some s1) : sameVersion s.propara s1.propara := by
  unfold parseFragmentWords at h
  split at h
  · simp only [Option.bind_eq_bind, Option.bind_eq_some, Option.pure_def,
      Option.some.injEq] at h
    obtain ⟨_, _, _, _, rfl⟩ := h
    exact ⟨rfl, rfl, id, id⟩
  · simp only [Option.pure_def, Option.some.injEq] at h
    subst h
    exact ⟨rfl, rfl, id, id⟩

theorem parseGetParaResponse_version (s s1 : ParseState)
    (h : parseGetParaResponse s = some s1) : sameVersion s.propara s1.propara := by
  simp only [parseGetParaResponse, Option.bind_eq_bind, Option.bind_eq_some,
    Option.pure_def] at h
  obtain ⟨s2, h2, h⟩ := h
  have hs2 := parseFragmentWords_version s s2 h2
  split at h
  · simp only [Option.some.injEq] at h
    subst h
    exact hs2
  · simp only [Option.bind_eq_some, Option.some.injEq] at h
    obtain ⟨_, _, rfl⟩ := h
    exact hs2

theorem parseUpdateResult_version (s s1 : ParseState) (h : parseUpdateResult s = some s1) :
    sameVersion s.propara s1.propara := by
  simp only [parseUpdateResult, Option.bind_eq_bind, Option.bind_eq_some, Option.pure_def,
    Option.some.injEq] at h
  obtain ⟨_, _, rfl⟩ := h
  exact ⟨rfl, rfl, id, id⟩

theorem parsePositionReport_version (s s1 : ParseState)
    (h : parsePositionReport s = some s1) : sameVersion s.propara s1.propara := by
  simp only [parsePositionReport, Option.bind_eq_bind, Option.bind_eq_some, Option.pure_def,
    Option.some.injEq] at h
  obtain ⟨_, _, rfl⟩ := h
  exact ⟨rfl, rfl, id, id⟩

theorem parsePassThrough_version (s s1 : ParseState) (h : parsePassThrough s = some s1) :
    sameVersion s.propara s1.propara := by
  simp only [parsePassThrough, Option.bind_eq_bind, Option.bind_eq_some, Option.pure_def] at h
  obtain ⟨_, _, h⟩ := h
  split at h
  · simp at h
  · simp only [Option.bind_eq_some, Option.some.injEq] at h
    obtain ⟨_, _, rfl⟩ := h
    exact ⟨rfl, rfl, id, id⟩

theorem parseCanBusData_version (s s1 : ParseState) (h : parseCanBusData s = some s1) :
    sameVersion s.propara s1.propara := by
  simp only [parseCanBusData, Option.bind_eq_bind, Option.bind_eq_some, Option.pure_def] at h
  obtain ⟨_, _, h⟩ := h
  split at h
  · simp only [Option.bind_eq_some] at h
    obtain ⟨_, _, _, _, _, _, _, _, _, _, h⟩ := h
    split at h
    · simp only [Option.bind_eq_some, Option.some.injEq] at h
      obtain ⟨_, _, rfl⟩ := h
      exact ⟨rfl, rfl, id, id⟩
    · simp at h
  · simp only [Option.some.injEq] at h
    subst h
    exact ⟨rfl, rfl, id, id⟩

/-- The `switch` of `Jt808FrameParse` leaves the version of an upgrade in the envelope
as it is; a manufacturer id it stores has five bytes. -/
theorem parseBody_version (devs : List DeviceNode) (message_id : Nat) (s s1 : ParseState)
    (h : parseBody devs message_id s = some s1) : sameVersion s.propara s1.propara := by
  unfold parseBody at h
  split at h
  · exact parseUniResponse_version s s1 h
  split at h
  · exact parseRegister_version devs s s1 h
  split at h
  · exact parseAuthentication_version devs s s1 h
  split at h
  · exact parseGetParaResponse_version s s1 h
  split at h
  · exact parseUpdateResult_version s s1 h
  split at h
  · exact parsePositionReport_version s s1 h
  split at h
  · exact parsePassThrough_version s s1 h
  split at h
  · exact parseCanBusData_version s s1 h
  · simp only [Option.some.injEq] at h
    subst h
    exact ⟨rfl, rfl, id, id⟩

/-- `Jt808FrameParse` leaves the version of an upgrade in the envelope as it is. -/
theorem Jt808FrameParse_version (devs : List DeviceNode) (msg : MessageData)
    (p : ProtocolParameters) (r : ParseResult) (h : Jt808FrameParse devs msg p = some r) :
    sameVersion p r.propara := by
  simp only [Jt808FrameParse, Option.bind_eq_bind, Option.bind_eq_some, Option.pure_def,
    Option.some.injEq] at h
  obtain ⟨⟨id, s⟩, hh, s1, hb, rfl⟩ := h
  have h1 := parseBody_version devs id s s1 hb
  simp only [parseHead, Option.bind_eq_bind, Option.bind_eq_some, Option.pure_def,
    Option.some.injEq, Prod.mk.injEq] at hh
  obtain ⟨_, _, _, _, _, _, _, _, _, rfl⟩ := hh
  exact h1

/-- The wait loops leave the version of an upgrade in the envelope as it is. -/
theorem waitRespond_version (cap : Nat) (devs : List DeviceNode)
    (accept : ParseResult → Bool) :
    ∀ (recvs : List RecvOutcome) (p : ProtocolParameters) (rs : List RecvOutcome)
      (q : ProtocolParameters) (msg : MessageData) (closed : Bool),
      waitRespond cap devs accept recvs p = some (rs, q, msg, closed) → sameVersion p q := by
  intro recvs
  induction recvs with
  | nil => intro p rs q msg closed h; simp [waitRespond] at h
  | cons o recvs ih =>
    intro p rs q msg closed h
    simp only [waitRespond] at h
    split_ifs at h with h1 h2
    · simp only [Option.some.injEq, Prod.mk.injEq] at h
      obtain ⟨_, rfl, _, _⟩ := h
      exact sameVersion_refl p
    · simp only [Option.bind_eq_bind, Option.bind_eq_some, Option.pure_def] at h
      obtain ⟨r, hr, h⟩ := h
      have hv := Jt808FrameParse_version devs _ p r hr
      split_ifs at h with h3
      · simp only [Option.some.injEq, Prod.mk.injEq] at h
        obtain ⟨_, rfl, _, _⟩ := h
        exact hv
      · exact sameVersion_trans _ _ _ hv (ih _ _ _ _ _ h)
    · exact ih _ _ _ _ _ h

/-- Every frame that the loop of lines 2432-2469 sends is a package of the upgrade: the
version in its envelope is the one set up in front of the loop and its chunk has at
most `max_data_len` bytes, whatever the terminal answers. -/
theorem upgradeLoop_sent (cap : Nat) (devs : List DeviceNode) (data : List Nat)
    (max_data_len : Nat) (p0 : ProtocolParameters) :
    ∀ (fuel len : Nat) (p : ProtocolParameters) (flow msg_len : Nat) (sends : List Bool)
      (recvs : List RecvOutcome) (sent : List UpgradeFrame) (run : UpgradeRun),
      upgradeLoop cap devs data max_data_len fuel len p flow msg_len sends recvs sent
        = some run →
      sameVersion p0 p →
      (∀ f ∈ sent, f.packageOf cap max_data_len p0) →
      ∀ f ∈ run.sent, f.packageOf cap max_data_len p0 := by
  intro fuel
  induction fuel with
  | zero => intro len p flow msg_len sends recvs sent run h; simp [upgradeLoop] at h
  | succ fuel ih =>
    intro len p flow msg_len sends recvs sent run h hp hsent
    by_cases hlen : len > 0
    · simp only [upgradeLoop, hlen, ↓reduceIte] at h
      obtain ⟨c, hc, hcle⟩ : ∃ c, c = (if len > max_data_len then max_data_len else len) ∧
          c ≤ max_data_len := ⟨_, rfl, by split_ifs <;> omega⟩
      rw [← hc] at h
      simp only [Option.bind_eq_bind, Option.bind_eq_some] at h
      obtain ⟨chunk, hchunk, pd, hpd, ⟨flow1, msg, n⟩, hpack, h⟩ := h
      simp only [] at h
      have hnew : ∀ f ∈ sent ++ [(⟨{ p with packet_data_len := c, packet_data := pd },
            msg.buffer.take n⟩ : UpgradeFrame)], f.packageOf cap max_data_len p0 := by
        intro f hf
        rw [List.mem_append, List.mem_singleton] at hf
        rcases hf with hf | hf
        · exact hsent f hf
        · subst hf
          exact ⟨⟨hp.1, hp.2.1, hp.2.2.1, hp.2.2.2⟩, hcle,
            by rw [memcpy_some_length _ _ _ _ _ hpd, List.length_replicate],
            flow, msg_len, (flow1, msg, n), hpack, rfl⟩
      split at h
      · simp at h
      · simp only [Option.pure_def, Option.some.injEq] at h
        subst h
        exact hnew
      · simp only [Option.bind_eq_some] at h
        obtain ⟨⟨rs, q, m, closed⟩, hw, h⟩ := h
        simp only [] at h
        have hq := waitRespond_version cap devs upgradeAccept _ _ _ _ _ _ hw
        split_ifs at h with hcl
        · simp only [Option.pure_def, Option.some.injEq] at h
          subst h
          exact hnew
        · refine ih _ _ _ _ _ _ _ run h ?_ hnew
          exact sameVersion_trans _ _ _ hp ⟨hq.1, hq.2.1, hq.2.2.1, hq.2.2.2⟩
    · simp only [upgradeLoop, hlen, ↓reduceIte, Option.pure_def, Option.some.injEq] at h
      subst h
      exact hsent

/-- The frame for the upgrade package 0x8108 into a zeroed buffer, for any bytes in the
envelope: delimiter, the escaped header, fragmentation words, body and checksum,
delimiter; the attribute word holds `11 + version_num_len + packet_data_len` in its ten
bits `msglen`. -/
theorem updatePackage_frame_raw (flow cap len0 : Nat) (propara : ProtocolParameters)
    (hphone : propara.phone_num.length = 6)
    (hwf : 5 ≤ propara.manufacturer_id.length ∧
      propara.version_num_len ≤ propara.version_num.length ∧
      propara.packet_data_len ≤ propara.packet_data.length)
    (hcap : 2 * (17 + (updatePackageSpec propara).length) + 2 ≤ cap)
    (h16 : 2 * (17 + (updatePackageSpec propara).length) + 1 < 65536) :
    ∃ msg1 n, Jt808FramePack flow ⟨List.replicate cap 0, len0⟩ DOWN_UPDATEPACKAGE propara
        = some ((flow + 1) % 65536, msg1, n) ∧
      msg1.buffer.take n
        = [0x7E] ++ escapeSpec (updatePackageBytes propara
              (attrSetMsglen (if propara.packet_total_num % 65536 > 1 then 8192 else 0)
                (11 + propara.version_num_len + propara.packet_data_len))
              ((flow + 1) % 65536)
            ++ [bccList (updatePackageBytes propara
              (attrSetMsglen (if propara.packet_total_num % 65536 > 1 then 8192 else 0)
                (11 + propara.version_num_len + propara.packet_data_len))
              ((flow + 1) % 65536))]) ++ [0x7E] := by
  have hfl : (fragmentWordsSpec propara).length ≤ 4 := by
    unfold fragmentWordsSpec; split_ifs <;> simp [be16_length]
  have hz := packUpdatePackage_zero propara ([0] ++ be16 DOWN_UPDATEPACKAGE) (by simp [be16]) 0
    (propara.phone_num ++ be16 ((flow + 1) % 65536)) (cap - 13) 13
    hwf (by norm_num) (by simp [be16_length, hphone])
    (by simp only [List.length_append]; omega)
  have e3 : ∀ s, packBody (DOWN_UPDATEPACKAGE % 65536) propara s
      = packUpdatePackage propara s := fun _ => rfl
  rw [← e3] at hz
  have hpk : (if propara.packet_total_num % 65536 > 1 then attrSetPackage 0 1 else 0)
      = (if propara.packet_total_num % 65536 > 1 then 8192 else 0) := by
    split_ifs <;> rfl
  rw [hpk] at hz
  obtain ⟨a, ha⟩ : ∃ a, a = attrSetMsglen
      (if propara.packet_total_num % 65536 > 1 then 8192 else 0)
      (11 + propara.version_num_len + propara.packet_data_len) := ⟨_, rfl⟩
  obtain ⟨B, hB⟩ : ∃ B, B = fragmentWordsSpec propara ++ updatePackageSpec propara :=
    ⟨_, rfl⟩
  have hBl : B.length ≤ 4 + (updatePackageSpec propara).length := by
    rw [hB, List.length_append]; omega
  rw [← ha, ← hB] at hz
  have hml : (propara.phone_num ++ be16 ((flow + 1) % 65536) ++ B).length = 8 + B.length := by
    simp only [List.length_append, be16_length, hphone]
  have ha16 : a < 65536 := by
    rw [ha]; exact attrSetMsglen_lt _ _ (by split_ifs <;> norm_num)
  have hle := escapeSpec_length_le (be16 DOWN_UPDATEPACKAGE ++ be16 a
    ++ (propara.phone_num ++ be16 ((flow + 1) % 65536) ++ B)
    ++ [bccList (be16 DOWN_UPDATEPACKAGE ++ be16 a
      ++ (propara.phone_num ++ be16 ((flow + 1) % 65536) ++ B))])
  have hXl : (be16 DOWN_UPDATEPACKAGE ++ be16 a
      ++ (propara.phone_num ++ be16 ((flow + 1) % 65536) ++ B)
      ++ [bccList (be16 DOWN_UPDATEPACKAGE ++ be16 a
        ++ (propara.phone_num ++ be16 ((flow + 1) % 65536) ++ B))]).length
      = 13 + B.length := by
    simp only [List.length_append, List.length_singleton, be16_length, hml]
    omega
  rw [hXl] at hle
  have hpack := Jt808FramePack_of_body flow cap len0 DOWN_UPDATEPACKAGE propara a
    (propara.phone_num ++ be16 ((flow + 1) % 65536) ++ B) (cap - 13 - B.length)
    (by omega) hphone
    (by rw [hz, hml]; congr 2 <;> omega) ha16 (by omega) (by omega)
    (by rw [hml]; omega)
  rw [hpack]
  refine ⟨_, _, rfl, ?_⟩
  simp only []
  rw [← ha, updatePackageBytes, headerSpec, ← hB]
  have e1 : be16 0x8108 ++ be16 a ++ propara.phone_num ++ be16 ((flow + 1) % 65536) ++ B
      = be16 DOWN_UPDATEPACKAGE ++ be16 a
        ++ (propara.phone_num ++ be16 ((flow + 1) % 65536) ++ B) := by
    simp [DOWN_UPDATEPACKAGE]
  rw [e1]
  obtain ⟨E, hE⟩ : ∃ E, E = escapeSpec (be16 DOWN_UPDATEPACKAGE ++ be16 a
      ++ (propara.phone_num ++ be16 ((flow + 1) % 65536) ++ B)
      ++ [bccList (be16 DOWN_UPDATEPACKAGE ++ be16 a
        ++ (propara.phone_num ++ be16 ((flow + 1) % 65536) ++ B))]) := ⟨_, rfl⟩
  rw [← hE]
  rw [show (0x7E : Nat) :: (E ++ 0x7E :: List.replicate
        (5 + (propara.phone_num ++ be16 ((flow + 1) % 65536) ++ B).length
          + (cap - 13 - B.length) - 2 - E.length) 0)
      = ([0x7E] ++ E ++ [0x7E]) ++ List.replicate
        (5 + (propara.phone_num ++ be16 ((flow + 1) % 65536) ++ B).length
          + (cap - 13 - B.length) - 2 - E.length) 0 by simp]
  rw [List.take_left']
  simp

theorem updatePackageSpec_length (p : ProtocolParameters)
    (h1 : 5 ≤ p.manufacturer_id.length) (h2 : p.version_num_len ≤ p.version_num.length)
    (h3 : p.packet_data_len ≤ p.packet_data.length) :
    (updatePackageSpec p).length = 11 + p.version_num_len + p.packet_data_len := by
  unfold updatePackageSpec
  simp only [List.length_append, List.length_singleton, List.length_take, be32_length]
  omega

/-- C34: for every registry with a pending upgrade, every file and every behaviour of the
terminal, each frame that `UpgradeHandler` sends (into a buffer with room for the
escaped bytes) is an upgrade package 0x8108 whose body has `11 + len(version) +
chunk_len` bytes, at most 1023, and whose attribute word holds exactly this length in
its ten bits `msglen`. -/
theorem upgrade_msglen_is_body_length (fuel cap flow : Nat) (devs : List DeviceNode)
    (device : DeviceNode) (file : List Nat) (sends : List Bool) (recvs : List RecvOutcome)
    (run : UpgradeRun)
    (hdev : (devs.find? fun d => d.has_upgrade) = some device)
    (hcap : 2082 ≤ cap)
    (hrun : UpgradeHandler fuel cap flow devs (some file) sends recvs = some run) :
    ∀ f ∈ run.sent,
      f.propara.version_num.take f.propara.version_num_len
        = (device.upgrade_version.takeWhile fun c => decide (c ≠ 0)) ∧
      (updatePackageSpec f.propara).length
        = 11 + (device.upgrade_version.takeWhile fun c => decide (c ≠ 0)).length
          + f.propara.packet_data_len ∧
      (updatePackageSpec f.propara).length ≤ 1023 ∧
      ∃ a fl, attrMsglen a = (updatePackageSpec f.propara).length ∧
        f.frame = [0x7E] ++ escapeSpec (updatePackageBytes f.propara a fl
          ++ [bccList (updatePackageBytes f.propara a fl)]) ++ [0x7E] := by
  obtain ⟨version, hver⟩ : ∃ v, v = device.upgrade_version.takeWhile
      fun c => decide (c ≠ 0) := ⟨_, rfl⟩
  rw [← hver]
  unfold UpgradeHandler at hrun
  rw [hdev] at hrun
  simp only [Option.bind_eq_bind, Option.bind_eq_some, ← hver] at hrun
  obtain ⟨vn, hvn, hloop⟩ := hrun
  have hv32 : version.length ≤ 32 := by
    unfold memcpy at hvn
    split_ifs at hvn with hc
    have := hc.2
    simp only [zeroParameters, List.length_replicate] at this
    omega
  have hvn2 : vn = version ++ List.replicate (32 - version.length) 0 := by
    have hzl : version.length ≤ zeroParameters.version_num.length := by
      simp only [zeroParameters, List.length_replicate]
      exact hv32
    rw [memcpy_zero _ _ _ (le_refl _) hzl] at hvn
    simp only [Option.some.injEq] at hvn
    rw [← hvn, List.take_of_length_le (le_refl _)]
    simp only [zeroParameters, List.drop_replicate]
  have hmax : (1023 + 4294967296 - 11 - version.length % 4294967296) % 4294967296
      = 1012 - version.length := by omega
  rw [hmax] at hloop
  intro f hf
  have hpk := upgradeLoop_sent cap devs _ _ _ fuel _ _ flow 0 sends recvs [] run hloop
    (sameVersion_refl _) (by simp) f hf
  obtain ⟨⟨hs1, hs2, hs3, hs4⟩, hlen, hpd, fl, ml, r, hr, hfr⟩ := hpk
  simp only [] at hs1 hs2 hs3 hs4
  rw [Nat.mod_eq_of_lt (show version.length < 256 by omega)] at hs1
  have hman : 5 ≤ f.propara.manufacturer_id.length := hs3 (by decide)
  have hphone : f.propara.phone_num.length = 6 := hs4 (by decide)
  have hvl : f.propara.version_num_len ≤ f.propara.version_num.length := by
    rw [hs1, hs2, hvn2, List.length_append, List.length_replicate]
    omega
  have hbody := updatePackageSpec_length f.propara hman hvl (by omega)
  rw [hs1] at hbody
  refine ⟨?_, hbody, by omega, ?_⟩
  · rw [hs1, hs2, hvn2, List.take_left' rfl]
  · obtain ⟨msg1, n, hpack, hframe⟩ := updatePackage_frame_raw fl cap ml f.propara hphone
      ⟨hman, hvl, by omega⟩ (by omega) (by omega)
    rw [hpack] at hr
    simp only [Option.some.injEq] at hr
    subst hr
    refine ⟨_, _, ?_, by rw [hfr]; exact hframe⟩
    rw [attrSetMsglen_frag, hs1, hbody]
    unfold attrMsglen
    split_ifs <;> omega

/-- Witness of C34: the file `exampleFirmware` of 3500 bytes for the terminal
`upgradeDevice` with the version `V1.0`, every package acknowledged: the run sends four
frames, and each holds its body length in `msglen`. -/
theorem upgrade_msglen_is_body_length_witness :
    ∃ run, (([upgradeDevice].find? fun d => d.has_upgrade) = some upgradeDevice ∧
        2082 ≤ 4096 ∧
        UpgradeHandler 10 4096 0 [upgradeDevice] (some exampleFirmware)
          (List.replicate 4 true) (List.replicate 4 (RecvOutcome.data (respondFrame 0x8108)))
          = some run) ∧
      run.sent.length = 4 ∧
      ∀ f ∈ run.sent,
        f.propara.version_num.take f.propara.version_num_len
          = (upgradeDevice.upgrade_version.takeWhile fun c => decide (c ≠ 0)) ∧
        (updatePackageSpec f.propara).length
          = 11 + (upgradeDevice.upgrade_version.takeWhile fun c => decide (c ≠ 0)).length
            + f.propara.packet_data_len ∧
        (updatePackageSpec f.propara).length ≤ 1023 ∧
        ∃ a fl, attrMsglen a = (updatePackageSpec f.propara).length ∧
          f.frame = [0x7E] ++ escapeSpec (updatePackageBytes f.propara a fl
            ++ [bccList (updatePackageBytes f.propara a fl)]) ++ [0x7E] :=
  match UpgradeHandler_run 10 4096 0 [upgradeDevice] upgradeDevice exampleFirmware
      (List.replicate 4 true) (List.replicate 4 (RecvOutcome.data (respondFrame 0x8108))) 4
      (by decide) (by decide) (by decide) exampleFirmware_bytes
      (by rw [exampleFirmware_length, upgradeDevice_version]; decide)
      (fun _ => by rw [exampleFirmware_length, upgradeDevice_version]; decide)
      (by decide) (sends_succeed 4) (by decide) (upgrade_acknowledged 4 [upgradeDevice])
      (by decide) (by decide) (by decide) (by decide) with
  | ⟨run, hrun, _, hmap, _⟩ =>
    ⟨run, ⟨by decide, by decide, hrun⟩,
      by have h := congrArg List.length hmap
         rw [List.length_map, List.length_map, List.length_range] at h
         exact h,
      upgrade_msglen_is_body_length 10 4096 0 [upgradeDevice] upgradeDevice exampleFirmware
        (List.replicate 4 true) (List.replicate 4 (RecvOutcome.data (respondFrame 0x8108)))
        run (by decide) (by decide) hrun⟩

theorem splitWords_space (line : List Nat) (h : ∀ c ∈ line, isspace c = true) :
    splitWords line [] = [] := by
  induction line with
  | nil => rfl
  | cons c cs ih =>
    have hc : isspace c = true := h c (List.mem_cons_self _ _)
    simp only [splitWords, hc, if_true]
    exact ih fun d hd => h d (List.mem_cons_of_mem _ hd)

theorem isspace_ne_zero (c : Nat) (h : isspace c = true) : c ≠ 0 := by
  intro h0
  subst h0
  simp [isspace] at h

theorem strlen_none_of_not_mem (s : List Nat) (h : 0 ∉ s) : strlen s = none := by
  unfold strlen
  rw [if_neg h]

/-- The array `recv_buff` of `size` bytes behind the receipt of the line `line` without
NUL: when the line leaves room for a NUL, `strlen` is its length. -/
theorem commandBuffer_strlen (line : List Nat) (size : Nat) (h0 : 0 ∉ line)
    (hsize : line.length < size) :
    line.take size ++ List.replicate (size - line.length) 0
        = line ++ List.replicate (size - line.length) 0 ∧
      strlen (line ++ List.replicate (size - line.length) 0) = some line.length := by
  constructor
  · rw [List.take_of_length_le (by omega)]
  · exact strlen_append_zero line _ h0 (by omega)

/-- A line that fills the array `recv_buff` leaves no NUL in it: `strlen` runs over the
end of the array and `ParseCommand` has no result. -/
theorem ParseCommand_full (io : CommandIo) (devs : List DeviceNode) (line : List Nat)
    (size : Nat) (h0 : 0 ∉ line) (hsize : size ≤ line.length) :
    ParseCommand io devs (line.take size ++ List.replicate (size - line.length) 0)
      = none := by
  have hs : strlen (line.take size ++ List.replicate (size - line.length) 0) = none := by
    apply strlen_none_of_not_mem
    rw [Nat.sub_eq_zero_of_le hsize]
    simp only [List.replicate_zero, List.append_nil]
    exact fun hm => h0 (List.mem_of_mem_take hm)
  simp only [ParseCommand, hs, Option.bind_eq_bind, Option.none_bind]

/-- Lines 2237-2256 for a line without NUL that leaves room in the array: the words of
the line are taken from the zeroed array. -/
theorem ParseCommand_line (io : CommandIo) (devs : List DeviceNode) (line : List Nat)
    (size : Nat) (h0 : 0 ∉ line) (hsize : line.length < size) :
    ParseCommand io devs (line.take size ++ List.replicate (size - line.length) 0)
      = (match splitWords line [] with
        | [] => none
        | arg :: va_vec =>
          if devs = [] then pure ⟨0, List.replicate size 0, []⟩
          else
            match devs.find? fun d => decide (cString d.phone_num = arg) with
            | some device =>
              if device.socket_fd > 0 then
                match va_vec with
                | [] => none
                | arg :: va_vec =>
                  commandVerb io devs device (List.replicate size 0) arg va_vec
              else do
                let buffer ← memcpy (List.replicate size 0) 0
                  (cstr "device has not connect!!!\n") 25
                pure ⟨0, buffer, []⟩
            | none => do
              let buffer ← memcpy (List.replicate size 0) 0
                (cstr "has not such device!!!\n") 22
              pure ⟨0, buffer, []⟩) := by
  obtain ⟨hb, hs⟩ := commandBuffer_strlen line size h0 hsize
  have hz : List.replicate line.length 0
      ++ (line ++ List.replicate (size - line.length) 0).drop line.length
      = List.replicate size 0 := by
    rw [List.drop_left, ← List.replicate_add]
    congr 1
    omega
  simp only [ParseCommand, hb, hs, Option.bind_eq_bind, Option.some_bind, List.take_left,
    hz] <;> rfl

/-- C39, where the code departs from the claim: line 2255 takes `va_vec.back()` without a test, and
so does line 2268.  For every registry and every size of the receive array, a line
received on the control channel that holds only white space leaves the vector empty at
line 2255, and a line that holds only the phone number of a connected terminal leaves
it empty at line 2268: `back()` is called on an empty vector and the run has no
result. -/
theorem command_back_on_empty_vector (io : CommandIo) (devs : List DeviceNode)
    (size : Nat) (line : List Nat) :
    (line ≠ [] → (∀ c ∈ line, isspace c = true) →
      runCommandEvent io devs size line = none) ∧
    (∀ arg device, 0 ∉ line → splitWords line [] = [arg] →
      (devs.find? fun d => decide (cString d.phone_num = arg)) = some device →
      device.socket_fd > 0 → runCommandEvent io devs size line = none) := by
  constructor
  · intro hne hsp
    have h0 : 0 ∉ line := fun hm => isspace_ne_zero 0 (hsp 0 hm) rfl
    unfold runCommandEvent
    rw [if_neg hne]
    by_cases hsize : line.length < size
    · rw [ParseCommand_line io devs line size h0 hsize, splitWords_space line hsp]
      rfl
    · rw [ParseCommand_full io devs line size h0 (by omega)]
      rfl
  · intro arg device h0 htok hfind hfd
    have hne : line ≠ [] := by
      intro h
      subst h
      simp [splitWords] at htok
    have hdevs : devs ≠ [] := by
      intro h
      subst h
      simp at hfind
    unfold runCommandEvent
    rw [if_neg hne]
    by_cases hsize : line.length < size
    · rw [ParseCommand_line io devs line size h0 hsize, htok]
      simp only [if_neg hdevs, hfind, if_pos hfd]
      rfl
    · rw [ParseCommand_full io devs line size h0 (by omega)]
      rfl

/-- Witness of C39: a line that is a single newline, and the line `012345678902`, the
phone number of the connected terminal `liveDevice`. -/
theorem command_back_on_empty_vector_witness :
    ((([10] : List Nat) ≠ [] ∧ ∀ c ∈ ([10] : List Nat), isspace c = true) ∧
      runCommandEvent (exampleIo []) [liveDevice, exampleDevice] 128 [10] = none) ∧
    ((0 ∉ cstr "012345678902" ∧
      splitWords (cstr "012345678902") [] = [cstr "012345678902"] ∧
      ([liveDevice, exampleDevice].find?
        fun d => decide (cString d.phone_num = cstr "012345678902")) = some liveDevice ∧
      liveDevice.socket_fd > 0) ∧
      runCommandEvent (exampleIo []) [liveDevice, exampleDevice] 128 (cstr "012345678902")
        = none) :=
  ⟨⟨⟨by decide, by decide⟩,
    (command_back_on_empty_vector (exampleIo []) [liveDevice, exampleDevice] 128 [10]).1
      (by decide) (by decide)⟩,
   ⟨⟨by decide, by decide, by decide, by decide⟩,
    (command_back_on_empty_vector (exampleIo []) [liveDevice, exampleDevice] 128
      (cstr "012345678902")).2 (cstr "012345678902") liveDevice (by decide) (by decide)
      (by decide) (by decide)⟩⟩

/-- A reply text of `n` characters without NUL, copied to the start of the zeroed array
`recv_buff`: the copy succeeds and `strlen` gives back the text. -/
theorem reply_text (text : List Nat) (n size : Nat) (hn : n ≤ text.length)
    (h0 : 0 ∉ text.take n) (hsize : n < size) :
    ∃ buffer, memcpy (List.replicate size 0) 0 text n = some buffer ∧
      strlen buffer = some n ∧ buffer.take n = text.take n := by
  have hl : (text.take n).length = n := by rw [List.length_take]; omega
  refine ⟨text.take n ++ List.replicate (size - n) 0, ?_, ?_, ?_⟩
  · rw [memcpy_zero _ _ _ hn (by rw [List.length_replicate]; omega), List.drop_replicate]
  · rw [strlen_append_zero _ _ h0 (by omega), hl]
  · rw [List.take_left' hl]

/-- C31, as amended: for every registry that is not empty, every line received on the
control channel (a text without NUL that leaves room in the receive array) whose first
word matches the phone number of no record is answered with the 22 characters `has not
such device!!!`, whatever words follow, and no frame is sent to a terminal. -/
theorem unknown_device_reply (io : CommandIo) (devs : List DeviceNode) (size : Nat)
    (line phone : List Nat) (rest : List (List Nat))
    (hdevs : devs ≠ []) (h0 : 0 ∉ line) (htok : splitWords line [] = phone :: rest)
    (hunk : ∀ d ∈ devs, cString d.phone_num ≠ phone)
    (hsize : line.length < size) (h22 : 22 < size) :
    runCommandEvent io devs size line
      = some ⟨some (cstr "has not such device!!!"), []⟩ := by
  have hne : line ≠ [] := by
    intro h
    subst h
    simp [splitWords] at htok
  have hfind : (devs.find? fun d => decide (cString d.phone_num = phone)) = none := by
    rw [List.find?_eq_none]
    intro d hd
    simpa using hunk d hd
  obtain ⟨buffer, hcopy, hlen, htake⟩ := reply_text (cstr "has not such device!!!\n") 22 size
    (by decide) (by decide) h22
  unfold runCommandEvent
  rw [if_neg hne, ParseCommand_line io devs line size h0 hsize, htok]
  simp only [if_neg hdevs, hfind, hcopy, Option.bind_eq_bind, Option.some_bind,
    Option.pure_def, ge_iff_le, le_refl, if_true, hlen, htake]
  rfl

/-- Witness of C31 as amended: the line `999 get startup` with the two example records
in the registry. -/
theorem unknown_device_reply_witness :
    (([liveDevice, exampleDevice] : List DeviceNode) ≠ [] ∧
      0 ∉ cstr "999 get startup" ∧
      splitWords (cstr "999 get startup") []
        = cstr "999" :: [cstr "get", cstr "startup"] ∧
      (∀ d ∈ [liveDevice, exampleDevice], cString d.phone_num ≠ cstr "999") ∧
      (cstr "999 get startup").length < 128 ∧ 22 < 128) ∧
    runCommandEvent (exampleIo []) [liveDevice, exampleDevice] 128 (cstr "999 get startup")
      = some ⟨some (cstr "has not such device!!!"), []⟩ :=
  ⟨⟨by decide, by decide, by decide, by decide, by decide, by decide⟩,
   unknown_device_reply (exampleIo []) [liveDevice, exampleDevice] 128
     (cstr "999 get startup") (cstr "999") [cstr "get", cstr "startup"]
     (by decide) (by decide) (by decide) (by decide) (by decide) (by decide)⟩

set_option maxRecDepth 100000 in
/-- Counterexample to C31 as stated: with an empty registry the guard of line 2257 skips
the search and the two replies, the array stays zeroed and the bytes passed to `send`
on the control channel are none. -/
theorem empty_registry_no_reply :
    runCommandEvent (exampleIo []) [] 128 (cstr "999 get startup") = some ⟨some [], []⟩ := by
  decide

theorem packable_delete (command : Nat) (propara : ProtocolParameters)
    (hc : command = DOWN_DELCIRCULARAREA ∨ command = DOWN_DELRECTANGLEAREA ∨
      command = DOWN_DELPOLYGONALAREA)
    (hphone : propara.phone_num.length = 6)
    (hbuf : propara.area_route_id_count * 4 ≤ (propara.area_route_id_buffer.getD []).length) :
    packable command propara := by
  rcases hc with rfl | rfl | rfl <;>
  exact ⟨hphone, fun hc => absurd hc (by decide), fun hc => absurd hc (by decide),
    fun hc => absurd hc (by decide), fun hc => absurd hc (by decide),
    fun hc => absurd hc (by decide), fun hc => absurd hc (by decide),
    fun hc => absurd hc (by decide), fun _ => hbuf, fun hc => absurd hc (by decide)⟩

theorem delete_mem_downlink (command : Nat)
    (hc : command = DOWN_DELCIRCULARAREA ∨ command = DOWN_DELRECTANGLEAREA ∨
      command = DOWN_DELPOLYGONALAREA) : command ∈ downlinkCommands := by
  rcases hc with rfl | rfl | rfl <;> decide

theorem delete_packedLength (command : Nat) (propara : ProtocolParameters)
    (hc : command = DOWN_DELCIRCULARAREA ∨ command = DOWN_DELRECTANGLEAREA ∨
      command = DOWN_DELPOLYGONALAREA) :
    packedLength command propara
      = 13 + (idListSpec propara.area_route_id_count propara.area_route_id_buffer).length := by
  rcases hc with rfl | rfl | rfl <;> rfl

/-- Lines 2190-2205 of `DealAreaRouteDelateRequest` for arguments that are hexadecimal
ids: the envelope holds the ids and `Jt808FramePack` returns a frame. -/
theorem deleteArea_pack (cap flow : Nat) (device : DeviceNode) (va_vec : List (List Nat))
    (command : Nat) (ids bcd : List Nat)
    (hc : command = DOWN_DELCIRCULARAREA ∨ command = DOWN_DELRECTANGLEAREA ∨
      command = DOWN_DELPOLYGONALAREA)
    (hphone : PreparePhoneNum device.phone_num = some bcd)
    (hscan : va_vec.reverse.map sscanfHex = ids.map (fun i => some (some i)))
    (hcap : 2 * (14 + 4 * (ids.length % 256)) + 3 ≤ cap) (h16 : cap < 65536) :
    ∃ (propara : ProtocolParameters) (msg : MessageData) (n : Nat),
      ∀ (devs : List DeviceNode) (sends : List Bool) (recvs : List RecvOutcome),
      DealAreaRouteDelateRequest cap flow devs device va_vec command sends recvs
        = (match sends with
          | [] => none
          | false :: _ => some ⟨-1, [msg.buffer.take n], true, (flow + 1) % 65536⟩
          | true :: _ =>
            (waitRespond cap devs (areaAccept command) recvs propara).bind fun w =>
              some ⟨if w.2.2.2 = true then -1 else 0, [msg.buffer.take n], w.2.2.2,
                (flow + 1) % 65536⟩) := by
  obtain ⟨hp6, _⟩ := PreparePhoneNum_some _ _ hphone
  have hlen : va_vec.length = ids.length := by
    have := congrArg List.length hscan
    simpa using this
  have key : ∃ propara : ProtocolParameters, propara.phone_num.length = 6 ∧
      propara.area_route_id_count * 4 ≤ (propara.area_route_id_buffer.getD []).length ∧
      (idListSpec propara.area_route_id_count propara.area_route_id_buffer).length
        ≤ 1 + 4 * (ids.length % 256) ∧
      ∀ (devs : List DeviceNode) (sends : List Bool) (recvs : List RecvOutcome),
        DealAreaRouteDelateRequest cap flow devs device va_vec command sends recvs
          = (Jt808FramePack flow ⟨List.replicate cap 0, 0⟩ command propara).bind fun r =>
            match sends with
            | [] => none
            | false :: _ => some ⟨-1, [r.2.1.buffer.take r.2.2], true, r.1⟩
            | true :: _ =>
              (waitRespond cap devs (areaAccept command) recvs propara).bind fun w =>
                some ⟨if w.2.2.2 = true then -1 else 0, [r.2.1.buffer.take r.2.2], w.2.2.2,
                  r.1⟩ := by
    by_cases hv : va_vec = []
    · refine ⟨{ zeroParameters with phone_num := bcd, area_route_id_count := 0 }, hp6, ?_, ?_,
        ?_⟩
      · show 0 * 4 ≤ _
        omega
      · show ([0 % 256] ++ (([] : List Nat).take (0 * 4))).length ≤ _
        simp
      · intro devs sends recvs
        unfold DealAreaRouteDelateRequest
        simp only [hphone, Option.bind_eq_bind, Option.some_bind, if_pos hv]
        rfl
    · have hloop := idBufferLoop_eq va_vec.reverse ids none [] 0 (by norm_num) hscan
      simp only [List.nil_append, List.length_nil, Nat.zero_add, List.length_reverse] at hloop
      refine ⟨{ zeroParameters with
          phone_num := bcd, area_route_id_count := va_vec.length % 256,
          area_route_id_buffer := some (ids.flatMap be32) }, hp6, ?_, ?_, ?_⟩
      · show va_vec.length % 256 * 4 ≤ (ids.flatMap be32).length
        rw [flatMap_be32_length, hlen]
        have := Nat.mod_le ids.length 256
        omega
      · show ([va_vec.length % 256 % 256]
          ++ ((ids.flatMap be32).take (va_vec.length % 256 * 4))).length ≤ _
        rw [List.length_append, List.length_take, List.length_singleton, hlen]
        omega
      · intro devs sends recvs
        unfold DealAreaRouteDelateRequest
        simp only [hphone, Option.bind_eq_bind, Option.some_bind, if_neg hv, hloop,
          Option.pure_def] <;> rfl
  obtain ⟨propara, hph, hbuf, hspec, hdeal⟩ := key
  obtain ⟨msg, n, _, hpack, _, _⟩ := Jt808FramePack_delimiters flow cap 0 command propara
    (delete_mem_downlink command hc) (packable_delete command propara hc hph hbuf)
    (by rw [delete_packedLength command propara hc]; omega) h16
  refine ⟨propara, msg, n, ?_⟩
  intro devs sends recvs
  rw [hdeal, hpack, Option.some_bind]

/-- A wait loop that ends with the socket open has received a message that
`Jt808FrameParse` returns and the test accepts. -/
theorem waitRespond_accepted (cap : Nat) (devs : List DeviceNode)
    (accept : ParseResult → Bool) :
    ∀ (recvs : List RecvOutcome) (p : ProtocolParameters) (rs : List RecvOutcome)
      (q : ProtocolParameters) (msg : MessageData),
      waitRespond cap devs accept recvs p = some (rs, q, msg, false) →
      ∃ o ∈ recvs, ∃ p1 r, (RecvFrameData cap o).1 = 0 ∧
        Jt808FrameParse devs (RecvFrameData cap o).2 p1 = some r ∧ accept r = true := by
  intro recvs
  induction recvs with
  | nil => intro p rs q msg h; simp [waitRespond] at h
  | cons o recvs ih =>
    intro p rs q msg h
    simp only [waitRespond] at h
    split_ifs at h with h1 h2
    · simp at h
    · simp only [Option.bind_eq_bind, Option.bind_eq_some, Option.pure_def] at h
      obtain ⟨r, hr, h⟩ := h
      split_ifs at h with h3
      · exact ⟨o, List.mem_cons_self _ _, p, r, by simpa using h1, hr, h3⟩
      · obtain ⟨o1, ho1, hx⟩ := ih _ _ _ _ h
        exact ⟨o1, List.mem_cons_of_mem _ ho1, hx⟩
    · obtain ⟨o1, ho1, hx⟩ := ih _ _ _ _ h
      exact ⟨o1, List.mem_cons_of_mem _ ho1, hx⟩

/-- A wait loop whose first call of `recv` fails ends with the socket closed. -/
theorem waitRespond_fail (cap : Nat) (devs : List DeviceNode) (accept : ParseResult → Bool)
    (o : RecvOutcome) (rs : List RecvOutcome) (p : ProtocolParameters)
    (h : (RecvFrameData cap o).1 ≠ 0) :
    waitRespond cap devs accept (o :: rs) p = some (rs, p, (RecvFrameData cap o).2, true) := by
  simp only [waitRespond, h, ne_eq, not_false_eq_true, if_true]

/-- Lines 2336-2378 for the three delete verbs: the reply is chosen by the value that
`DealAreaRouteDelateRequest` returns. -/
theorem commandVerb_delete (io : CommandIo) (devs : List DeviceNode) (device : DeviceNode)
    (buffer verb : List Nat) (va_vec : List (List Nat)) (command : Nat)
    (hverb : (verb = cstr "delcirculararea" ∧ command = DOWN_DELCIRCULARAREA) ∨
      (verb = cstr "delrectanglearea" ∧ command = DOWN_DELRECTANGLEAREA) ∨
      (verb = cstr "delpolygonalarea" ∧ command = DOWN_DELPOLYGONALAREA)) :
    commandVerb io devs device buffer verb va_vec
      = (DealAreaRouteDelateRequest io.cap io.message_flow_num_ devs device va_vec.reverse
          command io.sends io.recvs).bind fun r =>
        if r.retval = 0 then
          (memcpy buffer 0 (cstr "operation completed.") 20).bind fun b =>
            some ⟨0, b, r.sent⟩
        else
          (memcpy buffer 0 (cstr "operation failed!!!") 19).bind fun b =>
            some ⟨0, b, r.sent⟩ := by
  rcases hverb with ⟨rfl, rfl⟩ | ⟨rfl, rfl⟩ | ⟨rfl, rfl⟩
  · unfold commandVerb commandSet
    rw [if_neg (by decide), if_neg (by decide), if_neg (by decide), if_neg (by decide),
      if_neg (by decide), if_neg (by decide), if_pos rfl]
    cases DealAreaRouteDelateRequest io.cap io.message_flow_num_ devs device va_vec.reverse
      DOWN_DELCIRCULARAREA io.sends io.recvs <;> rfl
  · unfold commandVerb commandSet
    rw [if_neg (by decide), if_neg (by decide), if_neg (by decide), if_neg (by decide),
      if_neg (by decide), if_neg (by decide), if_neg (by decide), if_neg (by decide),
      if_pos rfl]
    cases DealAreaRouteDelateRequest io.cap io.message_flow_num_ devs device va_vec.reverse
      DOWN_DELRECTANGLEAREA io.sends io.recvs <;> rfl
  · unfold commandVerb commandSet
    rw [if_neg (by decide), if_neg (by decide), if_neg (by decide), if_neg (by decide),
      if_neg (by decide), if_neg (by decide), if_neg (by decide), if_neg (by decide),
      if_neg (by decide), if_neg (by decide), if_pos rfl]
    cases DealAreaRouteDelateRequest io.cap io.message_flow_num_ devs device va_vec.reverse
      DOWN_DELPOLYGONALAREA io.sends io.recvs <;> rfl

/-- Lines 531-536 and `ParseCommand` for a delete verb to a connected terminal: the
reply on the control channel is chosen by the value that `DealAreaRouteDelateRequest`
returns. -/
theorem runCommandEvent_delete (io : CommandIo) (devs : List DeviceNode) (size : Nat)
    (line phone verb : List Nat) (args : List (List Nat)) (device : DeviceNode)
    (command : Nat)
    (h0 : 0 ∉ line) (hsize : line.length < size) (h20 : 20 < size)
    (htok : splitWords line [] = phone :: verb :: args)
    (hfind : (devs.find? fun d => decide (cString d.phone_num = phone)) = some device)
    (hfd : device.socket_fd > 0)
    (hverb : (verb = cstr "delcirculararea" ∧ command = DOWN_DELCIRCULARAREA) ∨
      (verb = cstr "delrectanglearea" ∧ command = DOWN_DELRECTANGLEAREA) ∨
      (verb = cstr "delpolygonalarea" ∧ command = DOWN_DELPOLYGONALAREA)) :
    runCommandEvent io devs size line
      = (DealAreaRouteDelateRequest io.cap io.message_flow_num_ devs device args.reverse
          command io.sends io.recvs).bind fun r =>
        some ⟨some (if r.retval = 0 then cstr "operation completed."
          else cstr "operation failed!!!"), r.sent⟩ := by
  have hne : line ≠ [] := by
    intro h
    subst h
    simp [splitWords] at htok
  have hdevs : devs ≠ [] := by
    intro h
    subst h
    simp at hfind
  obtain ⟨b1, hc1, hl1, ht1⟩ := reply_text (cstr "operation completed.") 20 size
    (by decide) (by decide) h20
  obtain ⟨b2, hc2, hl2, ht2⟩ := reply_text (cstr "operation failed!!!") 19 size
    (by decide) (by decide) (by omega)
  have e1 : (cstr "operation completed.").take 20 = cstr "operation completed." := by decide
  have e2 : (cstr "operation failed!!!").take 19 = cstr "operation failed!!!" := by decide
  rw [e1] at ht1
  rw [e2] at ht2
  unfold runCommandEvent
  rw [if_neg hne, ParseCommand_line io devs line size h0 hsize, htok]
  simp only [if_neg hdevs, hfind, if_pos hfd]
  rw [commandVerb_delete io devs device _ verb args command hverb]
  cases DealAreaRouteDelateRequest io.cap io.message_flow_num_ devs device args.reverse
      command io.sends io.recvs with
  | none => rfl
  | some r =>
    simp only [Option.some_bind, Option.bind_eq_bind]
    by_cases hr : r.retval = 0
    · simp only [if_pos hr, hc1, Option.some_bind, ge_iff_le, le_refl, if_true, hl1, ht1,
        Option.pure_def]
    · simp only [if_neg hr, hc2, Option.some_bind, ge_iff_le, le_refl, if_true, hl2, ht2,
        Option.pure_def]

/-- C33, as amended: for a delete command (`delcirculararea`, `delrectanglearea`,
`delpolygonalarea`) to a connected terminal whose arguments are hexadecimal ids, one
frame is sent and the reply on the control channel is `operation completed.` or
`operation failed!!!`.  It is `operation completed.` only if the send succeeded and a
message was received that `Jt808FrameParse` returns with a message id other than 0 and
with the sent message id in `respond_id`; the result byte of the answer is not examined.
If the send fails, or the first call of `recv` fails, the reply is `operation
failed!!!`; if the first answer is a unified response for the sent id, the reply is
`operation completed.`. -/
theorem delete_reply (io : CommandIo) (devs : List DeviceNode) (size : Nat)
    (line phone verb : List Nat) (args : List (List Nat)) (device : DeviceNode)
    (command : Nat) (ids bcd : List Nat)
    (h0 : 0 ∉ line) (hsize : line.length < size) (h20 : 20 < size)
    (htok : splitWords line [] = phone :: verb :: args)
    (hfind : (devs.find? fun d => decide (cString d.phone_num = phone)) = some device)
    (hfd : device.socket_fd > 0)
    (hverb : (verb = cstr "delcirculararea" ∧ command = DOWN_DELCIRCULARAREA) ∨
      (verb = cstr "delrectanglearea" ∧ command = DOWN_DELRECTANGLEAREA) ∨
      (verb = cstr "delpolygonalarea" ∧ command = DOWN_DELPOLYGONALAREA))
    (hphone : PreparePhoneNum device.phone_num = some bcd)
    (hscan : args.map sscanfHex = ids.map (fun i => some (some i)))
    (hcap : 2 * (14 + 4 * (ids.length % 256)) + 3 ≤ io.cap) (h16 : io.cap < 65536) :
    ∃ frame : List Nat,
      (∀ e, runCommandEvent io devs size line = some e →
        e.sent = [frame] ∧
        (e.reply = some (cstr "operation completed.") ∨
          e.reply = some (cstr "operation failed!!!")) ∧
        (e.reply = some (cstr "operation completed.") →
          io.sends.head? = some true ∧
          ∃ o ∈ io.recvs, ∃ p r, (RecvFrameData io.cap o).1 = 0 ∧
            Jt808FrameParse devs (RecvFrameData io.cap o).2 p = some r ∧
            r.message_id ≠ 0 ∧ r.propara.respond_id = command)) ∧
      (io.sends.head? = some false →
        runCommandEvent io devs size line
          = some ⟨some (cstr "operation failed!!!"), [frame]⟩) ∧
      (∀ o rs, io.sends.head? = some true → io.recvs = o :: rs →
        (RecvFrameData io.cap o).1 ≠ 0 →
        runCommandEvent io devs size line
          = some ⟨some (cstr "operation failed!!!"), [frame]⟩) ∧
      (∀ o rs, io.sends.head? = some true → io.recvs = o :: rs →
        Acknowledges io.cap devs (areaAccept command) o →
        runCommandEvent io devs size line
          = some ⟨some (cstr "operation completed."), [frame]⟩) := by
  have hc : command = DOWN_DELCIRCULARAREA ∨ command = DOWN_DELRECTANGLEAREA ∨
      command = DOWN_DELPOLYGONALAREA := by
    rcases hverb with ⟨_, h⟩ | ⟨_, h⟩ | ⟨_, h⟩
    · exact Or.inl h
    · exact Or.inr (Or.inl h)
    · exact Or.inr (Or.inr h)
  obtain ⟨propara, msg, n, hdeal⟩ := deleteArea_pack io.cap io.message_flow_num_ device
    args.reverse command ids bcd hc hphone (by rw [List.reverse_reverse]; exact hscan)
    hcap h16
  have hrun := runCommandEvent_delete io devs size line phone verb args device command
    h0 hsize h20 htok hfind hfd hverb
  rw [hdeal devs io.sends io.recvs] at hrun
  have hdiff : cstr "operation failed!!!" ≠ cstr "operation completed." := by decide
  refine ⟨msg.buffer.take n, ?_, ?_, ?_, ?_⟩
  · intro e he
    rw [hrun] at he
    rcases hs : io.sends with _ | ⟨b, sends⟩
    · rw [hs] at he
      simp at he
    · rw [hs] at he
      cases b
      · simp only [Option.some_bind, Option.some.injEq] at he
        subst he
        refine ⟨rfl, Or.inr ?_, ?_⟩
        · simp
        · intro hcomp
          simp only [Int.reduceNeg, Int.neg_eq_zero, one_ne_zero, if_false,
            Option.some.injEq] at hcomp
          exact absurd hcomp hdiff
      · simp only [] at he
        rcases hw : waitRespond io.cap devs (areaAccept command) io.recvs propara with
          _ | ⟨rs, q, m, closed⟩
        · rw [hw] at he
          simp at he
        · rw [hw] at he
          simp only [Option.some_bind, Option.some.injEq] at he
          subst he
          cases closed
          · refine ⟨rfl, Or.inl ?_, ?_⟩
            · simp
            · intro _
              refine ⟨by simp, ?_⟩
              obtain ⟨o, ho, p1, r, h1, h2, h3⟩ := waitRespond_accepted io.cap devs
                (areaAccept command) io.recvs propara rs q m hw
              refine ⟨o, ho, p1, r, h1, h2, ?_⟩
              simpa [areaAccept] using h3
          · refine ⟨rfl, Or.inr ?_, ?_⟩
            · simp
            · intro hcomp
              simp only [if_true, Int.reduceNeg, Int.neg_eq_zero, one_ne_zero, if_false,
                Option.some.injEq] at hcomp
              exact absurd hcomp hdiff
  · intro hs
    rw [hrun]
    rcases hs2 : io.sends with _ | ⟨b, sends⟩
    · rw [hs2] at hs
      simp at hs
    · rw [hs2] at hs
      simp only [List.head?_cons, Option.some.injEq] at hs
      subst hs
      simp
  · intro o rs hs hr hfail
    rw [hrun]
    rcases hs2 : io.sends with _ | ⟨b, sends⟩
    · rw [hs2] at hs
      simp at hs
    · rw [hs2] at hs
      simp only [List.head?_cons, Option.some.injEq] at hs
      subst hs
      simp only [hr, waitRespond_fail io.cap devs (areaAccept command) o rs propara hfail,
        Option.some_bind]
      simp
  · intro o rs hs hr hack
    rw [hrun]
    rcases hs2 : io.sends with _ | ⟨b, sends⟩
    · rw [hs2] at hs
      simp at hs
    · rw [hs2] at hs
      simp only [List.head?_cons, Option.some.injEq] at hs
      subst hs
      obtain ⟨fl, id, m, _, hw⟩ := waitRespond_ack io.cap devs (areaAccept command) o rs
        propara hack
      simp only [hr, hw, Option.some_bind]
      simp

/-- Witness of C33 as amended: the line `012345678902 delcirculararea 1 2` for the
connected terminal `liveDevice`, answered by a unified response for 0x8601. -/
theorem delete_reply_witness :
    (0 ∉ cstr "012345678902 delcirculararea 1 2" ∧
      (cstr "012345678902 delcirculararea 1 2").length < 128 ∧ 20 < 128 ∧
      splitWords (cstr "012345678902 delcirculararea 1 2") []
        = cstr "012345678902" :: cstr "delcirculararea" :: [cstr "1", cstr "2"] ∧
      ([liveDevice, exampleDevice].find?
        fun d => decide (cString d.phone_num = cstr "012345678902")) = some liveDevice ∧
      liveDevice.socket_fd > 0 ∧
      PreparePhoneNum liveDevice.phone_num = some [0x01, 0x23, 0x45, 0x67, 0x89, 0x02] ∧
      [cstr "1", cstr "2"].map sscanfHex = [1, 2].map (fun i => some (some i)) ∧
      2 * (14 + 4 * (([1, 2] : List Nat).length % 256)) + 3
        ≤ (exampleIo [.data (respondFrame 0x8601)]).cap ∧
      (exampleIo [.data (respondFrame 0x8601)]).cap < 65536) ∧
    ∃ frame : List Nat,
      (∀ e, runCommandEvent (exampleIo [.data (respondFrame 0x8601)])
          [liveDevice, exampleDevice] 128 (cstr "012345678902 delcirculararea 1 2") = some e →
        e.sent = [frame] ∧
        (e.reply = some (cstr "operation completed.") ∨
          e.reply = some (cstr "operation failed!!!")) ∧
        (e.reply = some (cstr "operation completed.") →
          (exampleIo [.data (respondFrame 0x8601)]).sends.head? = some true ∧
          ∃ o ∈ (exampleIo [.data (respondFrame 0x8601)]).recvs, ∃ p r,
            (RecvFrameData (exampleIo [.data (respondFrame 0x8601)]).cap o).1 = 0 ∧
            Jt808FrameParse [liveDevice, exampleDevice]
              (RecvFrameData (exampleIo [.data (respondFrame 0x8601)]).cap o).2 p = some r ∧
            r.message_id ≠ 0 ∧ r.propara.respond_id = DOWN_DELCIRCULARAREA)) ∧
      ((exampleIo [.data (respondFrame 0x8601)]).sends.head? = some false →
        runCommandEvent (exampleIo [.data (respondFrame 0x8601)])
            [liveDevice, exampleDevice] 128 (cstr "012345678902 delcirculararea 1 2")
          = some ⟨some (cstr "operation failed!!!"), [frame]⟩) ∧
      (∀ o rs, (exampleIo [.data (respondFrame 0x8601)]).sends.head? = some true →
        (exampleIo [.data (respondFrame 0x8601)]).recvs = o :: rs →
        (RecvFrameData (exampleIo [.data (respondFrame 0x8601)]).cap o).1 ≠ 0 →
        runCommandEvent (exampleIo [.data (respondFrame 0x8601)])
            [liveDevice, exampleDevice] 128 (cstr "012345678902 delcirculararea 1 2")
          = some ⟨some (cstr "operation failed!!!"), [frame]⟩) ∧
      (∀ o rs, (exampleIo [.data (respondFrame 0x8601)]).sends.head? = some true →
        (exampleIo [.data (respondFrame 0x8601)]).recvs = o :: rs →
        Acknowledges (exampleIo [.data (respondFrame 0x8601)]).cap
          [liveDevice, exampleDevice] (areaAccept DOWN_DELCIRCULARAREA) o →
        runCommandEvent (exampleIo [.data (respondFrame 0x8601)])
            [liveDevice, exampleDevice] 128 (cstr "012345678902 delcirculararea 1 2")
          = some ⟨some (cstr "operation completed."), [frame]⟩) :=
  ⟨⟨by decide, by decide, by decide, by decide, by decide, by decide, by decide, by decide,
      by decide, by decide⟩,
   delete_reply (exampleIo [.data (respondFrame 0x8601)]) [liveDevice, exampleDevice] 128
     (cstr "012345678902 delcirculararea 1 2") (cstr "012345678902")
     (cstr "delcirculararea") [cstr "1", cstr "2"] liveDevice DOWN_DELCIRCULARAREA [1, 2]
     [0x01, 0x23, 0x45, 0x67, 0x89, 0x02] (by decide) (by decide) (by decide) (by decide)
     (by decide) (by decide) (Or.inl ⟨rfl, rfl⟩) (by decide) (by decide) (by decide)
     (by decide)⟩

set_option maxRecDepth 1000000 in
set_option maxHeartbeats 4000000 in
/-- Counterexample to C33 as stated: the terminal answers the delete request 0x8601 with
a unified response whose result byte is 1 (failure), and the reply on the control
channel is `operation completed.`: the wait loop of lines 2212-2224 tests the message id
and `respond_id`, and no statement reads the result byte. -/
theorem delete_reply_ignores_result :
    runCommandEvent (exampleIo [.data (failureFrame 0x8601)]) [liveDevice, exampleDevice]
        128 (cstr "012345678902 delcirculararea 1 2")
      = some ⟨some (cstr "operation completed."),
          [[0x7E, 0x86, 0x01, 0x00, 0x09, 0x01, 0x23, 0x45, 0x67, 0x89, 0x02, 0x00, 0x01,
            2, 0, 0, 0, 1, 0, 0, 0, 2, 5, 0x7E]]⟩ := by
  decide

set_option maxRecDepth 1000000 in
set_option maxHeartbeats 4000000 in
/-- The set verbs beside the delete verbs: `DealSetTerminalParameterRequest` and the
three set-area requests return the `0` that lines 1805, 1898, 1987 and 2085 initialise
`retval` with, also when the call of `recv` fails and the socket is closed (lines
1874-1877 and 1971-1974), so the reply is `operation completed.` there. -/
theorem set_reply_ignores_receive_failure :
    (runCommandEvent (exampleIo [.closed]) [liveDevice, exampleDevice] 128
        (cstr "012345678902 setterminalparameter F000:1")).map (fun e => e.reply)
      = some (some (cstr "operation completed.")) ∧
    (runCommandEvent (exampleIo [.closed]) [liveDevice, exampleDevice] 128
        (cstr "012345678902 setcirculararea update 1 0 31 121 100")).map (fun e => e.reply)
      = some (some (cstr "operation completed.")) ∧
    (runCommandEvent (exampleIo [.closed]) [liveDevice, exampleDevice] 128
        (cstr "012345678902 delcirculararea 1")).map (fun e => e.reply)
      = some (some (cstr "operation failed!!!")) := by
  refine ⟨by decide, by decide, by decide⟩

theorem packable_getspec (propara : ProtocolParameters)
    (hphone : propara.phone_num.length = 6)
    (hbuf : propara.terminal_parameter_id_count * 4
      ≤ (propara.terminal_parameter_id_buffer.getD []).length) :
    packable DOWN_GETSPECTERMPARA propara :=
  ⟨hphone, fun hc => absurd hc (by decide), fun hc => absurd hc (by decide),
    fun _ => hbuf, fun hc => absurd hc (by decide),
    fun hc => absurd hc (by decide), fun hc => absurd hc (by decide),
    fun hc => absurd hc (by decide),
    fun hc => by rcases hc with h | h | h <;> exact absurd h (by decide),
    fun hc => absurd hc (by decide)⟩

/-- `DealGetTerminalParameterRequest`, lines 1720-1801, for arguments that are hexadecimal
ids, when the two sends succeed and the first message received is an unfragmented
get-parameter response 0x0104 with well-formed tuples: the request and a unified
response are sent, the function returns 0, and `va_vec` holds one string for each
tuple, the string of the first tuple at the back. -/
theorem DealGetTerminalParameterRequest_answered (cap flow : Nat) (devs : List DeviceNode)
    (device : DeviceNode) (va_vec : List (List Nat)) (ids bcd rphone : List Nat)
    (rflow request : Nat) (ts : List WireParameter) (sends : List Bool)
    (rs : List RecvOutcome) (items : List (List Nat))
    (hphone : PreparePhoneNum device.phone_num = some bcd) (hne : va_vec ≠ [])
    (hscan : va_vec.reverse.map sscanfHex = ids.map (fun i => some (some i)))
    (hrphone : rphone.length = 6) (hwf : ∀ t ∈ ts, t.wellFormed)
    (hmsglen : 3 + (ts.map fun t => 5 + t.value.length).sum < 1024)
    (hitems : (ts.map parsedParameter).mapM parameterItem = some items)
    (hcap1 : 2 * (14 + 4 * (ids.length % 256)) + 3 ≤ cap) (hcap2 : 39 ≤ cap)
    (hcapr : (getParaResponseSpec rphone rflow request ts).length < cap)
    (h16 : cap < 65535) :
    ∃ (f1 f2 : List Nat) (flow2 : Nat),
      Operator.DealGetTerminalParameterRequest cap flow devs device va_vec
          (true :: true :: sends)
          (.data (getParaResponseSpec rphone rflow request ts) :: rs)
        = some ⟨0, items.reverse, [f1, f2], false, flow2⟩ := by
  obtain ⟨hp6, _⟩ := PreparePhoneNum_some _ _ hphone
  have hlen : va_vec.length = ids.length := by
    have := congrArg List.length hscan
    simpa using this
  have hloop := idBufferLoop_eq va_vec.reverse ids none [] 0 (by norm_num) hscan
  simp only [List.nil_append, List.length_nil, Nat.zero_add, List.length_reverse] at hloop
  -- the request frame
  obtain ⟨p1, hp1⟩ : ∃ p1 : ProtocolParameters, p1 = { zeroParameters with
      phone_num := bcd, terminal_parameter_id_count := va_vec.length % 256,
      terminal_parameter_id_buffer := some (ids.flatMap be32) } := ⟨_, rfl⟩
  have hp1phone : p1.phone_num.length = 6 := by rw [hp1]; exact hp6
  have hp1buf : p1.terminal_parameter_id_count * 4
      ≤ (p1.terminal_parameter_id_buffer.getD []).length := by
    rw [hp1]
    show va_vec.length % 256 * 4 ≤ (ids.flatMap be32).length
    rw [flatMap_be32_length, hlen]
    have := Nat.mod_le ids.length 256
    omega
  have hp1len : packedLength DOWN_GETSPECTERMPARA p1 = 14 + 4 * (ids.length % 256) := by
    rw [hp1]
    show 13 + 0 + ([va_vec.length % 256 % 256]
      ++ ((ids.flatMap be32).take (va_vec.length % 256 * 4))).length = _
    rw [List.length_append, List.length_take, List.length_singleton, flatMap_be32_length, hlen]
    have := Nat.mod_le ids.length 256
    omega
  obtain ⟨msg1, n1, _, hpack1, _, _⟩ := Jt808FramePack_delimiters flow cap 0
    DOWN_GETSPECTERMPARA p1 (by decide) (packable_getspec p1 hp1phone hp1buf)
    (by rw [hp1len]; omega) (by omega)
  -- the answer
  obtain ⟨F, hF⟩ : ∃ F, F = getParaResponseSpec rphone rflow request ts := ⟨_, rfl⟩
  have hF0 : F ≠ [] := by rw [hF]; simp [getParaResponseSpec, encode_frame]
  have hrecv := RecvFrameData_data cap F hF0 (by rw [hF]; exact hcapr)
  obtain ⟨a, ha⟩ : ∃ a, a = 3 + (ts.map fun t => 5 + t.value.length).sum := ⟨_, rfl⟩
  have hpk : ¬ attrPackage a = 1 := by
    unfold attrPackage
    omega
  have hparse := getParaResponse_parse devs { p1 with terminal_parameter_list := some [] } []
    rfl cap a rflow request (ts.length % 256) 0 0 rphone ts hrphone (by omega) hwf
    (by unfold attrMsglen; omega)
    (by rw [if_neg hpk, List.nil_append, ha]; rw [hF] at hrecv; exact hcapr) h16
  rw [if_neg hpk, List.nil_append, ha] at hparse
  obtain ⟨msg, hparse⟩ := hparse
  have hFeq : encode_frame
      (headerSpec 0x0104 (3 + (ts.map fun t => 5 + t.value.length).sum) rphone rflow)
      (be16 request ++ [ts.length % 256] ++ ts.flatMap wireParameterSpec) = F := by
    rw [hF]; rfl
  rw [hFeq] at hparse
  obtain ⟨p2, hp2⟩ : ∃ p2 : ProtocolParameters, p2 = { ({ p1 with
        terminal_parameter_list := some [] } : ProtocolParameters) with
      respond_flow_num := rflow % 65536, respond_id := UP_GETPARARESPONSE,
      packet_total_num := if attrPackage (3 + (ts.map fun t => 5 + t.value.length).sum) = 1
        then 0 % 65536
        else ({ p1 with terminal_parameter_list := some [] } : ProtocolParameters
          ).packet_total_num,
      packet_sequence_num :=
        if attrPackage (3 + (ts.map fun t => 5 + t.value.length).sum) = 1 then 0 % 65536
        else ({ p1 with terminal_parameter_list := some [] } : ProtocolParameters
          ).packet_sequence_num,
      terminal_parameter_list := some ([] ++ ts.map parsedParameter),
      respond_result := kSuccess } := ⟨_, rfl⟩
  rw [← hp2] at hparse
  have hp2phone : p2.phone_num.length = 6 := by rw [hp2]; exact hp1phone
  have hp2same : p2.packet_total_num = p2.packet_sequence_num := by
    rw [hp2, ← ha]
    show (if attrPackage a = 1 then 0 % 65536 else p1.packet_total_num)
      = (if attrPackage a = 1 then 0 % 65536 else p1.packet_sequence_num)
    rw [if_neg hpk, if_neg hpk, hp1]
    rfl
  have hp2list : p2.terminal_parameter_list.getD [] = ts.map parsedParameter := by
    rw [hp2]
    rfl
  obtain ⟨msg2, n2, _, hpack2, _, _⟩ := Jt808FramePack_delimiters ((flow + 1) % 65536) cap 0
    DOWN_UNIRESPONSE p2 (by decide) (packable_uniresponse p2 hp2phone)
    (by
      have : packedLength DOWN_UNIRESPONSE p2 = 18 := by
        show 13 + 0 + (uniResponseSpec p2).length = 18
        unfold uniResponseSpec
        simp [be16_length]
      rw [this]; omega) (by omega)
  refine ⟨msg1.buffer.take n1, msg2.buffer.take n2, ((flow + 1) % 65536 + 1) % 65536, ?_⟩
  have hr1 : (RecvFrameData cap (RecvOutcome.data F)).1 = 0 := by rw [hrecv]
  have hr2 : (RecvFrameData cap (RecvOutcome.data F)).2.len > 0 := by
    rw [hrecv]
    show F.length > 0
    exact List.length_pos.mpr hF0
  have hfun : Operator.DealGetTerminalParameterRequest cap flow devs device va_vec
        (true :: true :: sends) (.data F :: rs)
      = (Jt808FramePack flow ⟨List.replicate cap 0, 0⟩ DOWN_GETSPECTERMPARA p1).bind fun r =>
          getParaLoop cap devs (.data F :: rs) (true :: sends)
            { p1 with terminal_parameter_list := some [] } r.1 [r.2.1.buffer.take r.2.2] := by
    rw [hp1]
    unfold Operator.DealGetTerminalParameterRequest
    simp only [hphone, Option.bind_eq_bind, Option.some_bind, if_neg hne, hloop,
      Option.pure_def]
  have hstep : ∀ (p : ProtocolParameters) (fl : Nat) (sent : List (List Nat)),
      getParaLoop cap devs (.data F :: rs) (true :: sends) p fl sent
        = (Jt808FrameParse devs (RecvFrameData cap (RecvOutcome.data F)).2 p).bind fun q =>
          if q.message_id = UP_GETPARARESPONSE then
            (Jt808FramePack fl ⟨List.replicate cap 0, 0⟩ DOWN_UNIRESPONSE q.propara).bind
              fun r =>
                if q.propara.packet_total_num ≠ q.propara.packet_sequence_num then
                  getParaLoop cap devs rs sends q.propara r.1 (sent ++ [r.2.1.buffer.take r.2.2])
                else
                  ((q.propara.terminal_parameter_list.getD []).mapM parameterItem).bind
                    fun items => some ⟨0, items.reverse, sent ++ [r.2.1.buffer.take r.2.2],
                      false, r.1⟩
          else getParaLoop cap devs rs (true :: sends) q.propara fl sent := by
    intro p fl sent
    rw [getParaLoop]
    simp only [hr1, ne_eq, not_true_eq_false, if_false, hr2, if_true, Option.bind_eq_bind,
      Option.pure_def]
  rw [← hF, hfun, hpack1, Option.some_bind]
  simp only []
  rw [hstep, hparse, Option.some_bind]
  simp only [if_true, hpack2, Option.some_bind, hp2same, ne_eq, not_true_eq_false, if_false,
    hp2list, hitems, List.singleton_append]

set_option maxRecDepth 100000 in
/-- The string of lines 1782-1786 for a startup tuple with the value 0 or 1: the id in
four hexadecimal digits, a colon and the digit. -/
theorem startupItem (id v : Nat)
    (hid : id = 0xF000 ∨ id = 0xF001 ∨ id = 0xF002 ∨ id = 0xF003 ∨ id = 0xF004)
    (hv : v ≤ 1) :
    parameterItem (parsedParameter ⟨id, [v]⟩) = some (formatHex4 id ++ [58, 48 + v]) := by
  rcases hid with rfl | rfl | rfl | rfl | rfl <;> interval_cases v <;> decide

theorem startupItems (v0 v1 v2 v3 v4 : Nat) (h0 : v0 ≤ 1) (h1 : v1 ≤ 1) (h2 : v2 ≤ 1)
    (h3 : v3 ≤ 1) (h4 : v4 ≤ 1) :
    ((startupTuples v0 v1 v2 v3 v4).map parsedParameter).mapM parameterItem
      = some [formatHex4 0xF000 ++ [58, 48 + v0], formatHex4 0xF001 ++ [58, 48 + v1],
          formatHex4 0xF002 ++ [58, 48 + v2], formatHex4 0xF003 ++ [58, 48 + v3],
          formatHex4 0xF004 ++ [58, 48 + v4]] := by
  simp only [startupTuples, List.map_cons, List.map_nil, List.mapM_cons, List.mapM_nil,
    startupItem 0xF000 v0 (by decide) h0, startupItem 0xF001 v1 (by decide) h1,
    startupItem 0xF002 v2 (by decide) h2, startupItem 0xF003 v3 (by decide) h3,
    startupItem 0xF004 v4 (by decide) h4, Option.pure_def, Option.bind_eq_bind,
    Option.some_bind]

set_option maxRecDepth 100000 in
theorem startupTuples_wellFormed (v0 v1 v2 v3 v4 : Nat) (h0 : v0 ≤ 1) (h1 : v1 ≤ 1)
    (h2 : v2 ≤ 1) (h3 : v3 ≤ 1) (h4 : v4 ≤ 1) :
    ∀ t ∈ startupTuples v0 v1 v2 v3 v4, t.wellFormed := by
  have key : ∀ id v, (id = 0xF000 ∨ id = 0xF001 ∨ id = 0xF002 ∨ id = 0xF003 ∨ id = 0xF004) →
      v ≤ 1 → (⟨id, [v]⟩ : WireParameter).wellFormed := by
    intro id v hid hv
    rcases hid with rfl | rfl | rfl | rfl | rfl <;> interval_cases v <;>
      (unfold WireParameter.wellFormed; decide)
  intro t ht
  simp only [startupTuples, List.mem_cons, List.mem_singleton, List.not_mem_nil,
    or_false] at ht
  rcases ht with rfl | rfl | rfl | rfl | rfl
  · exact key _ _ (by decide) h0
  · exact key _ _ (by decide) h1
  · exact key _ _ (by decide) h2
  · exact key _ _ (by decide) h3
  · exact key _ _ (by decide) h4

set_option maxRecDepth 100000 in
/-- The loop of lines 1271-1297 on the five strings of the startup tuples: the names of
the modules with the value 1 are appended in the order of the tuples. -/
theorem startupLoop_items (v0 v1 v2 v3 v4 : Nat) (h0 : v0 ≤ 1) (h1 : v1 ≤ 1) (h2 : v2 ≤ 1)
    (h3 : v3 ≤ 1) (h4 : v4 ≤ 1) :
    startupLoop [formatHex4 0xF000 ++ [58, 48 + v0], formatHex4 0xF001 ++ [58, 48 + v1],
        formatHex4 0xF002 ++ [58, 48 + v2], formatHex4 0xF003 ++ [58, 48 + v3],
        formatHex4 0xF004 ++ [58, 48 + v4]] none [0, 0] (cstr "startup:")
      = some (startupReplySpec v0 v1 v2 v3 v4) := by
  interval_cases v0 <;> interval_cases v1 <;> interval_cases v2 <;> interval_cases v3 <;>
    interval_cases v4 <;> decide

set_option maxRecDepth 100000 in
theorem startupReplySpec_text (v0 v1 v2 v3 v4 : Nat) (h0 : v0 ≤ 1) (h1 : v1 ≤ 1)
    (h2 : v2 ≤ 1) (h3 : v3 ≤ 1) (h4 : v4 ≤ 1) :
    0 ∉ startupReplySpec v0 v1 v2 v3 v4 ∧ (startupReplySpec v0 v1 v2 v3 v4).length ≤ 56 := by
  interval_cases v0 <;> interval_cases v1 <;> interval_cases v2 <;> interval_cases v3 <;>
    interval_cases v4 <;> decide

/-- `DealGetStartupRequest`, lines 1255-1302, when the two sends succeed and the first
message received is the response with the five startup tuples: the function returns 0
and the string for `result` is `startup:` with the names of the modules that are on. -/
theorem DealGetStartupRequest_answered (cap flow : Nat) (devs : List DeviceNode)
    (device : DeviceNode) (bcd rphone : List Nat) (rflow request v0 v1 v2 v3 v4 : Nat)
    (sends : List Bool) (rs : List RecvOutcome)
    (hphone : PreparePhoneNum device.phone_num = some bcd) (hrphone : rphone.length = 6)
    (h0 : v0 ≤ 1) (h1 : v1 ≤ 1) (h2 : v2 ≤ 1) (h3 : v3 ≤ 1) (h4 : v4 ≤ 1)
    (hcap : 71 ≤ cap)
    (hcapr : (getParaResponseSpec rphone rflow request
      (startupTuples v0 v1 v2 v3 v4)).length < cap)
    (h16 : cap < 65535) :
    ∃ f1 f2 : List Nat,
      Operator.DealGetStartupRequest cap flow devs device (true :: true :: sends)
          (.data (getParaResponseSpec rphone rflow request (startupTuples v0 v1 v2 v3 v4))
            :: rs)
        = some ⟨0, startupReplySpec v0 v1 v2 v3 v4, [f1, f2]⟩ := by
  obtain ⟨f1, f2, flow2, hreq⟩ := DealGetTerminalParameterRequest_answered cap flow devs device
    (PrepareParemeterIdList []
      [STARTUPGPS, STARTUPCDRADIO, STARTUPNTRIPCORS, STARTUPNTRIPSERV, STARTUPJT808SERV])
    [0xF000, 0xF001, 0xF002, 0xF003, 0xF004] bcd rphone rflow request
    (startupTuples v0 v1 v2 v3 v4) sends rs _ hphone (by decide) (by decide) hrphone
    (startupTuples_wellFormed v0 v1 v2 v3 v4 h0 h1 h2 h3 h4)
    (by simp [startupTuples]) (startupItems v0 v1 v2 v3 v4 h0 h1 h2 h3 h4)
    (by show 2 * (14 + 4 * (5 % 256)) + 3 ≤ cap; omega) (by omega) hcapr h16
  refine ⟨f1, f2, ?_⟩
  unfold Operator.DealGetStartupRequest
  simp only [hreq, Option.bind_eq_bind, Option.some_bind, if_true, List.reverse_reverse,
    startupLoop_items v0 v1 v2 v3 v4 h0 h1 h2 h3 h4, Option.pure_def]

/-- C32: for the command `get startup` to a connected terminal, when the two sends
succeed and the first message received is a get-parameter response 0x0104 that carries
the ids `0xF000` to `0xF004` in order with values in {0, 1}, the request and a unified
response are sent to the terminal and the reply on the control channel is `startup:`
followed, in this order, by ` gps`, ` cdradio`, ` ntripcors`, ` ntripservice` and
` jt808service` for the ids whose value is 1; the values 1, 0, 1, 0, 1 give `startup:
gps ntripcors jt808service`. -/
theorem get_startup_reply (io : CommandIo) (devs : List DeviceNode) (size : Nat)
    (line phone : List Nat) (rest : List (List Nat)) (device : DeviceNode)
    (bcd rphone : List Nat) (rflow request v0 v1 v2 v3 v4 : Nat) (sends : List Bool)
    (rs : List RecvOutcome)
    (hline : 0 ∉ line) (hsize : line.length < size) (h56 : 56 < size)
    (htok : splitWords line [] = phone :: cstr "get" :: cstr "startup" :: rest)
    (hfind : (devs.find? fun d => decide (cString d.phone_num = phone)) = some device)
    (hfd : device.socket_fd > 0)
    (hphone : PreparePhoneNum device.phone_num = some bcd)
    (hsends : io.sends = true :: true :: sends)
    (hrecvs : io.recvs = .data (getParaResponseSpec rphone rflow request
      (startupTuples v0 v1 v2 v3 v4)) :: rs)
    (hrphone : rphone.length = 6)
    (h0 : v0 ≤ 1) (h1 : v1 ≤ 1) (h2 : v2 ≤ 1) (h3 : v3 ≤ 1) (h4 : v4 ≤ 1)
    (hcap : 71 ≤ io.cap)
    (hcapr : (getParaResponseSpec rphone rflow request
      (startupTuples v0 v1 v2 v3 v4)).length < io.cap)
    (h16 : io.cap < 65535) :
    (∃ f1 f2 : List Nat, runCommandEvent io devs size line
      = some ⟨some (startupReplySpec v0 v1 v2 v3 v4), [f1, f2]⟩) ∧
    startupReplySpec 1 0 1 0 1 = cstr "startup: gps ntripcors jt808service" := by
  refine ⟨?_, by decide⟩
  have hne : line ≠ [] := by
    intro h
    subst h
    simp [splitWords] at htok
  have hdevs : devs ≠ [] := by
    intro h
    subst h
    simp at hfind
  obtain ⟨f1, f2, hdeal⟩ := DealGetStartupRequest_answered io.cap io.message_flow_num_ devs
    device bcd rphone rflow request v0 v1 v2 v3 v4 sends rs hphone hrphone h0 h1 h2 h3 h4
    hcap hcapr h16
  obtain ⟨ht0, htl⟩ := startupReplySpec_text v0 v1 v2 v3 v4 h0 h1 h2 h3 h4
  obtain ⟨b, hcopy, hlen, htake⟩ := reply_text (startupReplySpec v0 v1 v2 v3 v4)
    (startupReplySpec v0 v1 v2 v3 v4).length size (le_refl _)
    (by rw [List.take_of_length_le (le_refl _)]; exact ht0) (by omega)
  rw [List.take_of_length_le (le_refl _)] at htake
  refine ⟨f1, f2, ?_⟩
  unfold runCommandEvent
  rw [if_neg hne, ParseCommand_line io devs line size hline hsize, htok]
  simp only [if_neg hdevs, hfind, if_pos hfd]
  unfold commandVerb
  rw [if_neg (by decide), if_pos rfl]
  simp only [commandGet, if_true, hsends, hrecvs, hdeal, Option.bind_eq_bind,
    Option.some_bind, hcopy, Option.pure_def, ge_iff_le, le_refl, hlen, htake]

set_option maxRecDepth 100000 in
/-- Witness of C32: the line `012345678902 get startup` for the connected terminal
`liveDevice`, which answers with the values 1, 0, 1, 0, 1. -/
theorem get_startup_reply_witness :
    (0 ∉ cstr "012345678902 get startup" ∧
      (cstr "012345678902 get startup").length < 128 ∧ 56 < 128 ∧
      splitWords (cstr "012345678902 get startup") []
        = cstr "012345678902" :: cstr "get" :: cstr "startup" :: [] ∧
      ([liveDevice, exampleDevice].find?
        fun d => decide (cString d.phone_num = cstr "012345678902")) = some liveDevice ∧
      liveDevice.socket_fd > 0 ∧
      PreparePhoneNum liveDevice.phone_num = some [0x01, 0x23, 0x45, 0x67, 0x89, 0x02] ∧
      (exampleIo [.data (getParaResponseSpec [0x01, 0x23, 0x45, 0x67, 0x89, 0x02] 9 1
          (startupTuples 1 0 1 0 1))]).sends = true :: true :: [] ∧
      (exampleIo [.data (getParaResponseSpec [0x01, 0x23, 0x45, 0x67, 0x89, 0x02] 9 1
          (startupTuples 1 0 1 0 1))]).recvs
        = .data (getParaResponseSpec [0x01, 0x23, 0x45, 0x67, 0x89, 0x02] 9 1
          (startupTuples 1 0 1 0 1)) :: [] ∧
      ([0x01, 0x23, 0x45, 0x67, 0x89, 0x02] : List Nat).length = 6 ∧
      (getParaResponseSpec [0x01, 0x23, 0x45, 0x67, 0x89, 0x02] 9 1
        (startupTuples 1 0 1 0 1)).length < 128) ∧
    ((∃ f1 f2 : List Nat,
      runCommandEvent (exampleIo [.data (getParaResponseSpec
          [0x01, 0x23, 0x45, 0x67, 0x89, 0x02] 9 1 (startupTuples 1 0 1 0 1))])
          [liveDevice, exampleDevice] 128 (cstr "012345678902 get startup")
        = some ⟨some (startupReplySpec 1 0 1 0 1), [f1, f2]⟩) ∧
      startupReplySpec 1 0 1 0 1 = cstr "startup: gps ntripcors jt808service") :=
  ⟨⟨by decide, by decide, by decide, by decide, by decide, by decide, by decide, rfl, rfl,
      by decide, by decide⟩,
   get_startup_reply (exampleIo [.data (getParaResponseSpec
       [0x01, 0x23, 0x45, 0x67, 0x89, 0x02] 9 1 (startupTuples 1 0 1 0 1))])
     [liveDevice, exampleDevice] 128 (cstr "012345678902 get startup") (cstr "012345678902")
     [] liveDevice [0x01, 0x23, 0x45, 0x67, 0x89, 0x02] [0x01, 0x23, 0x45, 0x67, 0x89, 0x02]
     9 1 1 0 1 0 1 [] [] (by decide) (by decide) (by decide) (by decide) (by decide)
     (by decide) (by decide) rfl rfl (by decide) (by decide) (by decide) (by decide)
     (by decide) (by decide) (by decide) (by decide) (by decide)⟩

/-- `Jt808FramePack` into a zeroed buffer, for every downlink command but the passthrough
and an envelope the command can read, whatever bytes the envelope holds: the frame is
the delimiter, the escaped header, fragmentation words, body and checksum, and the
delimiter. -/
theorem Jt808FramePack_raw (flow cap len0 command : Nat) (propara : ProtocolParameters)
    (hcmd : command ∈ downlinkCommands) (hne : command ≠ DOWN_PASSTHROUGH)
    (hwf : packable command propara)
    (hcap : 2 * packedLength command propara + 3 ≤ cap) (h16 : cap < 65536) :
    ∃ (a : Nat) (msg1 : MessageData) (n : Nat), a < 65536 ∧
      Jt808FramePack flow ⟨List.replicate cap 0, len0⟩ command propara
        = some ((flow + 1) % 65536, msg1, n) ∧
      msg1.buffer.take n
        = [0x7E] ++ escapeSpec (messageBytes command propara a ((flow + 1) % 65536)
            ++ [bccList (messageBytes command propara a ((flow + 1) % 65536))]) ++ [0x7E] := by
  have hc := downlinkCommands_lt command hcmd
  obtain ⟨B, hB⟩ : ∃ B, B = packedFragment command propara ++ packedBody command propara :=
    ⟨_, rfl⟩
  have hBl : packedLength command propara = 13 + B.length := by
    rw [hB, List.length_append]
    unfold packedLength
    omega
  obtain ⟨a, ha16, hz⟩ := packBody_zero command propara hcmd hne hwf
    ([0] ++ be16 command) (by simp [be16]) 0
    (propara.phone_num ++ be16 ((flow + 1) % 65536)) (cap - 13) (by norm_num)
    (by simp only [List.length_append, be16_length, hwf.1]) (by rw [← hB]; omega)
  rw [← hB] at hz
  have hml : (propara.phone_num ++ be16 ((flow + 1) % 65536) ++ B).length = 8 + B.length := by
    simp only [List.length_append, be16_length, hwf.1]
  have hle := escapeSpec_length_le (be16 command ++ be16 a
    ++ (propara.phone_num ++ be16 ((flow + 1) % 65536) ++ B)
    ++ [bccList (be16 command ++ be16 a
      ++ (propara.phone_num ++ be16 ((flow + 1) % 65536) ++ B))])
  have hXl : (be16 command ++ be16 a
      ++ (propara.phone_num ++ be16 ((flow + 1) % 65536) ++ B)
      ++ [bccList (be16 command ++ be16 a
        ++ (propara.phone_num ++ be16 ((flow + 1) % 65536) ++ B))]).length
      = 13 + B.length := by
    simp only [List.length_append, List.length_singleton, be16_length, hml]
    omega
  rw [hXl] at hle
  have hpack := Jt808FramePack_of_body flow cap len0 command propara a
    (propara.phone_num ++ be16 ((flow + 1) % 65536) ++ B) (cap - 13 - B.length)
    (by omega) hwf.1
    (by rw [Nat.mod_eq_of_lt hc, hz, hml]; congr 2 <;> omega) ha16 (by omega) (by omega)
    (by rw [hml]; omega)
  rw [hpack]
  refine ⟨a, _, _, ha16, rfl, ?_⟩
  simp only []
  rw [messageBytes, headerSpec, ← hB]
  have e1 : be16 command ++ be16 a ++ propara.phone_num ++ be16 ((flow + 1) % 65536) ++ B
      = be16 command ++ be16 a
        ++ (propara.phone_num ++ be16 ((flow + 1) % 65536) ++ B) := by
    simp
  rw [e1]
  obtain ⟨E, hE⟩ : ∃ E, E = escapeSpec (be16 command ++ be16 a
      ++ (propara.phone_num ++ be16 ((flow + 1) % 65536) ++ B)
      ++ [bccList (be16 command ++ be16 a
        ++ (propara.phone_num ++ be16 ((flow + 1) % 65536) ++ B))]) := ⟨_, rfl⟩
  rw [← hE]
  rw [show (0x7E : Nat) :: (E ++ 0x7E :: List.replicate
        (5 + (propara.phone_num ++ be16 ((flow + 1) % 65536) ++ B).length
          + (cap - 13 - B.length) - 2 - E.length) 0)
      = ([0x7E] ++ E ++ [0x7E]) ++ List.replicate
        (5 + (propara.phone_num ++ be16 ((flow + 1) % 65536) ++ B).length
          + (cap - 13 - B.length) - 2 - E.length) 0 by simp]
  rw [List.take_left']
  simp

/-- The argument loops of the set-area requests on words that are read record by
record: the records are appended to the vector in the order of the words. -/
theorem areaLoop_reads {α : Type}
    (read : AreaScan → List (List Nat) → Option (α × AreaScan × List (List Nat)))
    (tss : List (List (List Nat))) (areas : List α)
    (h : List.Forall₂ (AreaReads read) tss areas) :
    ∀ (fuel : Nat) (st : AreaScan) (list : List α), tss.flatten.length < fuel →
      areaLoop read fuel tss.flatten st list = some (list ++ areas) := by
  induction h with
  | nil =>
    intro fuel st list hf
    obtain ⟨f, rfl⟩ : ∃ f, fuel = f + 1 := ⟨fuel - 1, by omega⟩
    simp [areaLoop]
  | @cons ts a tss areas hr _ ih =>
    intro fuel st list hf
    obtain ⟨hne, hread⟩ := hr
    obtain ⟨f, rfl⟩ : ∃ f, fuel = f + 1 := ⟨fuel - 1, by omega⟩
    obtain ⟨st1, hst1⟩ := hread st tss.flatten
    obtain ⟨t, ts1, rfl⟩ : ∃ t ts1, ts = t :: ts1 := by
      cases ts with
      | nil => exact absurd rfl hne
      | cons t ts1 => exact ⟨t, ts1, rfl⟩
    simp only [List.flatten_cons, List.cons_append] at hst1 hf ⊢
    rw [areaLoop]
    simp only [hst1, Option.bind_eq_bind, Option.some_bind]
    rw [ih f st1 (list ++ [a]) (by simp only [List.length_cons, List.length_append] at hf; omega)]
    simp

theorem areaTime_length (st st1 : AreaScan) (va va1 : List (List Nat)) (t : List Nat)
    (h : areaTime st va = some (t, st1, va1)) : t.length = 6 := by
  cases va with
  | nil => simp [areaTime] at h
  | cons arg va =>
    simp only [areaTime, Option.bind_eq_bind, Option.bind_eq_some, Option.pure_def,
      Option.some.injEq, Prod.mk.injEq] at h
    obtain ⟨_, _, t1, ht1, rfl, _, _⟩ := h
    exact loadBytes_length _ _ _ _ ht1

/-- The optional members that lines 1939-1958 read or leave: both time arrays have six
bytes. -/
theorem areaOptions_times (attr : Nat) (st st1 : AreaScan) (va va1 : List (List Nat))
    (o : AreaOptions) (h : areaOptions attr st va = some (o, st1, va1)) :
    o.start_time.length = 6 ∧ o.end_time.length = 6 := by
  unfold areaOptions at h
  by_cases hb : areaBytime attr = true
  · simp only [hb, ↓reduceIte, Option.bind_eq_bind, Option.bind_eq_some, Option.pure_def,
      Option.some.injEq] at h
    obtain ⟨a, ha, a1, ha1, a2, rfl, h⟩ := h
    have hl1 := areaTime_length _ _ _ _ _ ha
    have hl2 := areaTime_length _ _ _ _ _ ha1
    by_cases hs : areaSpeedlimit attr = true
    · simp only [hs, ↓reduceIte, Option.bind_eq_some, Option.some.injEq] at h
      obtain ⟨_, _, _, _, _, _, h⟩ := h
      simp only [Prod.mk.injEq] at h
      obtain ⟨rfl, _, _⟩ := h
      exact ⟨hl1, hl2⟩
    · simp only [hs, ↓reduceIte, Option.some_bind, Option.some.injEq, Prod.mk.injEq] at h
      obtain ⟨rfl, _, _⟩ := h
      exact ⟨hl1, hl2⟩
  · simp only [hb, Bool.false_eq_true, ↓reduceIte, Option.bind_eq_bind, Option.pure_def,
      Option.some_bind] at h
    by_cases hs : areaSpeedlimit attr = true
    · simp only [hs, ↓reduceIte, Option.bind_eq_some, Option.some.injEq] at h
      obtain ⟨_, _, _, _, h⟩ := h
      simp only [Option.some_bind, Option.some.injEq, Prod.mk.injEq] at h
      obtain ⟨rfl, _, _⟩ := h
      simp
    · simp only [hs, ↓reduceIte, Option.some_bind, Option.some.injEq, Prod.mk.injEq] at h
      obtain ⟨rfl, _, _⟩ := h
      simp

theorem readCircularArea_times (lf : List Nat → Option (Option Nat)) (st st1 : AreaScan)
    (va va1 : List (List Nat)) (a : CircularArea)
    (h : readCircularArea lf st va = some (a, st1, va1)) :
    areaTimesPresent a.area_attribute a.start_time a.end_time := by
  simp only [readCircularArea, Option.bind_eq_bind, Option.bind_eq_some] at h
  obtain ⟨⟨x1, s1, v1⟩, _, ⟨x2, s2, v2⟩, _, ⟨x3, s3, v3⟩, _, ⟨x4, s4, v4⟩, _, h⟩ := h
  simp only [] at h
  cases v4 with
  | nil => simp at h
  | cons arg v5 =>
    simp only [Option.bind_eq_bind, Option.bind_eq_some, Option.pure_def, Option.some.injEq,
      Prod.mk.injEq] at h
    obtain ⟨_, _, _, _, ⟨o, s6, v6⟩, ho, rfl, _, _⟩ := h
    obtain ⟨h1, h2⟩ := areaOptions_times _ _ _ _ _ _ ho
    intro _
    simp only []
    omega

theorem readRectangleArea_times (lf : List Nat → Option (Option Nat)) (st st1 : AreaScan)
    (va va1 : List (List Nat)) (a : RectangleArea)
    (h : readRectangleArea lf st va = some (a, st1, va1)) :
    areaTimesPresent a.area_attribute a.start_time a.end_time := by
  simp only [readRectangleArea, Option.bind_eq_bind, Option.bind_eq_some, Option.pure_def,
    Option.some.injEq, Prod.mk.injEq] at h
  obtain ⟨⟨x1, s1, v1⟩, _, ⟨x2, s2, v2⟩, _, ⟨x3, s3, v3⟩, _, ⟨x4, s4, v4⟩, _,
    ⟨x5, s5, v5⟩, _, ⟨x6, s6, v6⟩, _, ⟨o, s7, v7⟩, ho, rfl, _, _⟩ := h
  obtain ⟨h1, h2⟩ := areaOptions_times _ _ _ _ _ _ ho
  intro _
  simp only []
  omega

theorem readPolygonalArea_times (lf : List Nat → Option (Option Nat)) (st st1 : AreaScan)
    (va va1 : List (List Nat)) (a : PolygonalArea)
    (h : readPolygonalArea lf st va = some (a, st1, va1)) :
    areaTimesPresent a.area_attribute a.start_time a.end_time ∧ a.coordinate_list ≠ none := by
  simp only [readPolygonalArea, Option.bind_eq_bind, Option.bind_eq_some, Option.pure_def,
    Option.some.injEq, Prod.mk.injEq] at h
  obtain ⟨⟨x1, s1, v1⟩, _, ⟨x2, s2, v2⟩, _, ⟨o, s3, v3⟩, ho, ⟨x4, s4, v4⟩, _,
    ⟨x5, s5, v5⟩, _, rfl, _, _⟩ := h
  obtain ⟨h1, h2⟩ := areaOptions_times _ _ _ _ _ _ ho
  refine ⟨?_, by simp⟩
  intro _
  simp only []
  omega

/-- Every record of words that are read record by record is the result of a round. -/
theorem areaReads_mem {α : Type}
    (read : AreaScan → List (List Nat) → Option (α × AreaScan × List (List Nat)))
    (tss : List (List (List Nat))) (areas : List α)
    (h : List.Forall₂ (AreaReads read) tss areas) :
    ∀ a ∈ areas, ∃ st va st1 va1, read st va = some (a, st1, va1) := by
  induction h with
  | nil => intro a ha; simp at ha
  | @cons ts a tss areas hr _ ih =>
    intro b hb
    rw [List.mem_cons] at hb
    rcases hb with rfl | hb
    · obtain ⟨st1, h1⟩ := hr.2 ⟨none, none, []⟩ []
      exact ⟨_, _, st1, [], h1⟩
    · exact ih b hb

theorem forall₂_length_pos {α β : Type} (R : α → β → Prop) (l1 : List α) (l2 : List β)
    (h : List.Forall₂ R l1 l2) : l1.length = l2.length := h.length_eq

/-- Lines 1966-1982, 2064-2080 and 2161-2177 when the first call of `recv` fails or
delivers an answer that ends the wait: the frame of the envelope is sent and the
function returns 0. -/
theorem sendAreaRequest_frame (cap flow : Nat) (devs : List DeviceNode) (device : DeviceNode)
    (command : Nat) (propara : ProtocolParameters) (bcd : List Nat) (o : RecvOutcome)
    (rs : List RecvOutcome)
    (hcmd : command ∈ downlinkCommands) (hne : command ≠ DOWN_PASSTHROUGH)
    (hphone : PreparePhoneNum device.phone_num = some bcd)
    (hwf : packable command { propara with phone_num := bcd })
    (ho : (RecvFrameData cap o).1 ≠ 0 ∨ Acknowledges cap devs (areaAccept command) o)
    (hcap : 2 * packedLength command { propara with phone_num := bcd } + 3 ≤ cap)
    (h16 : cap < 65536) :
    ∃ (a : Nat) (frame : List Nat) (closed : Bool), a < 65536 ∧
      sendAreaRequest cap flow devs device command propara (o :: rs)
        = some ⟨0, [frame], closed, (flow + 1) % 65536⟩ ∧
      frame = [0x7E] ++ escapeSpec
        (messageBytes command { propara with phone_num := bcd } a ((flow + 1) % 65536)
          ++ [bccList (messageBytes command { propara with phone_num := bcd } a
            ((flow + 1) % 65536))]) ++ [0x7E] := by
  obtain ⟨a, msg1, n, ha, hpack, hframe⟩ := Jt808FramePack_raw flow cap 0 command
    { propara with phone_num := bcd } hcmd hne hwf hcap h16
  have hw : ∃ w, waitRespond cap devs (areaAccept command) (o :: rs)
      { propara with phone_num := bcd } = some w := by
    rcases ho with ho | ho
    · exact ⟨_, waitRespond_fail cap devs _ o rs _ ho⟩
    · obtain ⟨fl, id, m, _, hw⟩ := waitRespond_ack cap devs (areaAccept command) o rs
        { propara with phone_num := bcd } ho
      exact ⟨_, hw⟩
  obtain ⟨⟨rs1, q, m, closed⟩, hw⟩ := hw
  refine ⟨a, msg1.buffer.take n, closed, ha, ?_, hframe⟩
  unfold sendAreaRequest
  simp only [hphone, Option.bind_eq_bind, Option.some_bind, hpack, hw, Option.pure_def]

theorem areaHex_word (st st1 : AreaScan) (va va1 : List (List Nat)) (x : Nat)
    (h : areaHex st va = some (x, st1, va1)) : ∃ w, va = w :: va1 := by
  cases va with
  | nil => simp [areaHex] at h
  | cons arg va =>
    simp only [areaHex, Option.bind_eq_bind, Option.bind_eq_some, Option.pure_def,
      Option.some.injEq, Prod.mk.injEq] at h
    obtain ⟨_, _, _, _, _, _, rfl⟩ := h
    exact ⟨arg, rfl⟩

theorem areaDec_word (st st1 : AreaScan) (va va1 : List (List Nat)) (x : Nat)
    (h : areaDec st va = some (x, st1, va1)) : ∃ w, va = w :: va1 := by
  cases va with
  | nil => simp [areaDec] at h
  | cons arg va =>
    simp only [areaDec, Option.bind_eq_bind, Option.bind_eq_some, Option.pure_def,
      Option.some.injEq, Prod.mk.injEq] at h
    obtain ⟨_, _, _, _, _, _, rfl⟩ := h
    exact ⟨arg, rfl⟩

theorem areaTime_word (st st1 : AreaScan) (va va1 : List (List Nat)) (t : List Nat)
    (h : areaTime st va = some (t, st1, va1)) : ∃ w, va = w :: va1 := by
  cases va with
  | nil => simp [areaTime] at h
  | cons arg va =>
    simp only [areaTime, Option.bind_eq_bind, Option.bind_eq_some, Option.pure_def,
      Option.some.injEq, Prod.mk.injEq] at h
    obtain ⟨_, _, _, _, _, _, rfl⟩ := h
    exact ⟨arg, rfl⟩

/-- A conversion `%lf` takes one word; when the word converts, the value is the one of
the word. -/
theorem areaLf_word (lf : List Nat → Option (Option Nat)) (st st1 : AreaScan)
    (va va1 : List (List Nat)) (x : Nat) (h : areaLf lf st va = some (x, st1, va1)) :
    ∃ w, va = w :: va1 ∧ ∀ v, lf w = some (some v) → x = v := by
  cases va with
  | nil => simp [areaLf] at h
  | cons arg va =>
    simp only [areaLf, Option.bind_eq_bind, Option.bind_eq_some, Option.pure_def,
      Option.some.injEq, Prod.mk.injEq] at h
    obtain ⟨r, hr, v, hv, rfl, _, rfl⟩ := h
    refine ⟨arg, rfl, fun v1 hv1 => ?_⟩
    rw [hv1] at hr
    simp only [Option.some.injEq] at hr
    subst hr
    simp only [Option.some.injEq] at hv
    exact hv.symm

theorem areaOptions_words (attr : Nat) (st st1 : AreaScan) (va va1 : List (List Nat))
    (o : AreaOptions) (h : areaOptions attr st va = some (o, st1, va1)) :
    ∃ w, va = w ++ va1 := by
  unfold areaOptions at h
  by_cases hb : areaBytime attr = true
  · simp only [hb, ↓reduceIte, Option.bind_eq_bind, Option.bind_eq_some, Option.pure_def,
      Option.some.injEq] at h
    obtain ⟨a, ha, a1, ha1, a2, rfl, h⟩ := h
    obtain ⟨w1, hw1⟩ := areaTime_word _ _ _ _ _ ha
    obtain ⟨w2, hw2⟩ := areaTime_word _ _ _ _ _ ha1
    by_cases hs : areaSpeedlimit attr = true
    · simp only [hs, ↓reduceIte, Option.bind_eq_some, Option.some.injEq] at h
      obtain ⟨d, hd, d1, hd1, _, rfl, h⟩ := h
      obtain ⟨w3, hw3⟩ := areaDec_word _ _ _ _ _ hd
      obtain ⟨w4, hw4⟩ := areaDec_word _ _ _ _ _ hd1
      simp only [Prod.mk.injEq] at h
      obtain ⟨_, _, rfl⟩ := h
      have hw3a : a1.2.2 = w3 :: d.2.2 := hw3
      exact ⟨[w1, w2, w3, w4], by rw [hw1, hw2, hw3a, hw4]; rfl⟩
    · simp only [hs, ↓reduceIte, Option.some_bind, Option.some.injEq, Prod.mk.injEq] at h
      obtain ⟨_, _, rfl⟩ := h
      exact ⟨[w1, w2], by rw [hw1, hw2]; rfl⟩
  · simp only [hb, Bool.false_eq_true, ↓reduceIte, Option.bind_eq_bind, Option.pure_def,
      Option.some_bind] at h
    by_cases hs : areaSpeedlimit attr = true
    · simp only [hs, ↓reduceIte, Option.bind_eq_some, Option.some.injEq] at h
      obtain ⟨d, hd, d1, hd1, h⟩ := h
      obtain ⟨w3, hw3⟩ := areaDec_word _ _ _ _ _ hd
      obtain ⟨w4, hw4⟩ := areaDec_word _ _ _ _ _ hd1
      simp only [Option.some_bind, Option.some.injEq, Prod.mk.injEq] at h
      obtain ⟨_, _, rfl⟩ := h
      exact ⟨[w3, w4], by rw [hw3, hw4]; rfl⟩
    · simp only [hs, ↓reduceIte, Option.some_bind, Option.some.injEq, Prod.mk.injEq] at h
      obtain ⟨_, _, rfl⟩ := h
      exact ⟨[], rfl⟩

theorem vertexWords_nil (lf : List Nat → Option (Option Nat)) (vs : List Coordinate)
    (h : VertexWords lf [] vs) : vs = [] := by
  cases vs with
  | nil => rfl
  | cons v vs => simp [VertexWords] at h

theorem vertexWords_cons (lf : List Nat → Option (Option Nat)) (a1 a2 : List Nat)
    (w : List (List Nat)) (vs : List Coordinate) (h : VertexWords lf (a1 :: a2 :: w) vs) :
    ∃ v vs1, vs = v :: vs1 ∧ lf a1 = some (some v.latitude) ∧
      lf a2 = some (some v.longitude) ∧ VertexWords lf w vs1 := by
  cases vs with
  | nil => simp [VertexWords] at h
  | cons v vs =>
    simp only [VertexWords, List.map_cons, List.flatMap_cons, List.cons_append,
      List.nil_append, List.cons.injEq] at h
    exact ⟨v, vs, rfl, h.1, h.2.1, h.2.2⟩

theorem vertexWords_length (lf : List Nat → Option (Option Nat)) (vs : List Coordinate) :
    ∀ w, VertexWords lf w vs → w.length = 2 * vs.length := by
  induction vs with
  | nil =>
    intro w h
    simp only [VertexWords, List.flatMap_nil, List.map_eq_nil_iff] at h
    simp [h]
  | cons v vs ih =>
    intro w h
    match w, h with
    | [], h => simp [VertexWords] at h
    | [_], h => simp [VertexWords] at h
    | a1 :: a2 :: w, h =>
      obtain ⟨v1, vs1, hvs, _, _, hw⟩ := vertexWords_cons lf a1 a2 w _ h
      simp only [List.cons.injEq] at hvs
      obtain ⟨_, rfl⟩ := hvs
      simp only [List.length_cons, ih w hw]
      omega

/-- The loop of lines 2141-2152 takes two words a round, and for words that convert it
appends their vertices in the order of the words. -/
theorem coordinateLoop_words (lf : List Nat → Option (Option Nat)) :
    ∀ (n : Nat) (st st1 : AreaScan) (va va1 : List (List Nat)) (l l1 : List Coordinate),
      coordinateLoop lf n st va l = some (l1, st1, va1) →
      ∃ w, va = w ++ va1 ∧ w.length = 2 * n ∧ ∀ vs, VertexWords lf w vs → l1 = l ++ vs := by
  intro n
  induction n with
  | zero =>
    intro st st1 va va1 l l1 h
    simp only [coordinateLoop, Option.some.injEq, Prod.mk.injEq] at h
    obtain ⟨rfl, _, rfl⟩ := h
    refine ⟨[], rfl, rfl, fun vs hvs => ?_⟩
    rw [vertexWords_nil lf vs hvs, List.append_nil]
  | succ n ih =>
    intro st st1 va va1 l l1 h
    simp only [coordinateLoop, Option.bind_eq_bind, Option.bind_eq_some] at h
    obtain ⟨⟨lat, s1, v1⟩, h1, ⟨lon, s2, v2⟩, h2, h3⟩ := h
    obtain ⟨a1, ha1, hlat⟩ := areaLf_word lf _ _ _ _ _ h1
    obtain ⟨a2, ha2, hlon⟩ := areaLf_word lf _ _ _ _ _ h2
    obtain ⟨w, hw, hwl, hvs⟩ := ih _ _ _ _ _ _ h3
    simp only [] at ha2 hw
    refine ⟨a1 :: a2 :: w, by rw [ha1, ha2, hw]; rfl, by simp only [List.length_cons, hwl]; omega,
      fun vs h => ?_⟩
    obtain ⟨v, vs1, rfl, hv1, hv2, hrest⟩ := vertexWords_cons lf a1 a2 w vs h
    rw [hvs vs1 hrest, hlat _ hv1, hlon _ hv2, List.append_assoc]
    rfl

/-- The vertex vector of a polygon that is read from words ending in the words of the
vertices `vs`: line 2153 leaves the vertices turned round. -/
theorem polygonReads_vertices (lf : List Nat → Option (Option Nat)) (ts : List (List Nat))
    (a : PolygonalArea) (vs : List Coordinate) (h : PolygonReads lf ts a vs) :
    a.coordinate_list = some vs.reverse := by
  obtain ⟨hr, hcount, hd, vt, rfl, hvt⟩ := h
  obtain ⟨st1, hread⟩ := hr.2 ⟨none, none, []⟩ []
  rw [List.append_nil] at hread
  simp only [readPolygonalArea, Option.bind_eq_bind, Option.bind_eq_some, Option.pure_def,
    Option.some.injEq, Prod.mk.injEq] at hread
  obtain ⟨⟨x1, s1, v1⟩, h1, ⟨x2, s2, v2⟩, h2, ⟨o, s3, v3⟩, h3, ⟨x4, s4, v4⟩, h4,
    ⟨list, s5, v5⟩, h5, rfl, _, hv5⟩ := hread
  simp only [] at h2 h3 h4 h5 hv5 hcount ⊢
  subst hv5
  obtain ⟨w1, hw1⟩ := areaHex_word _ _ _ _ _ h1
  obtain ⟨w2, hw2⟩ := areaHex_word _ _ _ _ _ h2
  obtain ⟨w3, hw3⟩ := areaOptions_words _ _ _ _ _ _ h3
  obtain ⟨w4, hw4⟩ := areaDec_word _ _ _ _ _ h4
  obtain ⟨w, hw, hwl, hvs⟩ := coordinateLoop_words lf _ _ _ _ _ _ _ h5
  rw [List.append_nil] at hw
  have hlen := vertexWords_length lf vs vt hvt
  have hsplit : hd ++ vt = (w1 :: w2 :: (w3 ++ [w4])) ++ w := by
    rw [hw1, hw2, hw3, hw4, hw]
    simp
  have hvtw : vt = w := (List.append_inj' hsplit (by rw [hlen, hwl, hcount])).2
  rw [hvs vs (hvtw ▸ hvt), List.nil_append]

theorem packedBody_setcircular (propara : ProtocolParameters) :
    packedBody DOWN_SETCIRCULARAREA propara = setCircularAreaSpec propara := by
  unfold packedBody
  rw [if_neg (by decide), if_neg (by decide), if_neg (by decide), if_neg (by decide),
    if_neg (by decide), if_neg (by decide), if_pos rfl]

theorem packedBody_setrectangle (propara : ProtocolParameters) :
    packedBody DOWN_SETRECTANGLEAREA propara = setRectangleAreaSpec propara := by
  unfold packedBody
  rw [if_neg (by decide), if_neg (by decide), if_neg (by decide), if_neg (by decide),
    if_neg (by decide), if_neg (by decide), if_neg (by decide), if_pos rfl]

theorem packedBody_setpolygonal (propara : ProtocolParameters) :
    packedBody DOWN_SETPOLYGONALAREA propara = setPolygonalAreaSpec propara := by
  unfold packedBody
  rw [if_neg (by decide), if_neg (by decide), if_neg (by decide), if_neg (by decide),
    if_neg (by decide), if_neg (by decide), if_neg (by decide), if_neg (by decide),
    if_pos rfl]

theorem packedFragment_setarea (command : Nat) (propara : ProtocolParameters)
    (h : command = DOWN_SETCIRCULARAREA ∨ command = DOWN_SETRECTANGLEAREA ∨
      command = DOWN_SETPOLYGONALAREA) : packedFragment command propara = [] := by
  unfold packedFragment
  rcases h with rfl | rfl | rfl <;> rw [if_neg (by decide)]

/-- The frame of `DealSetCircularAreaRequest` for words that are read record by record as
`areas`: the records stand in the body from the last of the command to the first. -/
theorem DealSetCircularAreaRequest_frame (lf : List Nat → Option (Option Nat))
    (cap flow : Nat) (devs : List DeviceNode) (device : DeviceNode) (word : List Nat)
    (tss : List (List (List Nat))) (areas : List CircularArea) (bcd : List Nat)
    (o : RecvOutcome) (rs : List RecvOutcome)
    (hphone : PreparePhoneNum device.phone_num = some bcd)
    (hreads : List.Forall₂ (AreaReads (readCircularArea lf)) tss areas) (hne : areas ≠ [])
    (ho : (RecvFrameData cap o).1 ≠ 0 ∨
      Acknowledges cap devs (areaAccept DOWN_SETCIRCULARAREA) o)
    (hcap : 2 * (15 + (areas.reverse.flatMap circularAreaSpec).length) + 3 ≤ cap)
    (h16 : cap < 65536) :
    ∃ (a : Nat) (frame : List Nat) (closed : Bool) (M : List Nat),
      DealSetCircularAreaRequest lf cap flow devs device (word :: tss.flatten).reverse (o :: rs)
        = some ⟨0, [frame], closed, (flow + 1) % 65536⟩ ∧
      frame = [0x7E] ++ escapeSpec (M ++ [bccList M]) ++ [0x7E] ∧
      M = headerSpec DOWN_SETCIRCULARAREA a bcd ((flow + 1) % 65536) ++
        ([setAreaType word % 256, areas.length % 256] ++
          areas.reverse.flatMap circularAreaSpec) := by
  have hloop := areaLoop_reads (readCircularArea lf) tss areas hreads
    (tss.flatten.length + 1) ⟨none, none, List.replicate 6 0⟩ [] (by omega)
  rw [List.nil_append] at hloop
  obtain ⟨p, hp⟩ : ∃ p : ProtocolParameters, p = { zeroParameters with
    circular_area_list := some areas, set_area_type := setAreaType word } := ⟨_, rfl⟩
  have hbody : packedBody DOWN_SETCIRCULARAREA { p with phone_num := bcd }
      = [setAreaType word % 256, areas.length % 256] ++
          areas.reverse.flatMap circularAreaSpec := by
    rw [packedBody_setcircular, hp]; rfl
  have hfrag : packedFragment DOWN_SETCIRCULARAREA { p with phone_num := bcd } = [] :=
    packedFragment_setarea _ _ (Or.inl rfl)
  have hwf : packable DOWN_SETCIRCULARAREA { p with phone_num := bcd } := by
    refine ⟨(PreparePhoneNum_some _ _ hphone).1, fun h => absurd h (by decide),
      fun h => absurd h (by decide), fun h => absurd h (by decide),
      fun h => absurd h (by decide), fun _ => ⟨?_, ?_⟩, fun h => absurd h (by decide),
      fun h => absurd h (by decide), fun h => absurd h (by decide),
      fun h => absurd h (by decide)⟩
    · rw [hp]; simp
    · rw [hp]
      intro c hc
      obtain ⟨st, va, st1, va1, hr⟩ := areaReads_mem _ tss areas hreads c hc
      exact readCircularArea_times lf st st1 va va1 c hr
  have hlen : 2 * packedLength DOWN_SETCIRCULARAREA { p with phone_num := bcd } + 3 ≤ cap := by
    unfold packedLength
    rw [hbody, hfrag]
    simp only [List.length_nil, List.length_append, List.length_cons] at hcap ⊢
    omega
  obtain ⟨a, frame, closed, _, hsend, hframe⟩ := sendAreaRequest_frame cap flow devs device
    DOWN_SETCIRCULARAREA p bcd o rs (by decide) (by decide) hphone hwf ho hlen h16
  refine ⟨a, frame, closed, _, ?_, hframe, ?_⟩
  · unfold DealSetCircularAreaRequest
    simp only [List.reverse_reverse, Option.bind_eq_bind, hloop, Option.some_bind, hne,
      ↓reduceIte]
    rw [← hp]
    exact hsend
  · unfold messageBytes
    rw [hbody, hfrag, List.nil_append]

/-- The frame of `DealSetRectangleAreaRequest` for words that are read record by record as
`areas`: the records stand in the body from the last of the command to the first. -/
theorem DealSetRectangleAreaRequest_frame (lf : List Nat → Option (Option Nat))
    (cap flow : Nat) (devs : List DeviceNode) (device : DeviceNode) (word : List Nat)
    (tss : List (List (List Nat))) (areas : List RectangleArea) (bcd : List Nat)
    (o : RecvOutcome) (rs : List RecvOutcome)
    (hphone : PreparePhoneNum device.phone_num = some bcd)
    (hreads : List.Forall₂ (AreaReads (readRectangleArea lf)) tss areas) (hne : areas ≠ [])
    (ho : (RecvFrameData cap o).1 ≠ 0 ∨
      Acknowledges cap devs (areaAccept DOWN_SETRECTANGLEAREA) o)
    (hcap : 2 * (15 + (areas.reverse.flatMap rectangleAreaSpec).length) + 3 ≤ cap)
    (h16 : cap < 65536) :
    ∃ (a : Nat) (frame : List Nat) (closed : Bool) (M : List Nat),
      DealSetRectangleAreaRequest lf cap flow devs device (word :: tss.flatten).reverse (o :: rs)
        = some ⟨0, [frame], closed, (flow + 1) % 65536⟩ ∧
      frame = [0x7E] ++ escapeSpec (M ++ [bccList M]) ++ [0x7E] ∧
      M = headerSpec DOWN_SETRECTANGLEAREA a bcd ((flow + 1) % 65536) ++
        ([setAreaType word % 256, areas.length % 256] ++
          areas.reverse.flatMap rectangleAreaSpec) := by
  have hloop := areaLoop_reads (readRectangleArea lf) tss areas hreads
    (tss.flatten.length + 1) ⟨none, none, List.replicate 6 0⟩ [] (by omega)
  rw [List.nil_append] at hloop
  obtain ⟨p, hp⟩ : ∃ p : ProtocolParameters, p = { zeroParameters with
    rectangle_area_list := some areas, set_area_type := setAreaType word } := ⟨_, rfl⟩
  have hbody : packedBody DOWN_SETRECTANGLEAREA { p with phone_num := bcd }
      = [setAreaType word % 256, areas.length % 256] ++
          areas.reverse.flatMap rectangleAreaSpec := by
    rw [packedBody_setrectangle, hp]; rfl
  have hfrag : packedFragment DOWN_SETRECTANGLEAREA { p with phone_num := bcd } = [] :=
    packedFragment_setarea _ _ (Or.inr (Or.inl rfl))
  have hwf : packable DOWN_SETRECTANGLEAREA { p with phone_num := bcd } := by
    refine ⟨(PreparePhoneNum_some _ _ hphone).1, fun h => absurd h (by decide),
      fun h => absurd h (by decide), fun h => absurd h (by decide),
      fun h => absurd h (by decide), fun h => absurd h (by decide), fun _ => ⟨?_, ?_⟩,
      fun h => absurd h (by decide), fun h => absurd h (by decide),
      fun h => absurd h (by decide)⟩
    · rw [hp]; simp
    · rw [hp]
      intro c hc
      obtain ⟨st, va, st1, va1, hr⟩ := areaReads_mem _ tss areas hreads c hc
      exact readRectangleArea_times lf st st1 va va1 c hr
  have hlen : 2 * packedLength DOWN_SETRECTANGLEAREA { p with phone_num := bcd } + 3 ≤ cap := by
    unfold packedLength
    rw [hbody, hfrag]
    simp only [List.length_nil, List.length_append, List.length_cons] at hcap ⊢
    omega
  obtain ⟨a, frame, closed, _, hsend, hframe⟩ := sendAreaRequest_frame cap flow devs device
    DOWN_SETRECTANGLEAREA p bcd o rs (by decide) (by decide) hphone hwf ho hlen h16
  refine ⟨a, frame, closed, _, ?_, hframe, ?_⟩
  · unfold DealSetRectangleAreaRequest
    simp only [List.reverse_reverse, Option.bind_eq_bind, hloop, Option.some_bind, hne,
      ↓reduceIte]
    rw [← hp]
    exact hsend
  · unfold messageBytes
    rw [hbody, hfrag, List.nil_append]

/-- The records of polygons whose vertex vectors are the vertices turned round: the body
holds the vertices of each record in their own order. -/
theorem polygon_records (l : List (PolygonalArea × List Coordinate))
    (h : ∀ av ∈ l, av.1.coordinate_list = some av.2.reverse) :
    ((l.map Prod.fst).flatMap fun a => polygonalAreaSpec a (a.coordinate_list.getD []).reverse)
      = l.flatMap fun av => polygonalAreaSpec av.1 av.2 := by
  induction l with
  | nil => rfl
  | cons av l ih =>
    have h1 := h av (List.mem_cons_self _ _)
    have h2 := ih fun x hx => h x (List.mem_cons_of_mem _ hx)
    simp only [List.map_cons, List.flatMap_cons, h2, h1, Option.getD_some, List.reverse_reverse]

theorem polygonReads_mem (lf : List Nat → Option (Option Nat))
    (tss : List (List (List Nat))) (polys : List (PolygonalArea × List Coordinate))
    (h : List.Forall₂ (fun ts av => PolygonReads lf ts av.1 av.2) tss polys) :
    ∀ av ∈ polys, av.1.coordinate_list = some av.2.reverse := by
  induction h with
  | nil => intro av hav; simp at hav
  | cons hr _ ih =>
    intro av hav
    rw [List.mem_cons] at hav
    rcases hav with rfl | hav
    · exact polygonReads_vertices lf _ _ _ hr
    · exact ih av hav

/-- The frame of `DealSetPolygonalAreaRequest` for words that are read record by record
as `polys`: the records stand in the body from the last of the command to the first,
the vertices of each record as its words give them. -/
theorem DealSetPolygonalAreaRequest_frame (lf : List Nat → Option (Option Nat))
    (cap flow : Nat) (devs : List DeviceNode) (device : DeviceNode) (word : List Nat)
    (tss : List (List (List Nat))) (polys : List (PolygonalArea × List Coordinate))
    (bcd : List Nat) (o : RecvOutcome) (rs : List RecvOutcome)
    (hphone : PreparePhoneNum device.phone_num = some bcd)
    (hreads : List.Forall₂ (fun ts av => PolygonReads lf ts av.1 av.2) tss polys)
    (hne : polys ≠ [])
    (ho : (RecvFrameData cap o).1 ≠ 0 ∨
      Acknowledges cap devs (areaAccept DOWN_SETPOLYGONALAREA) o)
    (hcap : 2 * (15 + (polys.reverse.flatMap
      fun av => polygonalAreaSpec av.1 av.2).length) + 3 ≤ cap)
    (h16 : cap < 65536) :
    ∃ (a : Nat) (frame : List Nat) (closed : Bool) (M : List Nat),
      DealSetPolygonalAreaRequest lf cap flow devs device (word :: tss.flatten).reverse (o :: rs)
        = some ⟨0, [frame], closed, (flow + 1) % 65536⟩ ∧
      frame = [0x7E] ++ escapeSpec (M ++ [bccList M]) ++ [0x7E] ∧
      M = headerSpec DOWN_SETPOLYGONALAREA a bcd ((flow + 1) % 65536) ++
        ([setAreaType word % 256, polys.length % 256] ++
          polys.reverse.flatMap fun av => polygonalAreaSpec av.1 av.2) := by
  have hreads1 : List.Forall₂ (AreaReads (readPolygonalArea lf)) tss (polys.map Prod.fst) := by
    rw [List.forall₂_map_right_iff]
    exact hreads.imp fun _ _ h => h.1
  have hvs : ∀ av ∈ polys.reverse, av.1.coordinate_list = some av.2.reverse := by
    intro av hav
    rw [List.mem_reverse] at hav
    exact polygonReads_mem lf tss polys hreads av hav
  have hloop := areaLoop_reads (readPolygonalArea lf) tss (polys.map Prod.fst) hreads1
    (tss.flatten.length + 1) ⟨none, none, List.replicate 6 0⟩ [] (by omega)
  rw [List.nil_append] at hloop
  have hne1 : polys.map Prod.fst ≠ [] := by
    intro h; exact hne (List.map_eq_nil_iff.mp h)
  obtain ⟨p, hp⟩ : ∃ p : ProtocolParameters, p = { zeroParameters with
    polygonal_area_list := some (polys.map Prod.fst),
    set_area_type := setAreaType word } := ⟨_, rfl⟩
  have hbody : packedBody DOWN_SETPOLYGONALAREA { p with phone_num := bcd }
      = [setAreaType word % 256, polys.length % 256] ++
          polys.reverse.flatMap fun av => polygonalAreaSpec av.1 av.2 := by
    rw [packedBody_setpolygonal, hp, ← polygon_records _ hvs, List.map_reverse]
    simp only [setPolygonalAreaSpec, Option.getD_some, List.length_map]
  have hfrag : packedFragment DOWN_SETPOLYGONALAREA { p with phone_num := bcd } = [] :=
    packedFragment_setarea _ _ (Or.inr (Or.inr rfl))
  have hwf : packable DOWN_SETPOLYGONALAREA { p with phone_num := bcd } := by
    refine ⟨(PreparePhoneNum_some _ _ hphone).1, fun h => absurd h (by decide),
      fun h => absurd h (by decide), fun h => absurd h (by decide),
      fun h => absurd h (by decide), fun h => absurd h (by decide),
      fun h => absurd h (by decide), fun _ => ⟨?_, ?_⟩, fun h => absurd h (by decide),
      fun h => absurd h (by decide)⟩
    · rw [hp]; simp
    · rw [hp]
      intro c hc
      obtain ⟨st, va, st1, va1, hr⟩ := areaReads_mem _ tss _ hreads1 c hc
      exact readPolygonalArea_times lf st st1 va va1 c hr
  have hlen : 2 * packedLength DOWN_SETPOLYGONALAREA { p with phone_num := bcd } + 3 ≤ cap := by
    unfold packedLength
    rw [hbody, hfrag]
    simp only [List.length_nil, List.length_append, List.length_cons] at hcap ⊢
    omega
  obtain ⟨a, frame, closed, _, hsend, hframe⟩ := sendAreaRequest_frame cap flow devs device
    DOWN_SETPOLYGONALAREA p bcd o rs (by decide) (by decide) hphone hwf ho hlen h16
  refine ⟨a, frame, closed, _, ?_, hframe, ?_⟩
  · unfold DealSetPolygonalAreaRequest
    simp only [List.reverse_reverse, Option.bind_eq_bind, hloop, Option.some_bind, hne1,
      ↓reduceIte]
    rw [← hp]
    exact hsend
  · unfold messageBytes
    rw [hbody, hfrag, List.nil_append]

theorem areaHex_conv (st : AreaScan) (arg : List Nat) (va : List (List Nat)) (v : Nat)
    (h : sscanfHex arg = some (some v)) :
    areaHex st (arg :: va) = some (v, { st with u32val := some v }, va) := by
  simp only [areaHex, h, Option.bind_eq_bind, Option.some_bind, Option.pure_def]

theorem areaDec_conv (st : AreaScan) (arg : List Nat) (va : List (List Nat)) (v : Nat)
    (h : sscanfDec arg = some (some v)) :
    areaDec st (arg :: va) = some (v, { st with u32val := some v }, va) := by
  simp only [areaDec, h, Option.bind_eq_bind, Option.some_bind, Option.pure_def]

theorem areaLf_conv (lf : List Nat → Option (Option Nat)) (st : AreaScan) (arg : List Nat)
    (va : List (List Nat)) (v : Nat) (h : lf arg = some (some v)) :
    areaLf lf st (arg :: va) = some (v, { st with micro := some v }, va) := by
  simp only [areaLf, h, Option.bind_eq_bind, Option.some_bind, Option.pure_def]

/-- Lines 1939-1958 for an attribute with neither the bit `bytime` nor the bit
`speedlimit`: no word is taken. -/
theorem areaOptions_plain (attr : Nat) (st : AreaScan) (va : List (List Nat))
    (hb : areaBytime attr = false) (hs : areaSpeedlimit attr = false) :
    areaOptions attr st va
      = some (⟨List.replicate 6 0, List.replicate 6 0, 0, 0⟩, st, va) := by
  simp only [areaOptions, hb, hs, Bool.false_eq_true, ↓reduceIte, Option.bind_eq_bind,
    Option.pure_def, Option.some_bind]

/-- The five words of a circle without optional members are read as its record. -/
theorem circle_reads (lf : List Nat → Option (Option Nat)) (w1 w2 w3 w4 w5 : List Nat)
    (id attr lat lon r : Nat)
    (h1 : sscanfHex w1 = some (some id)) (h2 : sscanfHex w2 = some (some attr))
    (h3 : lf w3 = some (some lat)) (h4 : lf w4 = some (some lon))
    (h5 : sscanfDec w5 = some (some r))
    (hb : areaBytime (attr % 65536) = false) (hs : areaSpeedlimit (attr % 65536) = false) :
    AreaReads (readCircularArea lf) [w1, w2, w3, w4, w5]
      ⟨id, attr % 65536, ⟨lat, lon⟩, r, List.replicate 6 0, List.replicate 6 0, 0, 0⟩ := by
  refine ⟨by simp, fun st rest => ⟨⟨some attr, some lon, st.time⟩, ?_⟩⟩
  simp only [readCircularArea, List.cons_append, List.nil_append, areaHex_conv _ _ _ _ h1,
    areaHex_conv _ _ _ _ h2, areaLf_conv _ _ _ _ _ h3, areaLf_conv _ _ _ _ _ h4, h5,
    areaOptions_plain _ _ _ hb hs, Option.bind_eq_bind, Option.some_bind, Option.pure_def]

/-- The six words of a rectangle without optional members are read as its record. -/
theorem rectangle_reads (lf : List Nat → Option (Option Nat))
    (w1 w2 w3 w4 w5 w6 : List Nat) (id attr lat1 lon1 lat2 lon2 : Nat)
    (h1 : sscanfHex w1 = some (some id)) (h2 : sscanfHex w2 = some (some attr))
    (h3 : lf w3 = some (some lat1)) (h4 : lf w4 = some (some lon1))
    (h5 : lf w5 = some (some lat2)) (h6 : lf w6 = some (some lon2))
    (hb : areaBytime (attr % 65536) = false) (hs : areaSpeedlimit (attr % 65536) = false) :
    AreaReads (readRectangleArea lf) [w1, w2, w3, w4, w5, w6]
      ⟨id, attr % 65536, ⟨lat1, lon1⟩, ⟨lat2, lon2⟩, List.replicate 6 0, List.replicate 6 0,
        0, 0⟩ := by
  refine ⟨by simp, fun st rest => ⟨⟨some attr, some lon2, st.time⟩, ?_⟩⟩
  simp only [readRectangleArea, List.cons_append, List.nil_append, areaHex_conv _ _ _ _ h1,
    areaHex_conv _ _ _ _ h2, areaLf_conv _ _ _ _ _ h3, areaLf_conv _ _ _ _ _ h4,
    areaLf_conv _ _ _ _ _ h5, areaLf_conv _ _ _ _ _ h6,
    areaOptions_plain _ _ _ hb hs, Option.bind_eq_bind, Option.some_bind, Option.pure_def]

/-- The loop of lines 2141-2152 on the words of the vertices `vs`. -/
theorem coordinateLoop_vertexWords (lf : List Nat → Option (Option Nat))
    (rest : List (List Nat)) :
    ∀ (vs : List Coordinate) (vt : List (List Nat)) (st : AreaScan) (l : List Coordinate),
      VertexWords lf vt vs →
      ∃ st1, coordinateLoop lf vs.length st (vt ++ rest) l = some (l ++ vs, st1, rest) := by
  intro vs
  induction vs with
  | nil =>
    intro vt st l h
    simp only [VertexWords, List.flatMap_nil, List.map_eq_nil_iff] at h
    subst h
    exact ⟨st, by simp [coordinateLoop]⟩
  | cons v vs ih =>
    intro vt st l h
    match vt, h with
    | [], h => simp [VertexWords] at h
    | [_], h => simp [VertexWords] at h
    | a1 :: a2 :: w, h =>
      obtain ⟨v1, vs1, hvs, hv1, hv2, hw⟩ := vertexWords_cons lf a1 a2 w _ h
      simp only [List.cons.injEq] at hvs
      obtain ⟨rfl, rfl⟩ := hvs
      obtain ⟨st1, hrec⟩ := ih w { st with micro := some v.longitude } (l ++ [v]) hw
      refine ⟨st1, ?_⟩
      simp only [List.length_cons, coordinateLoop, List.cons_append,
        areaLf_conv _ _ _ _ _ hv1, areaLf_conv _ _ _ _ _ hv2, Option.bind_eq_bind,
        Option.some_bind]
      rw [hrec, List.append_assoc]
      rfl

/-- The words of a polygon without optional members, its id, attribute and count followed
by the words of its vertices, are read as its record. -/
theorem polygon_reads (lf : List Nat → Option (Option Nat)) (w1 w2 w3 : List Nat)
    (vt : List (List Nat)) (id attr count : Nat) (vs : List Coordinate)
    (h1 : sscanfHex w1 = some (some id)) (h2 : sscanfHex w2 = some (some attr))
    (h3 : sscanfDec w3 = some (some count)) (hcount : count % 256 = vs.length)
    (hvt : VertexWords lf vt vs)
    (hb : areaBytime (attr % 65536) = false) (hs : areaSpeedlimit (attr % 65536) = false) :
    PolygonReads lf (w1 :: w2 :: w3 :: vt)
      ⟨id, attr % 65536, List.replicate 6 0, List.replicate 6 0, 0, 0, vs.length,
        some vs.reverse⟩ vs := by
  refine ⟨⟨by simp, fun st rest => ?_⟩, rfl, [w1, w2, w3], vt, rfl, hvt⟩
  obtain ⟨st1, hloop⟩ := coordinateLoop_vertexWords lf rest vs vt
    { st with u32val := some count } [] hvt
  refine ⟨st1, ?_⟩
  simp only [readPolygonalArea, List.cons_append, areaHex_conv _ _ _ _ h1,
    areaHex_conv _ _ _ _ h2, areaDec_conv _ _ _ _ h3, areaOptions_plain _ _ _ hb hs,
    Option.bind_eq_bind, Option.some_bind, Option.pure_def, hcount, hloop, List.nil_append]

/-- C37: for the set-area commands the area records are written to the frame body from
the last list element to the first.  For the word `word` (`update`, `append` or
`modify`) followed by the words of the records `tss`, which the argument loops read
record by record in the order of the operator command, and a first call of `recv` that
fails or delivers the answer waited for, each of `DealSetCircularAreaRequest`,
`DealSetRectangleAreaRequest` and `DealSetPolygonalAreaRequest` returns 0 having sent one
frame: delimiter, escaped header, body and checksum, delimiter.  The body is the set
type, the number of records, and the records in the reverse of the order of the
command; the vertices of each polygon, whose words end the words of its record, stand in
the order of the command. -/
theorem set_area_records_reversed (lf : List Nat → Option (Option Nat)) (cap flow : Nat)
    (devs : List DeviceNode) (device : DeviceNode) (word bcd : List Nat)
    (tssC : List (List (List Nat))) (circles : List CircularArea)
    (tssR : List (List (List Nat))) (rectangles : List RectangleArea)
    (tssP : List (List (List Nat))) (polygons : List (PolygonalArea × List Coordinate))
    (oC oR oP : RecvOutcome) (rs : List RecvOutcome)
    (hphone : PreparePhoneNum device.phone_num = some bcd)
    (hC : List.Forall₂ (AreaReads (readCircularArea lf)) tssC circles) (hCne : circles ≠ [])
    (hR : List.Forall₂ (AreaReads (readRectangleArea lf)) tssR rectangles)
    (hRne : rectangles ≠ [])
    (hP : List.Forall₂ (fun ts av => PolygonReads lf ts av.1 av.2) tssP polygons)
    (hPne : polygons ≠ [])
    (hoC : (RecvFrameData cap oC).1 ≠ 0 ∨
      Acknowledges cap devs (areaAccept DOWN_SETCIRCULARAREA) oC)
    (hoR : (RecvFrameData cap oR).1 ≠ 0 ∨
      Acknowledges cap devs (areaAccept DOWN_SETRECTANGLEAREA) oR)
    (hoP : (RecvFrameData cap oP).1 ≠ 0 ∨
      Acknowledges cap devs (areaAccept DOWN_SETPOLYGONALAREA) oP)
    (hcapC : 2 * (15 + (circles.reverse.flatMap circularAreaSpec).length) + 3 ≤ cap)
    (hcapR : 2 * (15 + (rectangles.reverse.flatMap rectangleAreaSpec).length) + 3 ≤ cap)
    (hcapP : 2 * (15 + (polygons.reverse.flatMap
      fun av => polygonalAreaSpec av.1 av.2).length) + 3 ≤ cap)
    (h16 : cap < 65536) :
    (∃ (a : Nat) (frame : List Nat) (closed : Bool) (M : List Nat),
      DealSetCircularAreaRequest lf cap flow devs device (word :: tssC.flatten).reverse
          (oC :: rs) = some ⟨0, [frame], closed, (flow + 1) % 65536⟩ ∧
      frame = [0x7E] ++ escapeSpec (M ++ [bccList M]) ++ [0x7E] ∧
      M = headerSpec DOWN_SETCIRCULARAREA a bcd ((flow + 1) % 65536) ++
        ([setAreaType word % 256, circles.length % 256] ++
          circles.reverse.flatMap circularAreaSpec)) ∧
    (∃ (a : Nat) (frame : List Nat) (closed : Bool) (M : List Nat),
      DealSetRectangleAreaRequest lf cap flow devs device (word :: tssR.flatten).reverse
          (oR :: rs) = some ⟨0, [frame], closed, (flow + 1) % 65536⟩ ∧
      frame = [0x7E] ++ escapeSpec (M ++ [bccList M]) ++ [0x7E] ∧
      M = headerSpec DOWN_SETRECTANGLEAREA a bcd ((flow + 1) % 65536) ++
        ([setAreaType word % 256, rectangles.length % 256] ++
          rectangles.reverse.flatMap rectangleAreaSpec)) ∧
    (∃ (a : Nat) (frame : List Nat) (closed : Bool) (M : List Nat),
      DealSetPolygonalAreaRequest lf cap flow devs device (word :: tssP.flatten).reverse
          (oP :: rs) = some ⟨0, [frame], closed, (flow + 1) % 65536⟩ ∧
      frame = [0x7E] ++ escapeSpec (M ++ [bccList M]) ++ [0x7E] ∧
      M = headerSpec DOWN_SETPOLYGONALAREA a bcd ((flow + 1) % 65536) ++
        ([setAreaType word % 256, polygons.length % 256] ++
          polygons.reverse.flatMap fun av => polygonalAreaSpec av.1 av.2)) :=
  ⟨DealSetCircularAreaRequest_frame lf cap flow devs device word tssC circles bcd oC rs
      hphone hC hCne hoC hcapC h16,
    DealSetRectangleAreaRequest_frame lf cap flow devs device word tssR rectangles bcd oR rs
      hphone hR hRne hoR hcapR h16,
    DealSetPolygonalAreaRequest_frame lf cap flow devs device word tssP polygons bcd oP rs
      hphone hP hPne hoP hcapP h16⟩

set_option maxRecDepth 100000 in
/-- Witness of C37: the arguments `update 1 0 31 121 100 2 0 32 122 200` of
`setcirculararea`, `update 1 0 31 121 30 122 2 0 41 111 40 112` of `setrectanglearea` and
`update 1 0 3 31 121 32 122 33 123 2 0 3 41 21 42 22 43 23` of `setpolygonalarea` for
the terminal `liveDevice`, whose connection ends with the first call of `recv`: the
second record of each command stands first in the body, the vertices of each polygon in
the order of the command. -/
theorem set_area_records_reversed_witness :
    (PreparePhoneNum liveDevice.phone_num = some [0x01, 0x23, 0x45, 0x67, 0x89, 0x02] ∧
      (RecvFrameData 256 .closed).1 ≠ 0 ∧ (256 : Nat) < 65536) ∧
    (∃ (a : Nat) (frame : List Nat) (closed : Bool) (M : List Nat),
      DealSetCircularAreaRequest integerLf 256 0 [liveDevice, exampleDevice] liveDevice
          (cstr "update" :: [[cstr "1", cstr "0", cstr "31", cstr "121", cstr "100"],
            [cstr "2", cstr "0", cstr "32", cstr "122", cstr "200"]].flatten).reverse
          (.closed :: []) = some ⟨0, [frame], closed, (0 + 1) % 65536⟩ ∧
      frame = [0x7E] ++ escapeSpec (M ++ [bccList M]) ++ [0x7E] ∧
      M = headerSpec DOWN_SETCIRCULARAREA a [0x01, 0x23, 0x45, 0x67, 0x89, 0x02]
          ((0 + 1) % 65536) ++
        ([setAreaType (cstr "update") % 256,
          ([⟨1, 0, ⟨31000000, 121000000⟩, 100, List.replicate 6 0, List.replicate 6 0, 0, 0⟩,
            ⟨2, 0, ⟨32000000, 122000000⟩, 200, List.replicate 6 0, List.replicate 6 0, 0, 0⟩] :
            List CircularArea).length % 256] ++
          ([⟨1, 0, ⟨31000000, 121000000⟩, 100, List.replicate 6 0, List.replicate 6 0, 0, 0⟩,
            ⟨2, 0, ⟨32000000, 122000000⟩, 200, List.replicate 6 0, List.replicate 6 0, 0, 0⟩] :
            List CircularArea).reverse.flatMap circularAreaSpec)) ∧
    (∃ (a : Nat) (frame : List Nat) (closed : Bool) (M : List Nat),
      DealSetRectangleAreaRequest integerLf 256 0 [liveDevice, exampleDevice] liveDevice
          (cstr "update" :: [[cstr "1", cstr "0", cstr "31", cstr "121", cstr "30", cstr "122"],
            [cstr "2", cstr "0", cstr "41", cstr "111", cstr "40", cstr "112"]].flatten).reverse
          (.closed :: []) = some ⟨0, [frame], closed, (0 + 1) % 65536⟩ ∧
      frame = [0x7E] ++ escapeSpec (M ++ [bccList M]) ++ [0x7E] ∧
      M = headerSpec DOWN_SETRECTANGLEAREA a [0x01, 0x23, 0x45, 0x67, 0x89, 0x02]
          ((0 + 1) % 65536) ++
        ([setAreaType (cstr "update") % 256,
          ([⟨1, 0, ⟨31000000, 121000000⟩, ⟨30000000, 122000000⟩, List.replicate 6 0,
              List.replicate 6 0, 0, 0⟩,
            ⟨2, 0, ⟨41000000, 111000000⟩, ⟨40000000, 112000000⟩, List.replicate 6 0,
              List.replicate 6 0, 0, 0⟩] : List RectangleArea).length % 256] ++
          ([⟨1, 0, ⟨31000000, 121000000⟩, ⟨30000000, 122000000⟩, List.replicate 6 0,
              List.replicate 6 0, 0, 0⟩,
            ⟨2, 0, ⟨41000000, 111000000⟩, ⟨40000000, 112000000⟩, List.replicate 6 0,
              List.replicate 6 0, 0, 0⟩] : List RectangleArea).reverse.flatMap
            rectangleAreaSpec)) ∧
    (∃ (a : Nat) (frame : List Nat) (closed : Bool) (M : List Nat),
      DealSetPolygonalAreaRequest integerLf 256 0 [liveDevice, exampleDevice] liveDevice
          (cstr "update" ::
            [[cstr "1", cstr "0", cstr "3", cstr "31", cstr "121", cstr "32", cstr "122",
              cstr "33", cstr "123"],
             [cstr "2", cstr "0", cstr "3", cstr "41", cstr "21", cstr "42", cstr "22",
              cstr "43", cstr "23"]].flatten).reverse
          (.closed :: []) = some ⟨0, [frame], closed, (0 + 1) % 65536⟩ ∧
      frame = [0x7E] ++ escapeSpec (M ++ [bccList M]) ++ [0x7E] ∧
      M = headerSpec DOWN_SETPOLYGONALAREA a [0x01, 0x23, 0x45, 0x67, 0x89, 0x02]
          ((0 + 1) % 65536) ++
        ([setAreaType (cstr "update") % 256,
          ([(⟨1, 0, List.replicate 6 0, List.replicate 6 0, 0, 0, 3,
                some [⟨33000000, 123000000⟩, ⟨32000000, 122000000⟩, ⟨31000000, 121000000⟩]⟩,
              [⟨31000000, 121000000⟩, ⟨32000000, 122000000⟩, ⟨33000000, 123000000⟩]),
            (⟨2, 0, List.replicate 6 0, List.replicate 6 0, 0, 0, 3,
                some [⟨43000000, 23000000⟩, ⟨42000000, 22000000⟩, ⟨41000000, 21000000⟩]⟩,
              [⟨41000000, 21000000⟩, ⟨42000000, 22000000⟩, ⟨43000000, 23000000⟩])] :
            List (PolygonalArea × List Coordinate)).length % 256] ++
          ([(⟨1, 0, List.replicate 6 0, List.replicate 6 0, 0, 0, 3,
                some [⟨33000000, 123000000⟩, ⟨32000000, 122000000⟩, ⟨31000000, 121000000⟩]⟩,
              [⟨31000000, 121000000⟩, ⟨32000000, 122000000⟩, ⟨33000000, 123000000⟩]),
            (⟨2, 0, List.replicate 6 0, List.replicate 6 0, 0, 0, 3,
                some [⟨43000000, 23000000⟩, ⟨42000000, 22000000⟩, ⟨41000000, 21000000⟩]⟩,
              [⟨41000000, 21000000⟩, ⟨42000000, 22000000⟩, ⟨43000000, 23000000⟩])] :
            List (PolygonalArea × List Coordinate)).reverse.flatMap
            fun av => polygonalAreaSpec av.1 av.2)) :=
  ⟨⟨by decide, by decide, by decide⟩,
    set_area_records_reversed integerLf 256 0 [liveDevice, exampleDevice] liveDevice
      (cstr "update") [0x01, 0x23, 0x45, 0x67, 0x89, 0x02]
      [[cstr "1", cstr "0", cstr "31", cstr "121", cstr "100"],
        [cstr "2", cstr "0", cstr "32", cstr "122", cstr "200"]]
      [⟨1, 0, ⟨31000000, 121000000⟩, 100, List.replicate 6 0, List.replicate 6 0, 0, 0⟩,
        ⟨2, 0, ⟨32000000, 122000000⟩, 200, List.replicate 6 0, List.replicate 6 0, 0, 0⟩]
      [[cstr "1", cstr "0", cstr "31", cstr "121", cstr "30", cstr "122"],
        [cstr "2", cstr "0", cstr "41", cstr "111", cstr "40", cstr "112"]]
      [⟨1, 0, ⟨31000000, 121000000⟩, ⟨30000000, 122000000⟩, List.replicate 6 0,
          List.replicate 6 0, 0, 0⟩,
        ⟨2, 0, ⟨41000000, 111000000⟩, ⟨40000000, 112000000⟩, List.replicate 6 0,
          List.replicate 6 0, 0, 0⟩]
      [[cstr "1", cstr "0", cstr "3", cstr "31", cstr "121", cstr "32", cstr "122",
          cstr "33", cstr "123"],
        [cstr "2", cstr "0", cstr "3", cstr "41", cstr "21", cstr "42", cstr "22",
          cstr "43", cstr "23"]]
      [(⟨1, 0, List.replicate 6 0, List.replicate 6 0, 0, 0, 3,
            some [⟨33000000, 123000000⟩, ⟨32000000, 122000000⟩, ⟨31000000, 121000000⟩]⟩,
          [⟨31000000, 121000000⟩, ⟨32000000, 122000000⟩, ⟨33000000, 123000000⟩]),
        (⟨2, 0, List.replicate 6 0, List.replicate 6 0, 0, 0, 3,
            some [⟨43000000, 23000000⟩, ⟨42000000, 22000000⟩, ⟨41000000, 21000000⟩]⟩,
          [⟨41000000, 21000000⟩, ⟨42000000, 22000000⟩, ⟨43000000, 23000000⟩])]
      .closed .closed .closed [] (by decide)
      (.cons (circle_reads integerLf _ _ _ _ _ 1 0 31000000 121000000 100
          (by decide) (by decide) (by decide) (by decide) (by decide) (by decide) (by decide))
        (.cons (circle_reads integerLf _ _ _ _ _ 2 0 32000000 122000000 200
          (by decide) (by decide) (by decide) (by decide) (by decide) (by decide) (by decide))
          .nil))
      (by decide)
      (.cons (rectangle_reads integerLf _ _ _ _ _ _ 1 0 31000000 121000000 30000000 122000000
          (by decide) (by decide) (by decide) (by decide) (by decide) (by decide) (by decide)
          (by decide))
        (.cons (rectangle_reads integerLf _ _ _ _ _ _ 2 0 41000000 111000000 40000000
          112000000 (by decide) (by decide) (by decide) (by decide) (by decide) (by decide)
          (by decide) (by decide)) .nil))
      (by decide)
      (.cons (polygon_reads integerLf _ _ _ _ 1 0 3
          [⟨31000000, 121000000⟩, ⟨32000000, 122000000⟩, ⟨33000000, 123000000⟩]
          (by decide) (by decide) (by decide) (by decide) (by unfold VertexWords; decide)
          (by decide) (by decide))
        (.cons (polygon_reads integerLf _ _ _ _ 2 0 3
          [⟨41000000, 21000000⟩, ⟨42000000, 22000000⟩, ⟨43000000, 23000000⟩]
          (by decide) (by decide) (by decide) (by decide) (by unfold VertexWords; decide)
          (by decide) (by decide))
          .nil))
      (by decide) (Or.inl (by decide)) (Or.inl (by decide)) (Or.inl (by decide))
      (by decide) (by decide) (by decide) (by decide)⟩

set_option maxRecDepth 1000000 in
set_option maxHeartbeats 4000000 in
/-- The control-channel lines `012345678902 setcirculararea update 1 0 31 121 100 2 0 32
122 200` and `012345678902 setpolygonalarea update 1 0 2 31 121 32 122 2 0 2 41 21 42
22` for the connected terminal `liveDevice`: in both frames the record with the id 2
stands in front of the record with the id 1, and the vertices of each polygon stand as in
the line. -/
theorem set_area_example :
    runCommandEvent (exampleIo [.closed]) [liveDevice, exampleDevice] 128
        (cstr "012345678902 setcirculararea update 1 0 31 121 100 2 0 32 122 200")
      = some ⟨some (cstr "operation completed."),
          [[0x7E, 0x86, 0x00, 0, 38, 0x01, 0x23, 0x45, 0x67, 0x89, 0x02, 0, 1, 0, 2,
            0, 0, 0, 2, 0, 0, 1, 232, 72, 0, 7, 69, 146, 128, 0, 0, 0, 200,
            0, 0, 0, 1, 0, 0, 1, 217, 5, 192, 7, 54, 80, 64, 0, 0, 0, 100, 74, 0x7E]]⟩ ∧
    runCommandEvent (exampleIo [.closed]) [liveDevice, exampleDevice] 128
        (cstr "012345678902 setpolygonalarea update 1 0 2 31 121 32 122 2 0 2 41 21 42 22")
      = some ⟨some (cstr "operation completed."),
          [[0x7E, 0x86, 0x04, 0, 50, 0x01, 0x23, 0x45, 0x67, 0x89, 0x02, 0, 1, 0, 2,
            0, 0, 0, 2, 0, 0, 0, 2, 2, 113, 156, 64, 1, 64, 111, 64, 2, 128, 222, 128,
            1, 79, 177, 128,
            0, 0, 0, 1, 0, 0, 0, 2, 1, 217, 5, 192, 7, 54, 80, 64, 1, 232, 72, 0,
            7, 69, 146, 128, 148, 0x7E]]⟩ := by
  constructor <;> decide

/-- C14, as amended: for every list of at most 255 circular areas (the arrays
`start_time` and `end_time` of six bytes), in every zeroed buffer with room for the
frame, the body of the set-circular-area frame 0x8600 is `set_type` (`u8`), the count
byte, which is the number of areas, and one record for every area of the list, the
records of the list taken from its back.  A record is `id` (big-endian `u32`),
`attribute` (big-endian `u16`), centre latitude, centre longitude and radius (big-endian
`u32` each), then the six bytes of `start_time` and of `end_time` if and only if the bit
`bytime` of the attribute is set, then `max_speed` (big-endian `u16`) and
`overspeed_duration` (`u8`) if and only if the bit `speedlimit` is set. -/
theorem setcirculararea_body (flow cap len0 : Nat) (propara : ProtocolParameters)
    (l : List CircularArea) (hl : propara.circular_area_list = some l)
    (h255 : l.length ≤ 255)
    (hwt : ∀ c ∈ l, c.start_time.length = 6 ∧ c.end_time.length = 6)
    (hs : ∀ c ∈ l, ∀ b ∈ c.start_time, b < 256) (he : ∀ c ∈ l, ∀ b ∈ c.end_time, b < 256)
    (hphone : propara.phone_num.length = 6) (hpb : ∀ b ∈ propara.phone_num, b < 256)
    (hcap : 3 * (15 + (l.reverse.flatMap circularAreaSpec).length) + 1 ≤ cap)
    (h16 : cap < 65536) :
    ∃ msg1 n,
      Jt808FramePack flow ⟨List.replicate cap 0, len0⟩ DOWN_SETCIRCULARAREA propara
        = some ((flow + 1) % 65536, msg1, n) ∧ msg1.len = n ∧
      msg1.buffer.take n
        = encode_frame
            (headerSpec 0x8600 ((2 + (l.reverse.flatMap circularAreaSpec).length) % 1024)
              propara.phone_num ((flow + 1) % 65536))
            ([propara.set_area_type % 256, l.length]
              ++ l.reverse.flatMap circularAreaSpec) ∧
      l.reverse.Perm l ∧
      ∀ c ∈ l, circularAreaSpec c
        = be32 c.area_id ++ be16 c.area_attribute ++ be32 c.center_point.latitude
          ++ be32 c.center_point.longitude ++ be32 c.radius
          ++ (if areaBytime (c.area_attribute % 65536) then c.start_time ++ c.end_time else [])
          ++ (if areaSpeedlimit (c.area_attribute % 65536)
              then be16 c.max_speed ++ [c.overspeed_duration % 256] else []) := by
  obtain ⟨msg1, n, h1, h2, h3⟩ := setCircularArea_frame flow cap len0 propara l hl
    (fun c hc _ => by have := hwt c hc; omega) hs he hphone hpb hcap h16
  rw [Nat.mod_eq_of_lt (show l.length < 256 by omega)] at h3
  refine ⟨msg1, n, h1, h2, h3, List.reverse_perm l, ?_⟩
  intro c hc
  obtain ⟨h6s, h6e⟩ := hwt c hc
  unfold circularAreaSpec areaOptionsSpec
  rw [List.take_of_length_le (by omega), List.take_of_length_le (by omega)]
  simp only [List.append_assoc]

/-- Witness of C14 as amended: two areas, the second with a time window and a speed
limit, flow number 0, a zeroed buffer of 256 bytes. -/
theorem setcirculararea_body_witness :
    ((circularParameters.circular_area_list.getD []).length ≤ 255 ∧
      (∀ c ∈ circularParameters.circular_area_list.getD [],
        c.start_time.length = 6 ∧ c.end_time.length = 6) ∧
      circularParameters.phone_num.length = 6 ∧
      3 * (15 + ((circularParameters.circular_area_list.getD []).reverse.flatMap
        circularAreaSpec).length) + 1 ≤ 256) ∧
    ∃ msg1 n,
      Jt808FramePack 0 ⟨List.replicate 256 0, 0⟩ DOWN_SETCIRCULARAREA circularParameters
        = some ((0 + 1) % 65536, msg1, n) ∧ msg1.len = n ∧
      msg1.buffer.take n
        = encode_frame
            (headerSpec 0x8600
              ((2 + ((circularParameters.circular_area_list.getD []).reverse.flatMap
                circularAreaSpec).length) % 1024)
              circularParameters.phone_num ((0 + 1) % 65536))
            ([circularParameters.set_area_type % 256,
                (circularParameters.circular_area_list.getD []).length]
              ++ (circularParameters.circular_area_list.getD []).reverse.flatMap
                  circularAreaSpec) ∧
      (circularParameters.circular_area_list.getD []).reverse.Perm
        (circularParameters.circular_area_list.getD []) ∧
      ∀ c ∈ circularParameters.circular_area_list.getD [], circularAreaSpec c
        = be32 c.area_id ++ be16 c.area_attribute ++ be32 c.center_point.latitude
          ++ be32 c.center_point.longitude ++ be32 c.radius
          ++ (if areaBytime (c.area_attribute % 65536) then c.start_time ++ c.end_time else [])
          ++ (if areaSpeedlimit (c.area_attribute % 65536)
              then be16 c.max_speed ++ [c.overspeed_duration % 256] else []) :=
  ⟨⟨by decide, fun c hc => (circularParameters_times c hc).1, by decide, by decide⟩,
   setcirculararea_body 0 256 0 circularParameters
    (circularParameters.circular_area_list.getD []) rfl (by decide)
    (fun c hc => (circularParameters_times c hc).1)
    (fun c hc => (circularParameters_times c hc).2.1)
    (fun c hc => (circularParameters_times c hc).2.2)
    (by decide) (by decide) (by decide) (by decide)⟩

theorem plainCircle_spec :
    circularAreaSpec plainCircle
      = [0, 0, 0, 1, 0, 0, 1, 217, 5, 192, 7, 54, 80, 64, 0, 0, 0, 100] := by
  decide

theorem flatMap_replicate_length {α β : Type} (f : α → List β) (a : α) (n : Nat) :
    ((List.replicate n a).flatMap f).length = n * (f a).length := by
  induction n with
  | zero => simp
  | succ n ih =>
    rw [List.replicate_succ, List.flatMap_cons, List.length_append, ih]
    ring

/-- Counterexample to C14 as stated: for a list of 256 circular areas, packed into a
zeroed buffer of 16384 bytes, the count byte of the body is 0, and the 256 records of
18 bytes follow it (`msg_len` holds 4610 modulo 1024). -/
theorem setcirculararea_count_wraps :
    ∃ msg1 n,
      Jt808FramePack 0 ⟨List.replicate 16384 0, 0⟩ DOWN_SETCIRCULARAREA
          (circlesParameters 256) = some (1, msg1, n) ∧
      msg1.buffer.take n
        = encode_frame (headerSpec 0x8600 514 [0x01, 0x23, 0x45, 0x67, 0x89, 0x01] 1)
            ([0, 0] ++ (List.replicate 256 plainCircle).flatMap circularAreaSpec) ∧
      ((List.replicate 256 plainCircle).flatMap circularAreaSpec).length = 256 * 18 := by
  have hlen : ((List.replicate 256 plainCircle).flatMap circularAreaSpec).length = 4608 := by
    rw [flatMap_replicate_length, plainCircle_spec]
    rfl
  obtain ⟨msg1, n, h1, _, h3⟩ := setCircularArea_frame 0 16384 0 (circlesParameters 256)
    (List.replicate 256 plainCircle) rfl
    (fun c hc => by rw [List.eq_of_mem_replicate hc]; unfold areaTimesPresent; decide)
    (fun c hc => by rw [List.eq_of_mem_replicate hc]; decide)
    (fun c hc => by rw [List.eq_of_mem_replicate hc]; decide)
    (by decide) (by decide)
    (by rw [List.reverse_replicate, hlen]; decide) (by decide)
  rw [List.reverse_replicate, hlen, List.length_replicate] at h3
  exact ⟨msg1, n, h1, h3, hlen⟩

/-- Lines 628-963 of `Jt808FramePack` on a zeroed buffer, for every downlink command but
the passthrough: behind the delimiter slot lie the bytes of the message (header,
fragmentation words, body) and their checksum, then zero bytes; `msg.len` is one more
than their number. -/
theorem packUnescaped_bytes (flow cap len0 command : Nat) (propara : ProtocolParameters)
    (hcmd : command ∈ downlinkCommands) (hne : command ≠ DOWN_PASSTHROUGH)
    (hwf : packable command propara) (hcap : packedLength command propara + 2 ≤ cap) :
    ∃ a k, a < 65536 ∧
      packUnescaped flow ⟨List.replicate cap 0, len0⟩ command propara
        = some ((flow + 1) % 65536,
            ⟨0 :: ((be16 command ++ be16 a ++ propara.phone_num
                ++ be16 ((flow + 1) % 65536)
                ++ ((packedFragment command propara ++ packedBody command propara)
                  ++ [bccList (messageBytes command propara a ((flow + 1) % 65536))]))
              ++ List.replicate (cap - 1 - packedLength command propara) 0),
             packedLength command propara + 1, k⟩) := by
  have hc := downlinkCommands_lt command hcmd
  have hphone : propara.phone_num.length = 6 := hwf.1
  have hbuf : List.replicate cap 0 = 0 :: List.replicate (cap - 1) 0 :=
    replicate_zero_cons cap (by unfold packedLength at hcap; omega)
  have hhead := packHead_rep flow 0 (List.replicate (cap - 1) 0) len0 command
    propara (by unfold packedLength at hcap; simp; omega) hphone
  rw [List.drop_replicate, show cap - 1 - 12 = cap - 13 by omega] at hhead
  unfold packUnescaped
  simp only [Option.bind_eq_bind, Nat.mod_eq_of_lt hc]
  rw [hbuf, hhead]
  simp only [Option.some_bind]
  obtain ⟨a1, ha1, hbody⟩ := packBody_zero command propara hcmd hne hwf ([0] ++ be16 command)
    (by simp [be16]) 0 (propara.phone_num ++ be16 ((flow + 1) % 65536)) (cap - 13)
    (by norm_num) (by simp [be16_length, hphone])
    (by unfold packedLength at hcap; simp only [List.length_append]; omega)
  have hpl : packedLength command propara
      = 13 + (packedFragment command propara ++ packedBody command propara).length := by
    unfold packedLength; simp only [List.length_append]; omega
  have hmb : messageBytes command propara a1 ((flow + 1) % 65536)
      = be16 command ++ be16 a1 ++ (propara.phone_num ++ be16 ((flow + 1) % 65536)
          ++ (packedFragment command propara ++ packedBody command propara)) := by
    unfold messageBytes headerSpec
    simp only [List.append_assoc]
  refine ⟨a1, 13 + (packedFragment command propara ++ packedBody command propara).length,
    ha1, ?_⟩
  rw [hmb]
  generalize packedFragment command propara ++ packedBody command propara = B
    at hbody hpl
  rw [hpl] at hcap ⊢
  rw [hbody, Option.some_bind,
    packCheck_zero command a1 _ _ _ ha1 (by simp [be16_length, hphone]; omega) (by omega)]
  simp only [Option.some_bind, Option.pure_def, Option.some.injEq, Prod.mk.injEq, true_and,
    PackState.mk.injEq, and_true, List.cons.injEq]
  rw [show cap - 13 - B.length - 1 = cap - 1 - (13 + B.length) by omega]
  simp

/-- The round trip for every downlink command but the passthrough and every envelope
whose members the `case` of the command can read: packing with `Jt808FramePack` into a
zeroed buffer with room for twice the unescaped bytes and then parsing the returned
message with `Jt808FrameParse` (any registry, any envelope to parse into) returns the
packed command as message id, stores the flow number of the frame in
`respond_flow_num`, and leaves in the buffer from index 1 on the header (message id,
attribute word, phone number, flow number), the fragmentation words and the body of
section 4.2, and the checksum of these bytes. -/
theorem pack_parse_bytes (devs : List DeviceNode) (flow cap len0 command : Nat)
    (propara p2 : ProtocolParameters) (hcmd : command ∈ downlinkCommands)
    (hne : command ≠ DOWN_PASSTHROUGH) (hwf : packable command propara)
    (hcap : 2 * packedLength command propara + 3 ≤ cap) (h16 : cap < 65536) :
    ∃ a msg1 n r, a < 65536 ∧
      Jt808FramePack flow ⟨List.replicate cap 0, len0⟩ command propara
        = some ((flow + 1) % 65536, msg1, n) ∧
      Jt808FrameParse devs msg1 p2 = some r ∧
      r.message_id = command ∧
      r.propara.respond_flow_num = (flow + 1) % 65536 ∧
      (r.msg.buffer.drop 1).take (packedLength command propara)
        = messageBytes command propara a ((flow + 1) % 65536)
          ++ [bccList (messageBytes command propara a ((flow + 1) % 65536))] := by
  have hc := downlinkCommands_lt command hcmd
  have hid := downlinkCommands_not_parsed command hcmd
  obtain ⟨a, k, ha, hun⟩ := packUnescaped_bytes flow cap len0 command propara hcmd hne hwf
    (by omega)
  obtain ⟨Y, hY⟩ : ∃ Y, Y = (packedFragment command propara ++ packedBody command propara)
      ++ [bccList (messageBytes command propara a ((flow + 1) % 65536))] := ⟨_, rfl⟩
  rw [← hY] at hun
  have hXl : (be16 command ++ be16 a ++ propara.phone_num ++ be16 ((flow + 1) % 65536)
      ++ Y).length = packedLength command propara := by
    rw [hY]
    unfold packedLength
    simp [be16_length, hwf.1]
    omega
  obtain ⟨msg1, n, r, hesc, hparse, h1, h2, h3⟩ := parse_of_packed devs p2 command a
    ((flow + 1) % 65536) propara.phone_num Y (cap - 1 - packedLength command propara) k hwf.1
    (by rw [Nat.mod_eq_of_lt hc]; exact hid) (by rw [hXl]; omega) (by rw [hXl]; omega)
  rw [hXl] at hesc h3
  rw [Nat.mod_eq_of_lt hc] at h1
  rw [Nat.mod_mod] at h2
  refine ⟨a, msg1, n, r, ha, ?_, hparse, h1, h2, ?_⟩
  · simp only [Jt808FramePack, Option.bind_eq_bind, hun, Option.some_bind, hesc,
      Option.pure_def]
  · rw [h3, hY]
    unfold messageBytes headerSpec
    simp only [List.append_assoc]

/-- An instance of the round trip: a unified response to the flow number `0x7E7D`, whose
bytes need escaping, packed into a zeroed buffer of 64 bytes and parsed again. -/
theorem pack_parse_bytes_example :
    ∃ a msg1 n r, a < 65536 ∧
      Jt808FramePack 6 ⟨List.replicate 64 0, 0⟩ DOWN_UNIRESPONSE escapedParameters
        = some ((6 + 1) % 65536, msg1, n) ∧
      Jt808FrameParse [] msg1 exampleParameters = some r ∧
      r.message_id = DOWN_UNIRESPONSE ∧
      r.propara.respond_flow_num = (6 + 1) % 65536 ∧
      (r.msg.buffer.drop 1).take (packedLength DOWN_UNIRESPONSE escapedParameters)
        = messageBytes DOWN_UNIRESPONSE escapedParameters a ((6 + 1) % 65536)
          ++ [bccList (messageBytes DOWN_UNIRESPONSE escapedParameters a
            ((6 + 1) % 65536))] :=
  pack_parse_bytes [] 6 64 0 DOWN_UNIRESPONSE escapedParameters exampleParameters
    (by decide) (by decide) (packable_uniresponse _ rfl) (by decide) (by decide)

set_option maxRecDepth 1000000 in
set_option maxHeartbeats 4000000 in
/-- C4, where the code departs from the claim: the `case DOWN_PASSTHROUGH` of lines
947-955 does not move `msg_body` behind the payload, so line 961 stores the checksum
over the first payload byte.  The passthrough message with the type `0x41` and the one
payload byte `0x55`, packed with the flow number 0 into a zeroed buffer of 32 bytes and
parsed again, returns the message id `0x8900` and the flow number 1, and the buffer
holds from index 1 on the header with `msg_len` 1, the type byte, `0x15` and `0x00`,
the bytes built before escaping.  They are not header, body and checksum: the body is
`41 55`, and for no attribute word are they the header, this body and a checksum. -/
theorem passthrough_roundtrip_not_body :
    ((Jt808FramePack 0 ⟨List.replicate 32 0, 0⟩ DOWN_PASSTHROUGH passThroughParameters).bind
        fun x => (Jt808FrameParse [] x.2.1 exampleParameters).map
          fun r => (r.message_id, r.propara.respond_flow_num, (r.msg.buffer.drop 1).take 15))
      = some (DOWN_PASSTHROUGH, 1,
          [0x89, 0x00, 0x00, 0x01, 0x01, 0x23, 0x45, 0x67, 0x89, 0x01, 0x00, 0x01,
            0x41, 0x15, 0x00]) ∧
    packedBody DOWN_PASSTHROUGH passThroughParameters = [0x41, 0x55] ∧
    ∀ a c : Nat,
      [0x89, 0x00, 0x00, 0x01, 0x01, 0x23, 0x45, 0x67, 0x89, 0x01, 0x00, 0x01,
          0x41, 0x15, 0x00]
        ≠ messageBytes DOWN_PASSTHROUGH passThroughParameters a 1 ++ [c] := by
  refine ⟨by decide, by decide, ?_⟩
  intro a c h
  have h13 := congrArg (fun l => l.drop 12) h
  have hm : (messageBytes DOWN_PASSTHROUGH passThroughParameters a 1 ++ [c]).drop 12
      = [0x41, 0x55, c] := by
    have hb : packedFragment DOWN_PASSTHROUGH passThroughParameters
        ++ packedBody DOWN_PASSTHROUGH passThroughParameters = [0x41, 0x55] := by decide
    have hh : (headerSpec DOWN_PASSTHROUGH a passThroughParameters.phone_num 1).length
        = 12 := by
      unfold headerSpec
      simp only [List.length_append, be16_length]
      rfl
    unfold messageBytes
    rw [hb, List.append_assoc, List.drop_left' hh]
    rfl
  simp only [hm] at h13
  simp at h13

end Jt808
